import Mathlib

/-! # DaftBoy32: the CPU-8 core (`DMGCPU.cpp`)

A shallow embedding of `DMGCPU`: the register file, the flag helpers of
`executeInstruction` / `executeExInstruction`, the interrupt dispatcher and the
divider/timer.  Machine integers are naturals reduced modulo `2^8` / `2^16`
where the C++ type truncates; C++ `int` temporaries that can go negative are
integers.
-/

set_option linter.unusedVariables false
set_option linter.unusedTactic false
set_option linter.unreachableTactic false

namespace DMG

/-! ## Constants of `DMGCPU.h` / `DMGRegs.h` -/

/-- Modelled from the spec: carry flag, bit 4 of F (the enum lives in `DMGCPU.h`,
which is not among the sources; "F holds four condition flags at bits 7..4
{Z, N, H, C}"). -/
abbrev Flag_C : Nat := 0x10

/-- Modelled from the spec: half-carry flag, bit 5 of F. -/
abbrev Flag_H : Nat := 0x20

/-- Modelled from the spec: subtract flag, bit 6 of F. -/
abbrev Flag_N : Nat := 0x40

/-- Modelled from the spec: zero flag, bit 7 of F. -/
abbrev Flag_Z : Nat := 0x80

/-- Modelled from the spec: low address byte of the divider register DIV
(`DMGRegs.h` is not among the sources). -/
abbrev IO_DIV : Nat := 0x04

/-- Modelled from the spec: low address byte of the timer counter TIMA. -/
abbrev IO_TIMA : Nat := 0x05

/-- Modelled from the spec: low address byte of the timer modulo TMA. -/
abbrev IO_TMA : Nat := 0x06

/-- Modelled from the spec: low address byte of the timer control TAC. -/
abbrev IO_TAC : Nat := 0x07

/-- Modelled from the spec: low address byte of the interrupt-pending register IF. -/
abbrev IO_IF : Nat := 0x0F

/-- Modelled from the spec: low address byte of the speed-switch register KEY1. -/
abbrev IO_KEY1 : Nat := 0x4D

/-- Modelled from the spec: low address bytes of the HDMA source/destination/control
registers. -/
abbrev IO_HDMA1 : Nat := 0x51

/-- Modelled from the spec: HDMA source, low byte. -/
abbrev IO_HDMA2 : Nat := 0x52

/-- Modelled from the spec: HDMA destination, high byte. -/
abbrev IO_HDMA3 : Nat := 0x53

/-- Modelled from the spec: HDMA destination, low byte. -/
abbrev IO_HDMA4 : Nat := 0x54

/-- Modelled from the spec: HDMA length/mode/start. -/
abbrev IO_HDMA5 : Nat := 0x55

/-- Modelled from the spec: low address byte of the interrupt-enable register IE
("IE register (0xFFFF)"). -/
abbrev IO_IE : Nat := 0xFF

/-- Modelled from the spec: the enable bit of TAC ("TAC=0x05 (enable, bit 3 divider)"). -/
abbrev TAC_Start : Nat := 0x04

/-- Modelled from the spec: the clock-select field of TAC (its low two bits). -/
abbrev TAC_Clock : Nat := 0x03

/-- Modelled from the spec: the Timer interrupt bit of IE/IF (vector 0x50, the third
entry of the vector table). -/
abbrev Int_Timer : Nat := 0x04

/-! ## C++ integer conversions -/

/-- Conversion to `uint8_t`. -/
def u8 (x : Int) : Nat := (x % 256).toNat

/-- Conversion to `uint16_t`. -/
def u16 (x : Int) : Nat := (x % 65536).toNat

/-- Conversion of a byte to `int8_t`. -/
def int8 (b : Nat) : Int := if b % 256 < 128 then ((b % 256 : Nat) : Int) else ((b % 256 : Nat) : Int) - 256

/-- The C++ `~` on a non-negative `int`, as a 32-bit pattern. -/
def bnot (x : Nat) : Nat := x ^^^ 0xFFFFFFFF

/-- A C++ `cond ? flag : 0`. -/
def flagIf (c : Bool) (flag : Nat) : Nat := if c then flag else 0

/-! ## Registers -/

/-- The 8-bit registers (`enum class Reg`). -/
inductive Reg
  | A | F | B | C | D | E | H | L
  deriving DecidableEq, Repr

/-- The 16-bit register pairs (`enum class WReg`). -/
inductive WReg
  | AF | BC | DE | HL
  deriving DecidableEq, Repr

/-- High half of a register pair. -/
def WReg.hi : WReg → Reg
  | .AF => .A
  | .BC => .B
  | .DE => .D
  | .HL => .H

/-- Low half of a register pair. -/
def WReg.lo : WReg → Reg
  | .AF => .F
  | .BC => .C
  | .DE => .E
  | .HL => .L

/-- Modelled from the spec: the memory bus `DMGMemory` (`DMGMemory.h/.cpp` are not
among the sources).  `bytes` holds the byte behind each 16-bit address of the "CPU-8
address map": ROM (0x0000–0x7FFF), VRAM (0x8000–0x9FFF), external RAM (0xA000–0xBFFF),
work RAM (0xC000–0xDFFF), OAM (0xFE00–0xFE9F) and, at `0xFF00..0xFFFF`, the IO page, HRAM
and IE, which are what `readIOReg` / `writeIOReg` / `getIOReg` index by the low address
byte.  The echo region (0xE000–0xFDFF) has no bytes of its own: it "mirrors C000–DDFF".
A banked window shows the bytes of its current bank; the selection of a bank belongs to
the cartridge mapper and the color-mode bank registers, which are outside the core. -/
structure DMGMemory where
  bytes : Nat → Nat

/-- Modelled from the spec: `DMGMemory::readIOReg`, the raw IO-page byte. -/
def DMGMemory.readIOReg (m : DMGMemory) (r : Nat) : Nat := m.bytes (0xFF00 + r) % 256

/-- Modelled from the spec: `DMGMemory::writeIOReg`, a raw IO-page store (no hooks). -/
def DMGMemory.writeIOReg (m : DMGMemory) (r : Nat) (v : Nat) : DMGMemory :=
  { bytes := fun a => if a = 0xFF00 + r then v % 256 else m.bytes a }

/-- Modelled from the spec: a raw store of one byte behind a 16-bit address (no address
decoding: what the IO page uses, and how a loader places a ROM image). -/
def DMGMemory.store (m : DMGMemory) (addr : Nat) (v : Nat) : DMGMemory :=
  { bytes := fun a => if a = addr then v % 256 else m.bytes a }

/-- Modelled from the spec: the byte an address below the IO page selects: "echo
(0xE000–0xFDFF mirrors C000–DDFF)", every other address its own byte. -/
def DMGMemory.mirror (addr : Nat) : Nat :=
  if 0xE000 ≤ addr ∧ addr < 0xFE00 then addr - 0x2000 else addr

/-- Modelled from the spec: a bus read below the IO page, through the address map. -/
def DMGMemory.read (m : DMGMemory) (addr : Nat) : Nat := m.bytes (DMGMemory.mirror addr) % 256

/-- Modelled from the spec: a bus write below the IO page, through the address map.  A
write to the ROM windows (0x0000–0x7FFF) stores nothing: it is a command to the cartridge
mapper, an external collaborator; any other write is stored behind the address it
selects. -/
def DMGMemory.write (m : DMGMemory) (addr : Nat) (v : Nat) : DMGMemory :=
  if addr < 0x8000 then m else m.store (DMGMemory.mirror addr) v

/-- The state of `class DMGCPU` (members declared in `DMGCPU.h`). -/
structure DMGCPU where
  regs : Reg → Nat
  pc : Nat
  sp : Nat
  stopped : Bool
  halted : Bool
  masterInterruptEnable : Bool
  serviceableInterrupts : Nat
  divCounter : Nat
  timerEnabled : Bool
  timerOldVal : Bool
  timerBit : Nat
  isGBC : Bool
  doubleSpeed : Bool
  speedSwitch : Bool
  mem : DMGMemory

namespace DMGCPU

/-- Read access `reg(Reg r)`. -/
def reg (s : DMGCPU) (r : Reg) : Nat := s.regs r % 256

/-- Write access `reg(Reg r) = v` (a `uint8_t` store). -/
def setReg (s : DMGCPU) (r : Reg) (v : Nat) : DMGCPU :=
  { s with regs := fun x => if x = r then v % 256 else s.regs x }

/-- Read access `reg(WReg r)`: the pair as a 16-bit value. -/
def reg16 (s : DMGCPU) (r : WReg) : Nat := (s.reg r.hi <<< 8) ||| s.reg r.lo

/-- Write access `reg(WReg r) = v` (a `uint16_t` store). -/
def setReg16 (s : DMGCPU) (r : WReg) (v : Nat) : DMGCPU :=
  (s.setReg r.hi ((v % 65536) >>> 8)).setReg r.lo (v % 65536)

/-- Assignment to `pc` (a `uint16_t`). -/
def setPC (s : DMGCPU) (v : Nat) : DMGCPU := { s with pc := v % 65536 }

/-- Assignment to `sp` (a `uint16_t`). -/
def setSP (s : DMGCPU) (v : Nat) : DMGCPU := { s with sp := v % 65536 }

/-- `DMGCPU::readReg`: the CPU's IO read hook. -/
def readReg (s : DMGCPU) (addr : Nat) (val : Nat) : Nat :=
  if addr &&& 0xFF = IO_DIV then
    (s.divCounter >>> 8) % 256
  else if addr &&& 0xFF = IO_KEY1 then
    (if s.doubleSpeed then 0x80 else 0) ||| (if s.speedSwitch then 1 else 0)
  else
    val

/-- Modelled from the spec: `DMGMemory::read`; reads of the IO page pass through the
CPU's read hook, reads below it go through the address map. -/
def busRead (s : DMGCPU) (addr : Nat) : Nat :=
  if 0xFF00 ≤ addr then s.readReg addr (s.mem.bytes addr % 256) else s.mem.read addr

/-- `DMGCPU::readMem`. -/
def readMem (s : DMGCPU) (addr : Nat) : Nat := s.busRead (addr % 65536)

/-- `DMGCPU::readMem16`. -/
def readMem16 (s : DMGCPU) (addr : Nat) : Nat :=
  s.readMem addr ||| (s.readMem (addr + 1) <<< 8)

/-- The assignments of `DMGCPU::reset` up to and including `mem.reset()`; `resetMem` is
the effect of `mem.reset()` on the bus. -/
def resetRegs (s : DMGCPU) (resetMem : DMGMemory → DMGMemory) : DMGCPU :=
  let s : DMGCPU :=
    { s with
      stopped := false, halted := false,
      masterInterruptEnable := false,
      serviceableInterrupts := 0,
      divCounter := 0xABCC,
      timerEnabled := false, timerOldVal := false,
      timerBit := 1 <<< 9,
      isGBC := false,
      doubleSpeed := false, speedSwitch := false,
      mem := resetMem s.mem }
  -- values after boot rom
  (((((s.setPC 0x100).setReg16 .AF 0x01B0).setReg16 .BC 0x0013).setReg16 .DE 0x00D8).setReg16
    .HL 0x01D4).setSP 0xFFFE

/-- `DMGCPU::reset`. -/
def reset (s : DMGCPU) (resetMem : DMGMemory → DMGMemory) : DMGCPU :=
  let s := s.resetRegs resetMem
  -- enable color mode
  if s.readMem 0x143 &&& 0x80 ≠ 0 then
    ({ s with isGBC := true } : DMGCPU).setReg .A 0x11
  else s

/-- `DMGCPU::flagInterrupt`. -/
def flagInterrupt (s : DMGCPU) (interrupt : Nat) : DMGCPU :=
  let m := s.mem.writeIOReg IO_IF (s.mem.readIOReg IO_IF ||| interrupt)
  { s with mem := m, serviceableInterrupts := m.readIOReg IO_IF &&& m.readIOReg IO_IE }

/-- The GDMA copy loop of `writeReg`: `for(; count; count--, src++, dst++)`. -/
def gdmaLoop (wm : DMGCPU → Nat → Nat → DMGCPU) : Nat → Nat → Nat → DMGCPU → DMGCPU
  | 0, _, _, s => s
  | count + 1, src, dst, s =>
    gdmaLoop wm count ((src + 1) % 65536) ((dst + 1) % 65536) (wm s dst (s.readMem src))

/-- `DMGCPU::writeReg`, the CPU's IO write hook; `wm` is the `writeMem` it calls for
its DMA copies.  The result flag is the C++ return value (write fully handled). -/
def writeRegWith (wm : DMGCPU → Nat → Nat → DMGCPU) (s : DMGCPU) (addr : Nat) (data : Nat) :
    DMGCPU × Bool :=
  if addr &&& 0xFF = 0x46 then
    ((List.range 0xA0).foldl (fun t i => wm t (0xFE00 + i) (t.readMem ((data <<< 8) + i))) s, true)
  else if addr &&& 0xFF = IO_HDMA5 then
    let src := ((s.mem.readIOReg IO_HDMA1 <<< 8) ||| (s.mem.readIOReg IO_HDMA2 &&& 0xF0)) % 65536
    let dst := (0x8000 ||| ((s.mem.readIOReg IO_HDMA3 &&& 0x1F) <<< 8)
      ||| (s.mem.readIOReg IO_HDMA4 &&& 0xF0)) % 65536
    let count := (((data &&& 0x7F) + 1) <<< 4) % 65536
    if data &&& 0x80 ≠ 0 then
      (s, true)
    else
      let t := gdmaLoop wm count src dst s
      ({ t with mem := t.mem.writeIOReg IO_HDMA5 0xFF }, true)
  else if addr &&& 0xFF = IO_DIV then
    ({ s with divCounter := 0 }, true)
  else if addr &&& 0xFF = IO_TAC then
    ({ s with timerEnabled := decide (data &&& TAC_Start ≠ 0),
              timerBit := [1 <<< 9, 1 <<< 3, 1 <<< 5, 1 <<< 7].getD (data &&& TAC_Clock) 0 }, false)
  else if addr &&& 0xFF = IO_KEY1 then
    ({ s with speedSwitch := decide (data &&& 1 ≠ 0) }, false)
  else if addr &&& 0xFF = IO_IF then
    ({ s with serviceableInterrupts := data &&& s.mem.readIOReg IO_IE }, false)
  else if addr &&& 0xFF = IO_IE then
    ({ s with serviceableInterrupts := data &&& s.mem.readIOReg IO_IF }, false)
  else
    (s, false)

/-- Modelled from the spec: `DMGMemory::write`.  A write to the IO page is first
offered to the CPU's write hook and stored unless the hook handled it; any other
write goes through the address map.  `fuel` bounds the nesting of hook-issued writes. -/
def busWrite : Nat → DMGCPU → Nat → Nat → DMGCPU
  | 0, s, _, _ => s
  | fuel + 1, s, addr, data =>
    if 0xFF00 ≤ addr then
      let r := writeRegWith (fun t a d => busWrite fuel t (a % 65536) (d % 256)) s addr data
      if r.2 then r.1 else { r.1 with mem := r.1.mem.store addr data }
    else
      { s with mem := s.mem.write addr data }

/-- `DMGCPU::writeMem`.  The copies issued by the DMA hooks target addresses below the
IO page, so one level of nesting is all that can occur. -/
def writeMem (s : DMGCPU) (addr : Nat) (data : Nat) : DMGCPU :=
  busWrite 2 s (addr % 65536) (data % 256)

/-- `DMGCPU::writeReg`. -/
def writeReg (s : DMGCPU) (addr : Nat) (data : Nat) : DMGCPU × Bool :=
  writeRegWith writeMem s addr data

/-- `DMGCPU::writeMem16`. -/
def writeMem16 (s : DMGCPU) (addr : Nat) (data : Nat) : DMGCPU :=
  (s.writeMem addr data).writeMem (addr + 1) (data >>> 8)

/-! ## Helpers of `executeInstruction` -/

/-- The operand fetch `readMem(pc++)`. -/
def fetch8 (s : DMGCPU) : Nat × DMGCPU := (s.readMem s.pc, s.setPC (s.pc + 1))

/-- The operand fetch `readMem16(pc); pc += 2`. -/
def fetch16 (s : DMGCPU) : Nat × DMGCPU := (s.readMem16 s.pc, s.setPC (s.pc + 2))

/-- The flag test `!!(reg(Reg::F) & flag)`. -/
def flag (s : DMGCPU) (flag : Nat) : Bool := decide (s.reg .F &&& flag ≠ 0)

/-- The test `flag == 0 || !!(reg(Reg::F) & flag) == set` of the control-flow helpers. -/
def condition (s : DMGCPU) (flag : Nat) (set : Bool) : Bool :=
  flag == 0 || (s.flag flag == set)

/-- Lambda `load8`. -/
def load8 (s : DMGCPU) (r : Reg) : DMGCPU × Nat :=
  let (v, s) := s.fetch8
  (s.setReg r v, 8)

/-- Lambda `copy8`. -/
def copy8 (s : DMGCPU) (dst src : Reg) : DMGCPU × Nat :=
  (s.setReg dst (s.reg src), 4)

/-- Lambda `load16`. -/
def load16 (s : DMGCPU) (r : WReg) : DMGCPU × Nat :=
  let (v, s) := s.fetch16
  (s.setReg16 r v, 12)

/-- Lambda `push`. -/
def push (s : DMGCPU) (r : WReg) : DMGCPU × Nat :=
  let s := s.setSP (s.sp + 65536 - 2)
  (s.writeMem16 s.sp (s.reg16 r), 16)

/-- Lambda `pop`. -/
def pop (s : DMGCPU) (r : WReg) : DMGCPU × Nat :=
  let s := s.setReg16 r (s.readMem16 s.sp)
  let s := s.setSP (s.sp + 2)
  -- low bits in F can never be set
  let s := if r = WReg.AF then s.setReg .F (s.reg .F &&& 0xF0) else s
  (s, 12)

/-- Lambda `doAdd`. -/
def doAdd (s : DMGCPU) (a b : Nat) (c : Nat) : DMGCPU :=
  let v := (a + b + c) % 65536
  let s := s.setReg .A v
  let hV := (a &&& 0xF) + (b &&& 0xF) + c
  s.setReg .F (flagIf (v > 0xFF) Flag_C ||| flagIf (hV > 0xF) Flag_H
    ||| flagIf (v &&& 0xFF == 0) Flag_Z)

/-- Lambda `add`. -/
def add (s : DMGCPU) (r : Reg) : DMGCPU × Nat :=
  let a := s.reg .A
  let b := s.reg r
  (s.doAdd a b 0, 4)

/-- Lambda `addWithCarry`. -/
def addWithCarry (s : DMGCPU) (r : Reg) : DMGCPU × Nat :=
  let a := s.reg .A
  let b := s.reg r
  (s.doAdd a b (if s.reg .F &&& Flag_C ≠ 0 then 1 else 0), 4)

/-- Lambda `doSub`. -/
def doSub (s : DMGCPU) (a b : Nat) (c : Nat) : DMGCPU :=
  let v : Int := (a : Int) - ((b : Int) + (c : Int))
  let s := s.setReg .A (u8 v)
  let hV : Int := ((a &&& 0xF : Nat) : Int) - ((b &&& 0xF : Nat) : Int) - (c : Int)
  s.setReg .F (flagIf (v < 0) Flag_C ||| flagIf (hV < 0) Flag_H ||| Flag_N
    ||| flagIf (u8 v == 0) Flag_Z)

/-- Lambda `sub`. -/
def sub (s : DMGCPU) (r : Reg) : DMGCPU × Nat :=
  let a := s.reg .A
  let b := s.reg r
  (s.doSub a b 0, 4)

/-- Lambda `subWithCarry`. -/
def subWithCarry (s : DMGCPU) (r : Reg) : DMGCPU × Nat :=
  let a := s.reg .A
  let b := s.reg r
  (s.doSub a b (if s.reg .F &&& Flag_C ≠ 0 then 1 else 0), 4)

/-- Lambda `bitAnd`. -/
def bitAnd (s : DMGCPU) (r : Reg) : DMGCPU × Nat :=
  let res := s.reg .A &&& s.reg r
  let s := s.setReg .A res
  (s.setReg .F (Flag_H ||| flagIf (res == 0) Flag_Z), 4)

/-- Lambda `bitOr`. -/
def bitOr (s : DMGCPU) (r : Reg) : DMGCPU × Nat :=
  let res := s.reg .A ||| s.reg r
  let s := s.setReg .A res
  (s.setReg .F (flagIf (res == 0) Flag_Z), 4)

/-- Lambda `bitXor`. -/
def bitXor (s : DMGCPU) (r : Reg) : DMGCPU × Nat :=
  let res := s.reg .A ^^^ s.reg r
  let s := s.setReg .A res
  (s.setReg .F (flagIf (res == 0) Flag_Z), 4)

/-- The flag computation shared by lambda `cmp` and the inline `CP (HL)` / `CP n`. -/
def cmpFlags (a b : Nat) : Nat :=
  flagIf (a < b) Flag_C ||| flagIf ((a &&& 0xF) < (b &&& 0xF)) Flag_H ||| Flag_N
    ||| flagIf (a == b) Flag_Z

/-- Lambda `cmp`. -/
def cmp (s : DMGCPU) (r : Reg) : DMGCPU × Nat :=
  let a := s.reg .A
  let b := s.reg r
  (s.setReg .F (cmpFlags a b), 4)

/-- Lambda `inc`. -/
def inc (s : DMGCPU) (r : Reg) : DMGCPU × Nat :=
  let v := s.reg r
  let s := s.setReg r (v + 1)
  (s.setReg .F ((s.reg .F &&& Flag_C) ||| flagIf (v &&& 0xF == 0xF) Flag_H
    ||| flagIf (v == 0xFF) Flag_Z), 4)

/-- Lambda `dec`. -/
def dec (s : DMGCPU) (r : Reg) : DMGCPU × Nat :=
  let v := s.reg r
  let s := s.setReg r (v + 256 - 1)
  (s.setReg .F ((s.reg .F &&& Flag_C) ||| flagIf (v &&& 0xF == 0) Flag_H ||| Flag_N
    ||| flagIf (v == 1) Flag_Z), 4)

/-- Lambda `doAdd16`. -/
def doAdd16 (s : DMGCPU) (a b : Nat) : DMGCPU :=
  let v := a + b
  let s := s.setReg16 .HL v
  s.setReg .F (flagIf (v > 0xFFFF) Flag_C
    ||| flagIf ((a &&& 0xFFF) + (b &&& 0xFFF) > 0xFFF) Flag_H
    ||| (s.reg .F &&& Flag_Z))

/-- Lambda `add16`. -/
def add16 (s : DMGCPU) (r : WReg) : DMGCPU × Nat :=
  let a := s.reg16 .HL
  let b := s.reg16 r
  (s.doAdd16 a b, 8)

/-- Lambda `inc16`. -/
def inc16 (s : DMGCPU) (r : WReg) : DMGCPU × Nat :=
  (s.setReg16 r (s.reg16 r + 1), 8)

/-- Lambda `dec16`. -/
def dec16 (s : DMGCPU) (r : WReg) : DMGCPU × Nat :=
  (s.setReg16 r (s.reg16 r + 65536 - 1), 8)

/-- Lambda `jump`. -/
def jump (s : DMGCPU) (flag : Nat) (set : Bool) : DMGCPU × Nat :=
  let (addr, s) := s.fetch16
  if s.condition flag set then (s.setPC addr, 16) else (s, 12)

/-- Lambda `jumpRel`. -/
def jumpRel (s : DMGCPU) (flag : Nat) (set : Bool) : DMGCPU × Nat :=
  let (b, s) := s.fetch8
  let off := int8 b
  if s.condition flag set then (s.setPC (u16 ((s.pc : Int) + off)), 12) else (s, 8)

/-- Lambda `call`. -/
def call (s : DMGCPU) (flag : Nat) (set : Bool) : DMGCPU × Nat :=
  let (addr, s) := s.fetch16
  if s.condition flag set then
    let s := s.setSP (s.sp + 65536 - 2)
    let s := s.writeMem16 s.sp s.pc
    (s.setPC addr, 24)
  else
    (s, 12)

/-- Lambda `reset` of `executeInstruction` (the `RST` vectors). -/
def Op.reset (s : DMGCPU) (addr : Nat) : DMGCPU × Nat :=
  let s := s.setSP (s.sp + 65536 - 2)
  let s := s.writeMem16 s.sp s.pc
  (s.setPC addr, 16)

/-- Lambda `ret`. -/
def ret (s : DMGCPU) (flag : Nat) (set : Bool) : DMGCPU × Nat :=
  let addr := s.readMem16 s.sp
  if s.condition flag set then
    ((s.setSP (s.sp + 2)).setPC addr, if flag ≠ 0 then 20 else 16)
  else
    (s, 8)

/-- The body of `case 0x27` (DAA) on the pair (A, F): the new A and the new F. -/
def daa (a flags : Nat) : Nat × Nat :=
  let val := a
  let newFlags := flags &&& bnot (Flag_H ||| Flag_Z)
  let r : Nat × Nat :=
    if flags &&& Flag_N ≠ 0 then
      -- sub
      let val := if flags &&& Flag_C ≠ 0 then (val + 256 - 0x60) % 256 else val
      let val := if flags &&& Flag_H ≠ 0 then (val + 256 - 0x06) % 256 else val
      (val, newFlags)
    else
      -- add
      let p : Nat × Nat :=
        if flags &&& Flag_C ≠ 0 ∨ val > 0x99 then ((val + 0x60) % 256, newFlags ||| Flag_C)
        else (val, newFlags)
      let val := p.1
      let val := if flags &&& Flag_H ≠ 0 ∨ (val &&& 0x0F) > 0x09 then (val + 0x06) % 256 else val
      (val, p.2)
  (r.1, r.2 ||| flagIf (r.1 == 0) Flag_Z)

/-! ## Helpers of `executeExInstruction` -/

namespace Ex

/-- Lambda `swap`. -/
def swap (s : DMGCPU) (r : Reg) : DMGCPU × Nat :=
  let v := s.reg r
  let v := ((v >>> 4) ||| (v <<< 4)) % 256
  let s := s.setReg r v
  (s.setReg .F (flagIf (v == 0) Flag_Z), 8)

/-- Lambda `rotLeftNoCarry` (RLC). -/
def rotLeftNoCarry (s : DMGCPU) (r : Reg) : DMGCPU × Nat :=
  let res := ((s.reg r <<< 1) ||| (s.reg r >>> 7)) % 256
  let s := s.setReg r res
  (s.setReg .F (flagIf (res &&& 1 != 0) Flag_C ||| flagIf (res == 0) Flag_Z), 8)

/-- Lambda `rotRightNoCarry` (RRC). -/
def rotRightNoCarry (s : DMGCPU) (r : Reg) : DMGCPU × Nat :=
  let res := ((s.reg r >>> 1) ||| (s.reg r <<< 7)) % 256
  let s := s.setReg r res
  (s.setReg .F (((res &&& 0x80) >>> 3) ||| flagIf (res == 0) Flag_Z), 8)

/-- Lambda `rotLeft` (RL). -/
def rotLeft (s : DMGCPU) (r : Reg) : DMGCPU × Nat :=
  let c := (s.reg r &&& 0x80) >>> 3 -- shift to where the carry bit is
  let res := ((s.reg r <<< 1) ||| ((s.reg .F &&& Flag_C) >>> 4)) % 256
  let s := s.setReg r res
  (s.setReg .F (c ||| flagIf (res == 0) Flag_Z), 8)

/-- Lambda `rotRight` (RR). -/
def rotRight (s : DMGCPU) (r : Reg) : DMGCPU × Nat :=
  let c := (s.reg r &&& 0x1) <<< 4 -- shift to where the carry bit is
  let res := ((s.reg r >>> 1) ||| ((s.reg .F &&& Flag_C) <<< 3)) % 256
  let s := s.setReg r res
  (s.setReg .F (c ||| flagIf (res == 0) Flag_Z), 8)

/-- Lambda `shiftLeft` (SLA). -/
def shiftLeft (s : DMGCPU) (r : Reg) : DMGCPU × Nat :=
  let c := (s.reg r &&& 0x80) >>> 3 -- shift to where the carry bit is
  let res := (s.reg r <<< 1) % 256
  let s := s.setReg r res
  (s.setReg .F (c ||| flagIf (res == 0) Flag_Z), 8)

/-- Lambda `shiftRightArith` (SRA). -/
def shiftRightArith (s : DMGCPU) (r : Reg) : DMGCPU × Nat :=
  let c := (s.reg r &&& 0x1) <<< 4 -- shift to where the carry bit is
  let res := u8 (int8 (s.reg r) >>> 1)
  let s := s.setReg r res
  (s.setReg .F (c ||| flagIf (res == 0) Flag_Z), 8)

/-- Lambda `shiftRight` (SRL). -/
def shiftRight (s : DMGCPU) (r : Reg) : DMGCPU × Nat :=
  let c := (s.reg r &&& 1) <<< 4 -- shift to where the carry bit is
  let res := (s.reg r >>> 1) % 256
  let s := s.setReg r res
  (s.setReg .F (c ||| flagIf (res == 0) Flag_Z), 8)

/-- Lambda `testBit`. -/
def testBit (s : DMGCPU) (r : Reg) (bit : Nat) : DMGCPU × Nat :=
  let zeroFlag := bnot (s.reg r <<< (7 - bit)) &&& Flag_Z -- invert and shift to zero flag
  (s.setReg .F ((s.reg .F &&& Flag_C) ||| Flag_H ||| zeroFlag), 8)

/-- Lambda `testBitHL`. -/
def testBitHL (s : DMGCPU) (bit : Nat) : DMGCPU × Nat :=
  let zeroFlag := bnot (s.readMem (s.reg16 .HL) <<< (7 - bit)) &&& Flag_Z
  (s.setReg .F ((s.reg .F &&& Flag_C) ||| Flag_H ||| zeroFlag), 12)

/-- Lambda `set`. -/
def set (s : DMGCPU) (r : Reg) (bit : Nat) : DMGCPU × Nat :=
  (s.setReg r (s.reg r ||| (1 <<< bit)), 8)

/-- Lambda `setHL`. -/
def setHL (s : DMGCPU) (bit : Nat) : DMGCPU × Nat :=
  let val := s.readMem (s.reg16 .HL)
  (s.writeMem (s.reg16 .HL) (val ||| (1 <<< bit)), 16)

/-- Lambda `reset`. -/
def reset (s : DMGCPU) (r : Reg) (bit : Nat) : DMGCPU × Nat :=
  (s.setReg r (s.reg r &&& bnot (1 <<< bit)), 8)

/-- Lambda `resetHL`. -/
def resetHL (s : DMGCPU) (bit : Nat) : DMGCPU × Nat :=
  let val := s.readMem (s.reg16 .HL)
  (s.writeMem (s.reg16 .HL) (val &&& bnot (1 <<< bit)), 16)

end Ex

/-! ## The opcode tables -/

/-- The cases `0x00`..`0x0F` of the `switch(opcode)` of `executeExInstruction`: each `case` label
with its body, as a function of the state after the opcode fetch. -/
def exCases0 : List (Nat × (DMGCPU → DMGCPU × Nat)) := [
  (0x00, fun (s : DMGCPU) => Ex.rotLeftNoCarry s .B), -- RLC B
  (0x01, fun (s : DMGCPU) => Ex.rotLeftNoCarry s .C), -- RLC C
  (0x02, fun (s : DMGCPU) => Ex.rotLeftNoCarry s .D), -- RLC D
  (0x03, fun (s : DMGCPU) => Ex.rotLeftNoCarry s .E), -- RLC E
  (0x04, fun (s : DMGCPU) => Ex.rotLeftNoCarry s .H), -- RLC H
  (0x05, fun (s : DMGCPU) => Ex.rotLeftNoCarry s .L), -- RLC L
  (0x06, fun (s : DMGCPU) => -- RLC (HL)
    let v := s.readMem (s.reg16 .HL)
    let v := ((v <<< 1) ||| (v >>> 7)) % 256
    let s := s.setReg .F (flagIf (v &&& 0x1 != 0) Flag_C ||| flagIf (v == 0) Flag_Z)
    (s.writeMem (s.reg16 .HL) v, 16)),
  (0x07, fun (s : DMGCPU) => Ex.rotLeftNoCarry s .A), -- RLC A
  (0x08, fun (s : DMGCPU) => Ex.rotRightNoCarry s .B), -- RRC B
  (0x09, fun (s : DMGCPU) => Ex.rotRightNoCarry s .C), -- RRC C
  (0x0A, fun (s : DMGCPU) => Ex.rotRightNoCarry s .D), -- RRC D
  (0x0B, fun (s : DMGCPU) => Ex.rotRightNoCarry s .E), -- RRC E
  (0x0C, fun (s : DMGCPU) => Ex.rotRightNoCarry s .H), -- RRC H
  (0x0D, fun (s : DMGCPU) => Ex.rotRightNoCarry s .L), -- RRC L
  (0x0E, fun (s : DMGCPU) => -- RRC (HL)
    let v := s.readMem (s.reg16 .HL)
    let v := ((v >>> 1) ||| (v <<< 7)) % 256
    let s := s.setReg .F (flagIf (v &&& 0x80 != 0) Flag_C ||| flagIf (v == 0) Flag_Z)
    (s.writeMem (s.reg16 .HL) v, 16)),
  (0x0F, fun (s : DMGCPU) => Ex.rotRightNoCarry s .A) -- RRC A
]

/-- The cases `0x10`..`0x1F` of the `switch(opcode)` of `executeExInstruction`: each `case` label
with its body, as a function of the state after the opcode fetch. -/
def exCases1 : List (Nat × (DMGCPU → DMGCPU × Nat)) := [
  (0x10, fun (s : DMGCPU) => Ex.rotLeft s .B), -- RL B
  (0x11, fun (s : DMGCPU) => Ex.rotLeft s .C), -- RL C
  (0x12, fun (s : DMGCPU) => Ex.rotLeft s .D), -- RL D
  (0x13, fun (s : DMGCPU) => Ex.rotLeft s .E), -- RL E
  (0x14, fun (s : DMGCPU) => Ex.rotLeft s .H), -- RL H
  (0x15, fun (s : DMGCPU) => Ex.rotLeft s .L), -- RL L
  (0x16, fun (s : DMGCPU) => -- RL (HL)
    let v := s.readMem (s.reg16 .HL)
    let v := ((v <<< 1) ||| ((s.reg .F &&& Flag_C) >>> 4)) % 65536
    let s := s.setReg .F (flagIf (v &&& 0x100 != 0) Flag_C ||| flagIf (v &&& 0xFF == 0) Flag_Z)
    (s.writeMem (s.reg16 .HL) v, 16)),
  (0x17, fun (s : DMGCPU) => Ex.rotLeft s .A), -- RL A
  (0x18, fun (s : DMGCPU) => Ex.rotRight s .B), -- RR B
  (0x19, fun (s : DMGCPU) => Ex.rotRight s .C), -- RR C
  (0x1A, fun (s : DMGCPU) => Ex.rotRight s .D), -- RR D
  (0x1B, fun (s : DMGCPU) => Ex.rotRight s .E), -- RR E
  (0x1C, fun (s : DMGCPU) => Ex.rotRight s .H), -- RR H
  (0x1D, fun (s : DMGCPU) => Ex.rotRight s .L), -- RR L
  (0x1E, fun (s : DMGCPU) => -- RR (HL)
    let v := s.readMem (s.reg16 .HL)
    let c := v &&& 0x01 != 0
    let v := ((v >>> 1) ||| ((s.reg .F &&& Flag_C) <<< 3)) % 256
    let s := s.setReg .F (flagIf c Flag_C ||| flagIf (v == 0) Flag_Z)
    (s.writeMem (s.reg16 .HL) v, 16)),
  (0x1F, fun (s : DMGCPU) => Ex.rotRight s .A) -- RR A
]

/-- The cases `0x20`..`0x2F` of the `switch(opcode)` of `executeExInstruction`: each `case` label
with its body, as a function of the state after the opcode fetch. -/
def exCases2 : List (Nat × (DMGCPU → DMGCPU × Nat)) := [
  (0x20, fun (s : DMGCPU) => Ex.shiftLeft s .B), -- SLA B
  (0x21, fun (s : DMGCPU) => Ex.shiftLeft s .C), -- SLA C
  (0x22, fun (s : DMGCPU) => Ex.shiftLeft s .D), -- SLA D
  (0x23, fun (s : DMGCPU) => Ex.shiftLeft s .E), -- SLA E
  (0x24, fun (s : DMGCPU) => Ex.shiftLeft s .H), -- SLA H
  (0x25, fun (s : DMGCPU) => Ex.shiftLeft s .L), -- SLA L
  (0x26, fun (s : DMGCPU) => -- SLA (HL)
    let v := s.readMem (s.reg16 .HL)
    let v := (v <<< 1) % 65536
    let s := s.setReg .F (flagIf (v &&& 0x100 != 0) Flag_C ||| flagIf (v &&& 0xFF == 0) Flag_Z)
    (s.writeMem (s.reg16 .HL) v, 16)),
  (0x27, fun (s : DMGCPU) => Ex.shiftLeft s .A), -- SLA A
  (0x28, fun (s : DMGCPU) => Ex.shiftRightArith s .B), -- SRA B
  (0x29, fun (s : DMGCPU) => Ex.shiftRightArith s .C), -- SRA C
  (0x2A, fun (s : DMGCPU) => Ex.shiftRightArith s .D), -- SRA D
  (0x2B, fun (s : DMGCPU) => Ex.shiftRightArith s .E), -- SRA E
  (0x2C, fun (s : DMGCPU) => Ex.shiftRightArith s .H), -- SRA H
  (0x2D, fun (s : DMGCPU) => Ex.shiftRightArith s .L), -- SRA L
  (0x2E, fun (s : DMGCPU) => -- SRA (HL)
    let v := s.readMem (s.reg16 .HL)
    let s := s.setReg .F (((v &&& 1) <<< 4) ||| flagIf (v &&& 0xFE == 0) Flag_Z)
    let v := u8 (int8 v >>> 1)
    (s.writeMem (s.reg16 .HL) v, 16)),
  (0x2F, fun (s : DMGCPU) => Ex.shiftRightArith s .A) -- SRA A
]

/-- The cases `0x30`..`0x3F` of the `switch(opcode)` of `executeExInstruction`: each `case` label
with its body, as a function of the state after the opcode fetch. -/
def exCases3 : List (Nat × (DMGCPU → DMGCPU × Nat)) := [
  (0x30, fun (s : DMGCPU) => Ex.swap s .B), -- SWAP B
  (0x31, fun (s : DMGCPU) => Ex.swap s .C), -- SWAP C
  (0x32, fun (s : DMGCPU) => Ex.swap s .D), -- SWAP D
  (0x33, fun (s : DMGCPU) => Ex.swap s .E), -- SWAP E
  (0x34, fun (s : DMGCPU) => Ex.swap s .H), -- SWAP H
  (0x35, fun (s : DMGCPU) => Ex.swap s .L), -- SWAP L
  (0x36, fun (s : DMGCPU) => -- SWAP (HL)
    let v := s.readMem (s.reg16 .HL)
    let v := ((v <<< 4) ||| (v >>> 4)) % 256
    let s := s.setReg .F (flagIf (v == 0) Flag_Z)
    (s.writeMem (s.reg16 .HL) v, 16)),
  (0x37, fun (s : DMGCPU) => Ex.swap s .A), -- SWAP A
  (0x38, fun (s : DMGCPU) => Ex.shiftRight s .B), -- SRL B
  (0x39, fun (s : DMGCPU) => Ex.shiftRight s .C), -- SRL C
  (0x3A, fun (s : DMGCPU) => Ex.shiftRight s .D), -- SRL D
  (0x3B, fun (s : DMGCPU) => Ex.shiftRight s .E), -- SRL E
  (0x3C, fun (s : DMGCPU) => Ex.shiftRight s .H), -- SRL H
  (0x3D, fun (s : DMGCPU) => Ex.shiftRight s .L), -- SRL L
  (0x3E, fun (s : DMGCPU) => -- SRL (HL)
    let v := s.readMem (s.reg16 .HL)
    let s := s.setReg .F (((v &&& 1) <<< 4) ||| flagIf (v &&& 0xFE == 0) Flag_Z)
    let v := v >>> 1
    (s.writeMem (s.reg16 .HL) v, 16)),
  (0x3F, fun (s : DMGCPU) => Ex.shiftRight s .A) -- SRL A
]

/-- The cases `0x40`..`0x4F` of the `switch(opcode)` of `executeExInstruction`: each `case` label
with its body, as a function of the state after the opcode fetch. -/
def exCases4 : List (Nat × (DMGCPU → DMGCPU × Nat)) := [
  (0x40, fun (s : DMGCPU) => Ex.testBit s .B 0), -- BIT 0,B
  (0x41, fun (s : DMGCPU) => Ex.testBit s .C 0), -- BIT 0,C
  (0x42, fun (s : DMGCPU) => Ex.testBit s .D 0), -- BIT 0,D
  (0x43, fun (s : DMGCPU) => Ex.testBit s .E 0), -- BIT 0,E
  (0x44, fun (s : DMGCPU) => Ex.testBit s .H 0), -- BIT 0,H
  (0x45, fun (s : DMGCPU) => Ex.testBit s .L 0), -- BIT 0,L
  (0x46, fun (s : DMGCPU) => Ex.testBitHL s 0), -- BIT 0,(HL)
  (0x47, fun (s : DMGCPU) => Ex.testBit s .A 0), -- BIT 0,A
  (0x48, fun (s : DMGCPU) => Ex.testBit s .B 1), -- BIT 1,B
  (0x49, fun (s : DMGCPU) => Ex.testBit s .C 1), -- BIT 1,C
  (0x4A, fun (s : DMGCPU) => Ex.testBit s .D 1), -- BIT 1,D
  (0x4B, fun (s : DMGCPU) => Ex.testBit s .E 1), -- BIT 1,E
  (0x4C, fun (s : DMGCPU) => Ex.testBit s .H 1), -- BIT 1,H
  (0x4D, fun (s : DMGCPU) => Ex.testBit s .L 1), -- BIT 1,L
  (0x4E, fun (s : DMGCPU) => Ex.testBitHL s 1), -- BIT 1,(HL)
  (0x4F, fun (s : DMGCPU) => Ex.testBit s .A 1) -- BIT 1,A
]

/-- The cases `0x50`..`0x5F` of the `switch(opcode)` of `executeExInstruction`: each `case` label
with its body, as a function of the state after the opcode fetch. -/
def exCases5 : List (Nat × (DMGCPU → DMGCPU × Nat)) := [
  (0x50, fun (s : DMGCPU) => Ex.testBit s .B 2), -- BIT 2,B
  (0x51, fun (s : DMGCPU) => Ex.testBit s .C 2), -- BIT 2,C
  (0x52, fun (s : DMGCPU) => Ex.testBit s .D 2), -- BIT 2,D
  (0x53, fun (s : DMGCPU) => Ex.testBit s .E 2), -- BIT 2,E
  (0x54, fun (s : DMGCPU) => Ex.testBit s .H 2), -- BIT 2,H
  (0x55, fun (s : DMGCPU) => Ex.testBit s .L 2), -- BIT 2,L
  (0x56, fun (s : DMGCPU) => Ex.testBitHL s 2), -- BIT 2,(HL)
  (0x57, fun (s : DMGCPU) => Ex.testBit s .A 2), -- BIT 2,A
  (0x58, fun (s : DMGCPU) => Ex.testBit s .B 3), -- BIT 3,B
  (0x59, fun (s : DMGCPU) => Ex.testBit s .C 3), -- BIT 3,C
  (0x5A, fun (s : DMGCPU) => Ex.testBit s .D 3), -- BIT 3,D
  (0x5B, fun (s : DMGCPU) => Ex.testBit s .E 3), -- BIT 3,E
  (0x5C, fun (s : DMGCPU) => Ex.testBit s .H 3), -- BIT 3,H
  (0x5D, fun (s : DMGCPU) => Ex.testBit s .L 3), -- BIT 3,L
  (0x5E, fun (s : DMGCPU) => Ex.testBitHL s 3), -- BIT 3,(HL)
  (0x5F, fun (s : DMGCPU) => Ex.testBit s .A 3) -- BIT 3,A
]

/-- The cases `0x60`..`0x6F` of the `switch(opcode)` of `executeExInstruction`: each `case` label
with its body, as a function of the state after the opcode fetch. -/
def exCases6 : List (Nat × (DMGCPU → DMGCPU × Nat)) := [
  (0x60, fun (s : DMGCPU) => Ex.testBit s .B 4), -- BIT 4,B
  (0x61, fun (s : DMGCPU) => Ex.testBit s .C 4), -- BIT 4,C
  (0x62, fun (s : DMGCPU) => Ex.testBit s .D 4), -- BIT 4,D
  (0x63, fun (s : DMGCPU) => Ex.testBit s .E 4), -- BIT 4,E
  (0x64, fun (s : DMGCPU) => Ex.testBit s .H 4), -- BIT 4,H
  (0x65, fun (s : DMGCPU) => Ex.testBit s .L 4), -- BIT 4,L
  (0x66, fun (s : DMGCPU) => Ex.testBitHL s 4), -- BIT 4,(HL)
  (0x67, fun (s : DMGCPU) => Ex.testBit s .A 4), -- BIT 4,A
  (0x68, fun (s : DMGCPU) => Ex.testBit s .B 5), -- BIT 5,B
  (0x69, fun (s : DMGCPU) => Ex.testBit s .C 5), -- BIT 5,C
  (0x6A, fun (s : DMGCPU) => Ex.testBit s .D 5), -- BIT 5,D
  (0x6B, fun (s : DMGCPU) => Ex.testBit s .E 5), -- BIT 5,E
  (0x6C, fun (s : DMGCPU) => Ex.testBit s .H 5), -- BIT 5,H
  (0x6D, fun (s : DMGCPU) => Ex.testBit s .L 5), -- BIT 5,L
  (0x6E, fun (s : DMGCPU) => Ex.testBitHL s 5), -- BIT 5,(HL)
  (0x6F, fun (s : DMGCPU) => Ex.testBit s .A 5) -- BIT 5,A
]

/-- The cases `0x70`..`0x7F` of the `switch(opcode)` of `executeExInstruction`: each `case` label
with its body, as a function of the state after the opcode fetch. -/
def exCases7 : List (Nat × (DMGCPU → DMGCPU × Nat)) := [
  (0x70, fun (s : DMGCPU) => Ex.testBit s .B 6), -- BIT 6,B
  (0x71, fun (s : DMGCPU) => Ex.testBit s .C 6), -- BIT 6,C
  (0x72, fun (s : DMGCPU) => Ex.testBit s .D 6), -- BIT 6,D
  (0x73, fun (s : DMGCPU) => Ex.testBit s .E 6), -- BIT 6,E
  (0x74, fun (s : DMGCPU) => Ex.testBit s .H 6), -- BIT 6,H
  (0x75, fun (s : DMGCPU) => Ex.testBit s .L 6), -- BIT 6,L
  (0x76, fun (s : DMGCPU) => Ex.testBitHL s 6), -- BIT 6,(HL)
  (0x77, fun (s : DMGCPU) => Ex.testBit s .A 6), -- BIT 6,A
  (0x78, fun (s : DMGCPU) => Ex.testBit s .B 7), -- BIT 7,B
  (0x79, fun (s : DMGCPU) => Ex.testBit s .C 7), -- BIT 7,C
  (0x7A, fun (s : DMGCPU) => Ex.testBit s .D 7), -- BIT 7,D
  (0x7B, fun (s : DMGCPU) => Ex.testBit s .E 7), -- BIT 7,E
  (0x7C, fun (s : DMGCPU) => Ex.testBit s .H 7), -- BIT 7,H
  (0x7D, fun (s : DMGCPU) => Ex.testBit s .L 7), -- BIT 7,L
  (0x7E, fun (s : DMGCPU) => Ex.testBitHL s 7), -- BIT 7,(HL)
  (0x7F, fun (s : DMGCPU) => Ex.testBit s .A 7) -- BIT 7,A
]

/-- The cases `0x80`..`0x8F` of the `switch(opcode)` of `executeExInstruction`: each `case` label
with its body, as a function of the state after the opcode fetch. -/
def exCases8 : List (Nat × (DMGCPU → DMGCPU × Nat)) := [
  (0x80, fun (s : DMGCPU) => Ex.reset s .B 0), -- RES 0,B
  (0x81, fun (s : DMGCPU) => Ex.reset s .C 0), -- RES 0,C
  (0x82, fun (s : DMGCPU) => Ex.reset s .D 0), -- RES 0,D
  (0x83, fun (s : DMGCPU) => Ex.reset s .E 0), -- RES 0,E
  (0x84, fun (s : DMGCPU) => Ex.reset s .H 0), -- RES 0,H
  (0x85, fun (s : DMGCPU) => Ex.reset s .L 0), -- RES 0,L
  (0x86, fun (s : DMGCPU) => Ex.resetHL s 0), -- RES 0,(HL)
  (0x87, fun (s : DMGCPU) => Ex.reset s .A 0), -- RES 0,A
  (0x88, fun (s : DMGCPU) => Ex.reset s .B 1), -- RES 1,B
  (0x89, fun (s : DMGCPU) => Ex.reset s .C 1), -- RES 1,C
  (0x8A, fun (s : DMGCPU) => Ex.reset s .D 1), -- RES 1,D
  (0x8B, fun (s : DMGCPU) => Ex.reset s .E 1), -- RES 1,E
  (0x8C, fun (s : DMGCPU) => Ex.reset s .H 1), -- RES 1,H
  (0x8D, fun (s : DMGCPU) => Ex.reset s .L 1), -- RES 1,L
  (0x8E, fun (s : DMGCPU) => Ex.resetHL s 1), -- RES 1,(HL)
  (0x8F, fun (s : DMGCPU) => Ex.reset s .A 1) -- RES 1,A
]

/-- The cases `0x90`..`0x9F` of the `switch(opcode)` of `executeExInstruction`: each `case` label
with its body, as a function of the state after the opcode fetch. -/
def exCases9 : List (Nat × (DMGCPU → DMGCPU × Nat)) := [
  (0x90, fun (s : DMGCPU) => Ex.reset s .B 2), -- RES 2,B
  (0x91, fun (s : DMGCPU) => Ex.reset s .C 2), -- RES 2,C
  (0x92, fun (s : DMGCPU) => Ex.reset s .D 2), -- RES 2,D
  (0x93, fun (s : DMGCPU) => Ex.reset s .E 2), -- RES 2,E
  (0x94, fun (s : DMGCPU) => Ex.reset s .H 2), -- RES 2,H
  (0x95, fun (s : DMGCPU) => Ex.reset s .L 2), -- RES 2,L
  (0x96, fun (s : DMGCPU) => Ex.resetHL s 2), -- RES 2,(HL)
  (0x97, fun (s : DMGCPU) => Ex.reset s .A 2), -- RES 2,A
  (0x98, fun (s : DMGCPU) => Ex.reset s .B 3), -- RES 3,B
  (0x99, fun (s : DMGCPU) => Ex.reset s .C 3), -- RES 3,C
  (0x9A, fun (s : DMGCPU) => Ex.reset s .D 3), -- RES 3,D
  (0x9B, fun (s : DMGCPU) => Ex.reset s .E 3), -- RES 3,E
  (0x9C, fun (s : DMGCPU) => Ex.reset s .H 3), -- RES 3,H
  (0x9D, fun (s : DMGCPU) => Ex.reset s .L 3), -- RES 3,L
  (0x9E, fun (s : DMGCPU) => Ex.resetHL s 3), -- RES 3,(HL)
  (0x9F, fun (s : DMGCPU) => Ex.reset s .A 3) -- RES 3,A
]

/-- The cases `0xA0`..`0xAF` of the `switch(opcode)` of `executeExInstruction`: each `case` label
with its body, as a function of the state after the opcode fetch. -/
def exCasesA : List (Nat × (DMGCPU → DMGCPU × Nat)) := [
  (0xA0, fun (s : DMGCPU) => Ex.reset s .B 4), -- RES 4,B
  (0xA1, fun (s : DMGCPU) => Ex.reset s .C 4), -- RES 4,C
  (0xA2, fun (s : DMGCPU) => Ex.reset s .D 4), -- RES 4,D
  (0xA3, fun (s : DMGCPU) => Ex.reset s .E 4), -- RES 4,E
  (0xA4, fun (s : DMGCPU) => Ex.reset s .H 4), -- RES 4,H
  (0xA5, fun (s : DMGCPU) => Ex.reset s .L 4), -- RES 4,L
  (0xA6, fun (s : DMGCPU) => Ex.resetHL s 4), -- RES 4,(HL)
  (0xA7, fun (s : DMGCPU) => Ex.reset s .A 4), -- RES 4,A
  (0xA8, fun (s : DMGCPU) => Ex.reset s .B 5), -- RES 5,B
  (0xA9, fun (s : DMGCPU) => Ex.reset s .C 5), -- RES 5,C
  (0xAA, fun (s : DMGCPU) => Ex.reset s .D 5), -- RES 5,D
  (0xAB, fun (s : DMGCPU) => Ex.reset s .E 5), -- RES 5,E
  (0xAC, fun (s : DMGCPU) => Ex.reset s .H 5), -- RES 5,H
  (0xAD, fun (s : DMGCPU) => Ex.reset s .L 5), -- RES 5,L
  (0xAE, fun (s : DMGCPU) => Ex.resetHL s 5), -- RES 5,(HL)
  (0xAF, fun (s : DMGCPU) => Ex.reset s .A 5) -- RES 5,A
]

/-- The cases `0xB0`..`0xBF` of the `switch(opcode)` of `executeExInstruction`: each `case` label
with its body, as a function of the state after the opcode fetch. -/
def exCasesB : List (Nat × (DMGCPU → DMGCPU × Nat)) := [
  (0xB0, fun (s : DMGCPU) => Ex.reset s .B 6), -- RES 6,B
  (0xB1, fun (s : DMGCPU) => Ex.reset s .C 6), -- RES 6,C
  (0xB2, fun (s : DMGCPU) => Ex.reset s .D 6), -- RES 6,D
  (0xB3, fun (s : DMGCPU) => Ex.reset s .E 6), -- RES 6,E
  (0xB4, fun (s : DMGCPU) => Ex.reset s .H 6), -- RES 6,H
  (0xB5, fun (s : DMGCPU) => Ex.reset s .L 6), -- RES 6,L
  (0xB6, fun (s : DMGCPU) => Ex.resetHL s 6), -- RES 6,(HL)
  (0xB7, fun (s : DMGCPU) => Ex.reset s .A 6), -- RES 6,A
  (0xB8, fun (s : DMGCPU) => Ex.reset s .B 7), -- RES 7,B
  (0xB9, fun (s : DMGCPU) => Ex.reset s .C 7), -- RES 7,C
  (0xBA, fun (s : DMGCPU) => Ex.reset s .D 7), -- RES 7,D
  (0xBB, fun (s : DMGCPU) => Ex.reset s .E 7), -- RES 7,E
  (0xBC, fun (s : DMGCPU) => Ex.reset s .H 7), -- RES 7,H
  (0xBD, fun (s : DMGCPU) => Ex.reset s .L 7), -- RES 7,L
  (0xBE, fun (s : DMGCPU) => Ex.resetHL s 7), -- RES 7,(HL)
  (0xBF, fun (s : DMGCPU) => Ex.reset s .A 7) -- RES 7,A
]

/-- The cases `0xC0`..`0xCF` of the `switch(opcode)` of `executeExInstruction`: each `case` label
with its body, as a function of the state after the opcode fetch. -/
def exCasesC : List (Nat × (DMGCPU → DMGCPU × Nat)) := [
  (0xC0, fun (s : DMGCPU) => Ex.set s .B 0), -- SET 0,B
  (0xC1, fun (s : DMGCPU) => Ex.set s .C 0), -- SET 0,C
  (0xC2, fun (s : DMGCPU) => Ex.set s .D 0), -- SET 0,D
  (0xC3, fun (s : DMGCPU) => Ex.set s .E 0), -- SET 0,E
  (0xC4, fun (s : DMGCPU) => Ex.set s .H 0), -- SET 0,H
  (0xC5, fun (s : DMGCPU) => Ex.set s .L 0), -- SET 0,L
  (0xC6, fun (s : DMGCPU) => Ex.setHL s 0), -- SET 0,(HL)
  (0xC7, fun (s : DMGCPU) => Ex.set s .A 0), -- SET 0,A
  (0xC8, fun (s : DMGCPU) => Ex.set s .B 1), -- SET 1,B
  (0xC9, fun (s : DMGCPU) => Ex.set s .C 1), -- SET 1,C
  (0xCA, fun (s : DMGCPU) => Ex.set s .D 1), -- SET 1,D
  (0xCB, fun (s : DMGCPU) => Ex.set s .E 1), -- SET 1,E
  (0xCC, fun (s : DMGCPU) => Ex.set s .H 1), -- SET 1,H
  (0xCD, fun (s : DMGCPU) => Ex.set s .L 1), -- SET 1,L
  (0xCE, fun (s : DMGCPU) => Ex.setHL s 1), -- SET 1,(HL)
  (0xCF, fun (s : DMGCPU) => Ex.set s .A 1) -- SET 1,A
]

/-- The cases `0xD0`..`0xDF` of the `switch(opcode)` of `executeExInstruction`: each `case` label
with its body, as a function of the state after the opcode fetch. -/
def exCasesD : List (Nat × (DMGCPU → DMGCPU × Nat)) := [
  (0xD0, fun (s : DMGCPU) => Ex.set s .B 2), -- SET 2,B
  (0xD1, fun (s : DMGCPU) => Ex.set s .C 2), -- SET 2,C
  (0xD2, fun (s : DMGCPU) => Ex.set s .D 2), -- SET 2,D
  (0xD3, fun (s : DMGCPU) => Ex.set s .E 2), -- SET 2,E
  (0xD4, fun (s : DMGCPU) => Ex.set s .H 2), -- SET 2,H
  (0xD5, fun (s : DMGCPU) => Ex.set s .L 2), -- SET 2,L
  (0xD6, fun (s : DMGCPU) => Ex.setHL s 2), -- SET 2,(HL)
  (0xD7, fun (s : DMGCPU) => Ex.set s .A 2), -- SET 2,A
  (0xD8, fun (s : DMGCPU) => Ex.set s .B 3), -- SET 3,B
  (0xD9, fun (s : DMGCPU) => Ex.set s .C 3), -- SET 3,C
  (0xDA, fun (s : DMGCPU) => Ex.set s .D 3), -- SET 3,D
  (0xDB, fun (s : DMGCPU) => Ex.set s .E 3), -- SET 3,E
  (0xDC, fun (s : DMGCPU) => Ex.set s .H 3), -- SET 3,H
  (0xDD, fun (s : DMGCPU) => Ex.set s .L 3), -- SET 3,L
  (0xDE, fun (s : DMGCPU) => Ex.setHL s 3), -- SET 3,(HL)
  (0xDF, fun (s : DMGCPU) => Ex.set s .A 3) -- SET 3,A
]

/-- The cases `0xE0`..`0xEF` of the `switch(opcode)` of `executeExInstruction`: each `case` label
with its body, as a function of the state after the opcode fetch. -/
def exCasesE : List (Nat × (DMGCPU → DMGCPU × Nat)) := [
  (0xE0, fun (s : DMGCPU) => Ex.set s .B 4), -- SET 4,B
  (0xE1, fun (s : DMGCPU) => Ex.set s .C 4), -- SET 4,C
  (0xE2, fun (s : DMGCPU) => Ex.set s .D 4), -- SET 4,D
  (0xE3, fun (s : DMGCPU) => Ex.set s .E 4), -- SET 4,E
  (0xE4, fun (s : DMGCPU) => Ex.set s .H 4), -- SET 4,H
  (0xE5, fun (s : DMGCPU) => Ex.set s .L 4), -- SET 4,L
  (0xE6, fun (s : DMGCPU) => Ex.setHL s 4), -- SET 4,(HL)
  (0xE7, fun (s : DMGCPU) => Ex.set s .A 4), -- SET 4,A
  (0xE8, fun (s : DMGCPU) => Ex.set s .B 5), -- SET 5,B
  (0xE9, fun (s : DMGCPU) => Ex.set s .C 5), -- SET 5,C
  (0xEA, fun (s : DMGCPU) => Ex.set s .D 5), -- SET 5,D
  (0xEB, fun (s : DMGCPU) => Ex.set s .E 5), -- SET 5,E
  (0xEC, fun (s : DMGCPU) => Ex.set s .H 5), -- SET 5,H
  (0xED, fun (s : DMGCPU) => Ex.set s .L 5), -- SET 5,L
  (0xEE, fun (s : DMGCPU) => Ex.setHL s 5), -- SET 5,(HL)
  (0xEF, fun (s : DMGCPU) => Ex.set s .A 5) -- SET 5,A
]

/-- The cases `0xF0`..`0xFF` of the `switch(opcode)` of `executeExInstruction`: each `case` label
with its body, as a function of the state after the opcode fetch. -/
def exCasesF : List (Nat × (DMGCPU → DMGCPU × Nat)) := [
  (0xF0, fun (s : DMGCPU) => Ex.set s .B 6), -- SET 6,B
  (0xF1, fun (s : DMGCPU) => Ex.set s .C 6), -- SET 6,C
  (0xF2, fun (s : DMGCPU) => Ex.set s .D 6), -- SET 6,D
  (0xF3, fun (s : DMGCPU) => Ex.set s .E 6), -- SET 6,E
  (0xF4, fun (s : DMGCPU) => Ex.set s .H 6), -- SET 6,H
  (0xF5, fun (s : DMGCPU) => Ex.set s .L 6), -- SET 6,L
  (0xF6, fun (s : DMGCPU) => Ex.setHL s 6), -- SET 6,(HL)
  (0xF7, fun (s : DMGCPU) => Ex.set s .A 6), -- SET 6,A
  (0xF8, fun (s : DMGCPU) => Ex.set s .B 7), -- SET 7,B
  (0xF9, fun (s : DMGCPU) => Ex.set s .C 7), -- SET 7,C
  (0xFA, fun (s : DMGCPU) => Ex.set s .D 7), -- SET 7,D
  (0xFB, fun (s : DMGCPU) => Ex.set s .E 7), -- SET 7,E
  (0xFC, fun (s : DMGCPU) => Ex.set s .H 7), -- SET 7,H
  (0xFD, fun (s : DMGCPU) => Ex.set s .L 7), -- SET 7,L
  (0xFE, fun (s : DMGCPU) => Ex.setHL s 7), -- SET 7,(HL)
  (0xFF, fun (s : DMGCPU) => Ex.set s .A 7) -- SET 7,A
]

/-- The `switch(opcode)` of `executeExInstruction`. -/
def exCases : List (Nat × (DMGCPU → DMGCPU × Nat)) :=
  exCases0 ++ exCases1 ++ exCases2 ++ exCases3 ++ exCases4 ++ exCases5 ++ exCases6 ++ exCases7
    ++ exCases8 ++ exCases9 ++ exCasesA ++ exCasesB ++ exCasesC ++ exCasesD ++ exCasesE ++ exCasesF

/-- `DMGCPU::executeExInstruction`: the `0xCB`-prefixed table.  The result is the new
state and the cycle count (`return 0` when no `case` matches). -/
def executeExInstruction (s : DMGCPU) : DMGCPU × Nat :=
  let (opcode, s) := s.fetch8
  match exCases.lookup opcode with
  | some body => body s
  | none => (s, 0)

/-- The cases `0x00`..`0x0F` of the `switch(opcode)` of `executeInstruction`: each `case` label
with its body, as a function of the state after the opcode fetch. -/
def opCases0 : List (Nat × (DMGCPU → Option (DMGCPU × Nat))) := [
  (0x00, fun (s : DMGCPU) => some (s, 4)), -- NOP
  (0x01, fun (s : DMGCPU) => some (s.load16 .BC)), -- LD BC,nn
  (0x02, fun (s : DMGCPU) => some (s.writeMem (s.reg16 .BC) (s.reg .A), 8)), -- LD (BC),A
  (0x03, fun (s : DMGCPU) => some (s.inc16 .BC)), -- INC BC
  (0x04, fun (s : DMGCPU) => some (s.inc .B)), -- INC B
  (0x05, fun (s : DMGCPU) => some (s.dec .B)), -- DEC B
  (0x06, fun (s : DMGCPU) => some (s.load8 .B)), -- LD B,n
  (0x07, fun (s : DMGCPU) => -- RLCA
    let v := s.reg .A
    let c := decide (v &&& 0x80 ≠ 0)
    let v := ((v <<< 1) ||| (v >>> 7)) % 256
    some ((s.setReg .A v).setReg .F (flagIf c Flag_C), 4)),
  (0x08, fun (s : DMGCPU) => -- LD, (nn),SP
    let (addr, s) := s.fetch16
    some (s.writeMem16 addr s.sp, 20)),
  (0x09, fun (s : DMGCPU) => some (s.add16 .BC)), -- ADD HL,BC
  (0x0A, fun (s : DMGCPU) => some (s.setReg .A (s.readMem (s.reg16 .BC)), 8)), -- LDI A,BC
  (0x0B, fun (s : DMGCPU) => some (s.dec16 .BC)), -- DEC BC
  (0x0C, fun (s : DMGCPU) => some (s.inc .C)), -- INC C
  (0x0D, fun (s : DMGCPU) => some (s.dec .C)), -- DEC C
  (0x0E, fun (s : DMGCPU) => some (s.load8 .C)), -- LD C,n
  (0x0F, fun (s : DMGCPU) => -- RRCA
    let v := s.reg .A
    let c := decide (v &&& 0x01 ≠ 0)
    let v := ((v >>> 1) ||| (v <<< 7)) % 256
    some ((s.setReg .A v).setReg .F (flagIf c Flag_C), 4))
]

/-- The cases `0x10`..`0x1F` of the `switch(opcode)` of `executeInstruction`: each `case` label
with its body, as a function of the state after the opcode fetch. -/
def opCases1 : List (Nat × (DMGCPU → Option (DMGCPU × Nat))) := [
  (0x10, fun (s : DMGCPU) => -- STOP
    if s.speedSwitch then
      some ({ s with speedSwitch := false, doubleSpeed := !s.doubleSpeed }, 0)
    else
      some ({ s with stopped := true }, 0)),
  (0x11, fun (s : DMGCPU) => some (s.load16 .DE)), -- LD DE,nn
  (0x12, fun (s : DMGCPU) => some (s.writeMem (s.reg16 .DE) (s.reg .A), 8)), -- LD (DE),A
  (0x13, fun (s : DMGCPU) => some (s.inc16 .DE)), -- INC DE
  (0x14, fun (s : DMGCPU) => some (s.inc .D)), -- INC D
  (0x15, fun (s : DMGCPU) => some (s.dec .D)), -- DEC D
  (0x16, fun (s : DMGCPU) => some (s.load8 .D)), -- LD D,n
  (0x17, fun (s : DMGCPU) => -- RLA
    let c := decide (s.reg .A &&& 0x80 ≠ 0)
    let res := (s.reg .A <<< 1) ||| (if s.reg .F &&& Flag_C ≠ 0 then 0x01 else 0)
    some ((s.setReg .A res).setReg .F (flagIf c Flag_C), 4)),
  (0x18, fun (s : DMGCPU) => some (s.jumpRel 0 true)), -- JR m
  (0x19, fun (s : DMGCPU) => some (s.add16 .DE)), -- ADD HL,DE
  (0x1A, fun (s : DMGCPU) => some (s.setReg .A (s.readMem (s.reg16 .DE)), 8)), -- LDI A,DE
  (0x1B, fun (s : DMGCPU) => some (s.dec16 .DE)), -- DEC DE
  (0x1C, fun (s : DMGCPU) => some (s.inc .E)), -- INC E
  (0x1D, fun (s : DMGCPU) => some (s.dec .E)), -- DEC E
  (0x1E, fun (s : DMGCPU) => some (s.load8 .E)), -- LD E,n
  (0x1F, fun (s : DMGCPU) => -- RRA
    let c := decide (s.reg .A &&& 1 ≠ 0)
    let res := (s.reg .A >>> 1) ||| (if s.reg .F &&& Flag_C ≠ 0 then 0x80 else 0)
    some ((s.setReg .A res).setReg .F (flagIf c Flag_C), 4))
]

/-- The cases `0x20`..`0x2F` of the `switch(opcode)` of `executeInstruction`: each `case` label
with its body, as a function of the state after the opcode fetch. -/
def opCases2 : List (Nat × (DMGCPU → Option (DMGCPU × Nat))) := [
  (0x20, fun (s : DMGCPU) => some (s.jumpRel Flag_Z false)), -- JR NZ,n
  (0x21, fun (s : DMGCPU) => some (s.load16 .HL)), -- LD HL,nn
  (0x22, fun (s : DMGCPU) => some ((s.setReg16 .HL (s.reg16 .HL + 1)).writeMem (s.reg16 .HL) (s.reg .A), 8)), -- LDI (HL),A
  (0x23, fun (s : DMGCPU) => some (s.inc16 .HL)), -- INC HL
  (0x24, fun (s : DMGCPU) => some (s.inc .H)), -- INC H
  (0x25, fun (s : DMGCPU) => some (s.dec .H)), -- DEC H
  (0x26, fun (s : DMGCPU) => some (s.load8 .H)), -- LD H,n
  (0x27, fun (s : DMGCPU) => -- DAA
    let r := daa (s.reg .A) (s.reg .F)
    some ((s.setReg .A r.1).setReg .F r.2, 4)),
  (0x28, fun (s : DMGCPU) => some (s.jumpRel Flag_Z true)), -- JR Z,n
  (0x29, fun (s : DMGCPU) => some (s.add16 .HL)), -- ADD HL,HL
  (0x2A, fun (s : DMGCPU) => some ((s.setReg16 .HL (s.reg16 .HL + 1)).setReg .A (s.readMem (s.reg16 .HL)), 8)), -- LDI A,(HL)
  (0x2B, fun (s : DMGCPU) => some (s.dec16 .HL)), -- DEC HL
  (0x2C, fun (s : DMGCPU) => some (s.inc .L)), -- INC L
  (0x2D, fun (s : DMGCPU) => some (s.dec .L)), -- DEC L
  (0x2E, fun (s : DMGCPU) => some (s.load8 .L)), -- LD L,n
  (0x2F, fun (s : DMGCPU) => -- CPL
    let s := s.setReg .A (bnot (s.reg .A))
    some (s.setReg .F (s.reg .F ||| (Flag_H ||| Flag_N)), 4))
]

/-- The cases `0x30`..`0x3F` of the `switch(opcode)` of `executeInstruction`: each `case` label
with its body, as a function of the state after the opcode fetch. -/
def opCases3 : List (Nat × (DMGCPU → Option (DMGCPU × Nat))) := [
  (0x30, fun (s : DMGCPU) => some (s.jumpRel Flag_C false)), -- JR NC,n
  (0x31, fun (s : DMGCPU) => -- LD SP,nn
    let (v, s) := s.fetch16
    some (s.setSP v, 12)),
  (0x32, fun (s : DMGCPU) => some ((s.setReg16 .HL (s.reg16 .HL + 65536 - 1)).writeMem (s.reg16 .HL) (s.reg .A), 8)), -- LDD (HL), A
  (0x33, fun (s : DMGCPU) => some (s.setSP (s.sp + 1), 8)), -- INC SP
  (0x34, fun (s : DMGCPU) => -- INC (HL)
    let v := s.readMem (s.reg16 .HL)
    let s := s.writeMem (s.reg16 .HL) (v + 1)
    some (s.setReg .F ((s.reg .F &&& Flag_C) ||| flagIf (v &&& 0xF == 0xF) Flag_H
      ||| flagIf (v == 0xFF) Flag_Z), 12)),
  (0x35, fun (s : DMGCPU) => -- DEC (HL)
    let v := s.readMem (s.reg16 .HL)
    let s := s.writeMem (s.reg16 .HL) (v + 256 - 1)
    some (s.setReg .F ((s.reg .F &&& Flag_C) ||| flagIf (v &&& 0xF == 0) Flag_H ||| Flag_N
      ||| flagIf (v == 1) Flag_Z), 12)),
  (0x36, fun (s : DMGCPU) => -- LD (HL),n
    let (v, s) := s.fetch8
    some (s.writeMem (s.reg16 .HL) v, 12)),
  (0x37, fun (s : DMGCPU) => some (s.setReg .F (Flag_C ||| (s.reg .F &&& Flag_Z)), 4)), -- SCF
  (0x38, fun (s : DMGCPU) => some (s.jumpRel Flag_C true)), -- JR C,n
  (0x39, fun (s : DMGCPU) => some (s.doAdd16 (s.reg16 .HL) s.sp, 8)), -- ADD HL,SP
  (0x3A, fun (s : DMGCPU) => some ((s.setReg16 .HL (s.reg16 .HL + 65536 - 1)).setReg .A (s.readMem (s.reg16 .HL)), 8)), -- LDD A,(HL)
  (0x3B, fun (s : DMGCPU) => some (s.setSP (s.sp + 65536 - 1), 8)), -- DEC SP
  (0x3C, fun (s : DMGCPU) => some (s.inc .A)), -- INC A
  (0x3D, fun (s : DMGCPU) => some (s.dec .A)), -- DEC A
  (0x3E, fun (s : DMGCPU) => -- LD A,#
    let (v, s) := s.fetch8
    some (s.setReg .A v, 8)),
  (0x3F, fun (s : DMGCPU) => some (s.setReg .F ((bnot (s.reg .F) &&& Flag_C) ||| (s.reg .F &&& Flag_Z)), 4)) -- CCF
]

/-- The cases `0x40`..`0x4F` of the `switch(opcode)` of `executeInstruction`: each `case` label
with its body, as a function of the state after the opcode fetch. -/
def opCases4 : List (Nat × (DMGCPU → Option (DMGCPU × Nat))) := [
  (0x40, fun (s : DMGCPU) => some (s.copy8 .B .B)), -- LD B,B
  (0x41, fun (s : DMGCPU) => some (s.copy8 .B .C)), -- LD B,C
  (0x42, fun (s : DMGCPU) => some (s.copy8 .B .D)), -- LD B,D
  (0x43, fun (s : DMGCPU) => some (s.copy8 .B .E)), -- LD B,E
  (0x44, fun (s : DMGCPU) => some (s.copy8 .B .H)), -- LD B,H
  (0x45, fun (s : DMGCPU) => some (s.copy8 .B .L)), -- LD B,L
  (0x46, fun (s : DMGCPU) => some (s.setReg .B (s.readMem (s.reg16 .HL)), 8)), -- LD B,(HL)
  (0x47, fun (s : DMGCPU) => some (s.copy8 .B .A)), -- LD B,A
  (0x48, fun (s : DMGCPU) => some (s.copy8 .C .B)), -- LD C,B
  (0x49, fun (s : DMGCPU) => some (s.copy8 .C .C)), -- LD C,C
  (0x4A, fun (s : DMGCPU) => some (s.copy8 .C .D)), -- LD C,D
  (0x4B, fun (s : DMGCPU) => some (s.copy8 .C .E)), -- LD C,E
  (0x4C, fun (s : DMGCPU) => some (s.copy8 .C .H)), -- LD C,H
  (0x4D, fun (s : DMGCPU) => some (s.copy8 .C .L)), -- LD C,L
  (0x4E, fun (s : DMGCPU) => some (s.setReg .C (s.readMem (s.reg16 .HL)), 8)), -- LD C,(HL)
  (0x4F, fun (s : DMGCPU) => some (s.copy8 .C .A)) -- LD C,A
]

/-- The cases `0x50`..`0x5F` of the `switch(opcode)` of `executeInstruction`: each `case` label
with its body, as a function of the state after the opcode fetch. -/
def opCases5 : List (Nat × (DMGCPU → Option (DMGCPU × Nat))) := [
  (0x50, fun (s : DMGCPU) => some (s.copy8 .D .B)), -- LD D,B
  (0x51, fun (s : DMGCPU) => some (s.copy8 .D .C)), -- LD D,C
  (0x52, fun (s : DMGCPU) => some (s.copy8 .D .D)), -- LD D,D
  (0x53, fun (s : DMGCPU) => some (s.copy8 .D .E)), -- LD D,E
  (0x54, fun (s : DMGCPU) => some (s.copy8 .D .H)), -- LD D,H
  (0x55, fun (s : DMGCPU) => some (s.copy8 .D .L)), -- LD D,L
  (0x56, fun (s : DMGCPU) => some (s.setReg .D (s.readMem (s.reg16 .HL)), 8)), -- LD D,(HL)
  (0x57, fun (s : DMGCPU) => some (s.copy8 .D .A)), -- LD D,A
  (0x58, fun (s : DMGCPU) => some (s.copy8 .E .B)), -- LD E,B
  (0x59, fun (s : DMGCPU) => some (s.copy8 .E .C)), -- LD E,C
  (0x5A, fun (s : DMGCPU) => some (s.copy8 .E .D)), -- LD E,D
  (0x5B, fun (s : DMGCPU) => some (s.copy8 .E .E)), -- LD E,E
  (0x5C, fun (s : DMGCPU) => some (s.copy8 .E .H)), -- LD E,H
  (0x5D, fun (s : DMGCPU) => some (s.copy8 .E .L)), -- LD E,L
  (0x5E, fun (s : DMGCPU) => some (s.setReg .E (s.readMem (s.reg16 .HL)), 8)), -- LD E,(HL)
  (0x5F, fun (s : DMGCPU) => some (s.copy8 .E .A)) -- LD E,A
]

/-- The cases `0x60`..`0x6F` of the `switch(opcode)` of `executeInstruction`: each `case` label
with its body, as a function of the state after the opcode fetch. -/
def opCases6 : List (Nat × (DMGCPU → Option (DMGCPU × Nat))) := [
  (0x60, fun (s : DMGCPU) => some (s.copy8 .H .B)), -- LD H,B
  (0x61, fun (s : DMGCPU) => some (s.copy8 .H .C)), -- LD H,C
  (0x62, fun (s : DMGCPU) => some (s.copy8 .H .D)), -- LD H,D
  (0x63, fun (s : DMGCPU) => some (s.copy8 .H .E)), -- LD H,E
  (0x64, fun (s : DMGCPU) => some (s.copy8 .H .H)), -- LD H,H
  (0x65, fun (s : DMGCPU) => some (s.copy8 .H .L)), -- LD H,L
  (0x66, fun (s : DMGCPU) => some (s.setReg .H (s.readMem (s.reg16 .HL)), 8)), -- LD H,(HL)
  (0x67, fun (s : DMGCPU) => some (s.copy8 .H .A)), -- LD H,A
  (0x68, fun (s : DMGCPU) => some (s.copy8 .L .B)), -- LD L,B
  (0x69, fun (s : DMGCPU) => some (s.copy8 .L .C)), -- LD L,C
  (0x6A, fun (s : DMGCPU) => some (s.copy8 .L .D)), -- LD L,D
  (0x6B, fun (s : DMGCPU) => some (s.copy8 .L .E)), -- LD L,E
  (0x6C, fun (s : DMGCPU) => some (s.copy8 .L .H)), -- LD L,H
  (0x6D, fun (s : DMGCPU) => some (s.copy8 .L .L)), -- LD L,L
  (0x6E, fun (s : DMGCPU) => some (s.setReg .L (s.readMem (s.reg16 .HL)), 8)), -- LD L,(HL)
  (0x6F, fun (s : DMGCPU) => some (s.copy8 .L .A)) -- LD L,A
]

/-- The cases `0x70`..`0x7F` of the `switch(opcode)` of `executeInstruction`: each `case` label
with its body, as a function of the state after the opcode fetch. -/
def opCases7 : List (Nat × (DMGCPU → Option (DMGCPU × Nat))) := [
  (0x70, fun (s : DMGCPU) => some (s.writeMem (s.reg16 .HL) (s.reg .B), 8)), -- LD (HL),B
  (0x71, fun (s : DMGCPU) => some (s.writeMem (s.reg16 .HL) (s.reg .C), 8)), -- LD (HL),C
  (0x72, fun (s : DMGCPU) => some (s.writeMem (s.reg16 .HL) (s.reg .D), 8)), -- LD (HL),D
  (0x73, fun (s : DMGCPU) => some (s.writeMem (s.reg16 .HL) (s.reg .E), 8)), -- LD (HL),E
  (0x74, fun (s : DMGCPU) => some (s.writeMem (s.reg16 .HL) (s.reg .H), 8)), -- LD (HL),H
  (0x75, fun (s : DMGCPU) => some (s.writeMem (s.reg16 .HL) (s.reg .L), 8)), -- LD (HL),L
  (0x76, fun (s : DMGCPU) => some ({ s with halted := true }, 4)), -- HALT
  (0x77, fun (s : DMGCPU) => some (s.writeMem (s.reg16 .HL) (s.reg .A), 8)), -- LD (HL),A
  (0x78, fun (s : DMGCPU) => some (s.copy8 .A .B)), -- LD A,B
  (0x79, fun (s : DMGCPU) => some (s.copy8 .A .C)), -- LD A,C
  (0x7A, fun (s : DMGCPU) => some (s.copy8 .A .D)), -- LD A,D
  (0x7B, fun (s : DMGCPU) => some (s.copy8 .A .E)), -- LD A,E
  (0x7C, fun (s : DMGCPU) => some (s.copy8 .A .H)), -- LD A,H
  (0x7D, fun (s : DMGCPU) => some (s.copy8 .A .L)), -- LD A,L
  (0x7E, fun (s : DMGCPU) => some (s.setReg .A (s.readMem (s.reg16 .HL)), 8)), -- LD A,(HL)
  (0x7F, fun (s : DMGCPU) => some (s.copy8 .A .A)) -- LD A,A
]

/-- The cases `0x80`..`0x8F` of the `switch(opcode)` of `executeInstruction`: each `case` label
with its body, as a function of the state after the opcode fetch. -/
def opCases8 : List (Nat × (DMGCPU → Option (DMGCPU × Nat))) := [
  (0x80, fun (s : DMGCPU) => some (s.add .B)), -- ADD A B
  (0x81, fun (s : DMGCPU) => some (s.add .C)), -- ADD A C
  (0x82, fun (s : DMGCPU) => some (s.add .D)), -- ADD A D
  (0x83, fun (s : DMGCPU) => some (s.add .E)), -- ADD A E
  (0x84, fun (s : DMGCPU) => some (s.add .H)), -- ADD A H
  (0x85, fun (s : DMGCPU) => some (s.add .L)), -- ADD A L
  (0x86, fun (s : DMGCPU) => some (s.doAdd (s.reg .A) (s.readMem (s.reg16 .HL)) 0, 8)), -- ADD A (HL)
  (0x87, fun (s : DMGCPU) => some (s.add .A)), -- ADD A A
  (0x88, fun (s : DMGCPU) => some (s.addWithCarry .B)), -- ADC A,B
  (0x89, fun (s : DMGCPU) => some (s.addWithCarry .C)), -- ADC A,C
  (0x8A, fun (s : DMGCPU) => some (s.addWithCarry .D)), -- ADC A,D
  (0x8B, fun (s : DMGCPU) => some (s.addWithCarry .E)), -- ADC A,E
  (0x8C, fun (s : DMGCPU) => some (s.addWithCarry .H)), -- ADC A,F
  (0x8D, fun (s : DMGCPU) => some (s.addWithCarry .L)), -- ADC A,H
  (0x8E, fun (s : DMGCPU) => some (s.doAdd (s.reg .A) (s.readMem (s.reg16 .HL)) (if s.reg .F &&& Flag_C ≠ 0 then 1 else 0), 8)), -- ADC A (HL)
  (0x8F, fun (s : DMGCPU) => some (s.addWithCarry .A)) -- ADC A,L
]

/-- The cases `0x90`..`0x9F` of the `switch(opcode)` of `executeInstruction`: each `case` label
with its body, as a function of the state after the opcode fetch. -/
def opCases9 : List (Nat × (DMGCPU → Option (DMGCPU × Nat))) := [
  (0x90, fun (s : DMGCPU) => some (s.sub .B)), -- SUB B
  (0x91, fun (s : DMGCPU) => some (s.sub .C)), -- SUB C
  (0x92, fun (s : DMGCPU) => some (s.sub .D)), -- SUB D
  (0x93, fun (s : DMGCPU) => some (s.sub .E)), -- SUB E
  (0x94, fun (s : DMGCPU) => some (s.sub .H)), -- SUB H
  (0x95, fun (s : DMGCPU) => some (s.sub .L)), -- SUB L
  (0x96, fun (s : DMGCPU) => some (s.doSub (s.reg .A) (s.readMem (s.reg16 .HL)) 0, 8)), -- SUB (HL)
  (0x97, fun (s : DMGCPU) => some (s.sub .A)), -- SUB A
  (0x98, fun (s : DMGCPU) => some (s.subWithCarry .B)), -- SBC B
  (0x99, fun (s : DMGCPU) => some (s.subWithCarry .C)), -- SBC C
  (0x9A, fun (s : DMGCPU) => some (s.subWithCarry .D)), -- SBC D
  (0x9B, fun (s : DMGCPU) => some (s.subWithCarry .E)), -- SBC E
  (0x9C, fun (s : DMGCPU) => some (s.subWithCarry .H)), -- SBC H
  (0x9D, fun (s : DMGCPU) => some (s.subWithCarry .L)), -- SBC L
  (0x9E, fun (s : DMGCPU) => some (s.doSub (s.reg .A) (s.readMem (s.reg16 .HL)) (if s.reg .F &&& Flag_C ≠ 0 then 1 else 0), 8)), -- SBC (HL)
  (0x9F, fun (s : DMGCPU) => some (s.subWithCarry .A)) -- SBC A
]

/-- The cases `0xA0`..`0xAF` of the `switch(opcode)` of `executeInstruction`: each `case` label
with its body, as a function of the state after the opcode fetch. -/
def opCasesA : List (Nat × (DMGCPU → Option (DMGCPU × Nat))) := [
  (0xA0, fun (s : DMGCPU) => some (s.bitAnd .B)), -- AND B
  (0xA1, fun (s : DMGCPU) => some (s.bitAnd .C)), -- AND C
  (0xA2, fun (s : DMGCPU) => some (s.bitAnd .D)), -- AND D
  (0xA3, fun (s : DMGCPU) => some (s.bitAnd .E)), -- AND E
  (0xA4, fun (s : DMGCPU) => some (s.bitAnd .H)), -- AND H
  (0xA5, fun (s : DMGCPU) => some (s.bitAnd .L)), -- AND L
  (0xA6, fun (s : DMGCPU) => -- AND (HL)
    let res := s.reg .A &&& s.readMem (s.reg16 .HL)
    let s := s.setReg .A res
    some (s.setReg .F (Flag_H ||| flagIf (res == 0) Flag_Z), 8)),
  (0xA7, fun (s : DMGCPU) => some (s.bitAnd .A)), -- AND A
  (0xA8, fun (s : DMGCPU) => some (s.bitXor .B)), -- XOR B
  (0xA9, fun (s : DMGCPU) => some (s.bitXor .C)), -- XOR C
  (0xAA, fun (s : DMGCPU) => some (s.bitXor .D)), -- XOR D
  (0xAB, fun (s : DMGCPU) => some (s.bitXor .E)), -- XOR E
  (0xAC, fun (s : DMGCPU) => some (s.bitXor .H)), -- XOR H
  (0xAD, fun (s : DMGCPU) => some (s.bitXor .L)), -- XOR L
  (0xAE, fun (s : DMGCPU) => -- XOR (HL)
    let res := s.reg .A ^^^ s.readMem (s.reg16 .HL)
    let s := s.setReg .A res
    some (s.setReg .F (flagIf (res == 0) Flag_Z), 8)),
  (0xAF, fun (s : DMGCPU) => some ((s.setReg .A 0).setReg .F Flag_Z, 4)) -- XOR A
]

/-- The cases `0xB0`..`0xBF` of the `switch(opcode)` of `executeInstruction`: each `case` label
with its body, as a function of the state after the opcode fetch. -/
def opCasesB : List (Nat × (DMGCPU → Option (DMGCPU × Nat))) := [
  (0xB0, fun (s : DMGCPU) => some (s.bitOr .B)), -- OR B
  (0xB1, fun (s : DMGCPU) => some (s.bitOr .C)), -- OR C
  (0xB2, fun (s : DMGCPU) => some (s.bitOr .D)), -- OR D
  (0xB3, fun (s : DMGCPU) => some (s.bitOr .E)), -- OR E
  (0xB4, fun (s : DMGCPU) => some (s.bitOr .H)), -- OR H
  (0xB5, fun (s : DMGCPU) => some (s.bitOr .L)), -- OR L
  (0xB6, fun (s : DMGCPU) => -- OR (HL)
    let res := s.reg .A ||| s.readMem (s.reg16 .HL)
    let s := s.setReg .A res
    some (s.setReg .F (flagIf (res == 0) Flag_Z), 8)),
  (0xB7, fun (s : DMGCPU) => some (s.bitOr .A)), -- OR A
  (0xB8, fun (s : DMGCPU) => some (s.cmp .B)), -- CP B
  (0xB9, fun (s : DMGCPU) => some (s.cmp .C)), -- CP C
  (0xBA, fun (s : DMGCPU) => some (s.cmp .D)), -- CP D
  (0xBB, fun (s : DMGCPU) => some (s.cmp .E)), -- CP E
  (0xBC, fun (s : DMGCPU) => some (s.cmp .H)), -- CP H
  (0xBD, fun (s : DMGCPU) => some (s.cmp .L)), -- CP L
  (0xBE, fun (s : DMGCPU) => -- CP (HL)
    let a := s.reg .A
    let b := s.readMem (s.reg16 .HL)
    some (s.setReg .F (cmpFlags a b), 8)),
  (0xBF, fun (s : DMGCPU) => some (s.cmp .A)) -- CP A
]

/-- The cases `0xC0`..`0xCF` of the `switch(opcode)` of `executeInstruction`: each `case` label
with its body, as a function of the state after the opcode fetch. -/
def opCasesC : List (Nat × (DMGCPU → Option (DMGCPU × Nat))) := [
  (0xC0, fun (s : DMGCPU) => some (s.ret Flag_Z false)), -- RET NZ
  (0xC1, fun (s : DMGCPU) => some (s.pop .BC)), -- POP BC
  (0xC2, fun (s : DMGCPU) => some (s.jump Flag_Z false)), -- JP NZ,nn
  (0xC3, fun (s : DMGCPU) => some (s.jump 0 true)), -- JP nn
  (0xC4, fun (s : DMGCPU) => some (s.call Flag_Z false)), -- CALL NZ,nn
  (0xC5, fun (s : DMGCPU) => some (s.push .BC)), -- PUSH BC
  (0xC6, fun (s : DMGCPU) => -- ADD A,#
    let (b, s) := s.fetch8
    some (s.doAdd (s.reg .A) b 0, 8)),
  (0xC7, fun (s : DMGCPU) => some (Op.reset s 0x00)), -- RST 0
  (0xC8, fun (s : DMGCPU) => some (s.ret Flag_Z true)), -- RET Z
  (0xC9, fun (s : DMGCPU) => some (s.ret 0 true)), -- RET
  (0xCA, fun (s : DMGCPU) => some (s.jump Flag_Z true)), -- JP Z,nn
  (0xCB, fun (s : DMGCPU) => some s.executeExInstruction), -- extended ops
  (0xCC, fun (s : DMGCPU) => some (s.call Flag_Z true)), -- CALL Z,nn
  (0xCD, fun (s : DMGCPU) => some (s.call 0 true)), -- CALL nn
  (0xCE, fun (s : DMGCPU) => -- ADC A,#
    let (b, s) := s.fetch8
    some (s.doAdd (s.reg .A) b (if s.reg .F &&& Flag_C ≠ 0 then 1 else 0), 8)),
  (0xCF, fun (s : DMGCPU) => some (Op.reset s 0x08)) -- RST 08
]

/-- The cases `0xD0`..`0xDF` of the `switch(opcode)` of `executeInstruction`: each `case` label
with its body, as a function of the state after the opcode fetch. -/
def opCasesD : List (Nat × (DMGCPU → Option (DMGCPU × Nat))) := [
  (0xD0, fun (s : DMGCPU) => some (s.ret Flag_C false)), -- RET NC
  (0xD1, fun (s : DMGCPU) => some (s.pop .DE)), -- POP DE
  (0xD2, fun (s : DMGCPU) => some (s.jump Flag_C false)), -- JP NC,nn
  (0xD4, fun (s : DMGCPU) => some (s.call Flag_C false)), -- CALL NC,nn
  (0xD5, fun (s : DMGCPU) => some (s.push .DE)), -- PUSH DE
  (0xD6, fun (s : DMGCPU) => -- SUB #
    let (b, s) := s.fetch8
    some (s.doSub (s.reg .A) b 0, 8)),
  (0xD7, fun (s : DMGCPU) => some (Op.reset s 0x10)), -- RST 10
  (0xD8, fun (s : DMGCPU) => some (s.ret Flag_C true)), -- RET C
  (0xD9, fun (s : DMGCPU) => some (({ s with masterInterruptEnable := true } : DMGCPU).ret 0 true)), -- RETI
  (0xDA, fun (s : DMGCPU) => some (s.jump Flag_C true)), -- JP C,nn
  (0xDC, fun (s : DMGCPU) => some (s.call Flag_C true)), -- CALL C,nn
  (0xDE, fun (s : DMGCPU) => -- SBC A,#
    let (b, s) := s.fetch8
    some (s.doSub (s.reg .A) b (if s.reg .F &&& Flag_C ≠ 0 then 1 else 0), 8)),
  (0xDF, fun (s : DMGCPU) => some (Op.reset s 0x18)) -- RST 18
]

/-- The cases `0xE0`..`0xEF` of the `switch(opcode)` of `executeInstruction`: each `case` label
with its body, as a function of the state after the opcode fetch. -/
def opCasesE : List (Nat × (DMGCPU → Option (DMGCPU × Nat))) := [
  (0xE0, fun (s : DMGCPU) => -- LDH (n),A
    let (n, s) := s.fetch8
    some (s.writeMem (0xFF00 ||| n) (s.reg .A), 12)),
  (0xE1, fun (s : DMGCPU) => some (s.pop .HL)), -- POP HL
  (0xE2, fun (s : DMGCPU) => some (s.writeMem (0xFF00 ||| s.reg .C) (s.reg .A), 8)), -- LDH (C),A
  (0xE5, fun (s : DMGCPU) => some (s.push .HL)), -- PUSH HL
  (0xE6, fun (s : DMGCPU) => -- AND #
    let (n, s) := s.fetch8
    let v := s.reg .A &&& n
    let s := s.setReg .A v
    some (s.setReg .F (Flag_H ||| flagIf (v == 0) Flag_Z), 8)),
  (0xE7, fun (s : DMGCPU) => some (Op.reset s 0x20)), -- RST 20
  (0xE8, fun (s : DMGCPU) => -- ADD SP,n
    -- flags are set as if this is an 8 bit op
    let a := s.sp &&& 0xFF
    let (b, s) := s.fetch8
    let v := (a + b) % 65536
    let s := s.setSP (u16 ((s.sp : Int) + int8 b))
    let hV := (a &&& 0xF) + (b &&& 0xF)
    some (s.setReg .F (flagIf (v > 0xFF) Flag_C ||| flagIf (hV > 0xF) Flag_H), 16)),
  (0xE9, fun (s : DMGCPU) => some (s.setPC (s.reg16 .HL), 4)), -- JP (HL)
  (0xEA, fun (s : DMGCPU) => -- LD (nn),A
    let s := s.writeMem (s.readMem16 s.pc) (s.reg .A)
    some (s.setPC (s.pc + 2), 16)),
  (0xEE, fun (s : DMGCPU) => -- XOR #
    let (n, s) := s.fetch8
    let v := s.reg .A ^^^ n
    let s := s.setReg .A v
    some (s.setReg .F (flagIf (v == 0) Flag_Z), 8)),
  (0xEF, fun (s : DMGCPU) => some (Op.reset s 0x28)) -- RST 28
]

/-- The cases `0xF0`..`0xFF` of the `switch(opcode)` of `executeInstruction`: each `case` label
with its body, as a function of the state after the opcode fetch. -/
def opCasesF : List (Nat × (DMGCPU → Option (DMGCPU × Nat))) := [
  (0xF0, fun (s : DMGCPU) => -- LDH A,(n)
    let (n, s) := s.fetch8
    some (s.setReg .A (s.readMem (0xFF00 ||| n)), 12)),
  (0xF1, fun (s : DMGCPU) => some (s.pop .AF)), -- POP AF
  (0xF2, fun (s : DMGCPU) => some (s.setReg .A (s.readMem (0xFF00 ||| s.reg .C)), 8)), -- LDH A,(C)
  (0xF3, fun (s : DMGCPU) => some ({ s with masterInterruptEnable := false }, 4)), -- DI
  (0xF5, fun (s : DMGCPU) => some (s.push .AF)), -- PUSH AF
  (0xF6, fun (s : DMGCPU) => -- OR #
    let (n, s) := s.fetch8
    let res := s.reg .A ||| n
    let s := s.setReg .A res
    some (s.setReg .F (flagIf (res == 0) Flag_Z), 8)),
  (0xF7, fun (s : DMGCPU) => some (Op.reset s 0x30)), -- RST 30
  (0xF8, fun (s : DMGCPU) => -- LDHL SP,n
    -- flags are set as if this is an 8 bit op
    let a := s.sp &&& 0xFF
    let (b, s) := s.fetch8
    let v := (a + b) % 65536
    let s := s.setReg16 .HL (u16 ((s.sp : Int) + int8 b))
    let hV := (a &&& 0xF) + (b &&& 0xF)
    some (s.setReg .F (flagIf (v > 0xFF) Flag_C ||| flagIf (hV > 0xF) Flag_H), 12)),
  (0xF9, fun (s : DMGCPU) => some (s.setSP (s.reg16 .HL), 8)), -- LD SP,HL
  (0xFA, fun (s : DMGCPU) => -- LD A,(nn)
    let s := s.setReg .A (s.readMem (s.readMem16 s.pc))
    some (s.setPC (s.pc + 2), 16)),
  (0xFB, fun (s : DMGCPU) => some ({ s with masterInterruptEnable := true }, 4)), -- EI
  (0xFE, fun (s : DMGCPU) => -- CP n
    let a := s.reg .A
    let (b, s) := s.fetch8
    some (s.setReg .F (cmpFlags a b), 8)),
  (0xFF, fun (s : DMGCPU) => some (Op.reset s 0x38)) -- RST 38
]

/-- The `switch(opcode)` of `executeInstruction`. -/
def opCases : List (Nat × (DMGCPU → Option (DMGCPU × Nat))) :=
  opCases0 ++ opCases1 ++ opCases2 ++ opCases3 ++ opCases4 ++ opCases5 ++ opCases6 ++ opCases7
    ++ opCases8 ++ opCases9 ++ opCasesA ++ opCasesB ++ opCasesC ++ opCasesD ++ opCasesE ++ opCasesF

/-- `DMGCPU::executeInstruction`.  The result is the new state and the cycle count;
`none` is the `default:` branch, which prints the opcode and exits the program. -/
def executeInstruction (s : DMGCPU) : Option (DMGCPU × Nat) :=
  let (opcode, s) := s.fetch8
  match opCases.lookup opcode with
  | some body => body s
  | none => none

/-! ## Timer, interrupts and the scheduler -/

/-- The body of the `for(;cycles > 0; cycles -= 4)` loop of `updateTimer`. -/
def timerStep (s : DMGCPU) : DMGCPU :=
  let s := { s with divCounter := (s.divCounter + 4) % 65536 }
  -- enable is ANDed with the selected bit
  let val := decide (s.divCounter &&& s.timerBit ≠ 0) && s.timerEnabled
  -- timer (incremented on falling edge)
  let s :=
    if s.timerOldVal && !val then
      let tima := s.mem.readIOReg IO_TIMA
      if tima = 0xFF then
        -- overflow
        let s := { s with mem := s.mem.writeIOReg IO_TIMA (s.mem.readIOReg IO_TMA) }
        s.flagInterrupt Int_Timer
      else
        { s with mem := s.mem.writeIOReg IO_TIMA (tima + 1) }
    else s
  { s with timerOldVal := val }

/-- The loop `for(;cycles > 0; cycles -= 4)` of `updateTimer`: one pass of the body for
every started group of four cycles. -/
def timerLoop : Nat → DMGCPU → DMGCPU
  | 0, s => s
  | 1, s => s.timerStep
  | 2, s => s.timerStep
  | 3, s => s.timerStep
  | cycles + 4, s => timerLoop cycles s.timerStep

/-- `DMGCPU::updateTimer`. -/
def updateTimer (s : DMGCPU) (cycles : Nat) : DMGCPU :=
  if !s.timerEnabled && !s.timerOldVal then
    { s with divCounter := (s.divCounter + cycles) % 65536 }
  else
    -- increment the internal timer
    timerLoop cycles s

/-- The table `vectors` of `serviceInterrupts`. -/
def vectors : List Nat := [0x40, 0x48, 0x50, 0x58, 0x60]

/-- The first three statements of the body of `if(servicable & 1)` in the loop of
`serviceInterrupts`: clear master-enable and bit `i` of IF and of the serviceable set. -/
def acknowledge (s : DMGCPU) (i : Nat) : DMGCPU :=
  let s := { s with masterInterruptEnable := false }
  let s := { s with mem := s.mem.writeIOReg IO_IF (s.mem.readIOReg IO_IF &&& bnot (1 <<< i)) }
  { s with serviceableInterrupts := s.serviceableInterrupts &&& bnot (1 <<< i) }

/-- The body of `if(servicable & 1)` in the loop of `serviceInterrupts`: acknowledge
interrupt `i` and call its vector.  `none` is a read of `vectors` past its end. -/
def serviceVector (s : DMGCPU) (i : Nat) : Option (DMGCPU × Bool) :=
  let s := s.acknowledge i
  -- call vector
  let s := s.setSP (s.sp + 65536 - 2)
  let s := s.writeMem16 s.sp s.pc
  match vectors[i]? with
  | some v => some (s.setPC v, true)
  | none => none

/-- The loop `for(int i = 0; servicable; i++, servicable >>= 1)` of `serviceInterrupts`;
`fuel` bounds the number of passes. -/
def serviceLoop (s : DMGCPU) : Nat → Nat → Nat → Option (DMGCPU × Bool)
  | 0, _, _ => some (s, false)
  | fuel + 1, i, servicable =>
    if servicable = 0 then
      some (s, false)
    else if servicable &&& 1 ≠ 0 then
      s.serviceVector i
    else
      serviceLoop s fuel (i + 1) (servicable >>> 1)

/-- `DMGCPU::serviceInterrupts`.  The scan shifts a non-zero `servicable` right until its
lowest set bit is found, so `servicable` passes are always enough. -/
def serviceInterrupts (s : DMGCPU) : Option (DMGCPU × Bool) :=
  let s := { s with halted := false } -- un-halt even if interrupts are disabled
  if !s.masterInterruptEnable then
    some (s, false)
  else
    serviceLoop s s.serviceableInterrupts 0 s.serviceableInterrupts

/-- One pass of the `while(!stopped && cycles > 0)` loop of `DMGCPU::run`: the new state
and the cycles retired.  `cycleCallback` is the observer installed by `setCycleCallback`
(`none` when unset). -/
def runStep (cycleCallback : Option (Nat → DMGCPU → DMGCPU)) (s : DMGCPU) :
    Option (DMGCPU × Nat) :=
  (if s.halted then some (s, 4) else s.executeInstruction).bind fun (s, exec) =>
  (if s.serviceableInterrupts ≠ 0 then
      s.serviceInterrupts.map fun (t, taken) => (t, if taken then exec + 5 * 4 else exec)
    else some (s, exec)).bind fun (s, exec) =>
  let s := match cycleCallback with
    | some cb => cb exec s
    | none => s
  some (s.updateTimer exec, exec)

/-- The loop `while(!stopped && cycles > 0)` of `DMGCPU::run` on a budget of `cycles`;
`fuel` bounds the number of passes.  `none` is a pass that does not complete. -/
def runLoop (cycleCallback : Option (Nat → DMGCPU → DMGCPU)) :
    Nat → Int → DMGCPU → Option DMGCPU
  | 0, _, s => some s
  | fuel + 1, cycles, s =>
    if !s.stopped && decide (cycles > 0) then
      (runStep cycleCallback s).bind fun (t, exec) =>
        runLoop cycleCallback fuel (cycles - (exec : Int)) t
    else
      some s

/-- A CPU with every register, flag and memory byte zero: the state `reset` is applied
to in the worked examples. -/
def blank : DMGCPU :=
  { regs := fun _ => 0, pc := 0, sp := 0, stopped := false, halted := false,
    masterInterruptEnable := false, serviceableInterrupts := 0, divCounter := 0,
    timerEnabled := false, timerOldVal := false, timerBit := 0, isGBC := false,
    doubleSpeed := false, speedSwitch := false, mem := { bytes := fun _ => 0 } }

/-- The state after `reset()` on a zero-filled bus. -/
def booted : DMGCPU := blank.reset id

/-- The state `s` with the bytes `bs` placed behind the addresses from `addr` on (raw
stores: how a loader places a program; used for the worked examples). -/
def withBytes (s : DMGCPU) (addr : Nat) : List Nat → DMGCPU
  | [] => s
  | b :: bs => withBytes { s with mem := s.mem.store addr b } (addr + 1) bs

/-! ## Reference semantics of the `0xCB` rotates and shifts -/

/-- The eight rotate/shift operations of the `0xCB` table. -/
inductive CBOp
  | RLC | RRC | RL | RR | SLA | SRA | SWAP | SRL
  deriving DecidableEq, Repr

/-- The architecturally defined result and carry-out of a `0xCB` rotate/shift on the
byte `v` with carry-in `cin`: circular rotates, rotates through carry, shift left,
arithmetic shift right (bit 7 kept), nibble swap (no carry), logical shift right. -/
def archCB : CBOp → Nat → Bool → Nat × Bool
  | .RLC, v, _ => ((v * 2) % 256 + v / 128, decide (v / 128 = 1))
  | .RRC, v, _ => (v / 2 + (v % 2) * 128, decide (v % 2 = 1))
  | .RL, v, cin => ((v * 2) % 256 + cin.toNat, decide (v / 128 = 1))
  | .RR, v, cin => (v / 2 + cin.toNat * 128, decide (v % 2 = 1))
  | .SLA, v, _ => ((v * 2) % 256, decide (v / 128 = 1))
  | .SRA, v, _ => (v / 2 + (v / 128) * 128, decide (v % 2 = 1))
  | .SWAP, v, _ => ((v % 16) * 16 + v / 16, false)
  | .SRL, v, _ => (v / 2, decide (v % 2 = 1))

/-- The register helper of `executeExInstruction` that implements each operation. -/
def cbHelper : CBOp → DMGCPU → Reg → DMGCPU × Nat
  | .RLC => Ex.rotLeftNoCarry
  | .RRC => Ex.rotRightNoCarry
  | .RL => Ex.rotLeft
  | .RR => Ex.rotRight
  | .SLA => Ex.shiftLeft
  | .SRA => Ex.shiftRightArith
  | .SWAP => Ex.swap
  | .SRL => Ex.shiftRight

/-! ## Predicates used in the statements -/

/-- The data-model invariant of F: its low four bits are zero. -/
def FOk (s : DMGCPU) : Prop := s.reg .F &&& 0xF = 0

/-- The part of the CPU state that no bus write can reach: `t` agrees with `s` on the
register file, `pc`, `sp` and the run-state flags. -/
def SameCore (s t : DMGCPU) : Prop :=
  t.regs = s.regs ∧ t.pc = s.pc ∧ t.sp = s.sp ∧ t.stopped = s.stopped ∧ t.halted = s.halted ∧
  t.masterInterruptEnable = s.masterInterruptEnable ∧ t.timerOldVal = s.timerOldVal ∧
  t.isGBC = s.isGBC ∧ t.doubleSpeed = s.doubleSpeed

/-- Whether the `switch(opcode)` of `executeInstruction` has a `case` label for `op`
(a defined opcode). -/
def hasCase (op : Nat) : Bool := (opCases.lookup op).isSome

/-- A seven-byte program: `LD A,bits; LDH (0xFF),A; LDH (0x0F),A; EI` — it enables and
requests the interrupts in `bits` and then sets master-enable. -/
def irqProgram (bits : Nat) : List Nat := [0x3E, bits, 0xE0, 0xFF, 0xE0, 0x0F, 0xFB]

/-- The state the scheduler reaches from boot after the three loads of `irqProgram`
(32 cycles) and the execution of its `EI`: the state `serviceInterrupts` is then called
on.  (`booted` stands in if a step did not complete.) -/
def irqDemo (bits : Nat) : DMGCPU :=
  (((runLoop none 3 32 (booted.withBytes 0x100 (irqProgram bits))).bind
    fun s => s.executeInstruction).map fun r => r.1).getD booted

/-- The serviceable-interrupt cache agrees with the registers: it equals IE AND IF. -/
def IrqSynced (s : DMGCPU) : Prop :=
  s.serviceableInterrupts = s.mem.readIOReg IO_IE &&& s.mem.readIOReg IO_IF

/-- The booted machine after `LD A,0x04; LDH (0xFF),A; HALT` (24 cycles: Timer enabled in
IE, master-enable off, CPU halted), with the Timer interrupt then flagged by a
peripheral.  (`booted` stands in if a step did not complete.) -/
def haltDemo : DMGCPU :=
  ((runLoop none 3 24 (booted.withBytes 0x100 [0x3E, 0x04, 0xE0, 0xFF, 0x76])).getD
    booted).flagInterrupt Int_Timer

/-- The timer clock signal: the selected divider bit ANDed with the enable flag. -/
def timerClock (s : DMGCPU) : Bool :=
  decide (s.divCounter &&& s.timerBit ≠ 0) && s.timerEnabled

/-- The booted machine with the internal divider at 0xAB00 and no timer edge pending,
after a bus write of 0x05 to TAC (timer enabled, divider bit 3 selected). -/
def tacDemo : DMGCPU :=
  ({ booted with divCounter := 0xAB00, timerOldVal := false } : DMGCPU).writeMem 0xFF07 0x05

/-! ### The `0xCB` table by operation, and packed BCD -/

/-- The opcode of the (HL) form of each rotate/shift in the `0xCB` table. -/
def cbOpcodeHL : CBOp → Nat
  | .RLC => 0x06
  | .RRC => 0x0E
  | .RL => 0x16
  | .RR => 0x1E
  | .SLA => 0x26
  | .SRA => 0x2E
  | .SWAP => 0x36
  | .SRL => 0x3E

/-- Whether a byte is packed BCD: each nibble is at most 9. -/
def isBCD (x : Nat) : Prop := x % 16 ≤ 9 ∧ x / 16 ≤ 9

instance isBCD_decidable (x : Nat) : Decidable (isBCD x) := by
  unfold isBCD; exact inferInstance

/-- The decimal number a packed-BCD byte stands for. -/
def fromBCD (x : Nat) : Nat := 10 * (x / 16) + x % 16

/-- The packed-BCD encoding of a number below 100. -/
def toBCD (n : Nat) : Nat := 16 * (n / 10) + n % 10

end DMGCPU

end DMG

/-! # DaftBoy32: the CPU-32 core (`core/AGBCPU.cpp`, `core/AGBMemory.cpp`)

A shallow embedding of `AGBCPU` and of the bus `AGBMemory`.  32-bit machine words are
naturals reduced modulo `2^32` where the C++ type truncates; a failed `assert`, a
dereference of a null or out-of-range pointer and `exit` are the result `none`.
-/

namespace AGB

/-! ## Constants of `AGBCPU.h` / `AGBRegs.h` -/

/-- Modelled from the spec: THUMB state bit of CPSR, "T(5 THUMB mode)" (the flag constants
live in `AGBCPU.h`, which is not among the sources). -/
abbrev Flag_T : Nat := 0x20

/-- Modelled from the spec: FIQ disable bit of CPSR, "F(6 disable FIQ)". -/
abbrev Flag_F : Nat := 0x40

/-- Modelled from the spec: IRQ disable bit of CPSR, "I(7 disable IRQ)". -/
abbrev Flag_I : Nat := 0x80

/-- Modelled from the spec: overflow flag of CPSR, "V(28)". -/
abbrev Flag_V : Nat := 0x10000000

/-- Modelled from the spec: carry flag of CPSR, "C(29)". -/
abbrev Flag_C : Nat := 0x20000000

/-- Modelled from the spec: zero flag of CPSR, "Z(30)". -/
abbrev Flag_Z : Nat := 0x40000000

/-- Modelled from the spec: negative flag of CPSR, "N(31)". -/
abbrev Flag_N : Nat := 0x80000000

/-- Modelled from the spec: the sign bit of a 32-bit word (`signBit` of `AGBCPU.h`; the
source uses `res & signBit` as the N flag, bit 31). -/
abbrev signBit : Nat := 0x80000000

/-- Modelled from the spec: offset of the first sound register in the IO window
(`AGBRegs.h` is not among the sources; the offsets are those of the hardware register
map the spec refers to). -/
abbrev IO_SOUND1CNT_L : Nat := 0x60

/-- Modelled from the spec: offset of the last sound register (FIFO B). -/
abbrev IO_FIFO_B : Nat := 0xA4

/-- Modelled from the spec: DMA channel 0 source address register; the four DMA sets
(source/dest/count/control) are 12 bytes apart. -/
abbrev IO_DMA0SAD : Nat := 0xB0

/-- Modelled from the spec: DMA channel 0 destination address register. -/
abbrev IO_DMA0DAD : Nat := 0xB4

/-- Modelled from the spec: DMA channel 0 count register. -/
abbrev IO_DMA0CNT_L : Nat := 0xB8

/-- Modelled from the spec: DMA channel 0 control register. -/
abbrev IO_DMA0CNT_H : Nat := 0xBA

/-- Modelled from the spec: timer 0 counter register; the four timer pairs
(counter/control) are 4 bytes apart. -/
abbrev IO_TM0CNT_L : Nat := 0x100

/-- Modelled from the spec: timer 0 control register. -/
abbrev IO_TM0CNT_H : Nat := 0x102

/-- Modelled from the spec: key input register. -/
abbrev IO_KEYINPUT : Nat := 0x130

/-- Modelled from the spec: interrupt enable register IE. -/
abbrev IO_IE : Nat := 0x200

/-- Modelled from the spec: interrupt request register IF. -/
abbrev IO_IF : Nat := 0x202

/-- Modelled from the spec: master interrupt enable register IME. -/
abbrev IO_IME : Nat := 0x208

/-- Modelled from the spec: enable bit of a DMA control word. -/
abbrev DMACNTH_Enable : Nat := 0x8000

/-- Modelled from the spec: start-timing field of a DMA control word
"{immediate, VBlank, HBlank, special}". -/
abbrev DMACNTH_Start : Nat := 0x3000

/-- Modelled from the spec: enable bit of a timer control word. -/
abbrev TMCNTH_Enable : Nat := 0x80

/-- Modelled from the spec: interrupt-enable bit of a timer control word. -/
abbrev TMCNTH_IRQEnable : Nat := 0x40

/-- Modelled from the spec: count-up bit of a timer control word. -/
abbrev TMCNTH_CountUp : Nat := 0x04

/-- Modelled from the spec: prescaler field of a timer control word
"(÷1, ÷64, ÷256, ÷1024)". -/
abbrev TMCNTH_Prescaler : Nat := 0x03

/-- Modelled from the spec: interrupt bit of timer 0; timers 1..3 follow. -/
abbrev Int_Timer0 : Nat := 0x08

/-! ## Machine words -/

/-- Conversion to `uint8_t`. -/
def u8 (x : Nat) : Nat := x % 256

/-- Conversion to `uint16_t`. -/
def u16 (x : Nat) : Nat := x % 65536

/-- Conversion to `uint32_t`. -/
def u32 (x : Nat) : Nat := x % 4294967296

/-- C++ `a - b` on `uint32_t`. -/
def sub32 (a b : Nat) : Nat := (a % 4294967296 + (4294967296 - b % 4294967296)) % 4294967296

/-- C++ `~x` on `uint32_t`. -/
def bnot32 (x : Nat) : Nat := 4294967295 - x % 4294967296

/-- C++ `static_cast<int32_t>(x)`. -/
def i32 (x : Nat) : Int :=
  if x % 4294967296 < 2147483648 then (x % 4294967296 : Nat) else (x % 4294967296 : Nat) - 4294967296

/-- Conversion of a signed value to `uint32_t`. -/
def ofInt32 (i : Int) : Nat := (i % 4294967296).toNat

/-- C++ `x << n` on a 32-bit operand with an `int` count.  For a count outside `0..31` the
C++ standard fixes no value; the two behaviours of actual hosts are modelled:
`maskCount = true` uses the low five bits of the count (so `x << 32` is `x`),
`maskCount = false` shifts every bit out (so `x << 32` is `0`). -/
def shl32 (maskCount : Bool) (x : Nat) (n : Int) : Nat :=
  if 0 ≤ n ∧ n < 32 then (x <<< n.toNat) % 4294967296
  else if maskCount then (x <<< (n % 32).toNat) % 4294967296
  else 0

/-- C++ `static_cast<int32_t>(x) >> n` converted back to `uint32_t`, for `0 ≤ n < 32`
(an arithmetic shift). -/
def asr32 (x n : Nat) : Nat := ofInt32 (i32 x / 2 ^ n)

/-- C++ `c ? f : 0`. -/
def flagIf (c : Bool) (f : Nat) : Nat := if c then f else 0

/-- The number of zero bits above the highest set bit among bits `k-1 .. 0` of `x`
(`k` when none of them is set). -/
def clzLoop : Nat → Nat → Nat
  | 0, _ => 0
  | k + 1, x => if x.testBit k then 0 else 1 + clzLoop k x

/-- The builtin `__builtin_clz` on a 32-bit operand: the number of leading zero bits.
The builtin has no defined result for 0; the value here is 32, the value the callers
test for (`prefix == 32`). -/
def clz32 (x : Nat) : Nat := clzLoop 32 (x % 4294967296)

/-! ## The bus: regions and direct pointers (`AGBMemory`) -/

/-- Modelled from the spec: the cartridge save variant "{Unknown, EEPROM, SRAM (32 KiB),
Flash (1–2 × 64 KiB)}" (`SaveType` of `AGBMemory.h`, which is not among the sources). -/
inductive SaveType
  | Unknown | EEPROM | RAM | Flash
  deriving DecidableEq

/-- Modelled from the spec: the flash command state "{Read, Erase, Write, Bank, ID}". -/
inductive FlashState
  | Read | Erase | Write | Bank | ID
  deriving DecidableEq

/-- The backing buffers a direct pointer of `mapAddress` can point into. -/
inductive Region
  | bios | ewram | iwram | io | pal | vram | oam | rom | save | flashID | dummy
  deriving DecidableEq

/-- A non-null `uint8_t *`: a backing buffer and a byte offset into it. -/
structure Ptr where
  region : Region
  off : Nat
  deriving DecidableEq

/-- Modelled from the spec: the data members of `AGBMemory` (declared in `AGBMemory.h`):
"the bus holds each region as a contiguous byte buffer" — BIOS ROM (16 KiB), cartridge ROM
with its size, EWRAM (256 KiB), IWRAM (32 KiB), the IO window (0x400 bytes), palette RAM
(1 KiB), VRAM (96 KiB), OAM (1 KiB), the save buffer (128 KiB), the save state machine,
the EEPROM bit buffers (0x80 input and 0x84 output entries of 16 bits) and the cartridge
wait-state tables.  A buffer is a map from byte offset to byte. -/
structure AGBMemory where
  biosROM : Nat → Nat
  cartROM : Nat → Nat
  cartROMSize : Nat
  ewram : Nat → Nat
  iwram : Nat → Nat
  ioRegs : Nat → Nat
  palRAM : Nat → Nat
  vram : Nat → Nat
  oam : Nat → Nat
  cartSaveData : Nat → Nat
  saveType : SaveType
  flashState : FlashState
  flashBank : Nat
  flashCmdState : Nat
  flashID : Nat → Nat
  eepromInBits : Nat → Nat
  eepromOutBits : Nat → Nat
  cartAccessN : Nat → Nat
  cartAccessS : Nat → Nat
  dummy : Nat → Nat

/-- A little-endian load of `w` bytes at offset `off` of a buffer
(`*reinterpret_cast<const T *>(buf + off)`). -/
def loadLE (b : Nat → Nat) (off : Nat) : Nat → Nat
  | 0 => 0
  | w + 1 => b off % 256 + 256 * loadLE b (off + 1) w

/-- A little-endian store of the low `w` bytes of `v` at offset `off` of a buffer
(`*reinterpret_cast<T *>(buf + off) = v`). -/
def storeLE (b : Nat → Nat) (off w v : Nat) : Nat → Nat :=
  fun a => if off ≤ a ∧ a < off + w then v / 256 ^ (a - off) % 256 else b a

/-- `memset(buf + off, v, n)`. -/
def fill (b : Nat → Nat) (off n v : Nat) : Nat → Nat :=
  fun a => if off ≤ a ∧ a < off + n then v % 256 else b a

namespace AGBMemory

/-- The number of bytes of a backing buffer. -/
def size (m : AGBMemory) : Region → Nat
  | .bios => 0x4000
  | .ewram => 0x40000
  | .iwram => 0x8000
  | .io => 0x400
  | .pal => 0x400
  | .vram => 0x18000
  | .oam => 0x400
  | .rom => m.cartROMSize
  | .save => 0x20000
  | .flashID => 2
  | .dummy => 4

/-- The bytes of a backing buffer. -/
def bytes (m : AGBMemory) : Region → Nat → Nat
  | .bios => m.biosROM
  | .ewram => m.ewram
  | .iwram => m.iwram
  | .io => m.ioRegs
  | .pal => m.palRAM
  | .vram => m.vram
  | .oam => m.oam
  | .rom => m.cartROM
  | .save => m.cartSaveData
  | .flashID => m.flashID
  | .dummy => m.dummy

/-- Replace the bytes of a backing buffer. -/
def setBytes (m : AGBMemory) (r : Region) (b : Nat → Nat) : AGBMemory :=
  match r with
  | .bios => { m with biosROM := b }
  | .ewram => { m with ewram := b }
  | .iwram => { m with iwram := b }
  | .io => { m with ioRegs := b }
  | .pal => { m with palRAM := b }
  | .vram => { m with vram := b }
  | .oam => { m with oam := b }
  | .rom => { m with cartROM := b }
  | .save => { m with cartSaveData := b }
  | .flashID => { m with flashID := b }
  | .dummy => { m with dummy := b }

/-- A `w`-byte load through a direct pointer; `none` for the null pointer and for a load
that is not inside the buffer. -/
def derefRead (m : AGBMemory) (p : Option Ptr) (w : Nat) : Option Nat :=
  match p with
  | none => none
  | some p => if p.off + w ≤ m.size p.region then some (loadLE (m.bytes p.region) p.off w) else none

/-- A `w`-byte store through a direct pointer; `none` for the null pointer and for a store
that is not inside the buffer. -/
def derefWrite (m : AGBMemory) (p : Option Ptr) (w v : Nat) : Option AGBMemory :=
  match p with
  | none => none
  | some p =>
    if p.off + w ≤ m.size p.region then
      some (m.setBytes p.region (storeLE (m.bytes p.region) p.off w v))
    else none

/-- Modelled from the spec: `readIOReg` of `AGBMemory.h`, the 16-bit IO register at an
offset of the IO window, read without the register hooks. -/
def readIOReg (m : AGBMemory) (r : Nat) : Nat := loadLE m.ioRegs r 2

/-- Modelled from the spec: `writeIOReg` of `AGBMemory.h`, a store to the 16-bit IO
register at an offset of the IO window, without the register hooks. -/
def writeIOReg (m : AGBMemory) (r v : Nat) : AGBMemory :=
  { m with ioRegs := storeLE m.ioRegs r 2 v }

/-- `AGBMemory::mapAddress` (the `const` overload). -/
def mapAddressConst (m : AGBMemory) (addr : Nat) : Option Ptr :=
  let top := addr >>> 24
  if top = 0x0 then some ⟨.bios, addr &&& 0x3FFF⟩
  else if top = 0x2 then some ⟨.ewram, addr &&& 0x3FFFF⟩
  else if top = 0x3 then some ⟨.iwram, addr &&& 0x7FFF⟩
  else if top = 0x4 then
    if addr ≥ 0x4000400 then some ⟨.dummy, 0⟩ -- IO regs don't mirror
    else some ⟨.io, addr &&& 0x3FF⟩
  else if top = 0x5 then some ⟨.pal, addr &&& 0x3FF⟩
  else if top = 0x6 then
    let addr := addr &&& 0x1FFFF
    -- last 32K is the previous 32K
    let addr := if addr ≥ 0x18000 then addr &&& bnot32 0x8000 else addr
    some ⟨.vram, addr⟩
  else if top = 0x7 then some ⟨.oam, addr &&& 0x3FF⟩
  else if 0x8 ≤ top ∧ top ≤ 0xD then
    let addr := addr &&& 0x1FFFFFF
    if addr ≥ m.cartROMSize then none else some ⟨.rom, addr⟩
  else if (top = 0xE ∨ top = 0xF) ∧ m.saveType ≠ .EEPROM then
    if m.flashState = .ID then some ⟨.flashID, addr &&& 1⟩
    else
      -- RAM is always 32K, flash has 1-2 64k banks
      let addr := addr &&& (if m.saveType = .RAM then 0x7FFF else 0xFFFF)
      some ⟨.save, addr + (m.flashBank <<< 16)⟩
  else some ⟨.dummy, 0⟩

/-- `AGBMemory::mapAddress` (the non-`const` overload). -/
def mapAddress (m : AGBMemory) (addr : Nat) : Option Ptr :=
  let top := addr >>> 24
  if top = 0x0 then none -- bios rom
  else if top = 0x2 then some ⟨.ewram, addr &&& 0x3FFFF⟩
  else if top = 0x3 then some ⟨.iwram, addr &&& 0x7FFF⟩
  else if top = 0x4 then
    if addr ≥ 0x4000400 then none -- IO regs don't mirror
    else some ⟨.io, addr &&& 0x3FF⟩
  else if top = 0x5 then some ⟨.pal, addr &&& 0x3FF⟩
  else if top = 0x6 then
    let addr := addr &&& 0x1FFFF
    let addr := if addr ≥ 0x18000 then addr &&& bnot32 0x8000 else addr
    some ⟨.vram, addr⟩
  else if top = 0x7 then some ⟨.oam, addr &&& 0x3FF⟩
  else if (top = 0xE ∨ top = 0xF) ∧ m.saveType ≠ .EEPROM then
    -- flash never makes it here
    some ⟨.save, addr &&& 0x7FFF⟩
  else none

/-- Modelled from the spec: `read16Fast` of `AGBMemory.h`, a 16-bit read through the
direct pointer of `mapAddress` ("the core calls `mapAddress(addr)` for direct memory
pointers when the region permits it"). -/
def read16Fast (m : AGBMemory) (addr : Nat) : Option Nat :=
  m.derefRead (m.mapAddressConst addr) 2

/-- Modelled from the spec: `read32Fast` of `AGBMemory.h`, a 32-bit read through the
direct pointer of `mapAddress`. -/
def read32Fast (m : AGBMemory) (addr : Nat) : Option Nat :=
  m.derefRead (m.mapAddressConst addr) 4

/-- `AGBMemory::getAccessCycles`. -/
def getAccessCycles (m : AGBMemory) (addr : Nat) (width : Nat) (sequential : Bool) : Nat :=
  let top := addr >>> 24
  if top = 0x0 ∨ top = 0x3 ∨ top = 0x4 ∨ top = 0x7 then 1
  else if top = 0x2 then (if width = 4 then 6 else 3)
  else if top = 0x5 ∨ top = 0x6 then (if width = 4 then 2 else 1)
  else if 0x8 ≤ top ∧ top ≤ 0xF then
    (if sequential then m.cartAccessS ((addr >>> 25) - 4) else m.cartAccessN ((addr >>> 25) - 4))
      -- extra time for reading 32bit value is always sequential
      + (if width = 4 then m.cartAccessS ((addr >>> 25) - 4) else 0)
  else 1

/-- `AGBMemory::reset`. -/
def reset (m : AGBMemory) : AGBMemory :=
  { m with
    saveType := .Unknown,
    flashState := .Read,
    flashBank := 0,
    cartSaveData := fill m.cartSaveData 0 0x20000 0xFF,
    cartAccessN := fun i => if i ≤ 3 then 5 else m.cartAccessN i,
    cartAccessS := fun i =>
      if i = 0 then 3 else if i = 1 then 5 else if i = 2 then 9 else if i = 3 then 5
      else m.cartAccessS i }

end AGBMemory

/-! ## The core state (`AGBCPU`) -/

/-- Modelled from the spec: the data members of `AGBCPU` (declared in `AGBCPU.h`, which is
not among the sources).  `regs` is the "flat array of physical slots": slots 0..15 are
R0..R15 of the user bank, 16..22 are R8..R14 of fast-IRQ, then the SP/LR pairs of
supervisor (23, 24), abort (25, 26), IRQ (27, 28) and undefined (29, 30); `spsr` holds
the saved CPSR of fast-IRQ, supervisor, abort, IRQ and undefined at indices 0..4 (the
source writes `spsr[1/*svc*/]` and `spsr[3/*irq*/]`); `curSP`, `curLR` and `isFIQ` are
the index map selected by the mode, as left by `modeChanged`.  `armPCPtr` and
`thumbPCPtr` are the cached fetch pointers.  The video and audio collaborators are
"specified only as interfaces": `displayReadReg`, `apuReadReg`, `displayWriteReg` and
`apuWriteReg` are their register hooks. -/
structure AGBCPU where
  regs : Nat → Nat
  cpsr : Nat
  spsr : Nat → Nat
  curSP : Nat
  curLR : Nat
  isFIQ : Bool
  halted : Bool
  armPCPtr : Option Ptr
  thumbPCPtr : Option Ptr
  pcSCycles : Nat
  pcNCycles : Nat
  cycleCount : Nat
  lastTimerUpdate : Nat
  timerCounters : Nat → Nat
  timerPrescalers : Nat → Int
  timerEnabled : Nat
  timerInterruptEnabled : Nat
  enabledInterrutps : Nat
  currentInterrupts : Nat
  dmaTriggered : Nat
  inputs : Nat
  mem : AGBMemory
  displayReadReg : Nat → Nat → Nat
  apuReadReg : Nat → Nat → Nat
  displayWriteReg : Nat → Nat → Bool
  apuWriteReg : Nat → Nat → Bool

namespace AGBCPU

/-- The register numbers `Reg::SP`, `Reg::LR` and `Reg::PC`. -/
abbrev SP : Nat := 13

/-- The register number `Reg::LR`. -/
abbrev LR : Nat := 14

/-- The register number `Reg::PC`. -/
abbrev PC : Nat := 15

/-- Modelled from the spec: `loReg` of `AGBCPU.h`, the physical slot `r` read without the
mode map (the source: "directly index to force user"). -/
def loReg (s : AGBCPU) (r : Nat) : Nat := s.regs r

/-- An assignment to `loReg(r)`. -/
def setLoReg (s : AGBCPU) (r v : Nat) : AGBCPU :=
  { s with regs := fun i => if i = r then v % 4294967296 else s.regs i }

/-- Modelled from the spec: `mapReg` of `AGBCPU.h`, "a map from logical register index ×
current mode → physical storage": R13 and R14 are the current bank's SP and LR, R8..R12
are banked in fast-IRQ, every other register is its own slot. -/
def mapReg (s : AGBCPU) (r : Nat) : Nat :=
  if r = 13 then s.curSP
  else if r = 14 then s.curLR
  else if s.isFIQ ∧ 8 ≤ r ∧ r ≤ 12 then r + 8
  else r

/-- Modelled from the spec: `reg` of `AGBCPU.h`, the register `r` as the current mode
sees it. -/
def reg (s : AGBCPU) (r : Nat) : Nat := s.regs (s.mapReg r)

/-- An assignment to `reg(r)`. -/
def setReg (s : AGBCPU) (r v : Nat) : AGBCPU := s.setLoReg (s.mapReg r) v

/-- Modelled from the spec: `modeChanged` of `AGBCPU.h`: select the register bank of the
mode in CPSR bits 4..0 — user (0x10) and system (0x1F) share a bank; fast-IRQ (0x11), IRQ
(0x12), supervisor (0x13), abort (0x17) and undefined (0x1B) each bank SP/LR, fast-IRQ
additionally R8..R12.  Any other mode value is not a processor mode (`none`). -/
def modeChanged (s : AGBCPU) : Option AGBCPU :=
  let mode := s.cpsr &&& 0x1F
  if mode = 0x10 ∨ mode = 0x1F then some { s with curSP := 13, curLR := 14, isFIQ := false }
  else if mode = 0x11 then some { s with curSP := 21, curLR := 22, isFIQ := true }
  else if mode = 0x13 then some { s with curSP := 23, curLR := 24, isFIQ := false }
  else if mode = 0x17 then some { s with curSP := 25, curLR := 26, isFIQ := false }
  else if mode = 0x12 then some { s with curSP := 27, curLR := 28, isFIQ := false }
  else if mode = 0x1B then some { s with curSP := 29, curLR := 30, isFIQ := false }
  else none

/-- Modelled from the spec: the index in `spsr` of the saved CPSR of the mode in CPSR bits
4..0 ("each privileged mode has a saved CPSR"); user and system have none. -/
def spsrIndex (s : AGBCPU) : Option Nat :=
  let mode := s.cpsr &&& 0x1F
  if mode = 0x11 then some 0
  else if mode = 0x13 then some 1
  else if mode = 0x17 then some 2
  else if mode = 0x12 then some 3
  else if mode = 0x1B then some 4
  else none

/-- Modelled from the spec: `getSPSR` of `AGBCPU.h`, the saved CPSR of the current mode. -/
def getSPSR (s : AGBCPU) : Option Nat := s.spsrIndex.map s.spsr

/-- An assignment through the reference `getSPSR()`. -/
def setSPSR (s : AGBCPU) (v : Nat) : Option AGBCPU :=
  s.spsrIndex.map fun k => { s with spsr := fun i => if i = k then v % 4294967296 else s.spsr i }

/-- `AGBCPU::flagInterrupt`. -/
def flagInterrupt (s : AGBCPU) (interrupt : Nat) : AGBCPU :=
  let s := { s with mem := s.mem.writeIOReg IO_IF (s.mem.readIOReg IO_IF ||| interrupt) }
  { s with currentInterrupts := s.enabledInterrutps &&& s.mem.readIOReg IO_IF }

/-- The body of the loop of `updateTimers` for an enabled timer `i`; `overflow` is the set
of timers that overflowed so far.  A division by a zero prescaler is `none`. -/
def timerStep (timer passed : Nat) (i : Nat) (s : AGBCPU) (overflow : Nat) :
    Option (AGBCPU × Nat) :=
  let oldCount := s.timerCounters i
  let setCounter := fun (s : AGBCPU) (v : Nat) =>
    { s with timerCounters := fun k => if k = i then v % 65536 else s.timerCounters k }
  let counted : Option AGBCPU :=
    -- count-up
    if s.timerPrescalers i = -1 then
      -- for i = 0 the count of `1 << (i - 1)` is -1: bit 31 or nothing, never a bit of
      -- the 8-bit `overflow`
      if i ≠ 0 ∧ overflow &&& (1 <<< (i - 1)) ≠ 0 then some (setCounter s (s.timerCounters i + 1))
      else some s
    else if s.timerPrescalers i = 1 then some (setCounter s (s.timerCounters i + passed))
    else
      let count : Int := i32 ((timer % 4294967296 &&& ofInt32 (s.timerPrescalers i - 1)) + passed)
      if count ≥ s.timerPrescalers i then
        if s.timerPrescalers i = 0 then none
        else some (setCounter s (ofInt32 (s.timerCounters i + Int.tdiv count (s.timerPrescalers i))))
      else some s
  counted.map fun s =>
    -- overflow
    if s.timerCounters i < oldCount then
      let overflow := (overflow ||| (1 <<< i)) % 256
      let s := setCounter s (s.mem.readIOReg (IO_TM0CNT_L + i * 4))
      let s :=
        if s.timerInterruptEnabled &&& (1 <<< i) ≠ 0 then s.flagInterrupt (Int_Timer0 <<< i) else s
      (s, overflow)
    else (s, overflow)

/-- The loop `for(int i = 0; enabled; i++, enabled >>= 1)` of `updateTimers`; the fuel is
the width of `enabled`. -/
def timerLoop : Nat → Nat → Nat → Nat → Nat → AGBCPU → Nat → Option AGBCPU
  | 0, _, _, _, _, s, _ => some s
  | fuel + 1, timer, passed, i, enabled, s, overflow =>
    if enabled = 0 then some s
    else if enabled &&& 1 = 0 then timerLoop fuel timer passed (i + 1) (enabled >>> 1) s overflow
    else
      match timerStep timer passed i s overflow with
      | none => none
      | some (s, overflow) => timerLoop fuel timer passed (i + 1) (enabled >>> 1) s overflow

/-- `AGBCPU::updateTimers`. -/
def updateTimers (s : AGBCPU) : Option AGBCPU :=
  let timer := s.lastTimerUpdate
  let passed := sub32 s.cycleCount s.lastTimerUpdate
  (timerLoop 8 timer passed 0 (s.timerEnabled % 256) s 0).map fun s =>
    { s with lastTimerUpdate := s.cycleCount }

/-- `AGBCPU::readReg`: the value and the state after the read. -/
def readReg (s : AGBCPU) (addr val : Nat) : Option (Nat × AGBCPU) :=
  let a := addr &&& 0xFFFFFF
  if a < IO_SOUND1CNT_L then some (s.displayReadReg addr val % 65536, s)
  else if a ≤ IO_FIFO_B then some (s.apuReadReg addr val % 65536, s)
  else if a = IO_TM0CNT_L ∨ a = IO_TM0CNT_L + 4 ∨ a = IO_TM0CNT_L + 8 ∨ a = IO_TM0CNT_L + 12 then
    -- sync
    s.updateTimers.map fun s => (s.timerCounters ((a - IO_TM0CNT_L) / 12), s)
  else if a = IO_KEYINPUT then some (bnot32 s.inputs % 65536, s)
  else some (val % 65536, s)

/-- The table `prescalers` of `writeReg`. -/
def prescalers : List Int := [1, 64, 256, 1024]

/-- `AGBCPU::writeReg`: whether the write was consumed, and the state after it. -/
def writeReg (s : AGBCPU) (addr data : Nat) : Option (Bool × AGBCPU) :=
  if s.displayWriteReg addr data || s.apuWriteReg addr data then some (true, s)
  else
    let a := addr &&& 0xFFFFFF
    if a = IO_DMA0CNT_H ∨ a = IO_DMA0CNT_H + 12 ∨ a = IO_DMA0CNT_H + 24 ∨ a = IO_DMA0CNT_H + 36 then
      let index := (a - IO_DMA0CNT_H) / 12
      if data &&& DMACNTH_Enable ≠ 0 then
        if data &&& DMACNTH_Start = 0 then
          some (false, { s with dmaTriggered := (s.dmaTriggered ||| (1 <<< index)) % 256 })
        else some (false, s)
      else some (false, { s with dmaTriggered := s.dmaTriggered &&& bnot32 (1 <<< index) })
    else if a = IO_TM0CNT_L ∨ a = IO_TM0CNT_L + 4 ∨ a = IO_TM0CNT_L + 8 ∨ a = IO_TM0CNT_L + 12 then
      -- sync
      s.updateTimers.map fun s => (false, s)
    else if a = IO_TM0CNT_H ∨ a = IO_TM0CNT_H + 4 ∨ a = IO_TM0CNT_H + 8 ∨ a = IO_TM0CNT_H + 12 then
      let index := (a - IO_TM0CNT_H) >>> 2
      -- sync
      s.updateTimers.map fun s =>
        if data &&& TMCNTH_Enable ≠ 0 then
          let s :=
            if s.mem.readIOReg (IO_TM0CNT_H + index * 4) &&& TMCNTH_Enable = 0 then
              -- reload counter
              { s with timerCounters := fun k =>
                  if k = index then s.mem.readIOReg (IO_TM0CNT_L + index * 4) else s.timerCounters k }
            else s
          let p : Int :=
            if data &&& TMCNTH_CountUp ≠ 0 then -1 -- magic value for count-up mode
            else prescalers.getD (data &&& TMCNTH_Prescaler) 0
          let s := { s with
            timerPrescalers := fun k => if k = index then p else s.timerPrescalers k,
            timerEnabled := (s.timerEnabled ||| (1 <<< index)) % 256 }
          if data &&& TMCNTH_IRQEnable ≠ 0 then
            (false, { s with timerInterruptEnabled := (s.timerInterruptEnabled ||| (1 <<< index)) % 256 })
          else
            (false, { s with timerInterruptEnabled := s.timerInterruptEnabled &&& bnot32 (1 <<< index) })
        else
          (false, { s with
            timerEnabled := s.timerEnabled &&& bnot32 (1 <<< index),
            timerInterruptEnabled := s.timerInterruptEnabled &&& bnot32 (1 <<< index) })
    else if a = IO_IE then
      let s := { s with enabledInterrutps := if s.mem.readIOReg IO_IME &&& 1 ≠ 0 then data % 65536 else 0 }
      some (false, { s with currentInterrupts := s.enabledInterrutps &&& s.mem.readIOReg IO_IF })
    else if a = IO_IF then
      -- writing IF bits clears them internally
      let data := s.mem.readIOReg IO_IF &&& bnot32 data
      let s := { s with mem := s.mem.writeIOReg IO_IF data }
      let cur := if s.mem.readIOReg IO_IME &&& 1 ≠ 0 then s.mem.readIOReg IO_IE &&& data else 0
      some (true, { s with currentInterrupts := cur })
    else if a = IO_IME then
      let s := { s with enabledInterrutps := if data &&& 1 ≠ 0 then s.mem.readIOReg IO_IE else 0 }
      some (false, { s with currentInterrupts := s.enabledInterrutps &&& s.mem.readIOReg IO_IF })
    else some (false, s)

/-! ### Bus reads (`AGBMemory::read<T>`); the width `w` is `sizeof(T)` -/

/-- `AGBMemory::doRead<T>` on a buffer of `size` bytes. -/
def doRead (b : Nat → Nat) (size addr w : Nat) : Nat :=
  -- use size of type for alignment
  loadLE b (addr &&& (size - w)) w

/-- `AGBMemory::doWrite<T>` on a buffer of `size` bytes. -/
def doWrite (b : Nat → Nat) (size addr w data : Nat) : Nat → Nat :=
  -- use size of type for alignment
  storeLE b (addr &&& (size - w)) w data

/-- `AGBMemory::doOpenRead<T>`. -/
def doOpenRead (w : Nat) : Nat := 0xBADADD55 % 256 ^ w

/-- `AGBMemory::doBIOSRead<T>`; a load that runs past the 16 KiB buffer is `none`. -/
def doBIOSRead (s : AGBCPU) (addr w : Nat) : Option Nat :=
  s.mem.derefRead (some ⟨.bios, addr &&& (0x4000 - 1)⟩) w

/-- `AGBMemory::doIORead<T>` for 8 and 16 bits. -/
def doIORead16 (s : AGBCPU) (addr w : Nat) : Option (Nat × AGBCPU) :=
  -- IO regs don't mirror
  if addr ≥ 0x4000400 then some (doOpenRead w, s)
  else (s.readReg (addr &&& 0xFFFFFF) (doRead s.mem.ioRegs 0x400 addr w)).map
    fun r => (r.1 % 256 ^ w, r.2)

/-- `AGBMemory::doIORead<uint32_t>`. -/
def doIORead32 (s : AGBCPU) (addr : Nat) : Option (Nat × AGBCPU) :=
  -- split for the callback
  match s.doIORead16 (addr &&& bnot32 3) 2 with
  | none => none
  | some (lo, s) =>
    match s.doIORead16 ((addr &&& bnot32 3) + 2) 2 with
    | none => none
    | some (hi, s) => some (lo ||| (hi <<< 16), s)

/-- `AGBMemory::doVRAMRead<T>`. -/
def doVRAMRead (s : AGBCPU) (addr w : Nat) : Nat :=
  let addr := addr &&& (0x20000 - w)
  -- last 32K is the previous 32K
  let addr := if addr ≥ 0x18000 then addr &&& bnot32 0x8000 else addr
  loadLE s.mem.vram addr w

/-- `AGBMemory::doROMRead<T>`; a load that runs past the cartridge image is `none`. -/
def doROMRead (s : AGBCPU) (addr w : Nat) : Option Nat :=
  let addr := addr &&& (0x2000000 - w)
  if addr ≥ s.mem.cartROMSize then
    -- out of bounds rom access returns low bits of address
    let addrLow := (addr >>> 1) &&& 0xFFFF
    if w = 1 then some ((addrLow >>> ((addr &&& 1) * 8)) % 256)
    else some ((addrLow ||| (((addrLow + 1) <<< 16) % 4294967296)) % 256 ^ w)
  else s.mem.derefRead (some ⟨.rom, addr⟩) w

/-- `AGBMemory::doROMOrEEPROMRead<T>`. -/
def doROMOrEEPROMRead (s : AGBCPU) (addr w : Nat) : Option Nat :=
  -- 16-bit read from high ROM addr could be EEPROM
  if w = 2 ∧ s.mem.saveType = .EEPROM then some (s.mem.eepromOutBits ((addr &&& 0xFF) >>> 1) % 65536)
  -- usually just ROM
  else s.doROMRead addr w

/-- `AGBMemory::doSRAMRead<uint8_t>`; an index past the save buffer is `none`. -/
def doSRAMRead8 (s : AGBCPU) (addr : Nat) : Option Nat :=
  -- the only valid width
  match s.mem.saveType with
  | .Unknown => some 0xFF
  | .EEPROM => some 0xFF
  | .RAM => some (s.mem.cartSaveData (addr &&& 0x7FFF) % 256) -- SRAM is 32k
  | .Flash =>
    if s.mem.flashState = .ID then some (s.mem.flashID (addr &&& 1) % 256)
    -- 1-2 64k banks
    else s.mem.derefRead (some ⟨.save, (addr &&& 0xFFFF) + (s.mem.flashBank <<< 16)⟩) 1

/-- `AGBMemory::doSRAMRead<T>`. -/
def doSRAMRead (s : AGBCPU) (addr w : Nat) : Option Nat :=
  if w = 1 then s.doSRAMRead8 addr
  else (s.doSRAMRead8 addr).map fun byte =>
    (byte ||| (byte <<< 8) ||| (byte <<< 16) ||| (byte <<< 24)) % 256 ^ w

/-- `AGBMemory::read<T>` (`read8`, `read16`, `read32` for `w` = 1, 2, 4): the value and the
state after the read. -/
def memRead (s : AGBCPU) (addr w : Nat) : Option (Nat × AGBCPU) :=
  let top := addr >>> 24
  if top = 0x0 then (s.doBIOSRead addr w).map fun v => (v, s)
  else if top = 0x1 then some (doOpenRead w, s) -- unused
  else if top = 0x2 then some (doRead s.mem.ewram 0x40000 addr w, s)
  else if top = 0x3 then some (doRead s.mem.iwram 0x8000 addr w, s)
  else if top = 0x4 then (if w = 4 then s.doIORead32 addr else s.doIORead16 addr w) -- IO
  else if top = 0x5 then some (doRead s.mem.palRAM 0x400 addr w, s)
  else if top = 0x6 then some (s.doVRAMRead addr w, s)
  else if top = 0x7 then some (doRead s.mem.oam 0x400 addr w, s)
  else if 0x8 ≤ top ∧ top ≤ 0xC then (s.doROMRead addr w).map fun v => (v, s)
  else if top = 0xD then (s.doROMOrEEPROMRead addr w).map fun v => (v, s)
  else if top = 0xE ∨ top = 0xF then (s.doSRAMRead addr w).map fun v => (v, s)
  else some (doOpenRead w, s)

/-! ### Bus writes (`AGBMemory::write<T>`) -/

/-- `AGBMemory::doIOWrite<T>` for 8 and 16 bits. -/
def doIOWrite16 (s : AGBCPU) (addr w data : Nat) : Option AGBCPU :=
  if addr ≥ 0x4000400 then some s
  else
    match s.writeReg (addr &&& 0xFFFFFF) (data % 256 ^ w) with
    | none => none
    | some (true, s) => some s
    | some (false, s) =>
      some { s with mem := { s.mem with ioRegs := doWrite s.mem.ioRegs 0x400 addr w data } }

/-- `AGBMemory::doIOWrite<uint32_t>`. -/
def doIOWrite32 (s : AGBCPU) (addr data : Nat) : Option AGBCPU :=
  -- split
  (s.doIOWrite16 addr 2 (data % 65536)).bind fun s =>
    s.doIOWrite16 ((addr + 2) % 4294967296) 2 ((data >>> 16) % 65536)

/-- `AGBMemory::doPalRAMWrite<T>`. -/
def doPalRAMWrite (s : AGBCPU) (addr w data : Nat) : AGBCPU :=
  if w = 1 then
    -- writes byte value to halfword
    { s with mem := { s.mem with
        palRAM := doWrite s.mem.palRAM 0x400 addr 2 (data % 256 ||| ((data % 256) <<< 8)) } }
  else { s with mem := { s.mem with palRAM := doWrite s.mem.palRAM 0x400 addr w data } }

/-- `AGBMemory::doVRAMWrite<T>`. -/
def doVRAMWrite (s : AGBCPU) (addr w data : Nat) : AGBCPU :=
  if w = 1 then
    -- "background" VRAM, same as palette ram
    if addr &&& 0x1FFFF < 0x10000 then
      { s with mem := { s.mem with
          vram := storeLE s.mem.vram (addr &&& 0xFFFE) 2 (data % 256 ||| ((data % 256) <<< 8)) } }
    -- else ignored
    else s
  else
    let addr := addr &&& (0x20000 - w)
    -- last 32K is the previous 32K
    let addr := if addr ≥ 0x18000 then addr &&& bnot32 0x8000 else addr
    { s with mem := { s.mem with vram := storeLE s.mem.vram addr w data } }

/-- `AGBMemory::doOAMWrite<T>`. -/
def doOAMWrite (s : AGBCPU) (addr w data : Nat) : AGBCPU :=
  if w = 1 then s -- ignored
  else { s with mem := { s.mem with oam := doWrite s.mem.oam 0x400 addr w data } }

/-- The block address `(eepromInBits[2] << 5) | ... | eepromInBits[7]` of
`doEEPROMWrite`, a `uint16_t`. -/
def eepromAddr (m : AGBMemory) : Nat :=
  (((m.eepromInBits 2 % 65536) <<< 5) ||| ((m.eepromInBits 3 % 65536) <<< 4)
    ||| ((m.eepromInBits 4 % 65536) <<< 3) ||| ((m.eepromInBits 5 % 65536) <<< 2)
    ||| ((m.eepromInBits 6 % 65536) <<< 1) ||| (m.eepromInBits 7 % 65536)) % 65536

/-- The loop `for(int i = 0; i < 64; i++) eepromOutBits[i + 4] = ...` of `doEEPROMWrite`,
from index `i` for `n` more passes. -/
def eepromOutLoop (data : Nat) : Nat → Nat → (Nat → Nat) → (Nat → Nat)
  | 0, _, out => out
  | n + 1, i, out =>
    eepromOutLoop data n (i + 1)
      (fun k => if k = i + 4 then (if data &&& (1 <<< (63 - i)) ≠ 0 then 1 else 0) else out k)

/-- The loop `for(int i = 0; i < 64; i++) data |= eepromInBits[i + 8] << (63 - i)` of
`doEEPROMWrite`, from index `i` for `n` more passes. -/
def eepromInLoop (inBits : Nat → Nat) : Nat → Nat → Nat → Nat
  | 0, _, data => data
  | n + 1, i, data =>
    eepromInLoop inBits n (i + 1)
      ((data ||| ((inBits (i + 8) % 65536) <<< (63 - i))) % 18446744073709551616)

/-- `AGBMemory::doEEPROMWrite<T>`; an access past the save buffer is `none`. -/
def doEEPROMWrite (s : AGBCPU) (addr w data : Nat) : Option AGBCPU :=
  -- 16-bit only
  if w ≠ 2 then some s
  else
    let m := s.mem
    let m := if m.saveType = .Unknown then { m with saveType := .EEPROM } else m
    if m.saveType ≠ .EEPROM then some { s with mem := m }
    else
      let m := { m with eepromInBits := fun k =>
        if k = (addr &&& 0xFF) >>> 1 then data % 65536 else m.eepromInBits k }
      -- TODO: 4k
      -- end of read request for 512b
      if addr &&& 0xFF = 0x10 ∧ m.eepromInBits 0 ≠ 0 ∧ m.eepromInBits 1 ≠ 0 then
        (m.derefRead (some ⟨.save, 8 * eepromAddr m⟩) 8).map fun data =>
          { s with mem := { m with eepromOutBits := eepromOutLoop data 64 0 m.eepromOutBits } }
      else if addr &&& 0xFF = 0x90 ∧ m.eepromInBits 0 ≠ 0 ∧ m.eepromInBits 1 = 0 then
        let data := eepromInLoop m.eepromInBits 64 0 0
        (m.derefWrite (some ⟨.save, 8 * eepromAddr m⟩) 8 data).map fun m =>
          { s with mem := { m with eepromOutBits := fun k => if k = 0 then 1 else m.eepromOutBits k } }
      else some { s with mem := m }

/-- `AGBMemory::writeFlash`; an access past the save buffer is `none`. -/
def writeFlash (m : AGBMemory) (addr data : Nat) : Option AGBMemory :=
  -- bank switch
  if m.flashState = .Bank ∧ addr = 0xE000000 then
    some { m with flashBank := data, flashState := .Read }
  -- write a byte
  else if m.flashState = .Write then
    (m.derefWrite (some ⟨.save, (addr &&& 0xFFFF) + (m.flashBank <<< 16)⟩) 1 data).map
      fun m => { m with flashState := .Read }
  -- parse commands
  else if m.flashCmdState = 0 ∧ addr = 0xE005555 ∧ data = 0xAA then
    some { m with flashCmdState := 1 }
  else if m.flashCmdState = 1 ∧ addr = 0xE002AAA ∧ data = 0x55 then
    some { m with flashCmdState := 2 }
  else if m.flashCmdState = 2 then
    let done : Option AGBMemory :=
      if data = 0x10 ∧ addr = 0xE005555 ∧ m.flashState = .Erase then
        -- erase all
        some { m with cartSaveData := fill m.cartSaveData 0 0x20000 0xFF, flashState := .Read }
      else if data = 0x30 ∧ m.flashState = .Erase then
        -- erase 4k sector
        let off := (addr &&& 0xF000) + (m.flashBank <<< 16)
        if off + 0x1000 ≤ 0x20000 then
          some { m with cartSaveData := fill m.cartSaveData off 0x1000 0xFF, flashState := .Read }
        else none
      else if data = 0x80 ∧ addr = 0xE005555 then
        some { m with flashState := .Erase } -- actual erase happens later
      else if data = 0x90 ∧ addr = 0xE005555 then
        -- TODO: ids - this is the 128k sanyo one
        some { m with
          flashID := fun k => if k = 0 then 0x62 else if k = 1 then 0x13 else m.flashID k,
          flashState := .ID }
      else if data = 0xA0 ∧ addr = 0xE005555 then some { m with flashState := .Write }
      else if data = 0xB0 ∧ addr = 0xE005555 then some { m with flashState := .Bank }
      else if data = 0xF0 ∧ addr = 0xE005555 then some { m with flashState := .Read }
      else some m
    done.map fun m => { m with flashCmdState := 0 }
  else some { m with flashCmdState := 0 }

/-- `AGBMemory::doSRAMWrite<uint8_t>`. -/
def doSRAMWrite8 (s : AGBCPU) (addr data : Nat) : Option AGBCPU :=
  let m := s.mem
  let m :=
    if m.saveType = .Unknown then
      if addr = 0xE005555 ∧ data = 0xAA then { m with saveType := .Flash }
      else { m with saveType := .RAM }
    else m
  if m.saveType = .Flash then (writeFlash m addr data).map fun m => { s with mem := m }
  -- RAM
  else some { s with mem := { m with cartSaveData := storeLE m.cartSaveData (addr &&& 0x7FFF) 1 data } }

/-- `AGBMemory::doSRAMWrite<T>`. -/
def doSRAMWrite (s : AGBCPU) (addr w data : Nat) : Option AGBCPU :=
  if w = 1 then s.doSRAMWrite8 addr (data % 256)
  else
    let shift := (addr &&& (w - 1)) * 8
    s.doSRAMWrite8 addr ((data >>> shift) % 256)

/-- `AGBMemory::write<T>` (`write8`, `write16`, `write32` for `w` = 1, 2, 4). -/
def memWrite (s : AGBCPU) (addr w data : Nat) : Option AGBCPU :=
  let top := addr >>> 24
  if top = 0x0 ∨ top = 0x1 then some s -- bios, unused
  else if top = 0x2 then
    some { s with mem := { s.mem with ewram := doWrite s.mem.ewram 0x40000 addr w data } }
  else if top = 0x3 then
    some { s with mem := { s.mem with iwram := doWrite s.mem.iwram 0x8000 addr w data } }
  else if top = 0x4 then (if w = 4 then s.doIOWrite32 addr data else s.doIOWrite16 addr w data) -- IO
  else if top = 0x5 then some (s.doPalRAMWrite addr w data)
  else if top = 0x6 then some (s.doVRAMWrite addr w data)
  else if top = 0x7 then some (s.doOAMWrite addr w data)
  else if 0x8 ≤ top ∧ top ≤ 0xC then some s
  else if top = 0xD then s.doEEPROMWrite addr w data
  else if top = 0xE ∨ top = 0xF then s.doSRAMWrite addr w data
  else some s

/-! ### Memory access of the core -/

/-- `AGBCPU::readMem16Aligned`. -/
def readMem16Aligned (s : AGBCPU) (addr : Nat) : Option (Nat × AGBCPU) :=
  if addr &&& 1 ≠ 0 then none -- assert((addr & 1) == 0)
  else s.memRead addr 2

/-- `AGBCPU::readMem8`. -/
def readMem8 (s : AGBCPU) (addr : Nat) : Option (Nat × AGBCPU) :=
  -- handle IO reads as 16-bit
  if addr >>> 24 = 0x4 then
    (s.memRead (addr &&& bnot32 1) 2).map fun r =>
      ((if addr &&& 1 ≠ 0 then r.1 >>> 8 else r.1) % 256, r.2)
  else s.memRead addr 1

/-- `AGBCPU::readMem16`. -/
def readMem16 (s : AGBCPU) (addr : Nat) : Option (Nat × AGBCPU) :=
  if addr &&& 1 = 0 then s.readMem16Aligned addr
  else
    -- this returns the 32-bit result of an unaligned 16-bit read
    (s.readMem16Aligned (addr &&& bnot32 1)).map fun r =>
      ((r.1 >>> 8) ||| ((r.1 <<< 24) % 4294967296), r.2)

/-- `AGBCPU::readMem32Aligned`. -/
def readMem32Aligned (s : AGBCPU) (addr : Nat) : Option (Nat × AGBCPU) :=
  if addr &&& 3 ≠ 0 then none -- assert((addr & 3) == 0)
  else if addr >>> 24 = 0x4 then -- IO
    match s.readMem16Aligned addr with
    | none => none
    | some (lo, s) =>
      match s.readMem16Aligned ((addr + 2) % 4294967296) with
      | none => none
      | some (hi, s) => some (lo ||| (hi <<< 16), s)
  else s.memRead addr 4

/-- `AGBCPU::readMem32`. -/
def readMem32 (s : AGBCPU) (addr : Nat) : Option (Nat × AGBCPU) :=
  if addr &&& 3 = 0 then s.readMem32Aligned addr
  else
    (s.readMem32Aligned (addr &&& bnot32 3)).map fun r =>
      let shift := (addr &&& 3) <<< 3
      ((r.1 >>> shift) ||| ((r.1 <<< (32 - shift)) % 4294967296), r.2)

/-- `AGBCPU::writeMem16`. -/
def writeMem16 (s : AGBCPU) (addr data : Nat) : Option AGBCPU :=
  let addr := addr &&& bnot32 1
  s.memWrite addr 2 (data % 65536)

/-- `AGBCPU::writeMem8`. -/
def writeMem8 (s : AGBCPU) (addr data : Nat) : Option AGBCPU :=
  let data := data % 256
  if addr >>> 24 = 0x4 then
    if addr = 0x4000301 then -- HALTCNT
      let s := if data &&& 0x80 ≠ 0 then s /- printf("STOP\n") -/ else { s with halted := true }
      s.memWrite addr 1 data
    else
      -- promote IO to 16-bit
      let tmp := s.mem.readIOReg ((addr &&& bnot32 1) &&& 0x3FF)
      s.writeMem16 (addr &&& bnot32 1)
        (if addr &&& 1 ≠ 0 then (tmp &&& 0xFF) ||| (data <<< 8) else (tmp &&& 0xFF00) ||| data)
  else s.memWrite addr 1 data

/-- `AGBCPU::writeMem32`. -/
def writeMem32 (s : AGBCPU) (addr data : Nat) : Option AGBCPU :=
  let addr := addr &&& bnot32 3
  if addr >>> 24 = 0x4 then
    (s.writeMem16 addr (data % 65536)).bind fun s =>
      s.writeMem16 (addr + 2) ((data >>> 16) % 65536)
  else s.memWrite addr 4 (data % 4294967296)

/-- `AGBCPU::updateARMPC`. -/
def updateARMPC (s : AGBCPU) : AGBCPU :=
  { s with
    armPCPtr := s.mem.mapAddressConst (s.loReg PC),
    pcSCycles := s.mem.getAccessCycles (s.loReg PC) 4 true,
    pcNCycles := s.mem.getAccessCycles (s.loReg PC) 4 false }

/-- `AGBCPU::updateTHUMBPC`. -/
def updateTHUMBPC (s : AGBCPU) (pc : Nat) : AGBCPU :=
  -- called when PC is updated in THUMB mode (except for incrementing)
  { s with
    thumbPCPtr := s.mem.mapAddressConst pc,
    pcSCycles := s.mem.getAccessCycles pc 2 true,
    pcNCycles := s.mem.getAccessCycles pc 2 false }

/-- The fetch `auto opcode = *armPCPtr++` of `executeARMInstruction`, with the assertion
`*armPCPtr == mem.read32Fast(pc)` before it: the opcode and the state with the pointer
advanced. -/
def fetchARM (s : AGBCPU) : Option (Nat × AGBCPU) :=
  match s.mem.derefRead s.armPCPtr 4, s.mem.read32Fast (s.loReg PC) with
  | some opcode, some v =>
    if opcode = v then
      some (opcode, { s with armPCPtr := s.armPCPtr.map fun p => { p with off := p.off + 4 } })
    else none
  | _, _ => none

/-- The fetch `auto opcode = *thumbPCPtr++` of `executeTHUMBInstruction`, with the
assertions `!(pc & 1)` and `*thumbPCPtr == mem.read16Fast(pc)` before it. -/
def fetchTHUMB (s : AGBCPU) : Option (Nat × AGBCPU) :=
  if s.loReg PC &&& 1 ≠ 0 then none
  else
    match s.mem.derefRead s.thumbPCPtr 2, s.mem.read16Fast (s.loReg PC) with
    | some opcode, some v =>
      if opcode = v then
        some (opcode, { s with thumbPCPtr := s.thumbPCPtr.map fun p => { p with off := p.off + 2 } })
      else none
    | _, _ => none

/-! ### The ARM data-processing helpers -/

/-- The `switch(shiftType)` of the lambda `getShiftedReg`: the operand `ret` shifted by
`shiftAmount ≥ 1` as the shift field `shift` says, and the carry out.  `maskCount` selects
the host's treatment of the shift by 32 in the ROR expression (see `shl32`). -/
def shiftSwitch (maskCount : Bool) (cpsr ret shift shiftAmount : Nat) : Nat × Bool :=
  let shiftType := (shift >>> 1) &&& 3
  if shiftType = 0 then -- LSL
    if shiftAmount ≥ 32 then
      (0, if shiftAmount = 32 then decide (ret &&& 1 ≠ 0) else false)
    else
      ((ret <<< shiftAmount) % 4294967296, decide (ret &&& (1 <<< (32 - shiftAmount)) ≠ 0))
  else if shiftType = 1 then -- LSR
    if shiftAmount ≥ 32 then
      (0, if shiftAmount = 32 then decide (ret &&& (1 <<< 31) ≠ 0) else false)
    else
      (ret >>> shiftAmount, decide (ret &&& (1 <<< (shiftAmount - 1)) ≠ 0))
  else if shiftType = 2 then -- ASR
    let sign := ret &&& signBit
    if shiftAmount ≥ 32 then
      (if sign ≠ 0 then 0xFFFFFFFF else 0, decide (sign ≠ 0))
    else
      (asr32 ret shiftAmount, decide (ret &&& (1 <<< (shiftAmount - 1)) ≠ 0))
  else
    if shift &&& 1 = 0 ∧ shiftAmount = 32 then -- RRX (immediate 0)
      let carry := decide (ret &&& 1 ≠ 0) -- carry out
      let ret := ret >>> 1
      -- carry in
      let ret := if cpsr &&& Flag_C ≠ 0 then ret ||| 0x80000000 else ret
      (ret, carry)
    else -- ROR
      let shiftAmount := shiftAmount &&& 0x1F
      let ret := (ret >>> shiftAmount) ||| shl32 maskCount ret (32 - (shiftAmount : Int))
      (ret, decide (ret &&& (1 <<< 31) ≠ 0))

/-- The lambda `getShiftedReg` of `executeARMInstruction`: the shifted operand and the
carry out; `none` when the assertion on a register-specified shift fails. -/
def getShiftedReg (maskCount : Bool) (s : AGBCPU) (r shift : Nat) : Option (Nat × Bool) :=
  let ret := s.reg r
  -- prefetch
  let ret := if r = PC then (ret + (if shift &&& 1 ≠ 0 then 8 else 4)) % 4294967296 else ret
  -- left shift by immediate 0, do nothing and preserve carry
  if shift = 0 then some (ret, decide (s.cpsr &&& Flag_C ≠ 0))
  else if shift &&& 1 ≠ 0 then
    if shift &&& (1 <<< 3) ≠ 0 then none -- assert((shift & (1 << 3)) == 0)
    else
      let shiftAmount := s.reg (shift >>> 4) &&& 0xFF
      if shiftAmount = 0 then some (ret, decide (s.cpsr &&& Flag_C ≠ 0))
      else some (shiftSwitch maskCount s.cpsr ret shift shiftAmount)
  else
    let shiftAmount := shift >>> 3
    -- lsr/asr shift by 32 instead of 0
    let shiftAmount := if shiftAmount = 0 then 32 else shiftAmount
    some (shiftSwitch maskCount s.cpsr ret shift shiftAmount)

/-- The lambda `doAdd` of `doALUOp`: the result and the state with the flags set; `none`
when the carry assertion fails. -/
def doAdd (s : AGBCPU) (a b c : Nat) : Option (Nat × AGBCPU) :=
  let res := (a + b + c) % 4294967296
  let carry := decide (res < a) || (decide (res = a) && decide (c ≠ 0)) -- for adc
  -- same sign and sign changed
  let overflow := !decide ((a ^^^ b) &&& signBit ≠ 0) && decide ((a ^^^ res) &&& signBit ≠ 0)
  if carry ≠ decide ((a + b + c) % 18446744073709551616 &&& (1 <<< 32) ≠ 0) then none
  else
    let cpsr := (s.cpsr &&& 0x0FFFFFFF) ||| flagIf (decide (res &&& signBit ≠ 0)) Flag_N
      ||| flagIf (decide (res = 0)) Flag_Z ||| flagIf carry Flag_C ||| flagIf overflow Flag_V
    some (res, { s with cpsr := cpsr })

/-- The lambda `doSub` of `doALUOp`: the result and the state with the flags set; `none`
when the carry assertion fails. -/
def doSub (s : AGBCPU) (a b c : Nat) : Option (Nat × AGBCPU) :=
  let res := sub32 (sub32 a b + c) 1
  let carry := !(decide (b > a) || (decide (b = a) && decide (c = 0))) -- for sbc
  -- different sign and sign changed
  let overflow := decide ((a ^^^ b) &&& signBit ≠ 0) && decide ((a ^^^ res) &&& signBit ≠ 0)
  if carry ≠ !decide ((a + (18446744073709551616 - b) + c + (18446744073709551616 - 1))
      % 18446744073709551616 &&& (1 <<< 32) ≠ 0) then none
  else
    let cpsr := (s.cpsr &&& 0x0FFFFFFF) ||| flagIf (decide (res &&& signBit ≠ 0)) Flag_N
      ||| flagIf (decide (res = 0)) Flag_Z ||| flagIf carry Flag_C ||| flagIf overflow Flag_V
    some (res, { s with cpsr := cpsr })

/-- The flag update of the logical operations of `doALUOp`:
`cpsr = (cpsr & ~(Flag_N | Flag_Z | Flag_C)) | (res & signBit) | (res == 0 ? Flag_Z : 0) |
(carry ? Flag_C : 0)`. -/
def logicFlags (s : AGBCPU) (res : Nat) (carry : Bool) : AGBCPU :=
  { s with cpsr := (s.cpsr &&& bnot32 (Flag_N ||| Flag_Z ||| Flag_C)) ||| (res &&& signBit)
      ||| flagIf (decide (res = 0)) Flag_Z ||| flagIf carry Flag_C }

/-- `AGBCPU::doALUOpNoCond`: the cycle count and the state. -/
def doALUOpNoCond (s : AGBCPU) (op destReg op1 op2 : Nat) : Nat × AGBCPU :=
  let c := if s.cpsr &&& Flag_C ≠ 0 then 1 else 0
  let s :=
    if op = 0x0 then s.setReg destReg (op1 &&& op2) -- AND
    else if op = 0x1 then s.setReg destReg (op1 ^^^ op2) -- EOR
    else if op = 0x2 then s.setReg destReg (sub32 op1 op2) -- SUB
    else if op = 0x3 then s.setReg destReg (sub32 op2 op1) -- RSB
    else if op = 0x4 then s.setReg destReg (op1 + op2) -- ADD
    else if op = 0x5 then s.setReg destReg (op1 + op2 + c) -- ADC
    else if op = 0x6 then s.setReg destReg (sub32 (sub32 op1 op2 + c) 1) -- SBC
    else if op = 0x7 then s.setReg destReg (sub32 (sub32 op2 op1 + c) 1) -- RSC
    -- TST-CMN should not get here
    else if op = 0x8 ∨ op = 0x9 ∨ op = 0xA ∨ op = 0xB then s
    else if op = 0xC then s.setReg destReg (op1 ||| op2) -- ORR
    else if op = 0xD then s.setReg destReg op2 -- MOV
    else if op = 0xE then s.setReg destReg (op1 &&& bnot32 op2) -- BIC
    else s.setReg destReg (bnot32 op2) -- MVN
  let s := if destReg = PC then s.updateARMPC else s
  (s.pcSCycles, s)

/-- `AGBCPU::doALUOp`: the cycle count and the state. -/
def doALUOp (s : AGBCPU) (op destReg op1 op2 : Nat) (carry : Bool) : Option (Nat × AGBCPU) :=
  if destReg = PC then
    let (ret, s) := s.doALUOpNoCond op destReg op1 op2
    match s.getSPSR with
    | none => none
    | some v =>
      -- restore
      match ({ s with cpsr := v } : AGBCPU).modeChanged with
      | none => none
      | some s =>
        let s := if s.cpsr &&& Flag_T ≠ 0 then s.updateTHUMBPC (s.reg PC) else s
        some (ret, s)
  else
    let c := if s.cpsr &&& Flag_C ≠ 0 then 1 else 0
    let r : Option AGBCPU :=
      if op = 0x0 then some ((s.setReg destReg (op1 &&& op2)).logicFlags (op1 &&& op2) carry) -- AND
      else if op = 0x1 then some ((s.setReg destReg (op1 ^^^ op2)).logicFlags (op1 ^^^ op2) carry) -- EOR
      else if op = 0x2 then (s.doSub op1 op2 1).map fun r => r.2.setReg destReg r.1 -- SUB
      else if op = 0x3 then (s.doSub op2 op1 1).map fun r => r.2.setReg destReg r.1 -- RSB
      else if op = 0x4 then (s.doAdd op1 op2 0).map fun r => r.2.setReg destReg r.1 -- ADD
      else if op = 0x5 then (s.doAdd op1 op2 c).map fun r => r.2.setReg destReg r.1 -- ADC
      else if op = 0x6 then (s.doSub op1 op2 c).map fun r => r.2.setReg destReg r.1 -- SBC
      else if op = 0x7 then (s.doSub op2 op1 c).map fun r => r.2.setReg destReg r.1 -- RSC
      else if op = 0x8 then some (s.logicFlags (op1 &&& op2) carry) -- TST
      else if op = 0x9 then some (s.logicFlags (op1 ^^^ op2) carry) -- TEQ
      else if op = 0xA then (s.doSub op1 op2 1).map fun r => r.2 -- CMP
      else if op = 0xB then (s.doAdd op1 op2 0).map fun r => r.2 -- CMN
      else if op = 0xC then some ((s.setReg destReg (op1 ||| op2)).logicFlags (op1 ||| op2) carry) -- ORR
      else if op = 0xD then some ((s.setReg destReg op2).logicFlags op2 carry) -- MOV
      else if op = 0xE then
        some ((s.setReg destReg (op1 &&& bnot32 op2)).logicFlags (op1 &&& bnot32 op2) carry) -- BIC
      else some ((s.setReg destReg (bnot32 op2)).logicFlags (bnot32 op2) carry) -- MVN
    r.map fun s => (s.pcSCycles, s)

/-! ### ARM: halfword, single and block data transfer -/

/-- C++ `opcode & (1 << n)` as a condition. -/
def bitSet (x n : Nat) : Bool := decide (x &&& (1 <<< n) ≠ 0)

/-- Sign extension of the low `n` bits of `x` to 32 bits (`static_cast<int8_t>`,
`static_cast<int16_t>` assigned to a `uint32_t`). -/
def signExtend (n x : Nat) : Nat :=
  if (x % 2 ^ n) &&& (1 <<< (n - 1)) ≠ 0 then (x % 2 ^ n) + (4294967296 - 2 ^ n) else x % 2 ^ n

/-- The lambda `halfwordTransfer` of `executeARMInstruction`: the cycle count and the
state. -/
def halfwordTransfer (s : AGBCPU) (opcode : Nat) (isPre : Bool) : Option (Nat × AGBCPU) :=
  let baseReg := s.mapReg ((opcode >>> 16) &&& 0xF)
  let srcDestReg := s.mapReg ((opcode >>> 12) &&& 0xF)
  let offset? : Option Nat :=
    if bitSet opcode 22 then some (((opcode >>> 4) &&& 0xF0) ||| (opcode &&& 0xF)) -- immediate
    else if opcode &&& 0xF00 ≠ 0 then none -- assert((opcode & 0xF00) == 0)
    else some (s.reg (opcode &&& 0xF))
  match offset? with
  | none => none
  | some offset =>
    let offset := if !bitSet opcode 23 then sub32 0 offset else offset -- !up
    let addr := s.loReg baseReg
    -- pc offset
    let addr := if baseReg = PC then (addr + 4) % 4294967296 else addr
    -- get value for store before write back
    let val := s.loReg srcDestReg
    let pre : Option (Nat × AGBCPU) :=
      if isPre then
        let addr := (addr + offset) % 4294967296
        some (addr, if bitSet opcode 21 then s.setLoReg baseReg addr else s) -- write back
      else if bitSet opcode 21 then none -- assert(!(opcode & (1 << 21)))
      else some (addr, s.setLoReg baseReg (s.loReg baseReg + offset)) -- always writes back
    match pre with
    | none => none
    | some (addr, s) =>
      if bitSet opcode 20 then -- load
        let sign := bitSet opcode 6
        let halfWords := bitSet opcode 5
        let loaded : Option (Nat × AGBCPU) :=
          if halfWords ∧ !sign then s.readMem16 addr -- LDRH
          else if halfWords ∧ addr &&& 1 = 0 then -- LDRSH (aligned)
            (s.readMem16Aligned addr).map fun r => (signExtend 16 r.1, r.2)
          else (s.readMem8 addr).map fun r => (signExtend 8 r.1, r.2) -- LDRSB ... or misaligned LDRSH
        loaded.map fun r =>
          let s := r.2.setLoReg srcDestReg r.1
          -- 1S + 1N + 1I
          (s.pcSCycles + s.mem.getAccessCycles addr (if halfWords then 2 else 1) false + 1, s)
      else
        -- only unsigned halfword stores
        if !bitSet opcode 5 ∨ bitSet opcode 6 then none
        else
          let val := if srcDestReg = PC then val + 8 else val
          (s.writeMem16 addr val).map fun s => -- STRH
            (s.pcNCycles + s.mem.getAccessCycles addr 2 false, s)

/-- The lambda `doSingleDataTransfer` of `executeARMInstruction`. -/
def doSingleDataTransfer (maskCount : Bool) (s : AGBCPU) (opcode : Nat) (isReg isPre : Bool) :
    Option (Nat × AGBCPU) :=
  let baseReg := s.mapReg ((opcode >>> 16) &&& 0xF)
  let srcDestReg := s.mapReg ((opcode >>> 12) &&& 0xF)
  let offset? : Option Nat :=
    if !isReg then some (opcode &&& 0xFFF) -- immediate
    else if bitSet opcode 4 then none -- no reg shift
    else (getShiftedReg maskCount s (opcode &&& 0xF) ((opcode >>> 4) &&& 0xFE)).map fun r => r.1
  match offset? with
  | none => none
  | some offset =>
    let offset := if !bitSet opcode 23 then sub32 0 offset else offset -- !up
    let addr := s.loReg baseReg
    -- pc offset
    let addr := if baseReg = PC then (addr + 4) % 4294967296 else addr
    -- get value for store before write back
    let val := s.loReg srcDestReg
    let pre : Option (Nat × AGBCPU) :=
      if isPre then
        let addr := (addr + offset) % 4294967296
        some (addr, if bitSet opcode 21 then s.setLoReg baseReg addr else s) -- write back
      else if bitSet opcode 21 then none -- non-privileged transfer
      else some (addr, s.setLoReg baseReg (s.loReg baseReg + offset)) -- always writes back
    match pre with
    | none => none
    | some (addr, s) =>
      let isByte := bitSet opcode 22
      if bitSet opcode 20 then -- load
        (if isByte then s.readMem8 addr else s.readMem32 addr).map fun r =>
          let s := r.2.setLoReg srcDestReg r.1
          let s := if srcDestReg = PC then s.updateARMPC else s
          -- 1S + 1N + 1I
          (s.pcSCycles + s.mem.getAccessCycles addr (if isByte then 1 else 4) false + 1, s)
      else
        let val := if srcDestReg = PC then val + 8 else val
        (if isByte then s.writeMem8 addr val else s.writeMem32 addr val).map fun s =>
          (s.pcNCycles + s.mem.getAccessCycles addr (if isByte then 1 else 4) false, s) -- 2N

/-- The loop `for(uint16_t t = regList; t; t >>= 1) if(t & 1) numRegs++;`
of `doBlockDataTransfer`; the fuel is the width of `t`. -/
def countRegs : Nat → Nat → Nat
  | 0, _ => 0
  | fuel + 1, t => if t = 0 then 0 else (if t &&& 1 ≠ 0 then 1 else 0) + countRegs fuel (t >>> 1)

/-- The values `doBlockDataTransfer` fixes before its transfer loop. -/
structure BlockArgs where
  isUp : Bool
  isLoadForce : Bool
  writeBack : Bool
  isLoad : Bool
  baseReg : Nat
  lowAddr : Nat
  highAddr : Nat

/-- The write back `if(first && writeBack) loReg(baseReg) = isUp ? highAddr : lowAddr;`
of the transfer loops. -/
def blockWriteBack (a : BlockArgs) (first : Bool) (s : AGBCPU) : AGBCPU :=
  if first ∧ a.writeBack then
    -- write back after first store
    s.setLoReg a.baseReg (if a.isUp then a.highAddr else a.lowAddr)
  else s

/-- The transfer loop `for(; regList; regList >>= 1, i++)` of `doBlockDataTransfer` for a
base register other than the current stack pointer; the fuel is the width of `regList`. -/
def blockLoopBus (a : BlockArgs) : Nat → Nat → Nat → Nat → Bool → AGBCPU → Option AGBCPU
  | 0, _, _, _, _, s => some s
  | fuel + 1, regList, i, addr, first, s =>
    if regList = 0 then some s
    else if regList &&& 1 = 0 then blockLoopBus a fuel (regList >>> 1) (i + 1) addr first s
    else
      -- directly index to force user
      let reg := if a.isLoadForce then i else s.mapReg i
      let moved : Option AGBCPU :=
        if a.isLoad then
          (s.readMem32Aligned (addr &&& bnot32 3)).map fun r => r.2.setLoReg reg r.1
        else if reg = PC then s.writeMem32 (addr &&& bnot32 3) (s.loReg reg + 8)
        else s.writeMem32 (addr &&& bnot32 3) (s.loReg reg)
      match moved with
      | none => none
      | some s =>
        blockLoopBus a fuel (regList >>> 1) (i + 1) ((addr + 4) % 4294967296) false
          (blockWriteBack a first s)

/-- The transfer loop `for(; regList && i < 16; regList >>= 1, i++)` of
`doBlockDataTransfer` for the current stack pointer as base: the words are moved through
the direct pointer `ptr`. -/
def blockLoopPtr (a : BlockArgs) : Nat → Nat → Nat → Option Ptr → Bool → AGBCPU → Option AGBCPU
  | 0, _, _, _, _, s => some s
  | fuel + 1, regList, i, ptr, first, s =>
    if regList = 0 then some s
    else if regList &&& 1 = 0 then blockLoopPtr a fuel (regList >>> 1) (i + 1) ptr first s
    else
      -- directly index to force user
      let reg := if a.isLoadForce then i else s.mapReg i
      let moved : Option AGBCPU :=
        if a.isLoad then (s.mem.derefRead ptr 4).map fun v => s.setLoReg reg v
        else if reg = PC then
          (s.mem.derefWrite ptr 4 ((s.loReg reg + 8) % 4294967296)).map fun m => { s with mem := m }
        else (s.mem.derefWrite ptr 4 (s.loReg reg)).map fun m => { s with mem := m }
      match moved with
      | none => none
      | some s =>
        blockLoopPtr a fuel (regList >>> 1) (i + 1) (ptr.map fun p => { p with off := p.off + 4 })
          false (blockWriteBack a first s)

/-- The lambda `doBlockDataTransfer` of `executeARMInstruction`. -/
def doBlockDataTransfer (s : AGBCPU) (opcode : Nat) (preIndex : Bool) : Option AGBCPU :=
  let isUp := bitSet opcode 23
  let isLoadForce := bitSet opcode 22
  let writeBack := bitSet opcode 21
  let isLoad := bitSet opcode 20
  let baseReg := s.mapReg ((opcode >>> 16) &&& 0xF)
  let regList := opcode % 65536
  -- TODO: load with r15 (mode change)
  if isLoadForce ∧ isLoad ∧ bitSet regList 15 then none
  else
    let addr := s.loReg baseReg
    -- count regs
    let numRegs := countRegs 16 regList
    let highAddr := (addr + numRegs * 4) % 4294967296
    -- flip decrement addressing around so that regs are stored in the right order
    let lowAddr := if !isUp then sub32 addr (numRegs * 4) else 0
    let addr :=
      if !isUp then (if !preIndex then (lowAddr + 4) % 4294967296 else lowAddr)
      else if preIndex then (addr + 4) % 4294967296
      else addr
    -- don't override
    let writeBack := if isLoad ∧ regList &&& (1 <<< baseReg) ≠ 0 then false else writeBack
    -- empty list loads/stores R15/PC ...and inc/decrements all the way
    let empty := decide (regList = 0)
    let regList := if empty then 1 <<< 15 else regList
    let highAddr := if empty ∧ isUp then (highAddr + 0x40) % 4294967296 else highAddr
    let addr := if empty ∧ !isUp then sub32 addr 0x40 else addr
    let lowAddr := if empty ∧ !isUp then sub32 addr (if preIndex then 0 else 4) else lowAddr
    let pcWritten := isLoad && bitSet regList 15
    let a : BlockArgs := ⟨isUp, isLoadForce, writeBack, isLoad, baseReg, lowAddr, highAddr⟩
    let done : Option AGBCPU :=
      if baseReg = s.curSP then
        -- stack push/pull, we can assume RAM
        blockLoopPtr a 16 regList 0 (s.mem.mapAddress (addr &&& bnot32 3)) true s
      else blockLoopBus a 16 regList 0 addr true s
    -- load PC
    done.map fun s => if pcWritten then s.updateARMPC else s

/-! ### ARM: decode and execute -/

/-- The condition switch of `executeARMInstruction`: `some true` when the instruction is
skipped (`return timing`), `none` for the reserved condition 0xF
(`assert(!"Invalid condition")`). -/
def condSkips (cpsr cond : Nat) : Option Bool :=
  let n := decide (cpsr &&& Flag_N ≠ 0)
  let z := decide (cpsr &&& Flag_Z ≠ 0)
  let c := decide (cpsr &&& Flag_C ≠ 0)
  let v := decide (cpsr &&& Flag_V ≠ 0)
  if cond = 0x0 then some (!z) -- equal
  else if cond = 0x1 then some z -- not equal
  else if cond = 0x2 then some (!c) -- carry set
  else if cond = 0x3 then some c -- carry clear
  else if cond = 0x4 then some (!n) -- negative
  else if cond = 0x5 then some n -- positive or zero
  else if cond = 0x6 then some (!v) -- overflow
  else if cond = 0x7 then some v -- no overflow
  else if cond = 0x8 then some (!c || z) -- unsigned higher
  else if cond = 0x9 then some (c && !z) -- unsigned lower or same
  else if cond = 0xA then some (n != v) -- greater or equal
  else if cond = 0xB then some (n == v) -- less than
  else if cond = 0xC then some (z || (n != v)) -- greater than
  else if cond = 0xD then some (!z && (n == v)) -- less than or equal
  else if cond = 0xE then some false -- always
  else none -- F is reserved

/-- The lambda `doDataProcessing` of `executeARMInstruction`. -/
def doDataProcessing (s : AGBCPU) (opcode op2 : Nat) (carry : Bool) (pcInc : Nat) :
    Option (Nat × AGBCPU) :=
  let op1Reg := (opcode >>> 16) &&& 0xF
  let op1 := s.reg op1Reg
  let op1 := if op1Reg = PC then (op1 + pcInc) % 4294967296 else op1
  let instOp := (opcode >>> 21) &&& 0xF
  let setCondCode := bitSet opcode 20
  let destReg := (opcode >>> 12) &&& 0xF
  if setCondCode then s.doALUOp instOp destReg op1 op2 carry
  else some (s.doALUOpNoCond instOp destReg op1 op2)

/-- The cycle term `iCycles` of the multiplies:
`prefix == 32 ? 1 : (4 - prefix / 8) + (accumulate ? 1 : 0)`. -/
def mulCycles (pfx : Nat) (accumulate : Bool) : Nat :=
  if pfx = 32 then 1 else (4 - pfx / 8) + (if accumulate then 1 else 0)

/-- The branch `if(opcode & (1 << 23)) // MULL/MLAL` of case 0x0 of
`executeARMInstruction`. -/
def armMultiplyLong (s : AGBCPU) (opcode : Nat) : Nat × AGBCPU :=
  let isSigned := bitSet opcode 22
  let accumulate := bitSet opcode 21
  let setCondCode := bitSet opcode 20
  let destHiReg := (opcode >>> 16) &&& 0xF
  let destLoReg := (opcode >>> 12) &&& 0xF
  let op2Reg := (opcode >>> 8) &&& 0xF
  let op1Reg := opcode &&& 0xF
  let op2 := s.reg op2Reg
  let res :=
    if isSigned then ((i32 (s.reg op1Reg) * i32 op2) % 18446744073709551616).toNat -- SMULL
    else s.reg op1Reg * op2 -- UMULL
  -- S/UMLAL
  let res :=
    if accumulate then (res + ((s.reg destHiReg <<< 32) ||| s.reg destLoReg)) % 18446744073709551616
    else res
  let s := s.setReg destHiReg (res >>> 32)
  let s := s.setReg destLoReg (res &&& 0xFFFFFFFF)
  -- v and c are meaningless
  let s :=
    if setCondCode then
      { s with cpsr := (s.cpsr &&& bnot32 (Flag_N ||| Flag_Z))
          ||| flagIf (decide (res &&& (1 <<< 63) ≠ 0)) Flag_N ||| flagIf (decide (res = 0)) Flag_Z }
    else s
  -- leading 0s or 1s
  let pfx := if isSigned ∧ op2 &&& (1 <<< 31) ≠ 0 then clz32 (bnot32 op2) else clz32 op2
  -- more cycles the more bytes are non 0/ff (or just non 0 for unsigned)
  (s.pcSCycles + mulCycles pfx accumulate + 1, s)

/-- The branch `else // MUL/MLA` of case 0x0 of `executeARMInstruction`. -/
def armMultiply (s : AGBCPU) (opcode : Nat) : Option (Nat × AGBCPU) :=
  let accumulate := bitSet opcode 21
  let setCondCode := bitSet opcode 20
  let destReg := (opcode >>> 16) &&& 0xF
  let op3Reg := (opcode >>> 12) &&& 0xF
  let op2Reg := (opcode >>> 8) &&& 0xF
  let op1Reg := opcode &&& 0xF
  let op2 := s.reg op2Reg
  let res := (s.reg op1Reg * op2) % 4294967296
  if !accumulate ∧ op3Reg ≠ 0 then none -- assert(op3Reg == Reg::R0), should be 0
  else
    let res := if accumulate then (res + s.reg op3Reg) % 4294967296 else res
    let s := s.setReg destReg res
    -- v is unaffected, c is meaningless
    let s :=
      if setCondCode then
        { s with cpsr := (s.cpsr &&& bnot32 (Flag_N ||| Flag_Z))
            ||| flagIf (decide (res &&& signBit ≠ 0)) Flag_N ||| flagIf (decide (res = 0)) Flag_Z }
      else s
    -- leading 0s or 1s
    let pfx := if op2 &&& (1 <<< 31) ≠ 0 then clz32 (bnot32 op2) else clz32 op2
    -- more cycles the more bytes are non 0/ff
    some (s.pcSCycles + mulCycles pfx accumulate, s)

/-- The register-operand tail of cases 0x0 and 0x1 of `executeARMInstruction`:
`getShiftedReg`, then `doDataProcessing(...) + (op2Shift & 1)`. -/
def armRegOperand (maskCount : Bool) (s : AGBCPU) (opcode : Nat) : Option (Nat × AGBCPU) :=
  let op2Shift := (opcode >>> 4) &&& 0xFF
  let op2Reg := opcode &&& 0xF
  -- reg arg2
  match getShiftedReg maskCount s op2Reg op2Shift with
  | none => none
  | some (op2, carry) =>
    (s.doDataProcessing opcode op2 carry (if op2Shift &&& 1 ≠ 0 then 8 else 4)).map
      fun r => (r.1 + (op2Shift &&& 1), r.2) -- +1I if shift by reg

/-- The rotated immediate of cases 0x2 and 0x3 of `executeARMInstruction`: the operand
and the carry.  With a rotate field of 0 the expression shifts left by 32 (see `shl32`). -/
def armImmediate (maskCount : Bool) (s : AGBCPU) (opcode : Nat) : Nat × Bool :=
  -- get the immediate value
  let op2 := opcode &&& 0xFF
  let shift := ((opcode >>> 8) &&& 0xF) * 2
  let op2 := (op2 >>> shift) ||| shl32 maskCount op2 (32 - (shift : Int))
  (op2, if shift ≠ 0 then decide (op2 &&& (1 <<< 31) ≠ 0) else decide (s.cpsr &&& Flag_C ≠ 0))

/-- The write `psr = (psr & ~mask) | (val & mask)` of MSR, to SPSR or to CPSR followed by
`modeChanged()`. -/
def armMSR (s : AGBCPU) (opcode val : Nat) : Option AGBCPU :=
  let isSPSR := bitSet opcode 22
  let wF := bitSet opcode 19
  -- 17/18 should be 0
  let wC := bitSet opcode 16
  let mask := (if wF then 0xFF000000 else 0) ||| (if wC then 0x000000FF else 0)
  if isSPSR then
    s.getSPSR.bind fun spsr => s.setSPSR ((spsr &&& bnot32 mask) ||| (val &&& mask))
  else ({ s with cpsr := (s.cpsr &&& bnot32 mask) ||| (val &&& mask) } : AGBCPU).modeChanged

/-- Case 0x0 of the opcode switch of `executeARMInstruction`: data processing with
register (and halfword transfer/multiply). -/
def armCase0 (maskCount : Bool) (s : AGBCPU) (opcode : Nat) : Option (Nat × AGBCPU) :=
  if (opcode >>> 4) &&& 9 = 9 then
    if (opcode >>> 5) &&& 3 ≠ 0 then s.halfwordTransfer opcode false -- halfword transfer
    else if bitSet opcode 23 then some (s.armMultiplyLong opcode) -- MULL/MLAL
    else s.armMultiply opcode -- MUL/MLA
  else armRegOperand maskCount s opcode

/-- Case 0x1 of the opcode switch of `executeARMInstruction`: data processing with
register (and branch exchange/swap); `timing` is the cycle count taken at fetch. -/
def armCase1 (maskCount : Bool) (s : AGBCPU) (opcode timing : Nat) : Option (Nat × AGBCPU) :=
  if opcode &&& 0x0FFFFF00 = 0x012FFF00 then -- Branch and Exchange (BX)
    let instOp := (opcode >>> 4) &&& 0xF
    if instOp ≠ 1 then none -- assert(instOp == 1)
    else
      let newPC := s.reg (opcode &&& 0xF)
      let s := s.setLoReg PC (newPC &&& 0xFFFFFFFE)
      if newPC &&& 1 ≠ 0 then
        let s := { s with cpsr := s.cpsr ||| Flag_T }
        some (timing, s.updateTHUMBPC (s.loReg PC))
      else some (timing, s.updateARMPC)
  else if (opcode >>> 4) &&& 9 = 9 then
    if (opcode >>> 5) &&& 3 ≠ 0 then s.halfwordTransfer opcode true -- halfword transfer
    else
      -- SWP
      let isByte := bitSet opcode 22
      let baseReg := (opcode >>> 16) &&& 0xF
      let destReg := (opcode >>> 12) &&& 0xF
      let srcReg := opcode &&& 0xF
      let addr := s.reg baseReg
      if isByte then
        match s.readMem8 addr with
        | none => none
        | some (v, s) => (s.writeMem8 addr (s.reg srcReg)).map fun s => (timing, s.setReg destReg v)
      else
        match s.readMem32 addr with
        | none => none
        | some (v, s) => (s.writeMem32 addr (s.reg srcReg)).map fun s => (timing, s.setReg destReg v)
  else
    let instOp := (opcode >>> 21) &&& 0xF
    let setCondCode := bitSet opcode 20
    if !setCondCode ∧ 0x8 ≤ instOp ∧ instOp ≤ 0xB then -- PSR Transfer
      let isSPSR := bitSet opcode 22
      if bitSet opcode 21 then -- MSR
        if opcode &&& 0xFFF0 ≠ 0xF000 then none
        else (s.armMSR opcode (s.reg (opcode &&& 0xF))).map fun s => (timing, s)
      else -- MRS
        if opcode &&& 0xF0FFF ≠ 0xF0000 then none
        else
          let destReg := (opcode >>> 12) &&& 0xF
          if isSPSR then s.getSPSR.map fun v => (timing, s.setReg destReg v)
          else some (timing, s.setReg destReg s.cpsr)
    else armRegOperand maskCount s opcode

/-- Case 0x3 of the opcode switch of `executeARMInstruction`: data processing with
immediate, but also possibly MSR. -/
def armCase3 (maskCount : Bool) (s : AGBCPU) (opcode timing : Nat) : Option (Nat × AGBCPU) :=
  let instOp := (opcode >>> 21) &&& 0xF
  let setCondCode := bitSet opcode 20
  let (op2, carry) := armImmediate maskCount s opcode
  if !setCondCode ∧ 0x8 ≤ instOp ∧ instOp ≤ 0xB then -- MSR
    if opcode &&& 0xF000 ≠ 0xF000 ∨ !bitSet opcode 21 then none
    else (s.armMSR opcode op2).map fun s => (timing, s)
  else s.doDataProcessing opcode op2 carry 4

/-- The branch offset `(static_cast<int32_t>(opcode & 0xFFFFFF) << 8) >> 6` of B and BL,
as a `uint32_t`. -/
def branchOffset (opcode : Nat) : Nat := asr32 (((opcode &&& 0xFFFFFF) <<< 8) % 4294967296) 6

/-- `AGBCPU::executeARMInstruction`: the cycle count and the state; `none` when an
assertion fails, a null or out-of-range pointer is dereferenced, or the opcode is
unhandled (`exit`). -/
def executeARMInstruction (maskCount : Bool) (s : AGBCPU) : Option (Nat × AGBCPU) :=
  match s.fetchARM with
  | none => none
  | some (opcode, s) =>
    let timing := s.pcSCycles
    let s := s.setLoReg PC (s.loReg PC + 4)
    let pc := s.loReg PC
    -- condition
    match condSkips s.cpsr (opcode >>> 28) with
    | none => none
    | some true => some (timing, s)
    | some false =>
      let op := (opcode >>> 24) &&& 0xF
      if op = 0x0 then armCase0 maskCount s opcode
      else if op = 0x1 then armCase1 maskCount s opcode timing
      else if op = 0x2 then -- data processing with immediate
        let (op2, carry) := armImmediate maskCount s opcode
        s.doDataProcessing opcode op2 carry 4
      else if op = 0x3 then armCase3 maskCount s opcode timing
      else if op = 0x4 then doSingleDataTransfer maskCount s opcode false false
      else if op = 0x5 then doSingleDataTransfer maskCount s opcode false true
      else if op = 0x6 then doSingleDataTransfer maskCount s opcode true false
      else if op = 0x7 then doSingleDataTransfer maskCount s opcode true true
      else if op = 0x8 then (s.doBlockDataTransfer opcode false).map fun s => (timing, s)
      else if op = 0x9 then (s.doBlockDataTransfer opcode true).map fun s => (timing, s)
      else if op = 0xA then -- Branch (B)
        let s := s.setLoReg PC (pc + branchOffset opcode + 4) -- prefetch
        some (timing, s.updateARMPC)
      else if op = 0xB then -- Branch with Link (BL)
        let s := s.setReg LR pc
        let s := s.setLoReg PC (pc + branchOffset opcode + 4) -- prefetch
        some (timing, s.updateARMPC)
      else if op = 0xF then -- SWI
        let ret := pc
        let s := { s with spsr := fun i => if i = 1 then s.cpsr else s.spsr i } -- svc
        let s := s.setLoReg PC 8
        -- supervisor mode
        match ({ s with cpsr := (s.cpsr &&& bnot32 0x1F) ||| Flag_I ||| 0x13 } : AGBCPU).modeChanged with
        | none => none
        | some s =>
          let s := s.updateARMPC
          some (timing, s.setLoReg s.curLR ret)
      else none -- printf("ARM op ..."); exit(0)

/-! ### THUMB: formats 1 to 6 -/

/-- The flag update `cpsr = (cpsr & 0x1FFFFFFF) | (res & signBit ? Flag_N : 0) |
(res == 0 ? Flag_Z : 0) | carry` of the format 1 shifts. -/
def shiftFlags (s : AGBCPU) (res carry : Nat) : AGBCPU :=
  { s with cpsr := (s.cpsr &&& 0x1FFFFFFF) ||| flagIf (decide (res &&& signBit ≠ 0)) Flag_N
      ||| flagIf (decide (res = 0)) Flag_Z ||| carry }

/-- `AGBCPU::doTHUMB01MoveShifted`. -/
def doTHUMB01MoveShifted (s : AGBCPU) (opcode : Nat) : Option (Nat × AGBCPU) :=
  let instOp := (opcode >>> 11) &&& 0x1
  let srcReg := (opcode >>> 3) &&& 7
  let dstReg := opcode &&& 7
  let offset := (opcode >>> 6) &&& 0x1F
  let res := s.loReg srcReg
  let (res, carry) :=
    if instOp = 0 then -- LSL
      if offset ≠ 0 then
        ((res <<< offset) % 4294967296, flagIf (decide (res &&& (1 <<< (32 - offset)) ≠ 0)) Flag_C)
      else (res, s.cpsr &&& Flag_C) -- preserve
    else -- LSR
      let offset := if offset = 0 then 32 else offset -- shift by 0 is really 32
      (if offset = 32 then 0 else res >>> offset,
        flagIf (decide (res &&& (1 <<< (offset - 1)) ≠ 0)) Flag_C)
  let s := s.setLoReg dstReg res
  some (s.pcSCycles, s.shiftFlags res carry)

/-- `AGBCPU::doTHUMB0102`. -/
def doTHUMB0102 (s : AGBCPU) (opcode : Nat) : Option (Nat × AGBCPU) :=
  let instOp := (opcode >>> 11) &&& 0x3
  let srcReg := (opcode >>> 3) &&& 7
  let dstReg := opcode &&& 7
  if instOp = 3 then -- format 2, add/sub
    let isImm := bitSet opcode 10
    let isSub := bitSet opcode 9
    let op1 := s.loReg srcReg
    let op2 := (opcode >>> 6) &&& 7
    let op2 := if !isImm then s.loReg op2 else op2
    let s := { s with cpsr := s.cpsr &&& 0x0FFFFFFF }
    let (res, carry, overflow) :=
      if isSub then
        let res := sub32 op1 op2
        (res, flagIf (!decide (res > op1)) Flag_C, ((op1 ^^^ op2) &&& (op1 ^^^ res)) &&& signBit)
      else
        let res := (op1 + op2) % 4294967296
        (res, flagIf (decide (res < op1)) Flag_C, (bnot32 (op1 ^^^ op2) &&& (op1 ^^^ res)) &&& signBit)
    let s := s.setLoReg dstReg res
    some (s.pcSCycles, { s with cpsr := s.cpsr ||| (flagIf (decide (res &&& signBit ≠ 0)) Flag_N
      ||| flagIf (decide (res = 0)) Flag_Z ||| carry ||| (overflow >>> 3)) })
  else -- format 1, move shifted register
    let offset := (opcode >>> 6) &&& 0x1F
    let res := s.loReg srcReg
    if instOp ≠ 2 then none -- others are handled elsewhere
    else
      let offset := if offset = 0 then 32 else offset
      let sign := res &&& signBit
      let carry := flagIf (decide (res &&& (1 <<< (offset - 1)) ≠ 0)) Flag_C
      let res := if offset = 32 then (if sign ≠ 0 then 0xFFFFFFFF else 0) else asr32 res offset
      let s := s.setLoReg dstReg res
      some (s.pcSCycles, s.shiftFlags res carry)

/-- The flag update `cpsr = (cpsr & ~(Flag_N | Flag_Z | Flag_C | Flag_V)) | (res & signBit) |
(res == 0 ? Flag_Z : 0) | carry | (overflow >> 3)` of the THUMB arithmetic. -/
def arithFlags (s : AGBCPU) (res carry overflow : Nat) : AGBCPU :=
  { s with cpsr := (s.cpsr &&& bnot32 (Flag_N ||| Flag_Z ||| Flag_C ||| Flag_V)) ||| (res &&& signBit)
      ||| flagIf (decide (res = 0)) Flag_Z ||| carry ||| (overflow >>> 3) }

/-- `AGBCPU::doTHUMB03`. -/
def doTHUMB03 (s : AGBCPU) (opcode : Nat) : Option (Nat × AGBCPU) :=
  let instOp := (opcode >>> 11) &&& 0x3
  let dstReg := (opcode >>> 8) &&& 7
  let offset := opcode &&& 0xFF
  let dst := s.loReg dstReg
  let s :=
    if instOp = 0 then -- MOV
      let s := s.setLoReg dstReg offset
      -- N not possible
      { s with cpsr := (s.cpsr &&& bnot32 (Flag_N ||| Flag_Z)) ||| flagIf (decide (offset = 0)) Flag_Z }
    else if instOp = 1 then -- CMP
      let res := sub32 dst offset
      -- offset cannot be negative, simplifies overflow checks
      s.arithFlags res (flagIf (!decide (res > dst)) Flag_C) ((dst &&& bnot32 res) &&& signBit)
    else if instOp = 2 then -- ADD
      let res := (dst + offset) % 4294967296
      (s.setLoReg dstReg res).arithFlags res (flagIf (decide (res < dst)) Flag_C)
        ((bnot32 dst &&& res) &&& signBit)
    else -- SUB
      let res := sub32 dst offset
      (s.setLoReg dstReg res).arithFlags res (flagIf (!decide (res > dst)) Flag_C)
        ((dst &&& bnot32 res) &&& signBit)
  some (s.pcSCycles, s)

/-- The flag update `cpsr = (cpsr & ~(Flag_N | Flag_Z)) | (res & signBit) |
(res == 0 ? Flag_Z : 0)` of the format 4 logical operations. -/
def nzFlags (s : AGBCPU) (res : Nat) : AGBCPU :=
  { s with cpsr := (s.cpsr &&& bnot32 (Flag_N ||| Flag_Z)) ||| (res &&& signBit)
      ||| flagIf (decide (res = 0)) Flag_Z }

/-- The flag update `cpsr = (cpsr & ~(Flag_C | Flag_N | Flag_Z)) | (res & signBit) |
(res == 0 ? Flag_Z : 0) | carry` of the format 4 shifts. -/
def nzcFlags (s : AGBCPU) (res carry : Nat) : AGBCPU :=
  { s with cpsr := (s.cpsr &&& bnot32 (Flag_C ||| Flag_N ||| Flag_Z)) ||| (res &&& signBit)
      ||| flagIf (decide (res = 0)) Flag_Z ||| carry }

/-- The flag update `cpsr = (cpsr & 0x0FFFFFFF) | (res & signBit) | (res == 0 ? Flag_Z : 0) |
carry | (overflow >> 3)` of the format 4 arithmetic. -/
def nzcvFlags (s : AGBCPU) (res carry overflow : Nat) : AGBCPU :=
  { s with cpsr := (s.cpsr &&& 0x0FFFFFFF) ||| (res &&& signBit)
      ||| flagIf (decide (res = 0)) Flag_Z ||| carry ||| (overflow >>> 3) }

/-- `AGBCPU::doTHUMB04ALU`.  `maskCount` selects the host's treatment of the shifts of ROR
whose count is outside `0..31` (see `shl32`). -/
def doTHUMB04ALU (maskCount : Bool) (s : AGBCPU) (opcode : Nat) : Option (Nat × AGBCPU) :=
  let instOp := (opcode >>> 6) &&& 0xF
  let srcReg := (opcode >>> 3) &&& 7
  let dstReg := opcode &&& 7
  let op1 := s.loReg dstReg
  let op2 := s.loReg srcReg
  if instOp = 0x0 then -- AND
    some (s.pcSCycles, (s.setReg dstReg (op1 &&& op2)).nzFlags (op1 &&& op2))
  else if instOp = 0x1 then -- EOR
    some (s.pcSCycles, (s.setReg dstReg (op1 ^^^ op2)).nzFlags (op1 ^^^ op2))
  else if instOp = 0x2 then -- LSL
    let carry := s.cpsr &&& Flag_C
    let (res, carry) :=
      if op2 ≥ 32 then (0, flagIf (decide ((if op2 = 32 then op1 &&& 1 else 0) ≠ 0)) Flag_C)
      else if op2 ≠ 0 then
        ((op1 <<< op2) % 4294967296, flagIf (decide (op1 &&& (1 <<< (32 - op2)) ≠ 0)) Flag_C)
      else (op1, carry)
    let s := s.setReg dstReg res
    some (s.pcSCycles + 1, s.nzcFlags res carry) -- +1I for shift by register
  else if instOp = 0x3 then -- LSR
    let carry := s.cpsr &&& Flag_C
    let (res, carry) :=
      if op2 ≥ 32 then (0, flagIf (decide ((if op2 = 32 then op1 &&& (1 <<< 31) else 0) ≠ 0)) Flag_C)
      else if op2 ≠ 0 then (op1 >>> op2, flagIf (decide (op1 &&& (1 <<< (op2 - 1)) ≠ 0)) Flag_C)
      else (op1, carry)
    let s := s.setReg dstReg res
    some (s.pcSCycles + 1, s.nzcFlags res carry)
  else if instOp = 0x4 then -- ASR
    let carry := s.cpsr &&& Flag_C
    let sign := op1 &&& signBit
    let (res, carry) :=
      if op2 ≥ 32 then (if sign ≠ 0 then 0xFFFFFFFF else 0, flagIf (decide (sign ≠ 0)) Flag_C)
      else if op2 ≠ 0 then (asr32 op1 op2, op1 &&& (1 <<< (op2 - 1)))
      else (op1, carry)
    let s := s.setReg dstReg res
    some (s.pcSCycles + 1, s.nzcFlags res carry)
  else if instOp = 0x5 then -- ADC
    let c := if s.cpsr &&& Flag_C ≠ 0 then 1 else 0
    let res := (op1 + op2 + c) % 4294967296
    let carry := flagIf (decide (res < op1) || (decide (res = op1) && decide (c ≠ 0))) Flag_C
    let overflow := bnot32 ((op1 ^^^ op2) &&& signBit) &&& ((op1 ^^^ res) &&& signBit)
    some (s.pcSCycles, (s.setReg dstReg res).nzcvFlags res carry overflow)
  else if instOp = 0x6 then -- SBC
    let c := if s.cpsr &&& Flag_C ≠ 0 then 1 else 0
    let res := sub32 (sub32 op1 op2 + c) 1
    let carry := flagIf (!(decide (op2 > op1) || (decide (op2 = op1) && decide (c = 0)))) Flag_C
    let overflow := ((op1 ^^^ op2) &&& signBit) &&& ((op1 ^^^ res) &&& signBit)
    some (s.pcSCycles, (s.setReg dstReg res).nzcvFlags res carry overflow)
  else if instOp = 0x7 then -- ROR
    let carry := s.cpsr &&& Flag_C
    let shift := op2 &&& 0x1F
    let carry :=
      if op2 ≠ 0 then flagIf (decide (op1 &&& shl32 maskCount 1 ((shift : Int) - 1) ≠ 0)) Flag_C
      else carry
    let res := (op1 >>> shift) ||| shl32 maskCount op1 (32 - (shift : Int))
    let s := s.setReg dstReg res
    some (s.pcSCycles + 1, s.nzcFlags res carry)
  else if instOp = 0x8 then -- TST
    some (s.pcSCycles, s.nzFlags (op1 &&& op2))
  else if instOp = 0x9 then -- NEG
    let res := sub32 0 op2
    let carry := flagIf (!decide (op2 > 0)) Flag_C -- ?
    let overflow := (op2 &&& signBit) &&& (res &&& signBit)
    some (s.pcSCycles, (s.setReg dstReg res).nzcvFlags res carry overflow)
  else if instOp = 0xA then -- CMP
    let res := sub32 op1 op2
    let carry := flagIf (!decide (op2 > op1)) Flag_C
    -- different signs and sign changed
    let overflow := ((op1 ^^^ op2) &&& signBit) &&& ((op1 ^^^ res) &&& signBit)
    some (s.pcSCycles, s.nzcvFlags res carry overflow)
  else if instOp = 0xB then -- CMN
    let res := (op1 + op2) % 4294967296
    let carry := flagIf (decide (res < op1)) Flag_C
    -- same signs and sign changed
    let overflow := bnot32 ((op1 ^^^ op2) &&& signBit) &&& ((op1 ^^^ res) &&& signBit)
    some (s.pcSCycles, s.nzcvFlags res carry overflow)
  else if instOp = 0xC then -- ORR
    some (s.pcSCycles, (s.setReg dstReg (op1 ||| op2)).nzFlags (op1 ||| op2))
  else if instOp = 0xD then -- MUL
    -- carry is meaningless, v is unaffected
    let res := (op1 * op2) % 4294967296
    let s := (s.setReg dstReg res).nzFlags res
    -- leading 0s or 1s
    let pfx := if op1 &&& (1 <<< 31) ≠ 0 then clz32 (bnot32 op1) else clz32 op1
    -- more cycles the more bytes are non 0/ff
    let iCycles := if pfx = 32 then 1 else 4 - pfx / 8
    some (s.pcSCycles + iCycles, s)
  else if instOp = 0xE then -- BIC
    some (s.pcSCycles, (s.setReg dstReg (op1 &&& bnot32 op2)).nzFlags (op1 &&& bnot32 op2))
  else -- MVN
    some (s.pcSCycles, (s.setReg dstReg (bnot32 op2)).nzFlags (bnot32 op2))

/-- `AGBCPU::doTHUMB05HiReg`. -/
def doTHUMB05HiReg (s : AGBCPU) (opcode : Nat) : Option (Nat × AGBCPU) :=
  let op := (opcode >>> 8) &&& 3
  let h1 := bitSet opcode 7
  let h2 := bitSet opcode 6
  let srcReg := ((opcode >>> 3) &&& 7) + (if h2 then 8 else 0)
  let dstReg := (opcode &&& 7) + (if h1 then 8 else 0)
  let src := s.reg srcReg
  let src := if srcReg = PC then (src + 2) % 4294967296 else src
  let s :=
    if op = 0 then -- ADD
      let s := s.setReg dstReg (s.reg dstReg + s.reg srcReg)
      if dstReg = PC then s.setReg dstReg (s.reg dstReg + 2) else s
    else if op = 1 then -- CMP
      let dst := s.reg dstReg
      let dst := if dstReg = PC then (dst + 2) % 4294967296 else dst
      let res := sub32 dst src
      let carry := !decide (src > dst)
      { s with cpsr := (s.cpsr &&& bnot32 (Flag_N ||| Flag_Z ||| Flag_C ||| Flag_V))
          ||| flagIf (decide (res &&& signBit ≠ 0)) Flag_N
          ||| flagIf (decide (res = 0)) Flag_Z
          ||| flagIf carry Flag_C
          ||| flagIf (decide ((dst ^^^ src) &&& signBit ≠ 0) && decide ((dst ^^^ res) &&& signBit ≠ 0)) Flag_V }
    else if op = 2 then s.setReg dstReg src -- MOV
    else -- BX
      let newPC := src
      let s := s.setLoReg PC (newPC &&& 0xFFFFFFFE)
      if newPC &&& 1 = 0 then
        ({ s with cpsr := s.cpsr &&& bnot32 Flag_T } : AGBCPU).updateARMPC
      else s.updateTHUMBPC (s.loReg PC)
  let s :=
    if dstReg = PC then
      let s := s.setLoReg PC (s.loReg PC &&& bnot32 1)
      s.updateTHUMBPC (s.loReg PC)
    else s
  some (s.pcSCycles, s)

/-- `AGBCPU::doTHUMB06PCRelLoad`. -/
def doTHUMB06PCRelLoad (s : AGBCPU) (opcode : Nat) : Option (Nat × AGBCPU) :=
  let dstReg := (opcode >>> 8) &&& 7
  let word := opcode &&& 0xFF
  -- pc + 4, bit 1 forced to 0
  let base := ((s.loReg PC + 2) % 4294967296) &&& bnot32 2
  (s.mem.read32Fast ((base + (word <<< 2)) % 4294967296)).map fun v =>
    let s := s.setLoReg dstReg v
    (s.pcSCycles + s.pcNCycles + 1, s)

/-- `AGBCPU::doTHUMB040506`. -/
def doTHUMB040506 (maskCount : Bool) (s : AGBCPU) (opcode : Nat) : Option (Nat × AGBCPU) :=
  if bitSet opcode 11 then s.doTHUMB06PCRelLoad opcode -- format 6, PC-relative load
  else if bitSet opcode 10 then s.doTHUMB05HiReg opcode -- format 5, Hi reg/branch exchange
  else doTHUMB04ALU maskCount s opcode -- format 4, alu

/-! ### THUMB: formats 7 to 13 -/

/-- The load tail of the THUMB load/store formats: assign the loaded value to
`loReg(dstReg)` and return `pcSCycles + mem.getAccessCycles(addr, width, false) + 1`. -/
def thumbLoaded (dstReg addr width : Nat) (r : Option (Nat × AGBCPU)) : Option (Nat × AGBCPU) :=
  r.map fun r =>
    let s := r.2.setLoReg dstReg r.1
    (s.pcSCycles + s.mem.getAccessCycles addr width false + 1, s)

/-- The store tail of the THUMB load/store formats:
`return pcNCycles + mem.getAccessCycles(addr, width, false)`. -/
def thumbStored (addr width : Nat) (r : Option AGBCPU) : Option (Nat × AGBCPU) :=
  r.map fun s => (s.pcNCycles + s.mem.getAccessCycles addr width false, s)

/-- `AGBCPU::doTHUMB0708`. -/
def doTHUMB0708 (s : AGBCPU) (opcode : Nat) : Option (Nat × AGBCPU) :=
  let offReg := (opcode >>> 6) &&& 7
  let baseReg := (opcode >>> 3) &&& 7
  let dstReg := opcode &&& 7
  let addr := (s.loReg baseReg + s.loReg offReg) % 4294967296
  if bitSet opcode 9 then -- format 8, load/store sign-extended byte/halfword
    let hFlag := bitSet opcode 11
    let signEx := bitSet opcode 10
    if signEx then
      if hFlag ∧ addr &&& 1 = 0 then -- LDRSH, (misaligned gets treated as a byte!)
        thumbLoaded dstReg addr 2 ((s.readMem16 addr).map fun r =>
          (if r.1 &&& 0x8000 ≠ 0 then r.1 ||| 0xFFFF0000 else r.1, r.2))
      else -- LDRSB
        -- a little off if this was a misaligned LDRSH
        thumbLoaded dstReg addr 1 ((s.readMem8 addr).map fun r =>
          (if r.1 &&& 0x80 ≠ 0 then r.1 ||| 0xFFFFFF00 else r.1, r.2))
    else
      if hFlag then thumbLoaded dstReg addr 2 (s.readMem16 addr) -- LDRH
      else thumbStored addr 2 (s.writeMem16 addr (s.loReg dstReg)) -- STRH
  else -- format 7, load/store with reg offset
    let isLoad := bitSet opcode 11
    let isByte := bitSet opcode 10
    if isLoad then
      if isByte then thumbLoaded dstReg addr 1 (s.readMem8 addr) -- LDRB
      else thumbLoaded dstReg addr 4 (s.readMem32 addr) -- LDR
    else
      if isByte then thumbStored addr 1 (s.writeMem8 addr (s.loReg dstReg)) -- STRB
      else thumbStored addr 4 (s.writeMem32 addr (s.loReg dstReg)) -- STR

/-- `AGBCPU::doTHUMB09LoadStoreWord`. -/
def doTHUMB09LoadStoreWord (s : AGBCPU) (opcode : Nat) : Option (Nat × AGBCPU) :=
  let isLoad := bitSet opcode 11
  let offset := (opcode >>> 6) &&& 0x1F
  let baseReg := (opcode >>> 3) &&& 7
  let dstReg := opcode &&& 7
  let addr := (s.loReg baseReg + (offset <<< 2)) % 4294967296
  if isLoad then thumbLoaded dstReg addr 4 (s.readMem32 addr) -- LDR
  else thumbStored addr 4 (s.writeMem32 addr (s.loReg dstReg)) -- STR

/-- `AGBCPU::doTHUMB09LoadStoreByte`. -/
def doTHUMB09LoadStoreByte (s : AGBCPU) (opcode : Nat) : Option (Nat × AGBCPU) :=
  let isLoad := bitSet opcode 11
  let offset := (opcode >>> 6) &&& 0x1F
  let baseReg := (opcode >>> 3) &&& 7
  let dstReg := opcode &&& 7
  let addr := (s.loReg baseReg + offset) % 4294967296
  if isLoad then thumbLoaded dstReg addr 1 (s.readMem8 addr) -- LDRB
  else thumbStored addr 1 (s.writeMem8 addr (s.loReg dstReg)) -- STRB

/-- `AGBCPU::doTHUMB10LoadStoreHalf`. -/
def doTHUMB10LoadStoreHalf (s : AGBCPU) (opcode : Nat) : Option (Nat × AGBCPU) :=
  let isLoad := bitSet opcode 11
  let offset := ((opcode >>> 6) &&& 0x1F) <<< 1
  let baseReg := (opcode >>> 3) &&& 7
  let dstReg := opcode &&& 7
  let addr := (s.loReg baseReg + offset) % 4294967296
  if isLoad then thumbLoaded dstReg addr 2 (s.readMem16 addr) -- LDRH
  else thumbStored addr 2 (s.writeMem16 addr (s.loReg dstReg)) -- STRH

/-- `AGBCPU::doTHUMB11SPRelLoadStore`. -/
def doTHUMB11SPRelLoadStore (s : AGBCPU) (opcode : Nat) : Option (Nat × AGBCPU) :=
  let isLoad := bitSet opcode 11
  let dstReg := (opcode >>> 8) &&& 7
  let word := (opcode &&& 0xFF) <<< 2
  let addr := (s.loReg s.curSP + word) % 4294967296
  if isLoad then
    thumbLoaded dstReg addr 4
      (if addr &&& 3 ≠ 0 then s.readMem32 addr else (s.mem.read32Fast addr).map fun v => (v, s))
  else thumbStored addr 4 (s.memWrite addr 4 (s.loReg dstReg))

/-- `AGBCPU::doTHUMB12LoadAddr`. -/
def doTHUMB12LoadAddr (s : AGBCPU) (opcode : Nat) : Option (Nat × AGBCPU) :=
  let isSP := bitSet opcode 11
  let dstReg := (opcode >>> 8) &&& 7
  let word := (opcode &&& 0xFF) <<< 2
  let s :=
    if isSP then s.setLoReg dstReg (s.loReg s.curSP + word)
    else s.setLoReg dstReg ((((s.loReg PC + 2) % 4294967296) &&& bnot32 2) + word) -- + 4, bit 1 forced to 0
  some (s.pcSCycles, s)

/-- `AGBCPU::doTHUMB13SPOffset`. -/
def doTHUMB13SPOffset (s : AGBCPU) (opcode : Nat) : Option (Nat × AGBCPU) :=
  let isNeg := bitSet opcode 7
  let off := (opcode &&& 0x7F) <<< 2
  let s :=
    if isNeg then s.setLoReg s.curSP (sub32 (s.loReg s.curSP) off)
    else s.setLoReg s.curSP (s.loReg s.curSP + off)
  some (s.pcSCycles, s)

/-! ### THUMB: formats 14 to 19 and the decoder -/

/-- The loop `for(; regList; regList >>= 1, i++)` of POP: loads through `ptr`; the result
is the pointer, the address and the state.  The fuel is the width of `regList`. -/
def popLoop : Nat → Nat → Nat → Option Ptr → Nat → AGBCPU → Option (Option Ptr × Nat × AGBCPU)
  | 0, _, _, ptr, addr, s => some (ptr, addr, s)
  | fuel + 1, regList, i, ptr, addr, s =>
    if regList = 0 then some (ptr, addr, s)
    else if regList &&& 1 ≠ 0 then
      match s.mem.derefRead ptr 4 with
      | none => none
      | some v =>
        popLoop fuel (regList >>> 1) (i + 1) (ptr.map fun p => { p with off := p.off + 4 })
          ((addr + 4) % 4294967296) (s.setLoReg i v)
    else popLoop fuel (regList >>> 1) (i + 1) ptr addr s

/-- The loop `for(; regList; regList >>= 1, i++)` of PUSH: stores through `ptr`. -/
def pushLoop : Nat → Nat → Nat → Option Ptr → AGBCPU → Option (Option Ptr × AGBCPU)
  | 0, _, _, ptr, s => some (ptr, s)
  | fuel + 1, regList, i, ptr, s =>
    if regList = 0 then some (ptr, s)
    else if regList &&& 1 ≠ 0 then
      match s.mem.derefWrite ptr 4 (s.loReg i) with
      | none => none
      | some m =>
        pushLoop fuel (regList >>> 1) (i + 1) (ptr.map fun p => { p with off := p.off + 4 })
          { s with mem := m }
    else pushLoop fuel (regList >>> 1) (i + 1) ptr s

/-- `AGBCPU::doTHUMB14PushPop`. -/
def doTHUMB14PushPop (s : AGBCPU) (opcode : Nat) : Option (Nat × AGBCPU) :=
  let isLoad := bitSet opcode 11
  let pclr := bitSet opcode 8 -- store LR/load PC
  let regList := opcode &&& 0xFF
  if isLoad then -- POP
    let addr := s.loReg s.curSP
    match popLoop 8 regList 0 (s.mem.mapAddress (addr &&& bnot32 3)) addr s with
    | none => none
    | some (ptr, addr, s) =>
      if pclr then
        (s.mem.derefRead ptr 4).map fun v =>
          let s := s.setLoReg PC (v &&& bnot32 1) -- ignore thumb bit
          let s := s.updateTHUMBPC (s.loReg PC)
          let s := s.setLoReg s.curSP (addr + 4)
          (s.pcSCycles, s)
      else
        let s := s.setLoReg s.curSP addr
        some (s.pcSCycles, s)
  else -- PUSH
    let addr := sub32 (s.loReg s.curSP) (if pclr then 4 else 0)
    -- offset
    let addr := sub32 addr (4 * countRegs 8 regList)
    let s := s.setLoReg s.curSP addr
    match pushLoop 8 regList 0 (s.mem.mapAddress (addr &&& bnot32 3)) s with
    | none => none
    | some (ptr, s) =>
      if pclr then
        (s.mem.derefWrite ptr 4 (s.loReg s.curLR)).map fun m => (s.pcSCycles, { s with mem := m })
      else some (s.pcSCycles, s)

/-- The transfer loop `for(; regList; regList >>= 1, i++)` of `doTHUMB15MultiLoadStore`;
the fuel is the width of `regList`. -/
def multiLoop (isLoad : Bool) (baseReg endAddr : Nat) :
    Nat → Nat → Nat → Nat → Bool → AGBCPU → Option AGBCPU
  | 0, _, _, _, _, s => some s
  | fuel + 1, regList, i, addr, first, s =>
    if regList = 0 then some s
    else if regList &&& 1 = 0 then
      multiLoop isLoad baseReg endAddr fuel (regList >>> 1) (i + 1) addr first s
    else
      let moved : Option AGBCPU :=
        if isLoad then (s.readMem32 addr).map fun r => r.2.setLoReg i r.1
        else s.writeMem32 addr (s.loReg i)
      match moved with
      | none => none
      | some s =>
        let s := if first then s.setReg baseReg endAddr else s
        multiLoop isLoad baseReg endAddr fuel (regList >>> 1) (i + 1) ((addr + 4) % 4294967296) false s

/-- `AGBCPU::doTHUMB15MultiLoadStore`. -/
def doTHUMB15MultiLoadStore (s : AGBCPU) (opcode : Nat) : Option (Nat × AGBCPU) :=
  let isLoad := bitSet opcode 11
  let baseReg := (opcode >>> 8) &&& 7
  let regList := opcode &&& 0xFF
  let addr := s.loReg baseReg
  if regList = 0 then
    -- empty list loads/stores PC... even though it isn't usually possible here
    let moved : Option AGBCPU :=
      if isLoad then
        (s.readMem32 (addr &&& bnot32 3)).map fun r =>
          let s := r.2.setLoReg PC r.1
          s.updateTHUMBPC (s.loReg PC)
      else s.writeMem32 (addr &&& bnot32 3) (s.loReg PC + 4)
    moved.map fun s =>
      let s := s.setReg baseReg (addr + 0x40)
      (s.pcSCycles, s)
  else
    let endAddr := (addr + 4 * countRegs 8 regList) % 4294967296
    let addr := addr &&& bnot32 3
    (multiLoop isLoad baseReg endAddr 8 regList 0 addr true s).map fun s => (s.pcSCycles, s)

/-- The condition switch of format 16: the value of `condVal`; `none` for the undefined
condition 0xE (`assert(!"Invalid THUMB cond")`). -/
def thumbCond (cpsr cond : Nat) : Option Bool :=
  let n := decide (cpsr &&& Flag_N ≠ 0)
  let z := decide (cpsr &&& Flag_Z ≠ 0)
  let c := decide (cpsr &&& Flag_C ≠ 0)
  let v := decide (cpsr &&& Flag_V ≠ 0)
  if cond = 0x0 then some z -- BEQ
  else if cond = 0x1 then some (!z) -- BNE
  else if cond = 0x2 then some c -- BCS
  else if cond = 0x3 then some (!c) -- BCC
  else if cond = 0x4 then some n -- BMI
  else if cond = 0x5 then some (!n) -- BPL
  else if cond = 0x6 then some v -- BVS
  else if cond = 0x7 then some (!v) -- BVC
  else if cond = 0x8 then some (c && !z) -- BHI
  else if cond = 0x9 then some (!c || z) -- BLS
  else if cond = 0xA then some (n == v) -- BGE
  else if cond = 0xB then some (n != v) -- BLT
  else if cond = 0xC then some (!z && (n == v)) -- BGT
  else if cond = 0xD then some (z || (n != v)) -- BLE
  else none -- E undefined, F is SWI

/-- `AGBCPU::doTHUMB1617`. -/
def doTHUMB1617 (s : AGBCPU) (opcode : Nat) : Option (Nat × AGBCPU) :=
  let cond := (opcode >>> 8) &&& 0xF
  if cond = 0xF then -- format 17, SWI
    let ret := s.loReg PC &&& bnot32 1
    let s := { s with spsr := fun i => if i = 1 then s.cpsr else s.spsr i } -- svc
    let s := s.setLoReg PC 8
    -- supervisor mode
    match ({ s with cpsr := (s.cpsr &&& bnot32 (0x1F ||| Flag_T)) ||| Flag_I ||| 0x13 } : AGBCPU).modeChanged with
    | none => none
    | some s =>
      let s := s.updateARMPC
      let s := s.setLoReg s.curLR ret
      some (s.pcSCycles * 2 + s.pcNCycles, s)
  else -- format 16, conditional branch
    let offset := signExtend 8 (opcode &&& 0xFF)
    match thumbCond s.cpsr cond with
    | none => none
    | some condVal =>
      let s :=
        if condVal then
          let s := s.setLoReg PC (s.loReg PC + offset * 2 + 2) -- prefetch
          s.updateTHUMBPC (s.loReg PC)
        else s
      some (s.pcSCycles * 2 + s.pcNCycles, s) -- 2S + 1N, probably a bit wrong for SWI

/-- `AGBCPU::doTHUMB18UncondBranch`. -/
def doTHUMB18UncondBranch (s : AGBCPU) (opcode : Nat) : Option (Nat × AGBCPU) :=
  -- sign extend and * 2
  let offset := asr32 (signExtend 16 ((opcode <<< 5) % 65536)) 4
  let s := s.setLoReg PC (s.loReg PC + offset + 2) -- prefetch
  let s := s.updateTHUMBPC (s.loReg PC)
  some (s.pcSCycles * 2 + s.pcNCycles, s) -- 2S + 1N

/-- `AGBCPU::doTHUMB19LongBranchLink`. -/
def doTHUMB19LongBranchLink (s : AGBCPU) (opcode : Nat) : Option (Nat × AGBCPU) :=
  let high := bitSet opcode 11
  let offset := opcode &&& 0x7FF
  if !high then -- first half
    let offset := offset <<< 12
    let offset := if offset &&& (1 <<< 22) ≠ 0 then offset ||| 0xFF800000 else offset -- sign extend
    let s := s.setLoReg s.curLR (s.loReg PC + 2 + offset)
    some (s.pcSCycles, s)
  else -- second half
    let temp := s.loReg PC
    let s := s.setLoReg PC (s.loReg s.curLR + (offset <<< 1))
    let s := s.setLoReg s.curLR (temp ||| 1) -- magic switch to thumb bit...
    let ret := s.pcNCycles
    let s := s.updateTHUMBPC (s.loReg PC)
    some (ret + s.pcSCycles * 2, s)

/-- `AGBCPU::executeTHUMBInstruction`: the cycle count and the state; `none` when an
assertion fails or a null or out-of-range pointer is dereferenced. -/
def executeTHUMBInstruction (maskCount : Bool) (s : AGBCPU) : Option (Nat × AGBCPU) :=
  match s.fetchTHUMB with
  | none => none
  | some (opcode, s) =>
    let s := s.setLoReg PC (s.loReg PC + 2)
    let op := opcode >>> 12
    if op = 0x0 then s.doTHUMB01MoveShifted opcode -- format 1
    else if op = 0x1 then s.doTHUMB0102 opcode -- formats 1-2
    else if op = 0x2 ∨ op = 0x3 then s.doTHUMB03 opcode -- format 3
    else if op = 0x4 then doTHUMB040506 maskCount s opcode -- formats 4-6
    else if op = 0x5 then s.doTHUMB0708 opcode -- formats 7-8
    else if op = 0x6 then s.doTHUMB09LoadStoreWord opcode -- format 9 (words)
    else if op = 0x7 then s.doTHUMB09LoadStoreByte opcode -- ... (bytes)
    else if op = 0x8 then s.doTHUMB10LoadStoreHalf opcode -- format 10
    else if op = 0x9 then s.doTHUMB11SPRelLoadStore opcode -- format 11
    else if op = 0xA then s.doTHUMB12LoadAddr opcode -- format 12
    else if op = 0xB then
      -- formats 13-14 (`doTHUMB1314`)
      if bitSet opcode 10 then s.doTHUMB14PushPop opcode -- format 14, push/pop
      else s.doTHUMB13SPOffset opcode -- format 13, add offset to SP
    else if op = 0xC then s.doTHUMB15MultiLoadStore opcode -- format 15
    else if op = 0xD then s.doTHUMB1617 opcode -- formats 16-17
    else if op = 0xE then s.doTHUMB18UncondBranch opcode -- format 18
    else s.doTHUMB19LongBranchLink opcode -- format 19

/-! ### Reset and concrete machines -/

/-- `AGBCPU::reset` (the core and the bus; the collaborators `apu` and `display` reset
themselves). -/
def reset (s : AGBCPU) : Option AGBCPU :=
  let s := { s with cpsr := Flag_I ||| Flag_F ||| 0x13 } -- supervisor mode
  let s := s.setLoReg PC 0
  s.modeChanged.map fun s =>
    let s := s.updateARMPC
    { s with
      halted := false,
      cycleCount := 0,
      lastTimerUpdate := 0,
      timerCounters := fun _ => 0,
      timerPrescalers := fun _ => 0,
      mem := s.mem.reset }

/-- A bus with every buffer zeroed and no cartridge. -/
def blankMem : AGBMemory :=
  { biosROM := fun _ => 0, cartROM := fun _ => 0, cartROMSize := 0, ewram := fun _ => 0,
    iwram := fun _ => 0, ioRegs := fun _ => 0, palRAM := fun _ => 0, vram := fun _ => 0,
    oam := fun _ => 0, cartSaveData := fun _ => 0, saveType := .Unknown, flashState := .Read,
    flashBank := 0, flashCmdState := 0, flashID := fun _ => 0, eepromInBits := fun _ => 0,
    eepromOutBits := fun _ => 0, cartAccessN := fun _ => 0, cartAccessS := fun _ => 0,
    dummy := fun _ => 0 }

/-- A core with every field zeroed, in user mode, over `blankMem`; the collaborators
consume no write and return the stored value on a read. -/
def blank : AGBCPU :=
  { regs := fun _ => 0, cpsr := 0x10, spsr := fun _ => 0, curSP := 13, curLR := 14, isFIQ := false,
    halted := false, armPCPtr := none, thumbPCPtr := none, pcSCycles := 0, pcNCycles := 0,
    cycleCount := 0, lastTimerUpdate := 0, timerCounters := fun _ => 0,
    timerPrescalers := fun _ => 0, timerEnabled := 0, timerInterruptEnabled := 0,
    enabledInterrutps := 0, currentInterrupts := 0, dmaTriggered := 0, inputs := 0,
    mem := blankMem, displayReadReg := fun _ v => v, apuReadReg := fun _ v => v,
    displayWriteReg := fun _ _ => false, apuWriteReg := fun _ _ => false }

/-- The machine after `reset()` with the little-endian words `prog` as BIOS image from
address 0: supervisor mode, PC = 0. -/
def bootWith (prog : List Nat) : AGBCPU :=
  let bios := (prog.enum.foldl (fun b p => storeLE b (4 * p.1) 4 p.2) (fun _ => 0))
  (({ blank with mem := { blankMem with biosROM := bios } } : AGBCPU).reset).getD blank

/-- A machine in system mode and THUMB state with the halfwords `prog` as BIOS image from
address 0 and PC = 0. -/
def thumbWith (prog : List Nat) : AGBCPU :=
  let bios := (prog.enum.foldl (fun b p => storeLE b (2 * p.1) 2 p.2) (fun _ => 0))
  let s : AGBCPU := { blank with mem := { blankMem with biosROM := bios }, cpsr := 0x1F ||| Flag_T }
  (s.modeChanged.getD blank).updateTHUMBPC 0

/-- The machine after reset and the 16-bit bus writes of 1 to IME and then to IE: master
enable set, interrupt 0 enabled.  (`bootWith []` stands in if a write did not complete.) -/
def irqArmed : AGBCPU :=
  (((bootWith []).memWrite 0x4000208 2 1).bind fun s => s.memWrite 0x4000200 2 1).getD
    (bootWith [])

/-- The machine `s` with the little-endian words `ws` stored in internal work RAM from
offset 0 (bus address 0x03000000). -/
def withIWRAM (s : AGBCPU) (ws : List Nat) : AGBCPU :=
  { s with mem := { s.mem with
      iwram := ws.enum.foldl (fun b p => storeLE b (4 * p.1) 4 p.2) s.mem.iwram } }

/-- A machine in system mode and THUMB state with a 32 MiB cartridge holding the halfwords
`prog` from bus address `a` (in the cartridge window 0x08000000..0x09FFFFFF) and PC = `a`. -/
def cartThumbWith (a : Nat) (prog : List Nat) : AGBCPU :=
  let rom := prog.enum.foldl (fun b p => storeLE b ((a &&& 0x1FFFFFF) + 2 * p.1) 2 p.2) (fun _ => 0)
  let s : AGBCPU :=
    { blank with mem := { blankMem with cartROM := rom, cartROMSize := 0x2000000 },
                 cpsr := 0x1F ||| Flag_T }
  ((s.modeChanged.getD blank).setLoReg PC a).updateTHUMBPC a

/-! ### The reference barrel shifter -/

/-- The four shift types of operand 2. -/
inductive ShiftKind
  | LSL | LSR | ASR | ROR
  deriving DecidableEq

/-- The shift type encoded in a 2-bit field. -/
def ShiftKind.ofField (f : Nat) : ShiftKind :=
  if f = 0 then .LSL else if f = 1 then .LSR else if f = 2 then .ASR else .ROR

/-- How operand 2 names its shift amount: a 5-bit immediate or the low byte of a
register. -/
inductive ShiftAmount
  | imm (n : Nat)
  | reg (n : Nat)

/-- Reference, from the shifter contract of the spec: the value and the carry out of a
shift of the 32-bit word `x` by `n ≥ 1`, in arithmetic terms.
LSL: `x·2^n mod 2^32`, carry the last bit shifted out (bit `32-n`); by 32 the result is 0
with carry bit 0, by more the carry is 0.  LSR: `x / 2^n`, carry bit `n-1`; by 32 the
result is 0 with carry bit 31, by more the carry is 0.  ASR: as LSR with the vacated bits
filled with the sign; by 32 or more every bit is the sign, and so is the carry.  ROR: the
rotation by `n mod 32`, carry the last bit rotated out, bit `(n-1) mod 32` (bit 31 for a
multiple of 32, which leaves the value unchanged). -/
def refShift (k : ShiftKind) (x n : Nat) : Nat × Bool :=
  match k with
  | .LSL =>
    if n < 32 then (x * 2 ^ n % 4294967296, x.testBit (32 - n))
    else if n = 32 then (0, x.testBit 0)
    else (0, false)
  | .LSR =>
    if n < 32 then (x / 2 ^ n, x.testBit (n - 1))
    else if n = 32 then (0, x.testBit 31)
    else (0, false)
  | .ASR =>
    if n < 32 then
      (x / 2 ^ n + (if x.testBit 31 then (2 ^ n - 1) * 2 ^ (32 - n) else 0), x.testBit (n - 1))
    else (if x.testBit 31 then 0xFFFFFFFF else 0, x.testBit 31)
  | .ROR => (x / 2 ^ (n % 32) + x % 2 ^ (n % 32) * 2 ^ (32 - n % 32), x.testBit ((n - 1) % 32))

/-- Reference, from the shifter contract of the spec: operand 2 for the word `x`, the
carry in `c`, a shift type and a shift amount.  A register amount of 0 preserves operand
and carry; an immediate amount of 0 is LSL #0 (unchanged), LSR #32, ASR #32 and, for ROR,
RRX (rotate right by one through the carry). -/
def barrelShifter (x : Nat) (c : Bool) (k : ShiftKind) : ShiftAmount → Nat × Bool
  | .reg n => if n = 0 then (x, c) else refShift k x n
  | .imm n =>
    if n ≠ 0 then refShift k x n
    else
      match k with
      | .LSL => (x, c)
      | .LSR => refShift .LSR x 32
      | .ASR => refShift .ASR x 32
      | .ROR => (x / 2 + (if c then 2147483648 else 0), x.testBit 0)


/-! ### Block data transfer: the reference of the specification -/

/-- The register bank selection of a state: the stack pointer slot, the link register
slot and the fast-IRQ flag, which fix `mapReg`. -/
def bankSel (s : AGBCPU) : Nat × Nat × Bool := (s.curSP, s.curLR, s.isFIQ)

/-- Reference (from the specification): the registers of a 16-bit register list, lowest
number first. -/
def listedRegs (regList : Nat) : List Nat := (List.range 16).filter fun i => regList.testBit i

/-- Reference (from the specification): the address of the first transfer of a block data
transfer of `n` registers: base (increment-after), base + 4 (increment-before),
base - 4n + 4 (decrement-after), base - 4n (decrement-before), modulo 2^32. -/
def blockStart (base n : Nat) (isUp preIndex : Bool) : Nat :=
  match isUp, preIndex with
  | true, false => base % 4294967296
  | true, true => (base + 4) % 4294967296
  | false, false => (sub32 base (4 * n) + 4) % 4294967296
  | false, true => sub32 base (4 * n)

/-- Reference: the physical slot of the listed register `i` (the user bank when the S bit
forces it). -/
def blockSlot (a : BlockArgs) (s : AGBCPU) (i : Nat) : Nat := if a.isLoadForce then i else s.mapReg i

/-- Reference: the transfer of the listed register `i` over the bus at the word address
`addr`: a load into the register, or a store of it (of PC + 8 for the PC). -/
def busTransfer (a : BlockArgs) (i addr : Nat) (s : AGBCPU) : Option AGBCPU :=
  if a.isLoad then (s.readMem32Aligned addr).map fun r => r.2.setLoReg (blockSlot a s i) r.1
  else if blockSlot a s i = PC then s.writeMem32 addr (s.loReg (blockSlot a s i) + 8)
  else s.writeMem32 addr (s.loReg (blockSlot a s i))

/-- Reference: the transfer of the listed register `i` through a direct pointer. -/
def ptrTransfer (a : BlockArgs) (i : Nat) (ptr : Option Ptr) (s : AGBCPU) : Option AGBCPU :=
  if a.isLoad then (s.mem.derefRead ptr 4).map fun v => s.setLoReg (blockSlot a s i) v
  else if blockSlot a s i = PC then
    (s.mem.derefWrite ptr 4 ((s.loReg (blockSlot a s i) + 8) % 4294967296)).map
      fun m => { s with mem := m }
  else (s.mem.derefWrite ptr 4 (s.loReg (blockSlot a s i))).map fun m => { s with mem := m }

/-- Reference (from the specification): the listed registers `regs`, lowest first, the one
of rank `k` transferred over the bus at `start + 4k` (low two bits cleared), the base
written back after the first transfer. -/
def refBlockBus (a : BlockArgs) (start : Nat) : List Nat → Nat → AGBCPU → Option AGBCPU
  | [], _, s => some s
  | r :: rest, k, s =>
    match busTransfer a r (((start + 4 * k) % 4294967296) &&& bnot32 3) s with
    | none => none
    | some s => refBlockBus a start rest (k + 1) (blockWriteBack a (decide (k = 0)) s)

/-- Reference: the listed registers `regs`, lowest first, the one of rank `k` transferred
through the direct pointer `ptr + 4k`, the base written back after the first transfer. -/
def refBlockPtr (a : BlockArgs) (ptr : Option Ptr) : List Nat → Nat → AGBCPU → Option AGBCPU
  | [], _, s => some s
  | r :: rest, k, s =>
    match ptrTransfer a r (ptr.map fun p => { p with off := p.off + 4 * k }) s with
    | none => none
    | some s => refBlockPtr a ptr rest (k + 1) (blockWriteBack a (decide (k = 0)) s)

/-- The register file and the bank selection of `t` are those of `s`. -/
def sameRegs (s t : AGBCPU) : Prop :=
  t.regs = s.regs ∧ t.curSP = s.curSP ∧ t.curLR = s.curLR ∧ t.isFIQ = s.isFIQ

/-- The bank selections `modeChanged` installs: the stack pointer and the link register
are their user slots or banked slots above the fast-IRQ bank of R8..R12, and differ. -/
def bankOK (s : AGBCPU) : Prop :=
  (s.curSP = 13 ∨ 21 ≤ s.curSP) ∧ (s.curLR = 14 ∨ 21 ≤ s.curLR) ∧ s.curSP ≠ s.curLR

instance bankOK_decidable (s : AGBCPU) : Decidable (bankOK s) := by
  unfold bankOK; exact inferInstance

/-- Reference: the values a block data transfer of `opcode` works with: the direction and
transfer bits, the slot of the base, the write back the transfer settles on (none for a
load whose list has the bit of the base slot), and base - 4n and base + 4n for the `n`
listed registers. -/
def blockArgs (s : AGBCPU) (opcode : Nat) : BlockArgs :=
  let baseReg := s.mapReg ((opcode >>> 16) &&& 0xF)
  let n := (listedRegs (opcode % 65536)).length
  { isUp := bitSet opcode 23,
    isLoadForce := bitSet opcode 22,
    writeBack := bitSet opcode 21
      && !(bitSet opcode 20 && decide ((opcode % 65536) &&& (1 <<< baseReg) ≠ 0)),
    isLoad := bitSet opcode 20,
    baseReg := baseReg,
    lowAddr := if bitSet opcode 23 then 0 else sub32 (s.loReg baseReg) (4 * n),
    highAddr := (s.loReg baseReg + 4 * n) % 4294967296 }


end AGBCPU

/-! ### Wait control and exception entry -/

/-- Modelled from the spec: the SRAM wait field of WAITCNT ("register controlling
cartridge wait states"), bits 1..0; the field positions of `AGBRegs.h` are those the
shifts of `updateWaitControl` take. -/
def WAITCNT_SRAM : Nat := 0x0003
/-- Modelled from the spec: the first-access field of wait-state window 0, bits 3..2. -/
def WAITCNT_ROMWS0N : Nat := 0x000C
/-- Modelled from the spec: the second-access bit of wait-state window 0, bit 4. -/
def WAITCNT_ROMWS0S : Nat := 0x0010
/-- Modelled from the spec: the first-access field of wait-state window 1, bits 6..5. -/
def WAITCNT_ROMWS1N : Nat := 0x0060
/-- Modelled from the spec: the second-access bit of wait-state window 1, bit 7. -/
def WAITCNT_ROMWS1S : Nat := 0x0080
/-- Modelled from the spec: the first-access field of wait-state window 2, bits 9..8. -/
def WAITCNT_ROMWS2N : Nat := 0x0300
/-- Modelled from the spec: the second-access bit of wait-state window 2, bit 10. -/
def WAITCNT_ROMWS2S : Nat := 0x0400

namespace AGBMemory

/-- The table `nTimings` of `updateWaitControl`; an index past the table is `none`. -/
def nTimings (i : Nat) : Option Nat := [4, 3, 2, 8].get? i

/-- `AGBMemory::updateWaitControl`; `waitcnt` is a `uint16_t`. -/
def updateWaitControl (m : AGBMemory) (waitcnt : Nat) : Option AGBMemory :=
  let waitcnt := waitcnt % 65536
  -- update ROM access times
  match nTimings ((waitcnt &&& WAITCNT_ROMWS0N) >>> 2),
        nTimings ((waitcnt &&& WAITCNT_ROMWS1N) >>> 5),
        nTimings ((waitcnt &&& WAITCNT_ROMWS1N) >>> 8),
        nTimings (waitcnt &&& WAITCNT_SRAM) with
  | some n0, some n1, some n2, some n3 =>
    let s0 := if waitcnt &&& WAITCNT_ROMWS0S ≠ 0 then 2 else 3
    let s1 := if waitcnt &&& WAITCNT_ROMWS1S ≠ 0 then 2 else 5
    let s2 := if waitcnt &&& WAITCNT_ROMWS2S ≠ 0 then 2 else 9
    some { m with
      cartAccessN := fun i =>
        if i = 0 then n0 + 1 else if i = 1 then n1 + 1 else if i = 2 then n2 + 1
        -- ... and SRAM/flash
        else if i = 3 then n3 + 1 else m.cartAccessN i,
      cartAccessS := fun i =>
        if i = 0 then s0 else if i = 1 then s1 else if i = 2 then s2
        else if i = 3 then n3 + 1 else m.cartAccessS i }
  | _, _, _, _ => none

end AGBMemory

namespace AGBCPU

/-- `AGBCPU::serviceInterrupts`: whether the interrupt was taken, and the state. -/
def serviceInterrupts (s : AGBCPU) : Option (Bool × AGBCPU) :=
  if s.cpsr &&& Flag_I ≠ 0 then some (false, s)
  else
    let s := { s with halted := false }
    let ret := s.loReg PC + 4
    let s := { s with spsr := fun i => if i = 3 then s.cpsr else s.spsr i } -- irq
    let s := s.setLoReg PC 0x18
    -- irq mode
    match ({ s with cpsr := (s.cpsr &&& bnot32 (0x1F ||| Flag_T)) ||| Flag_I ||| 0x12 } :
        AGBCPU).modeChanged with
    | none => none
    | some s =>
      let s := s.updateARMPC
      some (true, s.setLoReg s.curLR ret)

/-- A sequence of bus writes `(addr, w, data)` (`AGBMemory::write<T>` with `sizeof(T)` =
`w`), first to last; `none` as soon as one of them has no result. -/
def busWrites (s : AGBCPU) : List (Nat × Nat × Nat) → Option AGBCPU
  | [] => some s
  | (addr, w, data) :: rest =>
    match s.memWrite addr w data with
    | none => none
    | some s => busWrites s rest

/-- The bus of `t` is the bus of `s` up to the IO register file. -/
def ioOnly (s t : AGBCPU) : Prop := t.mem = { s.mem with ioRegs := t.mem.ioRegs }

/-- Reference (from the specification): the 32-bit word `x` rotated right by `n` bits. -/
def rotr32 (x n : Nat) : Nat :=
  (x % 4294967296) / 2 ^ (n % 32) + ((x % 4294967296) % 2 ^ (n % 32)) * 2 ^ (32 - n % 32)

/-- The work RAM buffer of an address of region 0x02 (external, 256 KiB) or 0x03
(internal, 32 KiB), and its size. -/
def workRAM (m : AGBMemory) (addr : Nat) : (Nat → Nat) × Nat :=
  if addr >>> 24 = 0x2 then (m.ewram, 0x40000) else (m.iwram, 0x8000)

/-- The state `t` has entered the exception mode `mode` from `s`: the saved CPSR of the
mode of `t` is the CPSR of `s`; in the CPSR of `t` the mode bits are `mode`, T is clear, I
is set and every other bit is as in `s`; the register bank of `t` is that of its mode; PC
is `vector` and the LR of the mode is `ret`. -/
def exceptionEntered (s t : AGBCPU) (mode vector ret : Nat) : Prop :=
  t.getSPSR = some s.cpsr ∧ t.cpsr &&& 0x1F = mode ∧ t.cpsr &&& Flag_T = 0 ∧
  t.cpsr &&& Flag_I = Flag_I ∧
  t.cpsr &&& bnot32 (0x1F ||| Flag_T ||| Flag_I)
    = s.cpsr &&& bnot32 (0x1F ||| Flag_T ||| Flag_I) ∧
  t.modeChanged = some t ∧ t.loReg PC = vector ∧ t.reg LR = ret

/-- The dispatch `(cpsr & Flag_T) ? executeTHUMBInstruction() : executeARMInstruction()` of
`AGBCPU::run`. -/
def executeCPU (maskCount : Bool) (s : AGBCPU) : Option (Nat × AGBCPU) :=
  if s.cpsr &&& Flag_T ≠ 0 then executeTHUMBInstruction maskCount s
  else executeARMInstruction maskCount s

/-- The dispatch of `AGBCPU::run` `n` times in a row (no DMA, timer or interrupt in
between); `none` as soon as one instruction has no result. -/
def executeCPUs (maskCount : Bool) : Nat → AGBCPU → Option AGBCPU
  | 0, s => some s
  | n + 1, s =>
    match executeCPU maskCount s with
    | none => none
    | some (_, s) => executeCPUs maskCount n s

/-- Whether PC is aligned for the instruction set CPSR.T selects: even in THUMB state, a
multiple of 4 in ARM state. -/
def pcAligned (s : AGBCPU) : Bool :=
  if s.cpsr &&& Flag_T ≠ 0 then s.loReg PC % 2 == 0 else s.loReg PC % 4 == 0

/-! ### Timers, the EEPROM bit stream and DMA: helpers of the later sections -/

/-- What a pass of the loop of `updateTimers` over the other timers leaves alone of timer
`i`: its counter, the prescalers, the interrupt-enable mask, its latch register and its
bit of IF. -/
def timerKept (i : Nat) (s t : AGBCPU) : Prop :=
  t.timerCounters i = s.timerCounters i ∧ t.timerPrescalers = s.timerPrescalers ∧
  t.timerInterruptEnabled = s.timerInterruptEnabled ∧
  t.mem.readIOReg (IO_TM0CNT_L + i * 4) = s.mem.readIOReg (IO_TM0CNT_L + i * 4) ∧
  (t.mem.readIOReg IO_IF).testBit (3 + i) = (s.mem.readIOReg IO_IF).testBit (3 + i)

/-- What the loop of `updateTimers` does to timer `i` counting every cycle, `passed`
cycles after the last update: the 16-bit sum is stored, and when it is below the old
counter the counter is reloaded from the latch register and the timer's bit of IF is set
if its interrupt is enabled. -/
def timerOutcome (passed i : Nat) (s t : AGBCPU) : Prop :=
  if (s.timerCounters i + passed) % 65536 < s.timerCounters i then
    t.timerCounters i = s.mem.readIOReg (IO_TM0CNT_L + i * 4) ∧
    (t.mem.readIOReg IO_IF).testBit (3 + i)
      = (decide (s.timerInterruptEnabled &&& (1 <<< i) ≠ 0)
          || (s.mem.readIOReg IO_IF).testBit (3 + i))
  else
    t.timerCounters i = (s.timerCounters i + passed) % 65536 ∧
    (t.mem.readIOReg IO_IF).testBit (3 + i) = (s.mem.readIOReg IO_IF).testBit (3 + i)

/-- The `n` low bits of `x`, most significant first, each as 0 or 1. -/
def bitsMSB (n x : Nat) : List Nat := (List.range n).map fun i => (x >>> (n - 1 - i)) % 2

/-- The 16-bit bus writes that present the bits `bits` to the EEPROM, one per halfword of
the 0x0D window, the first at bit index `k` (address `0x0D000000 + 2k`). -/
def eepromStream : Nat → List Nat → List (Nat × Nat × Nat)
  | _, [] => []
  | k, b :: bs => (0xD000000 + 2 * k, 2, b) :: eepromStream (k + 1) bs

/-! ### DMA -/

/-- Modelled from the spec: width flag of a DMA control word ("width (16/32)"). -/
abbrev DMACNTH_32Bit : Nat := 0x0400

/-- Modelled from the spec: destination increment mode field of a DMA control word
"{inc, dec, fixed, inc-reload}"; the source shifts it right by 5. -/
abbrev DMACNTH_DestMode : Nat := 0x0060

/-- Modelled from the spec: source increment mode field of a DMA control word
"{inc, dec, fixed}"; the source shifts it right by 7. -/
abbrev DMACNTH_SrcMode : Nat := 0x0180

/-- Modelled from the spec: repeat flag of a DMA control word (spelled `DAMCNTH_Repeat` in
the source). -/
abbrev DAMCNTH_Repeat : Nat := 0x0200

/-- One pass of the body of the loop of `dmaTransfer` up to the address updates:
`writeMem32(dstAddr, readMem32Aligned(srcAddr))` or its 16-bit form; the `int` addresses
convert to `uint32_t`. -/
def dmaUnit (is32Bit : Bool) (srcAddr dstAddr : Int) (s : AGBCPU) : Option AGBCPU :=
  if is32Bit then
    match s.readMem32Aligned (ofInt32 srcAddr) with
    | none => none
    | some (v, s) => s.writeMem32 (ofInt32 dstAddr) v
  else
    match s.readMem16Aligned (ofInt32 srcAddr) with
    | none => none
    | some (v, s) => s.writeMem16 (ofInt32 dstAddr) v

/-- The loop `while(count--)` of `dmaTransfer`. -/
def dmaLoop (is32Bit : Bool) (dstMode srcMode : Nat) (width : Int) :
    Nat → Int → Int → AGBCPU → Option AGBCPU
  | 0, _, _, s => some s
  | count + 1, srcAddr, dstAddr, s =>
    match dmaUnit is32Bit srcAddr dstAddr s with
    | none => none
    | some s =>
      let dstAddr :=
        if dstMode = 0 ∨ dstMode = 3 then dstAddr + width
        else if dstMode = 1 then dstAddr - width
        else dstAddr
      let srcAddr :=
        if srcMode = 0 then srcAddr + width
        else if srcMode = 1 then srcAddr - width
        else srcAddr
      dmaLoop is32Bit dstMode srcMode width count srcAddr dstAddr s

/-- `AGBCPU::dmaTransfer`: the cycle count and the state.  `getIOReg` (of `AGBMemory.h`) is
modelled from the spec as a reference to the 16-bit IO register: the control word is read
through it before the loop and read and written through it after the loop.  The mask
leaves the 28 (27) low bits of the addresses, so they are non-negative `int`s. -/
def dmaTransfer (s : AGBCPU) (channel : Nat) : Option (Int × AGBCPU) :=
  let regOffset := channel * 12
  let dmaControl := s.mem.readIOReg (IO_DMA0CNT_H + regOffset)
  let srcAddr := (s.mem.readIOReg (IO_DMA0SAD + regOffset)
      ||| (s.mem.readIOReg (IO_DMA0SAD + regOffset + 2) <<< 16))
    &&& (if channel ≠ 0 then 0xFFFFFFF else 0x7FFFFFF) -- 1 bit less for DMA0
  let dstAddr := (s.mem.readIOReg (IO_DMA0DAD + regOffset)
      ||| (s.mem.readIOReg (IO_DMA0DAD + regOffset + 2) <<< 16))
    &&& (if channel = 3 then 0xFFFFFFF else 0x7FFFFFF) -- 1 bit less for !DMA3
  let count := s.mem.readIOReg (IO_DMA0CNT_L + regOffset)
  let is32Bit := decide (dmaControl &&& DMACNTH_32Bit ≠ 0)
  let dstMode := (dmaControl &&& DMACNTH_DestMode) >>> 5
  let srcMode := (dmaControl &&& DMACNTH_SrcMode) >>> 7
  let width := if is32Bit then 4 else 2
  let cycles : Int :=
    (s.mem.getAccessCycles srcAddr width false : Int)
      + (s.mem.getAccessCycles srcAddr width true : Int) * ((count : Int) - 1) -- 1N + (n-1)S read
      + (s.mem.getAccessCycles dstAddr width false : Int)
      + (s.mem.getAccessCycles dstAddr width true : Int) * ((count : Int) - 1) -- 1N + (n-1)S write
      + 2
  let srcAddr := srcAddr &&& bnot32 (width - 1)
  (dmaLoop is32Bit dstMode srcMode width count srcAddr dstAddr s).map fun s =>
    let dmaControl := s.mem.readIOReg (IO_DMA0CNT_H + regOffset)
    if dmaControl &&& DAMCNTH_Repeat = 0 then
      let m := s.mem.writeIOReg (IO_DMA0CNT_H + regOffset) (dmaControl &&& bnot32 DMACNTH_Enable)
      (cycles, { s with mem := m })
    else (cycles, s)

/-- Reference (from the specification): the address of the `i`-th unit transfer of a DMA
with the increment mode `mode` (0 inc, 1 dec, 2 fixed; 3 is inc-reload for a destination and
kept fixed for a source): `base + i*width`, `base - i*width` or `base`. -/
def refDmaAddr (isDst : Bool) (mode : Nat) (base : Int) (width : Int) (i : Nat) : Int :=
  if mode = 0 ∨ (isDst ∧ mode = 3) then base + i * width
  else if mode = 1 then base - i * width
  else base

/-- Reference (from the specification): `n` unit transfers in order, the one with index
`i` first; a unit transfer without result ends the run without result. -/
def refDmaRun (unit : Nat → AGBCPU → Option AGBCPU) : Nat → Nat → AGBCPU → Option AGBCPU
  | 0, _, s => some s
  | n + 1, i, s =>
    match unit i s with
    | none => none
    | some s => refDmaRun unit n (i + 1) s

/-- A machine over `blankMem` with DMA channel 3 set to copy two 32-bit words from internal
work RAM (0x03000000, holding 0x11223344 and 0x55667788) to external work RAM (0x02000000):
count 2, control word 0x8400 (enabled, 32-bit, both addresses incrementing, no repeat). -/
def dmaDemo : AGBCPU :=
  { blank with mem := { (((((blankMem.writeIOReg 0xD4 0).writeIOReg 0xD6 0x0300).writeIOReg
        0xD8 0).writeIOReg 0xDA 0x0200).writeIOReg 0xDC 2).writeIOReg 0xDE 0x8400 with
      iwram := storeLE (storeLE (fun _ => 0) 0 4 0x11223344) 4 4 0x55667788 } }

end AGBCPU

end AGB

namespace DMG

namespace DMGCPU

/-! # Theorems -/

/-! ## Register-file lemmas -/

theorem reg_setReg (s : DMGCPU) (r r' : Reg) (v : Nat) :
    (s.setReg r v).reg r' = if r' = r then v % 256 else s.reg r' := by
  unfold reg setReg
  by_cases h : r' = r <;> simp [h]

theorem reg_lt (s : DMGCPU) (r : Reg) : s.reg r < 256 := by
  unfold reg; omega

theorem u8_lt (x : Int) : u8 x < 256 := by
  unfold u8; omega

/-! ## 8-bit addition and subtraction -/

theorem doAdd_F (s : DMGCPU) (a b c : Nat) (ha : a < 256) (hb : b < 256) (hc : c < 2) :
    (s.doAdd a b c).reg .F =
      flagIf (decide (a + b + c > 0xFF)) Flag_C
        ||| flagIf (decide ((a &&& 0xF) + (b &&& 0xF) + c > 0xF)) Flag_H
        ||| flagIf (decide ((a + b + c) % 256 = 0)) Flag_Z := by
  have hv : (a + b + c) % 65536 = a + b + c := by omega
  have hz : ((a + b + c) &&& 0xFF) = (a + b + c) % 256 := Nat.and_pow_two_sub_one_eq_mod _ 8
  simp only [doAdd, reg_setReg, hv, hz]
  by_cases h1 : a + b + c > 0xFF <;> by_cases h2 : (a &&& 0xF) + (b &&& 0xF) + c > 0xF <;>
    by_cases h3 : (a + b + c) % 256 = 0 <;> simp [flagIf, h1, h2, h3] <;> decide

theorem doAdd_A (s : DMGCPU) (a b c : Nat) : (s.doAdd a b c).reg .A = (a + b + c) % 256 := by
  simp only [doAdd, reg_setReg]
  simp
  omega

theorem doSub_F (s : DMGCPU) (a b c : Nat) (ha : a < 256) (hb : b < 256) (hc : c < 2) :
    (s.doSub a b c).reg .F =
      flagIf (decide (a < b + c)) Flag_C ||| flagIf (decide ((a &&& 0xF) < (b &&& 0xF) + c)) Flag_H
        ||| Flag_N ||| flagIf (decide ((a + 512 - b - c) % 256 = 0)) Flag_Z := by
  have e1 : ((a : Int) - ((b : Int) + (c : Int)) < 0) ↔ a < b + c := by omega
  have e2 : (((a &&& 0xF : Nat) : Int) - ((b &&& 0xF : Nat) : Int) - (c : Int) < 0)
      ↔ (a &&& 0xF) < (b &&& 0xF) + c := by
    generalize a &&& 0xF = x
    generalize b &&& 0xF = y
    omega
  have e3 : (u8 ((a : Int) - ((b : Int) + (c : Int))) = 0) ↔ (a + 512 - b - c) % 256 = 0 := by
    unfold u8; omega
  simp only [doSub, reg_setReg, if_true, e1, e2, beq_iff_eq, e3]
  by_cases h1 : a < b + c <;> by_cases h2 : (a &&& 0xF) < (b &&& 0xF) + c <;>
    by_cases h3 : (a + 512 - b - c) % 256 = 0 <;> simp [flagIf, h1, h2, h3, e3] <;> decide

theorem doSub_A (s : DMGCPU) (a b c : Nat) (ha : a < 256) (hb : b < 256) (hc : c < 2) :
    (s.doSub a b c).reg .A = (a + 512 - b - c) % 256 := by
  simp only [doSub, reg_setReg]
  simp
  unfold u8
  omega

theorem cmpFlags_eq (a b : Nat) (ha : a < 256) (hb : b < 256) :
    cmpFlags a b =
      flagIf (decide (a < b + 0)) Flag_C ||| flagIf (decide ((a &&& 0xF) < (b &&& 0xF) + 0)) Flag_H
        ||| Flag_N ||| flagIf (decide ((a + 512 - b - 0) % 256 = 0)) Flag_Z := by
  have e : (a = b) ↔ (a + 512 - b) % 256 = 0 := by omega
  unfold cmpFlags
  by_cases h : a = b
  · have h2 : (a + 512 - b) % 256 = 0 := e.mp h
    simp [h, h2]
  · have h2 : ¬ (a + 512 - b) % 256 = 0 := fun h3 => h (e.mpr h3)
    have h3 : (a == b) = false := by simp [h]
    simp [h, h2, h3]

theorem flagIf_false_eq (f : Nat) : flagIf false f = 0 := rfl

theorem flagIf_true_eq (f : Nat) : flagIf true f = f := rfl

/-- The flag bits of a byte built from the four flag masks. -/
theorem flag_bits (F : Nat) (c h n z : Bool)
    (hF : F = flagIf c Flag_C ||| flagIf h Flag_H ||| flagIf n Flag_N ||| flagIf z Flag_Z) :
    decide (F &&& Flag_Z ≠ 0) = z ∧ decide (F &&& Flag_N ≠ 0) = n ∧
    decide (F &&& Flag_H ≠ 0) = h ∧ decide (F &&& Flag_C ≠ 0) = c ∧ F &&& 0xF = 0 := by
  subst hF
  cases c <;> cases h <;> cases n <;> cases z <;> decide

/-- C1: for 8-bit `a`, `b` and carry-in `c ∈ {0,1}` the helper `doAdd` leaves
`A = (a+b+c) mod 256` and `F` with `Z = (A == 0)`, `N = 0`,
`H = ((a&0xF)+(b&0xF)+c) > 0xF`, `C = (a+b+c) > 0xFF` (low nibble zero); `ADD A,r` and
`ADC A,r` are `doAdd` on `A`, the operand and a carry-in of 0, respectively the C flag. -/
theorem C1_doAdd_result_and_flags (s : DMGCPU) (a b c : Nat)
    (ha : a < 256) (hb : b < 256) (hc : c < 2) :
    (s.doAdd a b c).reg .A = (a + b + c) % 256 ∧
    (s.doAdd a b c).flag Flag_Z = decide ((s.doAdd a b c).reg .A = 0) ∧
    (s.doAdd a b c).flag Flag_N = false ∧
    (s.doAdd a b c).flag Flag_H = decide ((a &&& 0xF) + (b &&& 0xF) + c > 0xF) ∧
    (s.doAdd a b c).flag Flag_C = decide (a + b + c > 0xFF) ∧
    (s.doAdd a b c).reg .F &&& 0xF = 0 ∧
    (∀ r, s.add r = (s.doAdd (s.reg .A) (s.reg r) 0, 4)) ∧
    (∀ r, s.addWithCarry r
      = (s.doAdd (s.reg .A) (s.reg r) (if s.flag Flag_C then 1 else 0), 4)) := by
  have hF := doAdd_F s a b c ha hb hc
  have hA := doAdd_A s a b c
  obtain ⟨b1, b2, b3, b4, b5⟩ := flag_bits ((s.doAdd a b c).reg .F) (decide (a + b + c > 0xFF))
    (decide ((a &&& 0xF) + (b &&& 0xF) + c > 0xF)) false (decide ((a + b + c) % 256 = 0))
    (by rw [hF]; simp only [flagIf_false_eq, Nat.or_zero])
  refine ⟨hA, ?_, b2, b3, b4, b5, ?_, ?_⟩
  · rw [hA]; exact b1
  · intro r; rfl
  · intro r
    simp only [addWithCarry, flag]
    by_cases h : s.reg .F &&& Flag_C = 0 <;> simp [h]

/-- C2: for 8-bit `a`, `b` and carry-in `c ∈ {0,1}` the helper `doSub` leaves
`A = (a-b-c) mod 256` and `F` with `Z = (A == 0)`, `N = 1`, `H = (a&0xF) < (b&0xF)+c`,
`C = a < b+c`; `SUB r` / `SBC r` are `doSub` on `A`, the operand and a carry-in of 0,
respectively the C flag; `CP r` changes nothing but `F` (so `A` is kept) and gives `F` the
value `SUB r` gives it, and the inline `CP (HL)` / `CP n` flag byte is that of `doSub`. -/
theorem C2_doSub_result_and_flags (s : DMGCPU) (a b c : Nat)
    (ha : a < 256) (hb : b < 256) (hc : c < 2) :
    (((s.doSub a b c).reg .A : Nat) : Int) = ((a : Int) - (b : Int) - (c : Int)) % 256 ∧
    (s.doSub a b c).flag Flag_Z = decide ((s.doSub a b c).reg .A = 0) ∧
    (s.doSub a b c).flag Flag_N = true ∧
    (s.doSub a b c).flag Flag_H = decide ((a &&& 0xF) < (b &&& 0xF) + c) ∧
    (s.doSub a b c).flag Flag_C = decide (a < b + c) ∧
    (s.doSub a b c).reg .F &&& 0xF = 0 ∧
    (∀ r, s.sub r = (s.doSub (s.reg .A) (s.reg r) 0, 4)) ∧
    (∀ r, s.subWithCarry r
      = (s.doSub (s.reg .A) (s.reg r) (if s.flag Flag_C then 1 else 0), 4)) ∧
    (∀ r, s.cmp r = (s.setReg .F ((s.sub r).1.reg .F), 4)) ∧
    cmpFlags a b = (s.doSub a b 0).reg .F := by
  have hF := doSub_F s a b c ha hb hc
  have hA := doSub_A s a b c ha hb hc
  obtain ⟨b1, b2, b3, b4, b5⟩ := flag_bits ((s.doSub a b c).reg .F) (decide (a < b + c))
    (decide ((a &&& 0xF) < (b &&& 0xF) + c)) true (decide ((a + 512 - b - c) % 256 = 0))
    (by rw [hF]; simp only [flagIf_true_eq])
  refine ⟨?_, ?_, b2, b3, b4, b5, ?_, ?_, ?_, ?_⟩
  · rw [hA]; omega
  · rw [hA]; exact b1
  · intro r; rfl
  · intro r
    simp only [subWithCarry, flag]
    by_cases h : s.reg .F &&& Flag_C = 0 <;> simp [h]
  · intro r
    have h1 := doSub_F s (s.reg .A) (s.reg r) 0 (reg_lt _ _) (reg_lt _ _) (by decide)
    have h2 := cmpFlags_eq (s.reg .A) (s.reg r) (reg_lt _ _) (reg_lt _ _)
    simp only [cmp, sub, h2, h1]
  · rw [cmpFlags_eq a b ha hb, doSub_F s a b 0 ha hb (by decide)]

/-- C1 at `A = 0x3A`, operand `0xC6`, no carry-in: the sum wraps to zero with carry. -/
theorem C1_doAdd_witness :
    (booted.doAdd 0x3A 0xC6 0).reg .A = (0x3A + 0xC6 + 0) % 256 ∧
    (booted.doAdd 0x3A 0xC6 0).flag Flag_C = decide (0x3A + 0xC6 + 0 > 0xFF) :=
  have h := C1_doAdd_result_and_flags booted 0x3A 0xC6 0 (by decide) (by decide) (by decide)
  ⟨h.1, h.2.2.2.2.1⟩

/-- C2 at `A = 0x3A`, operand `0xC6`, carry-in 1: a borrow out of bit 8. -/
theorem C2_doSub_witness :
    (booted.doSub 0x3A 0xC6 1).flag Flag_N = true ∧
    (booted.doSub 0x3A 0xC6 1).flag Flag_C = decide (0x3A < 0xC6 + 1) :=
  have h := C2_doSub_result_and_flags booted 0x3A 0xC6 1 (by decide) (by decide) (by decide)
  ⟨h.2.2.1, h.2.2.2.2.1⟩

theorem executeInstruction_of_lookup (s : DMGCPU) (k : Nat)
    (body : DMGCPU → Option (DMGCPU × Nat)) (hop : s.readMem s.pc = k)
    (hl : opCases.lookup k = some body) :
    s.executeInstruction = body (s.setPC (s.pc + 1)) := by
  unfold executeInstruction fetch8
  simp [hop, hl]

theorem lookup_daa : opCases.lookup 0x27 = some (fun (s : DMGCPU) =>
    let r := daa (s.reg .A) (s.reg .F)
    some ((s.setReg .A r.1).setReg .F r.2, 4)) := by
  rfl

theorem and15_add96 (a : Nat) : (a + 0x60) % 256 &&& 0x0F = a &&& 0x0F := by
  have h1 := Nat.and_pow_two_sub_one_eq_mod ((a + 0x60) % 256) 4
  have h2 := Nat.and_pow_two_sub_one_eq_mod a 4
  simp only [Nat.reducePow, Nat.add_one_sub_one, Nat.reduceSub] at h1 h2
  rw [h1, h2]; omega

/-- The value DAA leaves in A after an addition (N clear). -/
theorem daa_fst_add (a f : Nat) (ha : a < 256) (hN : f &&& Flag_N = 0) :
    (daa a f).1 = (a + (if f &&& Flag_C ≠ 0 ∨ a > 0x99 then 0x60 else 0)
      + (if f &&& Flag_H ≠ 0 ∨ (a &&& 0x0F) > 0x09 then 0x06 else 0)) % 256 := by
  unfold daa
  simp only [hN, ne_eq, not_true_eq_false, if_false]
  by_cases h1 : (¬ f &&& Flag_C = 0) ∨ a > 0x99 <;>
    by_cases h2 : (¬ f &&& Flag_H = 0) ∨ (a &&& 0x0F) > 0x09 <;>
    simp only [h1, h2, if_true, if_false, and15_add96] <;> omega

/-- The value DAA leaves in A after a subtraction (N set). -/
theorem daa_fst_sub (a f : Nat) (ha : a < 256) (hN : f &&& Flag_N ≠ 0) :
    (daa a f).1 = (a + 512 - (if f &&& Flag_C ≠ 0 then 0x60 else 0)
      - (if f &&& Flag_H ≠ 0 then 0x06 else 0)) % 256 := by
  unfold daa
  simp only [hN, ne_eq, not_false_eq_true, if_true]
  by_cases h1 : f &&& Flag_C = 0 <;> by_cases h2 : f &&& Flag_H = 0 <;>
    simp only [h1, h2, not_true_eq_false, not_false_eq_true, if_true, if_false] <;> omega
set_option maxRecDepth 100000 in
theorem daa_flag_bits : ∀ f < 256, ∀ k z : Bool,
    (decide ((((f &&& bnot (Flag_H ||| Flag_Z)) ||| (if k then Flag_C else 0))
        ||| flagIf z Flag_Z) % 256 &&& Flag_Z ≠ 0) = z) ∧
    ((((f &&& bnot (Flag_H ||| Flag_Z)) ||| (if k then Flag_C else 0))
        ||| flagIf z Flag_Z) % 256 &&& Flag_H = 0) ∧
    (decide ((((f &&& bnot (Flag_H ||| Flag_Z)) ||| (if k then Flag_C else 0))
        ||| flagIf z Flag_Z) % 256 &&& Flag_N ≠ 0) = decide (f &&& Flag_N ≠ 0)) ∧
    (decide ((((f &&& bnot (Flag_H ||| Flag_Z)) ||| (if k then Flag_C else 0))
        ||| flagIf z Flag_Z) % 256 &&& Flag_C ≠ 0) = (k || decide (f &&& Flag_C ≠ 0))) := by
  decide

theorem daa_snd (a f : Nat) :
    (daa a f).2 = ((f &&& bnot (Flag_H ||| Flag_Z))
      ||| (if (decide (f &&& Flag_N = 0) && decide (f &&& Flag_C ≠ 0 ∨ a > 0x99)) = true
          then Flag_C else 0))
      ||| flagIf ((daa a f).1 == 0) Flag_Z := by
  unfold daa
  by_cases hN : f &&& Flag_N = 0
  · by_cases h1 : (¬ f &&& Flag_C = 0) ∨ a > 0x99 <;> simp [hN, h1]
  · simp [hN]
theorem reg_setPC (s : DMGCPU) (v : Nat) (r : Reg) : (s.setPC v).reg r = s.reg r := by
  cases s; rfl

theorem reg_setSP (s : DMGCPU) (v : Nat) (r : Reg) : (s.setSP v).reg r = s.reg r := by
  cases s; rfl

theorem daa_fst_lt (a f : Nat) (ha : a < 256) : (daa a f).1 < 256 := by
  by_cases hN : f &&& Flag_N = 0
  · rw [daa_fst_add a f ha hN]; omega
  · rw [daa_fst_sub a f ha hN]; omega

/-- C4: DAA (opcode 0x27) follows the correction table.  After an addition (N clear) it
adds 0x60 when C is set or `A > 0x99` and adds 0x06 when H is set or `(A & 0x0F) > 9`;
after a subtraction (N set) it subtracts 0x60 when C is set and 0x06 when H is set.
Afterwards Z reflects the 8-bit result, H is clear, N is unchanged and C is set exactly
when the 0x60 correction was applied.  `A = 0x2A`, `F = 0` gives `A = 0x30`, `F = 0`. -/
theorem C4_daa_correction_table (s : DMGCPU) (hop : s.readMem s.pc = 0x27) :
    ∃ t, s.executeInstruction = some (t, 4) ∧
      (s.flag Flag_N = false →
        t.reg .A = (s.reg .A
            + (if s.flag Flag_C = true ∨ s.reg .A > 0x99 then 0x60 else 0)
            + (if s.flag Flag_H = true ∨ (s.reg .A &&& 0x0F) > 0x09 then 0x06 else 0)) % 256 ∧
        t.flag Flag_C = decide (s.flag Flag_C = true ∨ s.reg .A > 0x99)) ∧
      (s.flag Flag_N = true →
        t.reg .A = (s.reg .A + 512
            - (if s.flag Flag_C = true then 0x60 else 0)
            - (if s.flag Flag_H = true then 0x06 else 0)) % 256 ∧
        t.flag Flag_C = s.flag Flag_C) ∧
      t.flag Flag_Z = decide (t.reg .A = 0) ∧
      t.flag Flag_H = false ∧
      t.flag Flag_N = s.flag Flag_N ∧
      (s.reg .A = 0x2A → s.reg .F = 0 → t.reg .A = 0x30 ∧ t.reg .F = 0) := by
  refine ⟨_, executeInstruction_of_lookup s 0x27 _ hop lookup_daa, ?_⟩
  have ha : s.reg .A < 256 := reg_lt _ _
  have hf : s.reg .F < 256 := reg_lt _ _
  have hA : (((s.setPC (s.pc + 1)).setReg .A (daa (s.reg .A) (s.reg .F)).1).setReg .F
      (daa (s.reg .A) (s.reg .F)).2).reg .A = (daa (s.reg .A) (s.reg .F)).1 := by
    simp only [reg_setReg, reg_setPC]
    simpa using Nat.mod_eq_of_lt (daa_fst_lt _ _ ha)
  have hF : (((s.setPC (s.pc + 1)).setReg .A (daa (s.reg .A) (s.reg .F)).1).setReg .F
      (daa (s.reg .A) (s.reg .F)).2).reg .F = (daa (s.reg .A) (s.reg .F)).2 % 256 := by
    simp only [reg_setReg, reg_setPC]
    simp
  obtain ⟨z1, z2, z3, z4⟩ := daa_flag_bits (s.reg .F) hf
    (decide (s.reg .F &&& Flag_N = 0) && decide (s.reg .F &&& Flag_C ≠ 0 ∨ s.reg .A > 0x99))
    ((daa (s.reg .A) (s.reg .F)).1 == 0)
  rw [← daa_snd] at z1 z2 z3 z4
  simp only [reg_setPC, flag, hA, hF]
  refine ⟨?_, ?_, ?_, ?_, ?_, ?_⟩
  · intro hN
    have hN0 : s.reg .F &&& Flag_N = 0 := by simpa using hN
    refine ⟨?_, ?_⟩
    · rw [daa_fst_add _ _ ha hN0]; simp
    · rw [z4]; simp [hN0]; intro h; exact Or.inl h
  · intro hN
    have hN1 : s.reg .F &&& Flag_N ≠ 0 := by simpa using hN
    refine ⟨?_, ?_⟩
    · rw [daa_fst_sub _ _ ha hN1]; simp only [decide_eq_true_eq]
    · rw [z4]; simp [hN1]
  · exact z1.trans rfl
  · simpa using z2
  · exact z3
  · intro h1 h2
    rw [h1, h2]
    decide

/-- C4 on the booted machine with a DAA at the program counter. -/
theorem C4_daa_witness :
    ∃ t, (booted.withBytes 0x100 [0x27]).executeInstruction = some (t, 4) ∧
      t.flag Flag_H = false :=
  have h := C4_daa_correction_table (booted.withBytes 0x100 [0x27]) (by decide)
  h.elim fun t ht => ⟨t, ht.1, ht.2.2.2.2.1⟩

/-! ## The `0xCB` rotates and shifts -/

set_option maxRecDepth 100000 in
theorem carry_shift : ∀ f < 256,
    (f &&& Flag_C) >>> 4 = (decide (f &&& Flag_C ≠ 0)).toNat ∧
    (f &&& Flag_C) <<< 3 = (decide (f &&& Flag_C ≠ 0)).toNat * 128 := by
  decide

set_option maxRecDepth 100000 in
theorem cb_arith : ∀ v < 256, ∀ cin : Bool,
    (((v <<< 1) ||| (v >>> 7)) % 256 = (archCB .RLC v cin).1 ∧
      (flagIf (((v <<< 1) ||| (v >>> 7)) % 256 &&& 1 != 0) Flag_C
        ||| flagIf (((v <<< 1) ||| (v >>> 7)) % 256 == 0) Flag_Z) % 256
        = flagIf ((archCB .RLC v cin).1 == 0) Flag_Z ||| flagIf (archCB .RLC v cin).2 Flag_C) ∧
    (((v >>> 1) ||| (v <<< 7)) % 256 = (archCB .RRC v cin).1 ∧
      (((((v >>> 1) ||| (v <<< 7)) % 256 &&& 0x80) >>> 3)
        ||| flagIf (((v >>> 1) ||| (v <<< 7)) % 256 == 0) Flag_Z) % 256
        = flagIf ((archCB .RRC v cin).1 == 0) Flag_Z ||| flagIf (archCB .RRC v cin).2 Flag_C) ∧
    (((v <<< 1) ||| cin.toNat) % 256 = (archCB .RL v cin).1 ∧
      (((v &&& 0x80) >>> 3) ||| flagIf (((v <<< 1) ||| cin.toNat) % 256 == 0) Flag_Z) % 256
        = flagIf ((archCB .RL v cin).1 == 0) Flag_Z ||| flagIf (archCB .RL v cin).2 Flag_C) ∧
    (((v >>> 1) ||| (cin.toNat * 128)) % 256 = (archCB .RR v cin).1 ∧
      (((v &&& 0x1) <<< 4) ||| flagIf (((v >>> 1) ||| (cin.toNat * 128)) % 256 == 0) Flag_Z) % 256
        = flagIf ((archCB .RR v cin).1 == 0) Flag_Z ||| flagIf (archCB .RR v cin).2 Flag_C) ∧
    ((v <<< 1) % 256 = (archCB .SLA v cin).1 ∧
      (((v &&& 0x80) >>> 3) ||| flagIf ((v <<< 1) % 256 == 0) Flag_Z) % 256
        = flagIf ((archCB .SLA v cin).1 == 0) Flag_Z ||| flagIf (archCB .SLA v cin).2 Flag_C) ∧
    (u8 (int8 v >>> 1) = (archCB .SRA v cin).1 ∧
      (((v &&& 0x1) <<< 4) ||| flagIf (u8 (int8 v >>> 1) == 0) Flag_Z) % 256
        = flagIf ((archCB .SRA v cin).1 == 0) Flag_Z ||| flagIf (archCB .SRA v cin).2 Flag_C) ∧
    (((v >>> 4) ||| (v <<< 4)) % 256 = (archCB .SWAP v cin).1 ∧
      (flagIf (((v >>> 4) ||| (v <<< 4)) % 256 == 0) Flag_Z) % 256
        = flagIf ((archCB .SWAP v cin).1 == 0) Flag_Z ||| flagIf (archCB .SWAP v cin).2 Flag_C) ∧
    ((v >>> 1) % 256 = (archCB .SRL v cin).1 ∧
      (((v &&& 1) <<< 4) ||| flagIf ((v >>> 1) % 256 == 0) Flag_Z) % 256
        = flagIf ((archCB .SRL v cin).1 == 0) Flag_Z ||| flagIf (archCB .SRL v cin).2 Flag_C) := by
  decide

theorem cbHelper_regs (op : CBOp) (s : DMGCPU) (r : Reg) (hr : r ≠ .F) :
    (cbHelper op s r).1.reg r = (archCB op (s.reg r) (s.flag Flag_C)).1 ∧
    (cbHelper op s r).1.reg .F
      = flagIf ((archCB op (s.reg r) (s.flag Flag_C)).1 == 0) Flag_Z
        ||| flagIf (archCB op (s.reg r) (s.flag Flag_C)).2 Flag_C := by
  have hv := reg_lt s r
  obtain ⟨c1, c2⟩ := carry_shift _ (reg_lt s .F)
  obtain ⟨h1, h2, h3, h4, h5, h6, h7, h8⟩ := cb_arith _ hv (s.flag Flag_C)
  have hr2 : Reg.F ≠ r := fun h => hr h.symm
  have m1 : ∀ x : Nat, x % 256 % 256 = x % 256 := fun x => Nat.mod_mod _ _
  cases op <;>
    simp only [cbHelper, Ex.rotLeftNoCarry, Ex.rotRightNoCarry, Ex.rotLeft, Ex.rotRight,
      Ex.shiftLeft, Ex.shiftRightArith, Ex.swap, Ex.shiftRight, reg_setReg, hr, hr2,
      if_true, if_false, c1, c2, m1]
  · exact h1
  · exact h2
  · exact h3
  · exact h4
  · exact h5
  · exact ⟨by rw [Nat.mod_eq_of_lt (u8_lt _)]; exact h6.1, h6.2⟩
  · exact h7
  · exact h8

/-- C5: each `0xCB` register operation (RLC, RRC, RL, RR, SLA, SRA, SWAP, SRL) on a
register `r` writes the architecturally defined result for the old value of `r` and the
carry-in, and leaves `F` with `Z = (result == 0)`, `N = 0`, `H = 0` and `C` = the bit
rotated or shifted out (`C = 0` for SWAP); no other register changes. -/
theorem C5_cb_rotate_shift_results (op : CBOp) (s : DMGCPU) (r : Reg) (hr : r ≠ .F) :
    (cbHelper op s r).1.reg r = (archCB op (s.reg r) (s.flag Flag_C)).1 ∧
    (cbHelper op s r).1.flag Flag_Z = decide ((archCB op (s.reg r) (s.flag Flag_C)).1 = 0) ∧
    (cbHelper op s r).1.flag Flag_N = false ∧
    (cbHelper op s r).1.flag Flag_H = false ∧
    (cbHelper op s r).1.flag Flag_C = (archCB op (s.reg r) (s.flag Flag_C)).2 ∧
    (cbHelper op s r).1.reg .F &&& 0xF = 0 ∧
    (∀ q, q ≠ r → q ≠ .F → (cbHelper op s r).1.reg q = s.reg q) := by
  obtain ⟨hR, hF⟩ := cbHelper_regs op s r hr
  obtain ⟨b1, b2, b3, b4, b5⟩ := flag_bits ((cbHelper op s r).1.reg .F)
    (archCB op (s.reg r) (s.flag Flag_C)).2 false false
    ((archCB op (s.reg r) (s.flag Flag_C)).1 == 0)
    (by rw [hF]; simp only [flagIf_false_eq, Nat.or_zero]; exact Nat.lor_comm _ _)
  refine ⟨hR, b1.trans rfl, b2, b3, b4, b5, ?_⟩
  intro q hq hqF
  cases op <;>
    simp only [cbHelper, Ex.rotLeftNoCarry, Ex.rotRightNoCarry, Ex.rotLeft, Ex.rotRight,
      Ex.shiftLeft, Ex.shiftRightArith, Ex.swap, Ex.shiftRight, reg_setReg, hq, hqF,
      if_false]

/-- C5 for `RL B` on the booted machine (`B = 0x00`, carry set). -/
theorem C5_cb_rotate_shift_witness :
    (cbHelper .RL booted .B).1.reg .B = (archCB .RL (booted.reg .B) (booted.flag Flag_C)).1 ∧
    (cbHelper .RL booted .B).1.flag Flag_H = false :=
  have h := C5_cb_rotate_shift_results .RL booted .B (by decide)
  ⟨h.1, h.2.2.2.1⟩

/-! ## Bus writes leave the core of the CPU state alone -/

theorem SameCore.refl (s : DMGCPU) : SameCore s s :=
  ⟨rfl, rfl, rfl, rfl, rfl, rfl, rfl, rfl, rfl⟩

theorem SameCore.trans {s t u : DMGCPU} (h1 : SameCore s t) (h2 : SameCore t u) :
    SameCore s u := by
  obtain ⟨a1, a2, a3, a4, a5, a6, a7, a8, a9⟩ := h1
  obtain ⟨b1, b2, b3, b4, b5, b6, b7, b8, b9⟩ := h2
  exact ⟨b1.trans a1, b2.trans a2, b3.trans a3, b4.trans a4, b5.trans a5, b6.trans a6,
    b7.trans a7, b8.trans a8, b9.trans a9⟩

theorem gdmaLoop_sameCore (wm : DMGCPU → Nat → Nat → DMGCPU)
    (hwm : ∀ t a d, SameCore t (wm t a d)) :
    ∀ (count src dst : Nat) (s : DMGCPU), SameCore s (gdmaLoop wm count src dst s) := by
  intro count
  induction count with
  | zero => intro src dst s; exact SameCore.refl s
  | succ n ih =>
    intro src dst s
    exact (hwm s dst (s.readMem src)).trans (ih _ _ _)

theorem foldl_sameCore (f : DMGCPU → Nat → DMGCPU) (hf : ∀ t i, SameCore t (f t i)) :
    ∀ (l : List Nat) (s : DMGCPU), SameCore s (l.foldl f s) := by
  intro l
  induction l with
  | nil => intro s; exact SameCore.refl s
  | cons x xs ih => intro s; exact (hf s x).trans (ih _)

theorem writeRegWith_sameCore (wm : DMGCPU → Nat → Nat → DMGCPU)
    (hwm : ∀ t a d, SameCore t (wm t a d)) (s : DMGCPU) (addr data : Nat) :
    SameCore s (writeRegWith wm s addr data).1 := by
  unfold writeRegWith
  split
  · exact foldl_sameCore _ (fun t i => hwm _ _ _) _ _
  split
  · split
    · exact SameCore.refl s
    · exact (gdmaLoop_sameCore wm hwm _ _ _ s).trans ⟨rfl, rfl, rfl, rfl, rfl, rfl, rfl, rfl, rfl⟩
  split
  · exact ⟨rfl, rfl, rfl, rfl, rfl, rfl, rfl, rfl, rfl⟩
  split
  · exact ⟨rfl, rfl, rfl, rfl, rfl, rfl, rfl, rfl, rfl⟩
  split
  · exact ⟨rfl, rfl, rfl, rfl, rfl, rfl, rfl, rfl, rfl⟩
  split
  · exact ⟨rfl, rfl, rfl, rfl, rfl, rfl, rfl, rfl, rfl⟩
  split
  · exact ⟨rfl, rfl, rfl, rfl, rfl, rfl, rfl, rfl, rfl⟩
  · exact SameCore.refl s

theorem busWrite_sameCore : ∀ (fuel : Nat) (s : DMGCPU) (addr data : Nat),
    SameCore s (busWrite fuel s addr data) := by
  intro fuel
  induction fuel with
  | zero => intro s addr data; exact SameCore.refl s
  | succ n ih =>
    intro s addr data
    unfold busWrite
    split
    · have h := writeRegWith_sameCore (fun t a d => busWrite n t (a % 65536) (d % 256))
        (fun t a d => ih t _ _) s addr data
      dsimp only
      split
      · exact h
      · exact h.trans ⟨rfl, rfl, rfl, rfl, rfl, rfl, rfl, rfl, rfl⟩
    · exact ⟨rfl, rfl, rfl, rfl, rfl, rfl, rfl, rfl, rfl⟩

theorem writeMem_sameCore (s : DMGCPU) (addr data : Nat) : SameCore s (s.writeMem addr data) :=
  busWrite_sameCore 2 s _ _

theorem writeMem16_sameCore (s : DMGCPU) (addr data : Nat) :
    SameCore s (s.writeMem16 addr data) :=
  (writeMem_sameCore s _ _).trans (writeMem_sameCore _ _ _)

theorem reg_writeMem (s : DMGCPU) (addr data : Nat) (r : Reg) :
    (s.writeMem addr data).reg r = s.reg r := by
  unfold reg; rw [(writeMem_sameCore s addr data).1]

theorem reg_writeMem16 (s : DMGCPU) (addr data : Nat) (r : Reg) :
    (s.writeMem16 addr data).reg r = s.reg r := by
  unfold reg; rw [(writeMem16_sameCore s addr data).1]

/-! ## The low nibble of F -/

theorem low_or {x y : Nat} (hx : x &&& 0xF = 0) (hy : y &&& 0xF = 0) : (x ||| y) &&& 0xF = 0 := by
  rw [Nat.and_distrib_right, hx, hy]
  rfl

theorem low_and_left {x : Nat} (m : Nat) (hx : x &&& 0xF = 0) : (x &&& m) &&& 0xF = 0 := by
  rw [Nat.and_assoc, Nat.and_comm m, ← Nat.and_assoc, hx, Nat.zero_and]

theorem low_and_right (x : Nat) {m : Nat} (hm : m &&& 0xF = 0) : (x &&& m) &&& 0xF = 0 := by
  rw [Nat.and_assoc, hm, Nat.and_zero]

theorem low_mod256 {x : Nat} (hx : x &&& 0xF = 0) : (x % 256) &&& 0xF = 0 := by
  have h := Nat.and_pow_two_sub_one_eq_mod x 8
  simp only [Nat.reducePow, Nat.add_one_sub_one, Nat.reduceSub] at h
  rw [← h]
  exact low_and_left _ hx

theorem low_flagIf (c : Bool) {f : Nat} (hf : f &&& 0xF = 0) : flagIf c f &&& 0xF = 0 := by
  cases c
  · exact Nat.zero_and _
  · exact hf

theorem low_ite (c : Prop) [Decidable c] {x y : Nat} (hx : x &&& 0xF = 0) (hy : y &&& 0xF = 0) :
    (if c then x else y) &&& 0xF = 0 := by
  split
  · exact hx
  · exact hy

theorem low_shl4 (x : Nat) : (x <<< 4) &&& 0xF = 0 := by
  have h := Nat.and_pow_two_sub_one_eq_mod (x <<< 4) 4
  simp only [Nat.reducePow, Nat.add_one_sub_one, Nat.reduceSub] at h
  rw [h, Nat.shiftLeft_eq]
  omega

theorem and128_mod (x : Nat) : x &&& 0x80 = x % 256 &&& 0x80 := by
  have h := Nat.and_pow_two_sub_one_eq_mod x 8
  simp only [Nat.reducePow, Nat.add_one_sub_one, Nat.reduceSub] at h
  rw [← h, Nat.and_assoc]
  rfl

set_option maxRecDepth 100000 in
theorem low_bit7_aux : ∀ y < 256, ((y &&& 0x80) >>> 3) &&& 0xF = 0 := by decide

theorem low_bit7 (x : Nat) : ((x &&& 0x80) >>> 3) &&& 0xF = 0 := by
  rw [and128_mod]
  exact low_bit7_aux _ (Nat.mod_lt _ (by decide))


theorem low_daa (a : Nat) {f : Nat} (hf : f &&& 0xF = 0) : (daa a f).2 &&& 0xF = 0 := by
  rw [daa_snd]
  exact low_or (low_or (low_and_left _ hf) (low_ite _ (by decide) (by decide)))
    (low_flagIf _ (by decide))

/-! ## Control-flow helpers keep the register file -/

theorem reg_jump (s : DMGCPU) (f : Nat) (b : Bool) (r : Reg) : (s.jump f b).1.reg r = s.reg r := by
  unfold jump fetch16
  dsimp only
  split <;> rfl

theorem reg_jumpRel (s : DMGCPU) (f : Nat) (b : Bool) (r : Reg) :
    (s.jumpRel f b).1.reg r = s.reg r := by
  unfold jumpRel fetch8
  dsimp only
  split <;> rfl

theorem reg_call (s : DMGCPU) (f : Nat) (b : Bool) (r : Reg) : (s.call f b).1.reg r = s.reg r := by
  unfold call fetch16
  dsimp only
  split
  · simp only [reg_setPC, reg_writeMem16, reg_setSP]
  · rfl

theorem reg_opReset (s : DMGCPU) (addr : Nat) (r : Reg) : (Op.reset s addr).1.reg r = s.reg r := by
  unfold Op.reset
  simp only [reg_setPC, reg_writeMem16, reg_setSP]

theorem reg_ret (s : DMGCPU) (f : Nat) (b : Bool) (r : Reg) : (s.ret f b).1.reg r = s.reg r := by
  unfold ret
  dsimp only
  split <;> rfl

theorem reg_push (s : DMGCPU) (w : WReg) (r : Reg) : (s.push w).1.reg r = s.reg r := by
  unfold push
  simp only [reg_writeMem16, reg_setSP]

theorem FOk_pop (s : DMGCPU) (w : WReg) (hs : FOk s) : FOk (s.pop w).1 := by
  cases w <;>
    simp only [pop, FOk, reg_setReg, reg_setSP, setReg16, WReg.hi, WReg.lo, reduceCtorEq,
      if_false, if_true]
  · exact low_mod256 (low_and_right _ (by decide))
  · exact hs
  · exact hs
  · exact hs

theorem exCases0_FOk : ∀ p ∈ exCases0, ∀ s : DMGCPU, FOk s → FOk (p.2 s).1 := by
  simp only [exCases0, List.forall_mem_cons]
  and_intros
  all_goals first
    | (intro x hx; cases hx)
    | (intro s hs
       simp only [FOk, reg_setReg, reg_writeMem, reg_writeMem16, reg_setPC, reg_setSP,
        reg_jump, reg_jumpRel, reg_call, reg_opReset, reg_ret, reg_push,
        load8, copy8, load16, fetch8, fetch16, setReg16, WReg.hi, WReg.lo, inc16, dec16, inc,
        dec, add16, doAdd16, add, addWithCarry, doAdd, sub, subWithCarry, doSub, bitAnd, bitOr,
        bitXor, cmp, cmpFlags, Ex.swap, Ex.rotLeftNoCarry, Ex.rotRightNoCarry, Ex.rotLeft,
        Ex.rotRight, Ex.shiftLeft, Ex.shiftRightArith, Ex.shiftRight, Ex.testBit, Ex.testBitHL,
        Ex.set, Ex.setHL, Ex.reset, Ex.resetHL, reduceCtorEq, if_false, if_true]
       have hs2 : s.reg .F &&& 0xF = 0 := hs
       repeat' first
        | with_reducible exact hs2
        | decide
        | with_reducible exact low_shl4 _
        | with_reducible exact low_bit7 _
        | with_reducible exact low_daa _ hs2
        | with_reducible apply low_mod256
        | with_reducible apply low_or
        | with_reducible apply low_flagIf
        | with_reducible apply low_ite
        | with_reducible apply low_and_right
        | with_reducible apply low_and_left
        | exact FOk_pop _ _ hs
        | exact hs)

theorem exCases1_FOk : ∀ p ∈ exCases1, ∀ s : DMGCPU, FOk s → FOk (p.2 s).1 := by
  simp only [exCases1, List.forall_mem_cons]
  and_intros
  all_goals first
    | (intro x hx; cases hx)
    | (intro s hs
       simp only [FOk, reg_setReg, reg_writeMem, reg_writeMem16, reg_setPC, reg_setSP,
        reg_jump, reg_jumpRel, reg_call, reg_opReset, reg_ret, reg_push,
        load8, copy8, load16, fetch8, fetch16, setReg16, WReg.hi, WReg.lo, inc16, dec16, inc,
        dec, add16, doAdd16, add, addWithCarry, doAdd, sub, subWithCarry, doSub, bitAnd, bitOr,
        bitXor, cmp, cmpFlags, Ex.swap, Ex.rotLeftNoCarry, Ex.rotRightNoCarry, Ex.rotLeft,
        Ex.rotRight, Ex.shiftLeft, Ex.shiftRightArith, Ex.shiftRight, Ex.testBit, Ex.testBitHL,
        Ex.set, Ex.setHL, Ex.reset, Ex.resetHL, reduceCtorEq, if_false, if_true]
       have hs2 : s.reg .F &&& 0xF = 0 := hs
       repeat' first
        | with_reducible exact hs2
        | decide
        | with_reducible exact low_shl4 _
        | with_reducible exact low_bit7 _
        | with_reducible exact low_daa _ hs2
        | with_reducible apply low_mod256
        | with_reducible apply low_or
        | with_reducible apply low_flagIf
        | with_reducible apply low_ite
        | with_reducible apply low_and_right
        | with_reducible apply low_and_left
        | exact FOk_pop _ _ hs
        | exact hs)

theorem exCases2_FOk : ∀ p ∈ exCases2, ∀ s : DMGCPU, FOk s → FOk (p.2 s).1 := by
  simp only [exCases2, List.forall_mem_cons]
  and_intros
  all_goals first
    | (intro x hx; cases hx)
    | (intro s hs
       simp only [FOk, reg_setReg, reg_writeMem, reg_writeMem16, reg_setPC, reg_setSP,
        reg_jump, reg_jumpRel, reg_call, reg_opReset, reg_ret, reg_push,
        load8, copy8, load16, fetch8, fetch16, setReg16, WReg.hi, WReg.lo, inc16, dec16, inc,
        dec, add16, doAdd16, add, addWithCarry, doAdd, sub, subWithCarry, doSub, bitAnd, bitOr,
        bitXor, cmp, cmpFlags, Ex.swap, Ex.rotLeftNoCarry, Ex.rotRightNoCarry, Ex.rotLeft,
        Ex.rotRight, Ex.shiftLeft, Ex.shiftRightArith, Ex.shiftRight, Ex.testBit, Ex.testBitHL,
        Ex.set, Ex.setHL, Ex.reset, Ex.resetHL, reduceCtorEq, if_false, if_true]
       have hs2 : s.reg .F &&& 0xF = 0 := hs
       repeat' first
        | with_reducible exact hs2
        | decide
        | with_reducible exact low_shl4 _
        | with_reducible exact low_bit7 _
        | with_reducible exact low_daa _ hs2
        | with_reducible apply low_mod256
        | with_reducible apply low_or
        | with_reducible apply low_flagIf
        | with_reducible apply low_ite
        | with_reducible apply low_and_right
        | with_reducible apply low_and_left
        | exact FOk_pop _ _ hs
        | exact hs)

theorem exCases3_FOk : ∀ p ∈ exCases3, ∀ s : DMGCPU, FOk s → FOk (p.2 s).1 := by
  simp only [exCases3, List.forall_mem_cons]
  and_intros
  all_goals first
    | (intro x hx; cases hx)
    | (intro s hs
       simp only [FOk, reg_setReg, reg_writeMem, reg_writeMem16, reg_setPC, reg_setSP,
        reg_jump, reg_jumpRel, reg_call, reg_opReset, reg_ret, reg_push,
        load8, copy8, load16, fetch8, fetch16, setReg16, WReg.hi, WReg.lo, inc16, dec16, inc,
        dec, add16, doAdd16, add, addWithCarry, doAdd, sub, subWithCarry, doSub, bitAnd, bitOr,
        bitXor, cmp, cmpFlags, Ex.swap, Ex.rotLeftNoCarry, Ex.rotRightNoCarry, Ex.rotLeft,
        Ex.rotRight, Ex.shiftLeft, Ex.shiftRightArith, Ex.shiftRight, Ex.testBit, Ex.testBitHL,
        Ex.set, Ex.setHL, Ex.reset, Ex.resetHL, reduceCtorEq, if_false, if_true]
       have hs2 : s.reg .F &&& 0xF = 0 := hs
       repeat' first
        | with_reducible exact hs2
        | decide
        | with_reducible exact low_shl4 _
        | with_reducible exact low_bit7 _
        | with_reducible exact low_daa _ hs2
        | with_reducible apply low_mod256
        | with_reducible apply low_or
        | with_reducible apply low_flagIf
        | with_reducible apply low_ite
        | with_reducible apply low_and_right
        | with_reducible apply low_and_left
        | exact FOk_pop _ _ hs
        | exact hs)

theorem exCases4_FOk : ∀ p ∈ exCases4, ∀ s : DMGCPU, FOk s → FOk (p.2 s).1 := by
  simp only [exCases4, List.forall_mem_cons]
  and_intros
  all_goals first
    | (intro x hx; cases hx)
    | (intro s hs
       simp only [FOk, reg_setReg, reg_writeMem, reg_writeMem16, reg_setPC, reg_setSP,
        reg_jump, reg_jumpRel, reg_call, reg_opReset, reg_ret, reg_push,
        load8, copy8, load16, fetch8, fetch16, setReg16, WReg.hi, WReg.lo, inc16, dec16, inc,
        dec, add16, doAdd16, add, addWithCarry, doAdd, sub, subWithCarry, doSub, bitAnd, bitOr,
        bitXor, cmp, cmpFlags, Ex.swap, Ex.rotLeftNoCarry, Ex.rotRightNoCarry, Ex.rotLeft,
        Ex.rotRight, Ex.shiftLeft, Ex.shiftRightArith, Ex.shiftRight, Ex.testBit, Ex.testBitHL,
        Ex.set, Ex.setHL, Ex.reset, Ex.resetHL, reduceCtorEq, if_false, if_true]
       have hs2 : s.reg .F &&& 0xF = 0 := hs
       repeat' first
        | with_reducible exact hs2
        | decide
        | with_reducible exact low_shl4 _
        | with_reducible exact low_bit7 _
        | with_reducible exact low_daa _ hs2
        | with_reducible apply low_mod256
        | with_reducible apply low_or
        | with_reducible apply low_flagIf
        | with_reducible apply low_ite
        | with_reducible apply low_and_right
        | with_reducible apply low_and_left
        | exact FOk_pop _ _ hs
        | exact hs)

theorem exCases5_FOk : ∀ p ∈ exCases5, ∀ s : DMGCPU, FOk s → FOk (p.2 s).1 := by
  simp only [exCases5, List.forall_mem_cons]
  and_intros
  all_goals first
    | (intro x hx; cases hx)
    | (intro s hs
       simp only [FOk, reg_setReg, reg_writeMem, reg_writeMem16, reg_setPC, reg_setSP,
        reg_jump, reg_jumpRel, reg_call, reg_opReset, reg_ret, reg_push,
        load8, copy8, load16, fetch8, fetch16, setReg16, WReg.hi, WReg.lo, inc16, dec16, inc,
        dec, add16, doAdd16, add, addWithCarry, doAdd, sub, subWithCarry, doSub, bitAnd, bitOr,
        bitXor, cmp, cmpFlags, Ex.swap, Ex.rotLeftNoCarry, Ex.rotRightNoCarry, Ex.rotLeft,
        Ex.rotRight, Ex.shiftLeft, Ex.shiftRightArith, Ex.shiftRight, Ex.testBit, Ex.testBitHL,
        Ex.set, Ex.setHL, Ex.reset, Ex.resetHL, reduceCtorEq, if_false, if_true]
       have hs2 : s.reg .F &&& 0xF = 0 := hs
       repeat' first
        | with_reducible exact hs2
        | decide
        | with_reducible exact low_shl4 _
        | with_reducible exact low_bit7 _
        | with_reducible exact low_daa _ hs2
        | with_reducible apply low_mod256
        | with_reducible apply low_or
        | with_reducible apply low_flagIf
        | with_reducible apply low_ite
        | with_reducible apply low_and_right
        | with_reducible apply low_and_left
        | exact FOk_pop _ _ hs
        | exact hs)

theorem exCases6_FOk : ∀ p ∈ exCases6, ∀ s : DMGCPU, FOk s → FOk (p.2 s).1 := by
  simp only [exCases6, List.forall_mem_cons]
  and_intros
  all_goals first
    | (intro x hx; cases hx)
    | (intro s hs
       simp only [FOk, reg_setReg, reg_writeMem, reg_writeMem16, reg_setPC, reg_setSP,
        reg_jump, reg_jumpRel, reg_call, reg_opReset, reg_ret, reg_push,
        load8, copy8, load16, fetch8, fetch16, setReg16, WReg.hi, WReg.lo, inc16, dec16, inc,
        dec, add16, doAdd16, add, addWithCarry, doAdd, sub, subWithCarry, doSub, bitAnd, bitOr,
        bitXor, cmp, cmpFlags, Ex.swap, Ex.rotLeftNoCarry, Ex.rotRightNoCarry, Ex.rotLeft,
        Ex.rotRight, Ex.shiftLeft, Ex.shiftRightArith, Ex.shiftRight, Ex.testBit, Ex.testBitHL,
        Ex.set, Ex.setHL, Ex.reset, Ex.resetHL, reduceCtorEq, if_false, if_true]
       have hs2 : s.reg .F &&& 0xF = 0 := hs
       repeat' first
        | with_reducible exact hs2
        | decide
        | with_reducible exact low_shl4 _
        | with_reducible exact low_bit7 _
        | with_reducible exact low_daa _ hs2
        | with_reducible apply low_mod256
        | with_reducible apply low_or
        | with_reducible apply low_flagIf
        | with_reducible apply low_ite
        | with_reducible apply low_and_right
        | with_reducible apply low_and_left
        | exact FOk_pop _ _ hs
        | exact hs)

theorem exCases7_FOk : ∀ p ∈ exCases7, ∀ s : DMGCPU, FOk s → FOk (p.2 s).1 := by
  simp only [exCases7, List.forall_mem_cons]
  and_intros
  all_goals first
    | (intro x hx; cases hx)
    | (intro s hs
       simp only [FOk, reg_setReg, reg_writeMem, reg_writeMem16, reg_setPC, reg_setSP,
        reg_jump, reg_jumpRel, reg_call, reg_opReset, reg_ret, reg_push,
        load8, copy8, load16, fetch8, fetch16, setReg16, WReg.hi, WReg.lo, inc16, dec16, inc,
        dec, add16, doAdd16, add, addWithCarry, doAdd, sub, subWithCarry, doSub, bitAnd, bitOr,
        bitXor, cmp, cmpFlags, Ex.swap, Ex.rotLeftNoCarry, Ex.rotRightNoCarry, Ex.rotLeft,
        Ex.rotRight, Ex.shiftLeft, Ex.shiftRightArith, Ex.shiftRight, Ex.testBit, Ex.testBitHL,
        Ex.set, Ex.setHL, Ex.reset, Ex.resetHL, reduceCtorEq, if_false, if_true]
       have hs2 : s.reg .F &&& 0xF = 0 := hs
       repeat' first
        | with_reducible exact hs2
        | decide
        | with_reducible exact low_shl4 _
        | with_reducible exact low_bit7 _
        | with_reducible exact low_daa _ hs2
        | with_reducible apply low_mod256
        | with_reducible apply low_or
        | with_reducible apply low_flagIf
        | with_reducible apply low_ite
        | with_reducible apply low_and_right
        | with_reducible apply low_and_left
        | exact FOk_pop _ _ hs
        | exact hs)

theorem exCases8_FOk : ∀ p ∈ exCases8, ∀ s : DMGCPU, FOk s → FOk (p.2 s).1 := by
  simp only [exCases8, List.forall_mem_cons]
  and_intros
  all_goals first
    | (intro x hx; cases hx)
    | (intro s hs
       simp only [FOk, reg_setReg, reg_writeMem, reg_writeMem16, reg_setPC, reg_setSP,
        reg_jump, reg_jumpRel, reg_call, reg_opReset, reg_ret, reg_push,
        load8, copy8, load16, fetch8, fetch16, setReg16, WReg.hi, WReg.lo, inc16, dec16, inc,
        dec, add16, doAdd16, add, addWithCarry, doAdd, sub, subWithCarry, doSub, bitAnd, bitOr,
        bitXor, cmp, cmpFlags, Ex.swap, Ex.rotLeftNoCarry, Ex.rotRightNoCarry, Ex.rotLeft,
        Ex.rotRight, Ex.shiftLeft, Ex.shiftRightArith, Ex.shiftRight, Ex.testBit, Ex.testBitHL,
        Ex.set, Ex.setHL, Ex.reset, Ex.resetHL, reduceCtorEq, if_false, if_true]
       have hs2 : s.reg .F &&& 0xF = 0 := hs
       repeat' first
        | with_reducible exact hs2
        | decide
        | with_reducible exact low_shl4 _
        | with_reducible exact low_bit7 _
        | with_reducible exact low_daa _ hs2
        | with_reducible apply low_mod256
        | with_reducible apply low_or
        | with_reducible apply low_flagIf
        | with_reducible apply low_ite
        | with_reducible apply low_and_right
        | with_reducible apply low_and_left
        | exact FOk_pop _ _ hs
        | exact hs)

theorem exCases9_FOk : ∀ p ∈ exCases9, ∀ s : DMGCPU, FOk s → FOk (p.2 s).1 := by
  simp only [exCases9, List.forall_mem_cons]
  and_intros
  all_goals first
    | (intro x hx; cases hx)
    | (intro s hs
       simp only [FOk, reg_setReg, reg_writeMem, reg_writeMem16, reg_setPC, reg_setSP,
        reg_jump, reg_jumpRel, reg_call, reg_opReset, reg_ret, reg_push,
        load8, copy8, load16, fetch8, fetch16, setReg16, WReg.hi, WReg.lo, inc16, dec16, inc,
        dec, add16, doAdd16, add, addWithCarry, doAdd, sub, subWithCarry, doSub, bitAnd, bitOr,
        bitXor, cmp, cmpFlags, Ex.swap, Ex.rotLeftNoCarry, Ex.rotRightNoCarry, Ex.rotLeft,
        Ex.rotRight, Ex.shiftLeft, Ex.shiftRightArith, Ex.shiftRight, Ex.testBit, Ex.testBitHL,
        Ex.set, Ex.setHL, Ex.reset, Ex.resetHL, reduceCtorEq, if_false, if_true]
       have hs2 : s.reg .F &&& 0xF = 0 := hs
       repeat' first
        | with_reducible exact hs2
        | decide
        | with_reducible exact low_shl4 _
        | with_reducible exact low_bit7 _
        | with_reducible exact low_daa _ hs2
        | with_reducible apply low_mod256
        | with_reducible apply low_or
        | with_reducible apply low_flagIf
        | with_reducible apply low_ite
        | with_reducible apply low_and_right
        | with_reducible apply low_and_left
        | exact FOk_pop _ _ hs
        | exact hs)

theorem exCasesA_FOk : ∀ p ∈ exCasesA, ∀ s : DMGCPU, FOk s → FOk (p.2 s).1 := by
  simp only [exCasesA, List.forall_mem_cons]
  and_intros
  all_goals first
    | (intro x hx; cases hx)
    | (intro s hs
       simp only [FOk, reg_setReg, reg_writeMem, reg_writeMem16, reg_setPC, reg_setSP,
        reg_jump, reg_jumpRel, reg_call, reg_opReset, reg_ret, reg_push,
        load8, copy8, load16, fetch8, fetch16, setReg16, WReg.hi, WReg.lo, inc16, dec16, inc,
        dec, add16, doAdd16, add, addWithCarry, doAdd, sub, subWithCarry, doSub, bitAnd, bitOr,
        bitXor, cmp, cmpFlags, Ex.swap, Ex.rotLeftNoCarry, Ex.rotRightNoCarry, Ex.rotLeft,
        Ex.rotRight, Ex.shiftLeft, Ex.shiftRightArith, Ex.shiftRight, Ex.testBit, Ex.testBitHL,
        Ex.set, Ex.setHL, Ex.reset, Ex.resetHL, reduceCtorEq, if_false, if_true]
       have hs2 : s.reg .F &&& 0xF = 0 := hs
       repeat' first
        | with_reducible exact hs2
        | decide
        | with_reducible exact low_shl4 _
        | with_reducible exact low_bit7 _
        | with_reducible exact low_daa _ hs2
        | with_reducible apply low_mod256
        | with_reducible apply low_or
        | with_reducible apply low_flagIf
        | with_reducible apply low_ite
        | with_reducible apply low_and_right
        | with_reducible apply low_and_left
        | exact FOk_pop _ _ hs
        | exact hs)

theorem exCasesB_FOk : ∀ p ∈ exCasesB, ∀ s : DMGCPU, FOk s → FOk (p.2 s).1 := by
  simp only [exCasesB, List.forall_mem_cons]
  and_intros
  all_goals first
    | (intro x hx; cases hx)
    | (intro s hs
       simp only [FOk, reg_setReg, reg_writeMem, reg_writeMem16, reg_setPC, reg_setSP,
        reg_jump, reg_jumpRel, reg_call, reg_opReset, reg_ret, reg_push,
        load8, copy8, load16, fetch8, fetch16, setReg16, WReg.hi, WReg.lo, inc16, dec16, inc,
        dec, add16, doAdd16, add, addWithCarry, doAdd, sub, subWithCarry, doSub, bitAnd, bitOr,
        bitXor, cmp, cmpFlags, Ex.swap, Ex.rotLeftNoCarry, Ex.rotRightNoCarry, Ex.rotLeft,
        Ex.rotRight, Ex.shiftLeft, Ex.shiftRightArith, Ex.shiftRight, Ex.testBit, Ex.testBitHL,
        Ex.set, Ex.setHL, Ex.reset, Ex.resetHL, reduceCtorEq, if_false, if_true]
       have hs2 : s.reg .F &&& 0xF = 0 := hs
       repeat' first
        | with_reducible exact hs2
        | decide
        | with_reducible exact low_shl4 _
        | with_reducible exact low_bit7 _
        | with_reducible exact low_daa _ hs2
        | with_reducible apply low_mod256
        | with_reducible apply low_or
        | with_reducible apply low_flagIf
        | with_reducible apply low_ite
        | with_reducible apply low_and_right
        | with_reducible apply low_and_left
        | exact FOk_pop _ _ hs
        | exact hs)

theorem exCasesC_FOk : ∀ p ∈ exCasesC, ∀ s : DMGCPU, FOk s → FOk (p.2 s).1 := by
  simp only [exCasesC, List.forall_mem_cons]
  and_intros
  all_goals first
    | (intro x hx; cases hx)
    | (intro s hs
       simp only [FOk, reg_setReg, reg_writeMem, reg_writeMem16, reg_setPC, reg_setSP,
        reg_jump, reg_jumpRel, reg_call, reg_opReset, reg_ret, reg_push,
        load8, copy8, load16, fetch8, fetch16, setReg16, WReg.hi, WReg.lo, inc16, dec16, inc,
        dec, add16, doAdd16, add, addWithCarry, doAdd, sub, subWithCarry, doSub, bitAnd, bitOr,
        bitXor, cmp, cmpFlags, Ex.swap, Ex.rotLeftNoCarry, Ex.rotRightNoCarry, Ex.rotLeft,
        Ex.rotRight, Ex.shiftLeft, Ex.shiftRightArith, Ex.shiftRight, Ex.testBit, Ex.testBitHL,
        Ex.set, Ex.setHL, Ex.reset, Ex.resetHL, reduceCtorEq, if_false, if_true]
       have hs2 : s.reg .F &&& 0xF = 0 := hs
       repeat' first
        | with_reducible exact hs2
        | decide
        | with_reducible exact low_shl4 _
        | with_reducible exact low_bit7 _
        | with_reducible exact low_daa _ hs2
        | with_reducible apply low_mod256
        | with_reducible apply low_or
        | with_reducible apply low_flagIf
        | with_reducible apply low_ite
        | with_reducible apply low_and_right
        | with_reducible apply low_and_left
        | exact FOk_pop _ _ hs
        | exact hs)

theorem exCasesD_FOk : ∀ p ∈ exCasesD, ∀ s : DMGCPU, FOk s → FOk (p.2 s).1 := by
  simp only [exCasesD, List.forall_mem_cons]
  and_intros
  all_goals first
    | (intro x hx; cases hx)
    | (intro s hs
       simp only [FOk, reg_setReg, reg_writeMem, reg_writeMem16, reg_setPC, reg_setSP,
        reg_jump, reg_jumpRel, reg_call, reg_opReset, reg_ret, reg_push,
        load8, copy8, load16, fetch8, fetch16, setReg16, WReg.hi, WReg.lo, inc16, dec16, inc,
        dec, add16, doAdd16, add, addWithCarry, doAdd, sub, subWithCarry, doSub, bitAnd, bitOr,
        bitXor, cmp, cmpFlags, Ex.swap, Ex.rotLeftNoCarry, Ex.rotRightNoCarry, Ex.rotLeft,
        Ex.rotRight, Ex.shiftLeft, Ex.shiftRightArith, Ex.shiftRight, Ex.testBit, Ex.testBitHL,
        Ex.set, Ex.setHL, Ex.reset, Ex.resetHL, reduceCtorEq, if_false, if_true]
       have hs2 : s.reg .F &&& 0xF = 0 := hs
       repeat' first
        | with_reducible exact hs2
        | decide
        | with_reducible exact low_shl4 _
        | with_reducible exact low_bit7 _
        | with_reducible exact low_daa _ hs2
        | with_reducible apply low_mod256
        | with_reducible apply low_or
        | with_reducible apply low_flagIf
        | with_reducible apply low_ite
        | with_reducible apply low_and_right
        | with_reducible apply low_and_left
        | exact FOk_pop _ _ hs
        | exact hs)

theorem exCasesE_FOk : ∀ p ∈ exCasesE, ∀ s : DMGCPU, FOk s → FOk (p.2 s).1 := by
  simp only [exCasesE, List.forall_mem_cons]
  and_intros
  all_goals first
    | (intro x hx; cases hx)
    | (intro s hs
       simp only [FOk, reg_setReg, reg_writeMem, reg_writeMem16, reg_setPC, reg_setSP,
        reg_jump, reg_jumpRel, reg_call, reg_opReset, reg_ret, reg_push,
        load8, copy8, load16, fetch8, fetch16, setReg16, WReg.hi, WReg.lo, inc16, dec16, inc,
        dec, add16, doAdd16, add, addWithCarry, doAdd, sub, subWithCarry, doSub, bitAnd, bitOr,
        bitXor, cmp, cmpFlags, Ex.swap, Ex.rotLeftNoCarry, Ex.rotRightNoCarry, Ex.rotLeft,
        Ex.rotRight, Ex.shiftLeft, Ex.shiftRightArith, Ex.shiftRight, Ex.testBit, Ex.testBitHL,
        Ex.set, Ex.setHL, Ex.reset, Ex.resetHL, reduceCtorEq, if_false, if_true]
       have hs2 : s.reg .F &&& 0xF = 0 := hs
       repeat' first
        | with_reducible exact hs2
        | decide
        | with_reducible exact low_shl4 _
        | with_reducible exact low_bit7 _
        | with_reducible exact low_daa _ hs2
        | with_reducible apply low_mod256
        | with_reducible apply low_or
        | with_reducible apply low_flagIf
        | with_reducible apply low_ite
        | with_reducible apply low_and_right
        | with_reducible apply low_and_left
        | exact FOk_pop _ _ hs
        | exact hs)

theorem exCasesF_FOk : ∀ p ∈ exCasesF, ∀ s : DMGCPU, FOk s → FOk (p.2 s).1 := by
  simp only [exCasesF, List.forall_mem_cons]
  and_intros
  all_goals first
    | (intro x hx; cases hx)
    | (intro s hs
       simp only [FOk, reg_setReg, reg_writeMem, reg_writeMem16, reg_setPC, reg_setSP,
        reg_jump, reg_jumpRel, reg_call, reg_opReset, reg_ret, reg_push,
        load8, copy8, load16, fetch8, fetch16, setReg16, WReg.hi, WReg.lo, inc16, dec16, inc,
        dec, add16, doAdd16, add, addWithCarry, doAdd, sub, subWithCarry, doSub, bitAnd, bitOr,
        bitXor, cmp, cmpFlags, Ex.swap, Ex.rotLeftNoCarry, Ex.rotRightNoCarry, Ex.rotLeft,
        Ex.rotRight, Ex.shiftLeft, Ex.shiftRightArith, Ex.shiftRight, Ex.testBit, Ex.testBitHL,
        Ex.set, Ex.setHL, Ex.reset, Ex.resetHL, reduceCtorEq, if_false, if_true]
       have hs2 : s.reg .F &&& 0xF = 0 := hs
       repeat' first
        | with_reducible exact hs2
        | decide
        | with_reducible exact low_shl4 _
        | with_reducible exact low_bit7 _
        | with_reducible exact low_daa _ hs2
        | with_reducible apply low_mod256
        | with_reducible apply low_or
        | with_reducible apply low_flagIf
        | with_reducible apply low_ite
        | with_reducible apply low_and_right
        | with_reducible apply low_and_left
        | exact FOk_pop _ _ hs
        | exact hs)


theorem lookup_mem {β : Type} (k : Nat) (v : β) :
    ∀ l : List (Nat × β), l.lookup k = some v → (k, v) ∈ l := by
  intro l
  induction l with
  | nil => intro h; cases h
  | cons p ps ih =>
    intro h
    obtain ⟨a, b⟩ := p
    by_cases hk : k = a
    · subst hk
      simp only [List.lookup, beq_self_eq_true] at h
      cases h
      exact List.mem_cons_self _ _
    · have hb : (k == a) = false := by simpa using hk
      simp only [List.lookup, hb] at h
      exact List.mem_cons_of_mem _ (ih h)

theorem exCases_FOk : ∀ p ∈ exCases, ∀ s : DMGCPU, FOk s → FOk (p.2 s).1 := by
  intro p hp
  simp only [exCases, List.mem_append] at hp
  rcases hp with (((((((((((((((h | h) | h) | h) | h) | h) | h) | h) | h) | h) | h) | h) | h) | h)
    | h) | h)
  · exact exCases0_FOk p h
  · exact exCases1_FOk p h
  · exact exCases2_FOk p h
  · exact exCases3_FOk p h
  · exact exCases4_FOk p h
  · exact exCases5_FOk p h
  · exact exCases6_FOk p h
  · exact exCases7_FOk p h
  · exact exCases8_FOk p h
  · exact exCases9_FOk p h
  · exact exCasesA_FOk p h
  · exact exCasesB_FOk p h
  · exact exCasesC_FOk p h
  · exact exCasesD_FOk p h
  · exact exCasesE_FOk p h
  · exact exCasesF_FOk p h

theorem FOk_fetch8 (s : DMGCPU) (hs : FOk s) : FOk s.fetch8.2 := by
  simpa only [FOk, fetch8, reg_setPC] using hs

theorem FOk_executeExInstruction (s : DMGCPU) (hs : FOk s) : FOk s.executeExInstruction.1 := by
  unfold executeExInstruction
  dsimp only
  split
  · next body hb => exact exCases_FOk _ (lookup_mem _ _ _ hb) _ (FOk_fetch8 s hs)
  · exact FOk_fetch8 s hs

theorem opCases0_FOk : ∀ p ∈ opCases0, ∀ s : DMGCPU, FOk s →
    ∃ r, p.2 s = some r ∧ FOk r.1 := by
  simp only [opCases0, List.forall_mem_cons]
  and_intros
  all_goals first
    | (intro x hx; cases hx)
    | (intro s hs
       refine ⟨_, rfl, ?_⟩
       simp only [FOk, reg_setReg, reg_writeMem, reg_writeMem16, reg_setPC, reg_setSP,
        reg_jump, reg_jumpRel, reg_call, reg_opReset, reg_ret, reg_push,
        load8, copy8, load16, fetch8, fetch16, setReg16, WReg.hi, WReg.lo, inc16, dec16, inc,
        dec, add16, doAdd16, add, addWithCarry, doAdd, sub, subWithCarry, doSub, bitAnd, bitOr,
        bitXor, cmp, cmpFlags, Ex.swap, Ex.rotLeftNoCarry, Ex.rotRightNoCarry, Ex.rotLeft,
        Ex.rotRight, Ex.shiftLeft, Ex.shiftRightArith, Ex.shiftRight, Ex.testBit, Ex.testBitHL,
        Ex.set, Ex.setHL, Ex.reset, Ex.resetHL, reduceCtorEq, if_false, if_true]
       have hs2 : s.reg .F &&& 0xF = 0 := hs
       repeat' first
        | with_reducible exact hs2
        | decide
        | with_reducible exact low_shl4 _
        | with_reducible exact low_bit7 _
        | with_reducible exact low_daa _ hs2
        | with_reducible apply low_mod256
        | with_reducible apply low_or
        | with_reducible apply low_flagIf
        | with_reducible apply low_ite
        | with_reducible apply low_and_right
        | with_reducible apply low_and_left
        | exact FOk_pop _ _ hs
        | exact FOk_executeExInstruction _ hs
        | exact hs)
    | (intro s hs
       split <;> refine ⟨_, rfl, ?_⟩ <;> exact hs)

theorem opCases1_FOk : ∀ p ∈ opCases1, ∀ s : DMGCPU, FOk s →
    ∃ r, p.2 s = some r ∧ FOk r.1 := by
  simp only [opCases1, List.forall_mem_cons]
  and_intros
  all_goals first
    | (intro x hx; cases hx)
    | (intro s hs
       refine ⟨_, rfl, ?_⟩
       simp only [FOk, reg_setReg, reg_writeMem, reg_writeMem16, reg_setPC, reg_setSP,
        reg_jump, reg_jumpRel, reg_call, reg_opReset, reg_ret, reg_push,
        load8, copy8, load16, fetch8, fetch16, setReg16, WReg.hi, WReg.lo, inc16, dec16, inc,
        dec, add16, doAdd16, add, addWithCarry, doAdd, sub, subWithCarry, doSub, bitAnd, bitOr,
        bitXor, cmp, cmpFlags, Ex.swap, Ex.rotLeftNoCarry, Ex.rotRightNoCarry, Ex.rotLeft,
        Ex.rotRight, Ex.shiftLeft, Ex.shiftRightArith, Ex.shiftRight, Ex.testBit, Ex.testBitHL,
        Ex.set, Ex.setHL, Ex.reset, Ex.resetHL, reduceCtorEq, if_false, if_true]
       have hs2 : s.reg .F &&& 0xF = 0 := hs
       repeat' first
        | with_reducible exact hs2
        | decide
        | with_reducible exact low_shl4 _
        | with_reducible exact low_bit7 _
        | with_reducible exact low_daa _ hs2
        | with_reducible apply low_mod256
        | with_reducible apply low_or
        | with_reducible apply low_flagIf
        | with_reducible apply low_ite
        | with_reducible apply low_and_right
        | with_reducible apply low_and_left
        | exact FOk_pop _ _ hs
        | exact FOk_executeExInstruction _ hs
        | exact hs)
    | (intro s hs
       split <;> refine ⟨_, rfl, ?_⟩ <;> exact hs)

theorem opCases2_FOk : ∀ p ∈ opCases2, ∀ s : DMGCPU, FOk s →
    ∃ r, p.2 s = some r ∧ FOk r.1 := by
  simp only [opCases2, List.forall_mem_cons]
  and_intros
  all_goals first
    | (intro x hx; cases hx)
    | (intro s hs
       refine ⟨_, rfl, ?_⟩
       simp only [FOk, reg_setReg, reg_writeMem, reg_writeMem16, reg_setPC, reg_setSP,
        reg_jump, reg_jumpRel, reg_call, reg_opReset, reg_ret, reg_push,
        load8, copy8, load16, fetch8, fetch16, setReg16, WReg.hi, WReg.lo, inc16, dec16, inc,
        dec, add16, doAdd16, add, addWithCarry, doAdd, sub, subWithCarry, doSub, bitAnd, bitOr,
        bitXor, cmp, cmpFlags, Ex.swap, Ex.rotLeftNoCarry, Ex.rotRightNoCarry, Ex.rotLeft,
        Ex.rotRight, Ex.shiftLeft, Ex.shiftRightArith, Ex.shiftRight, Ex.testBit, Ex.testBitHL,
        Ex.set, Ex.setHL, Ex.reset, Ex.resetHL, reduceCtorEq, if_false, if_true]
       have hs2 : s.reg .F &&& 0xF = 0 := hs
       repeat' first
        | with_reducible exact hs2
        | decide
        | with_reducible exact low_shl4 _
        | with_reducible exact low_bit7 _
        | with_reducible exact low_daa _ hs2
        | with_reducible apply low_mod256
        | with_reducible apply low_or
        | with_reducible apply low_flagIf
        | with_reducible apply low_ite
        | with_reducible apply low_and_right
        | with_reducible apply low_and_left
        | exact FOk_pop _ _ hs
        | exact FOk_executeExInstruction _ hs
        | exact hs)
    | (intro s hs
       split <;> refine ⟨_, rfl, ?_⟩ <;> exact hs)

theorem opCases3_FOk : ∀ p ∈ opCases3, ∀ s : DMGCPU, FOk s →
    ∃ r, p.2 s = some r ∧ FOk r.1 := by
  simp only [opCases3, List.forall_mem_cons]
  and_intros
  all_goals first
    | (intro x hx; cases hx)
    | (intro s hs
       refine ⟨_, rfl, ?_⟩
       simp only [FOk, reg_setReg, reg_writeMem, reg_writeMem16, reg_setPC, reg_setSP,
        reg_jump, reg_jumpRel, reg_call, reg_opReset, reg_ret, reg_push,
        load8, copy8, load16, fetch8, fetch16, setReg16, WReg.hi, WReg.lo, inc16, dec16, inc,
        dec, add16, doAdd16, add, addWithCarry, doAdd, sub, subWithCarry, doSub, bitAnd, bitOr,
        bitXor, cmp, cmpFlags, Ex.swap, Ex.rotLeftNoCarry, Ex.rotRightNoCarry, Ex.rotLeft,
        Ex.rotRight, Ex.shiftLeft, Ex.shiftRightArith, Ex.shiftRight, Ex.testBit, Ex.testBitHL,
        Ex.set, Ex.setHL, Ex.reset, Ex.resetHL, reduceCtorEq, if_false, if_true]
       have hs2 : s.reg .F &&& 0xF = 0 := hs
       repeat' first
        | with_reducible exact hs2
        | decide
        | with_reducible exact low_shl4 _
        | with_reducible exact low_bit7 _
        | with_reducible exact low_daa _ hs2
        | with_reducible apply low_mod256
        | with_reducible apply low_or
        | with_reducible apply low_flagIf
        | with_reducible apply low_ite
        | with_reducible apply low_and_right
        | with_reducible apply low_and_left
        | exact FOk_pop _ _ hs
        | exact FOk_executeExInstruction _ hs
        | exact hs)
    | (intro s hs
       split <;> refine ⟨_, rfl, ?_⟩ <;> exact hs)

theorem opCases4_FOk : ∀ p ∈ opCases4, ∀ s : DMGCPU, FOk s →
    ∃ r, p.2 s = some r ∧ FOk r.1 := by
  simp only [opCases4, List.forall_mem_cons]
  and_intros
  all_goals first
    | (intro x hx; cases hx)
    | (intro s hs
       refine ⟨_, rfl, ?_⟩
       simp only [FOk, reg_setReg, reg_writeMem, reg_writeMem16, reg_setPC, reg_setSP,
        reg_jump, reg_jumpRel, reg_call, reg_opReset, reg_ret, reg_push,
        load8, copy8, load16, fetch8, fetch16, setReg16, WReg.hi, WReg.lo, inc16, dec16, inc,
        dec, add16, doAdd16, add, addWithCarry, doAdd, sub, subWithCarry, doSub, bitAnd, bitOr,
        bitXor, cmp, cmpFlags, Ex.swap, Ex.rotLeftNoCarry, Ex.rotRightNoCarry, Ex.rotLeft,
        Ex.rotRight, Ex.shiftLeft, Ex.shiftRightArith, Ex.shiftRight, Ex.testBit, Ex.testBitHL,
        Ex.set, Ex.setHL, Ex.reset, Ex.resetHL, reduceCtorEq, if_false, if_true]
       have hs2 : s.reg .F &&& 0xF = 0 := hs
       repeat' first
        | with_reducible exact hs2
        | decide
        | with_reducible exact low_shl4 _
        | with_reducible exact low_bit7 _
        | with_reducible exact low_daa _ hs2
        | with_reducible apply low_mod256
        | with_reducible apply low_or
        | with_reducible apply low_flagIf
        | with_reducible apply low_ite
        | with_reducible apply low_and_right
        | with_reducible apply low_and_left
        | exact FOk_pop _ _ hs
        | exact FOk_executeExInstruction _ hs
        | exact hs)
    | (intro s hs
       split <;> refine ⟨_, rfl, ?_⟩ <;> exact hs)

theorem opCases5_FOk : ∀ p ∈ opCases5, ∀ s : DMGCPU, FOk s →
    ∃ r, p.2 s = some r ∧ FOk r.1 := by
  simp only [opCases5, List.forall_mem_cons]
  and_intros
  all_goals first
    | (intro x hx; cases hx)
    | (intro s hs
       refine ⟨_, rfl, ?_⟩
       simp only [FOk, reg_setReg, reg_writeMem, reg_writeMem16, reg_setPC, reg_setSP,
        reg_jump, reg_jumpRel, reg_call, reg_opReset, reg_ret, reg_push,
        load8, copy8, load16, fetch8, fetch16, setReg16, WReg.hi, WReg.lo, inc16, dec16, inc,
        dec, add16, doAdd16, add, addWithCarry, doAdd, sub, subWithCarry, doSub, bitAnd, bitOr,
        bitXor, cmp, cmpFlags, Ex.swap, Ex.rotLeftNoCarry, Ex.rotRightNoCarry, Ex.rotLeft,
        Ex.rotRight, Ex.shiftLeft, Ex.shiftRightArith, Ex.shiftRight, Ex.testBit, Ex.testBitHL,
        Ex.set, Ex.setHL, Ex.reset, Ex.resetHL, reduceCtorEq, if_false, if_true]
       have hs2 : s.reg .F &&& 0xF = 0 := hs
       repeat' first
        | with_reducible exact hs2
        | decide
        | with_reducible exact low_shl4 _
        | with_reducible exact low_bit7 _
        | with_reducible exact low_daa _ hs2
        | with_reducible apply low_mod256
        | with_reducible apply low_or
        | with_reducible apply low_flagIf
        | with_reducible apply low_ite
        | with_reducible apply low_and_right
        | with_reducible apply low_and_left
        | exact FOk_pop _ _ hs
        | exact FOk_executeExInstruction _ hs
        | exact hs)
    | (intro s hs
       split <;> refine ⟨_, rfl, ?_⟩ <;> exact hs)

theorem opCases6_FOk : ∀ p ∈ opCases6, ∀ s : DMGCPU, FOk s →
    ∃ r, p.2 s = some r ∧ FOk r.1 := by
  simp only [opCases6, List.forall_mem_cons]
  and_intros
  all_goals first
    | (intro x hx; cases hx)
    | (intro s hs
       refine ⟨_, rfl, ?_⟩
       simp only [FOk, reg_setReg, reg_writeMem, reg_writeMem16, reg_setPC, reg_setSP,
        reg_jump, reg_jumpRel, reg_call, reg_opReset, reg_ret, reg_push,
        load8, copy8, load16, fetch8, fetch16, setReg16, WReg.hi, WReg.lo, inc16, dec16, inc,
        dec, add16, doAdd16, add, addWithCarry, doAdd, sub, subWithCarry, doSub, bitAnd, bitOr,
        bitXor, cmp, cmpFlags, Ex.swap, Ex.rotLeftNoCarry, Ex.rotRightNoCarry, Ex.rotLeft,
        Ex.rotRight, Ex.shiftLeft, Ex.shiftRightArith, Ex.shiftRight, Ex.testBit, Ex.testBitHL,
        Ex.set, Ex.setHL, Ex.reset, Ex.resetHL, reduceCtorEq, if_false, if_true]
       have hs2 : s.reg .F &&& 0xF = 0 := hs
       repeat' first
        | with_reducible exact hs2
        | decide
        | with_reducible exact low_shl4 _
        | with_reducible exact low_bit7 _
        | with_reducible exact low_daa _ hs2
        | with_reducible apply low_mod256
        | with_reducible apply low_or
        | with_reducible apply low_flagIf
        | with_reducible apply low_ite
        | with_reducible apply low_and_right
        | with_reducible apply low_and_left
        | exact FOk_pop _ _ hs
        | exact FOk_executeExInstruction _ hs
        | exact hs)
    | (intro s hs
       split <;> refine ⟨_, rfl, ?_⟩ <;> exact hs)

theorem opCases7_FOk : ∀ p ∈ opCases7, ∀ s : DMGCPU, FOk s →
    ∃ r, p.2 s = some r ∧ FOk r.1 := by
  simp only [opCases7, List.forall_mem_cons]
  and_intros
  all_goals first
    | (intro x hx; cases hx)
    | (intro s hs
       refine ⟨_, rfl, ?_⟩
       simp only [FOk, reg_setReg, reg_writeMem, reg_writeMem16, reg_setPC, reg_setSP,
        reg_jump, reg_jumpRel, reg_call, reg_opReset, reg_ret, reg_push,
        load8, copy8, load16, fetch8, fetch16, setReg16, WReg.hi, WReg.lo, inc16, dec16, inc,
        dec, add16, doAdd16, add, addWithCarry, doAdd, sub, subWithCarry, doSub, bitAnd, bitOr,
        bitXor, cmp, cmpFlags, Ex.swap, Ex.rotLeftNoCarry, Ex.rotRightNoCarry, Ex.rotLeft,
        Ex.rotRight, Ex.shiftLeft, Ex.shiftRightArith, Ex.shiftRight, Ex.testBit, Ex.testBitHL,
        Ex.set, Ex.setHL, Ex.reset, Ex.resetHL, reduceCtorEq, if_false, if_true]
       have hs2 : s.reg .F &&& 0xF = 0 := hs
       repeat' first
        | with_reducible exact hs2
        | decide
        | with_reducible exact low_shl4 _
        | with_reducible exact low_bit7 _
        | with_reducible exact low_daa _ hs2
        | with_reducible apply low_mod256
        | with_reducible apply low_or
        | with_reducible apply low_flagIf
        | with_reducible apply low_ite
        | with_reducible apply low_and_right
        | with_reducible apply low_and_left
        | exact FOk_pop _ _ hs
        | exact FOk_executeExInstruction _ hs
        | exact hs)
    | (intro s hs
       split <;> refine ⟨_, rfl, ?_⟩ <;> exact hs)

theorem opCases8_FOk : ∀ p ∈ opCases8, ∀ s : DMGCPU, FOk s →
    ∃ r, p.2 s = some r ∧ FOk r.1 := by
  simp only [opCases8, List.forall_mem_cons]
  and_intros
  all_goals first
    | (intro x hx; cases hx)
    | (intro s hs
       refine ⟨_, rfl, ?_⟩
       simp only [FOk, reg_setReg, reg_writeMem, reg_writeMem16, reg_setPC, reg_setSP,
        reg_jump, reg_jumpRel, reg_call, reg_opReset, reg_ret, reg_push,
        load8, copy8, load16, fetch8, fetch16, setReg16, WReg.hi, WReg.lo, inc16, dec16, inc,
        dec, add16, doAdd16, add, addWithCarry, doAdd, sub, subWithCarry, doSub, bitAnd, bitOr,
        bitXor, cmp, cmpFlags, Ex.swap, Ex.rotLeftNoCarry, Ex.rotRightNoCarry, Ex.rotLeft,
        Ex.rotRight, Ex.shiftLeft, Ex.shiftRightArith, Ex.shiftRight, Ex.testBit, Ex.testBitHL,
        Ex.set, Ex.setHL, Ex.reset, Ex.resetHL, reduceCtorEq, if_false, if_true]
       have hs2 : s.reg .F &&& 0xF = 0 := hs
       repeat' first
        | with_reducible exact hs2
        | decide
        | with_reducible exact low_shl4 _
        | with_reducible exact low_bit7 _
        | with_reducible exact low_daa _ hs2
        | with_reducible apply low_mod256
        | with_reducible apply low_or
        | with_reducible apply low_flagIf
        | with_reducible apply low_ite
        | with_reducible apply low_and_right
        | with_reducible apply low_and_left
        | exact FOk_pop _ _ hs
        | exact FOk_executeExInstruction _ hs
        | exact hs)
    | (intro s hs
       split <;> refine ⟨_, rfl, ?_⟩ <;> exact hs)

theorem opCases9_FOk : ∀ p ∈ opCases9, ∀ s : DMGCPU, FOk s →
    ∃ r, p.2 s = some r ∧ FOk r.1 := by
  simp only [opCases9, List.forall_mem_cons]
  and_intros
  all_goals first
    | (intro x hx; cases hx)
    | (intro s hs
       refine ⟨_, rfl, ?_⟩
       simp only [FOk, reg_setReg, reg_writeMem, reg_writeMem16, reg_setPC, reg_setSP,
        reg_jump, reg_jumpRel, reg_call, reg_opReset, reg_ret, reg_push,
        load8, copy8, load16, fetch8, fetch16, setReg16, WReg.hi, WReg.lo, inc16, dec16, inc,
        dec, add16, doAdd16, add, addWithCarry, doAdd, sub, subWithCarry, doSub, bitAnd, bitOr,
        bitXor, cmp, cmpFlags, Ex.swap, Ex.rotLeftNoCarry, Ex.rotRightNoCarry, Ex.rotLeft,
        Ex.rotRight, Ex.shiftLeft, Ex.shiftRightArith, Ex.shiftRight, Ex.testBit, Ex.testBitHL,
        Ex.set, Ex.setHL, Ex.reset, Ex.resetHL, reduceCtorEq, if_false, if_true]
       have hs2 : s.reg .F &&& 0xF = 0 := hs
       repeat' first
        | with_reducible exact hs2
        | decide
        | with_reducible exact low_shl4 _
        | with_reducible exact low_bit7 _
        | with_reducible exact low_daa _ hs2
        | with_reducible apply low_mod256
        | with_reducible apply low_or
        | with_reducible apply low_flagIf
        | with_reducible apply low_ite
        | with_reducible apply low_and_right
        | with_reducible apply low_and_left
        | exact FOk_pop _ _ hs
        | exact FOk_executeExInstruction _ hs
        | exact hs)
    | (intro s hs
       split <;> refine ⟨_, rfl, ?_⟩ <;> exact hs)

theorem opCasesA_FOk : ∀ p ∈ opCasesA, ∀ s : DMGCPU, FOk s →
    ∃ r, p.2 s = some r ∧ FOk r.1 := by
  simp only [opCasesA, List.forall_mem_cons]
  and_intros
  all_goals first
    | (intro x hx; cases hx)
    | (intro s hs
       refine ⟨_, rfl, ?_⟩
       simp only [FOk, reg_setReg, reg_writeMem, reg_writeMem16, reg_setPC, reg_setSP,
        reg_jump, reg_jumpRel, reg_call, reg_opReset, reg_ret, reg_push,
        load8, copy8, load16, fetch8, fetch16, setReg16, WReg.hi, WReg.lo, inc16, dec16, inc,
        dec, add16, doAdd16, add, addWithCarry, doAdd, sub, subWithCarry, doSub, bitAnd, bitOr,
        bitXor, cmp, cmpFlags, Ex.swap, Ex.rotLeftNoCarry, Ex.rotRightNoCarry, Ex.rotLeft,
        Ex.rotRight, Ex.shiftLeft, Ex.shiftRightArith, Ex.shiftRight, Ex.testBit, Ex.testBitHL,
        Ex.set, Ex.setHL, Ex.reset, Ex.resetHL, reduceCtorEq, if_false, if_true]
       have hs2 : s.reg .F &&& 0xF = 0 := hs
       repeat' first
        | with_reducible exact hs2
        | decide
        | with_reducible exact low_shl4 _
        | with_reducible exact low_bit7 _
        | with_reducible exact low_daa _ hs2
        | with_reducible apply low_mod256
        | with_reducible apply low_or
        | with_reducible apply low_flagIf
        | with_reducible apply low_ite
        | with_reducible apply low_and_right
        | with_reducible apply low_and_left
        | exact FOk_pop _ _ hs
        | exact FOk_executeExInstruction _ hs
        | exact hs)
    | (intro s hs
       split <;> refine ⟨_, rfl, ?_⟩ <;> exact hs)

theorem opCasesB_FOk : ∀ p ∈ opCasesB, ∀ s : DMGCPU, FOk s →
    ∃ r, p.2 s = some r ∧ FOk r.1 := by
  simp only [opCasesB, List.forall_mem_cons]
  and_intros
  all_goals first
    | (intro x hx; cases hx)
    | (intro s hs
       refine ⟨_, rfl, ?_⟩
       simp only [FOk, reg_setReg, reg_writeMem, reg_writeMem16, reg_setPC, reg_setSP,
        reg_jump, reg_jumpRel, reg_call, reg_opReset, reg_ret, reg_push,
        load8, copy8, load16, fetch8, fetch16, setReg16, WReg.hi, WReg.lo, inc16, dec16, inc,
        dec, add16, doAdd16, add, addWithCarry, doAdd, sub, subWithCarry, doSub, bitAnd, bitOr,
        bitXor, cmp, cmpFlags, Ex.swap, Ex.rotLeftNoCarry, Ex.rotRightNoCarry, Ex.rotLeft,
        Ex.rotRight, Ex.shiftLeft, Ex.shiftRightArith, Ex.shiftRight, Ex.testBit, Ex.testBitHL,
        Ex.set, Ex.setHL, Ex.reset, Ex.resetHL, reduceCtorEq, if_false, if_true]
       have hs2 : s.reg .F &&& 0xF = 0 := hs
       repeat' first
        | with_reducible exact hs2
        | decide
        | with_reducible exact low_shl4 _
        | with_reducible exact low_bit7 _
        | with_reducible exact low_daa _ hs2
        | with_reducible apply low_mod256
        | with_reducible apply low_or
        | with_reducible apply low_flagIf
        | with_reducible apply low_ite
        | with_reducible apply low_and_right
        | with_reducible apply low_and_left
        | exact FOk_pop _ _ hs
        | exact FOk_executeExInstruction _ hs
        | exact hs)
    | (intro s hs
       split <;> refine ⟨_, rfl, ?_⟩ <;> exact hs)

theorem opCasesC_FOk : ∀ p ∈ opCasesC, ∀ s : DMGCPU, FOk s →
    ∃ r, p.2 s = some r ∧ FOk r.1 := by
  simp only [opCasesC, List.forall_mem_cons]
  and_intros
  all_goals first
    | (intro x hx; cases hx)
    | (intro s hs
       refine ⟨_, rfl, ?_⟩
       simp only [FOk, reg_setReg, reg_writeMem, reg_writeMem16, reg_setPC, reg_setSP,
        reg_jump, reg_jumpRel, reg_call, reg_opReset, reg_ret, reg_push,
        load8, copy8, load16, fetch8, fetch16, setReg16, WReg.hi, WReg.lo, inc16, dec16, inc,
        dec, add16, doAdd16, add, addWithCarry, doAdd, sub, subWithCarry, doSub, bitAnd, bitOr,
        bitXor, cmp, cmpFlags, Ex.swap, Ex.rotLeftNoCarry, Ex.rotRightNoCarry, Ex.rotLeft,
        Ex.rotRight, Ex.shiftLeft, Ex.shiftRightArith, Ex.shiftRight, Ex.testBit, Ex.testBitHL,
        Ex.set, Ex.setHL, Ex.reset, Ex.resetHL, reduceCtorEq, if_false, if_true]
       have hs2 : s.reg .F &&& 0xF = 0 := hs
       repeat' first
        | with_reducible exact hs2
        | decide
        | with_reducible exact low_shl4 _
        | with_reducible exact low_bit7 _
        | with_reducible exact low_daa _ hs2
        | with_reducible apply low_mod256
        | with_reducible apply low_or
        | with_reducible apply low_flagIf
        | with_reducible apply low_ite
        | with_reducible apply low_and_right
        | with_reducible apply low_and_left
        | exact FOk_pop _ _ hs
        | exact FOk_executeExInstruction _ hs
        | exact hs)
    | (intro s hs
       split <;> refine ⟨_, rfl, ?_⟩ <;> exact hs)

theorem opCasesD_FOk : ∀ p ∈ opCasesD, ∀ s : DMGCPU, FOk s →
    ∃ r, p.2 s = some r ∧ FOk r.1 := by
  simp only [opCasesD, List.forall_mem_cons]
  and_intros
  all_goals first
    | (intro x hx; cases hx)
    | (intro s hs
       refine ⟨_, rfl, ?_⟩
       simp only [FOk, reg_setReg, reg_writeMem, reg_writeMem16, reg_setPC, reg_setSP,
        reg_jump, reg_jumpRel, reg_call, reg_opReset, reg_ret, reg_push,
        load8, copy8, load16, fetch8, fetch16, setReg16, WReg.hi, WReg.lo, inc16, dec16, inc,
        dec, add16, doAdd16, add, addWithCarry, doAdd, sub, subWithCarry, doSub, bitAnd, bitOr,
        bitXor, cmp, cmpFlags, Ex.swap, Ex.rotLeftNoCarry, Ex.rotRightNoCarry, Ex.rotLeft,
        Ex.rotRight, Ex.shiftLeft, Ex.shiftRightArith, Ex.shiftRight, Ex.testBit, Ex.testBitHL,
        Ex.set, Ex.setHL, Ex.reset, Ex.resetHL, reduceCtorEq, if_false, if_true]
       have hs2 : s.reg .F &&& 0xF = 0 := hs
       repeat' first
        | with_reducible exact hs2
        | decide
        | with_reducible exact low_shl4 _
        | with_reducible exact low_bit7 _
        | with_reducible exact low_daa _ hs2
        | with_reducible apply low_mod256
        | with_reducible apply low_or
        | with_reducible apply low_flagIf
        | with_reducible apply low_ite
        | with_reducible apply low_and_right
        | with_reducible apply low_and_left
        | exact FOk_pop _ _ hs
        | exact FOk_executeExInstruction _ hs
        | exact hs)
    | (intro s hs
       split <;> refine ⟨_, rfl, ?_⟩ <;> exact hs)

theorem opCasesE_FOk : ∀ p ∈ opCasesE, ∀ s : DMGCPU, FOk s →
    ∃ r, p.2 s = some r ∧ FOk r.1 := by
  simp only [opCasesE, List.forall_mem_cons]
  and_intros
  all_goals first
    | (intro x hx; cases hx)
    | (intro s hs
       refine ⟨_, rfl, ?_⟩
       simp only [FOk, reg_setReg, reg_writeMem, reg_writeMem16, reg_setPC, reg_setSP,
        reg_jump, reg_jumpRel, reg_call, reg_opReset, reg_ret, reg_push,
        load8, copy8, load16, fetch8, fetch16, setReg16, WReg.hi, WReg.lo, inc16, dec16, inc,
        dec, add16, doAdd16, add, addWithCarry, doAdd, sub, subWithCarry, doSub, bitAnd, bitOr,
        bitXor, cmp, cmpFlags, Ex.swap, Ex.rotLeftNoCarry, Ex.rotRightNoCarry, Ex.rotLeft,
        Ex.rotRight, Ex.shiftLeft, Ex.shiftRightArith, Ex.shiftRight, Ex.testBit, Ex.testBitHL,
        Ex.set, Ex.setHL, Ex.reset, Ex.resetHL, reduceCtorEq, if_false, if_true]
       have hs2 : s.reg .F &&& 0xF = 0 := hs
       repeat' first
        | with_reducible exact hs2
        | decide
        | with_reducible exact low_shl4 _
        | with_reducible exact low_bit7 _
        | with_reducible exact low_daa _ hs2
        | with_reducible apply low_mod256
        | with_reducible apply low_or
        | with_reducible apply low_flagIf
        | with_reducible apply low_ite
        | with_reducible apply low_and_right
        | with_reducible apply low_and_left
        | exact FOk_pop _ _ hs
        | exact FOk_executeExInstruction _ hs
        | exact hs)
    | (intro s hs
       split <;> refine ⟨_, rfl, ?_⟩ <;> exact hs)

theorem opCasesF_FOk : ∀ p ∈ opCasesF, ∀ s : DMGCPU, FOk s →
    ∃ r, p.2 s = some r ∧ FOk r.1 := by
  simp only [opCasesF, List.forall_mem_cons]
  and_intros
  all_goals first
    | (intro x hx; cases hx)
    | (intro s hs
       refine ⟨_, rfl, ?_⟩
       simp only [FOk, reg_setReg, reg_writeMem, reg_writeMem16, reg_setPC, reg_setSP,
        reg_jump, reg_jumpRel, reg_call, reg_opReset, reg_ret, reg_push,
        load8, copy8, load16, fetch8, fetch16, setReg16, WReg.hi, WReg.lo, inc16, dec16, inc,
        dec, add16, doAdd16, add, addWithCarry, doAdd, sub, subWithCarry, doSub, bitAnd, bitOr,
        bitXor, cmp, cmpFlags, Ex.swap, Ex.rotLeftNoCarry, Ex.rotRightNoCarry, Ex.rotLeft,
        Ex.rotRight, Ex.shiftLeft, Ex.shiftRightArith, Ex.shiftRight, Ex.testBit, Ex.testBitHL,
        Ex.set, Ex.setHL, Ex.reset, Ex.resetHL, reduceCtorEq, if_false, if_true]
       have hs2 : s.reg .F &&& 0xF = 0 := hs
       repeat' first
        | with_reducible exact hs2
        | decide
        | with_reducible exact low_shl4 _
        | with_reducible exact low_bit7 _
        | with_reducible exact low_daa _ hs2
        | with_reducible apply low_mod256
        | with_reducible apply low_or
        | with_reducible apply low_flagIf
        | with_reducible apply low_ite
        | with_reducible apply low_and_right
        | with_reducible apply low_and_left
        | exact FOk_pop _ _ hs
        | exact FOk_executeExInstruction _ hs
        | exact hs)
    | (intro s hs
       split <;> refine ⟨_, rfl, ?_⟩ <;> exact hs)


theorem opCases_FOk : ∀ p ∈ opCases, ∀ s : DMGCPU, FOk s → ∃ r, p.2 s = some r ∧ FOk r.1 := by
  intro p hp
  simp only [opCases, List.mem_append] at hp
  rcases hp with (((((((((((((((h | h) | h) | h) | h) | h) | h) | h) | h) | h) | h) | h) | h) | h)
    | h) | h)
  · exact opCases0_FOk p h
  · exact opCases1_FOk p h
  · exact opCases2_FOk p h
  · exact opCases3_FOk p h
  · exact opCases4_FOk p h
  · exact opCases5_FOk p h
  · exact opCases6_FOk p h
  · exact opCases7_FOk p h
  · exact opCases8_FOk p h
  · exact opCases9_FOk p h
  · exact opCasesA_FOk p h
  · exact opCasesB_FOk p h
  · exact opCasesC_FOk p h
  · exact opCasesD_FOk p h
  · exact opCasesE_FOk p h
  · exact opCasesF_FOk p h

set_option maxRecDepth 100000 in
theorem hasCase_table : ∀ op < 256,
    (hasCase op = false ↔
      op ∈ [0xD3, 0xDB, 0xDD, 0xE3, 0xE4, 0xEB, 0xEC, 0xED, 0xF4, 0xFC, 0xFD]) ∧
    (exCases.lookup op).isSome = true := by
  decide

theorem reg_F_resetRegs (s : DMGCPU) (resetMem : DMGMemory → DMGMemory) :
    (s.resetRegs resetMem).reg .F = 0xB0 := by
  simp only [resetRegs, reg_setReg, reg_setSP, setReg16, WReg.hi, WReg.lo, reduceCtorEq,
    if_false, if_true]

theorem FOk_reset (s : DMGCPU) (resetMem : DMGMemory → DMGMemory) : FOk (s.reset resetMem) := by
  have h1 : ∀ t : DMGCPU, (({ t with isGBC := true } : DMGCPU).setReg .A 0x11).reg .F = t.reg .F := by
    intro t
    rw [reg_setReg]
    rfl
  unfold reset
  dsimp only
  split
  · rw [FOk, h1, reg_F_resetRegs]; decide
  · rw [FOk, reg_F_resetRegs]; decide

/-- C3: the low four bits of F stay zero.  From any state whose F has a zero low nibble
(the data-model invariant, which `reset` establishes), executing any defined opcode —
any opcode with a `case` label, the `0xCB` prefix with each of its 256 sub-opcodes
included — completes and leaves the low nibble of F zero.  The opcodes without a
`case` label are exactly 0xD3, 0xDB, 0xDD, 0xE3, 0xE4, 0xEB, 0xEC, 0xED, 0xF4, 0xFC,
0xFD; every `0xCB` sub-opcode has one. -/
theorem C3_F_low_nibble_stays_zero (s : DMGCPU) (hs : FOk s)
    (hop : hasCase (s.readMem s.pc) = true) :
    (∃ t n, s.executeInstruction = some (t, n) ∧ t.reg .F &&& 0xF = 0) ∧
    s.executeExInstruction.1.reg .F &&& 0xF = 0 ∧
    (∀ (s0 : DMGCPU) (resetMem : DMGMemory → DMGMemory),
      (s0.reset resetMem).reg .F &&& 0xF = 0) ∧
    (∀ op < 256,
      (hasCase op = false ↔
        op ∈ [0xD3, 0xDB, 0xDD, 0xE3, 0xE4, 0xEB, 0xEC, 0xED, 0xF4, 0xFC, 0xFD]) ∧
      (exCases.lookup op).isSome = true) := by
  refine ⟨?_, FOk_executeExInstruction s hs, fun s0 rm => FOk_reset s0 rm, hasCase_table⟩
  unfold hasCase at hop
  unfold executeInstruction
  dsimp only
  split
  · next body hb =>
    obtain ⟨r, hr, hF⟩ := opCases_FOk _ (lookup_mem _ _ _ hb) _ (FOk_fetch8 s hs)
    exact ⟨r.1, r.2, hr, hF⟩
  · next hb =>
    rw [show s.fetch8.1 = s.readMem s.pc from rfl] at hb
    rw [hb] at hop
    cases hop

/-- C3 on the booted machine (a NOP at the program counter, `F = 0xB0`). -/
theorem C3_F_low_nibble_witness :
    ∃ t n, booted.executeInstruction = some (t, n) ∧ t.reg .F &&& 0xF = 0 :=
  (C3_F_low_nibble_stays_zero booted (by unfold FOk; decide) (by decide)).1

/-! ## Interrupt dispatch -/

theorem serviceLoop_lowest (s : DMGCPU) :
    ∀ (i fuel k sv : Nat), sv ≤ fuel → sv.testBit i = true →
      (∀ j < i, sv.testBit j = false) →
      serviceLoop s fuel k sv = s.serviceVector (k + i) := by
  intro i
  induction i with
  | zero =>
    intro fuel k sv hf hb _
    have h1 : sv % 2 = 1 := Nat.mod_two_eq_one_iff_testBit_zero.mpr hb
    have h2 : sv &&& 1 = 1 := by rw [Nat.and_one_is_mod]; exact h1
    have h3 : sv ≠ 0 := by omega
    obtain ⟨f, rfl⟩ : ∃ f, fuel = f + 1 := ⟨fuel - 1, by omega⟩
    simp [serviceLoop, h2, h3]
  | succ i ih =>
    intro fuel k sv hf hb hlow
    have h0 : sv.testBit 0 = false := hlow 0 (Nat.succ_pos i)
    have h1 : sv % 2 = 0 := Nat.mod_two_eq_zero_iff_testBit_zero.mpr h0
    have h2 : sv &&& 1 = 0 := by rw [Nat.and_one_is_mod]; exact h1
    have h3 : sv ≠ 0 := by
      intro h
      rw [h, Nat.zero_testBit] at hb
      cases hb
    obtain ⟨f, rfl⟩ : ∃ f, fuel = f + 1 := ⟨fuel - 1, by omega⟩
    have h4 : sv >>> 1 ≤ f := by
      rw [Nat.shiftRight_eq_div_pow]
      omega
    have h5 : (sv >>> 1).testBit i = true := by
      rw [Nat.testBit_shiftRight, Nat.add_comm]; exact hb
    have h6 : ∀ j < i, (sv >>> 1).testBit j = false := by
      intro j hj
      rw [Nat.testBit_shiftRight, Nat.add_comm]
      exact hlow (j + 1) (by omega)
    have h7 := ih f (k + 1) (sv >>> 1) h4 h5 h6
    simp only [serviceLoop, h3, h2, if_false, ne_eq, not_true_eq_false]
    rw [h7]
    congr 1
    omega

theorem vectors_get (i : Nat) (hi : i < 5) : vectors[i]? = some (0x40 + 8 * i) := by
  interval_cases i <;> rfl

theorem writeMem_below_io (s : DMGCPU) (addr data : Nat) (h : addr % 65536 < 0xFF00) :
    s.writeMem addr data = { s with mem := s.mem.write (addr % 65536) (data % 256) } := by
  have h2 : ¬ 0xFF00 ≤ addr % 65536 := by omega
  simp only [writeMem, busWrite, h2, if_false]

theorem and255 (x : Nat) : x &&& 0xFF = x % 256 := by
  have h := Nat.and_pow_two_sub_one_eq_mod x 8
  simp only [Nat.reducePow, Nat.add_one_sub_one, Nat.reduceSub] at h
  exact h

/-- An address below the IO page selects a byte below the IO page. -/
theorem mirror_lt (a : Nat) (h : a < 0xFF00) : DMGMemory.mirror a < 0xFF00 := by
  unfold DMGMemory.mirror
  split <;> omega

/-- A bus write below the IO page leaves the bytes of the IO page alone. -/
theorem write_io_bytes (m : DMGMemory) (addr v a : Nat) (h : addr < 0xFF00) (ha : 0xFF00 ≤ a) :
    (m.write addr v).bytes a = m.bytes a := by
  have hm := mirror_lt addr h
  unfold DMGMemory.write
  split
  · rfl
  · simp only [DMGMemory.store]
    rw [if_neg (by omega)]

/-- Two bus writes at consecutive addresses from video RAM up to the IO page are both
stored: neither overwrites the other, also across the start and the end of the echo
region. -/
theorem write_write_bytes (m : DMGMemory) (a lo hi : Nat) (h1 : 0x8000 ≤ a)
    (h2 : a + 1 < 0xFF00) :
    ((m.write a lo).write (a + 1) hi).bytes (DMGMemory.mirror a) = lo % 256 ∧
    ((m.write a lo).write (a + 1) hi).bytes (DMGMemory.mirror (a + 1)) = hi % 256 := by
  have k1 : ¬ a < 0x8000 := by omega
  have k2 : ¬ a + 1 < 0x8000 := by omega
  simp only [DMGMemory.write, DMGMemory.mirror, DMGMemory.store, k1, k2, if_false]
  constructor <;> split_ifs <;> omega

/-- A write to high RAM (0xFF80–0xFFFE) matches no case of the write hook and is stored. -/
theorem writeMem_hram (s : DMGCPU) (addr data : Nat) (h1 : 0xFF80 ≤ addr) (h2 : addr < 0xFFFF) :
    s.writeMem addr data = { s with mem := s.mem.store addr (data % 256) } := by
  have e : addr % 65536 = addr := by omega
  have hio : 0xFF00 ≤ addr := by omega
  have hb : addr &&& 0xFF = addr % 256 := and255 addr
  have k1 : ¬ addr % 256 = 0x46 := by omega
  have k2 : ¬ addr % 256 = IO_HDMA5 := by unfold IO_HDMA5; omega
  have k3 : ¬ addr % 256 = IO_DIV := by unfold IO_DIV; omega
  have k4 : ¬ addr % 256 = IO_TAC := by unfold IO_TAC; omega
  have k5 : ¬ addr % 256 = IO_KEY1 := by unfold IO_KEY1; omega
  have k6 : ¬ addr % 256 = IO_IF := by unfold IO_IF; omega
  have k7 : ¬ addr % 256 = IO_IE := by unfold IO_IE; omega
  unfold writeMem busWrite writeRegWith
  rw [e, hb]
  simp only [hio, k1, k2, k3, k4, k5, k6, k7, if_true, if_false, Bool.false_eq_true, Nat.mod_mod]

/-- A read below the IO page returns the byte the address selects. -/
theorem readMem_below_io (s : DMGCPU) (a : Nat) (h : a < 0xFF00) :
    s.readMem a = s.mem.bytes (DMGMemory.mirror a) % 256 := by
  have e : a % 65536 = a := by omega
  unfold readMem busRead
  rw [e, if_neg (by omega)]
  rfl

/-- A read of high RAM (0xFF80–0xFFFE) matches no case of the read hook. -/
theorem readMem_hram (s : DMGCPU) (a : Nat) (h1 : 0xFF80 ≤ a) (h2 : a < 0xFFFF) :
    s.readMem a = s.mem.bytes a % 256 := by
  have e : a % 65536 = a := by omega
  have hb : a &&& 0xFF = a % 256 := and255 a
  have k3 : ¬ a % 256 = IO_DIV := by unfold IO_DIV; omega
  have k5 : ¬ a % 256 = IO_KEY1 := by unfold IO_KEY1; omega
  unfold readMem busRead readReg
  rw [e, hb, if_pos (by omega), if_neg k3, if_neg k5]

theorem readMem_setPC (s : DMGCPU) (v a : Nat) : (s.setPC v).readMem a = s.readMem a := rfl

/-- A write below the IO page or to high RAM leaves the serviceable cache and IF alone. -/
theorem writeMem_stack_frame (s : DMGCPU) (addr data : Nat)
    (h : addr < 0xFF00 ∨ (0xFF80 ≤ addr ∧ addr < 0xFFFF)) :
    (s.writeMem addr data).serviceableInterrupts = s.serviceableInterrupts ∧
    (s.writeMem addr data).mem.readIOReg IO_IF = s.mem.readIOReg IO_IF := by
  rcases h with h | ⟨h1, h2⟩
  · rw [writeMem_below_io s addr data (by omega)]
    refine ⟨rfl, ?_⟩
    unfold DMGMemory.readIOReg
    show (s.mem.write (addr % 65536) (data % 256)).bytes (0xFF00 + IO_IF) % 256 = _
    rw [write_io_bytes _ _ _ _ (by omega) (by omega)]
  · rw [writeMem_hram s addr data h1 h2]
    refine ⟨rfl, ?_⟩
    simp only [DMGMemory.readIOReg, DMGMemory.store]
    rw [if_neg (by unfold IO_IF; omega)]

/-- Clearing bit `i` with `& ~(1 << i)` keeps every other bit (of the low 32). -/
theorem testBit_and_bnot (x i j : Nat) (hi : i < 32) (hj : j < 32) :
    (x &&& bnot (1 <<< i)).testBit j = (decide (j ≠ i) && x.testBit j) := by
  have h32 : (0xFFFFFFFF : Nat) = 2 ^ 32 - 1 := by decide
  rw [Nat.testBit_and, bnot, Nat.testBit_xor, h32, Nat.testBit_two_pow_sub_one, Nat.shiftLeft_eq,
    Nat.one_mul, Nat.testBit_two_pow]
  by_cases h : i = j
  · subst h; simp [hj]
  · have h' : ¬ j = i := fun e => h e.symm
    simp [h, h', hj]

theorem testBit_byte_and_bnot (x i : Nat) (hx : x < 256) (hi : i < 32) (j : Nat) :
    ((x &&& bnot (1 <<< i)) % 256).testBit j = (decide (j ≠ i) && x.testBit j) := by
  have hle : x &&& bnot (1 <<< i) < 256 := Nat.lt_of_le_of_lt Nat.and_le_left hx
  rw [Nat.mod_eq_of_lt hle]
  by_cases hj : j < 32
  · exact testBit_and_bnot x i j hi hj
  · have h1 : x < 2 ^ j :=
      Nat.lt_of_lt_of_le hx (by
        have : (256 : Nat) = 2 ^ 8 := by decide
        rw [this]
        exact Nat.pow_le_pow_right (by decide) (by omega))
    have h2 : x &&& bnot (1 <<< i) < 2 ^ j := Nat.lt_of_le_of_lt Nat.and_le_left h1
    rw [Nat.testBit_lt_two_pow h1, Nat.testBit_lt_two_pow h2, Bool.and_false]

theorem pc_setPC (s : DMGCPU) (v : Nat) : (s.setPC v).pc = v % 65536 := by
  cases s; rfl

theorem sp_setPC (s : DMGCPU) (v : Nat) : (s.setPC v).sp = s.sp := by
  cases s; rfl

theorem ime_setPC (s : DMGCPU) (v : Nat) :
    (s.setPC v).masterInterruptEnable = s.masterInterruptEnable := by
  cases s; rfl

theorem halted_setPC (s : DMGCPU) (v : Nat) : (s.setPC v).halted = s.halted := by
  cases s; rfl

theorem regs_setPC (s : DMGCPU) (v : Nat) : (s.setPC v).regs = s.regs := by
  cases s; rfl

theorem sp_setSP (s : DMGCPU) (v : Nat) : (s.setSP v).sp = v % 65536 := by
  cases s; rfl

theorem pc_setSP (s : DMGCPU) (v : Nat) : (s.setSP v).pc = s.pc := by
  cases s; rfl

theorem readIOReg_lt (m : DMGMemory) (r : Nat) : m.readIOReg r < 256 := by
  unfold DMGMemory.readIOReg; omega

/-- C6 (amended): with master-enable set and the lowest set bit `i` of the serviceable
set among the five interrupt sources (`i ≤ 4`), `serviceInterrupts` reports an interrupt
taken and ends in a state `t` reached through the acknowledged state `u`: `u` is `s`
with the halted flag and master-enable cleared, bit `i` (and no other bit) cleared in IF
and in the serviceable cache, and SP decreased by 2; `t` is `u` after the bus writes of
the low byte of PC at SP and of its high byte at SP+1, with PC set to `0x40 + 8*i`.  When
the two stack bytes lie below the IO page or in high RAM the push leaves the IF and cache
values of `u`; when they lie in work RAM, its echo or high RAM, reads at SP and SP+1 then
return the low and the high byte of the old PC. -/
theorem C6_serviceInterrupts_dispatch (s : DMGCPU) (i : Nat)
    (hime : s.masterInterruptEnable = true)
    (hbit : s.serviceableInterrupts.testBit i = true)
    (hlow : ∀ j < i, s.serviceableInterrupts.testBit j = false)
    (hi : i < 5) :
    ∃ u t : DMGCPU, s.serviceInterrupts = some (t, true) ∧
      u.halted = false ∧ u.masterInterruptEnable = false ∧
      u.sp = (s.sp + 65536 - 2) % 65536 ∧ u.pc = s.pc ∧ u.regs = s.regs ∧
      (∀ j, (u.mem.readIOReg IO_IF).testBit j
        = (decide (j ≠ i) && (s.mem.readIOReg IO_IF).testBit j)) ∧
      (∀ a, a ≠ 0xFF00 + IO_IF → u.mem.bytes a = s.mem.bytes a) ∧
      (∀ j < 32, u.serviceableInterrupts.testBit j
        = (decide (j ≠ i) && s.serviceableInterrupts.testBit j)) ∧
      t = ((u.writeMem u.sp s.pc).writeMem (u.sp + 1) (s.pc >>> 8)).setPC (0x40 + 8 * i) ∧
      t.pc = 0x40 + 8 * i ∧ t.sp = u.sp ∧ t.masterInterruptEnable = false ∧
      t.halted = false ∧ t.regs = s.regs ∧
      (u.sp < 0xFEFF ∨ (0xFF80 ≤ u.sp ∧ u.sp < 0xFFFE) →
        t.serviceableInterrupts = u.serviceableInterrupts ∧
        t.mem.readIOReg IO_IF = u.mem.readIOReg IO_IF) ∧
      ((0xC000 ≤ u.sp ∧ u.sp < 0xFDFF) ∨ (0xFF80 ≤ u.sp ∧ u.sp < 0xFFFE) →
        t.readMem t.sp = s.pc % 256 ∧
        t.readMem (t.sp + 1) = (s.pc >>> 8) % 256) := by
  have hsv : s.serviceInterrupts
      = ({ s with halted := false } : DMGCPU).serviceVector i := by
    have h := serviceLoop_lowest { s with halted := false } i s.serviceableInterrupts 0
      s.serviceableInterrupts (Nat.le_refl _) hbit hlow
    rw [Nat.zero_add] at h
    unfold serviceInterrupts
    dsimp only
    split
    · next hc => rw [hime] at hc; cases hc
    · exact h
  obtain ⟨u, hu⟩ : ∃ u : DMGCPU,
      u = (({ s with halted := false } : DMGCPU).acknowledge i).setSP (s.sp + 65536 - 2) := ⟨_, rfl⟩
  have hc1 := writeMem_sameCore u u.sp s.pc
  have hc2 := writeMem_sameCore (u.writeMem u.sp s.pc) (u.sp + 1) (s.pc >>> 8)
  obtain ⟨c1, c2, c3, c4, c5, c6, c7, c8, c9⟩ := hc1.trans hc2
  have hIF : u.mem.readIOReg IO_IF = (s.mem.readIOReg IO_IF &&& bnot (1 <<< i)) % 256 := by
    rw [hu]
    simp [acknowledge, setSP, DMGMemory.readIOReg, DMGMemory.writeIOReg]
  refine ⟨u, ((u.writeMem u.sp s.pc).writeMem (u.sp + 1) (s.pc >>> 8)).setPC (0x40 + 8 * i),
    ?_, ?_, ?_, ?_, ?_, ?_, ?_, ?_, ?_, rfl, ?_, ?_, ?_, ?_, ?_, ?_, ?_⟩
  · rw [hsv]
    simp only [serviceVector, vectors_get i hi, writeMem16, hu, sp_setSP, pc_setSP]
    simp only [acknowledge]
  · simp only [hu, setSP, acknowledge]
  · simp only [hu, setSP, acknowledge]
  · simp only [hu, sp_setSP, acknowledge]
  · simp only [hu, setSP, acknowledge]
  · simp only [hu, setSP, acknowledge]
  · intro j
    rw [hIF]
    exact testBit_byte_and_bnot _ i (readIOReg_lt _ _) (by omega) j
  · intro a ha
    rw [hu]
    simp [acknowledge, setSP, DMGMemory.writeIOReg, ha]
  · intro j hj
    have h : u.serviceableInterrupts = s.serviceableInterrupts &&& bnot (1 <<< i) := by
      simp only [hu, setSP, acknowledge]
    rw [h]
    exact testBit_and_bnot _ i j (by omega) hj
  · rw [pc_setPC]
    omega
  · rw [sp_setPC]; exact c3
  · rw [ime_setPC, c6]; simp only [hu, setSP, acknowledge]
  · rw [halted_setPC, c5]; simp only [hu, setSP, acknowledge]
  · rw [regs_setPC, c1]; simp only [hu, setSP, acknowledge]
  · intro hsp
    have f1 := writeMem_stack_frame u u.sp s.pc (by omega)
    have f2 := writeMem_stack_frame (u.writeMem u.sp s.pc) (u.sp + 1) (s.pc >>> 8) (by omega)
    exact ⟨f2.1.trans f1.1, f2.2.trans f1.2⟩
  · intro hsp
    rw [readMem_setPC, readMem_setPC, sp_setPC, c3]
    rcases hsp with ⟨h1, h2⟩ | ⟨h1, h2⟩
    · have w1 : u.writeMem u.sp s.pc = { u with mem := u.mem.write (u.sp % 65536) (s.pc % 256) } :=
        writeMem_below_io u u.sp s.pc (by omega)
      have w2 : (u.writeMem u.sp s.pc).writeMem (u.sp + 1) (s.pc >>> 8)
          = { u.writeMem u.sp s.pc with
              mem := (u.writeMem u.sp s.pc).mem.write ((u.sp + 1) % 65536) ((s.pc >>> 8) % 256) } :=
        writeMem_below_io _ (u.sp + 1) (s.pc >>> 8) (by omega)
      have e1 : u.sp % 65536 = u.sp := by omega
      have e2 : (u.sp + 1) % 65536 = u.sp + 1 := by omega
      have hw := write_write_bytes u.mem u.sp (s.pc % 256) ((s.pc >>> 8) % 256) (by omega)
        (by omega)
      rw [Nat.mod_mod, Nat.mod_mod] at hw
      rw [readMem_below_io _ _ (by omega), readMem_below_io _ _ (by omega), w2, w1, e1, e2]
      exact ⟨by rw [hw.1, Nat.mod_mod], by rw [hw.2, Nat.mod_mod]⟩
    · have w1 : u.writeMem u.sp s.pc = { u with mem := u.mem.store u.sp (s.pc % 256) } :=
        writeMem_hram u u.sp s.pc h1 (by omega)
      have w2 : (u.writeMem u.sp s.pc).writeMem (u.sp + 1) (s.pc >>> 8)
          = { u.writeMem u.sp s.pc with
              mem := (u.writeMem u.sp s.pc).mem.store (u.sp + 1) ((s.pc >>> 8) % 256) } :=
        writeMem_hram _ (u.sp + 1) (s.pc >>> 8) (by omega) (by omega)
      rw [readMem_hram _ _ h1 (by omega), readMem_hram _ _ (by omega) (by omega), w2, w1]
      have h3 : ¬ (u.sp = u.sp + 1) := by omega
      simp only [DMGMemory.store, h3, if_false, if_true, Nat.mod_mod, and_self]

/-- C6 for the Timer interrupt (bit 2) requested and enabled by `irqProgram 0x04`: the
dispatcher reports it taken and jumps to 0x50; the stack is in high RAM (SP = 0xFFFE
before), and the two bytes of the old PC read back at SP and SP+1. -/
theorem C6_serviceInterrupts_witness :
    ∃ t : DMGCPU, (irqDemo 0x04).serviceInterrupts = some (t, true) ∧ t.pc = 0x40 + 8 * 2 ∧
      t.sp = 0xFFFC ∧ t.readMem t.sp = (irqDemo 0x04).pc % 256 ∧
      t.readMem (t.sp + 1) = ((irqDemo 0x04).pc >>> 8) % 256 := by
  obtain ⟨u, t, h1, _, _, h4, _, _, _, _, _, _, h11, h12, _, _, _, _, h17⟩ :=
    C6_serviceInterrupts_dispatch (irqDemo 0x04) 2 (by decide) (by decide) (by decide)
      (by decide)
  have hsp : (irqDemo 0x04).sp = 0xFFFE := by decide
  have e : u.sp = 0xFFFC := by rw [h4, hsp]
  exact ⟨t, h1, h11, h12.trans e, h17 (Or.inr ⟨by omega, by omega⟩)⟩

/-- C6 as stated fails for a lowest set bit above 4: after `irqProgram 0x20` master-enable
is set and the serviceable set is `0x20` (lowest set bit 5), and `serviceInterrupts` reads
`vectors[5]`, past the end of the five-entry table; it does not end with PC = 0x68. -/
theorem C6_counterexample_bit5 :
    (irqDemo 0x20).masterInterruptEnable = true ∧
    (irqDemo 0x20).serviceableInterrupts = 0x20 ∧
    (irqDemo 0x20).serviceableInterrupts.testBit 5 = true ∧
    (∀ j < 5, (irqDemo 0x20).serviceableInterrupts.testBit j = false) ∧
    (irqDemo 0x20).serviceInterrupts.isNone = true ∧
    ¬ ∃ t : DMGCPU, (irqDemo 0x20).serviceInterrupts = some (t, true) ∧ t.pc = 0x40 + 8 * 5 := by
  have hn : (irqDemo 0x20).serviceInterrupts.isNone = true := by decide
  refine ⟨by decide, by decide, by decide, by decide, hn, ?_⟩
  rintro ⟨t, ht, _⟩
  rw [ht] at hn
  cases hn

/-! ## The serviceable-interrupt cache -/

theorem IrqSynced.of_eq {s t : DMGCPU} (hs : IrqSynced s)
    (h1 : t.serviceableInterrupts = s.serviceableInterrupts)
    (h2 : t.mem.bytes (0xFF00 + IO_IE) = s.mem.bytes (0xFF00 + IO_IE))
    (h3 : t.mem.bytes (0xFF00 + IO_IF) = s.mem.bytes (0xFF00 + IO_IF)) : IrqSynced t := by
  unfold IrqSynced DMGMemory.readIOReg at *
  rw [h1, h2, h3]
  exact hs

theorem IrqSynced.store {s : DMGCPU} (hs : IrqSynced s) (addr data : Nat)
    (h1 : addr ≠ 0xFF00 + IO_IE) (h2 : addr ≠ 0xFF00 + IO_IF) :
    IrqSynced { s with mem := s.mem.store addr data } := by
  refine hs.of_eq rfl ?_ ?_
  · simp only [DMGMemory.store, Ne.symm h1, if_false]
  · simp only [DMGMemory.store, Ne.symm h2, if_false]

theorem IrqSynced.write {s : DMGCPU} (hs : IrqSynced s) (addr data : Nat) (h : addr < 0xFF00) :
    IrqSynced { s with mem := s.mem.write addr data } := by
  refine hs.of_eq rfl ?_ ?_
  · exact write_io_bytes _ _ _ _ h (by omega)
  · exact write_io_bytes _ _ _ _ h (by omega)

theorem flagInterrupt_synced (s : DMGCPU) (k : Nat) : IrqSynced (s.flagInterrupt k) := by
  unfold IrqSynced flagInterrupt
  exact Nat.and_comm _ _

theorem gdmaLoop_synced (wm : DMGCPU → Nat → Nat → DMGCPU)
    (hwm : ∀ t a d, IrqSynced t → IrqSynced (wm t a d)) :
    ∀ (count src dst : Nat) (s : DMGCPU), IrqSynced s → IrqSynced (gdmaLoop wm count src dst s) := by
  intro count
  induction count with
  | zero => intro src dst s hs; exact hs
  | succ n ih =>
    intro src dst s hs
    exact ih _ _ _ (hwm _ _ _ hs)

theorem foldl_synced (f : DMGCPU → Nat → DMGCPU) (hf : ∀ t i, IrqSynced t → IrqSynced (f t i)) :
    ∀ (l : List Nat) (s : DMGCPU), IrqSynced s → IrqSynced (l.foldl f s) := by
  intro l
  induction l with
  | nil => intro s hs; exact hs
  | cons x xs ih => intro s hs; exact ih _ (hf _ _ hs)

/-- The IO page address with a given low byte. -/
theorem io_addr_eq (addr r : Nat) (h1 : 0xFF00 ≤ addr) (h2 : addr < 65536)
    (h3 : addr &&& 0xFF = r) : addr = 0xFF00 + r := by
  rw [and255] at h3
  omega

theorem busWrite_synced : ∀ (fuel : Nat) (s : DMGCPU) (addr data : Nat), addr < 65536 →
    data < 256 → IrqSynced s → IrqSynced (busWrite fuel s addr data) := by
  intro fuel
  induction fuel with
  | zero => intro s addr data _ _ hs; exact hs
  | succ n ih =>
    intro s addr data ha hd hs
    have hwm : ∀ t a d, IrqSynced t →
        IrqSynced ((fun t a d => busWrite n t (a % 65536) (d % 256)) t a d) :=
      fun t a d ht => ih t _ _ (Nat.mod_lt _ (by decide)) (Nat.mod_lt _ (by decide)) ht
    unfold busWrite
    split
    · next hio =>
      dsimp only
      unfold writeRegWith
      split
      · exact foldl_synced _ (fun t i ht => hwm _ _ _ ht) _ _ hs
      split
      · split
        · exact hs
        · exact (gdmaLoop_synced _ hwm _ _ _ _ hs).of_eq rfl
            (by simp [DMGMemory.writeIOReg]) (by simp [DMGMemory.writeIOReg])
      split
      · exact hs.of_eq rfl rfl rfl
      split
      · next h1 h2 h3 h4 =>
        have e := io_addr_eq addr _ hio ha h4
        exact (hs.of_eq rfl rfl rfl : IrqSynced { s with
          timerEnabled := decide (data &&& TAC_Start ≠ 0),
          timerBit := [1 <<< 9, 1 <<< 3, 1 <<< 5, 1 <<< 7].getD (data &&& TAC_Clock) 0 }).store
            addr data (by rw [e]; decide) (by rw [e]; decide)
      split
      · next h1 h2 h3 h4 h5 =>
        have e := io_addr_eq addr _ hio ha h5
        exact (hs.of_eq rfl rfl rfl : IrqSynced { s with
          speedSwitch := decide (data &&& 1 ≠ 0) }).store addr data (by rw [e]; decide)
            (by rw [e]; decide)
      split
      · next h1 h2 h3 h4 h5 h6 =>
        have e := io_addr_eq addr _ hio ha h6
        subst e
        unfold IrqSynced DMGMemory.readIOReg
        simp [DMGMemory.store, Nat.mod_eq_of_lt hd, DMGMemory.readIOReg, Nat.and_comm]
      split
      · next h1 h2 h3 h4 h5 h6 h7 =>
        have e := io_addr_eq addr _ hio ha h7
        subst e
        unfold IrqSynced DMGMemory.readIOReg
        simp [DMGMemory.store, Nat.mod_eq_of_lt hd, DMGMemory.readIOReg]
      · next h1 h2 h3 h4 h5 h6 h7 =>
        have e1 : addr ≠ 0xFF00 + IO_IE := by
          intro e; apply h7; rw [e]; decide
        have e2 : addr ≠ 0xFF00 + IO_IF := by
          intro e; apply h6; rw [e]; decide
        exact hs.store addr data e1 e2
    · next hio =>
      exact hs.write addr data (by omega)

theorem writeReg_IF (s : DMGCPU) (d : Nat) :
    s.writeReg 0xFF0F d = ({ s with serviceableInterrupts := d &&& s.mem.readIOReg IO_IE }, false) := by
  unfold writeReg writeRegWith
  have hv : 0xFF0F &&& 0xFF = 0x0F := by decide
  simp [hv]

theorem writeReg_IE (s : DMGCPU) (d : Nat) :
    s.writeReg 0xFFFF d = ({ s with serviceableInterrupts := d &&& s.mem.readIOReg IO_IF }, false) := by
  unfold writeReg writeRegWith
  have hv : 0xFFFF &&& 0xFF = 0xFF := by decide
  simp [hv]

theorem writeMem_IF (s : DMGCPU) (d : Nat) :
    s.writeMem 0xFF0F d =
      { s with serviceableInterrupts := d % 256 &&& s.mem.readIOReg IO_IE,
               mem := s.mem.store 0xFF0F (d % 256) } := by
  unfold writeMem busWrite writeRegWith
  have hv : 0xFF0F &&& 0xFF = 0x0F := by decide
  simp [hv]

theorem writeMem_IE (s : DMGCPU) (d : Nat) :
    s.writeMem 0xFFFF d =
      { s with serviceableInterrupts := d % 256 &&& s.mem.readIOReg IO_IF,
               mem := s.mem.store 0xFFFF (d % 256) } := by
  unfold writeMem busWrite writeRegWith
  have hv : 0xFFFF &&& 0xFF = 0xFF := by decide
  simp [hv]

theorem writeMem_IF_synced (s : DMGCPU) (d : Nat) : IrqSynced (s.writeMem 0xFF0F d) := by
  rw [writeMem_IF]
  unfold IrqSynced DMGMemory.readIOReg
  simp [DMGMemory.store, IO_IF, IO_IE, Nat.and_comm]

theorem writeMem_IE_synced (s : DMGCPU) (d : Nat) : IrqSynced (s.writeMem 0xFFFF d) := by
  rw [writeMem_IE]
  unfold IrqSynced DMGMemory.readIOReg
  simp [DMGMemory.store, IO_IF, IO_IE]

theorem writeMem_synced (s : DMGCPU) (addr data : Nat) (hs : IrqSynced s) :
    IrqSynced (s.writeMem addr data) :=
  busWrite_synced 2 s _ _ (Nat.mod_lt _ (by decide)) (Nat.mod_lt _ (by decide)) hs

theorem writeMem16_synced (s : DMGCPU) (addr data : Nat) (hs : IrqSynced s) :
    IrqSynced (s.writeMem16 addr data) :=
  writeMem_synced _ _ _ (writeMem_synced _ _ _ hs)

theorem timerStep_synced (s : DMGCPU) (hs : IrqSynced s) : IrqSynced s.timerStep := by
  unfold timerStep
  dsimp only
  split
  · split
    · exact (flagInterrupt_synced _ _).of_eq rfl rfl rfl
    · exact hs.of_eq rfl (by simp [DMGMemory.writeIOReg, IO_IE, IO_TIMA])
        (by simp [DMGMemory.writeIOReg, IO_IF, IO_TIMA])
  · exact hs.of_eq rfl rfl rfl

theorem timerLoop_synced : ∀ (n : Nat) (s : DMGCPU), IrqSynced s → IrqSynced (timerLoop n s) := by
  intro n
  induction n using Nat.strongRecOn with
  | _ n ih =>
    intro s hs
    match n with
    | 0 => exact hs
    | 1 => exact timerStep_synced s hs
    | 2 => exact timerStep_synced s hs
    | 3 => exact timerStep_synced s hs
    | k + 4 =>
      rw [timerLoop]
      exact ih k (by omega) _ (timerStep_synced s hs)

theorem updateTimer_synced (s : DMGCPU) (n : Nat) (hs : IrqSynced s) :
    IrqSynced (s.updateTimer n) := by
  unfold updateTimer
  split
  · exact hs.of_eq rfl rfl rfl
  · exact timerLoop_synced n s hs

theorem acknowledge_synced (s : DMGCPU) (i : Nat) (hs : IrqSynced s) :
    IrqSynced (s.acknowledge i) := by
  unfold IrqSynced at hs ⊢
  have h1 : s.mem.readIOReg IO_IF &&& bnot (1 <<< i) < 256 :=
    Nat.lt_of_le_of_lt Nat.and_le_left (readIOReg_lt _ _)
  simp only [acknowledge, DMGMemory.readIOReg, DMGMemory.writeIOReg, IO_IF, IO_IE,
    Nat.reduceAdd, Nat.reduceEqDiff, if_false, if_true]
  simp only [DMGMemory.readIOReg, IO_IF, IO_IE, Nat.reduceAdd] at hs h1
  rw [hs, Nat.mod_eq_of_lt h1, Nat.mod_eq_of_lt h1, Nat.and_assoc]

theorem IrqSynced.setPC {s : DMGCPU} (v : Nat) (hs : IrqSynced s) : IrqSynced (s.setPC v) := by
  cases s; exact hs

theorem IrqSynced.setSP {s : DMGCPU} (v : Nat) (hs : IrqSynced s) : IrqSynced (s.setSP v) := by
  cases s; exact hs

theorem serviceVector_synced (s : DMGCPU) (i : Nat) (hs : IrqSynced s) (t : DMGCPU) (b : Bool)
    (h : s.serviceVector i = some (t, b)) : IrqSynced t := by
  unfold serviceVector at h
  dsimp only at h
  split at h
  · next v hv =>
    simp only [Option.some.injEq, Prod.mk.injEq] at h
    obtain ⟨rfl, _⟩ := h
    exact IrqSynced.setPC _ (writeMem16_synced _ _ _ (IrqSynced.setSP _ (acknowledge_synced s i hs)))
  · cases h

theorem serviceLoop_synced (s : DMGCPU) (hs : IrqSynced s) :
    ∀ (fuel k sv : Nat) (t : DMGCPU) (b : Bool),
      serviceLoop s fuel k sv = some (t, b) → IrqSynced t := by
  intro fuel
  induction fuel with
  | zero =>
    intro k sv t b h
    simp only [serviceLoop, Option.some.injEq, Prod.mk.injEq] at h
    obtain ⟨rfl, _⟩ := h
    exact hs
  | succ n ih =>
    intro k sv t b h
    unfold serviceLoop at h
    split at h
    · simp only [Option.some.injEq, Prod.mk.injEq] at h
      obtain ⟨rfl, _⟩ := h
      exact hs
    · split at h
      · exact serviceVector_synced s k hs t b h
      · exact ih _ _ t b h

theorem serviceInterrupts_synced (s : DMGCPU) (hs : IrqSynced s) (t : DMGCPU) (b : Bool)
    (h : s.serviceInterrupts = some (t, b)) : IrqSynced t := by
  have hs1 : IrqSynced ({ s with halted := false } : DMGCPU) := hs.of_eq rfl rfl rfl
  unfold serviceInterrupts at h
  dsimp only at h
  split at h
  · simp only [Option.some.injEq, Prod.mk.injEq] at h
    obtain ⟨rfl, _⟩ := h
    exact hs1
  · exact serviceLoop_synced _ hs1 _ _ _ t b h

theorem lowest_bit_lt5 : ∀ sv < 32, sv ≠ 0 →
    ∃ i < 5, sv.testBit i = true ∧ ∀ j < i, sv.testBit j = false := by
  decide

theorem serviceInterrupts_total (s : DMGCPU) (h : s.serviceableInterrupts < 32) :
    ∃ r, s.serviceInterrupts = some r := by
  unfold serviceInterrupts
  dsimp only
  split
  · exact ⟨_, rfl⟩
  · by_cases h0 : s.serviceableInterrupts = 0
    · rw [h0]
      exact ⟨_, rfl⟩
    · obtain ⟨i, hi, hb, hl⟩ := lowest_bit_lt5 _ h h0
      have hl := serviceLoop_lowest ({ s with halted := false } : DMGCPU) i
        s.serviceableInterrupts 0 s.serviceableInterrupts (Nat.le_refl _) hb hl
      rw [hl, Nat.zero_add]
      simp only [serviceVector, vectors_get i hi]
      exact ⟨_, rfl⟩

/-- C7: the cached serviceable-interrupt set equals IE AND IF after `flagInterrupt`,
after a bus write to IF (0xFF0F) or to IE (0xFFFF) — the hook `writeReg` sets the cache
to `data & IE`, respectively `data & IF`, and the bus then stores `data` — and, when it
held before, after any other bus write, after every timer step (a TIMA overflow
included), after `updateTimer` and after `serviceInterrupts`, which completes whenever
the cache holds only the five interrupt bits. -/
theorem C7_serviceable_cache_is_IE_and_IF (s : DMGCPU) (hs : IrqSynced s) :
    (∀ k, IrqSynced (s.flagInterrupt k)) ∧
    (∀ d, IrqSynced (s.writeMem 0xFF0F d) ∧
      s.writeReg 0xFF0F d
        = ({ s with serviceableInterrupts := d &&& s.mem.readIOReg IO_IE }, false)) ∧
    (∀ d, IrqSynced (s.writeMem 0xFFFF d) ∧
      s.writeReg 0xFFFF d
        = ({ s with serviceableInterrupts := d &&& s.mem.readIOReg IO_IF }, false)) ∧
    (∀ a d, IrqSynced (s.writeMem a d)) ∧
    IrqSynced s.timerStep ∧
    (∀ n, IrqSynced (s.updateTimer n)) ∧
    (∀ t b, s.serviceInterrupts = some (t, b) → IrqSynced t) ∧
    (s.serviceableInterrupts < 32 → ∃ t b, s.serviceInterrupts = some (t, b) ∧ IrqSynced t) := by
  refine ⟨flagInterrupt_synced s, fun d => ⟨writeMem_IF_synced s d, writeReg_IF s d⟩,
    fun d => ⟨writeMem_IE_synced s d, writeReg_IE s d⟩, fun a d => writeMem_synced s a d hs,
    timerStep_synced s hs, fun n => updateTimer_synced s n hs,
    serviceInterrupts_synced s hs, ?_⟩
  intro h
  obtain ⟨r, hr⟩ := serviceInterrupts_total s h
  exact ⟨r.1, r.2, hr, serviceInterrupts_synced s hs r.1 r.2 hr⟩

/-- C7 on the state reached by `irqProgram 0x04` (IE = IF = cache = 0x04, master-enable
set): the cache still equals IE AND IF after the Timer interrupt is dispatched. -/
theorem C7_serviceable_cache_witness :
    ∃ t b, (irqDemo 0x04).serviceInterrupts = some (t, b) ∧ IrqSynced t :=
  (C7_serviceable_cache_is_IE_and_IF (irqDemo 0x04) (by unfold IrqSynced; decide)).2.2.2.2.2.2.2
    (by decide)

/-! ## Leaving the halted state -/

theorem halted_timerStep (s : DMGCPU) : s.timerStep.halted = s.halted := by
  unfold timerStep
  dsimp only
  split
  · split <;> rfl
  · rfl

theorem halted_timerLoop : ∀ (n : Nat) (s : DMGCPU), (timerLoop n s).halted = s.halted := by
  intro n
  induction n using Nat.strongRecOn with
  | _ n ih =>
    intro s
    match n with
    | 0 => rfl
    | 1 => exact halted_timerStep s
    | 2 => exact halted_timerStep s
    | 3 => exact halted_timerStep s
    | k + 4 =>
      rw [timerLoop]
      exact (ih k (by omega) _).trans (halted_timerStep s)

theorem halted_updateTimer (s : DMGCPU) (n : Nat) : (s.updateTimer n).halted = s.halted := by
  unfold updateTimer
  split
  · rfl
  · exact halted_timerLoop n s

theorem halted_setSP (s : DMGCPU) (v : Nat) : (s.setSP v).halted = s.halted := by
  cases s; rfl

theorem halted_acknowledge (s : DMGCPU) (i : Nat) : (s.acknowledge i).halted = s.halted := by
  cases s; rfl

theorem serviceVector_halted (s : DMGCPU) (i : Nat) (t : DMGCPU) (b : Bool)
    (h : s.serviceVector i = some (t, b)) : t.halted = s.halted := by
  unfold serviceVector at h
  dsimp only at h
  split at h
  · simp only [Option.some.injEq, Prod.mk.injEq] at h
    obtain ⟨rfl, _⟩ := h
    rw [halted_setPC, (writeMem16_sameCore _ _ _).2.2.2.2.1, halted_setSP, halted_acknowledge]
  · cases h

theorem serviceLoop_halted (s : DMGCPU) :
    ∀ (fuel k sv : Nat) (t : DMGCPU) (b : Bool),
      serviceLoop s fuel k sv = some (t, b) → t.halted = s.halted := by
  intro fuel
  induction fuel with
  | zero =>
    intro k sv t b h
    simp only [serviceLoop, Option.some.injEq, Prod.mk.injEq] at h
    obtain ⟨rfl, _⟩ := h
    rfl
  | succ n ih =>
    intro k sv t b h
    unfold serviceLoop at h
    split at h
    · simp only [Option.some.injEq, Prod.mk.injEq] at h
      obtain ⟨rfl, _⟩ := h
      rfl
    · split at h
      · exact serviceVector_halted s k t b h
      · exact ih _ _ t b h

theorem serviceInterrupts_halted (s : DMGCPU) (t : DMGCPU) (b : Bool)
    (h : s.serviceInterrupts = some (t, b)) : t.halted = false := by
  unfold serviceInterrupts at h
  dsimp only at h
  split at h
  · simp only [Option.some.injEq, Prod.mk.injEq] at h
    obtain ⟨rfl, _⟩ := h
    rfl
  · exact serviceLoop_halted _ _ _ _ t b h

theorem serviceInterrupts_ime_off (s : DMGCPU) (h : s.masterInterruptEnable = false) :
    s.serviceInterrupts = some ({ s with halted := false }, false) := by
  unfold serviceInterrupts
  dsimp only
  rw [if_pos]
  rw [h]
  rfl

theorem runStep_halted (cb : Option (Nat → DMGCPU → DMGCPU)) (s : DMGCPU)
    (hh : s.halted = true) (hsv : s.serviceableInterrupts ≠ 0) :
    runStep cb s = s.serviceInterrupts.map fun r =>
      ((match cb with
        | some f => f (if r.2 then 4 + 5 * 4 else 4) r.1
        | none => r.1).updateTimer (if r.2 then 4 + 5 * 4 else 4),
       if r.2 then 4 + 5 * 4 else 4) := by
  unfold runStep
  simp only [hh, if_true, Option.bind, hsv, ne_eq, not_false_eq_true]
  cases s.serviceInterrupts with
  | none => rfl
  | some r => rfl

/-- C8: from a halted CPU with a non-zero serviceable set, a scheduler pass that completes
leaves the halted flag clear, whatever master-enable is.  With master-enable off the pass
does complete, retiring 4 cycles, and `serviceInterrupts` returns "no interrupt taken"
with nothing but the halted flag changed (PC, SP, registers, IF, the serviceable cache and
memory are those of the state before).  With master-enable on the pass completes whenever
the serviceable set holds only the five interrupt bits.  The cycle callback, being an
observer of the CPU, is assumed not to write the halted flag. -/
theorem C8_halt_exits_without_master_enable (cb : Option (Nat → DMGCPU → DMGCPU))
    (s : DMGCPU) (hcb : ∀ f, cb = some f → ∀ n t, (f n t).halted = t.halted)
    (hh : s.halted = true) (hsv : s.serviceableInterrupts ≠ 0) :
    (∀ r, runStep cb s = some r → r.1.halted = false) ∧
    (s.masterInterruptEnable = false →
      s.serviceInterrupts = some ({ s with halted := false }, false) ∧
      ∃ t, runStep cb s = some (t, 4) ∧ t.halted = false) ∧
    (s.masterInterruptEnable = true → s.serviceableInterrupts < 32 →
      ∃ r, runStep cb s = some r ∧ r.1.halted = false) := by
  have key : ∀ r, runStep cb s = some r → r.1.halted = false := by
    intro r hr
    rw [runStep_halted cb s hh hsv] at hr
    cases hsi : s.serviceInterrupts with
    | none => rw [hsi] at hr; cases hr
    | some q =>
      rw [hsi] at hr
      simp only [Option.map, Option.some.injEq] at hr
      subst hr
      dsimp only
      rw [halted_updateTimer]
      have hq : q.1.halted = false := serviceInterrupts_halted s q.1 q.2 hsi
      cases cb with
      | none => exact hq
      | some f => exact (hcb f rfl _ _).trans hq
  refine ⟨key, ?_, ?_⟩
  · intro hime
    have h1 := serviceInterrupts_ime_off s hime
    refine ⟨h1, ?_⟩
    have h2 : ∃ t, runStep cb s = some (t, 4) := by
      rw [runStep_halted cb s hh hsv, h1]
      exact ⟨_, rfl⟩
    obtain ⟨t, ht⟩ := h2
    exact ⟨t, ht, key _ ht⟩
  · intro _ h32
    obtain ⟨q, hq⟩ := serviceInterrupts_total s h32
    have h2 : ∃ r, runStep cb s = some r := by
      rw [runStep_halted cb s hh hsv, hq]
      exact ⟨_, rfl⟩
    obtain ⟨r, hr⟩ := h2
    exact ⟨r, hr, key _ hr⟩

/-- C8 on `haltDemo` (halted, Timer pending and enabled, master-enable off) with no
cycle callback: the next scheduler pass retires 4 cycles and clears the halted flag. -/
theorem C8_halt_exit_witness :
    ∃ t, runStep none haltDemo = some (t, 4) ∧ t.halted = false :=
  ((C8_halt_exits_without_master_enable none haltDemo (fun f h => by cases h) (by decide)
    (by decide)).2.1 (by decide)).2

/-! ## The divider and the timer -/

theorem updateTimer_four (s : DMGCPU) : s.updateTimer 4 = s.timerStep := by
  unfold updateTimer
  split
  · next h =>
    have he : s.timerEnabled = false := by
      cases h1 : s.timerEnabled <;> simp [h1] at h ⊢
    have ho : s.timerOldVal = false := by
      cases h1 : s.timerOldVal <;> simp [h1] at h ⊢
    cases s
    simp only at he ho
    subst he ho
    simp [timerStep]
  · rfl

theorem timerLoop_mul_four : ∀ (k : Nat) (s : DMGCPU),
    timerLoop (4 * k) s = Nat.iterate timerStep k s := by
  intro k
  induction k with
  | zero => intro s; rfl
  | succ n ih =>
    intro s
    have e : 4 * (n + 1) = 4 * n + 4 := by omega
    rw [e, timerLoop, ih, Function.iterate_succ_apply]

theorem timerStep_idle (s : DMGCPU) (he : s.timerEnabled = false) (ho : s.timerOldVal = false) :
    s.timerStep = { s with divCounter := (s.divCounter + 4) % 65536 } := by
  cases s
  simp only at he ho
  subst he ho
  simp [timerStep]

theorem iterate_timerStep_idle : ∀ (k : Nat) (s : DMGCPU), s.timerEnabled = false →
    s.timerOldVal = false → s.divCounter < 65536 →
    Nat.iterate timerStep k s = { s with divCounter := (s.divCounter + 4 * k) % 65536 } := by
  intro k
  induction k with
  | zero =>
    intro s he ho hd
    cases s
    simp only at hd
    simp [Nat.mod_eq_of_lt hd]
  | succ n ih =>
    intro s he ho hd
    have h2 := ih { s with divCounter := (s.divCounter + 4) % 65536 } he ho
      (Nat.mod_lt _ (by decide : 65536 > 0))
    rw [Function.iterate_succ_apply, timerStep_idle s he ho, h2]
    cases s
    simp only [DMGCPU.mk.injEq, and_true, true_and]
    omega

/-- A call of `updateTimer` with a positive multiple of four cycles is that many
4-cycle steps in a row. -/
theorem updateTimer_steps (s : DMGCPU) (k : Nat) :
    s.updateTimer (4 * (k + 1)) = Nat.iterate (fun u => u.updateTimer 4) (k + 1) s := by
  have hf : (fun u : DMGCPU => u.updateTimer 4) = timerStep := funext updateTimer_four
  rw [hf]
  unfold updateTimer
  split
  · next h =>
    have he : s.timerEnabled = false := by
      cases h1 : s.timerEnabled <;> simp [h1] at h ⊢
    have ho : s.timerOldVal = false := by
      cases h1 : s.timerOldVal <;> simp [h1] at h ⊢
    have h2 := iterate_timerStep_idle k { s with divCounter := (s.divCounter + 4) % 65536 } he ho
      (Nat.mod_lt _ (by decide : 65536 > 0))
    rw [Function.iterate_succ_apply, timerStep_idle s he ho, h2]
    cases s
    simp only [DMGCPU.mk.injEq, and_true, true_and]
    omega
  · exact timerLoop_mul_four (k + 1) s

theorem timerStep_frame (s : DMGCPU) :
    s.timerStep.divCounter = (s.divCounter + 4) % 65536 ∧
    s.timerStep.timerEnabled = s.timerEnabled ∧ s.timerStep.timerBit = s.timerBit ∧
    s.timerStep.timerOldVal = s.timerStep.timerClock := by
  unfold timerClock timerStep
  dsimp only
  split
  · split <;> exact ⟨rfl, rfl, rfl, rfl⟩
  · exact ⟨rfl, rfl, rfl, rfl⟩

theorem timerClock_timerStep (s : DMGCPU) :
    s.timerStep.timerClock
      = (decide ((s.divCounter + 4) % 65536 &&& s.timerBit ≠ 0) && s.timerEnabled) := by
  obtain ⟨h1, h2, h3, _⟩ := timerStep_frame s
  rw [timerClock, h1, h2, h3]

/-- The three outcomes of one timer step, by the clock edge and the value of TIMA. -/
theorem timerStep_outcome (s : DMGCPU) :
    (¬ (s.timerOldVal = true ∧ s.timerStep.timerClock = false) →
      s.timerStep.mem = s.mem ∧ s.timerStep.serviceableInterrupts = s.serviceableInterrupts) ∧
    (s.timerOldVal = true → s.timerStep.timerClock = false →
      s.mem.readIOReg IO_TIMA ≠ 0xFF →
      s.timerStep.mem = s.mem.writeIOReg IO_TIMA (s.mem.readIOReg IO_TIMA + 1) ∧
      s.timerStep.serviceableInterrupts = s.serviceableInterrupts) ∧
    (s.timerOldVal = true → s.timerStep.timerClock = false →
      s.mem.readIOReg IO_TIMA = 0xFF →
      s.timerStep.mem = (s.mem.writeIOReg IO_TIMA (s.mem.readIOReg IO_TMA)).writeIOReg IO_IF
        ((s.mem.writeIOReg IO_TIMA (s.mem.readIOReg IO_TMA)).readIOReg IO_IF ||| Int_Timer) ∧
      s.timerStep.serviceableInterrupts
        = s.timerStep.mem.readIOReg IO_IF &&& s.timerStep.mem.readIOReg IO_IE) := by
  have hc := timerClock_timerStep s
  generalize s.timerStep.timerClock = c at hc
  subst hc
  unfold timerStep
  dsimp only
  refine ⟨?_, ?_, ?_⟩
  · intro h
    split
    · next he =>
      exfalso
      apply h
      cases h1 : s.timerOldVal <;> simp [h1] at he ⊢
      intro h2
      exact he.resolve_left h2
    · exact ⟨rfl, rfl⟩
  · intro h1 h2 h3
    rw [if_pos (by rw [h1, h2]; rfl), if_neg h3]
    exact ⟨rfl, rfl⟩
  · intro h1 h2 h3
    rw [if_pos (by rw [h1, h2]; rfl), if_pos h3]
    exact ⟨rfl, rfl⟩

theorem readIOReg_writeIOReg_same (m : DMGMemory) (r v : Nat) :
    (m.writeIOReg r v).readIOReg r = v % 256 := by
  simp [DMGMemory.readIOReg, DMGMemory.writeIOReg]

theorem readIOReg_writeIOReg_ne (m : DMGMemory) (r q v : Nat) (h : q ≠ r) :
    (m.writeIOReg r v).readIOReg q = m.readIOReg q := by
  simp [DMGMemory.readIOReg, DMGMemory.writeIOReg, h]

set_option maxRecDepth 100000 in
theorem tac_fields : ∀ d < 256,
    decide (d &&& TAC_Start ≠ 0) = d.testBit 2 ∧
    [1 <<< 9, 1 <<< 3, 1 <<< 5, 1 <<< 7].getD (d &&& TAC_Clock) 0 = 2 ^ [9, 3, 5, 7].getD (d % 4) 0 := by
  decide

theorem writeReg_TAC (s : DMGCPU) (d : Nat) :
    s.writeReg 0xFF07 d = ({ s with
      timerEnabled := decide (d &&& TAC_Start ≠ 0),
      timerBit := [1 <<< 9, 1 <<< 3, 1 <<< 5, 1 <<< 7].getD (d &&& TAC_Clock) 0 }, false) := by
  unfold writeReg writeRegWith
  have hv : 0xFF07 &&& 0xFF = 0x07 := by decide
  simp [hv]

/-- C9: one 4-cycle step of `updateTimer` advances the 16-bit divider by 4 and records
the clock (selected divider bit AND enable) in `timerOldVal`; TIMA changes exactly when
that clock falls from 1 (the recorded value) to 0: it is incremented, or, if it was 0xFF,
reloaded with TMA while the Timer bit is ORed into IF.  A call with 4(k+1) cycles is k+1
such steps.  A write of `d` to TAC takes the enable from bit 2 of `d` and selects divider
bit 9, 3, 5 or 7 for the field value `d mod 4` = 0, 1, 2, 3. -/
theorem C9_timer_step_and_TAC (s : DMGCPU) :
    (s.updateTimer 4).divCounter = (s.divCounter + 4) % 65536 ∧
    (s.updateTimer 4).timerOldVal = (s.updateTimer 4).timerClock ∧
    (s.updateTimer 4).mem.readIOReg IO_TIMA =
      (if s.timerOldVal = true ∧ (s.updateTimer 4).timerClock = false then
        (if s.mem.readIOReg IO_TIMA = 0xFF then s.mem.readIOReg IO_TMA
         else s.mem.readIOReg IO_TIMA + 1)
       else s.mem.readIOReg IO_TIMA) ∧
    (s.updateTimer 4).mem.readIOReg IO_IF =
      (if s.timerOldVal = true ∧ (s.updateTimer 4).timerClock = false
          ∧ s.mem.readIOReg IO_TIMA = 0xFF then
        s.mem.readIOReg IO_IF ||| Int_Timer
       else s.mem.readIOReg IO_IF) ∧
    (∀ k, s.updateTimer (4 * (k + 1)) = Nat.iterate (fun u => u.updateTimer 4) (k + 1) s) ∧
    (∀ d < 256,
      (s.writeReg 0xFF07 d).1.timerEnabled = d.testBit 2 ∧
      (s.writeReg 0xFF07 d).1.timerBit = 2 ^ [9, 3, 5, 7].getD (d % 4) 0) := by
  obtain ⟨f1, _, _, f4⟩ := timerStep_frame s
  obtain ⟨o1, o2, o3⟩ := timerStep_outcome s
  have hT := readIOReg_lt s.mem IO_TIMA
  have hI := readIOReg_lt s.mem IO_IF
  rw [updateTimer_four]
  refine ⟨f1, f4, ?_, ?_, updateTimer_steps s, ?_⟩
  · by_cases hE : s.timerOldVal = true ∧ s.timerStep.timerClock = false
    · rw [if_pos hE]
      by_cases hO : s.mem.readIOReg IO_TIMA = 0xFF
      · rw [if_pos hO, (o3 hE.1 hE.2 hO).1,
          readIOReg_writeIOReg_ne _ _ _ _ (by decide), readIOReg_writeIOReg_same]
        exact Nat.mod_eq_of_lt (readIOReg_lt _ _)
      · rw [if_neg hO, (o2 hE.1 hE.2 hO).1, readIOReg_writeIOReg_same]
        exact Nat.mod_eq_of_lt (by omega)
    · rw [if_neg hE, (o1 hE).1]
  · by_cases hE : s.timerOldVal = true ∧ s.timerStep.timerClock = false
    · by_cases hO : s.mem.readIOReg IO_TIMA = 0xFF
      · rw [if_pos ⟨hE.1, hE.2, hO⟩, (o3 hE.1 hE.2 hO).1, readIOReg_writeIOReg_same,
          readIOReg_writeIOReg_ne _ _ _ _ (by decide)]
        exact Nat.mod_eq_of_lt (Nat.or_lt_two_pow (n := 8) hI (by decide))
      · rw [if_neg (fun h => hO h.2.2), (o2 hE.1 hE.2 hO).1,
          readIOReg_writeIOReg_ne _ _ _ _ (by decide)]
    · rw [if_neg (fun h => hE ⟨h.1, h.2.1⟩), (o1 hE).1]
  · intro d hd
    rw [writeReg_TAC]
    exact tac_fields d hd

/-! ## Sixteen cycles with divider bit 3 from divider 0xAB00 -/

/-- A bus write to TAC (0xFF07) sets the enable flag from bit 2 and the selected divider
bit from the low two bits, and stores the byte. -/
theorem writeMem_TAC (s : DMGCPU) (d : Nat) :
    s.writeMem 0xFF07 d = { s with
      timerEnabled := decide (d % 256 &&& TAC_Start ≠ 0),
      timerBit := [1 <<< 9, 1 <<< 3, 1 <<< 5, 1 <<< 7].getD (d % 256 &&& TAC_Clock) 0,
      mem := s.mem.store 0xFF07 (d % 256) } := by
  unfold writeMem busWrite writeRegWith
  have hv : 0xFF07 &&& 0xFF = 0x07 := by decide
  simp [hv]

/-- One timer step from known divider, enable and bit values: the new divider and the
recorded clock. -/
theorem timerStep_known (s : DMGCPU) (d b : Nat) (hd : s.divCounter = d)
    (he : s.timerEnabled = true) (hb : s.timerBit = b) :
    s.timerStep.divCounter = (d + 4) % 65536 ∧ s.timerStep.timerEnabled = true ∧
    s.timerStep.timerBit = b ∧
    s.timerStep.timerClock = decide ((d + 4) % 65536 &&& b ≠ 0) ∧
    s.timerStep.timerOldVal = decide ((d + 4) % 65536 &&& b ≠ 0) := by
  obtain ⟨f1, f2, f3, f4⟩ := timerStep_frame s
  have hc := timerClock_timerStep s
  rw [hd, hb, he, Bool.and_true] at hc
  rw [hd] at f1
  exact ⟨f1, f2.trans he, f3.trans hb, hc, f4.trans hc⟩

/-- C10 (refuted as written): the state reached by writing 0x05 to TAC from divider 0xAB00
with no recorded clock level has the timer enabled on divider bit 3 and TIMA = 0; advancing
it by 16 cycles leaves TIMA = 1, not 2 (the only falling edge of bit 3 is at 0xAB10), and
advancing it by 64 cycles (sixteen 4-cycle steps) leaves TIMA = 4. Two increments take 32
cycles. -/
theorem C10_counterexample_sixteen_cycles :
    tacDemo.mem.readIOReg IO_TAC = 0x05 ∧ tacDemo.timerEnabled = true ∧
    tacDemo.timerBit = 1 <<< 3 ∧ tacDemo.divCounter = 0xAB00 ∧
    tacDemo.timerOldVal = false ∧ tacDemo.mem.readIOReg IO_TIMA = 0 ∧
    (tacDemo.updateTimer 16).divCounter = 0xAB10 ∧
    (tacDemo.updateTimer 16).mem.readIOReg IO_TIMA = 1 ∧
    (tacDemo.updateTimer 16).mem.readIOReg IO_TIMA ≠ tacDemo.mem.readIOReg IO_TIMA + 2 ∧
    (tacDemo.updateTimer 32).mem.readIOReg IO_TIMA = 2 ∧
    (tacDemo.updateTimer 64).divCounter = 0xAB40 ∧
    (tacDemo.updateTimer 64).mem.readIOReg IO_TIMA = 4 := by
  decide

/-- C10 (amended): with the timer enabled on divider bit 3 (as a TAC write of 0x05 leaves
it), the internal divider at 0xAB00 and no recorded high clock level, advancing the timer
by 16 cycles brings the divider to 0xAB10 and increments TIMA exactly once: TIMA + 1, or
the TMA reload when TIMA was 0xFF. -/
theorem C10_sixteen_cycles_increment_once (s : DMGCPU) (he : s.timerEnabled = true)
    (hb : s.timerBit = 1 <<< 3) (hd : s.divCounter = 0xAB00)
    (ho : s.timerOldVal = false) :
    (s.updateTimer 16).divCounter = 0xAB10 ∧
    (s.updateTimer 16).mem.readIOReg IO_TIMA =
      (if s.mem.readIOReg IO_TIMA = 0xFF then s.mem.readIOReg IO_TMA
       else s.mem.readIOReg IO_TIMA + 1) := by
  have hb0 : s.timerBit = 8 := hb
  have hsteps : s.updateTimer 16 = s.timerStep.timerStep.timerStep.timerStep := by
    have h := updateTimer_steps s 3
    have hf : (fun u : DMGCPU => u.updateTimer 4) = timerStep := funext updateTimer_four
    rw [hf] at h
    exact h
  rw [hsteps]
  obtain ⟨d1, n1, b1, c1, o1⟩ := timerStep_known s _ _ hd he hb0
  obtain ⟨d2, n2, b2, c2, o2⟩ := timerStep_known s.timerStep _ _ d1 n1 b1
  obtain ⟨d3, n3, b3, c3, o3⟩ := timerStep_known s.timerStep.timerStep _ _ d2 n2 b2
  obtain ⟨d4, n4, b4, c4, o4⟩ := timerStep_known s.timerStep.timerStep.timerStep _ _ d3 n3 b3
  have q1 := ((timerStep_outcome s).1 (by rw [ho]; simp)).1
  have q2 := ((timerStep_outcome s.timerStep).1
    (by rw [o1]; intro h; exact absurd h.1 (by decide))).1
  have q3 := ((timerStep_outcome s.timerStep.timerStep).1
    (by rw [c3]; intro h; exact absurd h.2 (by decide))).1
  have m3 : s.timerStep.timerStep.timerStep.mem = s.mem := by rw [q3, q2, q1]
  have hO3 : s.timerStep.timerStep.timerStep.timerOldVal = true := by rw [o3]; decide
  have hC4 : s.timerStep.timerStep.timerStep.timerStep.timerClock = false := by
    rw [c4]; decide
  refine ⟨by rw [d4], ?_⟩
  by_cases h : s.mem.readIOReg IO_TIMA = 0xFF
  · rw [if_pos h]
    have h' : s.timerStep.timerStep.timerStep.mem.readIOReg IO_TIMA = 0xFF := by
      rw [m3]; exact h
    rw [((timerStep_outcome _).2.2 hO3 hC4 h').1, readIOReg_writeIOReg_ne _ _ _ _ (by decide),
      readIOReg_writeIOReg_same, m3]
    exact Nat.mod_eq_of_lt (readIOReg_lt _ _)
  · rw [if_neg h]
    have h' : s.timerStep.timerStep.timerStep.mem.readIOReg IO_TIMA ≠ 0xFF := by
      rw [m3]; exact h
    have hlt := readIOReg_lt s.mem IO_TIMA
    rw [((timerStep_outcome _).2.1 hO3 hC4 h').1, readIOReg_writeIOReg_same, m3]
    exact Nat.mod_eq_of_lt (by omega)

/-- The state after writing TAC = 0x05 at divider 0xAB00 meets the hypotheses of C10
(amended), and 16 cycles take its TIMA from 0 to 1. -/
theorem C10_sixteen_cycles_witness :
    tacDemo.timerEnabled = true ∧ tacDemo.timerBit = 1 <<< 3 ∧
    tacDemo.divCounter = 0xAB00 ∧ tacDemo.timerOldVal = false ∧
    ((tacDemo.updateTimer 16).divCounter = 0xAB10 ∧
     (tacDemo.updateTimer 16).mem.readIOReg IO_TIMA =
      (if tacDemo.mem.readIOReg IO_TIMA = 0xFF then tacDemo.mem.readIOReg IO_TMA
       else tacDemo.mem.readIOReg IO_TIMA + 1)) :=
  ⟨by decide, by decide, by decide, by decide,
   C10_sixteen_cycles_increment_once tacDemo (by decide) (by decide) (by decide) (by decide)⟩

/-! ## The vector table of `serviceInterrupts` -/

set_option maxRecDepth 8192 in
theorem lowest_bit_high : ∀ sv < 256, sv ≠ 0 → sv &&& 0x1F = 0 →
    ∃ i < 8, 5 ≤ i ∧ sv.testBit i = true ∧ ∀ j < i, sv.testBit j = false := by
  decide

theorem vectors_none (i : Nat) (hi : 5 ≤ i) : vectors[i]? = none := by
  unfold vectors
  rw [List.getElem?_eq_none]
  exact hi

theorem serviceInterrupts_past_table (s : DMGCPU) (i : Nat)
    (hime : s.masterInterruptEnable = true)
    (hbit : s.serviceableInterrupts.testBit i = true)
    (hlow : ∀ j < i, s.serviceableInterrupts.testBit j = false)
    (hi : 5 ≤ i) : s.serviceInterrupts = none := by
  have h := serviceLoop_lowest { s with halted := false } i s.serviceableInterrupts 0
    s.serviceableInterrupts (Nat.le_refl _) hbit hlow
  rw [Nat.zero_add] at h
  unfold serviceInterrupts
  dsimp only
  split
  · next hc => rw [hime] at hc; cases hc
  · rw [h]
    unfold serviceVector
    simp only [vectors_none i hi]

/-- C35 (the code breaks it): `writeReg` caches `data & IE`, respectively `data & IF`,
with all eight bits, and `serviceInterrupts` indexes `vectors` with the number of the
lowest set bit of that cache.  With master-enable set, whenever the lowest set bit is 5, 6
or 7 the table is read past its five entries (no result); after the bus writes of `ie` to
IE and `fl` to IF this is the case for every pair of bytes whose AND is non-zero with the
low five bits clear.  After `irqProgram 0x40` (IE = IF = 0x40, then EI) the cache is 0x40
and the dispatch reads `vectors[6]`; after `irqProgram 0xE0` it reads `vectors[5]`. -/
theorem C35_vector_table_read_past_end :
    (∀ (s : DMGCPU) (i : Nat), s.masterInterruptEnable = true →
      s.serviceableInterrupts.testBit i = true →
      (∀ j < i, s.serviceableInterrupts.testBit j = false) →
      5 ≤ i → vectors[i]? = none ∧ s.serviceInterrupts = none) ∧
    (∀ (s : DMGCPU) (ie fl : Nat), s.masterInterruptEnable = true → ie < 256 → fl < 256 →
      fl &&& ie ≠ 0 → (fl &&& ie) &&& 0x1F = 0 →
      ((s.writeMem 0xFFFF ie).writeMem 0xFF0F fl).serviceableInterrupts = fl &&& ie ∧
      ((s.writeMem 0xFFFF ie).writeMem 0xFF0F fl).serviceInterrupts = none) ∧
    ((irqDemo 0x40).masterInterruptEnable = true ∧
      (irqDemo 0x40).serviceableInterrupts = 0x40 ∧
      (irqDemo 0x40).serviceInterrupts.isNone = true) ∧
    ((irqDemo 0xE0).masterInterruptEnable = true ∧
      (irqDemo 0xE0).serviceableInterrupts = 0xE0 ∧
      (irqDemo 0xE0).serviceInterrupts.isNone = true) := by
  refine ⟨?_, ?_, by decide, by decide⟩
  · intro s i hime hbit hlow hi
    exact ⟨vectors_none i hi, serviceInterrupts_past_table s i hime hbit hlow hi⟩
  · intro s ie fl hime hie hfl hne h5
    have hsv : ((s.writeMem 0xFFFF ie).writeMem 0xFF0F fl).serviceableInterrupts = fl &&& ie := by
      rw [writeMem_IF, writeMem_IE]
      simp only [DMGMemory.readIOReg, DMGMemory.store, IO_IE]
      rw [Nat.mod_eq_of_lt hfl, Nat.mod_eq_of_lt hie]
      simp [Nat.mod_eq_of_lt hie]
    have hime2 : ((s.writeMem 0xFFFF ie).writeMem 0xFF0F fl).masterInterruptEnable = true := by
      rw [writeMem_IF, writeMem_IE]
      exact hime
    have hlt : fl &&& ie < 256 := Nat.lt_of_le_of_lt Nat.and_le_left hfl
    obtain ⟨i, _, hi, hb, hl⟩ := lowest_bit_high _ hlt hne h5
    refine ⟨hsv, serviceInterrupts_past_table _ i hime2 ?_ ?_ hi⟩
    · rw [hsv]; exact hb
    · rw [hsv]; exact hl

/-- C35 at the blank machine with master-enable set, IE = IF = 0x20. -/
theorem C35_vector_table_witness :
    ({ blank with masterInterruptEnable := true } : DMGCPU).masterInterruptEnable = true ∧
    (((({ blank with masterInterruptEnable := true } : DMGCPU).writeMem 0xFFFF 0x20).writeMem
      0xFF0F 0x20).serviceInterrupts = none) :=
  ⟨rfl, (C35_vector_table_read_past_end.2.1 { blank with masterInterruptEnable := true }
    0x20 0x20 rfl (by decide) (by decide) (by decide) (by decide)).2⟩

/-! ## The (HL) forms of the `0xCB` rotates and shifts -/

set_option maxRecDepth 100000 in
theorem cb_hl_arith : ∀ v < 256, ∀ cin : Bool,
    ((flagIf (((v >>> 1) ||| (v <<< 7)) % 256 &&& 0x80 != 0) Flag_C
        ||| flagIf (((v >>> 1) ||| (v <<< 7)) % 256 == 0) Flag_Z) % 256
        = flagIf ((archCB .RRC v cin).1 == 0) Flag_Z ||| flagIf (archCB .RRC v cin).2 Flag_C) ∧
    ((((v <<< 1) ||| cin.toNat) % 65536) % 256 = (archCB .RL v cin).1 ∧
      (flagIf (((v <<< 1) ||| cin.toNat) % 65536 &&& 0x100 != 0) Flag_C
        ||| flagIf (((v <<< 1) ||| cin.toNat) % 65536 &&& 0xFF == 0) Flag_Z) % 256
        = flagIf ((archCB .RL v cin).1 == 0) Flag_Z ||| flagIf (archCB .RL v cin).2 Flag_C) ∧
    ((flagIf (v &&& 0x01 != 0) Flag_C
        ||| flagIf (((v >>> 1) ||| (cin.toNat * 128)) % 256 == 0) Flag_Z) % 256
        = flagIf ((archCB .RR v cin).1 == 0) Flag_Z ||| flagIf (archCB .RR v cin).2 Flag_C) ∧
    (((v <<< 1) % 65536) % 256 = (archCB .SLA v cin).1 ∧
      (flagIf ((v <<< 1) % 65536 &&& 0x100 != 0) Flag_C
        ||| flagIf ((v <<< 1) % 65536 &&& 0xFF == 0) Flag_Z) % 256
        = flagIf ((archCB .SLA v cin).1 == 0) Flag_Z ||| flagIf (archCB .SLA v cin).2 Flag_C) ∧
    ((((v &&& 1) <<< 4) ||| flagIf (v &&& 0xFE == 0) Flag_Z) % 256
        = flagIf ((archCB .SRA v cin).1 == 0) Flag_Z ||| flagIf (archCB .SRA v cin).2 Flag_C) ∧
    (((v <<< 4) ||| (v >>> 4)) % 256 = (archCB .SWAP v cin).1 ∧
      (flagIf (((v <<< 4) ||| (v >>> 4)) % 256 == 0) Flag_Z) % 256
        = flagIf ((archCB .SWAP v cin).1 == 0) Flag_Z ||| flagIf (archCB .SWAP v cin).2 Flag_C) ∧
    ((v >>> 1) % 256 = (archCB .SRL v cin).1 ∧
      (((v &&& 1) <<< 4) ||| flagIf (v &&& 0xFE == 0) Flag_Z) % 256
        = flagIf ((archCB .SRL v cin).1 == 0) Flag_Z ||| flagIf (archCB .SRL v cin).2 Flag_C) := by
  decide

theorem readMem_lt (s : DMGCPU) (a : Nat) : s.readMem a < 256 := by
  unfold readMem busRead readReg
  split
  · split
    · omega
    · split
      · split <;> split <;> decide
      · omega
  · unfold DMGMemory.read
    omega

theorem reg16_setReg_F (s : DMGCPU) (f : Nat) : (s.setReg .F f).reg16 .HL = s.reg16 .HL := by
  unfold reg16
  rw [reg_setReg, reg_setReg]
  rfl

/-- C37: for each of RLC, RRC, RL, RR, SLA, SRA, SWAP and SRL, the body of the (HL) case of
the `0xCB` table reads the byte at HL, sets F and hands a byte to `writeMem` at HL (16
cycles); the byte written and the F left are those the register helper of the same
operation leaves in `r` and F on any state `s'` whose `r` holds the byte read and whose F
is the incoming F. -/
theorem C37_cb_memory_form_matches_register_form (op : CBOp) (s s' : DMGCPU) (r : Reg)
    (hr : r ≠ .F) (hv : s'.reg r = s.readMem (s.reg16 .HL)) (hF : s'.reg .F = s.reg .F) :
    ∃ body v f, exCases.lookup (cbOpcodeHL op) = some body ∧
      body s = ((s.setReg .F f).writeMem (s.reg16 .HL) v, 16) ∧
      v % 256 = (cbHelper op s' r).1.reg r ∧
      f % 256 = (cbHelper op s' r).1.reg .F ∧
      (body s).1.reg .F = (cbHelper op s' r).1.reg .F := by
  obtain ⟨hR, hFl⟩ := cbHelper_regs op s' r hr
  have hlt := readMem_lt s (s.reg16 .HL)
  obtain ⟨c1, c2⟩ := carry_shift _ (reg_lt s .F)
  have hfl : s'.flag Flag_C = decide (s.reg .F &&& Flag_C ≠ 0) := by
    unfold flag
    rw [hF]
  obtain ⟨a1, _⟩ := cb_arith _ hlt (decide (s.reg .F &&& Flag_C ≠ 0))
  obtain ⟨g2, g3, g4, g5, g6, g7, g8⟩ := cb_hl_arith _ hlt (decide (s.reg .F &&& Flag_C ≠ 0))
  obtain ⟨_, b2, _, b4, _, b6, _, _⟩ := cb_arith _ hlt (decide (s.reg .F &&& Flag_C ≠ 0))
  rw [hv, hfl] at hR hFl
  have fin : ∀ (f a v : Nat), ((s.setReg .F f).writeMem a v).reg .F = f % 256 := by
    intro f a v
    rw [reg_writeMem, reg_setReg, if_pos rfl]
  cases op
  · refine ⟨_, (((s.readMem (s.reg16 .HL)) <<< 1) ||| ((s.readMem (s.reg16 .HL)) >>> 7)) % 256,
      flagIf (((((s.readMem (s.reg16 .HL)) <<< 1) ||| ((s.readMem (s.reg16 .HL)) >>> 7)) % 256) &&& 0x1 != 0) Flag_C ||| flagIf (((((s.readMem (s.reg16 .HL)) <<< 1) ||| ((s.readMem (s.reg16 .HL)) >>> 7)) % 256) == 0) Flag_Z,
      rfl, ?_, ?_, ?_, ?_⟩
    · show (_, _) = (_, _)
      rw [reg16_setReg_F]
    · rw [hR]; exact (Nat.mod_mod _ _).trans a1.1
    · rw [hFl]; exact a1.2
    · show ((s.setReg .F _).writeMem ((s.setReg .F _).reg16 .HL) _).reg .F = _
      rw [fin]
      rw [hFl]; exact a1.2
  · refine ⟨_, (((s.readMem (s.reg16 .HL)) >>> 1) ||| ((s.readMem (s.reg16 .HL)) <<< 7)) % 256,
      flagIf (((((s.readMem (s.reg16 .HL)) >>> 1) ||| ((s.readMem (s.reg16 .HL)) <<< 7)) % 256) &&& 0x80 != 0) Flag_C ||| flagIf (((((s.readMem (s.reg16 .HL)) >>> 1) ||| ((s.readMem (s.reg16 .HL)) <<< 7)) % 256) == 0) Flag_Z,
      rfl, ?_, ?_, ?_, ?_⟩
    · show (_, _) = (_, _)
      rw [reg16_setReg_F]
    · rw [hR]; exact (Nat.mod_mod _ _).trans b2.1
    · rw [hFl]; exact g2
    · show ((s.setReg .F _).writeMem ((s.setReg .F _).reg16 .HL) _).reg .F = _
      rw [fin]
      rw [hFl]; exact g2
  · refine ⟨_, (((s.readMem (s.reg16 .HL)) <<< 1) ||| ((s.reg .F &&& Flag_C) >>> 4)) % 65536,
      flagIf (((((s.readMem (s.reg16 .HL)) <<< 1) ||| ((s.reg .F &&& Flag_C) >>> 4)) % 65536) &&& 0x100 != 0) Flag_C ||| flagIf (((((s.readMem (s.reg16 .HL)) <<< 1) ||| ((s.reg .F &&& Flag_C) >>> 4)) % 65536) &&& 0xFF == 0) Flag_Z,
      rfl, ?_, ?_, ?_, ?_⟩
    · show (_, _) = (_, _)
      rw [reg16_setReg_F]
    · rw [hR, c1]; exact g3.1
    · rw [hFl, c1]; exact g3.2
    · show ((s.setReg .F _).writeMem ((s.setReg .F _).reg16 .HL) _).reg .F = _
      rw [fin]
      rw [hFl, c1]; exact g3.2
  · refine ⟨_, (((s.readMem (s.reg16 .HL)) >>> 1) ||| ((s.reg .F &&& Flag_C) <<< 3)) % 256,
      flagIf ((s.readMem (s.reg16 .HL)) &&& 0x01 != 0) Flag_C ||| flagIf (((((s.readMem (s.reg16 .HL)) >>> 1) ||| ((s.reg .F &&& Flag_C) <<< 3)) % 256) == 0) Flag_Z,
      rfl, ?_, ?_, ?_, ?_⟩
    · show (_, _) = (_, _)
      rw [reg16_setReg_F]
    · rw [hR, c2]; exact (Nat.mod_mod _ _).trans b4.1
    · rw [hFl, c2]; exact g4
    · show ((s.setReg .F _).writeMem ((s.setReg .F _).reg16 .HL) _).reg .F = _
      rw [fin]
      rw [hFl, c2]; exact g4
  · refine ⟨_, ((s.readMem (s.reg16 .HL)) <<< 1) % 65536,
      flagIf ((((s.readMem (s.reg16 .HL)) <<< 1) % 65536) &&& 0x100 != 0) Flag_C ||| flagIf ((((s.readMem (s.reg16 .HL)) <<< 1) % 65536) &&& 0xFF == 0) Flag_Z,
      rfl, ?_, ?_, ?_, ?_⟩
    · show (_, _) = (_, _)
      rw [reg16_setReg_F]
    · rw [hR]; exact g5.1
    · rw [hFl]; exact g5.2
    · show ((s.setReg .F _).writeMem ((s.setReg .F _).reg16 .HL) _).reg .F = _
      rw [fin]
      rw [hFl]; exact g5.2
  · refine ⟨_, u8 (int8 (s.readMem (s.reg16 .HL)) >>> 1),
      (((s.readMem (s.reg16 .HL)) &&& 1) <<< 4) ||| flagIf ((s.readMem (s.reg16 .HL)) &&& 0xFE == 0) Flag_Z,
      rfl, ?_, ?_, ?_, ?_⟩
    · show (_, _) = (_, _)
      rw [reg16_setReg_F]
    · rw [hR, Nat.mod_eq_of_lt (u8_lt _)]; exact b6.1
    · rw [hFl]; exact g6
    · show ((s.setReg .F _).writeMem ((s.setReg .F _).reg16 .HL) _).reg .F = _
      rw [fin]
      rw [hFl]; exact g6
  · refine ⟨_, (((s.readMem (s.reg16 .HL)) <<< 4) ||| ((s.readMem (s.reg16 .HL)) >>> 4)) % 256,
      flagIf (((((s.readMem (s.reg16 .HL)) <<< 4) ||| ((s.readMem (s.reg16 .HL)) >>> 4)) % 256) == 0) Flag_Z,
      rfl, ?_, ?_, ?_, ?_⟩
    · show (_, _) = (_, _)
      rw [reg16_setReg_F]
    · rw [hR]; exact (Nat.mod_mod _ _).trans g7.1
    · rw [hFl]; exact g7.2
    · show ((s.setReg .F _).writeMem ((s.setReg .F _).reg16 .HL) _).reg .F = _
      rw [fin]
      rw [hFl]; exact g7.2
  · refine ⟨_, (s.readMem (s.reg16 .HL)) >>> 1,
      (((s.readMem (s.reg16 .HL)) &&& 1) <<< 4) ||| flagIf ((s.readMem (s.reg16 .HL)) &&& 0xFE == 0) Flag_Z,
      rfl, ?_, ?_, ?_, ?_⟩
    · show (_, _) = (_, _)
      rw [reg16_setReg_F]
    · rw [hR]; exact g8.1
    · rw [hFl]; exact g8.2
    · show ((s.setReg .F _).writeMem ((s.setReg .F _).reg16 .HL) _).reg .F = _
      rw [fin]
      rw [hFl]; exact g8.2

/-- C37 for `RL (HL)` against `RL B` on the booted machine. -/
theorem C37_cb_memory_form_witness :
    ∃ body v f, exCases.lookup (cbOpcodeHL .RL) = some body ∧
      body booted = ((booted.setReg .F f).writeMem (booted.reg16 .HL) v, 16) ∧
      v % 256 = (cbHelper .RL
        (booted.setReg .B (booted.readMem (booted.reg16 .HL))) .B).1.reg .B ∧
      f % 256 = (cbHelper .RL
        (booted.setReg .B (booted.readMem (booted.reg16 .HL))) .B).1.reg .F ∧
      (body booted).1.reg .F = (cbHelper .RL
        (booted.setReg .B (booted.readMem (booted.reg16 .HL))) .B).1.reg .F :=
  C37_cb_memory_form_matches_register_form .RL booted
    (booted.setReg .B (booted.readMem (booted.reg16 .HL))) .B (by decide) (by decide) (by decide)

/-! ## Decimal arithmetic: ADD/ADC/SUB/SBC followed by DAA -/

set_option synthInstance.maxSize 4000 in
set_option synthInstance.maxHeartbeats 400000 in
set_option maxRecDepth 100000 in
theorem bcd_add_digits : ∀ ah < 10, ∀ al < 10, ∀ bh < 10, ∀ bl < 10, ∀ c < 2,
    ((16 * ah + al + (16 * bh + bl) + c) % 256
      + (if decide (16 * ah + al + (16 * bh + bl) + c > 0xFF) = true
            ∨ (16 * ah + al + (16 * bh + bl) + c) % 256 > 0x99 then 0x60 else 0)
      + (if decide (al + bl + c > 0xF) = true
            ∨ ((16 * ah + al + (16 * bh + bl) + c) % 256) % 16 > 0x09
          then 0x06 else 0)) % 256
      = toBCD ((10 * ah + al + (10 * bh + bl) + c) % 100) ∧
    ((16 * ah + al + (16 * bh + bl) + c > 0xFF
        ∨ (16 * ah + al + (16 * bh + bl) + c) % 256 > 0x99)
      ↔ 10 * ah + al + (10 * bh + bl) + c ≥ 100) := by
  decide!

set_option synthInstance.maxSize 4000 in
set_option synthInstance.maxHeartbeats 400000 in
set_option maxRecDepth 100000 in
theorem bcd_sub_digits : ∀ ah < 10, ∀ al < 10, ∀ bh < 10, ∀ bl < 10, ∀ c < 2,
    (((16 * ah + al + 512 - (16 * bh + bl) - c) % 256 + 512
      - (if decide (16 * ah + al < 16 * bh + bl + c) = true then 0x60 else 0)
      - (if decide (al < bl + c) = true then 0x06 else 0)) % 256 : Nat)
      = toBCD ((((10 * ah + al : Nat) : Int) - ((10 * bh + bl : Nat) : Int) - ((c : Nat) : Int))
          % 100).toNat ∧
    (16 * ah + al < 16 * bh + bl + c ↔ 10 * ah + al < 10 * bh + bl + c) := by
  decide!

theorem isBCD_digits (a : Nat) (ha : isBCD a) :
    a / 16 < 10 ∧ a % 16 < 10 ∧ a = 16 * (a / 16) + a % 16 ∧ a < 256 := by
  unfold isBCD at ha
  omega

theorem and15_eq_mod (a : Nat) : a &&& 0xF = a % 16 :=
  Nat.and_pow_two_sub_one_eq_mod a 4

theorem bcd_add_arith (a b c : Nat) (ha : isBCD a) (hb : isBCD b) (hc : c < 2) :
    ((a + b + c) % 256
      + (if decide (a + b + c > 0xFF) = true ∨ (a + b + c) % 256 > 0x99 then 0x60 else 0)
      + (if decide (a % 16 + b % 16 + c > 0xF) = true ∨ ((a + b + c) % 256) % 16 > 0x09
          then 0x06 else 0)) % 256
      = toBCD ((fromBCD a + fromBCD b + c) % 100) ∧
    ((a + b + c > 0xFF ∨ (a + b + c) % 256 > 0x99) ↔ fromBCD a + fromBCD b + c ≥ 100) := by
  obtain ⟨a1, a2, a3, _⟩ := isBCD_digits a ha
  obtain ⟨b1, b2, b3, _⟩ := isBCD_digits b hb
  have h := bcd_add_digits (a / 16) a1 (a % 16) a2 (b / 16) b1 (b % 16) b2 c hc
  rw [← a3, ← b3] at h
  exact h

theorem bcd_sub_arith (a b c : Nat) (ha : isBCD a) (hb : isBCD b) (hc : c < 2) :
    (((a + 512 - b - c) % 256 + 512
      - (if decide (a < b + c) = true then 0x60 else 0)
      - (if decide (a % 16 < b % 16 + c) = true then 0x06 else 0)) % 256 : Nat)
      = toBCD ((((fromBCD a : Nat) : Int) - ((fromBCD b : Nat) : Int) - ((c : Nat) : Int))
          % 100).toNat ∧
    (a < b + c ↔ fromBCD a < fromBCD b + c) := by
  obtain ⟨a1, a2, a3, _⟩ := isBCD_digits a ha
  obtain ⟨b1, b2, b3, _⟩ := isBCD_digits b hb
  have h := bcd_sub_digits (a / 16) a1 (a % 16) a2 (b / 16) b1 (b % 16) b2 c hc
  rw [← a3, ← b3] at h
  exact h

theorem daa_body_A (t : DMGCPU) :
    ((t.setReg .A (daa (t.reg .A) (t.reg .F)).1).setReg .F (daa (t.reg .A) (t.reg .F)).2).reg .A
      = (daa (t.reg .A) (t.reg .F)).1 := by
  simp only [reg_setReg]
  simpa using Nat.mod_eq_of_lt (daa_fst_lt _ _ (reg_lt _ _))

theorem daa_body_F (t : DMGCPU) :
    ((t.setReg .A (daa (t.reg .A) (t.reg .F)).1).setReg .F (daa (t.reg .A) (t.reg .F)).2).reg .F
      = (daa (t.reg .A) (t.reg .F)).2 % 256 := by
  simp only [reg_setReg]
  simp

/-- After `doAdd` on packed-BCD operands the DAA body leaves the decimal sum. -/
theorem daa_after_add (s : DMGCPU) (a b c : Nat) (ha : isBCD a) (hb : isBCD b) (hc : c < 2) :
    (daa ((s.doAdd a b c).reg .A) ((s.doAdd a b c).reg .F)).1
        = toBCD ((fromBCD a + fromBCD b + c) % 100) ∧
    decide ((daa ((s.doAdd a b c).reg .A) ((s.doAdd a b c).reg .F)).2 % 256 &&& Flag_C ≠ 0)
        = decide (fromBCD a + fromBCD b + c ≥ 100) ∧
    decide ((daa ((s.doAdd a b c).reg .A) ((s.doAdd a b c).reg .F)).2 % 256 &&& Flag_Z ≠ 0)
        = decide ((daa ((s.doAdd a b c).reg .A) ((s.doAdd a b c).reg .F)).1 = 0) := by
  have a4 := (isBCD_digits a ha).2.2.2
  have b4 := (isBCD_digits b hb).2.2.2
  have hF := doAdd_F s a b c a4 b4 hc
  have hA := doAdd_A s a b c
  obtain ⟨f1, f2, f3, f4, _⟩ := flag_bits ((s.doAdd a b c).reg .F) (decide (a + b + c > 0xFF))
    (decide ((a &&& 0xF) + (b &&& 0xF) + c > 0xF)) false (decide ((a + b + c) % 256 = 0))
    (by rw [hF]; simp only [flagIf_false_eq, Nat.or_zero])
  have hN : (s.doAdd a b c).reg .F &&& Flag_N = 0 := by simpa using f2
  have hC : ((s.doAdd a b c).reg .F &&& Flag_C ≠ 0) ↔ a + b + c > 0xFF :=
    decide_eq_decide.mp f4
  have hH : ((s.doAdd a b c).reg .F &&& Flag_H ≠ 0) ↔ a % 16 + b % 16 + c > 0xF := by
    rw [and15_eq_mod, and15_eq_mod] at f3
    exact decide_eq_decide.mp f3
  obtain ⟨z1, z2, z3, z4⟩ := daa_flag_bits ((s.doAdd a b c).reg .F) (reg_lt _ _)
    (decide ((s.doAdd a b c).reg .F &&& Flag_N = 0) &&
      decide ((s.doAdd a b c).reg .F &&& Flag_C ≠ 0 ∨ (s.doAdd a b c).reg .A > 0x99))
    ((daa ((s.doAdd a b c).reg .A) ((s.doAdd a b c).reg .F)).1 == 0)
  rw [← daa_snd] at z1 z2 z3 z4
  obtain ⟨e1, e2⟩ := bcd_add_arith a b c ha hb hc
  refine ⟨?_, ?_, ?_⟩
  · rw [daa_fst_add _ _ (reg_lt _ _) hN, ← e1, hA]
    simp only [hC, hH, and15_eq_mod, decide_eq_true_eq]
  · rw [z4, hA]
    simp only [hN, hC, decide_True, Bool.true_and]
    by_cases h : fromBCD a + fromBCD b + c ≥ 100
    · have h2 := e2.mpr h
      simp [h, h2]
    · have h2 : ¬ (a + b + c > 0xFF ∨ (a + b + c) % 256 > 0x99) := fun x => h (e2.mp x)
      have h3 : ¬ a + b + c > 0xFF := fun x => h2 (Or.inl x)
      have h4 : ¬ (a + b + c) % 256 > 0x99 := fun x => h2 (Or.inr x)
      simp [h, h3]
      omega
  · exact z1.trans rfl

/-- After `doSub` on packed-BCD operands the DAA body leaves the decimal difference. -/
theorem daa_after_sub (s : DMGCPU) (a b c : Nat) (ha : isBCD a) (hb : isBCD b) (hc : c < 2) :
    (daa ((s.doSub a b c).reg .A) ((s.doSub a b c).reg .F)).1
        = toBCD ((((fromBCD a : Nat) : Int) - ((fromBCD b : Nat) : Int) - ((c : Nat) : Int))
            % 100).toNat ∧
    decide ((daa ((s.doSub a b c).reg .A) ((s.doSub a b c).reg .F)).2 % 256 &&& Flag_C ≠ 0)
        = decide (fromBCD a < fromBCD b + c) ∧
    decide ((daa ((s.doSub a b c).reg .A) ((s.doSub a b c).reg .F)).2 % 256 &&& Flag_Z ≠ 0)
        = decide ((daa ((s.doSub a b c).reg .A) ((s.doSub a b c).reg .F)).1 = 0) := by
  have a4 := (isBCD_digits a ha).2.2.2
  have b4 := (isBCD_digits b hb).2.2.2
  have hF := doSub_F s a b c a4 b4 hc
  have hA := doSub_A s a b c a4 b4 hc
  obtain ⟨f1, f2, f3, f4, _⟩ := flag_bits ((s.doSub a b c).reg .F) (decide (a < b + c))
    (decide ((a &&& 0xF) < (b &&& 0xF) + c)) true (decide ((a + 512 - b - c) % 256 = 0))
    (by rw [hF]; simp only [flagIf_true_eq])
  have hN : (s.doSub a b c).reg .F &&& Flag_N ≠ 0 := by simpa using f2
  have hC : ((s.doSub a b c).reg .F &&& Flag_C ≠ 0) ↔ a < b + c :=
    decide_eq_decide.mp f4
  have hH : ((s.doSub a b c).reg .F &&& Flag_H ≠ 0) ↔ a % 16 < b % 16 + c := by
    rw [and15_eq_mod, and15_eq_mod] at f3
    exact decide_eq_decide.mp f3
  obtain ⟨z1, z2, z3, z4⟩ := daa_flag_bits ((s.doSub a b c).reg .F) (reg_lt _ _)
    (decide ((s.doSub a b c).reg .F &&& Flag_N = 0) &&
      decide ((s.doSub a b c).reg .F &&& Flag_C ≠ 0 ∨ (s.doSub a b c).reg .A > 0x99))
    ((daa ((s.doSub a b c).reg .A) ((s.doSub a b c).reg .F)).1 == 0)
  rw [← daa_snd] at z1 z2 z3 z4
  obtain ⟨e1, e2⟩ := bcd_sub_arith a b c ha hb hc
  refine ⟨?_, ?_, ?_⟩
  · rw [daa_fst_sub _ _ (reg_lt _ _) hN, ← e1, hA]
    simp only [hC, hH, decide_eq_true_eq]
  · rw [z4]
    have hN0 : decide ((s.doSub a b c).reg .F &&& Flag_N = 0) = false := by simpa using hN
    rw [hN0, Bool.false_and, Bool.false_or]
    by_cases h : fromBCD a < fromBCD b + c
    · have h2 := e2.mpr h
      simp [h, hC, h2]
    · have h2 : ¬ a < b + c := fun x => h (e2.mp x)
      simp [h, hC, h2]
  · exact z1.trans rfl

/-- C36: for packed-BCD bytes `a`, `b` (each nibble at most 9) and a carry-in `c` of 0 or 1,
the DAA case run after `doAdd` (the helper of ADD and ADC) leaves in A the packed-BCD
encoding of `(a+b+c) mod 100` with C set exactly when `a+b+c ≥ 100`, and run after `doSub`
(the helper of SUB and SBC) it leaves the packed-BCD encoding of `(a-b-c) mod 100` with C set
exactly when `a < b+c`, the operands read as decimal numbers; in both cases Z is set exactly
when the resulting A is 0. -/
theorem C36_bcd_arithmetic_with_daa (s : DMGCPU) (a b c : Nat)
    (ha : isBCD a) (hb : isBCD b) (hc : c < 2) :
    ∃ body, opCases.lookup 0x27 = some body ∧
      (∃ t, body (s.doAdd a b c) = some (t, 4) ∧
        t.reg .A = toBCD ((fromBCD a + fromBCD b + c) % 100) ∧
        t.flag Flag_C = decide (fromBCD a + fromBCD b + c ≥ 100) ∧
        t.flag Flag_Z = decide (t.reg .A = 0)) ∧
      (∃ t, body (s.doSub a b c) = some (t, 4) ∧
        t.reg .A = toBCD ((((fromBCD a : Nat) : Int) - ((fromBCD b : Nat) : Int)
          - ((c : Nat) : Int)) % 100).toNat ∧
        t.flag Flag_C = decide (fromBCD a < fromBCD b + c) ∧
        t.flag Flag_Z = decide (t.reg .A = 0)) ∧
      (∀ r, s.add r = (s.doAdd (s.reg .A) (s.reg r) 0, 4)) ∧
      (∀ r, s.addWithCarry r
        = (s.doAdd (s.reg .A) (s.reg r) (if s.flag Flag_C then 1 else 0), 4)) ∧
      (∀ r, s.sub r = (s.doSub (s.reg .A) (s.reg r) 0, 4)) ∧
      (∀ r, s.subWithCarry r
        = (s.doSub (s.reg .A) (s.reg r) (if s.flag Flag_C then 1 else 0), 4)) := by
  obtain ⟨p1, p2, p3⟩ := daa_after_add s a b c ha hb hc
  obtain ⟨q1, q2, q3⟩ := daa_after_sub s a b c ha hb hc
  refine ⟨_, lookup_daa, ⟨_, rfl, ?_, ?_, ?_⟩, ⟨_, rfl, ?_, ?_, ?_⟩, ?_, ?_, ?_, ?_⟩
  · rw [daa_body_A]; exact p1
  · simp only [flag]; rw [daa_body_F]; exact p2
  · simp only [flag]; rw [daa_body_F, daa_body_A]; exact p3
  · rw [daa_body_A]; exact q1
  · simp only [flag]; rw [daa_body_F]; exact q2
  · simp only [flag]; rw [daa_body_F, daa_body_A]; exact q3
  · intro r; rfl
  · intro r
    simp only [addWithCarry, flag]
    by_cases h : s.reg .F &&& Flag_C = 0 <;> simp [h]
  · intro r; rfl
  · intro r
    simp only [subWithCarry, flag]
    by_cases h : s.reg .F &&& Flag_C = 0 <;> simp [h]

/-- C36 at 58 + 67 + 1 = 126: DAA leaves 0x26 with the carry set. -/
theorem C36_bcd_arithmetic_witness :
    isBCD 0x58 ∧ isBCD 0x67 ∧
    ∃ body, opCases.lookup 0x27 = some body ∧
      (∃ t, body (booted.doAdd 0x58 0x67 1) = some (t, 4) ∧ t.reg .A = 0x26 ∧
        t.flag Flag_C = true) :=
  ⟨by decide, by decide,
    (C36_bcd_arithmetic_with_daa booted 0x58 0x67 1 (by decide) (by decide) (by decide)).elim
      fun body h => ⟨body, h.1, h.2.1.elim fun t ht => ⟨t, ht.1, ht.2.1, ht.2.2.1⟩⟩⟩

end DMGCPU

end DMG

/-! # Theorems about the CPU-32 core -/

namespace AGB

namespace AGBCPU

/-! ## Bits of 32-bit words -/

theorem and_bit_ne_zero (x i : Nat) : x &&& (1 <<< i) ≠ 0 ↔ x.testBit i = true := by
  rw [Nat.one_shiftLeft]
  constructor
  · intro h
    obtain ⟨j, hj⟩ := Nat.ne_zero_implies_bit_true h
    rw [Nat.testBit_and, Nat.testBit_two_pow] at hj
    simp only [Bool.and_eq_true, decide_eq_true_eq] at hj
    rw [hj.2]
    exact hj.1
  · intro h h0
    have h1 : (x &&& 2 ^ i).testBit i = true := by
      rw [Nat.testBit_and, h, Nat.testBit_two_pow_self]
      rfl
    rw [h0] at h1
    simp at h1

theorem and_pow_ne_zero (x i : Nat) : x &&& 2 ^ i ≠ 0 ↔ x.testBit i = true := by
  have h := and_bit_ne_zero x i
  rwa [Nat.one_shiftLeft] at h

theorem testBit_top (x : Nat) (i : Nat) (h : x < 2 ^ (i + 1)) :
    x.testBit i = decide (2 ^ i ≤ x) := by
  rw [Nat.testBit_to_div_mod]
  have h2 : 0 < 2 ^ i := Nat.two_pow_pos i
  congr 1
  apply propext
  constructor
  · intro hd
    rcases Nat.lt_or_ge x (2 ^ i) with hlt | hge
    · rw [Nat.div_eq_of_lt hlt] at hd
      simp at hd
    · exact hge
  · intro hge
    have hdiv : x / 2 ^ i = 1 := by
      apply Nat.div_eq_of_lt_le
      · simpa using hge
      · rw [Nat.pow_succ] at h
        omega
    rw [hdiv]

theorem testBit31 (x : Nat) (h : x < 4294967296) : x.testBit 31 = decide (2147483648 ≤ x) :=
  testBit_top x 31 h

theorem and_signBit (x : Nat) (h : x < 4294967296) :
    (x &&& signBit ≠ 0) ↔ 2147483648 ≤ x := by
  have h1 := and_pow_ne_zero x 31
  have h2 := testBit31 x h
  simp only [Nat.reducePow] at h1
  rw [h1, h2, decide_eq_true_eq]

theorem testBit_signBit (i : Nat) : (2147483648 : Nat).testBit i = decide (31 = i) := by
  have h := @Nat.testBit_two_pow 31 i
  simpa using h

theorem and_signBit_eq (x : Nat) (h : x < 4294967296) :
    x &&& signBit = if 2147483648 ≤ x then 2147483648 else 0 := by
  apply Nat.eq_of_testBit_eq
  intro i
  rw [Nat.testBit_and]
  show (x.testBit i && Nat.testBit 2147483648 i) = _
  rw [testBit_signBit]
  by_cases hi : 31 = i
  · subst hi
    rw [testBit31 x h]
    by_cases hx : 2147483648 ≤ x
    · simp only [hx, if_true, decide_True, Bool.and_true]
      decide
    · simp [hx]
  · simp only [hi, decide_False, Bool.and_false]
    split
    · rw [testBit_signBit]; simp [hi]
    · simp

theorem xor_signBit (a b : Nat) (ha : a < 4294967296) (hb : b < 4294967296) :
    ((a ^^^ b) &&& signBit ≠ 0) ↔ ¬ ((2147483648 ≤ a) ↔ (2147483648 ≤ b)) := by
  have h1 := and_pow_ne_zero (a ^^^ b) 31
  simp only [Nat.reducePow] at h1
  rw [h1, Nat.testBit_xor, testBit31 a ha, testBit31 b hb]
  by_cases h2 : 2147483648 ≤ a <;> by_cases h3 : 2147483648 ≤ b <;> simp [h2, h3]

theorem flagIf_testBit (b : Bool) (k i : Nat) :
    (flagIf b (2 ^ k)).testBit i = (b && decide (k = i)) := by
  cases b
  · simp [flagIf]
  · simp [flagIf, Nat.testBit_two_pow]

theorem flagIf_lt (b : Bool) (f n : Nat) (h : f < n) : flagIf b f < n := by
  cases b
  · simp only [flagIf]; exact Nat.lt_of_le_of_lt (Nat.zero_le _) h
  · exact h

/-- The N, Z, C, V bits and the low 28 bits of a CPSR assembled as
`(cpsr & 0x0FFFFFFF) | N | Z | C | V`. -/
theorem nzcv_assemble (x : Nat) (n z c v : Bool) :
    let w := (x &&& 0x0FFFFFFF) ||| flagIf n Flag_N ||| flagIf z Flag_Z ||| flagIf c Flag_C
      ||| flagIf v Flag_V
    w % 268435456 = x % 268435456 ∧ w < 4294967296 ∧
    w.testBit 31 = n ∧ w.testBit 30 = z ∧ w.testBit 29 = c ∧ w.testBit 28 = v := by
  intro w
  have hN : Flag_N = 2 ^ 31 := by decide
  have hZ : Flag_Z = 2 ^ 30 := by decide
  have hC : Flag_C = 2 ^ 29 := by decide
  have hV : Flag_V = 2 ^ 28 := by decide
  have hm : (0x0FFFFFFF : Nat) = 2 ^ 28 - 1 := by decide
  have hbit : ∀ i, w.testBit i = ((x.testBit i && decide (i < 28)) || (n && decide (31 = i))
      || (z && decide (30 = i)) || (c && decide (29 = i)) || (v && decide (28 = i))) := by
    intro i
    show ((x &&& 0x0FFFFFFF) ||| flagIf n Flag_N ||| flagIf z Flag_Z ||| flagIf c Flag_C
      ||| flagIf v Flag_V).testBit i = _
    rw [hN, hZ, hC, hV, hm]
    simp only [Nat.testBit_or, Nat.testBit_and, flagIf_testBit, Nat.testBit_two_pow_sub_one]
  refine ⟨?_, ?_, ?_, ?_, ?_, ?_⟩
  · apply Nat.eq_of_testBit_eq
    intro i
    have e : (268435456 : Nat) = 2 ^ 28 := by decide
    rw [e, Nat.testBit_mod_two_pow, Nat.testBit_mod_two_pow, hbit]
    by_cases hi : i < 28
    · have h1 : ¬ 31 = i := by omega
      have h2 : ¬ 30 = i := by omega
      have h3 : ¬ 29 = i := by omega
      have h4 : ¬ 28 = i := by omega
      simp [hi, h1, h2, h3, h4]
    · simp [hi]
  · have e : (4294967296 : Nat) = 2 ^ 32 := by decide
    rw [e]
    apply Nat.lt_pow_two_of_testBit
    intro i hi
    rw [hbit]
    have h0 : ¬ i < 28 := by omega
    have h1 : ¬ 31 = i := by omega
    have h2 : ¬ 30 = i := by omega
    have h3 : ¬ 29 = i := by omega
    have h4 : ¬ 28 = i := by omega
    simp [h0, h1, h2, h3, h4]
  · rw [hbit]; simp
  · rw [hbit]; simp
  · rw [hbit]; simp
  · rw [hbit]; simp

/-! ## The flag-setting add and subtract of `doALUOp` -/

theorem add_carry_bit (a b c : Nat) (ha : a < 4294967296) (hb : b < 4294967296) (hc : c ≤ 1) :
    decide ((a + b + c) % 18446744073709551616 &&& (1 <<< 32) ≠ 0)
      = decide (4294967296 ≤ a + b + c) := by
  have h1 : (a + b + c) % 18446744073709551616 = a + b + c := Nat.mod_eq_of_lt (by omega)
  rw [h1]
  have h2 := and_bit_ne_zero (a + b + c) 32
  have h3 := testBit_top (a + b + c) 32 (by show a + b + c < 8589934592; omega)
  simp only [Nat.reducePow] at h3
  rw [h3] at h2
  simp only [decide_eq_true_eq] at h2
  exact decide_eq_decide.mpr h2

theorem sub_borrow_bit (a b c : Nat) (ha : a < 4294967296) (hb : b < 4294967296) (hc : c ≤ 1) :
    decide ((a + (18446744073709551616 - b) + c + (18446744073709551616 - 1))
      % 18446744073709551616 &&& (1 <<< 32) ≠ 0) = decide (a + c < b + 1) := by
  have h2 := and_bit_ne_zero ((a + (18446744073709551616 - b) + c + (18446744073709551616 - 1))
      % 18446744073709551616) 32
  rw [Nat.testBit_to_div_mod] at h2
  simp only [Nat.reducePow, decide_eq_true_eq] at h2
  apply decide_eq_decide.mpr
  rw [h2]
  omega

/-- The lambda `doAdd` in arithmetic terms. -/
theorem doAdd_eq (s : AGBCPU) (a b c : Nat) (ha : a < 4294967296) (hb : b < 4294967296)
    (hc : c ≤ 1) :
    s.doAdd a b c = some ((a + b + c) % 4294967296,
      { s with
        cpsr := (s.cpsr &&& 0x0FFFFFFF)
          ||| flagIf (decide (2147483648 ≤ (a + b + c) % 4294967296)) Flag_N
          ||| flagIf (decide ((a + b + c) % 4294967296 = 0)) Flag_Z
          ||| flagIf (decide (4294967296 ≤ a + b + c)) Flag_C
          ||| flagIf (decide (i32 a + i32 b + (c : Int) ≠ i32 ((a + b + c) % 4294967296))) Flag_V }) := by
  have hr : (a + b + c) % 4294967296 < 4294967296 := Nat.mod_lt _ (by decide)
  have hcar : (decide ((a + b + c) % 4294967296 < a)
      || (decide ((a + b + c) % 4294967296 = a) && decide (c ≠ 0)))
      = decide (4294967296 ≤ a + b + c) := by
    rw [Bool.eq_iff_iff]
    simp only [Bool.or_eq_true, Bool.and_eq_true, decide_eq_true_eq]
    omega
  have hN : decide ((a + b + c) % 4294967296 &&& signBit ≠ 0)
      = decide (2147483648 ≤ (a + b + c) % 4294967296) :=
    decide_eq_decide.mpr (and_signBit _ hr)
  have hV : (!decide ((a ^^^ b) &&& signBit ≠ 0)
      && decide ((a ^^^ (a + b + c) % 4294967296) &&& signBit ≠ 0))
      = decide (i32 a + i32 b + (c : Int) ≠ i32 ((a + b + c) % 4294967296)) := by
    rw [Bool.eq_iff_iff]
    simp only [Bool.and_eq_true, Bool.not_eq_true', decide_eq_false_iff_not, decide_eq_true_eq,
      xor_signBit a b ha hb, xor_signBit a _ ha hr, i32]
    have e1 : a % 4294967296 = a := Nat.mod_eq_of_lt ha
    have e2 : b % 4294967296 = b := Nat.mod_eq_of_lt hb
    have e3 : (a + b + c) % 4294967296 % 4294967296 = (a + b + c) % 4294967296 :=
      Nat.mod_eq_of_lt hr
    rw [e1, e2, e3]
    split <;> split <;> split <;> omega
  unfold doAdd
  simp only [hcar, hN, hV, add_carry_bit a b c ha hb hc, ne_eq, not_true_eq_false, if_false]

/-- The lambda `doSub` in arithmetic terms. -/
theorem doSub_eq (s : AGBCPU) (a b c : Nat) (ha : a < 4294967296) (hb : b < 4294967296)
    (hc : c ≤ 1) :
    s.doSub a b c = some ((a + 4294967296 + c - b - 1) % 4294967296,
      { s with
        cpsr := (s.cpsr &&& 0x0FFFFFFF)
          ||| flagIf (decide (2147483648 ≤ (a + 4294967296 + c - b - 1) % 4294967296)) Flag_N
          ||| flagIf (decide ((a + 4294967296 + c - b - 1) % 4294967296 = 0)) Flag_Z
          ||| flagIf (decide (b + 1 ≤ a + c)) Flag_C
          ||| flagIf (decide (((a ^^^ b) &&& (a ^^^ (a + 4294967296 + c - b - 1) % 4294967296)
                &&& 0x80000000) ≠ 0)) Flag_V }) := by
  have hres : sub32 (sub32 a b + c) 1 = (a + 4294967296 + c - b - 1) % 4294967296 := by
    unfold sub32
    omega
  have hr : (a + 4294967296 + c - b - 1) % 4294967296 < 4294967296 := Nat.mod_lt _ (by decide)
  have hcar : (!(decide (b > a) || (decide (b = a) && decide (c = 0)))) = decide (b + 1 ≤ a + c) := by
    rw [Bool.eq_iff_iff]
    simp only [Bool.not_eq_true', Bool.or_eq_false_iff, Bool.and_eq_false_iff,
      decide_eq_false_iff_not, decide_eq_true_eq]
    omega
  have hbor : (!decide ((a + (18446744073709551616 - b) + c + (18446744073709551616 - 1))
      % 18446744073709551616 &&& (1 <<< 32) ≠ 0)) = decide (b + 1 ≤ a + c) := by
    rw [sub_borrow_bit a b c ha hb hc, Bool.eq_iff_iff]
    simp only [Bool.not_eq_true', decide_eq_false_iff_not, decide_eq_true_eq]
    omega
  have hN : decide ((a + 4294967296 + c - b - 1) % 4294967296 &&& signBit ≠ 0)
      = decide (2147483648 ≤ (a + 4294967296 + c - b - 1) % 4294967296) :=
    decide_eq_decide.mpr (and_signBit _ hr)
  have hV : (decide ((a ^^^ b) &&& signBit ≠ 0)
      && decide ((a ^^^ (a + 4294967296 + c - b - 1) % 4294967296) &&& signBit ≠ 0))
      = decide (((a ^^^ b) &&& (a ^^^ (a + 4294967296 + c - b - 1) % 4294967296)
              &&& 0x80000000) ≠ 0) := by
    rw [Bool.eq_iff_iff]
    simp only [Bool.and_eq_true, decide_eq_true_eq]
    have k1 := and_pow_ne_zero (a ^^^ b) 31
    have k2 := and_pow_ne_zero (a ^^^ (a + 4294967296 + c - b - 1) % 4294967296) 31
    have k3 := and_pow_ne_zero ((a ^^^ b) &&& (a ^^^ (a + 4294967296 + c - b - 1) % 4294967296)) 31
    simp only [Nat.reducePow] at k1 k2 k3
    rw [k1, k2, k3, Nat.testBit_and, Bool.and_eq_true]
  unfold doSub
  simp only [hres, hcar, hbor, hN, hV, ne_eq, not_true_eq_false, if_false]

/-- C11: for all 32-bit `a`, `b` and carry-in `c` in {0,1} the flag-setting add of
`doALUOp` returns `(a+b+c) mod 2^32` with C = (a+b+c ≥ 2^32) and V = signed overflow of
the addition, and the flag-setting subtract returns `(a-b+c-1) mod 2^32` with
C = (a-b+c-1 ≥ 0 over the integers) and V = ((a ^ b) & (a ^ res) & 0x80000000) ≠ 0, so
that for a plain `a-b` (c = 1) C = (b ≤ a); N and Z come from the result, the low 28 bits
of CPSR and every other field are unchanged, and neither carry assertion fails (both
helpers return). -/
theorem C11_add_sub_result_and_flags (s : AGBCPU) (a b c : Nat) (ha : a < 4294967296)
    (hb : b < 4294967296) (hc : c ≤ 1) :
    (∃ t, s.doAdd a b c = some ((a + b + c) % 4294967296, t) ∧
      t = { s with cpsr := t.cpsr } ∧ t.cpsr % 268435456 = s.cpsr % 268435456 ∧
      t.cpsr < 4294967296 ∧
      t.cpsr.testBit 31 = ((a + b + c) % 4294967296).testBit 31 ∧
      t.cpsr.testBit 30 = decide ((a + b + c) % 4294967296 = 0) ∧
      t.cpsr.testBit 29 = decide (4294967296 ≤ a + b + c) ∧
      t.cpsr.testBit 28 = decide (i32 a + i32 b + (c : Int) ≠ i32 ((a + b + c) % 4294967296))) ∧
    (∃ res t, s.doSub a b c = some (res, t) ∧
      res = (((a : Int) - b + c - 1) % 4294967296).toNat ∧
      t = { s with cpsr := t.cpsr } ∧ t.cpsr % 268435456 = s.cpsr % 268435456 ∧
      t.cpsr < 4294967296 ∧
      t.cpsr.testBit 31 = res.testBit 31 ∧
      t.cpsr.testBit 30 = decide (res = 0) ∧
      t.cpsr.testBit 29 = decide (0 ≤ (a : Int) - b + c - 1) ∧
      t.cpsr.testBit 28 = decide ((a ^^^ b) &&& (a ^^^ res) &&& 0x80000000 ≠ 0) ∧
      (c = 1 → res = (a + 4294967296 - b) % 4294967296 ∧ t.cpsr.testBit 29 = decide (b ≤ a))) := by
  constructor
  · refine ⟨_, doAdd_eq s a b c ha hb hc, rfl, ?_⟩
    obtain ⟨h1, h2, h3, h4, h5, h6⟩ := nzcv_assemble s.cpsr
      (decide (2147483648 ≤ (a + b + c) % 4294967296)) (decide ((a + b + c) % 4294967296 = 0))
      (decide (4294967296 ≤ a + b + c))
      (decide (i32 a + i32 b + (c : Int) ≠ i32 ((a + b + c) % 4294967296)))
    refine ⟨h1, h2, ?_, h4, h5, h6⟩
    rw [testBit31 _ (Nat.mod_lt _ (by decide))]
    exact h3
  · have hres : (((a : Int) - b + c - 1) % 4294967296).toNat
        = (a + 4294967296 + c - b - 1) % 4294967296 := by omega
    refine ⟨_, _, doSub_eq s a b c ha hb hc, hres.symm, rfl, ?_⟩
    obtain ⟨h1, h2, h3, h4, h5, h6⟩ := nzcv_assemble s.cpsr
      (decide (2147483648 ≤ (a + 4294967296 + c - b - 1) % 4294967296))
      (decide ((a + 4294967296 + c - b - 1) % 4294967296 = 0))
      (decide (b + 1 ≤ a + c))
      (decide (((a ^^^ b) &&& (a ^^^ (a + 4294967296 + c - b - 1) % 4294967296)
              &&& 0x80000000) ≠ 0))
    refine ⟨h1, h2, ?_, h4, ?_, h6, ?_⟩
    · rw [testBit31 _ (Nat.mod_lt _ (by decide))]
      exact h3
    · rw [h5]
      apply decide_eq_decide.mpr
      omega
    · intro hc1
      subst hc1
      refine ⟨by omega, ?_⟩
      rw [h5]
      apply decide_eq_decide.mpr
      omega

/-- C11 at `0x7FFFFFFF + 1 + 0` and `0 - 1`: both helpers return; the add gives
`0x80000000` without carry, the subtract borrows (C clear). -/
theorem C11_add_sub_witness :
    (∃ t, blank.doAdd 0x7FFFFFFF 1 0 = some ((0x7FFFFFFF + 1 + 0) % 4294967296, t) ∧
      t.cpsr.testBit 29 = decide (4294967296 ≤ 0x7FFFFFFF + 1 + 0)) ∧
    (∃ res t, blank.doSub 0 1 1 = some (res, t) ∧ t.cpsr.testBit 29 = decide (1 ≤ 0)) :=
  ⟨(C11_add_sub_result_and_flags blank 0x7FFFFFFF 1 0 (by decide) (by decide) (by decide)).1.elim
      fun t ht => ⟨t, ht.1, ht.2.2.2.2.2.2.1⟩,
   (C11_add_sub_result_and_flags blank 0 1 1 (by decide) (by decide) (by decide)).2.elim
      fun r hr => hr.elim fun t ht => ⟨r, t, ht.1, (ht.2.2.2.2.2.2.2.2.2 rfl).2⟩⟩

/-! ## The operand-2 shifter -/

theorem and_bit_eq_testBit (x i : Nat) : decide (x &&& (1 <<< i) ≠ 0) = x.testBit i := by
  rw [Bool.eq_iff_iff, decide_eq_true_eq]
  exact and_bit_ne_zero x i

theorem and_one_eq_testBit (x : Nat) : decide (x &&& 1 ≠ 0) = x.testBit 0 := by
  have h := and_bit_eq_testBit x 0
  exact h

theorem and_signBit_eq_testBit (x : Nat) : decide (x &&& signBit ≠ 0) = x.testBit 31 := by
  have h := and_bit_eq_testBit x 31
  simpa using h

set_option maxRecDepth 100000 in
theorem asr32_eq (x n : Nat) (hx : x < 4294967296) (hn : n < 32) :
    asr32 x n = x / 2 ^ n + (if x.testBit 31 then (2 ^ n - 1) * 2 ^ (32 - n) else 0) := by
  rw [testBit31 x hx]
  unfold asr32 i32 ofInt32
  have e : x % 4294967296 = x := Nat.mod_eq_of_lt hx
  rw [e]
  interval_cases n <;> simp only [Nat.reducePow, Nat.reduceSub, Nat.reduceMul, decide_eq_true_eq]
    <;> split <;> split <;> omega

theorem ror_value (mc : Bool) (x k : Nat) (hx : x < 4294967296) (hk : k < 32) :
    (x >>> k) ||| shl32 mc x (32 - (k : Int)) = x / 2 ^ k + x % 2 ^ k * 2 ^ (32 - k) := by
  by_cases h0 : k = 0
  · subst h0
    have h1 : shl32 mc x (32 - ((0 : Nat) : Int)) = if mc then x else 0 := by
      unfold shl32
      cases mc <;> simp [Nat.mod_eq_of_lt hx]
    rw [h1]
    cases mc <;> simp [Nat.mod_one]
  · have h1 : shl32 mc x (32 - (k : Int)) = (x <<< (32 - k)) % 4294967296 := by
      unfold shl32
      have hc : (0 : Int) ≤ 32 - (k : Int) ∧ 32 - (k : Int) < 32 := by omega
      rw [if_pos hc]
      have ht : (32 - (k : Int)).toNat = 32 - k := by omega
      rw [ht]
    rw [h1, Nat.shiftRight_eq_div_pow, Nat.shiftLeft_eq]
    have hp : (4294967296 : Nat) = 2 ^ k * 2 ^ (32 - k) := by
      rw [← Nat.pow_add]
      have : k + (32 - k) = 32 := by omega
      rw [this]
    have h2 : x * 2 ^ (32 - k) % 4294967296 = 2 ^ (32 - k) * (x % 2 ^ k) := by
      rw [hp, Nat.mul_mod_mul_right, Nat.mul_comm]
    rw [h2]
    have h3 : x / 2 ^ k < 2 ^ (32 - k) := by
      apply Nat.div_lt_of_lt_mul
      rw [← hp]
      exact hx
    rw [Nat.or_comm, ← Nat.mul_add_lt_is_or h3, Nat.add_comm, Nat.mul_comm]

theorem ror_carry (mc : Bool) (x k : Nat) (hx : x < 4294967296) (hk : k < 32) :
    ((x >>> k) ||| shl32 mc x (32 - (k : Int))).testBit 31 = x.testBit ((k + 31) % 32) := by
  by_cases h0 : k = 0
  · subst h0
    have h1 : shl32 mc x (32 - ((0 : Nat) : Int)) = if mc then x else 0 := by
      unfold shl32
      cases mc <;> simp [Nat.mod_eq_of_lt hx]
    rw [h1]
    cases mc <;> simp
  · have h1 : shl32 mc x (32 - (k : Int)) = (x <<< (32 - k)) % 2 ^ 32 := by
      unfold shl32
      have hc : (0 : Int) ≤ 32 - (k : Int) ∧ 32 - (k : Int) < 32 := by omega
      rw [if_pos hc]
      have ht : (32 - (k : Int)).toNat = 32 - k := by omega
      rw [ht]
      rfl
    rw [h1, Nat.testBit_or, Nat.testBit_shiftRight, Nat.testBit_mod_two_pow,
      Nat.testBit_shiftLeft]
    have h4 : x.testBit (k + 31) = false := by
      apply Nat.testBit_lt_two_pow
      apply Nat.lt_of_lt_of_le hx
      have e : (4294967296 : Nat) = 2 ^ 32 := by decide
      rw [e]
      exact Nat.pow_le_pow_right (by decide) (by omega)
    have h5 : (k + 31) % 32 = 31 - (32 - k) := by omega
    have h6 : 31 ≥ 32 - k := by omega
    rw [h4, h5]
    simp [h6]

theorem rrx_value (x : Nat) (hx : x < 4294967296) :
    (x >>> 1) ||| 0x80000000 = x / 2 + 2147483648 := by
  have h3 : x / 2 < 2 ^ 31 := by
    simp only [Nat.reducePow]
    omega
  have h := Nat.mul_add_lt_is_or h3 1
  simp only [Nat.reducePow, Nat.mul_one] at h
  rw [Nat.shiftRight_eq_div_pow, Nat.or_comm, ← h]
  omega
theorem shiftType_lt (shift : Nat) : (shift >>> 1) &&& 3 < 4 := by
  have h := Nat.and_pow_two_sub_one_eq_mod (shift >>> 1) 2
  simp only [Nat.reducePow, Nat.reduceSub] at h
  rw [h]
  exact Nat.mod_lt _ (by decide)

/-- The `switch(shiftType)` for an amount `n ≥ 1`, outside the RRX encoding, is the
reference shift. -/
theorem shiftSwitch_ref (mc : Bool) (cpsr x shift n : Nat) (hx : x < 4294967296)
    (hn : 1 ≤ n) (hrrx : ¬ (shift &&& 1 = 0 ∧ n = 32 ∧ (shift >>> 1) &&& 3 = 3)) :
    shiftSwitch mc cpsr x shift n = refShift (ShiftKind.ofField ((shift >>> 1) &&& 3)) x n := by
  have ht := shiftType_lt shift
  unfold shiftSwitch
  simp only []
  generalize (shift >>> 1) &&& 3 = t at ht hrrx ⊢
  have h31 : decide (x &&& (1 <<< 31) ≠ 0) = x.testBit 31 := and_bit_eq_testBit x 31
  interval_cases t
  · -- LSL
    simp only [ShiftKind.ofField, refShift, if_true]
    by_cases h1 : n ≥ 32
    · rw [if_pos h1, if_neg (by omega : ¬ n < 32)]
      by_cases h2 : n = 32
      · rw [if_pos h2, if_pos h2, and_one_eq_testBit]
      · rw [if_neg h2, if_neg h2]
    · rw [if_neg h1, if_pos (by omega : n < 32), Nat.shiftLeft_eq, and_bit_eq_testBit]
  · -- LSR
    simp only [ShiftKind.ofField, refShift, if_true, Nat.one_ne_zero, if_false]
    by_cases h1 : n ≥ 32
    · rw [if_pos h1, if_neg (by omega : ¬ n < 32)]
      by_cases h2 : n = 32
      · rw [if_pos h2, if_pos h2, h31]
      · rw [if_neg h2, if_neg h2]
    · rw [if_neg h1, if_pos (by omega : n < 32), Nat.shiftRight_eq_div_pow, and_bit_eq_testBit]
  · -- ASR
    simp only [ShiftKind.ofField, refShift, if_true, if_false, OfNat.ofNat_ne_zero,
      OfNat.ofNat_ne_one, Nat.reduceEqDiff]
    have hs : (x &&& signBit ≠ 0) ↔ x.testBit 31 = true := by
      rw [← and_signBit_eq_testBit, decide_eq_true_eq]
    by_cases h1 : n ≥ 32
    · rw [if_pos h1, if_neg (by omega : ¬ n < 32), and_signBit_eq_testBit]
      by_cases h2 : x.testBit 31 = true
      · rw [if_pos (hs.mpr h2), if_pos h2]
      · rw [if_neg (fun h => h2 (hs.mp h)), if_neg h2]
    · rw [if_neg h1, if_pos (by omega : n < 32), asr32_eq x n hx (by omega), and_bit_eq_testBit]
  · -- ROR
    simp only [ShiftKind.ofField, refShift, if_true, if_false, OfNat.ofNat_ne_zero,
      OfNat.ofNat_ne_one, Nat.reduceEqDiff]
    have hr : ¬ (shift &&& 1 = 0 ∧ n = 32) := fun h => hrrx ⟨h.1, h.2, rfl⟩
    rw [if_neg hr]
    have hm : n &&& 0x1F = n % 32 := by
      have h := Nat.and_pow_two_sub_one_eq_mod n 5
      simpa using h
    have hk : n % 32 < 32 := Nat.mod_lt _ (by decide)
    rw [hm, and_bit_eq_testBit, ror_carry mc x (n % 32) hx hk, ror_value mc x (n % 32) hx hk]
    have e : (n % 32 + 31) % 32 = (n - 1) % 32 := by omega
    rw [e]

/-- The `switch(shiftType)` for the RRX encoding (immediate ROR with amount field 0). -/
theorem shiftSwitch_rrx (mc : Bool) (cpsr x shift : Nat) (hx : x < 4294967296)
    (h1 : shift &&& 1 = 0) (h3 : (shift >>> 1) &&& 3 = 3) :
    shiftSwitch mc cpsr x shift 32
      = (x / 2 + (if cpsr &&& Flag_C ≠ 0 then 2147483648 else 0), x.testBit 0) := by
  unfold shiftSwitch
  simp only [h3, h1, and_self, if_true, if_false, OfNat.ofNat_ne_zero, OfNat.ofNat_ne_one,
    Nat.reduceEqDiff, and_one_eq_testBit]
  by_cases hc : cpsr &&& Flag_C ≠ 0
  · rw [if_pos hc, if_pos hc, rrx_value x hx]
  · rw [if_neg hc, if_neg hc, Nat.shiftRight_eq_div_pow]
    simp
theorem field_bit0 (shift : Nat) : shift &&& 1 = shift % 2 := Nat.and_one_is_mod shift

theorem field_type (shift : Nat) : (shift >>> 1) &&& 3 = shift / 2 % 4 := by
  have h := Nat.and_pow_two_sub_one_eq_mod (shift >>> 1) 2
  simp only [Nat.reducePow, Nat.reduceSub] at h
  rw [h, Nat.shiftRight_eq_div_pow]

theorem field_bit3 (shift : Nat) : shift &&& (1 <<< 3) ≠ 0 ↔ shift / 8 % 2 = 1 := by
  rw [and_bit_ne_zero, Nat.testBit_to_div_mod, decide_eq_true_eq]

/-- C12: for every 32-bit operand, carry-in and 8-bit shift field of a data-processing
operand 2 (a register-specified shift has bit 3 of the field clear, as the decoder
guarantees), `getShiftedReg` returns the value and the carry out of the reference barrel
shifter `barrelShifter`: LSL/LSR/ASR/ROR by 1..31 as usual; a register amount (low byte
of the register) of 0 returns operand and carry-in unchanged; an immediate amount of 0 is
LSL #0, LSR #32, ASR #32 and RRX; LSL and LSR by 32 give 0 with C = bit 0, respectively
bit 31, and by more give 0 with C = 0; ASR by 32 or more gives 32 copies of the sign with
C = sign; ROR by a non-zero multiple of 32 leaves the value unchanged with C = bit 31.
This holds for both host treatments of the over-wide shift in the rotate expression. -/
theorem C12_getShiftedReg_barrel_shifter (maskCount : Bool) (s : AGBCPU) (r shift : Nat)
    (hshift : shift < 256) (hvalid : shift &&& 1 ≠ 0 → shift &&& (1 <<< 3) = 0)
    (hx : s.reg r < 4294967296) :
    getShiftedReg maskCount s r shift = some (barrelShifter
      (if r = PC then (s.reg r + (if shift &&& 1 ≠ 0 then 8 else 4)) % 4294967296 else s.reg r)
      (decide (s.cpsr &&& Flag_C ≠ 0))
      (ShiftKind.ofField ((shift >>> 1) &&& 3))
      (if shift &&& 1 ≠ 0 then .reg (s.reg (shift >>> 4) &&& 0xFF) else .imm (shift >>> 3))) := by
  obtain ⟨x, hxdef⟩ : ∃ x, x = (if r = PC then
      (s.reg r + (if shift &&& 1 ≠ 0 then 8 else 4)) % 4294967296 else s.reg r) := ⟨_, rfl⟩
  have hx2 : x < 4294967296 := by
    rw [hxdef]
    split
    · exact Nat.mod_lt _ (by decide)
    · exact hx
  unfold getShiftedReg
  simp only []
  rw [← hxdef]
  have b0 := field_bit0 shift
  have ty := field_type shift
  have sh3 : shift >>> 3 = shift / 8 := by rw [Nat.shiftRight_eq_div_pow]
  by_cases h0 : shift = 0
  · subst h0
    simp [barrelShifter, ShiftKind.ofField]
  · rw [if_neg h0]
    by_cases h1 : shift &&& 1 ≠ 0
    · rw [if_pos h1, if_pos h1, if_neg (by rw [hvalid h1]; exact fun h => h rfl)]
      by_cases hn : s.reg (shift >>> 4) &&& 0xFF = 0
      · rw [if_pos hn, hn]
        simp [barrelShifter]
      · rw [if_neg hn]
        simp only [barrelShifter, if_neg hn]
        rw [shiftSwitch_ref maskCount s.cpsr x shift _ hx2 (by omega) (fun h => h1 h.1)]
    · rw [if_neg h1, if_neg h1]
      have h1' : shift &&& 1 = 0 := by simpa using h1
      by_cases hn : shift >>> 3 = 0
      · rw [if_pos hn, hn]
        have hty : (shift >>> 1) &&& 3 ≠ 0 := by
          rw [ty]; rw [b0] at h1'; rw [sh3] at hn; omega
        have ht := shiftType_lt shift
        by_cases h3 : (shift >>> 1) &&& 3 = 3
        · rw [shiftSwitch_rrx maskCount s.cpsr x shift hx2 h1' h3, h3]
          simp only [barrelShifter, ShiftKind.ofField, ne_eq, not_true_eq_false, if_false,
            OfNat.ofNat_ne_zero, OfNat.ofNat_ne_one, Nat.reduceEqDiff, decide_eq_true_eq]
        · rw [shiftSwitch_ref maskCount s.cpsr x shift 32 hx2 (by decide) (fun h => h3 h.2.2)]
          generalize (shift >>> 1) &&& 3 = t at hty h3 ht
          interval_cases t
          · exact absurd rfl hty
          · simp [barrelShifter, ShiftKind.ofField]
          · simp [barrelShifter, ShiftKind.ofField]
          · exact absurd rfl h3
      · rw [if_neg hn]
        simp only [barrelShifter, if_pos hn, ne_eq, hn, not_false_eq_true, if_true]
        rw [shiftSwitch_ref maskCount s.cpsr x shift _ hx2 (by omega)
          (fun h => by rw [sh3] at h; omega)]

/-- C12 on the machine after reset with R0 = 0x80000001: `R0, ROR R1` with R1 = 32 (shift
field 0x17) leaves the value unchanged with carry bit 31. -/
theorem C12_getShiftedReg_witness :
    getShiftedReg true (((bootWith []).setReg 0 0x80000001).setReg 1 32) 0 0x17
      = some (0x80000001, true) :=
  (C12_getShiftedReg_barrel_shifter true (((bootWith []).setReg 0 0x80000001).setReg 1 32)
    0 0x17 (by decide) (by decide) (by decide)).trans (by decide)

/-! ## Executing `MOV R0, R0, LSR #32` -/

theorem fetchARM_state (s s1 : AGBCPU) (op : Nat) (h : s.fetchARM = some (op, s1)) :
    s1 = { s with armPCPtr := s.armPCPtr.map fun p => { p with off := p.off + 4 } } := by
  unfold fetchARM at h
  split at h
  · split at h
    · simp only [Option.some.injEq, Prod.mk.injEq] at h
      exact h.2.symm
    · cases h
  · cases h

theorem mapReg_low (s : AGBCPU) (r : Nat) (h : r < 8) : s.mapReg r = r := by
  unfold mapReg
  rw [if_neg (by omega), if_neg (by omega), if_neg (by omega)]

@[simp] theorem cpsr_setLoReg (s : AGBCPU) (r v : Nat) : (s.setLoReg r v).cpsr = s.cpsr := rfl

@[simp] theorem cpsr_setReg (s : AGBCPU) (r v : Nat) : (s.setReg r v).cpsr = s.cpsr := rfl

@[simp] theorem pcSCycles_setLoReg (s : AGBCPU) (r v : Nat) :
    (s.setLoReg r v).pcSCycles = s.pcSCycles := rfl

@[simp] theorem pcSCycles_setReg (s : AGBCPU) (r v : Nat) :
    (s.setReg r v).pcSCycles = s.pcSCycles := rfl

@[simp] theorem mapReg_setLoReg (s : AGBCPU) (r v i : Nat) :
    (s.setLoReg r v).mapReg i = s.mapReg i := rfl

@[simp] theorem mapReg_setReg (s : AGBCPU) (r v i : Nat) :
    (s.setReg r v).mapReg i = s.mapReg i := rfl

theorem loReg_setLoReg (s : AGBCPU) (r v i : Nat) :
    (s.setLoReg r v).loReg i = if i = r then v % 4294967296 else s.loReg i := rfl

theorem reg_setReg_self (s : AGBCPU) (r v : Nat) : (s.setReg r v).reg r = v % 4294967296 := by
  unfold reg setReg
  rw [mapReg_setLoReg]
  show (s.setLoReg (s.mapReg r) v).loReg (s.mapReg r) = _
  rw [loReg_setLoReg, if_pos rfl]

/-- The N, Z, C bits and the low 29 bits of a CPSR after the flag update of the logical
operations of `doALUOp`. -/
theorem logicFlags_bits (s : AGBCPU) (res : Nat) (carry : Bool) (hres : res < 4294967296) :
    (s.logicFlags res carry).cpsr % 536870912 = s.cpsr % 536870912 ∧
    (s.logicFlags res carry).cpsr.testBit 31 = res.testBit 31 ∧
    (s.logicFlags res carry).cpsr.testBit 30 = decide (res = 0) ∧
    (s.logicFlags res carry).cpsr.testBit 29 = carry := by
  have hm : bnot32 (Flag_N ||| Flag_Z ||| Flag_C) = 2 ^ 29 - 1 := by decide
  have hZ : Flag_Z = 2 ^ 30 := by decide
  have hC : Flag_C = 2 ^ 29 := by decide
  have hbit : ∀ i, (s.logicFlags res carry).cpsr.testBit i
      = ((s.cpsr.testBit i && decide (i < 29)) || (res.testBit i && decide (31 = i))
        || (decide (res = 0) && decide (30 = i)) || (carry && decide (29 = i))) := by
    intro i
    show ((s.cpsr &&& bnot32 (Flag_N ||| Flag_Z ||| Flag_C)) ||| (res &&& signBit)
      ||| flagIf (decide (res = 0)) Flag_Z ||| flagIf carry Flag_C).testBit i = _
    rw [hm, hZ, hC]
    simp only [Nat.testBit_or, Nat.testBit_and, flagIf_testBit, Nat.testBit_two_pow_sub_one]
    rw [show Nat.testBit signBit i = decide (31 = i) from testBit_signBit i]
  refine ⟨?_, ?_, ?_, ?_⟩
  · apply Nat.eq_of_testBit_eq
    intro i
    have e : (536870912 : Nat) = 2 ^ 29 := by decide
    rw [e, Nat.testBit_mod_two_pow, Nat.testBit_mod_two_pow, hbit]
    by_cases hi : i < 29
    · have h1 : ¬ 31 = i := by omega
      have h2 : ¬ 30 = i := by omega
      have h3 : ¬ 29 = i := by omega
      simp [hi, h1, h2, h3]
    · simp [hi]
  · rw [hbit]; simp
  · rw [hbit]; simp
  · rw [hbit]; simp

@[simp] theorem pcSCycles_logicFlags (s : AGBCPU) (res : Nat) (c : Bool) :
    (s.logicFlags res c).pcSCycles = s.pcSCycles := rfl

theorem reg0_setLoReg_PC (s : AGBCPU) (v : Nat) : (s.setLoReg PC v).reg 0 = s.reg 0 := by
  unfold reg
  rw [mapReg_setLoReg, mapReg_low s 0 (by decide)]
  show (s.setLoReg PC v).loReg 0 = _
  rw [loReg_setLoReg, if_neg (by decide)]
  rfl

theorem not_and_signBit_zero (x : Nat) : (!decide (x &&& 2147483648 = 0)) = x.testBit 31 := by
  rw [← and_signBit_eq_testBit x]
  show _ = decide (¬ (x &&& 2147483648 = 0))
  simp

theorem arm_mov_lsr32 (mc : Bool) (s s1 : AGBCPU) (h : s.fetchARM = some (0xE1A00020, s1)) :
    executeARMInstruction mc s = some (s1.pcSCycles,
      ((s1.setLoReg PC (s1.loReg PC + 4)).setReg 0 0)) := by
  have e1 : (225 &&& 15 : Nat) = 1 := by decide
  have e2 : (3785359392 &&& 268435200 : Nat) ≠ 19922688 := by decide
  have e3 : (236584962 &&& 9 : Nat) ≠ 9 := by decide
  have e4 : (1805 &&& 15 : Nat) = 13 := by decide
  have e5 : (3785359392 &&& 1048576 : Nat) = 0 := by decide
  have e6 : (236584962 &&& 255 : Nat) = 2 := by decide
  have e7 : (3785359392 &&& 15 : Nat) = 0 := by decide
  have e8 : (57760 &&& 15 : Nat) = 0 := by decide
  have e9 : (924160 &&& 15 : Nat) = 0 := by decide
  unfold executeARMInstruction
  rw [h]
  simp [condSkips, armCase1, armRegOperand, getShiftedReg, shiftSwitch, doDataProcessing,
    doALUOpNoCond, bitSet, e1, e2, e3, e4, e5, e6, e7, e8, e9]

theorem arm_movs_lsr32 (mc : Bool) (s s1 : AGBCPU) (h : s.fetchARM = some (0xE1B00020, s1)) :
    executeARMInstruction mc s = some (s1.pcSCycles,
      ((s1.setLoReg PC (s1.loReg PC + 4)).setReg 0 0).logicFlags 0 ((s1.reg 0).testBit 31)) := by
  have e1 : (225 &&& 15 : Nat) = 1 := by decide
  have e2 : (3786407968 &&& 268435200 : Nat) ≠ 19922688 := by decide
  have e3 : (236650498 &&& 9 : Nat) ≠ 9 := by decide
  have e4 : (1805 &&& 15 : Nat) = 13 := by decide
  have e5 : (3786407968 &&& 1048576 : Nat) ≠ 0 := by decide
  have e6 : (236650498 &&& 255 : Nat) = 2 := by decide
  have e7 : (3786407968 &&& 15 : Nat) = 0 := by decide
  have e8 : (57776 &&& 15 : Nat) = 0 := by decide
  have e9 : (924416 &&& 15 : Nat) = 0 := by decide
  unfold executeARMInstruction
  rw [h]
  simp [condSkips, armCase1, armRegOperand, getShiftedReg, shiftSwitch, doDataProcessing,
    doALUOp, bitSet, e1, e2, e3, e4, e5, e6, e7, e8, e9, reg0_setLoReg_PC, not_and_signBit_zero]

/-- C13 (refuted as written): on the machine after reset with R0 = 0x80000000 and the
opcode 0xE1A00020 (`MOV R0, R0, LSR #32`, S bit clear) at the PC, the instruction
completes with R0 = 0 but leaves the C flag clear, although bit 31 of the previous R0 is
set. -/
theorem C13_counterexample_mov_keeps_carry :
    (((bootWith [0xE1A00020]).setReg 0 0x80000000).reg 0).testBit 31 = true ∧
    ((bootWith [0xE1A00020]).setReg 0 0x80000000).cpsr = 0xD3 ∧
    (∀ mc, (executeARMInstruction mc ((bootWith [0xE1A00020]).setReg 0 0x80000000)).map
      (fun r => (r.2.reg 0, r.2.cpsr, r.2.cpsr.testBit 29)) = some (0, 0xD3, false)) := by
  decide

theorem fetchARM_of_opcode (s : AGBCPU) (op : Nat) (h : s.fetchARM.map Prod.fst = some op) :
    ∃ s1, s.fetchARM = some (op, s1) ∧
      s1 = { s with armPCPtr := s.armPCPtr.map fun p => { p with off := p.off + 4 } } := by
  cases hf : s.fetchARM with
  | none => rw [hf] at h; cases h
  | some r =>
    obtain ⟨o, s1⟩ := r
    rw [hf] at h
    simp only [Option.map_some', Option.some.injEq] at h
    subst h
    exact ⟨s1, rfl, fetchARM_state s s1 _ hf⟩

/-- C13 (amended): for every previous value of R0, executing `MOV R0, R0, LSR #32`
(0xE1A00020: LSR immediate field 0, S bit clear) sets R0 to 0 and leaves CPSR unchanged;
the flag-setting form `MOVS R0, R0, LSR #32` (0xE1B00020) sets R0 to 0 and sets the C
flag to bit 31 of the previous R0 (with N clear, Z set and the low 29 bits of CPSR, V
included, unchanged).  Both return the fetch S-cycle count. -/
theorem C13_mov_lsr32_result_and_carry (mc : Bool) (s : AGBCPU) :
    (s.fetchARM.map Prod.fst = some 0xE1A00020 →
      ∃ t, executeARMInstruction mc s = some (s.pcSCycles, t) ∧ t.reg 0 = 0 ∧ t.cpsr = s.cpsr) ∧
    (s.fetchARM.map Prod.fst = some 0xE1B00020 →
      ∃ t, executeARMInstruction mc s = some (s.pcSCycles, t) ∧ t.reg 0 = 0 ∧
        t.cpsr.testBit 29 = (s.reg 0).testBit 31 ∧ t.cpsr.testBit 30 = true ∧
        t.cpsr.testBit 31 = false ∧ t.cpsr % 536870912 = s.cpsr % 536870912) := by
  constructor
  · intro h
    obtain ⟨s1, hf, hs1⟩ := fetchARM_of_opcode s _ h
    have e := arm_mov_lsr32 mc s s1 hf
    have ec : s1.pcSCycles = s.pcSCycles := by rw [hs1]
    rw [ec] at e
    refine ⟨_, e, reg_setReg_self _ 0 0, ?_⟩
    rw [hs1]; rfl
  · intro h
    obtain ⟨s1, hf, hs1⟩ := fetchARM_of_opcode s _ h
    have e := arm_movs_lsr32 mc s s1 hf
    have ec : s1.pcSCycles = s.pcSCycles := by rw [hs1]
    rw [ec] at e
    obtain ⟨b1, b2, b3, b4⟩ := logicFlags_bits ((s1.setLoReg PC (s1.loReg PC + 4)).setReg 0 0) 0
      ((s1.reg 0).testBit 31) (by decide)
    refine ⟨_, e, ?_, ?_, ?_, ?_, ?_⟩
    · exact reg_setReg_self (s1.setLoReg PC (s1.loReg PC + 4)) 0 0
    · rw [b4, hs1]; rfl
    · rw [b3]; rfl
    · rw [b2]; rfl
    · rw [b1, hs1]; rfl

/-- C13 (amended) on the machine after reset with R0 = 0x80000000: `MOV R0, R0, LSR #32`
completes with R0 = 0 and CPSR as before. -/
theorem C13_mov_lsr32_witness :
    ∃ t, executeARMInstruction false ((bootWith [0xE1A00020]).setReg 0 0x80000000)
        = some (((bootWith [0xE1A00020]).setReg 0 0x80000000).pcSCycles, t) ∧
      t.reg 0 = 0 ∧ t.cpsr = ((bootWith [0xE1A00020]).setReg 0 0x80000000).cpsr :=
  (C13_mov_lsr32_result_and_carry false ((bootWith [0xE1A00020]).setReg 0 0x80000000)).1
    (by decide)

/-! ## THUMB format 4: shifts by a register amount -/

/-- C14 (the code breaks it for ASR): in system mode with CPSR = 0x3F, `ASR R0, R1`
(0x4108) with R0 = 0x80 and R1 = 8 gives R0 = 0 and CPSR = 0x400000BF: the helper ORs the
raw bit `op1 & (1 << (op2 - 1))` = 0x80 into CPSR, so the I bit is set and the C flag
stays clear although the last bit shifted out is 1.  The sibling `LSR R0, R1` (0x40C8) on
the same registers gives CPSR = 0x6000003F, Z and C set and nothing else changed. -/
theorem C14_thumb_asr_raw_carry_into_cpsr :
    (((thumbWith [0x4108]).setReg 0 0x80).setReg 1 8).cpsr = 0x3F ∧
    (∀ mc, (executeTHUMBInstruction mc (((thumbWith [0x4108]).setReg 0 0x80).setReg 1 8)).map
      (fun r => (r.2.reg 0, r.2.cpsr, r.2.cpsr.testBit 29, r.2.cpsr.testBit 7))
        = some (0, 0x400000BF, false, true)) ∧
    (∀ mc, (executeTHUMBInstruction mc (((thumbWith [0x40C8]).setReg 0 0x80).setReg 1 8)).map
      (fun r => (r.2.reg 0, r.2.cpsr)) = some (0, 0x6000003F)) := by
  decide

/-! ## Multiplies -/

/-- The N and Z bits and the low 30 bits of a CPSR assembled as
`(cpsr & ~(Flag_N | Flag_Z)) | N | Z`. -/
theorem nz_assemble (x : Nat) (n z : Bool) :
    let w := (x &&& bnot32 (Flag_N ||| Flag_Z)) ||| flagIf n Flag_N ||| flagIf z Flag_Z
    w % 1073741824 = x % 1073741824 ∧ w.testBit 31 = n ∧ w.testBit 30 = z := by
  intro w
  have hm : bnot32 (Flag_N ||| Flag_Z) = 2 ^ 30 - 1 := by decide
  have hN : Flag_N = 2 ^ 31 := by decide
  have hZ : Flag_Z = 2 ^ 30 := by decide
  have hbit : ∀ i, w.testBit i = ((x.testBit i && decide (i < 30)) || (n && decide (31 = i))
      || (z && decide (30 = i))) := by
    intro i
    show ((x &&& bnot32 (Flag_N ||| Flag_Z)) ||| flagIf n Flag_N ||| flagIf z Flag_Z).testBit i = _
    rw [hm, hN, hZ]
    simp only [Nat.testBit_or, Nat.testBit_and, flagIf_testBit, Nat.testBit_two_pow_sub_one]
  refine ⟨?_, ?_, ?_⟩
  · apply Nat.eq_of_testBit_eq
    intro i
    have e : (1073741824 : Nat) = 2 ^ 30 := by decide
    rw [e, Nat.testBit_mod_two_pow, Nat.testBit_mod_two_pow, hbit]
    by_cases hi : i < 30
    · have h1 : ¬ 31 = i := by omega
      have h2 : ¬ 30 = i := by omega
      simp [hi, h1, h2]
    · simp [hi]
  · rw [hbit]; simp
  · rw [hbit]; simp

/-- The N and Z bits and the low 30 bits of a CPSR after the flag update of the THUMB
format 4 logical operations and MUL. -/
theorem nzFlags_bits (s : AGBCPU) (res : Nat) :
    (s.nzFlags res).cpsr % 1073741824 = s.cpsr % 1073741824 ∧
    (s.nzFlags res).cpsr.testBit 31 = res.testBit 31 ∧
    (s.nzFlags res).cpsr.testBit 30 = decide (res = 0) := by
  have hm : bnot32 (Flag_N ||| Flag_Z) = 2 ^ 30 - 1 := by decide
  have hZ : Flag_Z = 2 ^ 30 := by decide
  have hbit : ∀ i, (s.nzFlags res).cpsr.testBit i
      = ((s.cpsr.testBit i && decide (i < 30)) || (res.testBit i && decide (31 = i))
        || (decide (res = 0) && decide (30 = i))) := by
    intro i
    show ((s.cpsr &&& bnot32 (Flag_N ||| Flag_Z)) ||| (res &&& signBit)
      ||| flagIf (decide (res = 0)) Flag_Z).testBit i = _
    rw [hm, hZ]
    simp only [Nat.testBit_or, Nat.testBit_and, flagIf_testBit, Nat.testBit_two_pow_sub_one]
    rw [show Nat.testBit signBit i = decide (31 = i) from testBit_signBit i]
  refine ⟨?_, ?_, ?_⟩
  · apply Nat.eq_of_testBit_eq
    intro i
    have e : (1073741824 : Nat) = 2 ^ 30 := by decide
    rw [e, Nat.testBit_mod_two_pow, Nat.testBit_mod_two_pow, hbit]
    by_cases hi : i < 30
    · have h1 : ¬ 31 = i := by omega
      have h2 : ¬ 30 = i := by omega
      simp [hi, h1, h2]
    · simp [hi]
  · rw [hbit]; simp
  · rw [hbit]; simp

theorem reg_cpsr_update (s : AGBCPU) (c r : Nat) :
    ({ s with cpsr := c } : AGBCPU).reg r = s.reg r := rfl

theorem reg_setReg_other (s : AGBCPU) (r r' v : Nat) (h : s.mapReg r' ≠ s.mapReg r) :
    (s.setReg r v).reg r' = s.reg r' := by
  unfold reg setReg
  rw [mapReg_setLoReg]
  show (s.setLoReg (s.mapReg r) v).loReg (s.mapReg r') = _
  rw [loReg_setLoReg, if_neg h]
  rfl

/-- ARM MUL/MLA with the S bit: the result, the N and Z flags and the untouched rest of
CPSR. -/
theorem armMultiply_flags (s : AGBCPU) (opcode : Nat) (hS : bitSet opcode 20 = true)
    (hA : bitSet opcode 21 = false → (opcode >>> 12) &&& 0xF = 0) :
    ∃ c t, s.armMultiply opcode = some (c, t) ∧
      t.reg ((opcode >>> 16) &&& 0xF)
        = (s.reg (opcode &&& 0xF) * s.reg ((opcode >>> 8) &&& 0xF)
            + (if bitSet opcode 21 then s.reg ((opcode >>> 12) &&& 0xF) else 0)) % 4294967296 ∧
      t.cpsr.testBit 31 = (t.reg ((opcode >>> 16) &&& 0xF)).testBit 31 ∧
      t.cpsr.testBit 30 = decide (t.reg ((opcode >>> 16) &&& 0xF) = 0) ∧
      t.cpsr % 1073741824 = s.cpsr % 1073741824 := by
  obtain ⟨res, hres⟩ : ∃ res, res = (s.reg (opcode &&& 0xF) * s.reg ((opcode >>> 8) &&& 0xF)
            + (if bitSet opcode 21 then s.reg ((opcode >>> 12) &&& 0xF) else 0)) % 4294967296 :=
    ⟨_, rfl⟩
  have hlt : res < 4294967296 := by rw [hres]; exact Nat.mod_lt _ (by decide)
  have hdef : (if bitSet opcode 21 = true then
      (s.reg (opcode &&& 0xF) * s.reg ((opcode >>> 8) &&& 0xF) % 4294967296
        + s.reg ((opcode >>> 12) &&& 0xF)) % 4294967296
      else s.reg (opcode &&& 0xF) * s.reg ((opcode >>> 8) &&& 0xF) % 4294967296) = res := by
    rw [hres]
    split
    · omega
    · omega
  have hassert : ¬ ((!bitSet opcode 21) = true ∧ (opcode >>> 12) &&& 0xF ≠ 0) := by
    intro h
    cases hb : bitSet opcode 21 with
    | true => rw [hb] at h; simp at h
    | false => exact h.2 (hA hb)
  obtain ⟨n1, n2, n3⟩ := nz_assemble s.cpsr (decide (res &&& signBit ≠ 0)) (decide (res = 0))
  unfold armMultiply
  simp only [hS, if_true, hassert, if_false, hdef]
  refine ⟨_, _, rfl, ?_, ?_, ?_, ?_⟩
  · rw [reg_cpsr_update]
    rw [← hres, reg_setReg_self, Nat.mod_eq_of_lt hlt]
  · rw [reg_cpsr_update, reg_setReg_self, Nat.mod_eq_of_lt hlt]
    show ((s.cpsr &&& bnot32 (Flag_N ||| Flag_Z)) ||| flagIf (decide (res &&& signBit ≠ 0)) Flag_N
      ||| flagIf (decide (res = 0)) Flag_Z).testBit 31 = _
    rw [n2, and_signBit_eq_testBit]
  · rw [reg_cpsr_update, reg_setReg_self, Nat.mod_eq_of_lt hlt]
    exact n3
  · exact n1

theorem shl32_or (hi lo : Nat) (hlo : lo < 4294967296) :
    (hi <<< 32) ||| lo = hi * 4294967296 + lo := by
  have h := Nat.mul_add_lt_is_or (show lo < 2 ^ 32 from hlo) hi
  rw [Nat.shiftLeft_eq, Nat.mul_comm hi, ← h]

/-- ARM UMULL/SMULL/UMLAL/SMLAL with the S bit: the 64-bit result in RdHi:RdLo, the N and
Z flags and the untouched rest of CPSR. -/
theorem armMultiplyLong_flags (s : AGBCPU) (opcode : Nat) (hS : bitSet opcode 20 = true)
    (h1 : s.reg (opcode &&& 0xF) < 4294967296)
    (h2 : s.reg ((opcode >>> 8) &&& 0xF) < 4294967296)
    (h3 : s.reg ((opcode >>> 12) &&& 0xF) < 4294967296) :
    ∃ res, res = ((if bitSet opcode 22 then
          ((i32 (s.reg (opcode &&& 0xF)) * i32 (s.reg ((opcode >>> 8) &&& 0xF)))
            % 18446744073709551616).toNat
          else s.reg (opcode &&& 0xF) * s.reg ((opcode >>> 8) &&& 0xF))
        + (if bitSet opcode 21 then
          s.reg ((opcode >>> 16) &&& 0xF) * 4294967296 + s.reg ((opcode >>> 12) &&& 0xF) else 0))
        % 18446744073709551616 ∧
      (s.armMultiplyLong opcode).2.reg ((opcode >>> 12) &&& 0xF) = res % 4294967296 ∧
      (s.mapReg ((opcode >>> 16) &&& 0xF) ≠ s.mapReg ((opcode >>> 12) &&& 0xF) →
        (s.armMultiplyLong opcode).2.reg ((opcode >>> 16) &&& 0xF) = res / 4294967296) ∧
      (s.armMultiplyLong opcode).2.cpsr.testBit 31 = res.testBit 63 ∧
      (s.armMultiplyLong opcode).2.cpsr.testBit 30 = decide (res = 0) ∧
      (s.armMultiplyLong opcode).2.cpsr % 1073741824 = s.cpsr % 1073741824 := by
  refine ⟨_, rfl, ?_⟩
  obtain ⟨p, hp⟩ : ∃ p, p = (if bitSet opcode 22 then
          ((i32 (s.reg (opcode &&& 0xF)) * i32 (s.reg ((opcode >>> 8) &&& 0xF)))
            % 18446744073709551616).toNat
          else s.reg (opcode &&& 0xF) * s.reg ((opcode >>> 8) &&& 0xF)) := ⟨_, rfl⟩
  have hplt : p < 18446744073709551616 := by
    rw [hp]
    split
    · omega
    · have := Nat.mul_lt_mul'' h1 h2
      omega
  rw [← hp]
  obtain ⟨res, hres⟩ : ∃ res, res = (p + (if bitSet opcode 21 then
      s.reg ((opcode >>> 16) &&& 0xF) * 4294967296 + s.reg ((opcode >>> 12) &&& 0xF) else 0))
        % 18446744073709551616 := ⟨_, rfl⟩
  rw [← hres]
  have hlt : res < 18446744073709551616 := by rw [hres]; exact Nat.mod_lt _ (by decide)
  have hdef : (if bitSet opcode 21 = true then
      (p + ((s.reg ((opcode >>> 16) &&& 0xF) <<< 32) ||| s.reg ((opcode >>> 12) &&& 0xF)))
        % 18446744073709551616 else p) = res := by
    rw [hres, shl32_or _ _ h3]
    split
    · rfl
    · rw [Nat.add_zero, Nat.mod_eq_of_lt hplt]
  have hlo : res &&& 0xFFFFFFFF = res % 4294967296 := by
    have h := Nat.and_pow_two_sub_one_eq_mod res 32
    simpa using h
  have hhi : (res >>> 32) % 4294967296 = res / 4294967296 := by
    rw [Nat.shiftRight_eq_div_pow]
    apply Nat.mod_eq_of_lt
    simp only [Nat.reducePow]
    omega
  have h63 : decide (res &&& (1 <<< 63) ≠ 0) = res.testBit 63 := and_bit_eq_testBit res 63
  obtain ⟨n1, n2, n3⟩ := nz_assemble s.cpsr (res.testBit 63) (decide (res = 0))
  unfold armMultiplyLong
  simp only [hS, if_true, ← hp, hdef, h63]
  refine ⟨?_, ?_, n2, n3, n1⟩
  · rw [reg_cpsr_update, reg_setReg_self, hlo, Nat.mod_mod]
  · intro hne
    rw [reg_cpsr_update, reg_setReg_other _ _ _ _ (by simpa using hne), reg_setReg_self, hhi]

/-- THUMB MUL: the result, the N and Z flags and the untouched rest of CPSR. -/
theorem thumbMul_flags (mc : Bool) (s : AGBCPU) (opcode : Nat) (hop : (opcode >>> 6) &&& 0xF = 0xD) :
    ∃ c t, doTHUMB04ALU mc s opcode = some (c, t) ∧
      t.reg (opcode &&& 7) = (s.loReg (opcode &&& 7) * s.loReg ((opcode >>> 3) &&& 7)) % 4294967296 ∧
      t.cpsr.testBit 31 = (t.reg (opcode &&& 7)).testBit 31 ∧
      t.cpsr.testBit 30 = decide (t.reg (opcode &&& 7) = 0) ∧
      t.cpsr % 1073741824 = s.cpsr % 1073741824 := by
  obtain ⟨res, hres⟩ : ∃ res, res
      = (s.loReg (opcode &&& 7) * s.loReg ((opcode >>> 3) &&& 7)) % 4294967296 := ⟨_, rfl⟩
  have hlt : res < 4294967296 := by rw [hres]; exact Nat.mod_lt _ (by decide)
  obtain ⟨n1, n2, n3⟩ := nzFlags_bits (s.setReg (opcode &&& 7) res) res
  have hreg : ((s.setReg (opcode &&& 7) res).nzFlags res).reg (opcode &&& 7) = res := by
    show (s.setReg (opcode &&& 7) res).reg (opcode &&& 7) = res
    rw [reg_setReg_self, Nat.mod_eq_of_lt hlt]
  unfold doTHUMB04ALU
  simp only [hop, ← hres]
  refine ⟨_, _, rfl, hreg, ?_, ?_, ?_⟩
  · rw [hreg]; exact n2
  · rw [hreg]; exact n3
  · exact n1

/-- C15 (refuted as written): with the C flag set beforehand, `MULS R0, R1, R2`
(0xE0100291), `UMULLS R0, R1, R2, R3` (0xE0910392) and THUMB `MUL R0, R1` (0x4348)
complete with the product written and the C flag still set: the multiplies do not clear
C. -/
theorem C15_counterexample_multiply_keeps_carry :
    (∀ mc, (executeARMInstruction mc
        ({ ((bootWith [0xE0100291]).setReg 1 3).setReg 2 5 with cpsr := 0x200000D3 } : AGBCPU)).map
      (fun r => (r.2.reg 0, r.2.cpsr, r.2.cpsr.testBit 29)) = some (15, 0x200000D3, true)) ∧
    (∀ mc, (executeARMInstruction mc
        ({ ((bootWith [0xE0910392]).setReg 2 3).setReg 3 5 with cpsr := 0x200000D3 } : AGBCPU)).map
      (fun r => (r.2.reg 0, r.2.reg 1, r.2.cpsr.testBit 29)) = some (15, 0, true)) ∧
    (∀ mc, (executeTHUMBInstruction mc
        ({ ((thumbWith [0x4348]).setReg 0 3).setReg 1 5 with cpsr := 0x2000003F } : AGBCPU)).map
      (fun r => (r.2.reg 0, r.2.cpsr, r.2.cpsr.testBit 29)) = some (15, 0x2000003F, true)) := by
  decide

/-- C15 (amended): ARM MUL/MLA and UMULL/SMULL/UMLAL/SMLAL with the S bit, and THUMB MUL,
write the product (plus accumulator where applicable) modulo 2^32, respectively 2^64 (low
word in RdLo, high word in RdHi), set N and Z from that result and leave every other CPSR
bit unchanged, C and V included. -/
theorem C15_multiply_result_and_flags (mc : Bool) (s : AGBCPU) (opcode : Nat) :
    (bitSet opcode 20 = true → (bitSet opcode 21 = false → (opcode >>> 12) &&& 0xF = 0) →
      ∃ c t, s.armMultiply opcode = some (c, t) ∧
        t.reg ((opcode >>> 16) &&& 0xF)
          = (s.reg (opcode &&& 0xF) * s.reg ((opcode >>> 8) &&& 0xF)
              + (if bitSet opcode 21 then s.reg ((opcode >>> 12) &&& 0xF) else 0)) % 4294967296 ∧
        t.cpsr.testBit 31 = (t.reg ((opcode >>> 16) &&& 0xF)).testBit 31 ∧
        t.cpsr.testBit 30 = decide (t.reg ((opcode >>> 16) &&& 0xF) = 0) ∧
        t.cpsr % 1073741824 = s.cpsr % 1073741824) ∧
    (bitSet opcode 20 = true → s.reg (opcode &&& 0xF) < 4294967296 →
      s.reg ((opcode >>> 8) &&& 0xF) < 4294967296 → s.reg ((opcode >>> 12) &&& 0xF) < 4294967296 →
      ∃ res, res = ((if bitSet opcode 22 then
            ((i32 (s.reg (opcode &&& 0xF)) * i32 (s.reg ((opcode >>> 8) &&& 0xF)))
              % 18446744073709551616).toNat
            else s.reg (opcode &&& 0xF) * s.reg ((opcode >>> 8) &&& 0xF))
          + (if bitSet opcode 21 then
            s.reg ((opcode >>> 16) &&& 0xF) * 4294967296 + s.reg ((opcode >>> 12) &&& 0xF) else 0))
          % 18446744073709551616 ∧
        (s.armMultiplyLong opcode).2.reg ((opcode >>> 12) &&& 0xF) = res % 4294967296 ∧
        (s.mapReg ((opcode >>> 16) &&& 0xF) ≠ s.mapReg ((opcode >>> 12) &&& 0xF) →
          (s.armMultiplyLong opcode).2.reg ((opcode >>> 16) &&& 0xF) = res / 4294967296) ∧
        (s.armMultiplyLong opcode).2.cpsr.testBit 31 = res.testBit 63 ∧
        (s.armMultiplyLong opcode).2.cpsr.testBit 30 = decide (res = 0) ∧
        (s.armMultiplyLong opcode).2.cpsr % 1073741824 = s.cpsr % 1073741824) ∧
    ((opcode >>> 6) &&& 0xF = 0xD →
      ∃ c t, doTHUMB04ALU mc s opcode = some (c, t) ∧
        t.reg (opcode &&& 7)
          = (s.loReg (opcode &&& 7) * s.loReg ((opcode >>> 3) &&& 7)) % 4294967296 ∧
        t.cpsr.testBit 31 = (t.reg (opcode &&& 7)).testBit 31 ∧
        t.cpsr.testBit 30 = decide (t.reg (opcode &&& 7) = 0) ∧
        t.cpsr % 1073741824 = s.cpsr % 1073741824) :=
  ⟨armMultiply_flags s opcode, armMultiplyLong_flags s opcode, thumbMul_flags mc s opcode⟩

/-- C15 (amended) for `MULS R0, R1, R2` with R1 = 3, R2 = 5 and C set: the multiply
completes and bits 29..0 of CPSR, C among them, are those of 0x200000D3. -/
theorem C15_multiply_witness :
    ∃ c t, ({ ((bootWith [0xE0100291]).setReg 1 3).setReg 2 5 with cpsr := 0x200000D3 } : AGBCPU).armMultiply
        0xE0100291 = some (c, t) ∧ t.cpsr % 1073741824 = 0x200000D3 % 1073741824 :=
  ((C15_multiply_result_and_flags false
    ({ ((bootWith [0xE0100291]).setReg 1 3).setReg 2 5 with cpsr := 0x200000D3 } : AGBCPU)
    0xE0100291).1 (by decide) (by decide)).elim fun c h => h.elim fun t ht =>
      ⟨c, t, ht.1, ht.2.2.2.2⟩

/-- C16 (the code breaks it when prefix = 32 and accumulate is set): the multiplies
return `pcS + iCycles` (MUL/MLA) and `pcS + iCycles + 1` (long multiplies) with
`iCycles = prefix == 32 ? 1 : (4 - prefix/8) + accumulate`, the conditional taking the
whole sum as its second alternative; so for a second operand of 0 (prefix 32) the
accumulate cycle is dropped.  On the machine after reset (pcS = 1), `MLA R0, R1, R2, R3`
(0xE0203291) with R2 = 0 returns 2 cycles, not 1 + 1 + 1; with R2 = 1 (prefix 31) it
returns 1 + 1 + 1 = 3; `UMLAL R0, R1, R2, R3` (0xE0A10392) with R3 = 0 returns 3, not
4. -/
theorem C16_multiply_cycles_drop_accumulate :
    (∀ (s : AGBCPU) (opcode : Nat), (s.armMultiplyLong opcode).1
      = s.pcSCycles
        + (if (if bitSet opcode 22 = true ∧ s.reg ((opcode >>> 8) &&& 0xF) &&& (1 <<< 31) ≠ 0
              then clz32 (bnot32 (s.reg ((opcode >>> 8) &&& 0xF)))
              else clz32 (s.reg ((opcode >>> 8) &&& 0xF))) = 32 then 1
           else (4 - (if bitSet opcode 22 = true ∧ s.reg ((opcode >>> 8) &&& 0xF) &&& (1 <<< 31) ≠ 0
              then clz32 (bnot32 (s.reg ((opcode >>> 8) &&& 0xF)))
              else clz32 (s.reg ((opcode >>> 8) &&& 0xF))) / 8)
             + (if bitSet opcode 21 = true then 1 else 0)) + 1) ∧
    (∀ (s : AGBCPU) (opcode : Nat), (s.armMultiply opcode).map Prod.fst
      = if (!bitSet opcode 21) = true ∧ (opcode >>> 12) &&& 0xF ≠ 0 then none
        else some (s.pcSCycles
          + (if (if s.reg ((opcode >>> 8) &&& 0xF) &&& (1 <<< 31) ≠ 0
                then clz32 (bnot32 (s.reg ((opcode >>> 8) &&& 0xF)))
                else clz32 (s.reg ((opcode >>> 8) &&& 0xF))) = 32 then 1
             else (4 - (if s.reg ((opcode >>> 8) &&& 0xF) &&& (1 <<< 31) ≠ 0
                then clz32 (bnot32 (s.reg ((opcode >>> 8) &&& 0xF)))
                else clz32 (s.reg ((opcode >>> 8) &&& 0xF))) / 8)
               + (if bitSet opcode 21 = true then 1 else 0)))) ∧
    (bootWith [0xE0203291]).pcSCycles = 1 ∧ clz32 0 = 32 ∧ clz32 1 = 31 ∧
    (∀ mc, (executeARMInstruction mc (((bootWith [0xE0203291]).setReg 1 7).setReg 3 9)).map
      (fun r => (r.1, r.2.reg 0)) = some (2, 9)) ∧
    (∀ mc, (executeARMInstruction mc
        ((((bootWith [0xE0203291]).setReg 1 7).setReg 2 1).setReg 3 9)).map
      (fun r => (r.1, r.2.reg 0)) = some (3, 16)) ∧
    (∀ mc, (executeARMInstruction mc (((bootWith [0xE0A10392]).setReg 2 7).setReg 0 9)).map
      (fun r => (r.1, r.2.reg 0)) = some (3, 9)) := by
  refine ⟨?_, ?_, by decide, by decide, by decide, by decide, by decide, by decide⟩
  · intro s opcode
    simp only [armMultiplyLong, mulCycles]
    split <;> simp only [pcSCycles_setReg]
  · intro s opcode
    unfold armMultiply
    simp only [mulCycles]
    split
    · rfl
    · split <;> simp only [Option.map, pcSCycles_setReg]

/-- C19 (the code breaks it when Rb is the lowest listed register): the THUMB transfer
loop writes the end address to Rb right after the first transfer, whatever the list
holds, so a base that is the lowest register of a load list ends with the incremented
address.  `LDMIA R0!, {R0, R1}` (0xC803) with R0 = 0x03000000 pointing at
{0xAAAAAAAA, 0xBBBBBBBB} ends with R0 = 0x03000008 and R1 = 0xBBBBBBBB; with the base
second in the list, `LDMIA R1!, {R0, R1}` (0xC903), R1 ends with the loaded word
0xBBBBBBBB. -/
theorem C19_thumb_ldmia_lowest_base_written_back :
    (∀ mc, (executeTHUMBInstruction mc
        (((thumbWith [0xC803]).withIWRAM [0xAAAAAAAA, 0xBBBBBBBB]).setReg 0 0x03000000)).map
      (fun r => (r.2.reg 0, r.2.reg 1)) = some (0x03000008, 0xBBBBBBBB)) ∧
    (∀ mc, (executeTHUMBInstruction mc
        (((thumbWith [0xC903]).withIWRAM [0xAAAAAAAA, 0xBBBBBBBB]).setReg 1 0x03000000)).map
      (fun r => (r.2.reg 0, r.2.reg 1)) = some (0xAAAAAAAA, 0xBBBBBBBB)) ∧
    (∀ mc, (executeTHUMBInstruction mc
        (((thumbWith [0xC801]).withIWRAM [0xAAAAAAAA, 0xBBBBBBBB]).setReg 0 0x03000000)).map
      (fun r => r.2.reg 0) = some 0x03000004) := by
  decide

theorem bl_first_fields (hi : Nat) (hhi : hi < 2048) :
    (61440 + hi) >>> 12 = 15 ∧ bitSet (61440 + hi) 11 = false ∧ (61440 + hi) &&& 2047 = hi := by
  refine ⟨?_, ?_, ?_⟩
  · rw [Nat.shiftRight_eq_div_pow]; omega
  · unfold bitSet
    rw [decide_eq_false_iff_not, not_not]
    by_contra h
    have := (and_bit_ne_zero _ _).1 h
    rw [Nat.testBit_to_div_mod] at this
    simp only [Nat.reducePow] at this
    have h2 : (61440 + hi) / 2048 % 2 = 0 := by omega
    rw [h2] at this
    exact absurd this (by decide)
  · have := Nat.and_pow_two_sub_one_eq_mod (61440 + hi) 11
    simp only [Nat.reducePow, Nat.add_one_sub_one] at this
    rw [this]; omega

theorem bl_second_fields (lo : Nat) (hlo : lo < 2048) :
    (63488 + lo) >>> 12 = 15 ∧ bitSet (63488 + lo) 11 = true ∧ (63488 + lo) &&& 2047 = lo := by
  refine ⟨?_, ?_, ?_⟩
  · rw [Nat.shiftRight_eq_div_pow]; omega
  · unfold bitSet
    rw [decide_eq_true_iff, and_bit_ne_zero, Nat.testBit_to_div_mod]
    simp only [Nat.reducePow]
    have h2 : (63488 + lo) / 2048 % 2 = 1 := by omega
    rw [h2]; rfl
  · have := Nat.and_pow_two_sub_one_eq_mod (63488 + lo) 11
    simp only [Nat.reducePow, Nat.add_one_sub_one] at this
    rw [this]; omega

theorem bl_signext (hi : Nat) (hhi : hi < 2048) :
    (if (hi <<< 12) &&& (1 <<< 22) ≠ 0 then (hi <<< 12) ||| 0xFF800000 else hi <<< 12)
      = if hi < 1024 then hi * 4096 else hi * 4096 + 4286578688 := by
  have hs : hi <<< 12 = hi * 4096 := by rw [Nat.shiftLeft_eq]
  rw [hs]
  have hb : (hi * 4096 &&& (1 <<< 22) ≠ 0) ↔ ¬ hi < 1024 := by
    rw [and_bit_ne_zero, Nat.testBit_to_div_mod]
    simp only [Nat.reducePow]
    constructor
    · intro h hlt
      have h2 : hi * 4096 / 4194304 % 2 = 0 := by omega
      rw [h2] at h; exact absurd h (by decide)
    · intro h
      have h2 : hi * 4096 / 4194304 % 2 = 1 := by omega
      rw [h2]; rfl
  by_cases hlt : hi < 1024
  · rw [if_neg (by rw [hb]; exact not_not.2 hlt), if_pos hlt]
  · rw [if_pos (hb.2 hlt), if_neg hlt]
    -- hi * 4096 ||| 0xFF800000 with 1024 ≤ hi < 2048: bit 22 already set
    have e : hi * 4096 = 4194304 + (hi - 1024) * 4096 := by omega
    have e2 : (4286578688 : Nat) = 1022 * 4194304 := by decide
    apply Nat.eq_of_testBit_eq
    intro i
    rw [Nat.testBit_lor]
    have hlt2 : hi * 4096 < 2 ^ 23 := by simp only [Nat.reducePow]; omega
    have key : hi * 4096 + 4286578688 = 4290772992 + (hi - 1024) * 4096 := by omega
    have hor : 4290772992 + (hi - 1024) * 4096 = 2 ^ 22 * 1023 + (hi - 1024) * 4096 := by
      simp only [Nat.reducePow]
    rw [key, hor, Nat.mul_add_lt_is_or (by simp only [Nat.reducePow]; omega), Nat.testBit_lor, e]
    have hor2 : 4194304 + (hi - 1024) * 4096 = 2 ^ 22 * 1 + (hi - 1024) * 4096 := by
      simp only [Nat.reducePow]
    rw [hor2, Nat.mul_add_lt_is_or (by simp only [Nat.reducePow]; omega), Nat.testBit_lor]
    have t1 : (2 ^ 22 * 1023 : Nat).testBit i = ((2 ^ 22 * 1 : Nat).testBit i || (4286578688 : Nat).testBit i) := by
      rw [← Nat.testBit_lor]
      rfl
    rw [t1]
    cases (2 ^ 22 * 1 : Nat).testBit i <;> cases ((hi - 1024) * 4096).testBit i <;>
      cases (4286578688 : Nat).testBit i <;> rfl
theorem fetchTHUMB_of_mem (s : AGBCPU) (op : Nat) (hpc : s.loReg PC &&& 1 = 0)
    (h1 : s.mem.derefRead s.thumbPCPtr 2 = some op)
    (h1f : s.mem.read16Fast (s.loReg PC) = some op) :
    s.fetchTHUMB = some (op,
      { s with thumbPCPtr := s.thumbPCPtr.map fun p => { p with off := p.off + 2 } }) := by
  unfold fetchTHUMB
  rw [if_neg (by rw [hpc]; exact fun h => h rfl), h1, h1f]
  simp only [if_true]

theorem thumb_bl_first (mc : Bool) (s : AGBCPU) (hi : Nat) (hhi : hi < 2048)
    (hpc : s.loReg PC &&& 1 = 0)
    (h1 : s.mem.derefRead s.thumbPCPtr 2 = some (61440 + hi))
    (h1f : s.mem.read16Fast (s.loReg PC) = some (61440 + hi)) :
    executeTHUMBInstruction mc s = some (s.pcSCycles,
      (({ s with thumbPCPtr := s.thumbPCPtr.map fun p => { p with off := p.off + 2 } } :
          AGBCPU).setLoReg PC (s.loReg PC + 2)).setLoReg s.curLR
        ((s.loReg PC + 2) % 4294967296 + 2
          + (if hi < 1024 then hi * 4096 else hi * 4096 + 4286578688))) := by
  obtain ⟨f1, f2, f3⟩ := bl_first_fields hi hhi
  unfold executeTHUMBInstruction
  rw [fetchTHUMB_of_mem s _ hpc h1 h1f]
  simp only [f1]
  rw [if_neg (by decide), if_neg (by decide), if_neg (by decide), if_neg (by decide),
    if_neg (by decide), if_neg (by decide), if_neg (by decide), if_neg (by decide),
    if_neg (by decide), if_neg (by decide), if_neg (by decide), if_neg (by decide),
    if_neg (by decide), if_neg (by decide)]
  unfold doTHUMB19LongBranchLink
  simp only [f2, f3]
  have := bl_signext hi hhi
  simp only [Nat.reduceShiftLeft] at this ⊢
  rw [this]
  rfl

theorem thumb_bl_second (mc : Bool) (s : AGBCPU) (lo : Nat) (hlo : lo < 2048)
    (hpc : s.loReg PC &&& 1 = 0) (hLR : s.curLR ≠ PC)
    (h1 : s.mem.derefRead s.thumbPCPtr 2 = some (63488 + lo))
    (h1f : s.mem.read16Fast (s.loReg PC) = some (63488 + lo)) :
    ∃ c t, executeTHUMBInstruction mc s = some (c, t) ∧
      t.loReg PC = (s.loReg s.curLR + lo * 2) % 4294967296 ∧
      t.loReg t.curLR = ((s.loReg PC + 2) % 4294967296 ||| 1) % 4294967296 ∧
      t.curLR = s.curLR := by
  obtain ⟨f1, f2, f3⟩ := bl_second_fields lo hlo
  unfold executeTHUMBInstruction
  rw [fetchTHUMB_of_mem s _ hpc h1 h1f]
  simp only [f1]
  rw [if_neg (by decide), if_neg (by decide), if_neg (by decide), if_neg (by decide),
    if_neg (by decide), if_neg (by decide), if_neg (by decide), if_neg (by decide),
    if_neg (by decide), if_neg (by decide), if_neg (by decide), if_neg (by decide),
    if_neg (by decide), if_neg (by decide)]
  unfold doTHUMB19LongBranchLink
  simp only [f2, f3, Bool.not_true, Bool.false_eq_true, if_false]
  refine ⟨_, _, rfl, ?_, ?_, rfl⟩
  · have h2 : ¬ PC = s.curLR := fun h => hLR h.symm
    simp only [loReg, setLoReg, updateTHUMBPC, h2, hLR, if_false, if_true, Nat.shiftLeft_eq,
      Nat.pow_one]
  · simp only [loReg, setLoReg, updateTHUMBPC, if_true]

theorem mapReg_PC (s : AGBCPU) : s.mapReg PC = PC := by
  unfold mapReg PC
  rw [if_neg (by decide), if_neg (by decide), if_neg (by omega)]

theorem mapReg_LR (s : AGBCPU) : s.mapReg LR = s.curLR := by
  unfold mapReg LR
  rw [if_neg (by decide), if_pos rfl]

/-- C20: for an even address `a` and 11-bit offsets `hi` and `lo`, with PC = `a` and the
two halves 0xF000 + hi and 0xF800 + lo of a THUMB long BL located at `a` and `a + 2`,
two steps of `executeTHUMBInstruction` return and end with
PC = a + 4 + signext(hi << 12) + (lo << 1) (modulo 2^32) and LR = (a + 4) | 1.  The link
register of the current bank is a slot other than the PC, as in every bank of
`modeChanged`. -/
theorem C20_thumb_long_branch_link (mc : Bool) (s : AGBCPU) (a hi lo : Nat)
    (ha : a % 2 = 0) (ha32 : a < 4294967296) (hhi : hi < 2048) (hlo : lo < 2048)
    (hpc : s.loReg PC = a) (hLR : s.curLR ≠ PC)
    (h1 : s.mem.derefRead s.thumbPCPtr 2 = some (0xF000 + hi))
    (h1f : s.mem.read16Fast a = some (0xF000 + hi))
    (h2 : s.mem.derefRead (s.thumbPCPtr.map fun p => { p with off := p.off + 2 }) 2
      = some (0xF800 + lo))
    (h2f : s.mem.read16Fast ((a + 2) % 4294967296) = some (0xF800 + lo)) :
    ∃ c t, ((executeTHUMBInstruction mc s).bind fun r => executeTHUMBInstruction mc r.2)
        = some (c, t) ∧
      (t.reg PC : Int) = ((a : Int) + 4
        + (if hi < 1024 then (hi : Int) * 4096 else (hi : Int) * 4096 - 8388608)
        + (lo : Int) * 2) % 4294967296 ∧
      t.reg LR = ((a + 4) % 4294967296) ||| 1 := by
  have hpc1 : s.loReg PC &&& 1 = 0 := by rw [hpc, Nat.and_one_is_mod]; exact ha
  rw [thumb_bl_first mc s hi hhi hpc1 h1 (by rw [hpc]; exact h1f)]
  simp only [Option.bind]
  have hLR2 : ¬ PC = s.curLR := fun h => hLR h.symm
  generalize hs1 : ((({ s with thumbPCPtr := s.thumbPCPtr.map fun p => { p with off := p.off + 2 } } :
          AGBCPU).setLoReg PC (s.loReg PC + 2)).setLoReg s.curLR
        ((s.loReg PC + 2) % 4294967296 + 2
          + (if hi < 1024 then hi * 4096 else hi * 4096 + 4286578688))) = s1
  have e1 : s1.loReg PC = (a + 2) % 4294967296 := by
    rw [← hs1]
    simp only [loReg, setLoReg, hLR2, if_false, if_true]
    rw [← hpc]; rfl
  have e2 : s1.curLR = s.curLR := by rw [← hs1]; rfl
  have e3 : s1.mem = s.mem := by rw [← hs1]; rfl
  have e4 : s1.thumbPCPtr = s.thumbPCPtr.map fun p => { p with off := p.off + 2 } := by
    rw [← hs1]; rfl
  have e5 : s1.loReg s.curLR = ((a + 2) % 4294967296 + 2
      + (if hi < 1024 then hi * 4096 else hi * 4096 + 4286578688)) % 4294967296 := by
    rw [← hs1]
    simp only [loReg, setLoReg, if_true]
    rw [← hpc]; rfl
  obtain ⟨c, t, ht, hPC, hLRv, hcur⟩ := thumb_bl_second mc s1 lo hlo
    (by rw [e1, Nat.and_one_is_mod]; omega) (by rw [e2]; exact hLR)
    (by rw [e3, e4]; exact h2) (by rw [e1, e3]; exact h2f)
  refine ⟨c, t, ht, ?_, ?_⟩
  · have e6 : t.reg PC = t.loReg PC := by rw [reg, mapReg_PC]; rfl
    rw [e6, hPC, e2, e5]
    by_cases hlt : hi < 1024
    · rw [if_pos hlt, if_pos hlt]; omega
    · rw [if_neg hlt, if_neg hlt]; omega
  · have e6 : t.reg LR = t.loReg t.curLR := by rw [reg, mapReg_LR]; rfl
    rw [e6, hLRv, e1]
    have e7 : ((a + 2) % 4294967296 + 2) % 4294967296 = (a + 4) % 4294967296 := by omega
    rw [e7]
    apply Nat.mod_eq_of_lt
    exact Nat.or_lt_two_pow (n := 32) (Nat.mod_lt _ (by decide)) (by decide)

/-- C20 at the example of the specification: opcodes 0xF000, 0xF800 at 0x08000100 give
LR = 0x08000105 and PC = 0x08000104. -/
theorem C20_thumb_long_branch_link_witness :
    ∃ c t, ((executeTHUMBInstruction true (cartThumbWith 0x08000100 [0xF000, 0xF800])).bind
        fun r => executeTHUMBInstruction true r.2) = some (c, t) ∧
      (t.reg PC : Int) = ((0x08000100 : Nat) : Int) + 4 + 0 + 0 ∧ t.reg LR = 0x08000105 := by
  obtain ⟨c, t, h, hP, hL⟩ := C20_thumb_long_branch_link true
    (cartThumbWith 0x08000100 [0xF000, 0xF800]) 0x08000100 0 0
    (by decide) (by decide) (by decide) (by decide) (by decide) (by decide) (by decide)
    (by decide) (by decide) (by decide)
  exact ⟨c, t, h, by rw [hP]; decide, by rw [hL]; decide⟩

theorem sameRegs_refl (s : AGBCPU) : sameRegs s s := ⟨rfl, rfl, rfl, rfl⟩

theorem sameRegs_trans (s t u : AGBCPU) (h1 : sameRegs s t) (h2 : sameRegs t u) :
    sameRegs s u :=
  ⟨h2.1.trans h1.1, h2.2.1.trans h1.2.1, h2.2.2.1.trans h1.2.2.1, h2.2.2.2.trans h1.2.2.2⟩

theorem timerStep_sameRegs (timer passed i : Nat) (s t : AGBCPU) (ov ov2 : Nat)
    (h : timerStep timer passed i s ov = some (t, ov2)) : sameRegs s t := by
  unfold timerStep at h
  simp only [Option.map_eq_some'] at h
  obtain ⟨u, hu, ht⟩ := h
  have hsu : sameRegs s u := by
    split_ifs at hu <;> first
      | (injection hu with hu; rw [← hu]; exact ⟨rfl, rfl, rfl, rfl⟩)
      | exact absurd hu (by simp)
  refine sameRegs_trans s u t hsu ?_
  split_ifs at ht <;> (injection ht with ht1 ht2; rw [← ht1]; exact ⟨rfl, rfl, rfl, rfl⟩)

theorem timerLoop_sameRegs (timer passed : Nat) :
    ∀ (fuel i enabled : Nat) (s t : AGBCPU) (ov : Nat),
      timerLoop fuel timer passed i enabled s ov = some t → sameRegs s t := by
  intro fuel
  induction fuel with
  | zero =>
    intro i enabled s t ov h
    injection h with h; rw [← h]; exact sameRegs_refl s
  | succ fuel ih =>
    intro i enabled s t ov h
    unfold timerLoop at h
    split_ifs at h with h0 h1
    · injection h with h; rw [← h]; exact sameRegs_refl s
    · exact ih _ _ _ _ _ h
    · cases hst : timerStep timer passed i s ov with
      | none => rw [hst] at h; exact absurd h (by simp)
      | some r =>
        obtain ⟨u, ov2⟩ := r
        rw [hst] at h
        exact sameRegs_trans s u t (timerStep_sameRegs _ _ _ _ _ _ _ hst) (ih _ _ _ _ _ h)

theorem updateTimers_sameRegs (s t : AGBCPU) (h : s.updateTimers = some t) : sameRegs s t := by
  unfold updateTimers at h
  simp only [Option.map_eq_some'] at h
  obtain ⟨u, hu, ht⟩ := h
  rw [← ht]
  exact sameRegs_trans s u _ (timerLoop_sameRegs _ _ _ _ _ _ _ _ hu) ⟨rfl, rfl, rfl, rfl⟩

theorem readReg_sameRegs (s t : AGBCPU) (addr val v : Nat)
    (h : s.readReg addr val = some (v, t)) : sameRegs s t := by
  unfold readReg at h
  dsimp only at h
  split_ifs at h
  · injection h with h; injection h with h1 h2; rw [← h2]; exact sameRegs_refl s
  · injection h with h; injection h with h1 h2; rw [← h2]; exact sameRegs_refl s
  · simp only [Option.map_eq_some'] at h
    obtain ⟨u, hu, ht⟩ := h
    injection ht with h1 h2
    rw [← h2]; exact updateTimers_sameRegs s u hu
  · injection h with h; injection h with h1 h2; rw [← h2]; exact sameRegs_refl s
  · injection h with h; injection h with h1 h2; rw [← h2]; exact sameRegs_refl s

theorem doIORead16_sameRegs (s t : AGBCPU) (addr w v : Nat)
    (h : s.doIORead16 addr w = some (v, t)) : sameRegs s t := by
  unfold doIORead16 at h
  split_ifs at h
  · injection h with h; injection h with h1 h2; rw [← h2]; exact sameRegs_refl s
  · simp only [Option.map_eq_some'] at h
    obtain ⟨r, hr, ht⟩ := h
    obtain ⟨v2, u⟩ := r
    injection ht with h1 h2
    rw [← h2]; exact readReg_sameRegs s u _ _ _ hr

theorem doIORead32_sameRegs (s t : AGBCPU) (addr v : Nat)
    (h : s.doIORead32 addr = some (v, t)) : sameRegs s t := by
  unfold doIORead32 at h
  cases h1 : s.doIORead16 (addr &&& bnot32 3) 2 with
  | none => rw [h1] at h; exact absurd h (by simp)
  | some r =>
    obtain ⟨lo, u⟩ := r
    rw [h1] at h
    simp only [] at h
    cases h2 : u.doIORead16 ((addr &&& bnot32 3) + 2) 2 with
    | none => rw [h2] at h; exact absurd h (by simp)
    | some r2 =>
      obtain ⟨hi, u2⟩ := r2
      rw [h2] at h
      injection h with h; injection h with h3 h4
      rw [← h4]
      exact sameRegs_trans s u u2 (doIORead16_sameRegs _ _ _ _ _ h1) (doIORead16_sameRegs _ _ _ _ _ h2)

theorem map_pair_sameRegs (s t : AGBCPU) (o : Option Nat) (v : Nat)
    (h : o.map (fun v => (v, s)) = some (v, t)) : sameRegs s t := by
  cases o with
  | none => exact absurd h (by simp)
  | some x =>
    injection h with h; injection h with h1 h2; rw [← h2]; exact sameRegs_refl s

theorem some_pair_sameRegs (s t : AGBCPU) (x v : Nat)
    (h : some (x, s) = some (v, t)) : sameRegs s t := by
  injection h with h; injection h with h1 h2; rw [← h2]; exact sameRegs_refl s

theorem memRead_sameRegs (s t : AGBCPU) (addr w v : Nat)
    (h : s.memRead addr w = some (v, t)) : sameRegs s t := by
  unfold memRead at h
  dsimp only at h
  by_cases c0 : addr >>> 24 = 0
  · rw [if_pos c0] at h; exact map_pair_sameRegs _ _ _ _ h
  rw [if_neg c0] at h
  by_cases c1 : addr >>> 24 = 1
  · rw [if_pos c1] at h; exact some_pair_sameRegs _ _ _ _ h
  rw [if_neg c1] at h
  by_cases c2 : addr >>> 24 = 2
  · rw [if_pos c2] at h; exact some_pair_sameRegs _ _ _ _ h
  rw [if_neg c2] at h
  by_cases c3 : addr >>> 24 = 3
  · rw [if_pos c3] at h; exact some_pair_sameRegs _ _ _ _ h
  rw [if_neg c3] at h
  by_cases c4 : addr >>> 24 = 4
  · rw [if_pos c4] at h
    by_cases cw : w = 4
    · rw [if_pos cw] at h; exact doIORead32_sameRegs _ _ _ _ h
    · rw [if_neg cw] at h; exact doIORead16_sameRegs _ _ _ _ _ h
  rw [if_neg c4] at h
  by_cases c5 : addr >>> 24 = 5
  · rw [if_pos c5] at h; exact some_pair_sameRegs _ _ _ _ h
  rw [if_neg c5] at h
  by_cases c6 : addr >>> 24 = 6
  · rw [if_pos c6] at h; exact some_pair_sameRegs _ _ _ _ h
  rw [if_neg c6] at h
  by_cases c7 : addr >>> 24 = 7
  · rw [if_pos c7] at h; exact some_pair_sameRegs _ _ _ _ h
  rw [if_neg c7] at h
  by_cases c8 : 8 ≤ addr >>> 24 ∧ addr >>> 24 ≤ 12
  · rw [if_pos c8] at h; exact map_pair_sameRegs _ _ _ _ h
  rw [if_neg c8] at h
  by_cases c9 : addr >>> 24 = 13
  · rw [if_pos c9] at h; exact map_pair_sameRegs _ _ _ _ h
  rw [if_neg c9] at h
  by_cases c10 : addr >>> 24 = 14 ∨ addr >>> 24 = 15
  · rw [if_pos c10] at h; exact map_pair_sameRegs _ _ _ _ h
  rw [if_neg c10] at h
  exact some_pair_sameRegs _ _ _ _ h

theorem readMem16Aligned_sameRegs (s t : AGBCPU) (addr v : Nat)
    (h : s.readMem16Aligned addr = some (v, t)) : sameRegs s t := by
  unfold readMem16Aligned at h
  split_ifs at h
  exact memRead_sameRegs _ _ _ _ _ h

theorem readMem32Aligned_sameRegs (s t : AGBCPU) (addr v : Nat)
    (h : s.readMem32Aligned addr = some (v, t)) : sameRegs s t := by
  unfold readMem32Aligned at h
  split_ifs at h
  · cases h1 : s.readMem16Aligned addr with
    | none => rw [h1] at h; exact absurd h (by simp)
    | some r =>
      obtain ⟨lo, u⟩ := r
      rw [h1] at h
      simp only [] at h
      cases h2 : u.readMem16Aligned ((addr + 2) % 4294967296) with
      | none => rw [h2] at h; exact absurd h (by simp)
      | some r2 =>
        obtain ⟨hi, u2⟩ := r2
        rw [h2] at h
        injection h with h; injection h with h3 h4
        rw [← h4]
        exact sameRegs_trans s u u2 (readMem16Aligned_sameRegs _ _ _ _ h1)
          (readMem16Aligned_sameRegs _ _ _ _ h2)
  · exact memRead_sameRegs _ _ _ _ _ h
theorem writeReg_sameRegs (s t : AGBCPU) (addr data : Nat) (b : Bool)
    (h : s.writeReg addr data = some (b, t)) : sameRegs s t := by
  unfold writeReg at h
  dsimp only at h
  by_cases c0 : (s.displayWriteReg addr data || s.apuWriteReg addr data) = true
  · rw [if_pos c0] at h
    injection h with h; injection h with h1 h2; rw [← h2]; exact sameRegs_refl s
  rw [if_neg c0] at h
  by_cases c1 : addr &&& 16777215 = IO_DMA0CNT_H ∨ addr &&& 16777215 = IO_DMA0CNT_H + 12
      ∨ addr &&& 16777215 = IO_DMA0CNT_H + 24 ∨ addr &&& 16777215 = IO_DMA0CNT_H + 36
  · rw [if_pos c1] at h
    split_ifs at h <;>
      (injection h with h; injection h with h1 h2; rw [← h2]; exact ⟨rfl, rfl, rfl, rfl⟩)
  rw [if_neg c1] at h
  by_cases c2 : addr &&& 16777215 = IO_TM0CNT_L ∨ addr &&& 16777215 = IO_TM0CNT_L + 4
      ∨ addr &&& 16777215 = IO_TM0CNT_L + 8 ∨ addr &&& 16777215 = IO_TM0CNT_L + 12
  · rw [if_pos c2] at h
    rw [Option.map_eq_some'] at h
    obtain ⟨u, hu, ht⟩ := h
    injection ht with h1 h2
    rw [← h2]; exact updateTimers_sameRegs s u hu
  rw [if_neg c2] at h
  by_cases c3 : addr &&& 16777215 = IO_TM0CNT_H ∨ addr &&& 16777215 = IO_TM0CNT_H + 4
      ∨ addr &&& 16777215 = IO_TM0CNT_H + 8 ∨ addr &&& 16777215 = IO_TM0CNT_H + 12
  · rw [if_pos c3] at h
    rw [Option.map_eq_some'] at h
    obtain ⟨u, hu, ht⟩ := h
    refine sameRegs_trans s u t (updateTimers_sameRegs s u hu) ?_
    split_ifs at ht <;>
      (injection ht with h1 h2; rw [← h2]; exact ⟨rfl, rfl, rfl, rfl⟩)
  rw [if_neg c3] at h
  split_ifs at h <;>
    (injection h with h; injection h with h1 h2; rw [← h2]; exact ⟨rfl, rfl, rfl, rfl⟩)

theorem doIOWrite16_sameRegs (s t : AGBCPU) (addr w data : Nat)
    (h : s.doIOWrite16 addr w data = some t) : sameRegs s t := by
  unfold doIOWrite16 at h
  by_cases c0 : addr ≥ 0x4000400
  · rw [if_pos c0] at h; injection h with h; rw [← h]; exact sameRegs_refl s
  rw [if_neg c0] at h
  cases hw : s.writeReg (addr &&& 0xFFFFFF) (data % 256 ^ w) with
  | none => rw [hw] at h; exact absurd h (by simp)
  | some r =>
    obtain ⟨b, u⟩ := r
    rw [hw] at h
    have hu := writeReg_sameRegs _ _ _ _ _ hw
    cases b
    · simp only [] at h
      injection h with h; rw [← h]
      exact sameRegs_trans s u _ hu ⟨rfl, rfl, rfl, rfl⟩
    · simp only [] at h
      injection h with h; rw [← h]; exact hu

theorem bind_sameRegs (s t : AGBCPU) (o : Option AGBCPU) (f : AGBCPU → Option AGBCPU)
    (h : o.bind f = some t) (h1 : ∀ u, o = some u → sameRegs s u)
    (h2 : ∀ u v, f u = some v → sameRegs u v) : sameRegs s t := by
  cases o with
  | none => exact absurd h (by simp)
  | some u => exact sameRegs_trans s u t (h1 u rfl) (h2 u t h)

theorem doIOWrite32_sameRegs (s t : AGBCPU) (addr data : Nat)
    (h : s.doIOWrite32 addr data = some t) : sameRegs s t := by
  unfold doIOWrite32 at h
  exact bind_sameRegs s t _ _ h (fun u hu => doIOWrite16_sameRegs _ _ _ _ _ hu)
    (fun u v hv => doIOWrite16_sameRegs _ _ _ _ _ hv)

theorem doPalRAMWrite_sameRegs (s : AGBCPU) (addr w data : Nat) :
    sameRegs s (s.doPalRAMWrite addr w data) := by
  unfold doPalRAMWrite
  split_ifs <;> exact ⟨rfl, rfl, rfl, rfl⟩

theorem doVRAMWrite_sameRegs (s : AGBCPU) (addr w data : Nat) :
    sameRegs s (s.doVRAMWrite addr w data) := by
  unfold doVRAMWrite
  split_ifs <;> exact ⟨rfl, rfl, rfl, rfl⟩

theorem doOAMWrite_sameRegs (s : AGBCPU) (addr w data : Nat) :
    sameRegs s (s.doOAMWrite addr w data) := by
  unfold doOAMWrite
  split_ifs <;> exact ⟨rfl, rfl, rfl, rfl⟩

theorem map_mem_sameRegs {α : Type} (s t : AGBCPU) (o : Option α) (f : α → AGBMemory)
    (h : o.map (fun m => ({ s with mem := f m } : AGBCPU)) = some t) : sameRegs s t := by
  cases o with
  | none => exact absurd h (by simp)
  | some x => injection h with h; rw [← h]; exact ⟨rfl, rfl, rfl, rfl⟩

theorem doEEPROMWrite_sameRegs (s t : AGBCPU) (addr w data : Nat)
    (h : s.doEEPROMWrite addr w data = some t) : sameRegs s t := by
  unfold doEEPROMWrite at h
  dsimp only at h
  split_ifs at h <;> first
    | (injection h with h; rw [← h]; exact ⟨rfl, rfl, rfl, rfl⟩)
    | exact map_mem_sameRegs s t _ _ h

theorem doSRAMWrite8_sameRegs (s t : AGBCPU) (addr data : Nat)
    (h : s.doSRAMWrite8 addr data = some t) : sameRegs s t := by
  unfold doSRAMWrite8 at h
  dsimp only at h
  split_ifs at h <;> first
    | (injection h with h; rw [← h]; exact ⟨rfl, rfl, rfl, rfl⟩)
    | exact map_mem_sameRegs s t _ (fun m => m) h

theorem doSRAMWrite_sameRegs (s t : AGBCPU) (addr w data : Nat)
    (h : s.doSRAMWrite addr w data = some t) : sameRegs s t := by
  unfold doSRAMWrite at h
  split_ifs at h <;> exact doSRAMWrite8_sameRegs _ _ _ _ h

theorem bits_zero (fuel i : Nat) :
    ((List.range fuel).filter fun j => (0 : Nat).testBit j).map (fun j => j + i) = [] := by
  simp

theorem bits_succ (fuel rl i : Nat) :
    ((List.range (fuel + 1)).filter fun j => rl.testBit j).map (fun j => j + i)
      = (if rl.testBit 0 then [i] else [])
        ++ ((List.range fuel).filter fun j => (rl >>> 1).testBit j).map (fun j => j + (i + 1)) := by
  rw [List.range_succ_eq_map, List.filter_cons, List.filter_map]
  have e : ((fun j => rl.testBit j) ∘ Nat.succ) = fun j => (rl >>> 1).testBit j := by
    funext j
    simp only [Function.comp, Nat.testBit_shiftRight]
    rw [Nat.add_comm]
  have e2 : ((fun j => j + i) ∘ Nat.succ) = fun j => j + (i + 1) := by
    funext j
    simp only [Function.comp]
    omega
  rw [e]
  cases rl.testBit 0
  · simp only [Bool.false_eq_true, if_false, List.nil_append, List.map_map, e2]
  · simp only [if_true, List.map_cons, List.map_map, e2, Nat.zero_add, List.singleton_append]

theorem and_one_testBit (x : Nat) : (x &&& 1 = 0) ↔ x.testBit 0 = false := by
  rw [Nat.and_one_is_mod, Nat.testBit_zero]
  simp

theorem blockLoopBus_ref (a : BlockArgs) (start : Nat) :
    ∀ (fuel rl i k : Nat) (s : AGBCPU), rl < 2 ^ fuel →
      blockLoopBus a fuel rl i ((start + 4 * k) % 4294967296) (decide (k = 0)) s
        = refBlockBus a start
            (((List.range fuel).filter fun j => rl.testBit j).map fun j => j + i) k s := by
  intro fuel
  induction fuel with
  | zero => intro rl i k s h; rfl
  | succ fuel ih =>
    intro rl i k s h
    unfold blockLoopBus
    by_cases h0 : rl = 0
    · rw [if_pos h0, h0, bits_zero]; rfl
    · rw [if_neg h0, bits_succ]
      have hlt : rl >>> 1 < 2 ^ fuel := by
        rw [Nat.shiftRight_eq_div_pow, Nat.pow_one]
        rw [Nat.pow_succ] at h
        omega
      by_cases h1 : rl &&& 1 = 0
      · rw [if_pos h1, (and_one_testBit rl).1 h1]
        simp only [Bool.false_eq_true, if_false, List.nil_append]
        exact ih _ _ _ _ hlt
      · rw [if_neg h1]
        have ht : rl.testBit 0 = true := by
          cases hb : rl.testBit 0
          · exact absurd ((and_one_testBit rl).2 hb) h1
          · rfl
        rw [ht]
        simp only [if_true, List.singleton_append]
        unfold refBlockBus
        have hm : (if a.isLoad = true then
              (s.readMem32Aligned ((start + 4 * k) % 4294967296 &&& bnot32 3)).map
                fun r => r.2.setLoReg (if a.isLoadForce = true then i else s.mapReg i) r.1
            else if (if a.isLoadForce = true then i else s.mapReg i) = PC then
              s.writeMem32 ((start + 4 * k) % 4294967296 &&& bnot32 3)
                (s.loReg (if a.isLoadForce = true then i else s.mapReg i) + 8)
            else s.writeMem32 ((start + 4 * k) % 4294967296 &&& bnot32 3)
                (s.loReg (if a.isLoadForce = true then i else s.mapReg i)))
            = busTransfer a i ((start + 4 * k) % 4294967296 &&& bnot32 3) s := rfl
        simp only [hm]
        cases hbt : busTransfer a i ((start + 4 * k) % 4294967296 &&& bnot32 3) s with
        | none => rfl
        | some t =>
          simp only []
          have ha : ((start + 4 * k) % 4294967296 + 4) % 4294967296
              = (start + 4 * (k + 1)) % 4294967296 := by omega
          rw [ha]
          have := ih (rl >>> 1) (i + 1) (k + 1) (blockWriteBack a (decide (k = 0)) t) hlt
          have hk : decide (k + 1 = 0) = false := by simp
          rw [hk] at this
          exact this
theorem ptr_advance (ptr : Option Ptr) (k : Nat) :
    ((ptr.map fun p => ({ p with off := p.off + 4 * k } : Ptr)).map
        fun p => ({ p with off := p.off + 4 } : Ptr))
      = ptr.map fun p => ({ p with off := p.off + 4 * (k + 1) } : Ptr) := by
  cases ptr with
  | none => rfl
  | some p =>
    simp only [Option.map]
    congr 1

theorem blockLoopPtr_ref (a : BlockArgs) (ptr : Option Ptr) :
    ∀ (fuel rl i k : Nat) (s : AGBCPU), rl < 2 ^ fuel →
      blockLoopPtr a fuel rl i (ptr.map fun p => { p with off := p.off + 4 * k })
          (decide (k = 0)) s
        = refBlockPtr a ptr
            (((List.range fuel).filter fun j => rl.testBit j).map fun j => j + i) k s := by
  intro fuel
  induction fuel with
  | zero => intro rl i k s h; rfl
  | succ fuel ih =>
    intro rl i k s h
    unfold blockLoopPtr
    by_cases h0 : rl = 0
    · rw [if_pos h0, h0, bits_zero]; rfl
    · rw [if_neg h0, bits_succ]
      have hlt : rl >>> 1 < 2 ^ fuel := by
        rw [Nat.shiftRight_eq_div_pow, Nat.pow_one]
        rw [Nat.pow_succ] at h
        omega
      by_cases h1 : rl &&& 1 = 0
      · rw [if_pos h1, (and_one_testBit rl).1 h1]
        simp only [Bool.false_eq_true, if_false, List.nil_append]
        exact ih _ _ _ _ hlt
      · rw [if_neg h1]
        have ht : rl.testBit 0 = true := by
          cases hb : rl.testBit 0
          · exact absurd ((and_one_testBit rl).2 hb) h1
          · rfl
        rw [ht]
        simp only [if_true, List.singleton_append]
        unfold refBlockPtr
        have hm : (if a.isLoad = true then
              (s.mem.derefRead (ptr.map fun p => { p with off := p.off + 4 * k }) 4).map
                fun v => s.setLoReg (if a.isLoadForce = true then i else s.mapReg i) v
            else if (if a.isLoadForce = true then i else s.mapReg i) = PC then
              (s.mem.derefWrite (ptr.map fun p => { p with off := p.off + 4 * k }) 4
                ((s.loReg (if a.isLoadForce = true then i else s.mapReg i) + 8) % 4294967296)).map
                  fun m => { s with mem := m }
            else (s.mem.derefWrite (ptr.map fun p => { p with off := p.off + 4 * k }) 4
                (s.loReg (if a.isLoadForce = true then i else s.mapReg i))).map
                  fun m => { s with mem := m })
            = ptrTransfer a i (ptr.map fun p => { p with off := p.off + 4 * k }) s := rfl
        simp only [hm]
        cases hbt : ptrTransfer a i (ptr.map fun p => { p with off := p.off + 4 * k }) s with
        | none => rfl
        | some t =>
          simp only []
          rw [ptr_advance]
          have := ih (rl >>> 1) (i + 1) (k + 1) (blockWriteBack a (decide (k = 0)) t) hlt
          have hk : decide (k + 1 = 0) = false := by simp
          rw [hk] at this
          exact this

theorem some_sameRegs (s t u : AGBCPU) (h : some u = some t) (hu : sameRegs s u) :
    sameRegs s t := by
  injection h with h; rw [← h]; exact hu

theorem memWrite_sameRegs (s t : AGBCPU) (addr w data : Nat)
    (h : s.memWrite addr w data = some t) : sameRegs s t := by
  unfold memWrite at h
  dsimp only at h
  by_cases c0 : addr >>> 24 = 0 ∨ addr >>> 24 = 1
  · rw [if_pos c0] at h; exact some_sameRegs s t _ h (sameRegs_refl s)
  rw [if_neg c0] at h
  by_cases c2 : addr >>> 24 = 2
  · rw [if_pos c2] at h; exact some_sameRegs s t _ h ⟨rfl, rfl, rfl, rfl⟩
  rw [if_neg c2] at h
  by_cases c3 : addr >>> 24 = 3
  · rw [if_pos c3] at h; exact some_sameRegs s t _ h ⟨rfl, rfl, rfl, rfl⟩
  rw [if_neg c3] at h
  by_cases c4 : addr >>> 24 = 4
  · rw [if_pos c4] at h
    by_cases cw : w = 4
    · rw [if_pos cw] at h; exact doIOWrite32_sameRegs _ _ _ _ h
    · rw [if_neg cw] at h; exact doIOWrite16_sameRegs _ _ _ _ _ h
  rw [if_neg c4] at h
  by_cases c5 : addr >>> 24 = 5
  · rw [if_pos c5] at h; exact some_sameRegs s t _ h (doPalRAMWrite_sameRegs _ _ _ _)
  rw [if_neg c5] at h
  by_cases c6 : addr >>> 24 = 6
  · rw [if_pos c6] at h; exact some_sameRegs s t _ h (doVRAMWrite_sameRegs _ _ _ _)
  rw [if_neg c6] at h
  by_cases c7 : addr >>> 24 = 7
  · rw [if_pos c7] at h; exact some_sameRegs s t _ h (doOAMWrite_sameRegs _ _ _ _)
  rw [if_neg c7] at h
  by_cases c8 : 8 ≤ addr >>> 24 ∧ addr >>> 24 ≤ 12
  · rw [if_pos c8] at h; exact some_sameRegs s t _ h (sameRegs_refl s)
  rw [if_neg c8] at h
  by_cases c9 : addr >>> 24 = 13
  · rw [if_pos c9] at h; exact doEEPROMWrite_sameRegs _ _ _ _ _ h
  rw [if_neg c9] at h
  by_cases c10 : addr >>> 24 = 14 ∨ addr >>> 24 = 15
  · rw [if_pos c10] at h; exact doSRAMWrite_sameRegs _ _ _ _ _ h
  rw [if_neg c10] at h
  exact some_sameRegs s t _ h (sameRegs_refl s)

theorem writeMem16_sameRegs (s t : AGBCPU) (addr data : Nat)
    (h : s.writeMem16 addr data = some t) : sameRegs s t :=
  memWrite_sameRegs _ _ _ _ _ h

theorem writeMem32_sameRegs (s t : AGBCPU) (addr data : Nat)
    (h : s.writeMem32 addr data = some t) : sameRegs s t := by
  unfold writeMem32 at h
  dsimp only at h
  split_ifs at h
  · exact bind_sameRegs s t _ _ h (fun u hu => writeMem16_sameRegs _ _ _ _ hu)
      (fun u v hv => writeMem16_sameRegs _ _ _ _ hv)
  · exact memWrite_sameRegs _ _ _ _ _ h

theorem modeChanged_bankOK (s t : AGBCPU) (h : s.modeChanged = some t) : bankOK t := by
  unfold modeChanged at h
  dsimp only at h
  split_ifs at h <;> first
    | (injection h with h; rw [← h]; simp [bankOK])
    | exact absurd h (by simp)
theorem mapReg_congr (s t : AGBCPU) (h1 : t.curSP = s.curSP) (h2 : t.curLR = s.curLR)
    (h3 : t.isFIQ = s.isFIQ) (r : Nat) : t.mapReg r = s.mapReg r := by
  unfold mapReg
  rw [h1, h2, h3]

theorem blockSlot_congr (a : BlockArgs) (s t : AGBCPU) (h1 : t.curSP = s.curSP)
    (h2 : t.curLR = s.curLR) (h3 : t.isFIQ = s.isFIQ) (r : Nat) :
    blockSlot a t r = blockSlot a s r := by
  unfold blockSlot
  rw [mapReg_congr s t h1 h2 h3]

/-- What a state keeps of `s` apart from the slot `b`: every other slot and the bank. -/
theorem busTransfer_frame (a : BlockArgs) (i addr : Nat) (s t : AGBCPU)
    (h : busTransfer a i addr s = some t) :
    t.curSP = s.curSP ∧ t.curLR = s.curLR ∧ t.isFIQ = s.isFIQ ∧
      ∀ j, (a.isLoad = true → j ≠ blockSlot a s i) → t.regs j = s.regs j := by
  unfold busTransfer at h
  by_cases hl : a.isLoad = true
  · rw [if_pos hl] at h
    rw [Option.map_eq_some'] at h
    obtain ⟨r, hr, ht⟩ := h
    obtain ⟨v, u⟩ := r
    have hu := readMem32Aligned_sameRegs s u _ _ hr
    rw [← ht]
    refine ⟨hu.2.1, hu.2.2.1, hu.2.2.2, ?_⟩
    intro j hj
    show (if j = blockSlot a s i then _ else u.regs j) = _
    rw [if_neg (hj hl), hu.1]
  · rw [if_neg hl] at h
    have hu : sameRegs s t := by
      split_ifs at h <;> exact writeMem32_sameRegs _ _ _ _ h
    exact ⟨hu.2.1, hu.2.2.1, hu.2.2.2, fun j _ => by rw [hu.1]⟩

theorem ptrTransfer_frame (a : BlockArgs) (i : Nat) (ptr : Option Ptr) (s t : AGBCPU)
    (h : ptrTransfer a i ptr s = some t) :
    t.curSP = s.curSP ∧ t.curLR = s.curLR ∧ t.isFIQ = s.isFIQ ∧
      ∀ j, (a.isLoad = true → j ≠ blockSlot a s i) → t.regs j = s.regs j := by
  unfold ptrTransfer at h
  by_cases hl : a.isLoad = true
  · rw [if_pos hl] at h
    rw [Option.map_eq_some'] at h
    obtain ⟨v, hr, ht⟩ := h
    rw [← ht]
    refine ⟨rfl, rfl, rfl, ?_⟩
    intro j hj
    show (if j = blockSlot a s i then _ else s.regs j) = _
    rw [if_neg (hj hl)]
  · rw [if_neg hl] at h
    have hu : sameRegs s t := by
      split_ifs at h <;> exact map_mem_sameRegs s t _ (fun m => m) h
    exact ⟨hu.2.1, hu.2.2.1, hu.2.2.2, fun j _ => by rw [hu.1]⟩

theorem blockWriteBack_false (a : BlockArgs) (s : AGBCPU) : blockWriteBack a false s = s := by
  unfold blockWriteBack
  rw [if_neg (by simp)]

theorem blockWriteBack_frame (a : BlockArgs) (first : Bool) (s : AGBCPU) :
    (blockWriteBack a first s).curSP = s.curSP ∧ (blockWriteBack a first s).curLR = s.curLR ∧
    (blockWriteBack a first s).isFIQ = s.isFIQ := by
  unfold blockWriteBack
  split_ifs <;> exact ⟨rfl, rfl, rfl⟩

theorem blockWriteBack_base (a : BlockArgs) (s : AGBCPU) (h : a.writeBack = true) :
    (blockWriteBack a true s).regs a.baseReg
      = (if a.isUp then a.highAddr else a.lowAddr) % 4294967296 := by
  unfold blockWriteBack
  rw [if_pos ⟨rfl, h⟩]
  show (if a.baseReg = a.baseReg then _ else _) = _
  rw [if_pos rfl]

theorem refBlockBus_tail (a : BlockArgs) (start b : Nat) :
    ∀ (rest : List Nat) (k : Nat) (s t : AGBCPU), k ≠ 0 →
      refBlockBus a start rest k s = some t →
      (a.isLoad = true → ∀ r ∈ rest, blockSlot a s r ≠ b) →
      t.regs b = s.regs b ∧ t.curSP = s.curSP ∧ t.curLR = s.curLR ∧ t.isFIQ = s.isFIQ := by
  intro rest
  induction rest with
  | nil =>
    intro k s t hk h _
    injection h with h; rw [← h]; exact ⟨rfl, rfl, rfl, rfl⟩
  | cons r rest ih =>
    intro k s t hk h hb
    unfold refBlockBus at h
    cases hu : busTransfer a r (((start + 4 * k) % 4294967296) &&& bnot32 3) s with
    | none => rw [hu] at h; exact absurd h (by simp)
    | some u =>
      rw [hu] at h
      simp only [] at h
      have hd : decide (k = 0) = false := by simp [hk]
      rw [hd, blockWriteBack_false] at h
      obtain ⟨f1, f2, f3, f4⟩ := busTransfer_frame a r _ s u hu
      obtain ⟨g1, g2, g3, g4⟩ := ih (k + 1) u t (by omega) h (fun hl r2 hr2 => by
        rw [blockSlot_congr a s u f1 f2 f3]
        exact hb hl r2 (List.mem_cons_of_mem _ hr2))
      refine ⟨?_, g2.trans f1, g3.trans f2, g4.trans f3⟩
      rw [g1]
      exact f4 b (fun hl => (hb hl r (List.mem_cons_self _ _)).symm)

theorem refBlockPtr_tail (a : BlockArgs) (ptr : Option Ptr) (b : Nat) :
    ∀ (rest : List Nat) (k : Nat) (s t : AGBCPU), k ≠ 0 →
      refBlockPtr a ptr rest k s = some t →
      (a.isLoad = true → ∀ r ∈ rest, blockSlot a s r ≠ b) →
      t.regs b = s.regs b ∧ t.curSP = s.curSP ∧ t.curLR = s.curLR ∧ t.isFIQ = s.isFIQ := by
  intro rest
  induction rest with
  | nil =>
    intro k s t hk h _
    injection h with h; rw [← h]; exact ⟨rfl, rfl, rfl, rfl⟩
  | cons r rest ih =>
    intro k s t hk h hb
    unfold refBlockPtr at h
    cases hu : ptrTransfer a r (ptr.map fun p => { p with off := p.off + 4 * k }) s with
    | none => rw [hu] at h; exact absurd h (by simp)
    | some u =>
      rw [hu] at h
      simp only [] at h
      have hd : decide (k = 0) = false := by simp [hk]
      rw [hd, blockWriteBack_false] at h
      obtain ⟨f1, f2, f3, f4⟩ := ptrTransfer_frame a r _ s u hu
      obtain ⟨g1, g2, g3, g4⟩ := ih (k + 1) u t (by omega) h (fun hl r2 hr2 => by
        rw [blockSlot_congr a s u f1 f2 f3]
        exact hb hl r2 (List.mem_cons_of_mem _ hr2))
      refine ⟨?_, g2.trans f1, g3.trans f2, g4.trans f3⟩
      rw [g1]
      exact f4 b (fun hl => (hb hl r (List.mem_cons_self _ _)).symm)

/-- With write back, and no listed register of a load in the slot of the base, the
reference ends with the written-back address in the base. -/
theorem refBlockBus_base (a : BlockArgs) (start : Nat) (r : Nat) (rest : List Nat)
    (s t : AGBCPU) (hw : a.writeBack = true)
    (h : refBlockBus a start (r :: rest) 0 s = some t)
    (hb : a.isLoad = true → ∀ q ∈ r :: rest, blockSlot a s q ≠ a.baseReg) :
    t.regs a.baseReg = (if a.isUp then a.highAddr else a.lowAddr) % 4294967296 ∧
      t.curSP = s.curSP ∧ t.curLR = s.curLR ∧ t.isFIQ = s.isFIQ := by
  unfold refBlockBus at h
  cases hu : busTransfer a r (((start + 4 * 0) % 4294967296) &&& bnot32 3) s with
  | none => rw [hu] at h; exact absurd h (by simp)
  | some u =>
    rw [hu] at h
    simp only [] at h
    have hd : decide True = true := by decide
    rw [hd] at h
    obtain ⟨f1, f2, f3, f4⟩ := busTransfer_frame a r _ s u hu
    obtain ⟨w1, w2, w3⟩ := blockWriteBack_frame a true u
    obtain ⟨g1, g2, g3, g4⟩ := refBlockBus_tail a start a.baseReg rest 1 _ t (by decide) h
      (fun hl r2 hr2 => by
        rw [blockSlot_congr a s _ (w1.trans f1) (w2.trans f2) (w3.trans f3)]
        exact hb hl r2 (List.mem_cons_of_mem _ hr2))
    refine ⟨?_, (g2.trans w1).trans f1, (g3.trans w2).trans f2, (g4.trans w3).trans f3⟩
    rw [g1, blockWriteBack_base a u hw]

theorem refBlockPtr_base (a : BlockArgs) (ptr : Option Ptr) (r : Nat) (rest : List Nat)
    (s t : AGBCPU) (hw : a.writeBack = true)
    (h : refBlockPtr a ptr (r :: rest) 0 s = some t)
    (hb : a.isLoad = true → ∀ q ∈ r :: rest, blockSlot a s q ≠ a.baseReg) :
    t.regs a.baseReg = (if a.isUp then a.highAddr else a.lowAddr) % 4294967296 ∧
      t.curSP = s.curSP ∧ t.curLR = s.curLR ∧ t.isFIQ = s.isFIQ := by
  unfold refBlockPtr at h
  cases hu : ptrTransfer a r (ptr.map fun p => { p with off := p.off + 4 * 0 }) s with
  | none => rw [hu] at h; exact absurd h (by simp)
  | some u =>
    rw [hu] at h
    simp only [] at h
    have hd : decide True = true := by decide
    rw [hd] at h
    obtain ⟨f1, f2, f3, f4⟩ := ptrTransfer_frame a r _ s u hu
    obtain ⟨w1, w2, w3⟩ := blockWriteBack_frame a true u
    obtain ⟨g1, g2, g3, g4⟩ := refBlockPtr_tail a ptr a.baseReg rest 1 _ t (by decide) h
      (fun hl r2 hr2 => by
        rw [blockSlot_congr a s _ (w1.trans f1) (w2.trans f2) (w3.trans f3)]
        exact hb hl r2 (List.mem_cons_of_mem _ hr2))
    refine ⟨?_, (g2.trans w1).trans f1, (g3.trans w2).trans f2, (g4.trans w3).trans f3⟩
    rw [g1, blockWriteBack_base a u hw]

theorem countRegs_eq : ∀ (fuel rl : Nat), rl < 2 ^ fuel →
    countRegs fuel rl = ((List.range fuel).filter fun j => rl.testBit j).length := by
  intro fuel
  induction fuel with
  | zero => intro rl h; rfl
  | succ fuel ih =>
    intro rl h
    have hb := congrArg List.length (bits_succ fuel rl 0)
    rw [List.length_map, List.length_append, List.length_map] at hb
    rw [hb]
    unfold countRegs
    have hlt : rl >>> 1 < 2 ^ fuel := by
      rw [Nat.shiftRight_eq_div_pow, Nat.pow_one]
      rw [Nat.pow_succ] at h
      omega
    by_cases h0 : rl = 0
    · rw [if_pos h0, h0]
      simp
    · rw [if_neg h0, ih _ hlt]
      by_cases h1 : rl &&& 1 = 0
      · rw [(and_one_testBit rl).1 h1]
        simp [h1]
      · have ht : rl.testBit 0 = true := by
          cases hb : rl.testBit 0
          · exact absurd ((and_one_testBit rl).2 hb) h1
          · rfl
        rw [ht, if_pos h1]
        simp

theorem countRegs_listed (rl : Nat) (h : rl < 65536) :
    countRegs 16 rl = (listedRegs rl).length :=
  countRegs_eq 16 rl h

theorem bits_listed (rl : Nat) :
    (((List.range 16).filter fun j => rl.testBit j).map fun j => j + 0) = listedRegs rl := by
  unfold listedRegs
  simp

theorem ptr_zero (ptr : Option Ptr) :
    (ptr.map fun p => ({ p with off := p.off + 4 * 0 } : Ptr)) = ptr := by
  cases ptr <;> rfl

theorem blockStart_lt (base n : Nat) (isUp preIndex : Bool) (h : base < 4294967296) :
    blockStart base n isUp preIndex < 4294967296 := by
  unfold blockStart sub32
  cases isUp <;> cases preIndex <;> simp only [] <;> omega

theorem blockLoopBus_listed (a : BlockArgs) (start rl : Nat) (s : AGBCPU) (hrl : rl < 65536)
    (hs : start < 4294967296) :
    blockLoopBus a 16 rl 0 start true s = refBlockBus a start (listedRegs rl) 0 s := by
  have h := blockLoopBus_ref a start 16 rl 0 0 s hrl
  rw [bits_listed] at h
  have e : (start + 4 * 0) % 4294967296 = start := by omega
  have hd : decide ((0 : Nat) = 0) = true := by decide
  rw [e, hd] at h
  exact h

theorem blockLoopPtr_listed (a : BlockArgs) (ptr : Option Ptr) (rl : Nat) (s : AGBCPU)
    (hrl : rl < 65536) :
    blockLoopPtr a 16 rl 0 ptr true s = refBlockPtr a ptr (listedRegs rl) 0 s := by
  have h := blockLoopPtr_ref a ptr 16 rl 0 0 s hrl
  rw [bits_listed, ptr_zero] at h
  have hd : decide ((0 : Nat) = 0) = true := by decide
  rw [hd] at h
  exact h

theorem blockStart_code (U P : Bool) (base n : Nat) (h : base < 4294967296) :
    (if (!U) = true then
        if (!P) = true then ((if (!U) = true then sub32 base (n * 4) else 0) + 4) % 4294967296
        else if (!U) = true then sub32 base (n * 4) else 0
      else if P = true then (base + 4) % 4294967296 else base)
      = blockStart base n U P := by
  unfold blockStart
  cases U <;> cases P <;>
    simp only [Bool.not_true, Bool.not_false, Bool.false_eq_true, if_true, if_false,
      Nat.mul_comm n 4, Nat.mod_eq_of_lt h]

theorem blockArgs_code (U S W L : Bool) (b base n : Nat) (test : Prop) [Decidable test] :
    ({ isUp := U, isLoadForce := S, writeBack := if L = true ∧ test then false else W,
       isLoad := L, baseReg := b,
       lowAddr := if (!U) = true then sub32 base (n * 4) else 0,
       highAddr := (base + n * 4) % 4294967296 } : BlockArgs)
      = { isUp := U, isLoadForce := S, writeBack := W && !(L && decide test),
          isLoad := L, baseReg := b,
          lowAddr := if U = true then 0 else sub32 base (4 * n),
          highAddr := (base + 4 * n) % 4294967296 } := by
  rw [Nat.mul_comm n 4]
  cases U <;> cases L <;> cases W <;> by_cases ht : test <;> simp [ht]

theorem doBlockDataTransfer_eq (s : AGBCPU) (opcode : Nat) (preIndex : Bool)
    (hlist : opcode % 65536 ≠ 0)
    (hS : ¬ (bitSet opcode 22 = true ∧ bitSet opcode 20 = true
      ∧ bitSet (opcode % 65536) 15 = true))
    (hreg : s.reg ((opcode >>> 16) &&& 0xF) < 4294967296) :
    s.doBlockDataTransfer opcode preIndex
      = ((if s.mapReg ((opcode >>> 16) &&& 0xF) = s.curSP then
            refBlockPtr (blockArgs s opcode)
              (s.mem.mapAddress (blockStart (s.reg ((opcode >>> 16) &&& 0xF))
                (listedRegs (opcode % 65536)).length (bitSet opcode 23) preIndex &&& bnot32 3))
              (listedRegs (opcode % 65536)) 0 s
          else
            refBlockBus (blockArgs s opcode)
              (blockStart (s.reg ((opcode >>> 16) &&& 0xF))
                (listedRegs (opcode % 65536)).length (bitSet opcode 23) preIndex)
              (listedRegs (opcode % 65536)) 0 s).map
          fun t => if (bitSet opcode 20 && bitSet (opcode % 65536) 15) = true
            then t.updateARMPC else t) := by
  have hrl : opcode % 65536 < 2 ^ 16 := Nat.mod_lt _ (by decide)
  unfold doBlockDataTransfer
  dsimp only
  rw [if_neg hS]
  have hd : decide (opcode % 65536 = 0) = false := by simp [hlist]
  simp only [hd, Bool.false_eq_true, false_and, if_false]
  have hreg2 : s.loReg (s.mapReg (opcode >>> 16 &&& 15)) < 4294967296 := hreg
  have e0 : s.reg (opcode >>> 16 &&& 15) = s.loReg (s.mapReg (opcode >>> 16 &&& 15)) := rfl
  rw [countRegs_listed _ hrl, blockStart_code _ _ _ _ hreg2, blockArgs_code,
    blockLoopBus_listed _ _ _ _ hrl (blockStart_lt _ _ _ _ hreg2),
    blockLoopPtr_listed _ _ _ _ hrl, e0]
  rfl

theorem mapReg_fixed (s : AGBCPU) (r : Nat) (hb : bankOK s) (h : s.mapReg r < 16) :
    s.mapReg r = r := by
  obtain ⟨b1, b2, b3⟩ := hb
  unfold mapReg at h ⊢
  split_ifs at h ⊢ <;> omega

theorem mapReg_inj (s : AGBCPU) (q r : Nat) (hb : bankOK s) (hq : q < 16) (hr : r < 16)
    (h : s.mapReg q = s.mapReg r) : q = r := by
  obtain ⟨b1, b2, b3⟩ := hb
  unfold mapReg at h
  split_ifs at h <;> omega

theorem and15_lt (x : Nat) : x &&& 15 < 16 :=
  Nat.lt_of_le_of_lt Nat.and_le_right (by decide)

theorem mem_listedRegs (rl q : Nat) (h : q ∈ listedRegs rl) : q < 16 ∧ rl.testBit q = true := by
  unfold listedRegs at h
  rw [List.mem_filter, List.mem_range] at h
  exact h

theorem listedRegs_ne_nil (rl : Nat) (h0 : rl ≠ 0) (h : rl < 65536) : listedRegs rl ≠ [] := by
  obtain ⟨i, hi⟩ := Nat.ne_zero_implies_bit_true h0
  have hlt : i < 16 := by
    by_contra hge
    have h2 : rl < 2 ^ i :=
      Nat.lt_of_lt_of_le h (Nat.pow_le_pow_right (by decide : 2 > 0) (by omega : 16 ≤ i))
    rw [Nat.testBit_lt_two_pow h2] at hi
    exact absurd hi (by decide)
  intro hnil
  have hm : i ∈ listedRegs rl := by
    unfold listedRegs
    rw [List.mem_filter, List.mem_range]
    exact ⟨hlt, hi⟩
  rw [hnil] at hm
  exact absurd hm (List.not_mem_nil _)

theorem blockArgs_writeBack (s : AGBCPU) (opcode : Nat) (hb : bankOK s)
    (hw : bitSet opcode 21 = true)
    (hl : bitSet opcode 20 = true → (opcode % 65536).testBit ((opcode >>> 16) &&& 0xF) = false) :
    (blockArgs s opcode).writeBack = true := by
  show (bitSet opcode 21 && !(bitSet opcode 20 && decide ((opcode % 65536)
    &&& (1 <<< s.mapReg ((opcode >>> 16) &&& 0xF)) ≠ 0))) = true
  rw [hw, Bool.true_and]
  cases hL : bitSet opcode 20
  · rfl
  · have ht : (opcode % 65536).testBit (s.mapReg ((opcode >>> 16) &&& 0xF)) = false := by
      by_cases hlt : s.mapReg ((opcode >>> 16) &&& 0xF) < 16
      · rw [mapReg_fixed s _ hb hlt]; exact hl hL
      · apply Nat.testBit_lt_two_pow
        exact Nat.lt_of_lt_of_le (Nat.mod_lt _ (by decide))
          (Nat.pow_le_pow_right (by decide : 2 > 0)
            (by omega : 16 ≤ s.mapReg ((opcode >>> 16) &&& 0xF)))
    have hz : ¬ ((opcode % 65536) &&& (1 <<< s.mapReg ((opcode >>> 16) &&& 0xF)) ≠ 0) := by
      rw [and_bit_ne_zero, ht]; decide
    simp [hz]

theorem blockArgs_slots (s : AGBCPU) (opcode : Nat) (hb : bankOK s)
    (hl : (opcode % 65536).testBit ((opcode >>> 16) &&& 0xF) = false) :
    ∀ q ∈ listedRegs (opcode % 65536),
      blockSlot (blockArgs s opcode) s q ≠ (blockArgs s opcode).baseReg := by
  intro q hq
  obtain ⟨hq16, hqb⟩ := mem_listedRegs _ _ hq
  have hne : q ≠ (opcode >>> 16) &&& 0xF := by
    intro he; rw [he, hl] at hqb; exact absurd hqb (by decide)
  show (if bitSet opcode 22 = true then q else s.mapReg q) ≠ s.mapReg ((opcode >>> 16) &&& 0xF)
  split_ifs
  · intro he
    have := mapReg_fixed s _ hb (by rw [← he]; exact hq16)
    exact hne (he.trans this)
  · intro he
    exact hne (mapReg_inj s _ _ hb hq16 (and15_lt _) he)
theorem updateARMPC_regs (b : Bool) (t : AGBCPU) (r : Nat) :
    (if b = true then t.updateARMPC else t).reg r = t.reg r := by
  cases b <;> rfl

theorem doBlockDataTransfer_base (s t : AGBCPU) (opcode : Nat) (preIndex : Bool)
    (hlist : opcode % 65536 ≠ 0)
    (hS : ¬ (bitSet opcode 22 = true ∧ bitSet opcode 20 = true
      ∧ bitSet (opcode % 65536) 15 = true))
    (hreg : s.reg ((opcode >>> 16) &&& 0xF) < 4294967296)
    (hb : bankOK s) (ht : s.doBlockDataTransfer opcode preIndex = some t)
    (hw : bitSet opcode 21 = true)
    (hl : bitSet opcode 20 = true → (opcode % 65536).testBit ((opcode >>> 16) &&& 0xF) = false) :
    t.reg ((opcode >>> 16) &&& 0xF)
      = if bitSet opcode 23 = true then
          (s.reg ((opcode >>> 16) &&& 0xF) + 4 * (listedRegs (opcode % 65536)).length) % 4294967296
        else sub32 (s.reg ((opcode >>> 16) &&& 0xF)) (4 * (listedRegs (opcode % 65536)).length) := by
  rw [doBlockDataTransfer_eq s opcode preIndex hlist hS hreg, Option.map_eq_some'] at ht
  obtain ⟨u, hu, htu⟩ := ht
  rw [← htu, updateARMPC_regs]
  have hwb := blockArgs_writeBack s opcode hb hw hl
  have hsl : (blockArgs s opcode).isLoad = true →
      ∀ q ∈ listedRegs (opcode % 65536),
        blockSlot (blockArgs s opcode) s q ≠ (blockArgs s opcode).baseReg :=
    fun hL => blockArgs_slots s opcode hb (hl hL)
  have hne := listedRegs_ne_nil (opcode % 65536) hlist (Nat.mod_lt _ (by decide))
  cases hlr : listedRegs (opcode % 65536) with
  | nil => exact absurd hlr hne
  | cons r rest =>
    rw [hlr] at hu hsl
    have key : u.regs (blockArgs s opcode).baseReg
        = (if (blockArgs s opcode).isUp then (blockArgs s opcode).highAddr
            else (blockArgs s opcode).lowAddr) % 4294967296 ∧
          u.curSP = s.curSP ∧ u.curLR = s.curLR ∧ u.isFIQ = s.isFIQ := by
      split_ifs at hu
      · exact refBlockPtr_base _ _ r rest s u hwb hu hsl
      · exact refBlockBus_base _ _ r rest s u hwb hu hsl
    obtain ⟨k1, k2, k3, k4⟩ := key
    have e1 : u.reg ((opcode >>> 16) &&& 0xF) = u.regs (blockArgs s opcode).baseReg := by
      show u.regs (u.mapReg _) = u.regs (s.mapReg _)
      rw [mapReg_congr s u k2 k3 k4]
    rw [e1, k1]
    show (if bitSet opcode 23 = true then
        (s.loReg (s.mapReg ((opcode >>> 16) &&& 0xF)) + 4 * (listedRegs (opcode % 65536)).length)
          % 4294967296
      else (if bitSet opcode 23 = true then 0
        else sub32 (s.loReg (s.mapReg ((opcode >>> 16) &&& 0xF)))
          (4 * (listedRegs (opcode % 65536)).length))) % 4294967296 = _
    rw [hlr]
    cases bitSet opcode 23
    · simp only [Bool.false_eq_true, if_false]
      apply Nat.mod_eq_of_lt
      unfold sub32
      exact Nat.mod_lt _ (by decide)
    · simp only [if_true, Nat.mod_mod]
      rfl

/-- C17 (counterexample to the claim as stated): with the current stack pointer as base
the words are moved through a direct pointer, not over the bus.  After reset (supervisor
mode), `LDMIA R13, {R0}` (0xE89D0001) with R13 = 0 has no result (`mapAddress` gives the
null pointer for the BIOS), and `LDMIA R13, {R0, R1}` (0xE89D0003) with R13 = 0x03007FFC
has none either (the second word lies past the work RAM buffer); with R2 as base
(0xE8920001, 0xE8920003) the same transfers read address 0, and 0x03007FFC and
0x03008000 (the mirror of 0x03000000).  A base that is not word aligned transfers at the
aligned address: `LDMIA R2, {R0}` with R2 = 0x03000002 loads the word at 0x03000000. -/
theorem C17_counterexample_stack_pointer_base :
    (∀ mc, (executeARMInstruction mc ((bootWith [0xE89D0001]).setReg 13 0)).isSome = false) ∧
    (∀ mc, (executeARMInstruction mc ((bootWith [0xE8920001]).setReg 2 0)).map
      (fun r => r.2.reg 0) = some 0xE8920001) ∧
    (∀ mc, (executeARMInstruction mc
        (((bootWith [0xE89D0003]).withIWRAM [0xAAAAAAAA]).setReg 13 0x03007FFC)).isSome = false) ∧
    (∀ mc, (executeARMInstruction mc
        (((bootWith [0xE8920003]).withIWRAM [0xAAAAAAAA]).setReg 2 0x03007FFC)).map
      (fun r => (r.2.reg 0, r.2.reg 1)) = some (0, 0xAAAAAAAA)) ∧
    (∀ mc, (executeARMInstruction mc
        (((bootWith [0xE8920001]).withIWRAM [0xAAAAAAAA]).setReg 2 0x03000002)).map
      (fun r => r.2.reg 0) = some 0xAAAAAAAA) := by
  decide!

/-- C17 (as the code has it): for an ARM LDM/STM with a non-empty list of n registers,
other than a load with the S bit and R15 in the list, and a base holding a 32-bit value,
`doBlockDataTransfer` is the reference transfer: the listed registers lowest first, the
k-th at (start + 4k) modulo 2^32 with the low two bits cleared, where start = base
(increment-after), base + 4 (increment-before), base - 4n + 4 (decrement-after) or
base - 4n (decrement-before); over the bus when the base is not the current stack
pointer, through the direct pointer of `mapAddress` at start when it is.  With write back
and the base not in a load list, a transfer that completes leaves base + 4n (increment)
or base - 4n (decrement), modulo 2^32, in the base register. -/
theorem C17_block_transfer_addresses_and_base (s : AGBCPU) (opcode : Nat) (preIndex : Bool)
    (hlist : opcode % 65536 ≠ 0)
    (hS : ¬ (bitSet opcode 22 = true ∧ bitSet opcode 20 = true
      ∧ bitSet (opcode % 65536) 15 = true))
    (hreg : s.reg ((opcode >>> 16) &&& 0xF) < 4294967296) :
    s.doBlockDataTransfer opcode preIndex
      = ((if s.mapReg ((opcode >>> 16) &&& 0xF) = s.curSP then
            refBlockPtr (blockArgs s opcode)
              (s.mem.mapAddress (blockStart (s.reg ((opcode >>> 16) &&& 0xF))
                (listedRegs (opcode % 65536)).length (bitSet opcode 23) preIndex &&& bnot32 3))
              (listedRegs (opcode % 65536)) 0 s
          else
            refBlockBus (blockArgs s opcode)
              (blockStart (s.reg ((opcode >>> 16) &&& 0xF))
                (listedRegs (opcode % 65536)).length (bitSet opcode 23) preIndex)
              (listedRegs (opcode % 65536)) 0 s).map
          fun t => if (bitSet opcode 20 && bitSet (opcode % 65536) 15) = true
            then t.updateARMPC else t) ∧
    ∀ t, bankOK s → s.doBlockDataTransfer opcode preIndex = some t →
      bitSet opcode 21 = true →
      (bitSet opcode 20 = true →
        (opcode % 65536).testBit ((opcode >>> 16) &&& 0xF) = false) →
      t.reg ((opcode >>> 16) &&& 0xF)
        = if bitSet opcode 23 = true then
            (s.reg ((opcode >>> 16) &&& 0xF) + 4 * (listedRegs (opcode % 65536)).length)
              % 4294967296
          else sub32 (s.reg ((opcode >>> 16) &&& 0xF))
            (4 * (listedRegs (opcode % 65536)).length) :=
  ⟨doBlockDataTransfer_eq s opcode preIndex hlist hS hreg,
    fun t hb ht hw hl => doBlockDataTransfer_base s t opcode preIndex hlist hS hreg hb ht hw hl⟩

/-- C17 at `LDMDB R4!, {R1, R2, R3}` (0xE9340000 + 0xE) after reset, with
R4 = 0x0300000C pointing past {0x11111111, 0x22222222, 0x33333333}: the transfer
completes, R1..R3 get the three words in ascending order from 0x03000000, and R4 ends
as 0x03000000. -/
theorem C17_block_transfer_witness :
    ∃ t, (((bootWith []).withIWRAM [0x11111111, 0x22222222, 0x33333333]).setReg 4
        0x0300000C).doBlockDataTransfer 0xE934000E true = some t ∧
      t.reg 4 = 0x03000000 ∧
      (refBlockBus
        ((((bootWith []).withIWRAM [0x11111111, 0x22222222, 0x33333333]).setReg 4
          0x0300000C).blockArgs 0xE934000E) 0x03000000 [1, 2, 3] 0
        (((bootWith []).withIWRAM [0x11111111, 0x22222222, 0x33333333]).setReg 4
          0x0300000C)).map (fun t => (t.reg 1, t.reg 2, t.reg 3, t.reg 4))
        = some (0x11111111, 0x22222222, 0x33333333, 0x03000000) := by
  have h := C17_block_transfer_addresses_and_base
    (((bootWith []).withIWRAM [0x11111111, 0x22222222, 0x33333333]).setReg 4 0x0300000C)
    0xE934000E true (by decide) (by decide) (by decide)
  have hsome : ((((bootWith []).withIWRAM [0x11111111, 0x22222222, 0x33333333]).setReg 4
      0x0300000C).doBlockDataTransfer 0xE934000E true).isSome = true := by decide
  obtain ⟨t, ht⟩ := Option.isSome_iff_exists.1 hsome
  exact ⟨t, ht, (h.2 t (by decide) ht (by decide) (by decide)).trans (by decide), by decide⟩

theorem blockArgs_banked (s : AGBCPU) (opcode : Nat)
    (h : 16 ≤ s.mapReg ((opcode >>> 16) &&& 0xF)) :
    (blockArgs s opcode).writeBack = bitSet opcode 21 := by
  show (bitSet opcode 21 && !(bitSet opcode 20 && decide ((opcode % 65536)
    &&& (1 <<< s.mapReg ((opcode >>> 16) &&& 0xF)) ≠ 0))) = bitSet opcode 21
  have ht : (opcode % 65536).testBit (s.mapReg ((opcode >>> 16) &&& 0xF)) = false := by
    apply Nat.testBit_lt_two_pow
    exact Nat.lt_of_lt_of_le (Nat.mod_lt _ (by decide))
      (Nat.pow_le_pow_right (by decide : 2 > 0) h)
  have hz : ¬ ((opcode % 65536) &&& (1 <<< s.mapReg ((opcode >>> 16) &&& 0xF)) ≠ 0) := by
    rw [and_bit_ne_zero, ht]; decide
  simp [hz]

/-- C18 (the code breaks it for a banked base): the test that suppresses the write back,
`regList & (1 << baseReg)`, takes the physical slot of the base, so for a base in a
banked slot (16 and up) the write back is never suppressed.  After reset (supervisor
mode), `LDMIA R14!, {R14}` (0xE8BE4000) with R14 = 0x03000000 pointing at 0xAAAAAAAA ends
with R14 = 0x03000004, and `LDMIA R13!, {R13}` (0xE8BD2000) with R13 = 0x03000000 ends
with R13 = 0x03000004; in system mode the first ends with R14 = 0xAAAAAAAA.  The example of
the specification, `LDMIA R0!, {R0, R1}` (0xE8B00003) with R0 = 0x03000000 pointing at
{0xAAAAAAAA, 0xBBBBBBBB}, ends with R0 = 0xAAAAAAAA and R1 = 0xBBBBBBBB. -/
theorem C18_ldm_banked_base_written_back :
    (∀ (s : AGBCPU) (opcode : Nat), 16 ≤ s.mapReg ((opcode >>> 16) &&& 0xF) →
      (blockArgs s opcode).writeBack = bitSet opcode 21) ∧
    (bootWith [0xE8BE4000]).cpsr = 0xD3 ∧ (bootWith [0xE8BE4000]).mapReg 14 = 24 ∧
    (bootWith [0xE8BD2000]).mapReg 13 = 23 ∧
    (∀ mc, (executeARMInstruction mc
        (((bootWith [0xE8BE4000]).withIWRAM [0xAAAAAAAA, 0xBBBBBBBB]).setReg 14 0x03000000)).map
      (fun r => r.2.reg 14) = some 0x03000004) ∧
    (∀ mc, (executeARMInstruction mc
        (((bootWith [0xE8BD2000]).withIWRAM [0xAAAAAAAA, 0xBBBBBBBB]).setReg 13 0x03000000)).map
      (fun r => r.2.reg 13) = some 0x03000004) ∧
    (∀ mc, (executeARMInstruction mc
        (((({ bootWith [0xE8BE4000] with cpsr := 0xDF } : AGBCPU).modeChanged.getD blank).withIWRAM
          [0xAAAAAAAA, 0xBBBBBBBB]).setReg 14 0x03000000)).map
      (fun r => r.2.reg 14) = some 0xAAAAAAAA) ∧
    (∀ mc, (executeARMInstruction mc
        (((bootWith [0xE8B00003]).withIWRAM [0xAAAAAAAA, 0xBBBBBBBB]).setReg 0 0x03000000)).map
      (fun r => (r.2.reg 0, r.2.reg 1)) = some (0xAAAAAAAA, 0xBBBBBBBB)) := by
  refine ⟨blockArgs_banked, by decide, by decide, by decide, ?_, ?_, ?_, ?_⟩
  · decide!
  · decide!
  · decide!
  · decide!

/-- C18 at the machine after reset: with R14 in its supervisor slot 24 the write back of
`LDMIA R14!, {R14}` stays as the opcode has it. -/
theorem C18_ldm_banked_base_witness :
    16 ≤ (bootWith [0xE8BE4000]).mapReg ((0xE8BE4000 >>> 16) &&& 0xF) ∧
    (blockArgs (bootWith [0xE8BE4000]) 0xE8BE4000).writeBack = bitSet 0xE8BE4000 21 :=
  ⟨by decide, C18_ldm_banked_base_written_back.1 (bootWith [0xE8BE4000]) 0xE8BE4000 (by decide)⟩

/-! ## Wait control -/

theorem and_shift_field (x m k : Nat) : (x &&& (m <<< k)) >>> k = (x >>> k) &&& m := by
  apply Nat.eq_of_testBit_eq
  intro i
  rw [Nat.testBit_shiftRight, Nat.testBit_and, Nat.testBit_and, Nat.testBit_shiftRight,
    Nat.testBit_shiftLeft]
  have h1 : decide (k + i ≥ k) = true := by simp
  have h2 : k + i - k = i := by omega
  rw [h1, h2, Bool.true_and]

theorem field2 (x k : Nat) : (x &&& (3 <<< k)) >>> k = x / 2 ^ k % 4 := by
  rw [and_shift_field, Nat.shiftRight_eq_div_pow]
  exact Nat.and_pow_two_sub_one_eq_mod _ 2

theorem nTimings_lt (i : Nat) (h : i < 4) :
    AGBMemory.nTimings i = some ([4, 3, 2, 8].getD i 0) := by
  interval_cases i <;> rfl

theorem updateWaitControl_eq (m : AGBMemory) (w : Nat) :
    m.updateWaitControl w = some { m with
      cartAccessN := fun i =>
        if i = 0 then [4, 3, 2, 8].getD (w / 4 % 4) 0 + 1
        else if i = 1 then [4, 3, 2, 8].getD (w / 32 % 4) 0 + 1
        else if i = 2 then 5
        else if i = 3 then [4, 3, 2, 8].getD (w % 4) 0 + 1 else m.cartAccessN i,
      cartAccessS := fun i =>
        if i = 0 then (if (w % 65536).testBit 4 then 2 else 3)
        else if i = 1 then (if (w % 65536).testBit 7 then 2 else 5)
        else if i = 2 then (if (w % 65536).testBit 10 then 2 else 9)
        else if i = 3 then [4, 3, 2, 8].getD (w % 4) 0 + 1 else m.cartAccessS i } := by
  unfold AGBMemory.updateWaitControl
  have e0 : ((w % 65536) &&& WAITCNT_ROMWS0N) >>> 2 = w / 4 % 4 := by
    have := field2 (w % 65536) 2
    simp only [Nat.reducePow] at this
    show ((w % 65536) &&& (3 <<< 2)) >>> 2 = _
    rw [this]; omega
  have e1 : ((w % 65536) &&& WAITCNT_ROMWS1N) >>> 5 = w / 32 % 4 := by
    have := field2 (w % 65536) 5
    simp only [Nat.reducePow] at this
    show ((w % 65536) &&& (3 <<< 5)) >>> 5 = _
    rw [this]; omega
  have e2 : ((w % 65536) &&& WAITCNT_ROMWS1N) >>> 8 = 0 := by
    have h : (w % 65536) &&& WAITCNT_ROMWS1N ≤ 96 := Nat.and_le_right
    rw [Nat.shiftRight_eq_div_pow]
    simp only [Nat.reducePow]
    omega
  have e3 : (w % 65536) &&& WAITCNT_SRAM = w % 4 := by
    have := Nat.and_pow_two_sub_one_eq_mod (w % 65536) 2
    simp only [Nat.reducePow] at this
    show (w % 65536) &&& 3 = _
    rw [this]; omega
  have s0 : ((w % 65536) &&& WAITCNT_ROMWS0S ≠ 0) ↔ (w % 65536).testBit 4 = true :=
    and_pow_ne_zero (w % 65536) 4
  have s1 : ((w % 65536) &&& WAITCNT_ROMWS1S ≠ 0) ↔ (w % 65536).testBit 7 = true :=
    and_pow_ne_zero (w % 65536) 7
  have s2 : ((w % 65536) &&& WAITCNT_ROMWS2S ≠ 0) ↔ (w % 65536).testBit 10 = true :=
    and_pow_ne_zero (w % 65536) 10
  simp only [e0, e1, e2, e3, nTimings_lt _ (Nat.mod_lt _ (by decide : 4 > 0)),
    nTimings_lt 0 (by decide), s0, s1, s2]
  rfl
theorem getAccessCycles_cart (m : AGBMemory) (addr width : Nat) (sequential : Bool)
    (h1 : 8 ≤ addr >>> 24) (h2 : addr >>> 24 ≤ 0xF) :
    m.getAccessCycles addr width sequential
      = (if sequential then m.cartAccessS ((addr >>> 25) - 4) else m.cartAccessN ((addr >>> 25) - 4))
        + (if width = 4 then m.cartAccessS ((addr >>> 25) - 4) else 0) := by
  unfold AGBMemory.getAccessCycles
  simp only []
  rw [if_neg (by omega), if_neg (by omega), if_neg (by omega), if_pos ⟨h1, h2⟩]

/-- C27 (the code breaks it for window 2): `updateWaitControl(w)` returns for every `w`
and leaves the first-access count {4,3,2,8}[field] + 1 from bits 3..2 for window 0 and
from bits 6..5 for window 1, but for window 2 it indexes the table with
`(w & WAITCNT_ROMWS1N) >> 8`, which is 0: the count is 5 whatever bits 9..8 of `w` hold
(for w = 0x0100 the claim gives 3 + 1 = 4).  The second-access counts are 2 with the
window's S bit (4, 7, 10) and otherwise 3, 5, 9, and `getAccessCycles` on a cartridge
window returns N (or S if sequential) plus one more S for a 32-bit access and N or S
alone for any other width. -/
theorem C27_wait_control_window2_first_access :
    (∀ (m : AGBMemory) (w : Nat), ∃ t, m.updateWaitControl w = some t ∧
      t.cartAccessN 0 = [4, 3, 2, 8].getD (w / 4 % 4) 0 + 1 ∧
      t.cartAccessN 1 = [4, 3, 2, 8].getD (w / 32 % 4) 0 + 1 ∧
      t.cartAccessN 2 = 5 ∧
      t.cartAccessS 0 = (if (w % 65536).testBit 4 then 2 else 3) ∧
      t.cartAccessS 1 = (if (w % 65536).testBit 7 then 2 else 5) ∧
      t.cartAccessS 2 = (if (w % 65536).testBit 10 then 2 else 9)) ∧
    (∀ (m : AGBMemory) (addr width : Nat) (sequential : Bool),
      8 ≤ addr >>> 24 → addr >>> 24 ≤ 0xD →
      (addr >>> 25) - 4 = (addr >>> 24 - 8) / 2 ∧
      m.getAccessCycles addr width sequential
        = (if sequential then m.cartAccessS ((addr >>> 25) - 4)
            else m.cartAccessN ((addr >>> 25) - 4))
          + (if width = 4 then m.cartAccessS ((addr >>> 25) - 4) else 0)) ∧
    (blankMem.updateWaitControl 0x0100).map (fun t => t.cartAccessN 2) = some 5 ∧
    [4, 3, 2, 8].getD (0x0100 / 256 % 4) 0 + 1 = 4 ∧
    (blankMem.updateWaitControl 0x0100).map
      (fun t => (t.getAccessCycles 0x0C000000 2 false, t.getAccessCycles 0x0C000000 4 false))
      = some (5, 14) := by
  refine ⟨?_, ?_, by decide, by decide, by decide⟩
  · intro m w
    exact ⟨_, updateWaitControl_eq m w, rfl, rfl, rfl, rfl, rfl, rfl⟩
  · intro m addr width sequential h1 h2
    refine ⟨?_, getAccessCycles_cart m addr width sequential h1 (by omega)⟩
    rw [Nat.shiftRight_eq_div_pow, Nat.shiftRight_eq_div_pow] at *
    simp only [Nat.reducePow] at *
    omega

/-- C27 at the second wait-state window: a sequential 32-bit access at 0x0A000000 costs
two second-access counts. -/
theorem C27_wait_control_witness :
    8 ≤ 0x0A000000 >>> 24 ∧ 0x0A000000 >>> 24 ≤ 0xD ∧
    blankMem.getAccessCycles 0x0A000000 4 true
      = (if true then blankMem.cartAccessS ((0x0A000000 >>> 25) - 4)
          else blankMem.cartAccessN ((0x0A000000 >>> 25) - 4))
        + (if 4 = 4 then blankMem.cartAccessS ((0x0A000000 >>> 25) - 4) else 0) :=
  ⟨by decide, by decide,
    (C27_wait_control_window2_first_access.2.1 blankMem 0x0A000000 4 true (by decide)
      (by decide)).2⟩

/-! ## Masks as arithmetic -/

theorem and_field (x j k : Nat) : x &&& ((2 ^ j - 1) <<< k) = (x / 2 ^ k % 2 ^ j) * 2 ^ k := by
  have h1 : (x &&& ((2 ^ j - 1) <<< k)) / 2 ^ k = x / 2 ^ k % 2 ^ j := by
    rw [← Nat.shiftRight_eq_div_pow, and_shift_field, Nat.shiftRight_eq_div_pow]
    exact Nat.and_pow_two_sub_one_eq_mod _ j
  have h0 : ((2 ^ j - 1) <<< k) &&& (2 ^ k - 1) = 0 := by
    apply Nat.eq_of_testBit_eq
    intro i
    simp only [Nat.testBit_and, Nat.testBit_shiftLeft, Nat.testBit_two_pow_sub_one,
      Nat.zero_testBit]
    by_cases hik : i < k
    · have : decide (i ≥ k) = false := by simp; omega
      rw [this]; rfl
    · have : decide (i < k) = false := by simp; omega
      rw [this, Bool.and_false]
  have h2 : (x &&& ((2 ^ j - 1) <<< k)) % 2 ^ k = 0 := by
    rw [← Nat.and_pow_two_sub_one_eq_mod, Nat.and_assoc, h0, Nat.and_zero]
  have h3 := Nat.div_add_mod (x &&& ((2 ^ j - 1) <<< k)) (2 ^ k)
  rw [h1, h2, Nat.add_zero, Nat.mul_comm] at h3
  exact h3.symm

theorem and_bnot3 (x : Nat) (h : x < 4294967296) : x &&& bnot32 3 = x - x % 4 := by
  have e : bnot32 3 = (2 ^ 30 - 1) <<< 2 := by decide
  rw [e, and_field]
  simp only [Nat.reducePow]
  omega

theorem and_bnot1 (x : Nat) (h : x < 4294967296) : x &&& bnot32 1 = x - x % 2 := by
  have e : bnot32 1 = (2 ^ 31 - 1) <<< 1 := by decide
  rw [e, and_field]
  simp only [Nat.reducePow]
  omega

/-- C26 (counterexample to the claim as stated): an unmapped read does not depend on the
address: 16-bit reads at 0x01000000 and 0x01000002, at 0x10000004 and at 0x04000400 all
return 0xDD55, where the low bits of the address as a 16-bit pattern would differ. -/
theorem C26_counterexample_open_bus_constant :
    (blank.memRead 0x01000000 2).map Prod.fst = some 0xDD55 ∧
    (blank.memRead 0x01000002 2).map Prod.fst = some 0xDD55 ∧
    (blank.memRead 0x10000004 2).map Prod.fst = some 0xDD55 ∧
    (blank.memRead 0x04000400 2).map Prod.fst = some 0xDD55 ∧
    (0x01000000 >>> 1) &&& 0xFFFF ≠ (0x01000002 >>> 1) &&& 0xFFFF := by
  decide

/-- C26 (as the code has it): every read of 8, 16 or 32 bits (`w` = 1, 2, 4) from region
0x01xxxxxx, from a region above 0x0F, or from the IO region at or beyond 0x04000400
returns, leaves the state as it is, and yields the fixed word 0xBADADD55 cut to the width
of the read: 0x55, 0xDD55, 0xBADADD55; a 32-bit read of the IO region is put together
from two 16-bit reads and yields 0xDD55DD55. -/
theorem C26_open_bus_reads (s : AGBCPU) (addr w : Nat) (hw : w = 1 ∨ w = 2 ∨ w = 4)
    (hopen : addr >>> 24 = 0x1 ∨ 0xF < addr >>> 24 ∨ (addr >>> 24 = 0x4 ∧ 0x4000400 ≤ addr)) :
    s.memRead addr w
      = some (if addr >>> 24 = 0x4 ∧ w = 4 then 0xDD55DD55 else 0xBADADD55 % 256 ^ w, s) := by
  unfold memRead
  simp only []
  rcases hopen with h | h | ⟨h, hio⟩
  · rw [if_neg (by omega), if_pos h, if_neg (by omega)]
    rfl
  · rw [if_neg (by omega), if_neg (by omega), if_neg (by omega), if_neg (show ¬ _ by omega),
      if_neg (by omega), if_neg (by omega), if_neg (by omega), if_neg (show ¬ _ by omega),
      if_neg (by omega), if_neg (by omega), if_neg (by omega), if_neg (show ¬ _ by omega)]
    rfl
  · rw [if_neg (by omega), if_neg (by omega), if_neg (by omega), if_neg (by omega), if_pos h]
    by_cases h4 : w = 4
    · rw [if_pos h4, if_pos ⟨h, h4⟩]
      have hlt : addr < 4294967296 := by
        rw [Nat.shiftRight_eq_div_pow] at h
        simp only [Nat.reducePow] at h
        omega
      have ha : 0x4000400 ≤ addr &&& bnot32 3 := by
        rw [and_bnot3 addr hlt]; omega
      unfold doIORead32 doIORead16
      rw [if_pos ha]
      simp only []
      rw [if_pos (by omega)]
      rfl
    · rw [if_neg h4, if_neg (fun hc => h4 hc.2)]
      unfold doIORead16
      rw [if_pos hio]
      rfl

/-- C26 at a 32-bit read of 0x01000000: the read returns 0xBADADD55. -/
theorem C26_open_bus_witness :
    blank.memRead 0x01000000 4 = some (0xBADADD55, blank) :=
  (C26_open_bus_reads blank 0x01000000 4 (by decide) (by decide)).trans (by
    rw [if_neg (by decide)]; rfl)

/-! ## The flash bank register -/

theorem writeFlash_bank (m : AGBMemory) (data : Nat) (h : m.flashState = .Bank) :
    writeFlash m 0xE000000 data = some { m with flashBank := data, flashState := .Read } := by
  unfold writeFlash
  rw [if_pos ⟨h, rfl⟩]

/-- C29 (the code breaks it): the bank switch `flashBank = data` takes the whole byte.
From the machine after reset, the byte writes 0xAA to 0x0E005555, 0x55 to 0x0E002AAA,
0xB0 to 0x0E005555 (enter bank) and 2 to 0x0E000000 leave a Flash cartridge with bank
register 2, and the byte read of 0x0E000000 that follows indexes the save buffer at
0x20000, past its 128 KiB (no result); with 1 as the last byte the same read returns the
erased byte 0xFF.  In state Bank a write of any byte `data` to 0x0E000000 makes the bank
register `data`. -/
theorem C29_flash_bank_takes_whole_byte :
    (∀ (m : AGBMemory) (data : Nat), m.flashState = .Bank →
      (writeFlash m 0xE000000 data).map (fun t => t.flashBank) = some data) ∧
    ((bootWith []).busWrites
        [(0xE005555, 1, 0xAA), (0xE002AAA, 1, 0x55), (0xE005555, 1, 0xB0), (0xE000000, 1, 2)]).map
      (fun t => (decide (t.mem.saveType = .Flash), t.mem.flashBank)) = some (true, 2) ∧
    (((bootWith []).busWrites
        [(0xE005555, 1, 0xAA), (0xE002AAA, 1, 0x55), (0xE005555, 1, 0xB0), (0xE000000, 1, 2)]).bind
      fun t => t.memRead 0xE000000 1).isSome = false ∧
    (((bootWith []).busWrites
        [(0xE005555, 1, 0xAA), (0xE002AAA, 1, 0x55), (0xE005555, 1, 0xB0), (0xE000000, 1, 1)]).bind
      fun t => t.memRead 0xE000000 1).map Prod.fst = some 0xFF := by
  refine ⟨?_, by decide, by decide, by decide⟩
  intro m data h
  rw [writeFlash_bank m data h]
  rfl

/-- C29 at the bank switch with byte 5: the bank register becomes 5. -/
theorem C29_flash_bank_witness :
    ({ blankMem with flashState := .Bank } : AGBMemory).flashState = .Bank ∧
    (writeFlash ({ blankMem with flashState := .Bank } : AGBMemory) 0xE000000 5).map
      (fun t => t.flashBank) = some 5 :=
  ⟨rfl, C29_flash_bank_takes_whole_byte.1 _ 5 rfl⟩

/-! ## IO writes and the save type -/

theorem ioOnly_refl (s : AGBCPU) : ioOnly s s := rfl

theorem ioOnly_trans (s t u : AGBCPU) (h1 : ioOnly s t) (h2 : ioOnly t u) : ioOnly s u := by
  unfold ioOnly at *
  rw [h2, h1]

theorem timerStep_ioOnly (timer passed i : Nat) (s t : AGBCPU) (ov ov2 : Nat)
    (h : timerStep timer passed i s ov = some (t, ov2)) : ioOnly s t := by
  unfold timerStep at h
  simp only [Option.map_eq_some'] at h
  obtain ⟨u, hu, ht⟩ := h
  have hsu : ioOnly s u := by
    split_ifs at hu <;> first
      | (injection hu with hu; rw [← hu]; exact rfl)
      | exact absurd hu (by simp)
  refine ioOnly_trans s u t hsu ?_
  split_ifs at ht <;> (injection ht with ht1 ht2; rw [← ht1]; exact rfl)

theorem timerLoop_ioOnly (timer passed : Nat) :
    ∀ (fuel i enabled : Nat) (s t : AGBCPU) (ov : Nat),
      timerLoop fuel timer passed i enabled s ov = some t → ioOnly s t := by
  intro fuel
  induction fuel with
  | zero =>
    intro i enabled s t ov h
    injection h with h; rw [← h]; exact ioOnly_refl s
  | succ fuel ih =>
    intro i enabled s t ov h
    unfold timerLoop at h
    split_ifs at h with h0 h1
    · injection h with h; rw [← h]; exact ioOnly_refl s
    · exact ih _ _ _ _ _ h
    · cases hst : timerStep timer passed i s ov with
      | none => rw [hst] at h; exact absurd h (by simp)
      | some r =>
        obtain ⟨u, ov2⟩ := r
        rw [hst] at h
        exact ioOnly_trans s u t (timerStep_ioOnly _ _ _ _ _ _ _ hst) (ih _ _ _ _ _ h)

theorem updateTimers_ioOnly (s t : AGBCPU) (h : s.updateTimers = some t) : ioOnly s t := by
  unfold updateTimers at h
  simp only [Option.map_eq_some'] at h
  obtain ⟨u, hu, ht⟩ := h
  rw [← ht]
  exact ioOnly_trans s u _ (timerLoop_ioOnly _ _ _ _ _ _ _ _ hu) rfl

theorem writeReg_ioOnly (s t : AGBCPU) (addr data : Nat) (b : Bool)
    (h : s.writeReg addr data = some (b, t)) : ioOnly s t := by
  unfold writeReg at h
  dsimp only at h
  by_cases c0 : (s.displayWriteReg addr data || s.apuWriteReg addr data) = true
  · rw [if_pos c0] at h
    injection h with h; injection h with h1 h2; rw [← h2]; exact ioOnly_refl s
  rw [if_neg c0] at h
  by_cases c1 : addr &&& 16777215 = IO_DMA0CNT_H ∨ addr &&& 16777215 = IO_DMA0CNT_H + 12
      ∨ addr &&& 16777215 = IO_DMA0CNT_H + 24 ∨ addr &&& 16777215 = IO_DMA0CNT_H + 36
  · rw [if_pos c1] at h
    split_ifs at h <;>
      (injection h with h; injection h with h1 h2; rw [← h2]; exact rfl)
  rw [if_neg c1] at h
  by_cases c2 : addr &&& 16777215 = IO_TM0CNT_L ∨ addr &&& 16777215 = IO_TM0CNT_L + 4
      ∨ addr &&& 16777215 = IO_TM0CNT_L + 8 ∨ addr &&& 16777215 = IO_TM0CNT_L + 12
  · rw [if_pos c2] at h
    rw [Option.map_eq_some'] at h
    obtain ⟨u, hu, ht⟩ := h
    injection ht with h1 h2
    rw [← h2]; exact updateTimers_ioOnly s u hu
  rw [if_neg c2] at h
  by_cases c3 : addr &&& 16777215 = IO_TM0CNT_H ∨ addr &&& 16777215 = IO_TM0CNT_H + 4
      ∨ addr &&& 16777215 = IO_TM0CNT_H + 8 ∨ addr &&& 16777215 = IO_TM0CNT_H + 12
  · rw [if_pos c3] at h
    rw [Option.map_eq_some'] at h
    obtain ⟨u, hu, ht⟩ := h
    refine ioOnly_trans s u t (updateTimers_ioOnly s u hu) ?_
    split_ifs at ht <;>
      (injection ht with h1 h2; rw [← h2]; exact rfl)
  rw [if_neg c3] at h
  split_ifs at h <;>
    (injection h with h; injection h with h1 h2; rw [← h2]; exact rfl)

theorem doIOWrite16_ioOnly (s t : AGBCPU) (addr w data : Nat)
    (h : s.doIOWrite16 addr w data = some t) : ioOnly s t := by
  unfold doIOWrite16 at h
  by_cases c0 : addr ≥ 0x4000400
  · rw [if_pos c0] at h; injection h with h; rw [← h]; exact ioOnly_refl s
  rw [if_neg c0] at h
  cases hw : s.writeReg (addr &&& 0xFFFFFF) (data % 256 ^ w) with
  | none => rw [hw] at h; exact absurd h (by simp)
  | some r =>
    obtain ⟨b, u⟩ := r
    rw [hw] at h
    have hu := writeReg_ioOnly _ _ _ _ _ hw
    cases b
    · simp only [] at h
      injection h with h; rw [← h]
      exact ioOnly_trans s u _ hu rfl
    · simp only [] at h
      injection h with h; rw [← h]; exact hu

theorem doIOWrite32_ioOnly (s t : AGBCPU) (addr data : Nat)
    (h : s.doIOWrite32 addr data = some t) : ioOnly s t := by
  unfold doIOWrite32 at h
  cases h1 : s.doIOWrite16 addr 2 (data % 65536) with
  | none => rw [h1] at h; exact absurd h (by simp)
  | some u =>
    rw [h1] at h
    exact ioOnly_trans s u t (doIOWrite16_ioOnly _ _ _ _ _ h1) (doIOWrite16_ioOnly _ _ _ _ _ h)

theorem derefWrite_saveType (m m2 : AGBMemory) (p : Option Ptr) (w v : Nat)
    (h : m.derefWrite p w v = some m2) : m2.saveType = m.saveType := by
  unfold AGBMemory.derefWrite at h
  cases p with
  | none => exact absurd h (by simp)
  | some p =>
    simp only [] at h
    split_ifs at h
    injection h with h
    rw [← h]
    cases p.region <;> rfl

theorem writeFlash_saveType (m t : AGBMemory) (addr data : Nat)
    (h : writeFlash m addr data = some t) : t.saveType = m.saveType := by
  unfold writeFlash at h
  by_cases c0 : m.flashState = .Bank ∧ addr = 0xE000000
  · rw [if_pos c0] at h; injection h with h; rw [← h]
  rw [if_neg c0] at h
  by_cases c1 : m.flashState = .Write
  · rw [if_pos c1, Option.map_eq_some'] at h
    obtain ⟨m2, h2, h3⟩ := h
    rw [← h3]
    exact derefWrite_saveType m m2 _ _ _ h2
  rw [if_neg c1] at h
  by_cases c2 : m.flashCmdState = 0 ∧ addr = 0xE005555 ∧ data = 0xAA
  · rw [if_pos c2] at h; injection h with h; rw [← h]
  rw [if_neg c2] at h
  by_cases c3 : m.flashCmdState = 1 ∧ addr = 0xE002AAA ∧ data = 0x55
  · rw [if_pos c3] at h; injection h with h; rw [← h]
  rw [if_neg c3] at h
  by_cases c4 : m.flashCmdState = 2
  · rw [if_pos c4] at h
    simp only [] at h
    rw [Option.map_eq_some'] at h
    obtain ⟨m2, h2, h3⟩ := h
    rw [← h3]
    show m2.saveType = m.saveType
    by_cases d0 : data = 0x10 ∧ addr = 0xE005555 ∧ m.flashState = .Erase
    · rw [if_pos d0] at h2; injection h2 with h2; rw [← h2]
    rw [if_neg d0] at h2
    by_cases d1 : data = 0x30 ∧ m.flashState = .Erase
    · rw [if_pos d1] at h2
      split_ifs at h2
      injection h2 with h2; rw [← h2]
    rw [if_neg d1] at h2
    by_cases d2 : data = 0x80 ∧ addr = 0xE005555
    · rw [if_pos d2] at h2; injection h2 with h2; rw [← h2]
    rw [if_neg d2] at h2
    by_cases d3 : data = 0x90 ∧ addr = 0xE005555
    · rw [if_pos d3] at h2; injection h2 with h2; rw [← h2]
    rw [if_neg d3] at h2
    by_cases d4 : data = 0xA0 ∧ addr = 0xE005555
    · rw [if_pos d4] at h2; injection h2 with h2; rw [← h2]
    rw [if_neg d4] at h2
    by_cases d5 : data = 0xB0 ∧ addr = 0xE005555
    · rw [if_pos d5] at h2; injection h2 with h2; rw [← h2]
    rw [if_neg d5] at h2
    by_cases d6 : data = 0xF0 ∧ addr = 0xE005555
    · rw [if_pos d6] at h2; injection h2 with h2; rw [← h2]
    rw [if_neg d6] at h2
    injection h2 with h2; rw [← h2]
  rw [if_neg c4] at h
  injection h with h; rw [← h]

theorem doSRAMWrite8_saveType (s t : AGBCPU) (addr data : Nat)
    (h : s.doSRAMWrite8 addr data = some t) :
    t.mem.saveType = if s.mem.saveType = .Unknown then
        (if addr = 0xE005555 ∧ data = 0xAA then .Flash else .RAM)
      else s.mem.saveType := by
  unfold doSRAMWrite8 at h
  dsimp only at h
  by_cases hu : s.mem.saveType = .Unknown
  · rw [if_pos hu]
    rw [if_pos hu] at h
    by_cases hf : addr = 0xE005555 ∧ data = 0xAA
    · rw [if_pos hf]
      rw [if_pos hf, if_pos rfl] at h
      rw [Option.map_eq_some'] at h
      obtain ⟨m2, h2, h3⟩ := h
      rw [← h3]
      exact writeFlash_saveType _ _ _ _ h2
    · rw [if_neg hf]
      rw [if_neg hf, if_neg (fun hc => SaveType.noConfusion hc)] at h
      injection h with h; rw [← h]
  · rw [if_neg hu]
    rw [if_neg hu] at h
    split_ifs at h
    · rw [Option.map_eq_some'] at h
      obtain ⟨m2, h2, h3⟩ := h
      rw [← h3]
      exact writeFlash_saveType _ _ _ _ h2
    · injection h with h; rw [← h]
theorem map_mem_exists {α : Type} (s t : AGBCPU) (o : Option α) (f : α → AGBMemory)
    (h : o.map (fun a => ({ s with mem := f a } : AGBCPU)) = some t) :
    ∃ a, t = { s with mem := f a } := by
  cases o with
  | none => exact absurd h (by simp)
  | some x => injection h with h; exact ⟨x, h.symm⟩

theorem doEEPROMWrite_saveType (s t : AGBCPU) (addr w data : Nat)
    (h : s.doEEPROMWrite addr w data = some t) :
    t.mem.saveType = if w = 2 ∧ s.mem.saveType = .Unknown then .EEPROM else s.mem.saveType := by
  unfold doEEPROMWrite at h
  by_cases hw : w ≠ 2
  · rw [if_pos hw] at h
    injection h with h
    rw [← h, if_neg (fun hc => hw hc.1)]
  rw [if_neg hw] at h
  have hw2 : w = 2 := not_not.1 hw
  dsimp only at h
  by_cases hu : s.mem.saveType = .Unknown
  · rw [if_pos ⟨hw2, hu⟩]
    rw [if_pos hu, if_neg (fun hc => hc rfl)] at h
    split_ifs at h <;> first
      | (injection h with h; rw [← h]; done)
      | (injection h with h; rw [← h]; rfl)
      | (rw [Option.map_eq_some'] at h
         obtain ⟨m2, h2, h3⟩ := h
         rw [← h3]
         exact derefWrite_saveType _ m2 _ _ _ h2)
      | (cases map_mem_exists s t _ _ h with
         | intro a ha => rw [ha])
  · rw [if_neg (fun hc => hu hc.2)]
    rw [if_neg hu] at h
    by_cases he : s.mem.saveType ≠ .EEPROM
    · rw [if_pos he] at h
      injection h with h; rw [← h]
    · rw [if_neg he] at h
      split_ifs at h <;> first
        | (injection h with h; rw [← h]; done)
        | (injection h with h; rw [← h]; rfl)
        | (rw [Option.map_eq_some'] at h
           obtain ⟨m2, h2, h3⟩ := h
           rw [← h3]
           exact (derefWrite_saveType _ m2 _ _ _ h2).trans rfl)
        | (cases map_mem_exists s t _ _ h with
           | intro a ha => rw [ha])

theorem ioOnly_saveType (s t : AGBCPU) (h : ioOnly s t) : t.mem.saveType = s.mem.saveType := by
  unfold ioOnly at h
  rw [h]

/-- The byte a bus write of `w` bytes hands to the save region (`doSRAMWrite<T>`). -/
theorem doSRAMWrite_saveType (s t : AGBCPU) (addr w data : Nat)
    (h : s.doSRAMWrite addr w data = some t) :
    t.mem.saveType = if s.mem.saveType = .Unknown then
        (if addr = 0xE005555 ∧
            (if w = 1 then data % 256 else (data >>> ((addr &&& (w - 1)) * 8)) % 256) = 0xAA
          then .Flash else .RAM)
      else s.mem.saveType := by
  unfold doSRAMWrite at h
  by_cases hw : w = 1
  · rw [if_pos hw] at h
    rw [doSRAMWrite8_saveType s t _ _ h, if_pos hw]
  · rw [if_neg hw] at h
    rw [doSRAMWrite8_saveType s t _ _ h, if_neg hw]

theorem memWrite_saveType (s t : AGBCPU) (addr w data : Nat)
    (h : s.memWrite addr w data = some t) :
    t.mem.saveType =
      if s.mem.saveType ≠ .Unknown then s.mem.saveType
      else if addr >>> 24 = 0xD then (if w = 2 then .EEPROM else .Unknown)
      else if addr >>> 24 = 0xE ∨ addr >>> 24 = 0xF then
        (if addr = 0xE005555 ∧
            (if w = 1 then data % 256 else (data >>> ((addr &&& (w - 1)) * 8)) % 256) = 0xAA
          then .Flash else .RAM)
      else .Unknown := by
  have key : ∀ (top : Nat), top ≠ 0xD → ¬ (top = 0xE ∨ top = 0xF) →
      t.mem.saveType = s.mem.saveType → addr >>> 24 = top →
      t.mem.saveType =
        if s.mem.saveType ≠ .Unknown then s.mem.saveType
        else if addr >>> 24 = 0xD then (if w = 2 then .EEPROM else .Unknown)
        else if addr >>> 24 = 0xE ∨ addr >>> 24 = 0xF then
          (if addr = 0xE005555 ∧
              (if w = 1 then data % 256 else (data >>> ((addr &&& (w - 1)) * 8)) % 256) = 0xAA
            then .Flash else .RAM)
        else .Unknown := by
    intro top h1 h2 h3 h4
    rw [h3, h4, if_neg h1, if_neg h2]
    by_cases hu : s.mem.saveType = .Unknown
    · rw [if_neg (fun hc => hc hu), hu]
    · rw [if_pos hu]
  unfold memWrite at h
  dsimp only at h
  by_cases c0 : addr >>> 24 = 0 ∨ addr >>> 24 = 1
  · rw [if_pos c0] at h; injection h with h
    exact key _ (by omega) (by omega) (by rw [← h]) rfl
  rw [if_neg c0] at h
  by_cases c2 : addr >>> 24 = 2
  · rw [if_pos c2] at h; injection h with h
    exact key _ (by omega) (by omega) (by rw [← h]) rfl
  rw [if_neg c2] at h
  by_cases c3 : addr >>> 24 = 3
  · rw [if_pos c3] at h; injection h with h
    exact key _ (by omega) (by omega) (by rw [← h]) rfl
  rw [if_neg c3] at h
  by_cases c4 : addr >>> 24 = 4
  · rw [if_pos c4] at h
    refine key _ (by omega) (by omega) ?_ rfl
    by_cases cw : w = 4
    · rw [if_pos cw] at h; exact ioOnly_saveType _ _ (doIOWrite32_ioOnly _ _ _ _ h)
    · rw [if_neg cw] at h; exact ioOnly_saveType _ _ (doIOWrite16_ioOnly _ _ _ _ _ h)
  rw [if_neg c4] at h
  by_cases c5 : addr >>> 24 = 5
  · rw [if_pos c5] at h; injection h with h
    refine key _ (by omega) (by omega) ?_ rfl
    rw [← h]; unfold doPalRAMWrite; split_ifs <;> rfl
  rw [if_neg c5] at h
  by_cases c6 : addr >>> 24 = 6
  · rw [if_pos c6] at h; injection h with h
    refine key _ (by omega) (by omega) ?_ rfl
    rw [← h]; unfold doVRAMWrite; split_ifs <;> rfl
  rw [if_neg c6] at h
  by_cases c7 : addr >>> 24 = 7
  · rw [if_pos c7] at h; injection h with h
    refine key _ (by omega) (by omega) ?_ rfl
    rw [← h]; unfold doOAMWrite; split_ifs <;> rfl
  rw [if_neg c7] at h
  by_cases c8 : 8 ≤ addr >>> 24 ∧ addr >>> 24 ≤ 12
  · rw [if_pos c8] at h; injection h with h
    exact key _ (by omega) (by omega) (by rw [← h]) rfl
  rw [if_neg c8] at h
  by_cases c9 : addr >>> 24 = 13
  · rw [if_pos c9] at h
    rw [doEEPROMWrite_saveType s t _ _ _ h]
    by_cases hu : s.mem.saveType = .Unknown
    · rw [if_neg (show ¬ (s.mem.saveType ≠ .Unknown) from fun hc => hc hu), if_pos c9]
      by_cases hw : w = 2
      · rw [if_pos (show w = 2 ∧ s.mem.saveType = .Unknown from ⟨hw, hu⟩), if_pos hw]
      · rw [if_neg (show ¬ (w = 2 ∧ s.mem.saveType = .Unknown) from fun hc => hw hc.1),
          if_neg hw, hu]
    · rw [if_pos (show s.mem.saveType ≠ .Unknown from hu),
        if_neg (show ¬ (w = 2 ∧ s.mem.saveType = .Unknown) from fun hc => hu hc.2)]
  rw [if_neg c9] at h
  by_cases c10 : addr >>> 24 = 14 ∨ addr >>> 24 = 15
  · rw [if_pos c10] at h
    rw [doSRAMWrite_saveType s t _ _ _ h]
    by_cases hu : s.mem.saveType = .Unknown
    · rw [if_pos hu, if_neg (show ¬ (s.mem.saveType ≠ .Unknown) from fun hc => hc hu),
        if_neg c9, if_pos c10]
    · rw [if_neg hu, if_pos (show s.mem.saveType ≠ .Unknown from hu)]
  rw [if_neg c10] at h
  injection h with h
  exact key _ (by omega) (by omega) (by rw [← h]) rfl

theorem writeFlash_read_some (m : AGBMemory) (addr data : Nat) (h : m.flashState = .Read) :
    ∃ t, writeFlash m addr data = some t := by
  unfold writeFlash
  have n0 : ¬ (m.flashState = .Bank ∧ addr = 0xE000000) := by
    rw [h]; exact fun hc => FlashState.noConfusion hc.1
  have n1 : ¬ (m.flashState = .Write) := by
    rw [h]; exact fun hc => FlashState.noConfusion hc
  rw [if_neg n0, if_neg n1]
  by_cases c2 : m.flashCmdState = 0 ∧ addr = 0xE005555 ∧ data = 0xAA
  · rw [if_pos c2]; exact ⟨_, rfl⟩
  rw [if_neg c2]
  by_cases c3 : m.flashCmdState = 1 ∧ addr = 0xE002AAA ∧ data = 0x55
  · rw [if_pos c3]; exact ⟨_, rfl⟩
  rw [if_neg c3]
  by_cases c4 : m.flashCmdState = 2
  · rw [if_pos c4]
    have d0 : ¬ (data = 0x10 ∧ addr = 0xE005555 ∧ m.flashState = .Erase) := by
      rw [h]; exact fun hc => FlashState.noConfusion hc.2.2
    have d1 : ¬ (data = 0x30 ∧ m.flashState = .Erase) := by
      rw [h]; exact fun hc => FlashState.noConfusion hc.2
    simp only []
    rw [if_neg d0, if_neg d1]
    by_cases d2 : data = 0x80 ∧ addr = 0xE005555
    · rw [if_pos d2]; exact ⟨_, rfl⟩
    rw [if_neg d2]
    by_cases d3 : data = 0x90 ∧ addr = 0xE005555
    · rw [if_pos d3]; exact ⟨_, rfl⟩
    rw [if_neg d3]
    by_cases d4 : data = 0xA0 ∧ addr = 0xE005555
    · rw [if_pos d4]; exact ⟨_, rfl⟩
    rw [if_neg d4]
    by_cases d5 : data = 0xB0 ∧ addr = 0xE005555
    · rw [if_pos d5]; exact ⟨_, rfl⟩
    rw [if_neg d5]
    by_cases d6 : data = 0xF0 ∧ addr = 0xE005555
    · rw [if_pos d6]; exact ⟨_, rfl⟩
    rw [if_neg d6]
    exact ⟨_, rfl⟩
  rw [if_neg c4]
  exact ⟨_, rfl⟩

theorem doSRAMWrite8_first_some (s : AGBCPU) (addr data : Nat)
    (hu : s.mem.saveType = .Unknown) (hr : s.mem.flashState = .Read) :
    ∃ t, s.doSRAMWrite8 addr data = some t := by
  unfold doSRAMWrite8
  dsimp only
  rw [if_pos hu]
  by_cases hf : addr = 0xE005555 ∧ data = 0xAA
  · rw [if_pos hf, if_pos rfl]
    obtain ⟨m2, h2⟩ := writeFlash_read_some
      ({ s.mem with saveType := .Flash } : AGBMemory) addr data hr
    rw [h2]
    exact ⟨_, rfl⟩
  · rw [if_neg hf, if_neg (fun hc => SaveType.noConfusion hc)]
    exact ⟨_, rfl⟩

theorem memWrite_save_first_some (s : AGBCPU) (addr data : Nat)
    (hu : s.mem.saveType = .Unknown) (hr : s.mem.flashState = .Read)
    (ht : addr >>> 24 = 0xE ∨ addr >>> 24 = 0xF) :
    ∃ t, s.memWrite addr 1 data = some t := by
  unfold memWrite
  dsimp only
  rw [if_neg (by omega), if_neg (by omega), if_neg (by omega), if_neg (show ¬ _ by omega),
    if_neg (by omega), if_neg (by omega), if_neg (by omega), if_neg (show ¬ _ by omega),
    if_neg (by omega), if_pos ht]
  unfold doSRAMWrite
  rw [if_pos rfl]
  exact doSRAMWrite8_first_some s addr _ hu hr

theorem memWrite_eeprom_first_some (s : AGBCPU) (addr data : Nat)
    (ht : addr >>> 24 = 0xD) (h1 : addr &&& 0xFF ≠ 0x10) (h2 : addr &&& 0xFF ≠ 0x90) :
    ∃ t, s.memWrite addr 2 data = some t := by
  unfold memWrite
  dsimp only
  rw [if_neg (by omega), if_neg (by omega), if_neg (by omega), if_neg (show ¬ _ by omega),
    if_neg (by omega), if_neg (by omega), if_neg (by omega), if_neg (show ¬ _ by omega),
    if_pos ht]
  unfold doEEPROMWrite
  rw [if_neg (fun hc => hc rfl)]
  dsimp only
  split_ifs <;> first
    | exact ⟨_, rfl⟩
    | exact absurd ‹_ ∧ _›.1 h1
    | exact absurd ‹_ ∧ _›.1 h2

/-- C28: the save type after a bus write of `w` bytes that completes is the type before
it unless that was Unknown; from Unknown a write to the save region (0x0E, 0x0F) selects
Flash if and only if it is at 0x0E005555 and hands the byte 0xAA to the region (for a byte
write, its data), and SRAM otherwise, a 16-bit write to the 0x0D window selects EEPROM,
and every other write leaves Unknown.  From Unknown with the flash state Read (as reset
leaves it) every byte write to the save region completes, and so does a 16-bit write to
the 0x0D window that does not end an EEPROM request (offsets 0x10 and 0x90). -/
theorem C28_save_type_one_shot (s : AGBCPU) (addr w data : Nat) :
    (∀ t, s.memWrite addr w data = some t →
      t.mem.saveType =
        if s.mem.saveType ≠ .Unknown then s.mem.saveType
        else if addr >>> 24 = 0xD then (if w = 2 then .EEPROM else .Unknown)
        else if addr >>> 24 = 0xE ∨ addr >>> 24 = 0xF then
          (if addr = 0xE005555 ∧
              (if w = 1 then data % 256 else (data >>> ((addr &&& (w - 1)) * 8)) % 256) = 0xAA
            then .Flash else .RAM)
        else .Unknown) ∧
    (s.mem.saveType = .Unknown → s.mem.flashState = .Read →
      (addr >>> 24 = 0xE ∨ addr >>> 24 = 0xF) →
      ∃ t, s.memWrite addr 1 data = some t ∧
        t.mem.saveType = if addr = 0xE005555 ∧ data % 256 = 0xAA then .Flash else .RAM) ∧
    (s.mem.saveType = .Unknown → addr >>> 24 = 0xD → addr &&& 0xFF ≠ 0x10 →
      addr &&& 0xFF ≠ 0x90 →
      ∃ t, s.memWrite addr 2 data = some t ∧ t.mem.saveType = .EEPROM) := by
  refine ⟨fun t h => memWrite_saveType s t addr w data h, ?_, ?_⟩
  · intro hu hr ht
    obtain ⟨t, h⟩ := memWrite_save_first_some s addr data hu hr ht
    refine ⟨t, h, ?_⟩
    rw [memWrite_saveType s t addr 1 data h,
      if_neg (show ¬ (s.mem.saveType ≠ .Unknown) from fun hc => hc hu),
      if_neg (by omega), if_pos ht, if_pos rfl]
  · intro hu ht h1 h2
    obtain ⟨t, h⟩ := memWrite_eeprom_first_some s addr data ht h1 h2
    refine ⟨t, h, ?_⟩
    rw [memWrite_saveType s t addr 2 data h,
      if_neg (show ¬ (s.mem.saveType ≠ .Unknown) from fun hc => hc hu),
      if_pos ht, if_pos rfl]

/-- C28 on the machine after reset: the byte write of 0xAA to 0x0E005555 completes and
selects Flash, and the byte write of 0x55 to 0x0E002AAA that follows completes and leaves
Flash. -/
theorem C28_save_type_witness :
    (∃ t, (bootWith []).memWrite 0xE005555 1 0xAA = some t ∧
      t.mem.saveType = if 0xE005555 = 0xE005555 ∧ 0xAA % 256 = 0xAA then .Flash else .RAM) ∧
    ((bootWith []).busWrites [(0xE005555, 1, 0xAA), (0xE002AAA, 1, 0x55)]).map
      (fun t => decide (t.mem.saveType = .Flash)) = some true :=
  ⟨(C28_save_type_one_shot (bootWith []) 0xE005555 1 0xAA).2.1 (by decide) (by decide)
      (by decide), by decide⟩

/-! ## The serviceable-interrupt cache of the CPU-32 core -/

theorem loadLE2_storeLE2_same (b : Nat → Nat) (off v : Nat) :
    loadLE (storeLE b off 2 v) off 2 = v % 65536 := by
  simp only [loadLE, storeLE]
  rw [if_pos (by omega), if_pos (by omega)]
  have e1 : off - off = 0 := by omega
  have e2 : off + 1 - off = 1 := by omega
  rw [e1, e2]
  simp only [Nat.pow_zero, Nat.pow_one, Nat.div_one, Nat.mul_zero, Nat.add_zero]
  omega

theorem loadLE2_storeLE2_ne (b : Nat → Nat) (off off2 v : Nat)
    (h : off + 2 ≤ off2 ∨ off2 + 2 ≤ off) :
    loadLE (storeLE b off 2 v) off2 2 = loadLE b off2 2 := by
  simp only [loadLE, storeLE]
  rw [if_neg (by omega), if_neg (by omega)]

theorem writeReg_IE_eq (s : AGBCPU) (data : Nat)
    (hd : s.displayWriteReg 0x200 data = false) (ha : s.apuWriteReg 0x200 data = false) :
    s.writeReg 0x200 data = some (false,
      { s with
        enabledInterrutps := if s.mem.readIOReg IO_IME &&& 1 ≠ 0 then data % 65536 else 0,
        currentInterrupts :=
          (if s.mem.readIOReg IO_IME &&& 1 ≠ 0 then data % 65536 else 0) &&& s.mem.readIOReg IO_IF }) := by
  unfold writeReg
  rw [hd, ha]
  have e1 : (0x200 &&& 0xFFFFFF : Nat) = 0x200 := by decide
  simp only [Bool.or_self, Bool.false_eq_true, if_false, e1]
  rw [if_neg (by decide), if_neg (by decide), if_neg (by decide), if_pos (by decide)]

theorem writeReg_IF_eq (s : AGBCPU) (data : Nat)
    (hd : s.displayWriteReg 0x202 data = false) (ha : s.apuWriteReg 0x202 data = false) :
    s.writeReg 0x202 data = some (true,
      { s with
        mem := s.mem.writeIOReg IO_IF (s.mem.readIOReg IO_IF &&& bnot32 data),
        currentInterrupts :=
          if (s.mem.writeIOReg IO_IF (s.mem.readIOReg IO_IF &&& bnot32 data)).readIOReg IO_IME
              &&& 1 ≠ 0 then
            (s.mem.writeIOReg IO_IF (s.mem.readIOReg IO_IF &&& bnot32 data)).readIOReg IO_IE
              &&& (s.mem.readIOReg IO_IF &&& bnot32 data)
          else 0 }) := by
  unfold writeReg
  rw [hd, ha]
  have e1 : (0x202 &&& 0xFFFFFF : Nat) = 0x202 := by decide
  simp only [Bool.or_self, Bool.false_eq_true, if_false, e1]
  rw [if_neg (by decide), if_neg (by decide), if_neg (by decide), if_neg (by decide),
    if_pos (by decide)]

theorem writeReg_IME_eq (s : AGBCPU) (data : Nat)
    (hd : s.displayWriteReg 0x208 data = false) (ha : s.apuWriteReg 0x208 data = false) :
    s.writeReg 0x208 data = some (false,
      { s with
        enabledInterrutps := if data &&& 1 ≠ 0 then s.mem.readIOReg IO_IE else 0,
        currentInterrupts :=
          (if data &&& 1 ≠ 0 then s.mem.readIOReg IO_IE else 0) &&& s.mem.readIOReg IO_IF }) := by
  unfold writeReg
  rw [hd, ha]
  have e1 : (0x208 &&& 0xFFFFFF : Nat) = 0x208 := by decide
  simp only [Bool.or_self, Bool.false_eq_true, if_false, e1]
  rw [if_neg (by decide), if_neg (by decide), if_neg (by decide), if_neg (by decide),
    if_neg (by decide), if_pos (by decide)]
theorem ite_and_zero (c : Prop) [Decidable c] (a b : Nat) :
    (if c then a else 0) &&& b = if c then a &&& b else 0 := by
  split
  · rfl
  · exact Nat.zero_and b

theorem memWrite_io16 (s : AGBCPU) (addr data : Nat) (h4 : addr >>> 24 = 4) :
    s.memWrite addr 2 data = s.doIOWrite16 addr 2 data := by
  unfold memWrite
  simp only []
  rw [if_neg (by omega), if_neg (by omega), if_neg (by omega), if_pos h4, if_neg (by decide)]

theorem memWrite_IE (s : AGBCPU) (data : Nat)
    (hd : s.displayWriteReg 0x200 (data % 65536) = false)
    (ha : s.apuWriteReg 0x200 (data % 65536) = false) :
    ∃ t, s.memWrite 0x4000200 2 data = some t ∧
      t.mem.readIOReg IO_IE = data % 65536 ∧
      t.mem.readIOReg IO_IF = s.mem.readIOReg IO_IF ∧
      t.mem.readIOReg IO_IME = s.mem.readIOReg IO_IME ∧
      t.enabledInterrutps = (if t.mem.readIOReg IO_IME &&& 1 ≠ 0 then t.mem.readIOReg IO_IE else 0) ∧
      t.currentInterrupts = (if t.mem.readIOReg IO_IME &&& 1 ≠ 0 then
        t.mem.readIOReg IO_IE &&& t.mem.readIOReg IO_IF else 0) := by
  have e0 : (0x4000200 >>> 24 : Nat) = 4 := by decide
  have e1 : (0x4000200 &&& 0xFFFFFF : Nat) = 0x200 := by decide
  have e2 : (0x4000200 &&& (0x400 - 2) : Nat) = 0x200 := by decide
  have e3 : data % 256 ^ 2 = data % 65536 := by simp only [Nat.reducePow]
  have hw : s.memWrite 0x4000200 2 data = some
      { s with
        enabledInterrutps := if s.mem.readIOReg IO_IME &&& 1 ≠ 0 then data % 65536 else 0,
        currentInterrupts :=
          (if s.mem.readIOReg IO_IME &&& 1 ≠ 0 then data % 65536 else 0) &&& s.mem.readIOReg IO_IF,
        mem := { s.mem with ioRegs := storeLE s.mem.ioRegs 0x200 2 data } } := by
    rw [memWrite_io16 s _ data e0]
    unfold doIOWrite16
    rw [if_neg (by decide), e1, e3, writeReg_IE_eq s _ hd ha]
    simp only [doWrite, e2, Nat.mod_mod]
  refine ⟨_, hw, ?_, ?_, ?_, ?_, ?_⟩
  · exact loadLE2_storeLE2_same _ _ _
  · exact loadLE2_storeLE2_ne _ 0x200 0x202 _ (by decide)
  · exact loadLE2_storeLE2_ne _ 0x200 0x208 _ (by decide)
  · show (if s.mem.readIOReg IO_IME &&& 1 ≠ 0 then data % 65536 else 0)
      = if loadLE (storeLE s.mem.ioRegs 0x200 2 data) 0x208 2 &&& 1 ≠ 0
          then loadLE (storeLE s.mem.ioRegs 0x200 2 data) 0x200 2 else 0
    rw [loadLE2_storeLE2_same, loadLE2_storeLE2_ne _ 0x200 0x208 _ (by decide)]
    rfl
  · show (if s.mem.readIOReg IO_IME &&& 1 ≠ 0 then data % 65536 else 0) &&& s.mem.readIOReg IO_IF
      = if loadLE (storeLE s.mem.ioRegs 0x200 2 data) 0x208 2 &&& 1 ≠ 0
          then loadLE (storeLE s.mem.ioRegs 0x200 2 data) 0x200 2
            &&& loadLE (storeLE s.mem.ioRegs 0x200 2 data) 0x202 2 else 0
    rw [loadLE2_storeLE2_same, loadLE2_storeLE2_ne _ 0x200 0x208 _ (by decide),
      loadLE2_storeLE2_ne _ 0x200 0x202 _ (by decide), ite_and_zero]
    rfl
theorem loadLE2_lt (b : Nat → Nat) (off : Nat) : loadLE b off 2 < 65536 := by
  simp only [loadLE]
  omega

theorem memWrite_IF (s : AGBCPU) (data : Nat)
    (hd : s.displayWriteReg 0x202 (data % 65536) = false)
    (ha : s.apuWriteReg 0x202 (data % 65536) = false) :
    ∃ t, s.memWrite 0x4000202 2 data = some t ∧
      t.mem.readIOReg IO_IE = s.mem.readIOReg IO_IE ∧
      t.mem.readIOReg IO_IF = s.mem.readIOReg IO_IF &&& bnot32 (data % 65536) ∧
      t.mem.readIOReg IO_IME = s.mem.readIOReg IO_IME ∧
      t.enabledInterrutps = s.enabledInterrutps ∧
      t.currentInterrupts = (if t.mem.readIOReg IO_IME &&& 1 ≠ 0 then
        t.mem.readIOReg IO_IE &&& t.mem.readIOReg IO_IF else 0) := by
  have e0 : (0x4000202 >>> 24 : Nat) = 4 := by decide
  have e1 : (0x4000202 &&& 0xFFFFFF : Nat) = 0x202 := by decide
  have e3 : data % 256 ^ 2 = data % 65536 := by simp only [Nat.reducePow]
  have hw : s.memWrite 0x4000202 2 data = some
      { s with
        mem := s.mem.writeIOReg IO_IF (s.mem.readIOReg IO_IF &&& bnot32 (data % 65536)),
        currentInterrupts :=
          if (s.mem.writeIOReg IO_IF (s.mem.readIOReg IO_IF &&& bnot32 (data % 65536))).readIOReg
              IO_IME &&& 1 ≠ 0 then
            (s.mem.writeIOReg IO_IF (s.mem.readIOReg IO_IF &&& bnot32 (data % 65536))).readIOReg
              IO_IE &&& (s.mem.readIOReg IO_IF &&& bnot32 (data % 65536))
          else 0 } := by
    rw [memWrite_io16 s _ data e0]
    unfold doIOWrite16
    rw [if_neg (by decide), e1, e3, writeReg_IF_eq s _ hd ha]
  have hlt : s.mem.readIOReg IO_IF &&& bnot32 (data % 65536) < 65536 :=
    Nat.lt_of_le_of_lt Nat.and_le_left (loadLE2_lt _ _)
  have hIF : (s.mem.writeIOReg IO_IF (s.mem.readIOReg IO_IF &&& bnot32 (data % 65536))).readIOReg
      IO_IF = s.mem.readIOReg IO_IF &&& bnot32 (data % 65536) := by
    show loadLE (storeLE s.mem.ioRegs 0x202 2 _) 0x202 2 = _
    rw [loadLE2_storeLE2_same, Nat.mod_eq_of_lt hlt]
  have hIE : (s.mem.writeIOReg IO_IF (s.mem.readIOReg IO_IF &&& bnot32 (data % 65536))).readIOReg
      IO_IE = s.mem.readIOReg IO_IE :=
    loadLE2_storeLE2_ne _ 0x202 0x200 _ (by decide)
  have hIME : (s.mem.writeIOReg IO_IF (s.mem.readIOReg IO_IF &&& bnot32 (data % 65536))).readIOReg
      IO_IME = s.mem.readIOReg IO_IME :=
    loadLE2_storeLE2_ne _ 0x202 0x208 _ (by decide)
  refine ⟨_, hw, hIE, hIF, hIME, rfl, ?_⟩
  show (if _ then _ else 0) = if _ then _ else 0
  rw [hIF]

theorem memWrite_IME (s : AGBCPU) (data : Nat)
    (hd : s.displayWriteReg 0x208 (data % 65536) = false)
    (ha : s.apuWriteReg 0x208 (data % 65536) = false) :
    ∃ t, s.memWrite 0x4000208 2 data = some t ∧
      t.mem.readIOReg IO_IE = s.mem.readIOReg IO_IE ∧
      t.mem.readIOReg IO_IF = s.mem.readIOReg IO_IF ∧
      t.mem.readIOReg IO_IME = data % 65536 ∧
      t.enabledInterrutps = (if t.mem.readIOReg IO_IME &&& 1 ≠ 0 then t.mem.readIOReg IO_IE else 0) ∧
      t.currentInterrupts = (if t.mem.readIOReg IO_IME &&& 1 ≠ 0 then
        t.mem.readIOReg IO_IE &&& t.mem.readIOReg IO_IF else 0) := by
  have e0 : (0x4000208 >>> 24 : Nat) = 4 := by decide
  have e1 : (0x4000208 &&& 0xFFFFFF : Nat) = 0x208 := by decide
  have e2 : (0x4000208 &&& (0x400 - 2) : Nat) = 0x208 := by decide
  have e3 : data % 256 ^ 2 = data % 65536 := by simp only [Nat.reducePow]
  have hw : s.memWrite 0x4000208 2 data = some
      { s with
        enabledInterrutps := if data % 65536 &&& 1 ≠ 0 then s.mem.readIOReg IO_IE else 0,
        currentInterrupts :=
          (if data % 65536 &&& 1 ≠ 0 then s.mem.readIOReg IO_IE else 0) &&& s.mem.readIOReg IO_IF,
        mem := { s.mem with ioRegs := storeLE s.mem.ioRegs 0x208 2 data } } := by
    rw [memWrite_io16 s _ data e0]
    unfold doIOWrite16
    rw [if_neg (by decide), e1, e3, writeReg_IME_eq s _ hd ha]
    simp only [doWrite, e2]
  refine ⟨_, hw, ?_, ?_, ?_, ?_, ?_⟩
  · exact loadLE2_storeLE2_ne _ 0x208 0x200 _ (by decide)
  · exact loadLE2_storeLE2_ne _ 0x208 0x202 _ (by decide)
  · exact loadLE2_storeLE2_same _ _ _
  · show (if data % 65536 &&& 1 ≠ 0 then s.mem.readIOReg IO_IE else 0)
      = if loadLE (storeLE s.mem.ioRegs 0x208 2 data) 0x208 2 &&& 1 ≠ 0
          then loadLE (storeLE s.mem.ioRegs 0x208 2 data) 0x200 2 else 0
    rw [loadLE2_storeLE2_same, loadLE2_storeLE2_ne _ 0x208 0x200 _ (by decide)]
    rfl
  · show (if data % 65536 &&& 1 ≠ 0 then s.mem.readIOReg IO_IE else 0) &&& s.mem.readIOReg IO_IF
      = if loadLE (storeLE s.mem.ioRegs 0x208 2 data) 0x208 2 &&& 1 ≠ 0
          then loadLE (storeLE s.mem.ioRegs 0x208 2 data) 0x200 2
            &&& loadLE (storeLE s.mem.ioRegs 0x208 2 data) 0x202 2 else 0
    rw [loadLE2_storeLE2_same, loadLE2_storeLE2_ne _ 0x208 0x200 _ (by decide),
      loadLE2_storeLE2_ne _ 0x208 0x202 _ (by decide), ite_and_zero]
    rfl

/-- `flagInterrupt` ORs its argument into IF and sets `currentInterrupts` to
`enabledInterrutps` AND IF; it reads neither IE nor IME. -/
theorem flagInterrupt_cached (s : AGBCPU) (interrupt : Nat) :
    (s.flagInterrupt interrupt).mem.readIOReg IO_IF
      = (s.mem.readIOReg IO_IF ||| interrupt) % 65536 ∧
    (s.flagInterrupt interrupt).mem.readIOReg IO_IE = s.mem.readIOReg IO_IE ∧
    (s.flagInterrupt interrupt).mem.readIOReg IO_IME = s.mem.readIOReg IO_IME ∧
    (s.flagInterrupt interrupt).enabledInterrutps = s.enabledInterrutps ∧
    (s.flagInterrupt interrupt).currentInterrupts
      = s.enabledInterrutps &&& (s.flagInterrupt interrupt).mem.readIOReg IO_IF ∧
    (s.enabledInterrutps
        = (if s.mem.readIOReg IO_IME &&& 1 ≠ 0 then s.mem.readIOReg IO_IE else 0) →
      (s.flagInterrupt interrupt).currentInterrupts
        = (if (s.flagInterrupt interrupt).mem.readIOReg IO_IME &&& 1 ≠ 0 then
            (s.flagInterrupt interrupt).mem.readIOReg IO_IE
              &&& (s.flagInterrupt interrupt).mem.readIOReg IO_IF else 0)) := by
  have hIF : (s.flagInterrupt interrupt).mem.readIOReg IO_IF
      = (s.mem.readIOReg IO_IF ||| interrupt) % 65536 := loadLE2_storeLE2_same _ _ _
  have hIE : (s.flagInterrupt interrupt).mem.readIOReg IO_IE = s.mem.readIOReg IO_IE :=
    loadLE2_storeLE2_ne _ 0x202 0x200 _ (by decide)
  have hIME : (s.flagInterrupt interrupt).mem.readIOReg IO_IME = s.mem.readIOReg IO_IME :=
    loadLE2_storeLE2_ne _ 0x202 0x208 _ (by decide)
  refine ⟨hIF, hIE, hIME, rfl, rfl, ?_⟩
  intro h
  show s.enabledInterrutps &&& (s.flagInterrupt interrupt).mem.readIOReg IO_IF = _
  rw [h, hIE, hIME, ite_and_zero]

/-- The cache `enabledInterrutps` follows IE and IME only through the write hook.  After
reset and the bus write of 1 to IME, `STMIA R13, {R0}` (0xE88D0001) with R13 = 0x04000200
and R0 = 1 stores 1 in IE through the direct pointer of `mapAddress`; `flagInterrupt(1)`
then leaves IME = 1 and IE AND IF = 1, but `enabledInterrutps` = 0 and
`currentInterrupts` = 0. -/
theorem flagInterrupt_after_pointer_store :
    ∀ mc, ((((bootWith [0xE88D0001]).memWrite 0x4000208 2 1).bind fun s =>
        executeARMInstruction mc ((s.setReg 13 0x04000200).setReg 0 1)).map fun r =>
      ((r.2.flagInterrupt 1).mem.readIOReg IO_IME,
        (r.2.flagInterrupt 1).mem.readIOReg IO_IE &&& (r.2.flagInterrupt 1).mem.readIOReg IO_IF,
        (r.2.flagInterrupt 1).enabledInterrutps, (r.2.flagInterrupt 1).currentInterrupts))
      = some (1, 1, 0, 0) := by
  decide!

/-- C30 (counterexample to the claim as stated): on the machine after reset (IME = 0),
after `flagInterrupt(1)` and the 16-bit write of 1 to IE (0x04000200), IE AND IF is 1 but
the cached set `currentInterrupts` is 0; a further `flagInterrupt(1)` leaves it 0. -/
theorem C30_counterexample_master_enable_clear :
    (((bootWith []).flagInterrupt 1).memWrite 0x4000200 2 1).map
      (fun t => (t.mem.readIOReg IO_IE &&& t.mem.readIOReg IO_IF, t.mem.readIOReg IO_IME,
        t.currentInterrupts)) = some (1, 0, 0) ∧
    (((bootWith []).flagInterrupt 1).memWrite 0x4000200 2 1).map
      (fun t => ((t.flagInterrupt 1).mem.readIOReg IO_IE &&& (t.flagInterrupt 1).mem.readIOReg IO_IF,
        (t.flagInterrupt 1).currentInterrupts)) = some (1, 0) := by
  decide

/-- C30 (as the code has it): the cached set is gated by the master enable.  A 16-bit
bus write to IE (0x04000200), IF (0x04000202) or IME (0x04000208) that the display and
the sound unit do not consume completes, stores the data in IE and IME and clears in IF
the bits written as 1, and leaves `currentInterrupts` equal to IE AND IF when bit 0 of IME
is set and 0 when it is clear; the writes to IE and IME also leave `enabledInterrutps`
equal to IE, respectively 0.  `flagInterrupt` ORs its argument into IF, keeps IE, IME and
`enabledInterrutps`, and leaves `currentInterrupts` equal to `enabledInterrutps` AND IF:
the same gated value whenever `enabledInterrutps` is the one those writes leave. -/
theorem C30_serviceable_cache_gated_by_master_enable (s : AGBCPU) (data : Nat)
    (hc : ∀ a, a = 0x200 ∨ a = 0x202 ∨ a = 0x208 →
      s.displayWriteReg a (data % 65536) = false ∧ s.apuWriteReg a (data % 65536) = false) :
    (∃ t, s.memWrite 0x4000200 2 data = some t ∧
      t.mem.readIOReg IO_IE = data % 65536 ∧
      t.mem.readIOReg IO_IF = s.mem.readIOReg IO_IF ∧
      t.mem.readIOReg IO_IME = s.mem.readIOReg IO_IME ∧
      t.enabledInterrutps = (if t.mem.readIOReg IO_IME &&& 1 ≠ 0 then t.mem.readIOReg IO_IE else 0) ∧
      t.currentInterrupts = (if t.mem.readIOReg IO_IME &&& 1 ≠ 0 then
        t.mem.readIOReg IO_IE &&& t.mem.readIOReg IO_IF else 0)) ∧
    (∃ t, s.memWrite 0x4000202 2 data = some t ∧
      t.mem.readIOReg IO_IE = s.mem.readIOReg IO_IE ∧
      t.mem.readIOReg IO_IF = s.mem.readIOReg IO_IF &&& bnot32 (data % 65536) ∧
      t.mem.readIOReg IO_IME = s.mem.readIOReg IO_IME ∧
      t.enabledInterrutps = s.enabledInterrutps ∧
      t.currentInterrupts = (if t.mem.readIOReg IO_IME &&& 1 ≠ 0 then
        t.mem.readIOReg IO_IE &&& t.mem.readIOReg IO_IF else 0)) ∧
    (∃ t, s.memWrite 0x4000208 2 data = some t ∧
      t.mem.readIOReg IO_IE = s.mem.readIOReg IO_IE ∧
      t.mem.readIOReg IO_IF = s.mem.readIOReg IO_IF ∧
      t.mem.readIOReg IO_IME = data % 65536 ∧
      t.enabledInterrutps = (if t.mem.readIOReg IO_IME &&& 1 ≠ 0 then t.mem.readIOReg IO_IE else 0) ∧
      t.currentInterrupts = (if t.mem.readIOReg IO_IME &&& 1 ≠ 0 then
        t.mem.readIOReg IO_IE &&& t.mem.readIOReg IO_IF else 0)) ∧
    (s.flagInterrupt data).mem.readIOReg IO_IF = (s.mem.readIOReg IO_IF ||| data) % 65536 ∧
    (s.flagInterrupt data).mem.readIOReg IO_IE = s.mem.readIOReg IO_IE ∧
    (s.flagInterrupt data).mem.readIOReg IO_IME = s.mem.readIOReg IO_IME ∧
    (s.flagInterrupt data).enabledInterrutps = s.enabledInterrutps ∧
    (s.flagInterrupt data).currentInterrupts
      = s.enabledInterrutps &&& (s.flagInterrupt data).mem.readIOReg IO_IF ∧
    (s.enabledInterrutps
        = (if s.mem.readIOReg IO_IME &&& 1 ≠ 0 then s.mem.readIOReg IO_IE else 0) →
      (s.flagInterrupt data).currentInterrupts
        = (if (s.flagInterrupt data).mem.readIOReg IO_IME &&& 1 ≠ 0 then
            (s.flagInterrupt data).mem.readIOReg IO_IE
              &&& (s.flagInterrupt data).mem.readIOReg IO_IF else 0)) :=
  ⟨memWrite_IE s data (hc 0x200 (Or.inl rfl)).1 (hc 0x200 (Or.inl rfl)).2,
    memWrite_IF s data (hc 0x202 (Or.inr (Or.inl rfl))).1 (hc 0x202 (Or.inr (Or.inl rfl))).2,
    memWrite_IME s data (hc 0x208 (Or.inr (Or.inr rfl))).1 (hc 0x208 (Or.inr (Or.inr rfl))).2,
    flagInterrupt_cached s data⟩

/-- C30 (as the code has it) on `irqArmed` (IME = 1, IE = 1) with interrupt 1 flagged
(IF = 2): the 16-bit write of 3 to IE completes and leaves `currentInterrupts` = 2, the
new IE AND IF; `flagInterrupt(3)` instead leaves IF = 3 and `currentInterrupts` = 1, which
is IE AND IF with bit 0 of IME set. -/
theorem C30_serviceable_cache_witness :
    (∃ t, (irqArmed.flagInterrupt 2).memWrite 0x4000200 2 3 = some t ∧
      t.mem.readIOReg IO_IME &&& 1 ≠ 0 ∧ t.currentInterrupts = 2) ∧
    ((irqArmed.flagInterrupt 2).flagInterrupt 3).mem.readIOReg IO_IME &&& 1 ≠ 0 ∧
    ((irqArmed.flagInterrupt 2).flagInterrupt 3).mem.readIOReg IO_IE
      &&& ((irqArmed.flagInterrupt 2).flagInterrupt 3).mem.readIOReg IO_IF = 1 ∧
    ((irqArmed.flagInterrupt 2).flagInterrupt 3).currentInterrupts = 1 := by
  obtain ⟨⟨t, h0, hIE, hIF, hIME, hen, hcur⟩, _, _, fIF, fIE, fIME, _, fcur, _⟩ :=
    C30_serviceable_cache_gated_by_master_enable (irqArmed.flagInterrupt 2) 3
      (fun a _ => ⟨rfl, rfl⟩)
  have e1 : (irqArmed.flagInterrupt 2).mem.readIOReg IO_IME = 1 := by decide
  have e2 : (irqArmed.flagInterrupt 2).mem.readIOReg IO_IF = 2 := by decide
  have e3 : (irqArmed.flagInterrupt 2).mem.readIOReg IO_IE = 1 := by decide
  have e4 : (irqArmed.flagInterrupt 2).enabledInterrutps = 1 := by decide
  refine ⟨⟨t, h0, by rw [hIME, e1]; decide, ?_⟩, ?_, ?_, ?_⟩
  · rw [hcur, if_pos (by rw [hIME, e1]; decide), hIE, hIF, e2]
    decide
  · rw [fIME, e1]; decide
  · rw [fIE, fIF, e3, e2]
    decide
  · rw [fcur, fIF, e4, e2]
    decide

/-- C24 (the code breaks it for ADD): `doTHUMB05HiReg` forms `src = reg(srcReg)`, plus 2
when the source is R15, and CMP, MOV and BX use it; ADD adds `reg(srcReg)` itself.  With
the instruction at address 0 (R15 = 2 inside the helper), `MOV R0, PC` (0x4678) gives
R0 = 4, `CMP R0, PC` (0x4578) with R0 = 4 sets Z, `BX PC` (0x4778) ends in ARM state at
PC = 4, but `ADD R0, PC` (0x4478) with R0 = 0x100 gives R0 = 0x102, the address of the
instruction plus 2.  For every state, ADD R0, PC leaves R0 + R15 and MOV R0, PC leaves
R15 + 2, modulo 2^32. -/
theorem C24_thumb_add_reads_pc_plus_two :
    (∀ s : AGBCPU, (s.doTHUMB05HiReg 0x4478).map (fun r => r.2.reg 0)
      = some ((s.reg 0 + s.reg PC) % 4294967296)) ∧
    (∀ s : AGBCPU, (s.doTHUMB05HiReg 0x4678).map (fun r => r.2.reg 0)
      = some ((s.reg PC + 2) % 4294967296)) ∧
    (thumbWith [0x4478]).reg PC = 0 ∧
    (∀ mc, (executeTHUMBInstruction mc ((thumbWith [0x4478]).setReg 0 0x100)).map
      (fun r => r.2.reg 0) = some 0x102) ∧
    (∀ mc, (executeTHUMBInstruction mc ((thumbWith [0x4678]).setReg 0 0x100)).map
      (fun r => r.2.reg 0) = some 4) ∧
    (∀ mc, (executeTHUMBInstruction mc ((thumbWith [0x4578]).setReg 0 4)).map
      (fun r => r.2.cpsr.testBit 30) = some true) ∧
    (∀ mc, (executeTHUMBInstruction mc ((thumbWith [0x4578]).setReg 0 2)).map
      (fun r => r.2.cpsr.testBit 30) = some false) ∧
    (∀ mc, (executeTHUMBInstruction mc (thumbWith [0x4778])).map
      (fun r => (r.2.reg PC, r.2.cpsr.testBit 5)) = some (4, false)) := by
  refine ⟨?_, ?_, by decide, by decide, by decide, by decide, by decide, by decide⟩
  · intro s
    have e1 : (68 &&& 3 : Nat) = 0 := by decide
    have e2 : bitSet 0x4478 7 = false := by decide
    have e3 : bitSet 0x4478 6 = true := by decide
    have e4 : (2191 &&& 7 : Nat) = 7 := by decide
    have e5 : (0x4478 &&& 7 : Nat) = 0 := by decide
    unfold doTHUMB05HiReg
    simp [e1, e2, e3, e4, e5, PC, reg_setReg_self]
  · intro s
    have e1 : (70 &&& 3 : Nat) = 2 := by decide
    have e2 : bitSet 0x4678 7 = false := by decide
    have e3 : bitSet 0x4678 6 = true := by decide
    have e4 : (2255 &&& 7 : Nat) = 7 := by decide
    have e5 : (0x4678 &&& 7 : Nat) = 0 := by decide
    unfold doTHUMB05HiReg
    simp [e1, e2, e3, e4, e5, PC, reg_setReg_self]

/-! ## Unaligned access to work RAM -/

theorem or_rot (a b i : Nat) (hb : b < 2 ^ i) (x : Nat) (hx : x = 2 ^ i * a) :
    b ||| x = x + b := by
  rw [hx, Nat.lor_comm]
  exact (Nat.mul_add_lt_is_or hb a).symm

theorem rot_expr (v k : Nat) (hv : v < 4294967296) (hk : k = 1 ∨ k = 2 ∨ k = 3) :
    (v >>> (k <<< 3)) ||| ((v <<< (32 - k <<< 3)) % 4294967296) = rotr32 v (8 * k) := by
  unfold rotr32
  rw [Nat.mod_eq_of_lt hv]
  rcases hk with h | h | h <;> subst h
  · show (v >>> 8) ||| ((v <<< 24) % 4294967296) = v / 2 ^ 8 + v % 2 ^ 8 * 2 ^ 24
    rw [Nat.shiftRight_eq_div_pow, Nat.shiftLeft_eq]
    have e : v * 2 ^ 24 % 4294967296 = 2 ^ 24 * (v % 2 ^ 8) := by
      simp only [Nat.reducePow]; omega
    rw [or_rot (v % 2 ^ 8) (v / 2 ^ 8) 24 (by simp only [Nat.reducePow]; omega) _ e]
    simp only [Nat.reducePow]; omega
  · show (v >>> 16) ||| ((v <<< 16) % 4294967296) = v / 2 ^ 16 + v % 2 ^ 16 * 2 ^ 16
    rw [Nat.shiftRight_eq_div_pow, Nat.shiftLeft_eq]
    have e : v * 2 ^ 16 % 4294967296 = 2 ^ 16 * (v % 2 ^ 16) := by
      simp only [Nat.reducePow]; omega
    rw [or_rot (v % 2 ^ 16) (v / 2 ^ 16) 16 (by simp only [Nat.reducePow]; omega) _ e]
    simp only [Nat.reducePow]; omega
  · show (v >>> 24) ||| ((v <<< 8) % 4294967296) = v / 2 ^ 24 + v % 2 ^ 24 * 2 ^ 8
    rw [Nat.shiftRight_eq_div_pow, Nat.shiftLeft_eq]
    have e : v * 2 ^ 8 % 4294967296 = 2 ^ 8 * (v % 2 ^ 24) := by
      simp only [Nat.reducePow]; omega
    rw [or_rot (v % 2 ^ 24) (v / 2 ^ 24) 8 (by simp only [Nat.reducePow]; omega) _ e]
    simp only [Nat.reducePow]; omega

theorem loadLE4_lt (b : Nat → Nat) (off : Nat) : loadLE b off 4 < 4294967296 := by
  simp only [loadLE]
  omega

theorem and3_mod (x : Nat) : x &&& 3 = x % 4 := Nat.and_pow_two_sub_one_eq_mod x 2

theorem and1_mod (x : Nat) : x &&& 1 = x % 2 := Nat.and_pow_two_sub_one_eq_mod x 1

theorem mask_ewram4 (x : Nat) : x &&& (0x40000 - 4) = x % 0x40000 - x % 4 := by
  have e : (0x40000 - 4 : Nat) = (2 ^ 16 - 1) <<< 2 := by decide
  rw [e, and_field]
  simp only [Nat.reducePow]
  omega

theorem mask_ewram2 (x : Nat) : x &&& (0x40000 - 2) = x % 0x40000 - x % 2 := by
  have e : (0x40000 - 2 : Nat) = (2 ^ 17 - 1) <<< 1 := by decide
  rw [e, and_field]
  simp only [Nat.reducePow]
  omega

theorem mask_ewram1 (x : Nat) : x &&& (0x40000 - 1) = x % 0x40000 :=
  Nat.and_pow_two_sub_one_eq_mod x 18

theorem mask_iwram4 (x : Nat) : x &&& (0x8000 - 4) = x % 0x8000 - x % 4 := by
  have e : (0x8000 - 4 : Nat) = (2 ^ 13 - 1) <<< 2 := by decide
  rw [e, and_field]
  simp only [Nat.reducePow]
  omega

theorem mask_iwram2 (x : Nat) : x &&& (0x8000 - 2) = x % 0x8000 - x % 2 := by
  have e : (0x8000 - 2 : Nat) = (2 ^ 14 - 1) <<< 1 := by decide
  rw [e, and_field]
  simp only [Nat.reducePow]
  omega

theorem mask_iwram1 (x : Nat) : x &&& (0x8000 - 1) = x % 0x8000 :=
  Nat.and_pow_two_sub_one_eq_mod x 15
theorem top_lt (addr : Nat) (h : addr >>> 24 = 0x2 ∨ addr >>> 24 = 0x3) : addr < 4294967296 := by
  rw [Nat.shiftRight_eq_div_pow] at h
  simp only [Nat.reducePow] at h
  omega

theorem memRead_ram (s : AGBCPU) (addr w : Nat) (h : addr >>> 24 = 0x2 ∨ addr >>> 24 = 0x3)
    (hw : w = 1 ∨ w = 2 ∨ w = 4) :
    s.memRead addr w = some (loadLE (workRAM s.mem addr).1
      (addr % (workRAM s.mem addr).2 - addr % w) w, s) := by
  unfold memRead workRAM doRead
  simp only []
  rcases h with h | h
  · rw [if_neg (by omega), if_neg (by omega), if_pos h, if_pos h]
    rcases hw with hw | hw | hw <;> subst hw
    · rw [mask_ewram1, Nat.mod_one, Nat.sub_zero]
    · rw [mask_ewram2]
    · rw [mask_ewram4]
  · rw [if_neg (by omega), if_neg (by omega), if_neg (by omega), if_pos h, if_neg (by omega)]
    rcases hw with hw | hw | hw <;> subst hw
    · rw [mask_iwram1, Nat.mod_one, Nat.sub_zero]
    · rw [mask_iwram2]
    · rw [mask_iwram4]

theorem workRAM_size (m : AGBMemory) (addr : Nat) :
    (workRAM m addr).2 = 0x40000 ∨ (workRAM m addr).2 = 0x8000 := by
  unfold workRAM
  split
  · exact Or.inl rfl
  · exact Or.inr rfl

theorem workRAM_congr (m : AGBMemory) (a b : Nat) (h : a >>> 24 = b >>> 24) :
    workRAM m a = workRAM m b := by
  unfold workRAM
  rw [h]

theorem readMem8_ram (s : AGBCPU) (addr : Nat) (h : addr >>> 24 = 0x2 ∨ addr >>> 24 = 0x3) :
    s.readMem8 addr = some ((workRAM s.mem addr).1 (addr % (workRAM s.mem addr).2) % 256, s) := by
  unfold readMem8
  rw [if_neg (by omega), memRead_ram s addr 1 h (Or.inl rfl), Nat.mod_one, Nat.sub_zero]
  simp only [loadLE]
  congr 2

theorem readMem32_ram (s : AGBCPU) (addr : Nat) (h : addr >>> 24 = 0x2 ∨ addr >>> 24 = 0x3) :
    s.readMem32 addr = some (rotr32 (loadLE (workRAM s.mem addr).1
      (addr % (workRAM s.mem addr).2 - addr % 4) 4) (8 * (addr % 4)), s) := by
  have hlt := top_lt addr h
  unfold readMem32
  by_cases h0 : addr &&& 3 = 0
  · rw [if_pos h0]
    unfold readMem32Aligned
    rw [if_neg (by rw [h0]; exact fun hc => hc rfl), if_neg (by omega),
      memRead_ram s addr 4 h (Or.inr (Or.inr rfl))]
    rw [and3_mod] at h0
    rw [h0]
    unfold rotr32
    rw [Nat.mod_eq_of_lt (loadLE4_lt _ _)]
    simp [Nat.mod_one]
  · rw [if_neg h0]
    have ha := and_bnot3 addr hlt
    have htop : (addr - addr % 4) >>> 24 = addr >>> 24 := by
      rw [Nat.shiftRight_eq_div_pow, Nat.shiftRight_eq_div_pow] at *
      simp only [Nat.reducePow] at *
      omega
    rw [ha]
    unfold readMem32Aligned
    rw [if_neg (by rw [and3_mod]; exact fun hc => hc (by omega)), if_neg (by omega),
      memRead_ram s _ 4 (by rw [htop]; exact h) (Or.inr (Or.inr rfl)),
      workRAM_congr s.mem _ addr htop]
    have hoff : (addr - addr % 4) % (workRAM s.mem addr).2 - (addr - addr % 4) % 4
        = addr % (workRAM s.mem addr).2 - addr % 4 := by
      rcases workRAM_size s.mem addr with hs | hs <;> rw [hs] <;> omega
    rw [hoff]
    simp only [Option.map_some', and3_mod]
    rw [and3_mod] at h0
    rw [rot_expr _ (addr % 4) (loadLE4_lt _ _) (by omega)]

theorem readMem16_ram (s : AGBCPU) (addr : Nat) (h : addr >>> 24 = 0x2 ∨ addr >>> 24 = 0x3) :
    s.readMem16 addr = some (
      if addr % 2 = 0 then loadLE (workRAM s.mem addr).1 (addr % (workRAM s.mem addr).2) 2
      else rotr32 (loadLE (workRAM s.mem addr).1 (addr % (workRAM s.mem addr).2 - 1) 2) 8, s) := by
  have hlt := top_lt addr h
  unfold readMem16
  rw [and1_mod]
  by_cases h0 : addr % 2 = 0
  · rw [if_pos h0, if_pos h0]
    unfold readMem16Aligned
    rw [and1_mod, if_neg (fun hc => hc h0), memRead_ram s addr 2 h (Or.inr (Or.inl rfl)), h0,
      Nat.sub_zero]
  · rw [if_neg h0, if_neg h0]
    have htop : (addr - addr % 2) >>> 24 = addr >>> 24 := by
      rw [Nat.shiftRight_eq_div_pow, Nat.shiftRight_eq_div_pow] at *
      simp only [Nat.reducePow] at *
      omega
    rw [and_bnot1 addr hlt]
    unfold readMem16Aligned
    rw [and1_mod, if_neg (fun hc => hc (by omega)),
      memRead_ram s _ 2 (by rw [htop]; exact h) (Or.inr (Or.inl rfl)),
      workRAM_congr s.mem _ addr htop]
    have hoff : (addr - addr % 2) % (workRAM s.mem addr).2 - (addr - addr % 2) % 2
        = addr % (workRAM s.mem addr).2 - 1 := by
      rcases workRAM_size s.mem addr with hs | hs <;> rw [hs] <;> omega
    rw [hoff]
    simp only [Option.map_some']
    exact congrArg (fun v => some (v, s))
      (rot_expr _ 1 (Nat.lt_of_lt_of_le (loadLE2_lt _ _) (by decide)) (Or.inl rfl))

theorem loadLE4_byte (b : Nat → Nat) (off k : Nat) (hk : k < 4) :
    loadLE b off 4 / 256 ^ k % 256 = b (off + k) % 256 := by
  simp only [loadLE, Nat.add_assoc, Nat.reduceAdd]
  interval_cases k <;> simp only [Nat.reducePow, Nat.add_zero] <;> omega

theorem rotr32_low (v k : Nat) (hv : v < 4294967296) (hk : k < 4) :
    rotr32 v (8 * k) % 256 = v / 256 ^ k % 256 := by
  unfold rotr32
  rw [Nat.mod_eq_of_lt hv]
  interval_cases k <;> simp only [Nat.reducePow, Nat.reduceMul, Nat.reduceMod, Nat.reduceSub] <;> omega
theorem top_sub (addr k : Nat) (hk : k ≤ addr % 4) : (addr - k) >>> 24 = addr >>> 24 := by
  rw [Nat.shiftRight_eq_div_pow, Nat.shiftRight_eq_div_pow]
  simp only [Nat.reducePow]
  omega

theorem writeMem16_eq (s : AGBCPU) (addr data : Nat) (hlt : addr < 4294967296) :
    s.writeMem16 addr data = s.memWrite (addr - addr % 2) 2 (data % 65536) := by
  unfold writeMem16
  simp only []
  rw [and_bnot1 addr hlt]

theorem writeMem32_eq (s : AGBCPU) (addr data : Nat) (hlt : addr < 4294967296)
    (h4 : addr >>> 24 ≠ 0x4) :
    s.writeMem32 addr data = s.memWrite (addr - addr % 4) 4 (data % 4294967296) := by
  unfold writeMem32
  simp only []
  rw [and_bnot3 addr hlt, top_sub addr (addr % 4) (Nat.le_refl _), if_neg h4]

theorem memWrite_ewram (s : AGBCPU) (addr w data : Nat) (h : addr >>> 24 = 0x2)
    (hw : w = 2 ∨ w = 4) (ha : addr % w = 0) :
    s.memWrite addr w data = some { s with mem := { s.mem with
      ewram := storeLE s.mem.ewram (addr % 0x40000) w data } } := by
  unfold memWrite doWrite
  simp only []
  rw [if_neg (by omega), if_pos h]
  rcases hw with hw | hw <;> subst hw
  · rw [mask_ewram2, ha, Nat.sub_zero]
  · rw [mask_ewram4, ha, Nat.sub_zero]

theorem memWrite_iwram (s : AGBCPU) (addr w data : Nat) (h : addr >>> 24 = 0x3)
    (hw : w = 2 ∨ w = 4) (ha : addr % w = 0) :
    s.memWrite addr w data = some { s with mem := { s.mem with
      iwram := storeLE s.mem.iwram (addr % 0x8000) w data } } := by
  unfold memWrite doWrite
  simp only []
  rw [if_neg (by omega), if_neg (by omega), if_pos h]
  rcases hw with hw | hw <;> subst hw
  · rw [mask_iwram2, ha, Nat.sub_zero]
  · rw [mask_iwram4, ha, Nat.sub_zero]

theorem low_byte_ram (s : AGBCPU) (addr : Nat) (h : addr >>> 24 = 0x2 ∨ addr >>> 24 = 0x3) :
    ∃ b v16 v32, s.readMem8 addr = some (b, s) ∧ s.readMem16 addr = some (v16, s) ∧
      s.readMem32 addr = some (v32, s) ∧ v16 % 256 = b ∧ v32 % 256 = b := by
  refine ⟨_, _, _, readMem8_ram s addr h, readMem16_ram s addr h, readMem32_ram s addr h, ?_, ?_⟩
  · by_cases h0 : addr % 2 = 0
    · rw [if_pos h0]
      simp only [loadLE]
      omega
    · rw [if_neg h0]
      have e := rotr32_low (loadLE (workRAM s.mem addr).1 (addr % (workRAM s.mem addr).2 - 1) 2) 1
        (Nat.lt_of_lt_of_le (loadLE2_lt _ _) (by decide)) (by decide)
      have hoff : addr % (workRAM s.mem addr).2 - 1 + 1 = addr % (workRAM s.mem addr).2 := by
        rcases workRAM_size s.mem addr with hs | hs <;> rw [hs] <;> omega
      rw [Nat.mul_one, Nat.pow_one] at e
      rw [e]
      simp only [loadLE]
      rw [hoff]
      omega
  · have hk : addr % 4 < 4 := Nat.mod_lt _ (by decide)
    rw [rotr32_low _ _ (loadLE4_lt _ _) hk, loadLE4_byte _ _ _ hk]
    have hoff : addr % (workRAM s.mem addr).2 - addr % 4 + addr % 4
        = addr % (workRAM s.mem addr).2 := by
      rcases workRAM_size s.mem addr with hs | hs <;> rw [hs] <;> omega
    rw [hoff]
/-- C25: for every address in work RAM (top byte 2 or 3) a 32-bit read returns the
aligned word at the address rounded down to a multiple of 4, rotated right by 8 times the
low two address bits, a 16-bit read at an odd address returns the aligned halfword rotated
right by 8 within 32 bits, the low byte of either result is the byte an 8-bit read returns,
and 16-bit and 32-bit writes store at the address rounded down to a multiple of 2 and 4. -/
theorem C25_work_ram_unaligned_access (s : AGBCPU) (addr data : Nat)
    (h : addr >>> 24 = 0x2 ∨ addr >>> 24 = 0x3) :
    s.readMem32Aligned (addr - addr % 4) = some (loadLE (workRAM s.mem addr).1
        (addr % (workRAM s.mem addr).2 - addr % 4) 4, s) ∧
    s.readMem32 addr = some (rotr32 (loadLE (workRAM s.mem addr).1
        (addr % (workRAM s.mem addr).2 - addr % 4) 4) (8 * (addr % 4)), s) ∧
    s.readMem16Aligned (addr - addr % 2) = some (loadLE (workRAM s.mem addr).1
        (addr % (workRAM s.mem addr).2 - addr % 2) 2, s) ∧
    (addr % 2 = 1 → s.readMem16 addr = some (rotr32 (loadLE (workRAM s.mem addr).1
        (addr % (workRAM s.mem addr).2 - 1) 2) 8, s)) ∧
    (∃ b v16 v32, s.readMem8 addr = some (b, s) ∧ s.readMem16 addr = some (v16, s) ∧
      s.readMem32 addr = some (v32, s) ∧ v16 % 256 = b ∧ v32 % 256 = b) ∧
    s.writeMem16 addr data = s.memWrite (addr - addr % 2) 2 (data % 65536) ∧
    s.writeMem32 addr data = s.memWrite (addr - addr % 4) 4 (data % 4294967296) ∧
    (addr >>> 24 = 0x2 →
      s.writeMem16 addr data = some { s with mem := { s.mem with
        ewram := storeLE s.mem.ewram (addr % 0x40000 - addr % 2) 2 (data % 65536) } } ∧
      s.writeMem32 addr data = some { s with mem := { s.mem with
        ewram := storeLE s.mem.ewram (addr % 0x40000 - addr % 4) 4 (data % 4294967296) } }) ∧
    (addr >>> 24 = 0x3 →
      s.writeMem16 addr data = some { s with mem := { s.mem with
        iwram := storeLE s.mem.iwram (addr % 0x8000 - addr % 2) 2 (data % 65536) } } ∧
      s.writeMem32 addr data = some { s with mem := { s.mem with
        iwram := storeLE s.mem.iwram (addr % 0x8000 - addr % 4) 4 (data % 4294967296) } }) := by
  have hlt := top_lt addr h
  have h4 : addr >>> 24 ≠ 0x4 := by omega
  have t2 := top_sub addr (addr % 2) (by omega)
  have t4 := top_sub addr (addr % 4) (Nat.le_refl _)
  have w16 := writeMem16_eq s addr data hlt
  have w32 := writeMem32_eq s addr data hlt h4
  have r32 := readMem32_ram s (addr - addr % 4) (by rw [t4]; exact h)
  have r16 := readMem16_ram s (addr - addr % 2) (by rw [t2]; exact h)
  have o4 : (addr - addr % 4) % (workRAM s.mem addr).2 = addr % (workRAM s.mem addr).2 - addr % 4 := by
    rcases workRAM_size s.mem addr with hs | hs <;> rw [hs] <;> omega
  have o2 : (addr - addr % 2) % (workRAM s.mem addr).2 = addr % (workRAM s.mem addr).2 - addr % 2 := by
    rcases workRAM_size s.mem addr with hs | hs <;> rw [hs] <;> omega
  refine ⟨?_, readMem32_ram s addr h, ?_, ?_, low_byte_ram s addr h, w16, w32, ?_, ?_⟩
  · unfold readMem32Aligned
    rw [and3_mod, if_neg (fun hc => hc (by omega)), if_neg (by rw [t4]; exact h4),
      memRead_ram s _ 4 (by rw [t4]; exact h) (Or.inr (Or.inr rfl)),
      workRAM_congr s.mem _ addr t4, o4]
    congr 3
    omega
  · unfold readMem16Aligned
    rw [and1_mod, if_neg (fun hc => hc (by omega)),
      memRead_ram s _ 2 (by rw [t2]; exact h) (Or.inr (Or.inl rfl)),
      workRAM_congr s.mem _ addr t2, o2]
    congr 3
    omega
  · intro ho
    rw [readMem16_ram s addr h, if_neg (by omega)]
  · intro h2
    rw [w16, w32, memWrite_ewram s _ 2 _ (by rw [t2]; exact h2) (Or.inl rfl) (by omega),
      memWrite_ewram s _ 4 _ (by rw [t4]; exact h2) (Or.inr rfl) (by omega)]
    have e4 : (addr - addr % 4) % 0x40000 = addr % 0x40000 - addr % 4 := by omega
    have e2 : (addr - addr % 2) % 0x40000 = addr % 0x40000 - addr % 2 := by omega
    rw [e4, e2]
    exact ⟨rfl, rfl⟩
  · intro h3
    rw [w16, w32, memWrite_iwram s _ 2 _ (by rw [t2]; exact h3) (Or.inl rfl) (by omega),
      memWrite_iwram s _ 4 _ (by rw [t4]; exact h3) (Or.inr rfl) (by omega)]
    have e4 : (addr - addr % 4) % 0x8000 = addr % 0x8000 - addr % 4 := by omega
    have e2 : (addr - addr % 2) % 0x8000 = addr % 0x8000 - addr % 2 := by omega
    rw [e4, e2]
    exact ⟨rfl, rfl⟩

/-- C25 at address 0x03000001 of the machine after reset. -/
theorem C25_work_ram_witness :
    (0x03000001 >>> 24 = 0x2 ∨ 0x03000001 >>> 24 = 0x3) ∧
    (bootWith []).readMem32 0x03000001 = some (rotr32 (loadLE
      (workRAM (bootWith []).mem 0x03000001).1
      (0x03000001 % (workRAM (bootWith []).mem 0x03000001).2 - 0x03000001 % 4) 4)
      (8 * (0x03000001 % 4)), bootWith []) :=
  ⟨by decide, (C25_work_ram_unaligned_access (bootWith []) 0x03000001 0 (by decide)).2.1⟩

/-! ## Exception entry -/

theorem entry_and (x M I m K : Nat) :
    ((x &&& M) ||| I ||| m) &&& K = (x &&& (M &&& K)) ||| (I &&& K) ||| (m &&& K) := by
  apply Nat.eq_of_testBit_eq
  intro i
  simp only [Nat.testBit_and, Nat.testBit_or]
  cases x.testBit i <;> cases M.testBit i <;> cases I.testBit i <;> cases m.testBit i <;>
    cases K.testBit i <;> rfl

theorem and_or_self (x a : Nat) : (x &&& a) ||| a = a := by
  apply Nat.eq_of_testBit_eq
  intro i
  simp only [Nat.testBit_and, Nat.testBit_or]
  cases x.testBit i <;> cases a.testBit i <;> rfl

theorem entry_cpsr_facts (x m : Nat) (hm : m = 0x12 ∨ m = 0x13) :
    ((x &&& bnot32 (0x1F ||| Flag_T)) ||| Flag_I ||| m) &&& 0x1F = m ∧
    ((x &&& bnot32 (0x1F ||| Flag_T)) ||| Flag_I ||| m) &&& Flag_T = 0 ∧
    ((x &&& bnot32 (0x1F ||| Flag_T)) ||| Flag_I ||| m) &&& Flag_I = Flag_I ∧
    ((x &&& bnot32 (0x1F ||| Flag_T)) ||| Flag_I ||| m) &&& bnot32 (0x1F ||| Flag_T ||| Flag_I)
      = x &&& bnot32 (0x1F ||| Flag_T ||| Flag_I) := by
  rcases hm with hm | hm <;> subst hm
  · refine ⟨?_, ?_, ?_, ?_⟩ <;> rw [entry_and]
    · rw [(by decide : bnot32 (0x1F ||| Flag_T) &&& 0x1F = 0), (by decide : Flag_I &&& 0x1F = 0),
        (by decide : (0x12 &&& 0x1F : Nat) = 0x12)]
      simp
    · rw [(by decide : bnot32 (0x1F ||| Flag_T) &&& Flag_T = 0), (by decide : Flag_I &&& Flag_T = 0),
        (by decide : (0x12 &&& Flag_T : Nat) = 0)]
      simp
    · rw [(by decide : bnot32 (0x1F ||| Flag_T) &&& Flag_I = Flag_I),
        (by decide : (0x12 &&& Flag_I : Nat) = 0), Nat.and_self, Nat.or_zero]
      exact and_or_self x Flag_I
    · rw [(by decide : bnot32 (0x1F ||| Flag_T) &&& bnot32 (0x1F ||| Flag_T ||| Flag_I)
          = bnot32 (0x1F ||| Flag_T ||| Flag_I)),
        (by decide : Flag_I &&& bnot32 (0x1F ||| Flag_T ||| Flag_I) = 0),
        (by decide : (0x12 &&& bnot32 (0x1F ||| Flag_T ||| Flag_I) : Nat) = 0)]
      simp
  · refine ⟨?_, ?_, ?_, ?_⟩ <;> rw [entry_and]
    · rw [(by decide : bnot32 (0x1F ||| Flag_T) &&& 0x1F = 0), (by decide : Flag_I &&& 0x1F = 0),
        (by decide : (0x13 &&& 0x1F : Nat) = 0x13)]
      simp
    · rw [(by decide : bnot32 (0x1F ||| Flag_T) &&& Flag_T = 0), (by decide : Flag_I &&& Flag_T = 0),
        (by decide : (0x13 &&& Flag_T : Nat) = 0)]
      simp
    · rw [(by decide : bnot32 (0x1F ||| Flag_T) &&& Flag_I = Flag_I),
        (by decide : (0x13 &&& Flag_I : Nat) = 0), Nat.and_self, Nat.or_zero]
      exact and_or_self x Flag_I
    · rw [(by decide : bnot32 (0x1F ||| Flag_T) &&& bnot32 (0x1F ||| Flag_T ||| Flag_I)
          = bnot32 (0x1F ||| Flag_T ||| Flag_I)),
        (by decide : Flag_I &&& bnot32 (0x1F ||| Flag_T ||| Flag_I) = 0),
        (by decide : (0x13 &&& bnot32 (0x1F ||| Flag_T ||| Flag_I) : Nat) = 0)]
      simp
theorem entry_cpsr_facts_arm (x : Nat) (hT : x &&& Flag_T = 0) :
    ((x &&& bnot32 0x1F) ||| Flag_I ||| 0x13) &&& 0x1F = 0x13 ∧
    ((x &&& bnot32 0x1F) ||| Flag_I ||| 0x13) &&& Flag_T = 0 ∧
    ((x &&& bnot32 0x1F) ||| Flag_I ||| 0x13) &&& Flag_I = Flag_I ∧
    ((x &&& bnot32 0x1F) ||| Flag_I ||| 0x13) &&& bnot32 (0x1F ||| Flag_T ||| Flag_I)
      = x &&& bnot32 (0x1F ||| Flag_T ||| Flag_I) := by
  refine ⟨?_, ?_, ?_, ?_⟩ <;> rw [entry_and]
  · rw [(by decide : bnot32 0x1F &&& 0x1F = 0), (by decide : Flag_I &&& 0x1F = 0),
      (by decide : (0x13 &&& 0x1F : Nat) = 0x13)]
    simp
  · rw [(by decide : bnot32 0x1F &&& Flag_T = Flag_T), (by decide : Flag_I &&& Flag_T = 0),
      (by decide : (0x13 &&& Flag_T : Nat) = 0), hT]
    rfl
  · rw [(by decide : bnot32 0x1F &&& Flag_I = Flag_I),
      (by decide : (0x13 &&& Flag_I : Nat) = 0), Nat.and_self, Nat.or_zero]
    exact and_or_self x Flag_I
  · rw [(by decide : bnot32 0x1F &&& bnot32 (0x1F ||| Flag_T ||| Flag_I)
        = bnot32 (0x1F ||| Flag_T ||| Flag_I)),
      (by decide : Flag_I &&& bnot32 (0x1F ||| Flag_T ||| Flag_I) = 0),
      (by decide : (0x13 &&& bnot32 (0x1F ||| Flag_T ||| Flag_I) : Nat) = 0)]
    simp

theorem modeChanged_irq (s : AGBCPU) (h : s.cpsr &&& 0x1F = 0x12) :
    s.modeChanged = some { s with curSP := 27, curLR := 28, isFIQ := false } := by
  unfold modeChanged
  simp only [h]
  rfl

theorem modeChanged_svc (s : AGBCPU) (h : s.cpsr &&& 0x1F = 0x13) :
    s.modeChanged = some { s with curSP := 23, curLR := 24, isFIQ := false } := by
  unfold modeChanged
  simp only [h]
  rfl

theorem getSPSR_irq (s : AGBCPU) (h : s.cpsr &&& 0x1F = 0x12) : s.getSPSR = some (s.spsr 3) := by
  unfold getSPSR spsrIndex
  simp only [h]
  rfl

theorem getSPSR_svc (s : AGBCPU) (h : s.cpsr &&& 0x1F = 0x13) : s.getSPSR = some (s.spsr 1) := by
  unfold getSPSR spsrIndex
  simp only [h]
  rfl

theorem serviceInterrupts_entered (s : AGBCPU) (hI : s.cpsr &&& Flag_I = 0) :
    ∃ t, s.serviceInterrupts = some (true, t) ∧
      exceptionEntered s t 0x12 0x18 ((s.loReg PC + 4) % 4294967296) := by
  obtain ⟨f1, f2, f3, f4⟩ := entry_cpsr_facts s.cpsr 0x12 (Or.inl rfl)
  unfold serviceInterrupts
  rw [if_neg (not_not.mpr hI)]
  simp only []
  rw [modeChanged_irq _ f1]
  refine ⟨_, rfl, ?_, f1, f2, f3, f4, ?_, rfl, ?_⟩
  · exact getSPSR_irq _ f1
  · exact modeChanged_irq _ f1
  · rfl
theorem fetchTHUMB_state (s s1 : AGBCPU) (op : Nat) (h : s.fetchTHUMB = some (op, s1)) :
    s.loReg PC &&& 1 = 0 ∧
    s1 = { s with thumbPCPtr := s.thumbPCPtr.map fun p => { p with off := p.off + 2 } } := by
  unfold fetchTHUMB at h
  by_cases c : s.loReg PC &&& 1 ≠ 0
  · rw [if_pos c] at h
    cases h
  · rw [if_neg c] at h
    refine ⟨not_not.mp c, ?_⟩
    split at h
    · split at h
      · simp only [Option.some.injEq, Prod.mk.injEq] at h
        exact h.2.symm
      · cases h
    · cases h

theorem arm_swi_entered (mc : Bool) (s s1 : AGBCPU) (opcode : Nat)
    (hT : s.cpsr &&& Flag_T = 0) (hf : s.fetchARM = some (opcode, s1))
    (hc : condSkips s.cpsr (opcode >>> 28) = some false)
    (hop : (opcode >>> 24) &&& 0xF = 0xF) :
    ∃ c t, executeARMInstruction mc s = some (c, t) ∧
      exceptionEntered s t 0x13 0x08 ((s.loReg PC + 4) % 4294967296) := by
  obtain ⟨f1, f2, f3, f4⟩ := entry_cpsr_facts_arm s.cpsr hT
  have hs1 := fetchARM_state s s1 opcode hf
  subst hs1
  unfold executeARMInstruction
  rw [hf]
  simp only []
  have hc2 : condSkips (AGBCPU.cpsr (setLoReg
      { s with armPCPtr := s.armPCPtr.map fun p => { p with off := p.off + 4 } } PC
      (loReg { s with armPCPtr := s.armPCPtr.map fun p => { p with off := p.off + 4 } } PC + 4)))
      (opcode >>> 28) = some false := hc
  rw [hc2]
  simp only [hop]
  rw [if_pos True.intro, modeChanged_svc _ f1]
  refine ⟨_, _, rfl, ?_, f1, f2, f3, f4, ?_, rfl, ?_⟩
  · exact getSPSR_svc _ f1
  · exact modeChanged_svc _ f1
  · show ((s.regs 15 + 4) % 4294967296) % 4294967296 = (s.regs 15 + 4) % 4294967296
    exact Nat.mod_mod _ _

theorem thumb_swi_entered (mc : Bool) (s s1 : AGBCPU) (opcode : Nat)
    (hf : s.fetchTHUMB = some (opcode, s1)) (hop : opcode >>> 8 = 0xDF) :
    ∃ c t, executeTHUMBInstruction mc s = some (c, t) ∧
      exceptionEntered s t 0x13 0x08 ((s.loReg PC + 2) % 4294967296) := by
  obtain ⟨f1, f2, f3, f4⟩ := entry_cpsr_facts s.cpsr 0x13 (Or.inr rfl)
  obtain ⟨hpc, hs1⟩ := fetchTHUMB_state s s1 opcode hf
  subst hs1
  have h12 : opcode >>> 12 = 0xD := by
    rw [Nat.shiftRight_eq_div_pow] at hop ⊢
    simp only [Nat.reducePow] at hop ⊢
    omega
  have hcond : (opcode >>> 8) &&& 0xF = 0xF := by rw [hop]; decide
  unfold executeTHUMBInstruction
  rw [hf]
  simp only [h12]
  rw [if_neg (by decide), if_neg (by decide), if_neg (by decide), if_neg (by decide),
    if_neg (by decide), if_neg (by decide), if_neg (by decide), if_neg (by decide),
    if_neg (by decide), if_neg (by decide), if_neg (by decide), if_neg (by decide),
    if_pos True.intro]
  unfold doTHUMB1617
  simp only [hcond]
  first | rw [if_pos rfl] | rw [if_pos True.intro]
  rw [modeChanged_svc _ f1]
  refine ⟨_, _, rfl, ?_, f1, f2, f3, f4, ?_, rfl, ?_⟩
  · exact getSPSR_svc _ f1
  · exact modeChanged_svc _ f1
  · show ((s.regs 15 + 2) % 4294967296 &&& bnot32 1) % 4294967296 = (s.regs 15 + 2) % 4294967296
    have hp : s.regs 15 % 2 = 0 := by
      have := hpc
      rw [and1_mod] at this
      exact this
    rw [and_bnot1 _ (Nat.mod_lt _ (by decide))]
    omega
/-- C22: an IRQ is taken exactly when CPSR.I is clear; IRQ entry, an ARM-state SWI and a
THUMB SWI each store the old CPSR in the saved CPSR of the new mode, clear T, set I, set
the mode bits to 0x12 (IRQ) or 0x13 (Supervisor) with every other CPSR bit unchanged, set
PC to 0x18 or 0x08, and set the LR of the new mode to PC + 4 at entry (IRQ) or to the
address of the instruction after the SWI. -/
theorem C22_exception_entry (mc : Bool) (s : AGBCPU) :
    (s.cpsr &&& Flag_I ≠ 0 → s.serviceInterrupts = some (false, s)) ∧
    (s.cpsr &&& Flag_I = 0 → ∃ t, s.serviceInterrupts = some (true, t) ∧
      exceptionEntered s t 0x12 0x18 ((s.loReg PC + 4) % 4294967296)) ∧
    (∀ opcode s1, s.cpsr &&& Flag_T = 0 → s.fetchARM = some (opcode, s1) →
      condSkips s.cpsr (opcode >>> 28) = some false → (opcode >>> 24) &&& 0xF = 0xF →
      ∃ c t, executeARMInstruction mc s = some (c, t) ∧
        exceptionEntered s t 0x13 0x08 ((s.loReg PC + 4) % 4294967296)) ∧
    (∀ opcode s1, s.fetchTHUMB = some (opcode, s1) → opcode >>> 8 = 0xDF →
      ∃ c t, executeTHUMBInstruction mc s = some (c, t) ∧
        exceptionEntered s t 0x13 0x08 ((s.loReg PC + 2) % 4294967296)) := by
  refine ⟨?_, serviceInterrupts_entered s, ?_, ?_⟩
  · intro hI
    unfold serviceInterrupts
    rw [if_pos hI]
  · intro opcode s1 hT hf hc hop
    exact arm_swi_entered mc s s1 opcode hT hf hc hop
  · intro opcode s1 hf hop
    exact thumb_swi_entered mc s s1 opcode hf hop

/-- C22 at a machine in system mode and THUMB state with interrupts enabled. -/
theorem C22_exception_entry_witness :
    (thumbWith []).cpsr &&& Flag_I = 0 ∧
    ∃ t, (thumbWith []).serviceInterrupts = some (true, t) ∧
      exceptionEntered (thumbWith []) t 0x12 0x18 (((thumbWith []).loReg PC + 4) % 4294967296) :=
  ⟨by decide, (C22_exception_entry true (thumbWith [])).2.1 (by decide)⟩

/-! ## Return from an IRQ -/

theorem armImmediate_subs (mc : Bool) (s : AGBCPU) :
    armImmediate mc s 0xE25EF004 = (4, decide (s.cpsr &&& Flag_C ≠ 0)) := by
  cases mc <;> rfl

theorem arm_subs_pc_lr (mc : Bool) (s s1 : AGBCPU) (h : s.fetchARM = some (0xE25EF004, s1)) :
    executeARMInstruction mc s =
      (s1.setLoReg PC (s1.loReg PC + 4)).doALUOp 0x2 PC ((s1.setLoReg PC (s1.loReg PC + 4)).reg 14) 4
        (decide (s1.cpsr &&& Flag_C ≠ 0)) := by
  have e1 : (226 &&& 15 : Nat) = 2 := by decide
  have e2 : (57950 &&& 15 : Nat) = 14 := by decide
  have e3 : (1810 &&& 15 : Nat) = 2 := by decide
  have e4 : (927215 &&& 15 : Nat) = 15 := by decide
  have e5 : (3797872644 &&& 1048576 : Nat) ≠ 0 := by decide
  have e6 : (3797872644 &&& 1048576 : Nat) = 1048576 := by decide
  unfold executeARMInstruction
  rw [h]
  simp [condSkips, doDataProcessing, bitSet, armImmediate_subs, e1, e2, e3, e4, e5, e6]
theorem serviceInterrupts_eq (s : AGBCPU) (hI : s.cpsr &&& Flag_I = 0) :
    s.serviceInterrupts = some (true,
      (({ s with
          halted := false,
          spsr := fun i => if i = 3 then s.cpsr else s.spsr i,
          regs := fun i => if i = PC then 0x18 % 4294967296 else s.regs i,
          cpsr := (s.cpsr &&& bnot32 (0x1F ||| Flag_T)) ||| Flag_I ||| 0x12,
          curSP := 27, curLR := 28, isFIQ := false } : AGBCPU).updateARMPC).setLoReg 28
        (s.loReg PC + 4)) := by
  obtain ⟨f1, f2, f3, f4⟩ := entry_cpsr_facts s.cpsr 0x12 (Or.inl rfl)
  unfold serviceInterrupts
  rw [if_neg (not_not.mpr hI)]
  simp only []
  rw [modeChanged_irq _ f1]
  rfl

theorem modeChanged_of_cpsr (x s : AGBCPU) (hc : x.cpsr = s.cpsr)
    (hb : s.modeChanged.map bankSel = some (bankSel s)) :
    x.modeChanged = some { x with curSP := s.curSP, curLR := s.curLR, isFIQ := s.isFIQ } := by
  unfold modeChanged at hb ⊢
  simp only [] at hb ⊢
  rw [hc]
  by_cases c1 : s.cpsr &&& 0x1F = 0x10 ∨ s.cpsr &&& 0x1F = 0x1F
  · rw [if_pos c1] at hb ⊢
    simp only [Option.map_some', bankSel, Option.some.injEq, Prod.mk.injEq] at hb
    rw [← hb.1, ← hb.2.1, ← hb.2.2]
  rw [if_neg c1] at hb ⊢
  by_cases c2 : s.cpsr &&& 0x1F = 0x11
  · rw [if_pos c2] at hb ⊢
    simp only [Option.map_some', bankSel, Option.some.injEq, Prod.mk.injEq] at hb
    rw [← hb.1, ← hb.2.1, ← hb.2.2]
  rw [if_neg c2] at hb ⊢
  by_cases c3 : s.cpsr &&& 0x1F = 0x13
  · rw [if_pos c3] at hb ⊢
    simp only [Option.map_some', bankSel, Option.some.injEq, Prod.mk.injEq] at hb
    rw [← hb.1, ← hb.2.1, ← hb.2.2]
  rw [if_neg c3] at hb ⊢
  by_cases c4 : s.cpsr &&& 0x1F = 0x17
  · rw [if_pos c4] at hb ⊢
    simp only [Option.map_some', bankSel, Option.some.injEq, Prod.mk.injEq] at hb
    rw [← hb.1, ← hb.2.1, ← hb.2.2]
  rw [if_neg c4] at hb ⊢
  by_cases c5 : s.cpsr &&& 0x1F = 0x12
  · rw [if_pos c5] at hb ⊢
    simp only [Option.map_some', bankSel, Option.some.injEq, Prod.mk.injEq] at hb
    rw [← hb.1, ← hb.2.1, ← hb.2.2]
  rw [if_neg c5] at hb ⊢
  by_cases c6 : s.cpsr &&& 0x1F = 0x1B
  · rw [if_pos c6] at hb ⊢
    simp only [Option.map_some', bankSel, Option.some.injEq, Prod.mk.injEq] at hb
    rw [← hb.1, ← hb.2.1, ← hb.2.2]
  rw [if_neg c6] at hb
  cases hb

theorem bank_slots (s : AGBCPU) (hb : s.modeChanged.map bankSel = some (bankSel s)) :
    s.curSP ≠ 15 ∧ s.curSP ≠ 28 ∧ s.curLR ≠ 15 ∧ (s.cpsr &&& 0x1F ≠ 0x12 → s.curLR ≠ 28) := by
  unfold modeChanged at hb
  simp only [] at hb
  by_cases c1 : s.cpsr &&& 0x1F = 0x10 ∨ s.cpsr &&& 0x1F = 0x1F
  · rw [if_pos c1] at hb
    simp only [Option.map_some', bankSel, Option.some.injEq, Prod.mk.injEq] at hb
    rw [← hb.1, ← hb.2.1]
    exact ⟨by decide, by decide, by decide, fun _ => by decide⟩
  rw [if_neg c1] at hb
  by_cases c2 : s.cpsr &&& 0x1F = 0x11
  · rw [if_pos c2] at hb
    simp only [Option.map_some', bankSel, Option.some.injEq, Prod.mk.injEq] at hb
    rw [← hb.1, ← hb.2.1]
    exact ⟨by decide, by decide, by decide, fun _ => by decide⟩
  rw [if_neg c2] at hb
  by_cases c3 : s.cpsr &&& 0x1F = 0x13
  · rw [if_pos c3] at hb
    simp only [Option.map_some', bankSel, Option.some.injEq, Prod.mk.injEq] at hb
    rw [← hb.1, ← hb.2.1]
    exact ⟨by decide, by decide, by decide, fun _ => by decide⟩
  rw [if_neg c3] at hb
  by_cases c4 : s.cpsr &&& 0x1F = 0x17
  · rw [if_pos c4] at hb
    simp only [Option.map_some', bankSel, Option.some.injEq, Prod.mk.injEq] at hb
    rw [← hb.1, ← hb.2.1]
    exact ⟨by decide, by decide, by decide, fun _ => by decide⟩
  rw [if_neg c4] at hb
  by_cases c5 : s.cpsr &&& 0x1F = 0x12
  · rw [if_pos c5] at hb
    simp only [Option.map_some', bankSel, Option.some.injEq, Prod.mk.injEq] at hb
    rw [← hb.1, ← hb.2.1]
    exact ⟨by decide, by decide, by decide, fun h => absurd c5 h⟩
  rw [if_neg c5] at hb
  by_cases c6 : s.cpsr &&& 0x1F = 0x1B
  · rw [if_pos c6] at hb
    simp only [Option.map_some', bankSel, Option.some.injEq, Prod.mk.injEq] at hb
    rw [← hb.1, ← hb.2.1]
    exact ⟨by decide, by decide, by decide, fun _ => by decide⟩
  rw [if_neg c6] at hb
  cases hb
theorem modeChanged_with (x s : AGBCPU) (hb : s.modeChanged.map bankSel = some (bankSel s)) :
    ({ x with cpsr := s.cpsr } : AGBCPU).modeChanged
      = some { x with cpsr := s.cpsr, curSP := s.curSP, curLR := s.curLR, isFIQ := s.isFIQ } :=
  modeChanged_of_cpsr { x with cpsr := s.cpsr } s rfl hb

theorem doALUOp_subs_pc (x s : AGBCPU) (op1 : Nat) (c : Bool) (hm : x.cpsr &&& 0x1F = 0x12)
    (hsp : x.spsr 3 = s.cpsr) (hb : s.modeChanged.map bankSel = some (bankSel s)) :
    x.doALUOp 0x2 PC op1 4 c = some (((x.setReg PC (sub32 op1 4)).updateARMPC).pcSCycles,
      if s.cpsr &&& Flag_T ≠ 0 then
        ({ (x.setReg PC (sub32 op1 4)).updateARMPC with
            cpsr := s.cpsr, curSP := s.curSP, curLR := s.curLR, isFIQ := s.isFIQ } :
          AGBCPU).updateTHUMBPC
          (({ (x.setReg PC (sub32 op1 4)).updateARMPC with
            cpsr := s.cpsr, curSP := s.curSP, curLR := s.curLR, isFIQ := s.isFIQ } :
          AGBCPU).reg PC)
      else
        { (x.setReg PC (sub32 op1 4)).updateARMPC with
            cpsr := s.cpsr, curSP := s.curSP, curLR := s.curLR, isFIQ := s.isFIQ }) := by
  unfold doALUOp
  rw [if_pos rfl]
  unfold doALUOpNoCond
  simp only []
  rw [if_neg (show ¬ (2 : Nat) = 0 by decide), if_neg (show ¬ (2 : Nat) = 1 by decide),
    if_pos True.intro]
  simp only [if_true]
  rw [getSPSR_irq ((x.setReg PC (sub32 op1 4)).updateARMPC) hm]
  simp only [show (x.setReg PC (sub32 op1 4)).updateARMPC.spsr 3 = s.cpsr from hsp]
  rw [modeChanged_with ((x.setReg PC (sub32 op1 4)).updateARMPC) s hb]
theorem sub32_add4 (p : Nat) : sub32 ((p + 4) % 4294967296) 4 % 4294967296 = p % 4294967296 := by
  unfold sub32
  omega

theorem subs_pc_return (x s : AGBCPU) (op1 : Nat) (c : Bool) (hm : x.cpsr &&& 0x1F = 0x12)
    (hsp : x.spsr 3 = s.cpsr) (hb : s.modeChanged.map bankSel = some (bankSel s)) :
    ∃ n t, x.doALUOp 0x2 PC op1 4 c = some (n, t) ∧ t.cpsr = s.cpsr ∧ bankSel t = bankSel s ∧
      ∀ r, t.regs r = if r = PC then sub32 op1 4 % 4294967296 else x.regs r := by
  refine ⟨_, _, doALUOp_subs_pc x s op1 c hm hsp hb, ?_, ?_, ?_⟩
  · split <;> rfl
  · split <;> rfl
  · intro r
    have e : ∀ y : AGBCPU, (if s.cpsr &&& Flag_T ≠ 0 then y.updateTHUMBPC (y.reg PC) else y).regs r
        = y.regs r := by
      intro y
      split <;> rfl
    rw [e]
    show (x.setReg PC (sub32 op1 4)).regs r = _
    unfold setReg
    rw [mapReg_PC]
    rfl

/-- C23: from every state with CPSR.I clear whose register bank is that of its mode and
with `SUBS PC, LR, #4` at the IRQ vector, taking an IRQ and executing that instruction
gives back the pre-interrupt CPSR and PC, the pre-interrupt bank of R13/R14 with the same
R13 (and the same R14 unless the interrupted mode was IRQ itself), and every register slot
other than PC and the IRQ link register unchanged. -/
theorem C23_irq_round_trip (mc : Bool) (s : AGBCPU) (hI : s.cpsr &&& Flag_I = 0)
    (hbank : s.modeChanged.map bankSel = some (bankSel s))
    (hbios : s.mem.read32Fast 0x18 = some 0xE25EF004) :
    ∃ s1 c t, s.serviceInterrupts = some (true, s1) ∧
      executeARMInstruction mc s1 = some (c, t) ∧
      t.cpsr = s.cpsr ∧ t.loReg PC = s.loReg PC % 4294967296 ∧ bankSel t = bankSel s ∧
      t.reg 13 = s.reg 13 ∧ (s.cpsr &&& 0x1F ≠ 0x12 → t.reg 14 = s.reg 14) ∧
      (∀ r, r ≠ 15 → r ≠ 28 → t.regs r = s.regs r) := by
  obtain ⟨b1, b2, b3, b4⟩ := bank_slots s hbank
  obtain ⟨f1, f2, f3, f4⟩ := entry_cpsr_facts s.cpsr 0x12 (Or.inl rfl)
  have hs1 := serviceInterrupts_eq s hI
  generalize hS : ((({ s with
          halted := false,
          spsr := fun i => if i = 3 then s.cpsr else s.spsr i,
          regs := fun i => if i = PC then 0x18 % 4294967296 else s.regs i,
          cpsr := (s.cpsr &&& bnot32 (0x1F ||| Flag_T)) ||| Flag_I ||| 0x12,
          curSP := 27, curLR := 28, isFIQ := false } : AGBCPU).updateARMPC).setLoReg 28
        (s.loReg PC + 4)) = S1 at hs1
  have g1 : S1.mem.derefRead S1.armPCPtr 4 = some 0xE25EF004 := by
    rw [← hS]
    simp only [updateARMPC, setLoReg, loReg, if_true, Nat.reduceMod]
    exact hbios
  have g2 : S1.mem.read32Fast (S1.loReg PC) = some 0xE25EF004 := by rw [← hS]; exact hbios
  have g3 : S1.cpsr = (s.cpsr &&& bnot32 (0x1F ||| Flag_T)) ||| Flag_I ||| 0x12 := by
    rw [← hS]; rfl
  have g4 : S1.spsr 3 = s.cpsr := by rw [← hS]; rfl
  have g5 : S1.curLR = 28 := by rw [← hS]; rfl
  have g6 : S1.regs = fun i => if i = 28 then (s.loReg PC + 4) % 4294967296
      else if i = PC then 0x18 % 4294967296 else s.regs i := by rw [← hS]; rfl
  have hf : S1.fetchARM.map Prod.fst = some 0xE25EF004 := by
    unfold fetchARM
    rw [g1, g2]
    rfl
  obtain ⟨S1x, hfx, hS1x⟩ := fetchARM_of_opcode S1 _ hf
  have hex := arm_subs_pc_lr mc S1 S1x hfx
  have hx1 : (S1x.setLoReg PC (S1x.loReg PC + 4)).cpsr &&& 0x1F = 0x12 := by
    rw [hS1x]
    show S1.cpsr &&& 0x1F = 0x12
    rw [g3]
    exact f1
  have hx2 : (S1x.setLoReg PC (S1x.loReg PC + 4)).spsr 3 = s.cpsr := by rw [hS1x]; exact g4
  have hx3 : (S1x.setLoReg PC (S1x.loReg PC + 4)).reg 14 = (s.loReg PC + 4) % 4294967296 := by
    rw [hS1x]
    show (if S1.curLR = PC then _ else S1.regs S1.curLR) = _
    rw [g5, if_neg (by decide), g6]
    rfl
  have hx4 : ∀ r, r ≠ 15 → (S1x.setLoReg PC (S1x.loReg PC + 4)).regs r = S1.regs r := by
    intro r hr
    rw [hS1x]
    show (if r = PC then _ else S1.regs r) = _
    rw [if_neg hr]
  obtain ⟨n, t, ht, t1, t2, t3⟩ := subs_pc_return (S1x.setLoReg PC (S1x.loReg PC + 4)) s
    ((S1x.setLoReg PC (S1x.loReg PC + 4)).reg 14) (decide (S1x.cpsr &&& Flag_C ≠ 0)) hx1 hx2 hbank
  rw [ht] at hex
  have tsp : t.curSP = s.curSP := congrArg (fun p => p.1) t2
  have tlr : t.curLR = s.curLR := congrArg (fun p => p.2.1) t2
  refine ⟨S1, n, t, hs1, hex, t1, ?_, t2, ?_, ?_, ?_⟩
  · show t.regs PC = _
    rw [t3, if_pos rfl, hx3]
    exact sub32_add4 _
  · show t.regs t.curSP = s.regs s.curSP
    rw [tsp, t3, if_neg b1, hx4 _ b1, g6]
    show (if s.curSP = 28 then _ else if s.curSP = PC then _ else s.regs s.curSP) = _
    rw [if_neg b2, if_neg b1]
  · intro hm
    show t.regs t.curLR = s.regs s.curLR
    rw [tlr, t3, if_neg b3, hx4 _ b3, g6]
    show (if s.curLR = 28 then _ else if s.curLR = PC then _ else s.regs s.curLR) = _
    rw [if_neg (b4 hm), if_neg b3]
  · intro r h15 h28
    rw [t3, if_neg h15, hx4 _ h15, g6]
    show (if r = 28 then _ else if r = PC then _ else s.regs r) = _
    rw [if_neg h28, if_neg h15]
/-- C23 at a machine in system mode and THUMB state with `SUBS PC, LR, #4` at the IRQ
vector of the BIOS image. -/
theorem C23_irq_round_trip_witness :
    (thumbWith [0, 0, 0, 0, 0, 0, 0, 0, 0, 0, 0, 0, 0xF004, 0xE25E]).cpsr &&& Flag_I = 0 ∧
    ∃ s1 c t,
      (thumbWith [0, 0, 0, 0, 0, 0, 0, 0, 0, 0, 0, 0, 0xF004, 0xE25E]).serviceInterrupts
        = some (true, s1) ∧
      executeARMInstruction true s1 = some (c, t) ∧
      t.cpsr = (thumbWith [0, 0, 0, 0, 0, 0, 0, 0, 0, 0, 0, 0, 0xF004, 0xE25E]).cpsr ∧
      t.loReg PC
        = (thumbWith [0, 0, 0, 0, 0, 0, 0, 0, 0, 0, 0, 0, 0xF004, 0xE25E]).loReg PC % 4294967296 :=
  ⟨by decide,
    match C23_irq_round_trip true (thumbWith [0, 0, 0, 0, 0, 0, 0, 0, 0, 0, 0, 0, 0xF004, 0xE25E])
      (by decide) (by decide) (by decide) with
    | ⟨s1, c, t, h1, h2, h3, h4, _⟩ => ⟨s1, c, t, h1, h2, h3, h4⟩⟩

/-! ## PC alignment -/

/-- C21 (failing inputs): PC alignment is not preserved.  From the machine after reset
(ARM state, PC = 0): `MOV PC, #2` leaves T clear and PC = 2; `MOV R0, #2; BX R0` leaves T
clear and PC = 2; `MOV LR, #1; MOV R0, #0x3F; MSR SPSR_fc, R0; MOVS PC, LR` leaves T set
and PC = 1, after which the next instruction has no result (the assertion on the low PC bit
of `executeTHUMBInstruction` fails).  From a machine in THUMB state at PC = 0:
`MOV R0, #2; BX R0` leaves T clear and PC = 2. -/
theorem C21_pc_alignment_not_preserved : ∀ mc : Bool,
    (pcAligned (bootWith [0xE3A0F002]) = true ∧
      (executeCPUs mc 1 (bootWith [0xE3A0F002])).map
        (fun t => (t.cpsr &&& Flag_T, t.loReg PC, pcAligned t)) = some (0, 2, false)) ∧
    (pcAligned (bootWith [0xE3A00002, 0xE12FFF10]) = true ∧
      (executeCPUs mc 2 (bootWith [0xE3A00002, 0xE12FFF10])).map
        (fun t => (t.cpsr &&& Flag_T, t.loReg PC, pcAligned t)) = some (0, 2, false)) ∧
    (pcAligned (bootWith [0xE3A0E001, 0xE3A0003F, 0xE169F000, 0xE1B0F00E]) = true ∧
      (executeCPUs mc 4 (bootWith [0xE3A0E001, 0xE3A0003F, 0xE169F000, 0xE1B0F00E])).map
        (fun t => (t.cpsr &&& Flag_T, t.loReg PC, pcAligned t)) = some (Flag_T, 1, false) ∧
      (executeCPUs mc 5
        (bootWith [0xE3A0E001, 0xE3A0003F, 0xE169F000, 0xE1B0F00E])).isNone = true) ∧
    (pcAligned (thumbWith [0x2002, 0x4700]) = true ∧
      (executeCPUs mc 2 (thumbWith [0x2002, 0x4700])).map
        (fun t => (t.cpsr &&& Flag_T, t.loReg PC, pcAligned t)) = some (0, 2, false)) := by
  decide!

/-! ## Reading the timer counters -/

theorem readReg_timer (s : AGBCPU) (n val : Nat) (hn : n < 4) :
    s.readReg (0x100 + 4 * n) val = s.updateTimers.map (fun t => (t.timerCounters (n / 3), t)) := by
  have e : (0x100 + 4 * n) &&& 0xFFFFFF = 0x100 + 4 * n := by
    have h := Nat.and_pow_two_sub_one_eq_mod (0x100 + 4 * n) 24
    simp only [Nat.reducePow, Nat.reduceSub] at h
    rw [h]
    omega
  unfold readReg
  simp only [e, IO_SOUND1CNT_L, IO_FIFO_B, IO_TM0CNT_L]
  rw [if_neg (by omega), if_neg (by omega), if_pos (by omega)]
  have e2 : (0x100 + 4 * n - 0x100) / 12 = n / 3 := by omega
  rw [e2]

/-- C31 (the code breaks it): an IO read of TMnCNT_L (0x04000100 + 4n) does synchronise the
timers first, but then returns `timerCounters[(4n) / 12]`: timer 0's counter for n = 0, 1
and 2 and timer 1's counter for n = 3.  With the four counters holding 0x1111, 0x2222,
0x3333 and 0x4444 and no timer enabled, the 16-bit bus reads of 0x04000100, 0x04000104,
0x04000108 and 0x0400010C return 0x1111, 0x1111, 0x1111 and 0x2222. -/
theorem C31_timer_read_returns_counter_n_div_3 :
    (∀ (s : AGBCPU) (n val : Nat), n < 4 →
      s.readReg (0x100 + 4 * n) val
        = s.updateTimers.map (fun t => (t.timerCounters (n / 3), t))) ∧
    ([0x4000100, 0x4000104, 0x4000108, 0x400010C].map fun a =>
      (({ blank with timerCounters := fun k => [0x1111, 0x2222, 0x3333, 0x4444].getD k 0 } :
        AGBCPU).memRead a 2).map Prod.fst)
      = [some 0x1111, some 0x1111, some 0x1111, some 0x2222] := by
  refine ⟨fun s n val hn => readReg_timer s n val hn, by decide⟩

/-- C31 at timer 2 of the blank machine: the read of TM2CNT_L returns timer 0's counter. -/
theorem C31_timer_read_witness :
    2 < 4 ∧ blank.readReg (0x100 + 4 * 2) 0
      = blank.updateTimers.map (fun t => (t.timerCounters (2 / 3), t)) :=
  ⟨by decide, C31_timer_read_returns_counter_n_div_3.1 blank 2 0 (by decide)⟩

/-! ## Shifts by a register amount: THUMB against ARM -/

theorem thumb_lsl_lsr_big (mc : Bool) (s : AGBCPU) (h32 : 32 < s.loReg 1) :
    (doTHUMB04ALU mc s 0x4088).map (fun r => (r.2.loReg 0, r.2.cpsr &&& Flag_C)) = some (0, 0) ∧
    (doTHUMB04ALU mc s 0x40C8).map (fun r => (r.2.loReg 0, r.2.cpsr &&& Flag_C)) = some (0, 0) := by
  have e1 : (0x4088 >>> 6 : Nat) &&& 0xF = 2 := by decide
  have e2 : (0x4088 >>> 3 : Nat) &&& 7 = 1 := by decide
  have e3 : (0x4088 : Nat) &&& 7 = 0 := by decide
  have f1 : (0x40C8 >>> 6 : Nat) &&& 0xF = 3 := by decide
  have f2 : (0x40C8 >>> 3 : Nat) &&& 7 = 1 := by decide
  have f3 : (0x40C8 : Nat) &&& 7 = 0 := by decide
  have hc : ∀ x : Nat, ((x &&& bnot32 (Flag_C ||| Flag_N ||| Flag_Z)) ||| (0 &&& signBit)
      ||| flagIf (decide ((0 : Nat) = 0)) Flag_Z ||| flagIf (decide ((0 : Nat) ≠ 0)) Flag_C)
      &&& Flag_C = 0 := by
    intro x
    apply Nat.eq_of_testBit_eq
    intro i
    simp only [Nat.testBit_and, Nat.testBit_or, Nat.zero_testBit, flagIf]
    by_cases hi : i = 29
    · subst hi
      have : (bnot32 (Flag_C ||| Flag_N ||| Flag_Z)).testBit 29 = false := by decide
      simp [this]
      decide
    · have : (Flag_C : Nat).testBit i = false := by
        have e : (Flag_C : Nat) = 2 ^ 29 := by decide
        rw [e, Nat.testBit_two_pow]
        simp
        omega
      simp [this]
  constructor
  · unfold doTHUMB04ALU
    simp only [e1, e2, e3]
    rw [if_neg (by decide), if_neg (by decide), if_pos True.intro]
    simp only [if_pos (show s.loReg 1 ≥ 32 from by omega),
      if_neg (show ¬ s.loReg 1 = 32 from by omega)]
    simp only [Option.map_some', Option.some.injEq, Prod.mk.injEq]
    refine ⟨?_, hc _⟩
    show (if 0 = s.mapReg 0 then 0 % 4294967296 else s.regs 0) = 0
    rw [mapReg_low s 0 (by decide), if_pos rfl]
  · unfold doTHUMB04ALU
    simp only [f1, f2, f3]
    rw [if_neg (by decide), if_neg (by decide), if_neg (by decide), if_pos True.intro]
    simp only [if_pos (show s.loReg 1 ≥ 32 from by omega),
      if_neg (show ¬ s.loReg 1 = 32 from by omega)]
    simp only [Option.map_some', Option.some.injEq, Prod.mk.injEq]
    refine ⟨?_, hc _⟩
    show (if 0 = s.mapReg 0 then 0 % 4294967296 else s.regs 0) = 0
    rw [mapReg_low s 0 (by decide), if_pos rfl]

theorem arm_shift_reg_low_byte_zero (mc : Bool) (s : AGBCPU) (h : s.loReg 1 &&& 0xFF = 0) :
    getShiftedReg mc s 0 0x11 = some (s.loReg 0, decide (s.cpsr &&& Flag_C ≠ 0)) ∧
    getShiftedReg mc s 0 0x13 = some (s.loReg 0, decide (s.cpsr &&& Flag_C ≠ 0)) := by
  have r0 : s.reg 0 = s.loReg 0 := by unfold reg; rw [mapReg_low s 0 (by decide)]; rfl
  have r1 : s.reg 1 = s.loReg 1 := by unfold reg; rw [mapReg_low s 1 (by decide)]; rfl
  have a1 : (0x11 : Nat) &&& 1 ≠ 0 := by decide
  have a2 : ¬ ((0x11 : Nat) &&& (1 <<< 3) ≠ 0) := by decide
  have a3 : (0x11 : Nat) >>> 4 = 1 := by decide
  have b1 : (0x13 : Nat) &&& 1 ≠ 0 := by decide
  have b2 : ¬ ((0x13 : Nat) &&& (1 <<< 3) ≠ 0) := by decide
  have b3 : (0x13 : Nat) >>> 4 = 1 := by decide
  constructor
  · unfold getShiftedReg
    simp only []
    rw [if_neg (show ¬ (0 : Nat) = PC from by decide), if_neg (show ¬ (0x11 : Nat) = 0 from by decide),
      if_pos a1, if_neg a2, a3, r1, if_pos h, r0]
  · unfold getShiftedReg
    simp only []
    rw [if_neg (show ¬ (0 : Nat) = PC from by decide), if_neg (show ¬ (0x13 : Nat) = 0 from by decide),
      if_pos b1, if_neg b2, b3, r1, if_pos h, r0]

/-- C39 (the code breaks it): THUMB `LSL Rd, Rs` and `LSR Rd, Rs` test the whole 32-bit
amount register (`op2 >= 32`), the ARM register-specified shift takes `reg(Rs) & 0xFF`.
For every state whose R1 is above 32 with a zero low byte (0x100, 0x200, ...) the THUMB
LSL R0, R1 (0x4088) and LSR R0, R1 (0x40C8) give R0 = 0 with C clear, while the ARM
operand `R0, LSL R1` and `R0, LSR R1` is R0 unchanged with the carry as it was.  With
R0 = 1, R1 = 0x100 and C set: the THUMB instructions end with R0 = 0, C clear, Z set; the
ARM `MOVS R0, R0, LSL R1` (0xE1B00110) and `MOVS R0, R0, LSR R1` (0xE1B00130) end with
R0 = 1, C set, Z clear. -/
theorem C39_thumb_shift_uses_whole_amount_register :
    (∀ (mc : Bool) (s : AGBCPU), 32 < s.loReg 1 → s.loReg 1 &&& 0xFF = 0 →
      (doTHUMB04ALU mc s 0x4088).map (fun r => (r.2.loReg 0, r.2.cpsr &&& Flag_C)) = some (0, 0) ∧
      (doTHUMB04ALU mc s 0x40C8).map (fun r => (r.2.loReg 0, r.2.cpsr &&& Flag_C)) = some (0, 0) ∧
      getShiftedReg mc s 0 0x11 = some (s.loReg 0, decide (s.cpsr &&& Flag_C ≠ 0)) ∧
      getShiftedReg mc s 0 0x13 = some (s.loReg 0, decide (s.cpsr &&& Flag_C ≠ 0))) ∧
    (∀ mc, (executeTHUMBInstruction mc
        ((({ thumbWith [0x4088] with cpsr := 0x2000003F } : AGBCPU).setReg 0 1).setReg 1 0x100)).map
      (fun r => (r.2.reg 0, r.2.cpsr)) = some (0, 0x4000003F)) ∧
    (∀ mc, (executeTHUMBInstruction mc
        ((({ thumbWith [0x40C8] with cpsr := 0x2000003F } : AGBCPU).setReg 0 1).setReg 1 0x100)).map
      (fun r => (r.2.reg 0, r.2.cpsr)) = some (0, 0x4000003F)) ∧
    (∀ mc, (executeARMInstruction mc
        ((({ bootWith [0xE1B00110] with cpsr := 0x200000D3 } : AGBCPU).setReg 0 1).setReg 1 0x100)).map
      (fun r => (r.2.reg 0, r.2.cpsr)) = some (1, 0x200000D3)) ∧
    (∀ mc, (executeARMInstruction mc
        ((({ bootWith [0xE1B00130] with cpsr := 0x200000D3 } : AGBCPU).setReg 0 1).setReg 1 0x100)).map
      (fun r => (r.2.reg 0, r.2.cpsr)) = some (1, 0x200000D3)) := by
  refine ⟨?_, by decide, by decide, by decide, by decide⟩
  intro mc s h32 h
  exact ⟨(thumb_lsl_lsr_big mc s h32).1, (thumb_lsl_lsr_big mc s h32).2,
    (arm_shift_reg_low_byte_zero mc s h).1, (arm_shift_reg_low_byte_zero mc s h).2⟩

/-- C39 at R1 = 0x100 of a THUMB-state machine. -/
theorem C39_thumb_shift_witness :
    32 < ((thumbWith [0x4088]).setReg 1 0x100).loReg 1 ∧
    ((thumbWith [0x4088]).setReg 1 0x100).loReg 1 &&& 0xFF = 0 ∧
    (doTHUMB04ALU true ((thumbWith [0x4088]).setReg 1 0x100) 0x4088).map
      (fun r => (r.2.loReg 0, r.2.cpsr &&& Flag_C)) = some (0, 0) :=
  ⟨by decide, by decide,
    (C39_thumb_shift_uses_whole_amount_register.1 true ((thumbWith [0x4088]).setReg 1 0x100)
      (by decide) (by decide)).1⟩

/-! ## A timer counting every cycle -/

theorem timerKept_refl (i : Nat) (s : AGBCPU) : timerKept i s s := ⟨rfl, rfl, rfl, rfl, rfl⟩

theorem timerKept_trans (i : Nat) (s t u : AGBCPU) (h1 : timerKept i s t)
    (h2 : timerKept i t u) : timerKept i s u :=
  ⟨h2.1.trans h1.1, h2.2.1.trans h1.2.1, h2.2.2.1.trans h1.2.2.1, h2.2.2.2.1.trans h1.2.2.2.1,
    h2.2.2.2.2.trans h1.2.2.2.2⟩

theorem testBit_timer_bit (i j : Nat) (hij : i ≠ j) : (Int_Timer0 <<< j).testBit (3 + i) = false := by
  have e : Int_Timer0 <<< j = 2 ^ (3 + j) := by
    rw [Nat.shiftLeft_eq, Nat.pow_add]
  rw [e, Nat.testBit_two_pow]
  simp
  omega

theorem testBit_timer_self (i : Nat) : (Int_Timer0 <<< i).testBit (3 + i) = true := by
  have e : Int_Timer0 <<< i = 2 ^ (3 + i) := by
    rw [Nat.shiftLeft_eq, Nat.pow_add]
  rw [e, Nat.testBit_two_pow]
  simp

/-- The IO register file after `flagInterrupt`. -/
theorem flagInterrupt_IF (s : AGBCPU) (x : Nat) :
    (s.flagInterrupt x).mem.readIOReg IO_IF = (s.mem.readIOReg IO_IF ||| x) % 65536 := by
  simp only [flagInterrupt, AGBMemory.readIOReg, AGBMemory.writeIOReg]
  exact loadLE2_storeLE2_same _ _ _

theorem flagInterrupt_latch (s : AGBCPU) (x i : Nat) (hi : i < 4) :
    (s.flagInterrupt x).mem.readIOReg (IO_TM0CNT_L + i * 4)
      = s.mem.readIOReg (IO_TM0CNT_L + i * 4) := by
  simp only [flagInterrupt, AGBMemory.readIOReg, AGBMemory.writeIOReg]
  exact loadLE2_storeLE2_ne _ _ _ _ (by simp only [IO_IF, IO_TM0CNT_L]; omega)

theorem flagInterrupt_kept (s : AGBCPU) (i j : Nat) (hi : i < 4) (hij : i ≠ j) :
    timerKept i s (s.flagInterrupt (Int_Timer0 <<< j)) := by
  refine ⟨rfl, rfl, rfl, flagInterrupt_latch s _ i hi, ?_⟩
  rw [flagInterrupt_IF, show (65536 : Nat) = 2 ^ 16 from rfl, Nat.testBit_mod_two_pow,
    Nat.testBit_or, testBit_timer_bit i j hij]
  have : 3 + i < 16 := by omega
  simp [this]

theorem flagInterrupt_kept_after (s w : AGBCPU) (i j : Nat) (hi : i < 4) (hij : i ≠ j)
    (h : timerKept i s w) : timerKept i s (w.flagInterrupt (Int_Timer0 <<< j)) :=
  timerKept_trans i s w _ h (flagInterrupt_kept w i j hi hij)

theorem timerStep_total (timer passed i : Nat) (s : AGBCPU) (ov : Nat)
    (hp : s.timerPrescalers i ≠ 0) : ∃ r, timerStep timer passed i s ov = some r := by
  unfold timerStep
  simp only [hp, if_false]
  split_ifs <;> exact ⟨_, rfl⟩

theorem timerStep_kept (timer passed i j : Nat) (s t : AGBCPU) (ov ov2 : Nat)
    (hi : i < 4) (hij : i ≠ j)
    (h : timerStep timer passed j s ov = some (t, ov2)) : timerKept i s t := by
  unfold timerStep at h
  simp only [Option.map_eq_some'] at h
  obtain ⟨u, hu, ht⟩ := h
  have hsu : timerKept i s u := by
    split_ifs at hu <;> first
      | (injection hu with hu; rw [← hu]; exact ⟨by simp [hij], rfl, rfl, rfl, rfl⟩)
      | (injection hu with hu; rw [← hu]; exact timerKept_refl i s)
      | exact absurd hu (by simp)
  refine timerKept_trans i s u t hsu ?_
  split_ifs at ht with c1 c2
  · injection ht with ht1 ht2
    rw [← ht1]
    exact flagInterrupt_kept_after u _ i j hi hij ⟨by simp [hij], rfl, rfl, rfl, rfl⟩
  · injection ht with ht1 ht2
    rw [← ht1]
    exact ⟨by simp [hij], rfl, rfl, rfl, rfl⟩
  · injection ht with ht1 ht2
    rw [← ht1]
    exact timerKept_refl i u

theorem timerStep_self (timer passed i : Nat) (s : AGBCPU) (ov : Nat) (hi : i < 4)
    (hp : s.timerPrescalers i = 1) :
    ∃ t ov2, timerStep timer passed i s ov = some (t, ov2) ∧ timerOutcome passed i s t ∧
      t.timerPrescalers = s.timerPrescalers := by
  have hlatch : s.mem.readIOReg (IO_TM0CNT_L + i * 4) % 65536
      = s.mem.readIOReg (IO_TM0CNT_L + i * 4) := by
    unfold AGBMemory.readIOReg loadLE loadLE loadLE
    omega
  unfold timerStep timerOutcome
  simp only [hp, show ¬ (1 : Int) = -1 from by decide, if_false, if_true, Option.map_some',
    if_pos True.intro]
  by_cases c1 : (s.timerCounters i + passed) % 65536 < s.timerCounters i
  · simp only [c1, if_true]
    by_cases c2 : s.timerInterruptEnabled &&& (1 <<< i) ≠ 0
    · rw [if_pos c2]
      refine ⟨_, _, rfl, ⟨?_, ?_⟩, rfl⟩
      · simp [flagInterrupt, hlatch]
      · rw [flagInterrupt_IF, show (65536 : Nat) = 2 ^ 16 from rfl, Nat.testBit_mod_two_pow,
          Nat.testBit_or, testBit_timer_self]
        have : 3 + i < 16 := by omega
        simp [this, c2]
    · rw [if_neg c2]
      refine ⟨_, _, rfl, ⟨?_, ?_⟩, rfl⟩
      · simp [hlatch]
      · simp [c2]
  · simp only [c1, if_false]
    exact ⟨_, _, rfl, ⟨by simp, rfl⟩, rfl⟩

theorem timerOutcome_of_kept (passed i : Nat) (s u t : AGBCPU) (h1 : timerKept i s u)
    (h2 : timerOutcome passed i u t) : timerOutcome passed i s t := by
  obtain ⟨k1, k2, k3, k4, k5⟩ := h1
  unfold timerOutcome at *
  rw [k1, k3, k4, k5] at h2
  exact h2

theorem timerOutcome_then_kept (passed i : Nat) (s u t : AGBCPU)
    (h1 : timerOutcome passed i s u) (h2 : timerKept i u t) : timerOutcome passed i s t := by
  obtain ⟨k1, k2, k3, k4, k5⟩ := h2
  unfold timerOutcome at *
  rw [k1, k5]
  exact h1

/-- The loop of `updateTimers` from timer `k` on: it ends when no enabled timer has a zero
prescaler, keeps timer `i` when `i` is already behind it, and otherwise counts timer `i`
when that one is enabled and counts every cycle. -/
theorem timerLoop_timer (timer passed i : Nat) (hi : i < 4) :
    ∀ (fuel k enabled : Nat) (s : AGBCPU) (ov : Nat),
      (∀ j, enabled.testBit j = true → s.timerPrescalers (k + j) ≠ 0) →
      ∃ t, timerLoop fuel timer passed k enabled s ov = some t ∧
        (i < k → timerKept i s t) ∧
        (k ≤ i → i - k < fuel → enabled.testBit (i - k) = true → s.timerPrescalers i = 1 →
          timerOutcome passed i s t) := by
  intro fuel
  induction fuel with
  | zero =>
    intro k enabled s ov hnz
    exact ⟨s, rfl, fun _ => timerKept_refl i s, fun _ h => absurd h (by omega)⟩
  | succ fuel ih =>
    intro k enabled s ov hnz
    have hsh : ∀ j, (enabled >>> 1).testBit j = enabled.testBit (1 + j) := fun j =>
      Nat.testBit_shiftRight enabled
    have hbit0 : enabled.testBit 0 = decide (enabled &&& 1 = 1) := by
      rw [Nat.testBit_zero, Nat.and_one_is_mod]
    unfold timerLoop
    by_cases h0 : enabled = 0
    · rw [if_pos h0]
      refine ⟨s, rfl, fun _ => timerKept_refl i s, fun _ _ hb => ?_⟩
      rw [h0] at hb
      simp at hb
    rw [if_neg h0]
    by_cases h1 : enabled &&& 1 = 0
    · rw [if_pos h1]
      obtain ⟨t, ht, hk, ho⟩ := ih (k + 1) (enabled >>> 1) s ov (fun j hj => by
        have := hnz (1 + j) (by rw [← hsh]; exact hj)
        rw [show k + 1 + j = k + (1 + j) from by omega]
        exact this)
      refine ⟨t, ht, fun hik => hk (by omega), fun hki hf hb hp => ?_⟩
      have hne : k ≠ i := by
        intro e
        rw [e, Nat.sub_self, hbit0, h1] at hb
        simp at hb
      refine ho (by omega) (by omega) ?_ hp
      rw [hsh, show 1 + (i - (k + 1)) = i - k from by omega]
      exact hb
    rw [if_neg h1]
    have hb0 : enabled.testBit 0 = true := by
      rw [hbit0]
      have : enabled &&& 1 = 1 := by
        rw [Nat.and_one_is_mod] at h1 ⊢
        omega
      simp [this]
    have hpk : s.timerPrescalers k ≠ 0 := hnz 0 hb0
    by_cases hki : k = i
    · subst hki
      by_cases hp : s.timerPrescalers k = 1
      · obtain ⟨u, ov2, hu, hout, hpre⟩ := timerStep_self timer passed k s ov hi hp
        rw [hu]
        obtain ⟨t, ht, hk, ho⟩ := ih (k + 1) (enabled >>> 1) u ov2 (fun j hj => by
          have := hnz (1 + j) (by rw [← hsh]; exact hj)
          rw [hpre, show k + 1 + j = k + (1 + j) from by omega]
          exact this)
        exact ⟨t, ht, fun hik => absurd hik (by omega), fun _ _ _ _ =>
          timerOutcome_then_kept passed k s u t hout (hk (by omega))⟩
      · obtain ⟨⟨u, ov2⟩, hu⟩ := timerStep_total timer passed k s ov hpk
        rw [hu]
        have hpre : u.timerPrescalers = s.timerPrescalers := by
          unfold timerStep at hu
          simp only [Option.map_eq_some'] at hu
          obtain ⟨w, hw, hwu⟩ := hu
          have e1 : w.timerPrescalers = s.timerPrescalers := by
            split_ifs at hw <;> first
              | (injection hw with hw; rw [← hw])
              | exact absurd hw (by simp)
          have e2 : u.timerPrescalers = w.timerPrescalers := by
            split_ifs at hwu <;> first
              | (injection hwu with a b; rw [← a]; done)
              | (injection hwu with a b; rw [← a]; rfl)
          exact e2.trans e1
        obtain ⟨t, ht, hk, ho⟩ := ih (k + 1) (enabled >>> 1) u ov2 (fun j hj => by
          have := hnz (1 + j) (by rw [← hsh]; exact hj)
          rw [hpre, show k + 1 + j = k + (1 + j) from by omega]
          exact this)
        exact ⟨t, ht, fun hik => absurd hik (by omega), fun _ _ _ hp1 => absurd hp1 hp⟩
    · obtain ⟨⟨u, ov2⟩, hu⟩ := timerStep_total timer passed k s ov hpk
      rw [hu]
      have hkept : timerKept i s u := timerStep_kept timer passed i k s u ov ov2 hi
        (fun e => hki e.symm) hu
      obtain ⟨t, ht, hk, ho⟩ := ih (k + 1) (enabled >>> 1) u ov2 (fun j hj => by
        have := hnz (1 + j) (by rw [← hsh]; exact hj)
        rw [hkept.2.1, show k + 1 + j = k + (1 + j) from by omega]
        exact this)
      refine ⟨t, ht, fun hik => timerKept_trans i s u t hkept (hk (by omega)),
        fun hle hf hb hp => ?_⟩
      refine timerOutcome_of_kept passed i s u t hkept (ho (by omega) (by omega) ?_ ?_)
      · rw [hsh, show 1 + (i - (k + 1)) = i - k from by omega]
        exact hb
      · rw [hkept.2.1]; exact hp

/-- C32 (the code breaks it past 0xFFFF elapsed cycles): for an enabled timer `i` counting
every cycle, with counter `v` and `e` cycles since the last update, `updateTimers` stores
the 16-bit sum and tests "sum below the old counter" for the overflow.  For `e < 0x10000`
that is the claim: `v + e < 0x10000` leaves `v + e` and the timer's bit of IF as it was,
`v + e ≥ 0x10000` reloads the counter from the latch register and sets the bit of IF when
the timer's interrupt is enabled.  For `e ≥ 0x10000` with `(v + e) mod 0x10000 ≥ v` the
overflow is lost: with `v = 5`, `e = 0x10000`, latch 0x1234 and the interrupt enabled the
counter stays 5 and IF stays 0. -/
theorem C32_timer_overflow_lost_when_sum_wraps_past_counter (s : AGBCPU) (i : Nat)
    (hi : i < 4) (hen : (s.timerEnabled % 256).testBit i = true)
    (hp : s.timerPrescalers i = 1)
    (hnz : ∀ j, (s.timerEnabled % 256).testBit j = true → s.timerPrescalers j ≠ 0)
    (hv : s.timerCounters i < 0x10000) :
    (∃ t, s.updateTimers = some t ∧
      (s.timerCounters i + sub32 s.cycleCount s.lastTimerUpdate < 0x10000 →
        t.timerCounters i = s.timerCounters i + sub32 s.cycleCount s.lastTimerUpdate ∧
        (t.mem.readIOReg IO_IF).testBit (3 + i) = (s.mem.readIOReg IO_IF).testBit (3 + i)) ∧
      (0x10000 ≤ s.timerCounters i + sub32 s.cycleCount s.lastTimerUpdate →
        sub32 s.cycleCount s.lastTimerUpdate < 0x10000 →
        t.timerCounters i = s.mem.readIOReg (IO_TM0CNT_L + i * 4) ∧
        (t.mem.readIOReg IO_IF).testBit (3 + i)
          = (decide (s.timerInterruptEnabled &&& (1 <<< i) ≠ 0)
              || (s.mem.readIOReg IO_IF).testBit (3 + i))) ∧
      (s.timerCounters i
          ≤ (s.timerCounters i + sub32 s.cycleCount s.lastTimerUpdate) % 65536 →
        t.timerCounters i
          = (s.timerCounters i + sub32 s.cycleCount s.lastTimerUpdate) % 65536 ∧
        (t.mem.readIOReg IO_IF).testBit (3 + i) = (s.mem.readIOReg IO_IF).testBit (3 + i))) ∧
    (({ blank with
          timerEnabled := 1, timerInterruptEnabled := 1, timerPrescalers := (fun _ => 1),
          timerCounters := (fun _ => 5), cycleCount := 0x10000,
          mem := blankMem.writeIOReg IO_TM0CNT_L 0x1234 } : AGBCPU).updateTimers.map
        fun t => (t.timerCounters 0, t.mem.readIOReg IO_IF)) = some (5, 0) ∧
    (({ blank with
          timerEnabled := 1, timerInterruptEnabled := 1, timerPrescalers := (fun _ => 1),
          timerCounters := (fun _ => 5), cycleCount := 0xFFFF,
          mem := blankMem.writeIOReg IO_TM0CNT_L 0x1234 } : AGBCPU).updateTimers.map
        fun t => (t.timerCounters 0, t.mem.readIOReg IO_IF)) = some (0x1234, 8) := by
  refine ⟨?_, by decide, by decide⟩
  obtain ⟨u, hu, _, ho⟩ := timerLoop_timer s.lastTimerUpdate
    (sub32 s.cycleCount s.lastTimerUpdate) i hi 8 0 (s.timerEnabled % 256) s 0
    (fun j hj => by rw [Nat.zero_add]; exact hnz j hj)
  have hout := ho (Nat.zero_le i) (by omega) hen hp
  refine ⟨{ u with lastTimerUpdate := u.cycleCount }, ?_, ?_, ?_, ?_⟩
  · unfold updateTimers
    simp only [hu, Option.map_some']
  · intro hlt
    unfold timerOutcome at hout
    rw [if_neg (by omega)] at hout
    rw [Nat.mod_eq_of_lt hlt] at hout
    exact hout
  · intro hge he
    unfold timerOutcome at hout
    rw [if_pos (by omega)] at hout
    exact hout
  · intro hle
    unfold timerOutcome at hout
    rw [if_neg (by omega)] at hout
    exact hout

/-- C32 at timer 0 of a machine with only that timer enabled, counter 0xFFF0, 0x20 cycles
elapsed: the timer is reloaded and updateTimers returns. -/
theorem C32_timer_overflow_witness :
    ∃ t, ({ blank with
              timerEnabled := 1, timerPrescalers := (fun _ => 1),
              timerCounters := (fun _ => 0xFFF0), cycleCount := 0x20 } : AGBCPU).updateTimers
        = some t ∧ t.timerCounters 0 = 0 :=
  (C32_timer_overflow_lost_when_sum_wraps_past_counter
    ({ blank with
        timerEnabled := 1, timerPrescalers := (fun _ => 1),
        timerCounters := (fun _ => 0xFFF0), cycleCount := 0x20 } : AGBCPU) 0 (by decide)
    (by decide) rfl (fun _ _ => (by decide : (1 : Int) ≠ 0)) (by decide)).1.elim
    fun t ht => ⟨t, ht.1, (ht.2.2.1 (by decide) (by decide)).1⟩

/-! ## Reset -/

/-- The state `reset()` leaves, field by field. -/
theorem reset_eq (s : AGBCPU) :
    s.reset = some
      { s with
        cpsr := Flag_I ||| Flag_F ||| 0x13,
        regs := fun i => if i = PC then 0 else s.regs i,
        curSP := 23, curLR := 24, isFIQ := false,
        armPCPtr := s.mem.mapAddressConst 0,
        pcSCycles := s.mem.getAccessCycles 0 4 true,
        pcNCycles := s.mem.getAccessCycles 0 4 false,
        halted := false, cycleCount := 0, lastTimerUpdate := 0,
        timerCounters := fun _ => 0, timerPrescalers := fun _ => 0,
        mem := s.mem.reset } := by
  unfold reset
  simp only [updateARMPC, setLoReg, loReg, Nat.zero_mod]
  rw [modeChanged_svc _ (show (Flag_I ||| Flag_F ||| 0x13) &&& 0x1F = 0x13 from by decide)]
  simp only [Option.map_some', if_true]

/-- After `reset()` with timer 0 still enabled the next `updateTimers` divides by the
zeroed prescaler. -/
theorem updateTimers_after_reset (s t : AGBCPU) (h : s.reset = some t)
    (he : s.timerEnabled % 2 = 1) : t.updateTimers = none := by
  rw [reset_eq] at h
  injection h with h
  have e1 : t.timerEnabled = s.timerEnabled := by rw [← h]
  have e2 : t.cycleCount = 0 := by rw [← h]
  have e3 : t.lastTimerUpdate = 0 := by rw [← h]
  have e4 : t.timerPrescalers 0 = 0 := by rw [← h]
  have e5 : ¬ t.timerEnabled % 256 = 0 := by rw [e1]; omega
  have e6 : ¬ (t.timerEnabled % 256) &&& 1 = 0 := by
    rw [e1, Nat.and_one_is_mod]; omega
  have e7 : timerStep 0 0 0 t 0 = none := by
    unfold timerStep
    simp only [e4]
    rfl
  unfold updateTimers
  rw [e2, e3, show sub32 0 0 = 0 from by decide]
  unfold timerLoop
  simp only [if_neg e5, if_neg e6, e7]
  rfl

/-- C34 (the code breaks it): `reset()` always returns and sets CPSR, PC, the halt flag, the
cycle counters, the timer counters and prescalers, the save type, the flash state and the
flash bank, but it leaves R0..R14 with the banked registers, the SPSRs, both interrupt
caches, the timer enable masks, the pending-DMA set and the flash command-parser state as
they were: two states that differ in those still differ after `reset()`.  With timer 0
left enabled and the prescalers zeroed, the next `updateTimers` divides by zero. -/
theorem C34_reset_keeps_registers_and_masks :
    (∀ s : AGBCPU, ∃ t, s.reset = some t ∧
      t.cpsr = 0xD3 ∧ t.regs PC = 0 ∧ t.halted = false ∧ t.cycleCount = 0 ∧
      t.lastTimerUpdate = 0 ∧ (∀ i, t.timerCounters i = 0) ∧ (∀ i, t.timerPrescalers i = 0) ∧
      t.mem.saveType = .Unknown ∧ t.mem.flashState = .Read ∧ t.mem.flashBank = 0 ∧
      (∀ r, r ≠ PC → t.regs r = s.regs r) ∧ t.spsr = s.spsr ∧
      t.enabledInterrutps = s.enabledInterrutps ∧ t.currentInterrupts = s.currentInterrupts ∧
      t.timerEnabled = s.timerEnabled ∧ t.timerInterruptEnabled = s.timerInterruptEnabled ∧
      t.dmaTriggered = s.dmaTriggered ∧ t.mem.flashCmdState = s.mem.flashCmdState) ∧
    (blank.reset.map fun t =>
      [t.regs 0, t.spsr 1, t.enabledInterrutps, t.currentInterrupts, t.timerEnabled,
        t.timerInterruptEnabled, t.dmaTriggered, t.mem.flashCmdState])
      = some [0, 0, 0, 0, 0, 0, 0, 0] ∧
    ((({ blank with
          regs := (fun _ => 7), spsr := (fun _ => 0x1F), enabledInterrutps := 1,
          currentInterrupts := 1, timerEnabled := 1, timerInterruptEnabled := 1,
          dmaTriggered := 1, mem := { blankMem with flashCmdState := 2 } } : AGBCPU).reset).map
        fun t =>
      [t.regs 0, t.spsr 1, t.enabledInterrutps, t.currentInterrupts, t.timerEnabled,
        t.timerInterruptEnabled, t.dmaTriggered, t.mem.flashCmdState])
      = some [7, 0x1F, 1, 1, 1, 1, 1, 2] ∧
    (∀ s t : AGBCPU, s.reset = some t → s.timerEnabled % 2 = 1 → t.updateTimers = none) ∧
    (({ blank with timerEnabled := 1 } : AGBCPU).reset.bind updateTimers).isNone = true := by
  refine ⟨fun s => ⟨_, reset_eq s,
    (by decide : (Flag_I ||| Flag_F ||| 0x13 : Nat) = 0xD3), rfl, rfl, rfl, rfl, fun _ => rfl, fun _ => rfl,
    rfl, rfl, rfl, fun r hr => ?_, rfl, rfl, rfl, rfl, rfl, rfl, rfl⟩, by decide, by decide,
    updateTimers_after_reset, by decide⟩
  show (if r = PC then 0 else s.regs r) = s.regs r
  rw [if_neg hr]

/-- C34 at the blank machine with timer 0 enabled: after `reset()` the timer update fails. -/
theorem C34_reset_witness :
    ∃ t, ({ blank with timerEnabled := 1 } : AGBCPU).reset = some t ∧ t.updateTimers = none :=
  (C34_reset_keeps_registers_and_masks.1 ({ blank with timerEnabled := 1 } : AGBCPU)).elim
    fun t ht => ⟨t, ht.1, C34_reset_keeps_registers_and_masks.2.2.2.1 _ t ht.1 (by decide)⟩

/-! ## THUMB arithmetic against the ARM helpers -/

/-- The masked sign bit of a word as a flag. -/
theorem and_signBit_flag (x : Nat) : x &&& signBit = flagIf (x.testBit 31) 2147483648 := by
  apply Nat.eq_of_testBit_eq
  intro i
  have e : (2147483648 : Nat) = 2 ^ 31 := by decide
  rw [Nat.testBit_and, e, flagIf_testBit]
  show (x.testBit i && Nat.testBit (2 ^ 31) i) = _
  rw [Nat.testBit_two_pow]
  by_cases hi : 31 = i
  · subst hi; simp
  · simp [hi]

theorem sign_word_N (x : Nat) : x &&& signBit = flagIf (decide (x &&& signBit ≠ 0)) Flag_N := by
  rw [and_signBit_eq_testBit]
  exact and_signBit_flag x

/-- The THUMB overflow word `(x & signBit) >> 3` is the V flag of bit 31 of `x`. -/
theorem sign_shift3 (x : Nat) : (x &&& signBit) >>> 3 = flagIf (x.testBit 31) Flag_V := by
  rw [and_signBit_flag]
  cases x.testBit 31 <;> decide

theorem testBit31_bnot32 (x : Nat) : (bnot32 x).testBit 31 = !x.testBit 31 := by
  unfold bnot32
  have h : x % 4294967296 < 2 ^ 32 := Nat.mod_lt _ (by decide)
  have h2 := @Nat.testBit_two_pow_sub_succ (x % 4294967296) 32 h 31
  have e : 2 ^ 32 - (x % 4294967296 + 1) = 4294967295 - x % 4294967296 := by omega
  rw [e] at h2
  rw [h2, show (4294967296 : Nat) = 2 ^ 32 from rfl, Nat.testBit_mod_two_pow]
  simp

/-- The overflow word of the format 4 additions. -/
theorem ovf_add_word (p q : Nat) :
    (bnot32 (p &&& signBit) &&& (q &&& signBit)) >>> 3
      = flagIf (!decide (p &&& signBit ≠ 0) && decide (q &&& signBit ≠ 0)) Flag_V := by
  rw [and_signBit_eq_testBit, and_signBit_eq_testBit, and_signBit_flag p, and_signBit_flag q]
  cases p.testBit 31 <;> cases q.testBit 31 <;> decide

/-- The overflow word of the format 4 subtractions. -/
theorem ovf_sub_word (p q : Nat) :
    ((p &&& signBit) &&& (q &&& signBit)) >>> 3
      = flagIf (decide (p &&& signBit ≠ 0) && decide (q &&& signBit ≠ 0)) Flag_V := by
  rw [and_signBit_eq_testBit, and_signBit_eq_testBit, and_signBit_flag p, and_signBit_flag q]
  cases p.testBit 31 <;> cases q.testBit 31 <;> decide

/-- The overflow word of the format 2 addition. -/
theorem ovf_add_word2 (p q : Nat) :
    ((bnot32 p &&& q) &&& signBit) >>> 3
      = flagIf (!decide (p &&& signBit ≠ 0) && decide (q &&& signBit ≠ 0)) Flag_V := by
  rw [sign_shift3, Nat.testBit_and, testBit31_bnot32, and_signBit_eq_testBit,
    and_signBit_eq_testBit]

/-- The overflow word of the format 2 subtraction. -/
theorem ovf_sub_word2 (p q : Nat) :
    ((p &&& q) &&& signBit) >>> 3
      = flagIf (decide (p &&& signBit ≠ 0) && decide (q &&& signBit ≠ 0)) Flag_V := by
  rw [sign_shift3, Nat.testBit_and, and_signBit_eq_testBit, and_signBit_eq_testBit]

/-- The overflow word of the format 3 addition of an 8-bit immediate. -/
theorem ovf_add_imm (a b r : Nat) (hb : b < 256) :
    ((bnot32 a &&& r) &&& signBit) >>> 3
      = flagIf (!decide ((a ^^^ b) &&& signBit ≠ 0) && decide ((a ^^^ r) &&& signBit ≠ 0))
          Flag_V := by
  have hb31 : b.testBit 31 = false := Nat.testBit_lt_two_pow (by omega)
  rw [sign_shift3, Nat.testBit_and, testBit31_bnot32, and_signBit_eq_testBit,
    and_signBit_eq_testBit, Nat.testBit_xor, Nat.testBit_xor, hb31]
  cases a.testBit 31 <;> cases r.testBit 31 <;> rfl

/-- The overflow word of the format 3 subtraction of an 8-bit immediate. -/
theorem ovf_sub_imm (a b r : Nat) (hb : b < 256) :
    ((a &&& bnot32 r) &&& signBit) >>> 3
      = flagIf (decide ((a ^^^ b) &&& signBit ≠ 0) && decide ((a ^^^ r) &&& signBit ≠ 0))
          Flag_V := by
  have hb31 : b.testBit 31 = false := Nat.testBit_lt_two_pow (by omega)
  rw [sign_shift3, Nat.testBit_and, testBit31_bnot32, and_signBit_eq_testBit,
    and_signBit_eq_testBit, Nat.testBit_xor, Nat.testBit_xor, hb31]
  cases a.testBit 31 <;> cases r.testBit 31 <;> rfl

theorem sub32_gt (a b : Nat) (ha : a < 4294967296) (hb : b < 4294967296) :
    decide (sub32 a b > a) = decide (b > a) := by
  apply decide_eq_decide.mpr
  unfold sub32
  omega

theorem sub32_carry_one (a b : Nat) (ha : a < 4294967296) (hb : b < 4294967296) :
    sub32 (sub32 a b + 1) 1 = sub32 a b := by
  unfold sub32
  omega

/-- The lambda `doAdd` returns: the carry assertion holds on 32-bit operands. -/
theorem doAdd_some (s : AGBCPU) (a b c : Nat) (ha : a < 4294967296) (hb : b < 4294967296)
    (hc : c ≤ 1) :
    s.doAdd a b c = some ((a + b + c) % 4294967296,
      { s with
        cpsr := (s.cpsr &&& 0x0FFFFFFF)
          ||| flagIf (decide ((a + b + c) % 4294967296 &&& signBit ≠ 0)) Flag_N
          ||| flagIf (decide ((a + b + c) % 4294967296 = 0)) Flag_Z
          ||| flagIf (decide ((a + b + c) % 4294967296 < a)
                || (decide ((a + b + c) % 4294967296 = a) && decide (c ≠ 0))) Flag_C
          ||| flagIf (!decide ((a ^^^ b) &&& signBit ≠ 0)
                && decide ((a ^^^ (a + b + c) % 4294967296) &&& signBit ≠ 0)) Flag_V }) := by
  have hcar : (decide ((a + b + c) % 4294967296 < a)
      || (decide ((a + b + c) % 4294967296 = a) && decide (c ≠ 0)))
      = decide (4294967296 ≤ a + b + c) := by
    rw [Bool.eq_iff_iff]
    simp only [Bool.or_eq_true, Bool.and_eq_true, decide_eq_true_eq]
    omega
  have h : ¬ ((decide ((a + b + c) % 4294967296 < a)
      || (decide ((a + b + c) % 4294967296 = a) && decide (c ≠ 0)))
      ≠ decide ((a + b + c) % 18446744073709551616 &&& (1 <<< 32) ≠ 0)) := by
    rw [add_carry_bit a b c ha hb hc, hcar]
    simp
  unfold doAdd
  dsimp only
  rw [if_neg h]

/-- The lambda `doSub` returns: the carry assertion holds on 32-bit operands. -/
theorem doSub_some (s : AGBCPU) (a b c : Nat) (ha : a < 4294967296) (hb : b < 4294967296)
    (hc : c ≤ 1) :
    s.doSub a b c = some (sub32 (sub32 a b + c) 1,
      { s with
        cpsr := (s.cpsr &&& 0x0FFFFFFF)
          ||| flagIf (decide (sub32 (sub32 a b + c) 1 &&& signBit ≠ 0)) Flag_N
          ||| flagIf (decide (sub32 (sub32 a b + c) 1 = 0)) Flag_Z
          ||| flagIf (!(decide (b > a) || (decide (b = a) && decide (c = 0)))) Flag_C
          ||| flagIf (decide ((a ^^^ b) &&& signBit ≠ 0)
                && decide ((a ^^^ sub32 (sub32 a b + c) 1) &&& signBit ≠ 0)) Flag_V }) := by
  have hcar : (!(decide (b > a) || (decide (b = a) && decide (c = 0)))) = decide (b + 1 ≤ a + c) := by
    rw [Bool.eq_iff_iff]
    simp only [Bool.not_eq_true', Bool.or_eq_false_iff, Bool.and_eq_false_iff,
      decide_eq_false_iff_not, decide_eq_true_eq]
    omega
  have hbor : (!decide ((a + (18446744073709551616 - b) + c + (18446744073709551616 - 1))
      % 18446744073709551616 &&& (1 <<< 32) ≠ 0)) = decide (b + 1 ≤ a + c) := by
    rw [sub_borrow_bit a b c ha hb hc, Bool.eq_iff_iff]
    simp only [Bool.not_eq_true', decide_eq_false_iff_not, decide_eq_true_eq]
    omega
  have h : ¬ ((!(decide (b > a) || (decide (b = a) && decide (c = 0))))
      ≠ !decide ((a + (18446744073709551616 - b) + c + (18446744073709551616 - 1))
          % 18446744073709551616 &&& (1 <<< 32) ≠ 0)) := by
    rw [hcar, hbor]
    simp
  unfold doSub
  dsimp only
  rw [if_neg h]

/-- The format 4 flag update with a Boolean carry and an overflow word, as the ARM flag
word. -/
theorem nzcvFlags_eq (s : AGBCPU) (res : Nat) (cb ob : Bool) (ow : Nat)
    (h : ow >>> 3 = flagIf ob Flag_V) :
    s.nzcvFlags res (flagIf cb Flag_C) ow
      = { s with
          cpsr := (s.cpsr &&& 0x0FFFFFFF) ||| flagIf (decide (res &&& signBit ≠ 0)) Flag_N
            ||| flagIf (decide (res = 0)) Flag_Z ||| flagIf cb Flag_C ||| flagIf ob Flag_V } := by
  unfold nzcvFlags
  rw [h, ← sign_word_N]

/-- The format 3 flag update with a Boolean carry and an overflow word, as the ARM flag
word. -/
theorem arithFlags_eq (s : AGBCPU) (res : Nat) (cb ob : Bool) (ow : Nat)
    (h : ow >>> 3 = flagIf ob Flag_V) :
    s.arithFlags res (flagIf cb Flag_C) ow
      = { s with
          cpsr := (s.cpsr &&& 0x0FFFFFFF) ||| flagIf (decide (res &&& signBit ≠ 0)) Flag_N
            ||| flagIf (decide (res = 0)) Flag_Z ||| flagIf cb Flag_C ||| flagIf ob Flag_V } := by
  unfold arithFlags
  rw [h, ← sign_word_N]
  rfl

theorem thumb4_adc (mc : Bool) (s : AGBCPU) (opcode : Nat) (h : (opcode >>> 6) &&& 0xF = 0x5)
    (h1 : s.loReg (opcode &&& 7) < 4294967296)
    (h2 : s.loReg ((opcode >>> 3) &&& 7) < 4294967296) :
    ∃ r a, s.doAdd (s.loReg (opcode &&& 7)) (s.loReg ((opcode >>> 3) &&& 7))
        (if s.cpsr &&& Flag_C ≠ 0 then 1 else 0) = some (r, a) ∧
      s.doTHUMB04ALU mc opcode = some (s.pcSCycles, a.setReg (opcode &&& 7) r) := by
  rw [doAdd_some s _ _ _ h1 h2 (by split <;> omega)]
  refine ⟨_, _, rfl, ?_⟩
  unfold doTHUMB04ALU
  simp only [h, Nat.reduceEqDiff, reduceIte]
  rw [nzcvFlags_eq _ _ _ _ _ (ovf_add_word _ _)]
  rfl

/-- The lambda `doAdd` without a carry-in. -/
theorem doAdd_zero (s : AGBCPU) (a b : Nat) (ha : a < 4294967296) (hb : b < 4294967296) :
    s.doAdd a b 0 = some ((a + b) % 4294967296,
      { s with
        cpsr := (s.cpsr &&& 0x0FFFFFFF)
          ||| flagIf (decide ((a + b) % 4294967296 &&& signBit ≠ 0)) Flag_N
          ||| flagIf (decide ((a + b) % 4294967296 = 0)) Flag_Z
          ||| flagIf (decide ((a + b) % 4294967296 < a)) Flag_C
          ||| flagIf (!decide ((a ^^^ b) &&& signBit ≠ 0)
                && decide ((a ^^^ (a + b) % 4294967296) &&& signBit ≠ 0)) Flag_V }) := by
  rw [doAdd_some s a b 0 ha hb (by omega)]
  simp only [Nat.add_zero, ne_eq, not_true_eq_false, decide_False, Bool.and_false, Bool.or_false]

/-- The lambda `doSub` without a borrow-in (a carry-in of 1). -/
theorem doSub_one (s : AGBCPU) (a b : Nat) (ha : a < 4294967296) (hb : b < 4294967296) :
    s.doSub a b 1 = some (sub32 a b,
      { s with
        cpsr := (s.cpsr &&& 0x0FFFFFFF)
          ||| flagIf (decide (sub32 a b &&& signBit ≠ 0)) Flag_N
          ||| flagIf (decide (sub32 a b = 0)) Flag_Z
          ||| flagIf (!decide (b > a)) Flag_C
          ||| flagIf (decide ((a ^^^ b) &&& signBit ≠ 0)
                && decide ((a ^^^ sub32 a b) &&& signBit ≠ 0)) Flag_V }) := by
  rw [doSub_some s a b 1 ha hb (by omega), sub32_carry_one a b ha hb]
  simp only [Nat.succ_ne_self, decide_False, Bool.and_false, Bool.or_false]

theorem thumb4_sbc (mc : Bool) (s : AGBCPU) (opcode : Nat) (h : (opcode >>> 6) &&& 0xF = 0x6)
    (h1 : s.loReg (opcode &&& 7) < 4294967296)
    (h2 : s.loReg ((opcode >>> 3) &&& 7) < 4294967296) :
    ∃ r a, s.doSub (s.loReg (opcode &&& 7)) (s.loReg ((opcode >>> 3) &&& 7))
        (if s.cpsr &&& Flag_C ≠ 0 then 1 else 0) = some (r, a) ∧
      s.doTHUMB04ALU mc opcode = some (s.pcSCycles, a.setReg (opcode &&& 7) r) := by
  rw [doSub_some s _ _ _ h1 h2 (by split <;> omega)]
  refine ⟨_, _, rfl, ?_⟩
  unfold doTHUMB04ALU
  simp only [h, Nat.reduceEqDiff, reduceIte]
  rw [nzcvFlags_eq _ _ _ _ _ (ovf_sub_word _ _)]
  rfl

theorem thumb4_neg (mc : Bool) (s : AGBCPU) (opcode : Nat) (h : (opcode >>> 6) &&& 0xF = 0x9)
    (h2 : s.loReg ((opcode >>> 3) &&& 7) < 4294967296) :
    ∃ r a, s.doSub 0 (s.loReg ((opcode >>> 3) &&& 7)) 1 = some (r, a) ∧
      s.doTHUMB04ALU mc opcode = some (s.pcSCycles, a.setReg (opcode &&& 7) r) := by
  rw [doSub_one s _ _ (by decide) h2]
  refine ⟨_, _, rfl, ?_⟩
  unfold doTHUMB04ALU
  simp only [h, Nat.reduceEqDiff, reduceIte]
  rw [nzcvFlags_eq _ _ _ _ _ (ovf_sub_word _ _)]
  simp only [Nat.zero_xor]
  rfl

theorem thumb4_cmp (mc : Bool) (s : AGBCPU) (opcode : Nat) (h : (opcode >>> 6) &&& 0xF = 0xA)
    (h1 : s.loReg (opcode &&& 7) < 4294967296)
    (h2 : s.loReg ((opcode >>> 3) &&& 7) < 4294967296) :
    ∃ r a, s.doSub (s.loReg (opcode &&& 7)) (s.loReg ((opcode >>> 3) &&& 7)) 1 = some (r, a) ∧
      s.doTHUMB04ALU mc opcode = some (s.pcSCycles, a) := by
  rw [doSub_one s _ _ h1 h2]
  refine ⟨_, _, rfl, ?_⟩
  unfold doTHUMB04ALU
  simp only [h, Nat.reduceEqDiff, reduceIte]
  rw [nzcvFlags_eq _ _ _ _ _ (ovf_sub_word _ _)]

theorem thumb4_cmn (mc : Bool) (s : AGBCPU) (opcode : Nat) (h : (opcode >>> 6) &&& 0xF = 0xB)
    (h1 : s.loReg (opcode &&& 7) < 4294967296)
    (h2 : s.loReg ((opcode >>> 3) &&& 7) < 4294967296) :
    ∃ r a, s.doAdd (s.loReg (opcode &&& 7)) (s.loReg ((opcode >>> 3) &&& 7)) 0 = some (r, a) ∧
      s.doTHUMB04ALU mc opcode = some (s.pcSCycles, a) := by
  rw [doAdd_zero s _ _ h1 h2]
  refine ⟨_, _, rfl, ?_⟩
  unfold doTHUMB04ALU
  simp only [h, Nat.reduceEqDiff, reduceIte]
  rw [nzcvFlags_eq _ _ _ _ _ (ovf_add_word _ _)]

theorem and_255_lt (x : Nat) : x &&& 0xFF < 256 := by
  have h := Nat.and_pow_two_sub_one_eq_mod x 8
  simp only [Nat.reducePow, Nat.reduceSub] at h
  rw [h]
  omega

theorem and_7_lt (x : Nat) : x &&& 7 < 8 := by
  have h := Nat.and_pow_two_sub_one_eq_mod x 3
  simp only [Nat.reducePow, Nat.reduceSub] at h
  rw [h]
  omega

theorem thumb3_cmp (s : AGBCPU) (opcode : Nat) (h : (opcode >>> 11) &&& 0x3 = 1)
    (h1 : s.loReg ((opcode >>> 8) &&& 7) < 4294967296) :
    ∃ r a, s.doSub (s.loReg ((opcode >>> 8) &&& 7)) (opcode &&& 0xFF) 1 = some (r, a) ∧
      s.doTHUMB03 opcode = some (s.pcSCycles, a) := by
  have hb := and_255_lt opcode
  rw [doSub_one s _ _ h1 (by omega)]
  refine ⟨_, _, rfl, ?_⟩
  unfold doTHUMB03
  simp only [h, Nat.reduceEqDiff, reduceIte]
  rw [arithFlags_eq _ _ _ _ _ (ovf_sub_imm _ (opcode &&& 0xFF) _ hb),
    sub32_gt _ _ h1 (by omega)]

theorem thumb3_add (s : AGBCPU) (opcode : Nat) (h : (opcode >>> 11) &&& 0x3 = 2)
    (h1 : s.loReg ((opcode >>> 8) &&& 7) < 4294967296) :
    ∃ r a, s.doAdd (s.loReg ((opcode >>> 8) &&& 7)) (opcode &&& 0xFF) 0 = some (r, a) ∧
      s.doTHUMB03 opcode = some (s.pcSCycles, a.setLoReg ((opcode >>> 8) &&& 7) r) := by
  have hb := and_255_lt opcode
  rw [doAdd_zero s _ _ h1 (by omega)]
  refine ⟨_, _, rfl, ?_⟩
  unfold doTHUMB03
  simp only [h, Nat.reduceEqDiff, reduceIte]
  rw [arithFlags_eq _ _ _ _ _ (ovf_add_imm _ (opcode &&& 0xFF) _ hb)]
  rfl

theorem thumb3_sub (s : AGBCPU) (opcode : Nat) (h : (opcode >>> 11) &&& 0x3 = 3)
    (h1 : s.loReg ((opcode >>> 8) &&& 7) < 4294967296) :
    ∃ r a, s.doSub (s.loReg ((opcode >>> 8) &&& 7)) (opcode &&& 0xFF) 1 = some (r, a) ∧
      s.doTHUMB03 opcode = some (s.pcSCycles, a.setLoReg ((opcode >>> 8) &&& 7) r) := by
  have hb := and_255_lt opcode
  rw [doSub_one s _ _ h1 (by omega)]
  refine ⟨_, _, rfl, ?_⟩
  unfold doTHUMB03
  simp only [h, Nat.reduceEqDiff, reduceIte]
  rw [arithFlags_eq _ _ _ _ _ (ovf_sub_imm _ (opcode &&& 0xFF) _ hb),
    sub32_gt _ _ h1 (by omega)]
  rfl

/-- The format 2 flag word, ORed into the masked CPSR in one step, as the ARM flag word. -/
theorem thumb2_word (x res : Nat) (cb ob : Bool) (ow : Nat) (h : ow >>> 3 = flagIf ob Flag_V) :
    (x &&& 0x0FFFFFFF) ||| (flagIf (decide (res &&& signBit ≠ 0)) Flag_N
        ||| flagIf (decide (res = 0)) Flag_Z ||| flagIf cb Flag_C ||| (ow >>> 3))
      = (x &&& 0x0FFFFFFF) ||| flagIf (decide (res &&& signBit ≠ 0)) Flag_N
        ||| flagIf (decide (res = 0)) Flag_Z ||| flagIf cb Flag_C ||| flagIf ob Flag_V := by
  rw [h]
  simp only [Nat.or_assoc]

theorem thumb2_addsub (s : AGBCPU) (opcode : Nat) (h : (opcode >>> 11) &&& 0x3 = 3)
    (hregs : ∀ r, s.regs r < 4294967296) :
    ∃ r a,
      (if bitSet opcode 9 then
          s.doSub (s.loReg ((opcode >>> 3) &&& 7))
            (if bitSet opcode 10 then (opcode >>> 6) &&& 7 else s.loReg ((opcode >>> 6) &&& 7)) 1
        else
          s.doAdd (s.loReg ((opcode >>> 3) &&& 7))
            (if bitSet opcode 10 then (opcode >>> 6) &&& 7 else s.loReg ((opcode >>> 6) &&& 7)) 0)
        = some (r, a) ∧
      s.doTHUMB0102 opcode = some (s.pcSCycles, a.setLoReg (opcode &&& 7) r) := by
  have h1 : s.loReg ((opcode >>> 3) &&& 7) < 4294967296 := hregs _
  have h2 : (if bitSet opcode 10 then (opcode >>> 6) &&& 7 else s.loReg ((opcode >>> 6) &&& 7))
      < 4294967296 := by
    split
    · have := and_7_lt (opcode >>> 6); omega
    · exact hregs _
  have e2 : (if (!bitSet opcode 10) = true then s.loReg ((opcode >>> 6) &&& 7)
        else (opcode >>> 6) &&& 7)
      = (if bitSet opcode 10 then (opcode >>> 6) &&& 7 else s.loReg ((opcode >>> 6) &&& 7)) := by
    cases bitSet opcode 10 <;> rfl
  unfold doTHUMB0102
  simp only [h, if_pos True.intro, e2]
  generalize (if bitSet opcode 10 then (opcode >>> 6) &&& 7 else s.loReg ((opcode >>> 6) &&& 7))
    = op2 at h2 ⊢
  by_cases hs : bitSet opcode 9 = true
  · simp only [hs, if_true]
    rw [doSub_one s _ _ h1 h2]
    refine ⟨_, _, rfl, ?_⟩
    rw [sub32_gt _ _ h1 h2]
    show some (s.pcSCycles, ({ s with
        regs := fun i => if i = opcode &&& 7 then _ else s.regs i,
        cpsr := (s.cpsr &&& 0x0FFFFFFF) ||| _ } : AGBCPU)) = _
    rw [thumb2_word _ _ _ _ _ (ovf_sub_word2 _ _)]
    rfl
  · have hs2 : bitSet opcode 9 = false := by simpa using hs
    simp only [hs2, if_false, Bool.false_eq_true]
    rw [doAdd_zero s _ _ h1 h2]
    refine ⟨_, _, rfl, ?_⟩
    show some (s.pcSCycles, ({ s with
        regs := fun i => if i = opcode &&& 7 then _ else s.regs i,
        cpsr := (s.cpsr &&& 0x0FFFFFFF) ||| _ } : AGBCPU)) = _
    rw [thumb2_word _ _ _ _ _ (ovf_add_word2 _ _)]
    rfl

theorem thumb5_cmp (s : AGBCPU) (opcode : Nat) (h : (opcode >>> 8) &&& 3 = 1)
    (hregs : ∀ r, s.regs r < 4294967296) :
    ∃ r a c t,
      s.doSub
        (if (opcode &&& 7) + (if bitSet opcode 7 then 8 else 0) = PC then
          (s.reg ((opcode &&& 7) + (if bitSet opcode 7 then 8 else 0)) + 2) % 4294967296
         else s.reg ((opcode &&& 7) + (if bitSet opcode 7 then 8 else 0)))
        (if ((opcode >>> 3) &&& 7) + (if bitSet opcode 6 then 8 else 0) = PC then
          (s.reg (((opcode >>> 3) &&& 7) + (if bitSet opcode 6 then 8 else 0)) + 2) % 4294967296
         else s.reg (((opcode >>> 3) &&& 7) + (if bitSet opcode 6 then 8 else 0))) 1
        = some (r, a) ∧
      s.doTHUMB05HiReg opcode = some (c, t) ∧ t.cpsr = a.cpsr ∧
      ((opcode &&& 7) + (if bitSet opcode 7 then 8 else 0) ≠ PC → t = a) := by
  have aux : ∀ (p : Prop) [Decidable p] (x y : Nat), x < 4294967296 → y < 4294967296 →
      (if p then x else y) < 4294967296 := by
    intro p _ x y hx hy
    split <;> assumption
  have h1 : (if (opcode &&& 7) + (if bitSet opcode 7 then 8 else 0) = PC then
          (s.reg ((opcode &&& 7) + (if bitSet opcode 7 then 8 else 0)) + 2) % 4294967296
         else s.reg ((opcode &&& 7) + (if bitSet opcode 7 then 8 else 0))) < 4294967296 :=
    aux _ _ _ (Nat.mod_lt _ (by decide)) (hregs _)
  have h2 : (if ((opcode >>> 3) &&& 7) + (if bitSet opcode 6 then 8 else 0) = PC then
          (s.reg (((opcode >>> 3) &&& 7) + (if bitSet opcode 6 then 8 else 0)) + 2) % 4294967296
         else s.reg (((opcode >>> 3) &&& 7) + (if bitSet opcode 6 then 8 else 0)))
      < 4294967296 :=
    aux _ _ _ (Nat.mod_lt _ (by decide)) (hregs _)
  rw [doSub_one s _ _ h1 h2]
  unfold doTHUMB05HiReg
  simp only [h, Nat.reduceEqDiff, reduceIte]
  generalize (if (opcode &&& 7) + (if bitSet opcode 7 then 8 else 0) = PC then
          (s.reg ((opcode &&& 7) + (if bitSet opcode 7 then 8 else 0)) + 2) % 4294967296
         else s.reg ((opcode &&& 7) + (if bitSet opcode 7 then 8 else 0))) = dst
  generalize (if ((opcode >>> 3) &&& 7) + (if bitSet opcode 6 then 8 else 0) = PC then
          (s.reg (((opcode >>> 3) &&& 7) + (if bitSet opcode 6 then 8 else 0)) + 2) % 4294967296
         else s.reg (((opcode >>> 3) &&& 7) + (if bitSet opcode 6 then 8 else 0))) = src
  by_cases hd : (opcode &&& 7) + (if bitSet opcode 7 then 8 else 0) = PC
  · simp only [hd, if_true]
    exact ⟨_, _, _, _, rfl, rfl, rfl, fun hne => absurd rfl hne⟩
  · simp only [hd, if_false]
    exact ⟨_, _, _, _, rfl, rfl, rfl, fun _ => rfl⟩

/-- The lambda `doAdd` either fails its assertion or returns the state with only CPSR
changed, its low 28 bits kept. -/
theorem doAdd_shape (s t : AGBCPU) (a b c r : Nat) (h : s.doAdd a b c = some (r, t)) :
    t.cpsr % 268435456 = s.cpsr % 268435456 ∧ t = { s with cpsr := t.cpsr } := by
  have hd : s.doAdd a b c = none ∨ ∃ n z cf v, s.doAdd a b c = some ((a + b + c) % 4294967296,
      { s with cpsr := (s.cpsr &&& 0x0FFFFFFF) ||| flagIf n Flag_N ||| flagIf z Flag_Z
          ||| flagIf cf Flag_C ||| flagIf v Flag_V }) := by
    unfold doAdd
    dsimp only
    split
    · exact Or.inl rfl
    · exact Or.inr ⟨_, _, _, _, rfl⟩
  rcases hd with hd | ⟨n, z, cf, v, hd⟩
  · rw [hd] at h
    exact absurd h (by simp)
  · rw [hd] at h
    injection h with h
    injection h with h1 h2
    subst h2
    exact ⟨(nzcv_assemble s.cpsr _ _ _ _).1, rfl⟩

/-- The lambda `doSub` either fails its assertion or returns the state with only CPSR
changed, its low 28 bits kept. -/
theorem doSub_shape (s t : AGBCPU) (a b c r : Nat) (h : s.doSub a b c = some (r, t)) :
    t.cpsr % 268435456 = s.cpsr % 268435456 ∧ t = { s with cpsr := t.cpsr } := by
  have hd : s.doSub a b c = none ∨ ∃ n z cf v, s.doSub a b c = some (sub32 (sub32 a b + c) 1,
      { s with cpsr := (s.cpsr &&& 0x0FFFFFFF) ||| flagIf n Flag_N ||| flagIf z Flag_Z
          ||| flagIf cf Flag_C ||| flagIf v Flag_V }) := by
    unfold doSub
    dsimp only
    split
    · exact Or.inl rfl
    · exact Or.inr ⟨_, _, _, _, rfl⟩
  rcases hd with hd | ⟨n, z, cf, v, hd⟩
  · rw [hd] at h
    exact absurd h (by simp)
  · rw [hd] at h
    injection h with h
    injection h with h1 h2
    subst h2
    exact ⟨(nzcv_assemble s.cpsr _ _ _ _).1, rfl⟩

/-- C38: on a machine whose registers hold 32-bit values, every THUMB arithmetic
instruction with inline flags ends in the state the ARM helper `doAdd` / `doSub` leaves on
the same operands (with the result written to the destination where the instruction has
one): format 2 ADD/SUB, format 3 CMP/ADD/SUB with an 8-bit immediate, format 4
ADC/SBC/NEG/CMP/CMN and the format 5 CMP (whose CPSR is the helper's).  So the result and
N, Z, C, V are the helper's, and the helper keeps the low 28 bits of CPSR. -/
theorem C38_thumb_arithmetic_matches_arm_helpers (mc : Bool) (s : AGBCPU) (opcode : Nat)
    (hregs : ∀ r, s.regs r < 4294967296) :
    ((opcode >>> 11) &&& 0x3 = 3 →
      ∃ r a,
        (if bitSet opcode 9 then
            s.doSub (s.loReg ((opcode >>> 3) &&& 7))
              (if bitSet opcode 10 then (opcode >>> 6) &&& 7
                else s.loReg ((opcode >>> 6) &&& 7)) 1
          else
            s.doAdd (s.loReg ((opcode >>> 3) &&& 7))
              (if bitSet opcode 10 then (opcode >>> 6) &&& 7
                else s.loReg ((opcode >>> 6) &&& 7)) 0)
          = some (r, a) ∧
        s.doTHUMB0102 opcode = some (s.pcSCycles, a.setLoReg (opcode &&& 7) r)) ∧
    ((opcode >>> 11) &&& 0x3 = 1 →
      ∃ r a, s.doSub (s.loReg ((opcode >>> 8) &&& 7)) (opcode &&& 0xFF) 1 = some (r, a) ∧
        s.doTHUMB03 opcode = some (s.pcSCycles, a)) ∧
    ((opcode >>> 11) &&& 0x3 = 2 →
      ∃ r a, s.doAdd (s.loReg ((opcode >>> 8) &&& 7)) (opcode &&& 0xFF) 0 = some (r, a) ∧
        s.doTHUMB03 opcode = some (s.pcSCycles, a.setLoReg ((opcode >>> 8) &&& 7) r)) ∧
    ((opcode >>> 11) &&& 0x3 = 3 →
      ∃ r a, s.doSub (s.loReg ((opcode >>> 8) &&& 7)) (opcode &&& 0xFF) 1 = some (r, a) ∧
        s.doTHUMB03 opcode = some (s.pcSCycles, a.setLoReg ((opcode >>> 8) &&& 7) r)) ∧
    ((opcode >>> 6) &&& 0xF = 0x5 →
      ∃ r a, s.doAdd (s.loReg (opcode &&& 7)) (s.loReg ((opcode >>> 3) &&& 7))
          (if s.cpsr &&& Flag_C ≠ 0 then 1 else 0) = some (r, a) ∧
        s.doTHUMB04ALU mc opcode = some (s.pcSCycles, a.setReg (opcode &&& 7) r)) ∧
    ((opcode >>> 6) &&& 0xF = 0x6 →
      ∃ r a, s.doSub (s.loReg (opcode &&& 7)) (s.loReg ((opcode >>> 3) &&& 7))
          (if s.cpsr &&& Flag_C ≠ 0 then 1 else 0) = some (r, a) ∧
        s.doTHUMB04ALU mc opcode = some (s.pcSCycles, a.setReg (opcode &&& 7) r)) ∧
    ((opcode >>> 6) &&& 0xF = 0x9 →
      ∃ r a, s.doSub 0 (s.loReg ((opcode >>> 3) &&& 7)) 1 = some (r, a) ∧
        s.doTHUMB04ALU mc opcode = some (s.pcSCycles, a.setReg (opcode &&& 7) r)) ∧
    ((opcode >>> 6) &&& 0xF = 0xA →
      ∃ r a, s.doSub (s.loReg (opcode &&& 7)) (s.loReg ((opcode >>> 3) &&& 7)) 1
          = some (r, a) ∧
        s.doTHUMB04ALU mc opcode = some (s.pcSCycles, a)) ∧
    ((opcode >>> 6) &&& 0xF = 0xB →
      ∃ r a, s.doAdd (s.loReg (opcode &&& 7)) (s.loReg ((opcode >>> 3) &&& 7)) 0
          = some (r, a) ∧
        s.doTHUMB04ALU mc opcode = some (s.pcSCycles, a)) ∧
    ((opcode >>> 8) &&& 3 = 1 →
      ∃ r a c t,
        s.doSub
          (if (opcode &&& 7) + (if bitSet opcode 7 then 8 else 0) = PC then
            (s.reg ((opcode &&& 7) + (if bitSet opcode 7 then 8 else 0)) + 2) % 4294967296
           else s.reg ((opcode &&& 7) + (if bitSet opcode 7 then 8 else 0)))
          (if ((opcode >>> 3) &&& 7) + (if bitSet opcode 6 then 8 else 0) = PC then
            (s.reg (((opcode >>> 3) &&& 7) + (if bitSet opcode 6 then 8 else 0)) + 2)
              % 4294967296
           else s.reg (((opcode >>> 3) &&& 7) + (if bitSet opcode 6 then 8 else 0))) 1
          = some (r, a) ∧
        s.doTHUMB05HiReg opcode = some (c, t) ∧ t.cpsr = a.cpsr ∧
        ((opcode &&& 7) + (if bitSet opcode 7 then 8 else 0) ≠ PC → t = a)) ∧
    (∀ (a b c r : Nat) (t : AGBCPU), s.doAdd a b c = some (r, t) →
      t.cpsr % 268435456 = s.cpsr % 268435456 ∧ t = { s with cpsr := t.cpsr }) ∧
    (∀ (a b c r : Nat) (t : AGBCPU), s.doSub a b c = some (r, t) →
      t.cpsr % 268435456 = s.cpsr % 268435456 ∧ t = { s with cpsr := t.cpsr }) := by
  refine ⟨fun h => thumb2_addsub s opcode h hregs, fun h => thumb3_cmp s opcode h (hregs _),
    fun h => thumb3_add s opcode h (hregs _), fun h => thumb3_sub s opcode h (hregs _),
    fun h => thumb4_adc mc s opcode h (hregs _) (hregs _),
    fun h => thumb4_sbc mc s opcode h (hregs _) (hregs _),
    fun h => thumb4_neg mc s opcode h (hregs _),
    fun h => thumb4_cmp mc s opcode h (hregs _) (hregs _),
    fun h => thumb4_cmn mc s opcode h (hregs _) (hregs _),
    fun h => thumb5_cmp s opcode h hregs,
    fun a b c r t h => doAdd_shape s t a b c r h, fun a b c r t h => doSub_shape s t a b c r h⟩

/-- C38 at `ADC R0, R1` (0x4148) with R0 = 0xFFFFFFFF, R1 = 0 and the carry set: the
THUMB instruction ends in the state of `doAdd` with R0 written. -/
theorem C38_thumb_arithmetic_witness :
    ∃ r a, (({ thumbWith [0x4148] with cpsr := 0x2000003F }.setLoReg 0 0xFFFFFFFF).doAdd
        0xFFFFFFFF 0 1) = some (r, a) ∧ r = 0 ∧
      ({ thumbWith [0x4148] with cpsr := 0x2000003F }.setLoReg 0 0xFFFFFFFF).doTHUMB04ALU true
          0x4148
        = some (({ thumbWith [0x4148] with cpsr := 0x2000003F }.setLoReg 0 0xFFFFFFFF).pcSCycles,
            a.setReg 0 r) :=
  ((C38_thumb_arithmetic_matches_arm_helpers true
      ({ thumbWith [0x4148] with cpsr := 0x2000003F }.setLoReg 0 0xFFFFFFFF) 0x4148
      (fun r => by
        show (if r = 0 then 0xFFFFFFFF % 4294967296 else 0) < 4294967296
        split <;> decide)).2.2.2.2.1 (by decide)).elim
    fun r h => h.elim fun a ha => ⟨r, a, ha.1, by
      have e := ha.1
      rw [doAdd_some _ _ _ _ (by decide) (by decide) (by decide)] at e
      injection e with e
      injection e with e1 e2
      exact e1.symm.trans (by decide), ha.2⟩

/-! ## The EEPROM: a block written, then read back -/

theorem busWrites_append (s : AGBCPU) (l1 l2 : List (Nat × Nat × Nat)) :
    s.busWrites (l1 ++ l2) = (s.busWrites l1).bind fun t => t.busWrites l2 := by
  induction l1 generalizing s with
  | nil => rfl
  | cons x xs ih =>
    obtain ⟨addr, w, data⟩ := x
    have e1 : s.busWrites ((addr, w, data) :: (xs ++ l2))
        = (s.memWrite addr w data).bind fun t => t.busWrites (xs ++ l2) := by
      show (match s.memWrite addr w data with
        | none => none
        | some s => busWrites s (xs ++ l2)) = _
      cases s.memWrite addr w data <;> rfl
    have e2 : s.busWrites ((addr, w, data) :: xs)
        = (s.memWrite addr w data).bind fun t => t.busWrites xs := by
      show (match s.memWrite addr w data with
        | none => none
        | some s => busWrites s xs) = _
      cases s.memWrite addr w data <;> rfl
    rw [List.cons_append, e1, e2]
    cases s.memWrite addr w data with
    | none => rfl
    | some t => exact ih t

theorem eeprom_index (k : Nat) (hk : k < 128) :
    (0xD000000 + 2 * k) >>> 24 = 0xD ∧ (0xD000000 + 2 * k) &&& 0xFF = 2 * k ∧
    ((0xD000000 + 2 * k) &&& 0xFF) >>> 1 = k := by
  have h1 := Nat.and_pow_two_sub_one_eq_mod (0xD000000 + 2 * k) 8
  simp only [Nat.reducePow, Nat.reduceSub] at h1
  have h2 : (0xD000000 + 2 * k) &&& 0xFF = 2 * k := by rw [h1]; omega
  refine ⟨?_, h2, ?_⟩
  · rw [Nat.shiftRight_eq_div_pow]; omega
  · rw [h2, Nat.shiftRight_eq_div_pow]; omega

/-- A 16-bit bus write to the 0x0D window is `doEEPROMWrite`. -/
theorem memWrite_window_D (s : AGBCPU) (addr data : Nat) (ht : addr >>> 24 = 0xD) :
    s.memWrite addr 2 data = s.doEEPROMWrite addr 2 data := by
  unfold memWrite
  dsimp only
  rw [if_neg (by omega), if_neg (by omega), if_neg (by omega), if_neg (show ¬ _ by omega),
    if_neg (by omega), if_neg (by omega), if_neg (by omega), if_neg (show ¬ _ by omega),
    if_pos ht]

/-- The shape of `doEEPROMWrite` for a bit presented at index `k` to an EEPROM cartridge. -/
theorem doEEPROMWrite_index (s : AGBCPU) (k b : Nat) (hs : s.mem.saveType = .EEPROM)
    (hk : k < 128) :
    s.memWrite (0xD000000 + 2 * k) 2 b =
      if k = 8 ∧ (if 0 = k then b % 65536 else s.mem.eepromInBits 0) ≠ 0
          ∧ (if 1 = k then b % 65536 else s.mem.eepromInBits 1) ≠ 0 then
        (({ s.mem with eepromInBits := fun j => if j = k then b % 65536 else s.mem.eepromInBits j } :
            AGBMemory).derefRead
          (some ⟨.save, 8 * eepromAddr { s.mem with
            eepromInBits := fun j => if j = k then b % 65536 else s.mem.eepromInBits j }⟩) 8).map
          fun data => { s with mem := { s.mem with
            eepromInBits := fun j => if j = k then b % 65536 else s.mem.eepromInBits j,
            eepromOutBits := eepromOutLoop data 64 0 s.mem.eepromOutBits } }
      else if k = 0x48 ∧ (if 0 = k then b % 65536 else s.mem.eepromInBits 0) ≠ 0
          ∧ (if 1 = k then b % 65536 else s.mem.eepromInBits 1) = 0 then
        (({ s.mem with eepromInBits := fun j => if j = k then b % 65536 else s.mem.eepromInBits j } :
            AGBMemory).derefWrite
          (some ⟨.save, 8 * eepromAddr { s.mem with
            eepromInBits := fun j => if j = k then b % 65536 else s.mem.eepromInBits j }⟩) 8
          (eepromInLoop (fun j => if j = k then b % 65536 else s.mem.eepromInBits j) 64 0 0)).map
          fun m => { s with mem := { m with
            eepromOutBits := fun j => if j = 0 then 1 else m.eepromOutBits j } }
      else some { s with mem := { s.mem with
        eepromInBits := fun j => if j = k then b % 65536 else s.mem.eepromInBits j } } := by
  obtain ⟨i1, i2, i3⟩ := eeprom_index k hk
  have hm : (if s.mem.saveType = .Unknown then { s.mem with saveType := .EEPROM } else s.mem)
      = s.mem := by
    rw [hs]; rfl
  have e10 : (2 * k = 0x10) = (k = 8) := by apply propext; omega
  have e90 : (2 * k = 0x90) = (k = 0x48) := by apply propext; omega
  rw [memWrite_window_D s _ _ i1]
  unfold doEEPROMWrite
  rw [if_neg (fun hc => hc rfl)]
  dsimp only
  rw [hm, if_neg (fun hc => hc hs), i3, i2]
  simp only [e10, e90]

/-- Bits presented from index `k0` on that end no request are recorded in the input
buffer; the save type, the save data and the output buffer stay. -/
theorem eeprom_stream_plain : ∀ (bits : List Nat) (k0 : Nat) (s : AGBCPU),
    s.mem.saveType = .EEPROM → k0 + bits.length ≤ 0x48 →
    (k0 + bits.length ≤ 8 ∨ (2 ≤ k0 ∧ s.mem.eepromInBits 1 = 0)) →
    ∃ t, s.busWrites (eepromStream k0 bits) = some t ∧ t.mem.saveType = .EEPROM ∧
      t.mem.cartSaveData = s.mem.cartSaveData ∧ t.mem.eepromOutBits = s.mem.eepromOutBits ∧
      ∀ j, t.mem.eepromInBits j =
        if k0 ≤ j ∧ j < k0 + bits.length then bits.getD (j - k0) 0 % 65536
        else s.mem.eepromInBits j := by
  intro bits
  induction bits with
  | nil =>
    intro k0 s hs _ _
    refine ⟨s, rfl, hs, rfl, rfl, fun j => ?_⟩
    rw [if_neg (by simp)]
  | cons b bs ih =>
    intro k0 s hs hlen hpl
    simp only [List.length_cons] at hlen hpl
    have hw : s.memWrite (0xD000000 + 2 * k0) 2 b = some { s with mem := { s.mem with
        eepromInBits := fun j => if j = k0 then b % 65536 else s.mem.eepromInBits j } } := by
      rw [doEEPROMWrite_index s k0 b hs (by omega)]
      rw [if_neg, if_neg (by omega)]
      intro hc
      obtain ⟨c1, _, c3⟩ := hc
      rcases hpl with hp | ⟨hp1, hp2⟩
      · omega
      · rw [if_neg (by omega)] at c3
        exact c3 hp2
    obtain ⟨t, ht, t1, t2, t3, t4⟩ := ih (k0 + 1)
      { s with mem := { s.mem with
        eepromInBits := fun j => if j = k0 then b % 65536 else s.mem.eepromInBits j } }
      hs (by omega) (by
        rcases hpl with hp | ⟨hp1, hp2⟩
        · exact Or.inl (by omega)
        · refine Or.inr ⟨by omega, ?_⟩
          show (if 1 = k0 then b % 65536 else s.mem.eepromInBits 1) = 0
          rw [if_neg (by omega)]
          exact hp2)
    refine ⟨t, ?_, t1, t2, t3, fun j => ?_⟩
    · show (match s.memWrite (0xD000000 + 2 * k0) 2 b with
        | none => none
        | some s => busWrites s (eepromStream (k0 + 1) bs)) = some t
      rw [hw]
      exact ht
    · rw [t4 j]
      show (if k0 + 1 ≤ j ∧ j < k0 + 1 + bs.length then bs.getD (j - (k0 + 1)) 0 % 65536
        else (if j = k0 then b % 65536 else s.mem.eepromInBits j)) = _
      by_cases c1 : k0 + 1 ≤ j ∧ j < k0 + 1 + bs.length
      · rw [if_pos c1, if_pos (by simp only [List.length_cons]; omega)]
        have e : j - k0 = (j - (k0 + 1)) + 1 := by omega
        rw [e, List.getD_cons_succ]
      · rw [if_neg c1]
        by_cases c2 : j = k0
        · subst c2
          rw [if_pos rfl, if_pos (by simp only [List.length_cons]; omega), Nat.sub_self]
          rfl
        · rw [if_neg c2, if_neg (by simp only [List.length_cons]; omega)]

theorem bitsMSB_length (n x : Nat) : (bitsMSB n x).length = n := by
  simp [bitsMSB]

theorem bitsMSB_getD (n x i : Nat) (hi : i < n) :
    (bitsMSB n x).getD i 0 = (x >>> (n - 1 - i)) % 2 := by
  simp [bitsMSB, List.getD_eq_getElem?_getD, List.getElem?_range, hi]

theorem eepromStream_append : ∀ (l1 l2 : List Nat) (k : Nat),
    eepromStream k (l1 ++ l2) = eepromStream k l1 ++ eepromStream (k + l1.length) l2 := by
  intro l1
  induction l1 with
  | nil => intro l2 k; rfl
  | cons b bs ih =>
    intro l2 k
    show (0xD000000 + 2 * k, 2, b) :: eepromStream (k + 1) (bs ++ l2) = _
    rw [ih l2 (k + 1)]
    show _ = (0xD000000 + 2 * k, 2, b) :: (eepromStream (k + 1) bs ++ _)
    rw [List.length_cons, show k + (bs.length + 1) = k + 1 + bs.length from by omega]

set_option maxRecDepth 100000 in
theorem eepromAddr_bits : ∀ a < 64,
    ((((a >>> 5) % 2 % 65536) <<< 5) ||| (((a >>> 4) % 2 % 65536) <<< 4)
      ||| (((a >>> 3) % 2 % 65536) <<< 3) ||| (((a >>> 2) % 2 % 65536) <<< 2)
      ||| (((a >>> 1) % 2 % 65536) <<< 1) ||| ((a >>> 0) % 2 % 65536)) % 65536 = a := by
  decide

theorem loadLE8_storeLE8 (b : Nat → Nat) (off v : Nat) :
    loadLE (storeLE b off 8 v) off 8 = v % 18446744073709551616 := by
  simp only [loadLE, storeLE]
  rw [if_pos (by omega), if_pos (by omega), if_pos (by omega), if_pos (show _ ∧ _ by omega),
    if_pos (by omega), if_pos (by omega), if_pos (by omega), if_pos (show _ ∧ _ by omega)]
  have e0 : off - off = 0 := by omega
  have e1 : off + 1 - off = 1 := by omega
  have e2 : off + 1 + 1 - off = 2 := by omega
  have e3 : off + 1 + 1 + 1 - off = 3 := by omega
  have e4 : off + 1 + 1 + 1 + 1 - off = 4 := by omega
  have e5 : off + 1 + 1 + 1 + 1 + 1 - off = 5 := by omega
  have e6 : off + 1 + 1 + 1 + 1 + 1 + 1 - off = 6 := by omega
  have e7 : off + 1 + 1 + 1 + 1 + 1 + 1 + 1 - off = 7 := by omega
  rw [e0, e1, e2, e3, e4, e5, e6, e7]
  simp only [Nat.reducePow, Nat.div_one, Nat.mul_zero, Nat.add_zero]
  omega

theorem bit_word (d j : Nat) : (if d &&& (1 <<< j) ≠ 0 then 1 else 0) = (d >>> j) % 2 := by
  have h := and_bit_ne_zero d j
  have h2 := Nat.testBit_to_div_mod (x := d) (i := j)
  rw [Nat.shiftRight_eq_div_pow]
  by_cases c : d.testBit j = true
  · rw [if_pos (h.mpr c)]
    rw [c] at h2
    have := of_decide_eq_true h2.symm
    omega
  · rw [if_neg (fun x => c (h.mp x))]
    have c2 : d.testBit j = false := by simpa using c
    rw [c2] at h2
    have := of_decide_eq_false h2.symm
    omega

/-- The output buffer after the loop of a read request. -/
theorem eepromOutLoop_get (d : Nat) : ∀ (n i : Nat) (out : Nat → Nat) (k : Nat),
    eepromOutLoop d n i out k =
      if i + 4 ≤ k ∧ k < i + n + 4 then (d >>> (63 - (k - 4))) % 2 else out k := by
  intro n
  induction n with
  | zero =>
    intro i out k
    rw [if_neg (by omega)]
    rfl
  | succ n ih =>
    intro i out k
    show eepromOutLoop d n (i + 1)
      (fun k => if k = i + 4 then (if d &&& (1 <<< (63 - i)) ≠ 0 then 1 else 0) else out k) k = _
    rw [ih]
    by_cases c1 : i + 1 + 4 ≤ k ∧ k < i + 1 + n + 4
    · rw [if_pos c1, if_pos (by omega)]
    · rw [if_neg c1]
      by_cases c2 : k = i + 4
      · subst c2
        show (if i + 4 = i + 4 then (if d &&& (1 <<< (63 - i)) ≠ 0 then 1 else 0)
          else out (i + 4)) = _
        rw [if_pos rfl, if_pos (show i + 4 ≤ i + 4 ∧ i + 4 < i + (n + 1) + 4 by omega), bit_word,
          show i + 4 - 4 = i from by omega]
      · show (if k = i + 4 then _ else out k) = _
        rw [if_neg c2, if_neg (show ¬ (i + 4 ≤ k ∧ k < i + (n + 1) + 4) by omega)]

theorem inLoop_step (d q b : Nat) (hd : d < 18446744073709551616) (hq : q < 64)
    (hb : b = (d >>> q) % 2) :
    (((d >>> (q + 1)) <<< (q + 1)) ||| (b <<< q)) % 18446744073709551616
      = (d >>> q) <<< q := by
  subst hb
  apply Nat.eq_of_testBit_eq
  intro p
  have e2 : (2 : Nat) = 2 ^ 1 := rfl
  rw [show (18446744073709551616 : Nat) = 2 ^ 64 from rfl, Nat.testBit_mod_two_pow,
    Nat.testBit_or, Nat.testBit_shiftLeft, Nat.testBit_shiftLeft, Nat.testBit_shiftLeft,
    Nat.testBit_shiftRight, Nat.testBit_shiftRight]
  nth_rewrite 1 [e2]
  rw [Nat.testBit_mod_two_pow, Nat.testBit_shiftRight]
  by_cases h64 : p < 64
  · by_cases h1 : p ≥ q + 1
    · have e : q + 1 + (p - (q + 1)) = p := by omega
      have e3 : q + (p - q) = p := by omega
      have h2 : p ≥ q := by omega
      have h3 : ¬ p - q < 1 := by omega
      simp [h64, h1, h2, h3, e, e3]
    · by_cases h2 : p = q
      · subst h2
        simp [h64]
      · have h3 : ¬ p ≥ q := by omega
        simp [h64, h1, h3]
  · have hf : d.testBit p = false := by
      apply Nat.testBit_lt_two_pow
      calc d < 2 ^ 64 := hd
        _ ≤ 2 ^ p := Nat.pow_le_pow_right (by decide) (by omega)
    have e3 : q + (p - q) = p := by omega
    simp [h64, e3, hf]

/-- The loop that assembles the 64 data bits of a write request returns the value whose
bits were presented, most significant first. -/
theorem eepromInLoop_bits (inb : Nat → Nat) (d : Nat) (hd : d < 18446744073709551616)
    (hb : ∀ i, i < 64 → inb (i + 8) % 65536 = (d >>> (63 - i)) % 2) :
    ∀ (n i acc : Nat), i + n = 64 → acc = (d >>> (64 - i)) <<< (64 - i) →
      eepromInLoop inb n i acc = d := by
  intro n
  induction n with
  | zero =>
    intro i acc hi hacc
    have : i = 64 := by omega
    subst this
    rw [hacc]
    rfl
  | succ n ih =>
    intro i acc hi hacc
    show eepromInLoop inb n (i + 1)
      ((acc ||| ((inb (i + 8) % 65536) <<< (63 - i))) % 18446744073709551616) = d
    apply ih (i + 1) _ (by omega)
    rw [hacc, hb i (by omega), show 64 - i = (63 - i) + 1 from by omega,
      show 64 - (i + 1) = 63 - i from by omega]
    exact inLoop_step d (63 - i) _ hd (by omega) rfl

/-- The input buffer after the first 72 bits of a write request for block `a` with the
data `d`: the request bits 1 and 0, the address bits and the data bits. -/
theorem eeprom_write_bits (s : AGBCPU) (a d : Nat) (hs : s.mem.saveType = .EEPROM) :
    ∃ t, s.busWrites (eepromStream 0 ([1, 0] ++ bitsMSB 6 a ++ bitsMSB 64 d)) = some t ∧
      t.mem.saveType = .EEPROM ∧ t.mem.cartSaveData = s.mem.cartSaveData ∧
      t.mem.eepromInBits 0 = 1 ∧ t.mem.eepromInBits 1 = 0 ∧
      (∀ i, i < 6 → t.mem.eepromInBits (2 + i) = (a >>> (5 - i)) % 2) ∧
      (∀ i, i < 64 → t.mem.eepromInBits (i + 8) = (d >>> (63 - i)) % 2) := by
  obtain ⟨t1, w1, s1, c1, _, h1⟩ := eeprom_stream_plain [1, 0] 0 s hs (by decide)
    (Or.inl (by decide))
  obtain ⟨t2, w2, s2, c2, _, h2⟩ := eeprom_stream_plain (bitsMSB 6 a) 2 t1 s1
    (by have := bitsMSB_length 6 a; omega) (Or.inl (by have := bitsMSB_length 6 a; omega))
  simp only [bitsMSB_length] at h2
  have t21 : t2.mem.eepromInBits 1 = 0 := by
    rw [h2 1, if_neg (by omega), h1 1, if_pos (by decide)]
    rfl
  obtain ⟨t3, w3, s3, c3, _, h3⟩ := eeprom_stream_plain (bitsMSB 64 d) 8 t2 s2
    (by have := bitsMSB_length 64 d; omega) (Or.inr ⟨by decide, t21⟩)
  simp only [bitsMSB_length] at h3
  refine ⟨t3, ?_, s3, c3.trans (c2.trans c1), ?_, ?_, ?_, ?_⟩
  · have e1 : 0 + [1, 0].length = 2 := rfl
    have e2 : 0 + ([1, 0] ++ bitsMSB 6 a).length = 8 := by
      rw [List.length_append, bitsMSB_length]
      rfl
    rw [eepromStream_append, eepromStream_append, busWrites_append, busWrites_append, w1,
      Option.some_bind, e1, w2, Option.some_bind, e2]
    exact w3
  · rw [h3 0, if_neg (by omega), h2 0, if_neg (by omega), h1 0, if_pos (by decide)]
    rfl
  · rw [h3 1, if_neg (by omega)]
    exact t21
  · intro i hi
    rw [h3 (2 + i), if_neg (by omega), h2 (2 + i), if_pos (by omega),
      show 2 + i - 2 = i from by omega, bitsMSB_getD 6 a i hi,
      show 6 - 1 - i = 5 - i from by omega]
    generalize a >>> (5 - i) = x
    omega
  · intro i hi
    rw [h3 (i + 8), if_pos (by omega), show i + 8 - 8 = i from by omega,
      bitsMSB_getD 64 d i hi, show 64 - 1 - i = 63 - i from by omega]
    generalize d >>> (63 - i) = x
    omega

theorem busWrites_single (s : AGBCPU) (addr w data : Nat) :
    s.busWrites [(addr, w, data)] = s.memWrite addr w data := by
  show (match s.memWrite addr w data with
    | none => none
    | some s => busWrites s []) = _
  cases s.memWrite addr w data <;> rfl

theorem eepromAddr_of_bits (m : AGBMemory) (a : Nat) (ha : a < 64)
    (h : ∀ i, i < 6 → m.eepromInBits (2 + i) = (a >>> (5 - i)) % 2) : eepromAddr m = a := by
  unfold eepromAddr
  have h0 := h 0 (by decide)
  have h1 := h 1 (by decide)
  have h2 := h 2 (by decide)
  have h3 := h 3 (by decide)
  have h4 := h 4 (by decide)
  have h5 := h 5 (by decide)
  simp only [Nat.reduceAdd, Nat.reduceSub] at h0 h1 h2 h3 h4 h5
  rw [h0, h1, h2, h3, h4, h5]
  exact eepromAddr_bits a ha

/-- A complete write request for block `a` with the data `d` stores `d` at byte offset
`8a` of the save buffer. -/
theorem eeprom_write_tx (s : AGBCPU) (a d z : Nat) (hs : s.mem.saveType = .EEPROM)
    (ha : a < 64) (hd : d < 18446744073709551616) :
    ∃ t, s.busWrites (eepromStream 0 ([1, 0] ++ bitsMSB 6 a ++ bitsMSB 64 d ++ [z])) = some t ∧
      t.mem.saveType = .EEPROM ∧
      t.mem.cartSaveData = storeLE s.mem.cartSaveData (8 * a) 8 d := by
  obtain ⟨t, w, st, ct, i0, i1, ia, id⟩ := eeprom_write_bits s a d hs
  have elen : 0 + ([1, 0] ++ bitsMSB 6 a ++ bitsMSB 64 d).length = 0x48 := by
    rw [List.length_append, List.length_append, bitsMSB_length, bitsMSB_length]
    rfl
  have haddr : eepromAddr { t.mem with
      eepromInBits := fun j => if j = 0x48 then z % 65536 else t.mem.eepromInBits j } = a := by
    apply eepromAddr_of_bits _ a ha
    intro i hi
    show (if 2 + i = 0x48 then z % 65536 else t.mem.eepromInBits (2 + i)) = _
    rw [if_neg (by omega)]
    exact ia i hi
  have hdata : eepromInLoop
      (fun j => if j = 0x48 then z % 65536 else t.mem.eepromInBits j) 64 0 0 = d := by
    apply eepromInLoop_bits _ d hd _ 64 0 0 rfl
    · show 0 = (d >>> 64) <<< 64
      have : d >>> 64 = 0 := by
        rw [Nat.shiftRight_eq_div_pow]
        exact Nat.div_eq_of_lt hd
      rw [this]
      rfl
    · intro i hi
      show (if i + 8 = 0x48 then z % 65536 else t.mem.eepromInBits (i + 8)) % 65536 = _
      rw [if_neg (by omega), id i hi]
      generalize d >>> (63 - i) = x
      omega
  rw [eepromStream_append, busWrites_append, w, Option.some_bind, elen]
  show ∃ u, t.busWrites [(0xD000000 + 2 * 0x48, 2, z)] = some u ∧ _
  rw [busWrites_single, doEEPROMWrite_index t 0x48 z st (by decide)]
  rw [if_neg (by omega), if_pos ⟨rfl, by
    rw [if_neg (by decide), i0]; decide, by
    rw [if_neg (by decide), i1]⟩]
  rw [haddr, hdata]
  unfold AGBMemory.derefWrite
  dsimp only
  rw [if_pos (by show 8 * a + 8 ≤ 0x20000; omega)]
  refine ⟨_, rfl, st, ?_⟩
  show storeLE t.mem.cartSaveData (8 * a) 8 d = _
  rw [ct]

/-- A complete read request for block `a` fills output bits 4..67 with the 64 bits at byte
offset `8a` of the save buffer, most significant first. -/
theorem eeprom_read_req (s : AGBCPU) (a z : Nat) (hs : s.mem.saveType = .EEPROM)
    (ha : a < 64) :
    ∃ t, s.busWrites (eepromStream 0 ([1, 1] ++ bitsMSB 6 a ++ [z])) = some t ∧
      t.mem.saveType = .EEPROM ∧
      ∀ i, i < 64 → t.mem.eepromOutBits (i + 4)
        = (loadLE s.mem.cartSaveData (8 * a) 8 >>> (63 - i)) % 2 := by
  obtain ⟨t1, w1, s1, c1, _, h1⟩ := eeprom_stream_plain [1, 1] 0 s hs (by decide)
    (Or.inl (by decide))
  obtain ⟨t2, w2, s2, c2, _, h2⟩ := eeprom_stream_plain (bitsMSB 6 a) 2 t1 s1
    (by have := bitsMSB_length 6 a; omega) (Or.inl (by have := bitsMSB_length 6 a; omega))
  simp only [bitsMSB_length] at h2
  have i0 : t2.mem.eepromInBits 0 = 1 := by
    rw [h2 0, if_neg (by omega), h1 0, if_pos (by decide)]
    rfl
  have i1 : t2.mem.eepromInBits 1 = 1 := by
    rw [h2 1, if_neg (by omega), h1 1, if_pos (by decide)]
    rfl
  have haddr : eepromAddr { t2.mem with
      eepromInBits := fun j => if j = 8 then z % 65536 else t2.mem.eepromInBits j } = a := by
    apply eepromAddr_of_bits _ a ha
    intro i hi
    show (if 2 + i = 8 then z % 65536 else t2.mem.eepromInBits (2 + i)) = _
    rw [if_neg (by omega), h2 (2 + i), if_pos (by omega), show 2 + i - 2 = i from by omega,
      bitsMSB_getD 6 a i hi, show 6 - 1 - i = 5 - i from by omega]
    generalize a >>> (5 - i) = x
    omega
  have e1 : 0 + [1, 1].length = 2 := rfl
  have e2 : 0 + ([1, 1] ++ bitsMSB 6 a).length = 8 := by
    rw [List.length_append, bitsMSB_length]
    rfl
  rw [eepromStream_append, eepromStream_append, busWrites_append, busWrites_append, w1,
    Option.some_bind, e1, w2, Option.some_bind, e2]
  show ∃ u, t2.busWrites [(0xD000000 + 2 * 8, 2, z)] = some u ∧ _
  rw [busWrites_single, doEEPROMWrite_index t2 8 z s2 (by decide)]
  rw [if_pos ⟨rfl, by
    rw [if_neg (by decide), i0]; decide, by
    rw [if_neg (by decide), i1]; decide⟩]
  rw [haddr]
  unfold AGBMemory.derefRead
  dsimp only
  rw [if_pos (by show 8 * a + 8 ≤ 0x20000; omega)]
  refine ⟨_, rfl, s2, fun i hi => ?_⟩
  show eepromOutLoop (loadLE t2.mem.cartSaveData (8 * a) 8) 64 0 t2.mem.eepromOutBits (i + 4) = _
  rw [eepromOutLoop_get, if_pos (by omega), show i + 4 - 4 = i from by omega, c2, c1]

/-- A 16-bit bus read of the 0x0D window of an EEPROM cartridge returns the output bit. -/
theorem memRead_window_D (s : AGBCPU) (k : Nat) (hs : s.mem.saveType = .EEPROM)
    (hk : k < 128) :
    s.memRead (0xD000000 + 2 * k) 2 = some (s.mem.eepromOutBits k % 65536, s) := by
  obtain ⟨i1, i2, i3⟩ := eeprom_index k hk
  unfold memRead
  dsimp only
  rw [if_neg (by omega), if_neg (by omega), if_neg (by omega), if_neg (show ¬ _ by omega),
    if_neg (by omega), if_neg (by omega), if_neg (by omega), if_neg (show ¬ _ by omega),
    if_neg (by omega), if_pos i1]
  unfold doROMOrEEPROMRead
  rw [if_pos ⟨rfl, hs⟩, i3]
  rfl

/-- C40: on an EEPROM cartridge, for every 6-bit block address `a` and every 64-bit value
`d`, a write request (bits 1, 0, the address bits, the 64 data bits most significant
first, and a last bit at index 0x48) followed by a read request for `a` (bits 1, 1, the
address bits, and a last bit at index 8) completes, and afterwards the 16-bit bus reads of
output bit positions 4..67 return the 64 bits of `d`, most significant first.  Every input
index `(addr & 0xFF) >> 1` is below 0x80, and the output indices `i + 4` of the read
request and `(addr & 0xFF) >> 1` of a bus read are below 0x84. -/
theorem C40_eeprom_block_written_then_read_back (s : AGBCPU) (a d z1 z2 : Nat)
    (hs : s.mem.saveType = .EEPROM) (ha : a < 64) (hd : d < 18446744073709551616) :
    (∃ t, s.busWrites (eepromStream 0 ([1, 0] ++ bitsMSB 6 a ++ bitsMSB 64 d ++ [z1])
          ++ eepromStream 0 ([1, 1] ++ bitsMSB 6 a ++ [z2])) = some t ∧
      ∀ i, i < 64 → t.memRead (0xD000000 + 2 * (i + 4)) 2 = some ((d >>> (63 - i)) % 2, t)) ∧
    (eepromStream 0 ([1, 0] ++ bitsMSB 6 a ++ bitsMSB 64 d ++ [z1])).length = 0x48 + 1 ∧
    (eepromStream 0 ([1, 1] ++ bitsMSB 6 a ++ [z2])).length = 8 + 1 ∧
    (∀ addr : Nat, (addr &&& 0xFF) >>> 1 < 0x80) ∧ (∀ i, i < 64 → i + 4 < 0x84) := by
  have hlen : ∀ (l : List Nat) (k : Nat), (eepromStream k l).length = l.length := by
    intro l
    induction l with
    | nil => intro k; rfl
    | cons b bs ih =>
      intro k
      show (eepromStream (k + 1) bs).length + 1 = bs.length + 1
      rw [ih]
  refine ⟨?_, ?_, ?_, ?_, fun i hi => by omega⟩
  · obtain ⟨t1, w1, s1, c1⟩ := eeprom_write_tx s a d z1 hs ha hd
    obtain ⟨t2, w2, s2, o2⟩ := eeprom_read_req t1 a z2 s1 ha
    refine ⟨t2, ?_, fun i hi => ?_⟩
    · rw [busWrites_append, w1, Option.some_bind]
      exact w2
    · rw [memRead_window_D t2 (i + 4) s2 (by omega), o2 i hi, c1, loadLE8_storeLE8,
        Nat.mod_eq_of_lt hd]
      generalize d >>> (63 - i) = x
      have e : x % 2 % 65536 = x % 2 := by omega
      rw [e]
  · rw [hlen, List.length_append, List.length_append, List.length_append, bitsMSB_length,
      bitsMSB_length]
    rfl
  · rw [hlen, List.length_append, List.length_append, bitsMSB_length]
    rfl
  · intro addr
    have h := Nat.and_pow_two_sub_one_eq_mod addr 8
    simp only [Nat.reducePow, Nat.reduceSub] at h
    rw [h, Nat.shiftRight_eq_div_pow]
    omega

/-- C40 on the blank machine with an EEPROM cartridge, block 5 and the value
0x0123456789ABCDEF: both requests complete and output bit 4 is the top bit of the value. -/
theorem C40_eeprom_witness :
    ∃ t, ({ blank with mem := { blankMem with saveType := .EEPROM } } : AGBCPU).busWrites
        (eepromStream 0 ([1, 0] ++ bitsMSB 6 5 ++ bitsMSB 64 0x0123456789ABCDEF ++ [0])
          ++ eepromStream 0 ([1, 1] ++ bitsMSB 6 5 ++ [0])) = some t ∧
      t.memRead (0xD000000 + 2 * (0 + 4)) 2 = some ((0x0123456789ABCDEF >>> (63 - 0)) % 2, t) :=
  (C40_eeprom_block_written_then_read_back
    ({ blank with mem := { blankMem with saveType := .EEPROM } } : AGBCPU) 5 0x0123456789ABCDEF
    0 0 rfl (by decide) (by decide)).1.elim fun t ht => ⟨t, ht.1, ht.2 0 (by decide)⟩

/-! ## DMA transfers -/

/-- The loop of `dmaTransfer` from the addresses of the transfer `j` is the reference run
of the remaining transfers. -/
theorem dmaLoop_eq_ref (is32Bit : Bool) (dstMode srcMode : Nat) (width src dst : Int) :
    ∀ (n j : Nat) (s : AGBCPU),
      dmaLoop is32Bit dstMode srcMode width n
          (refDmaAddr false srcMode src width j) (refDmaAddr true dstMode dst width j) s
        = refDmaRun (fun i s => dmaUnit is32Bit (refDmaAddr false srcMode src width i)
            (refDmaAddr true dstMode dst width i) s) n j s := by
  intro n
  induction n with
  | zero => intro j s; rfl
  | succ n ih =>
    intro j s
    unfold dmaLoop refDmaRun
    cases h : dmaUnit is32Bit (refDmaAddr false srcMode src width j)
        (refDmaAddr true dstMode dst width j) s with
    | none => rfl
    | some t =>
      dsimp only
      have e1 : (if dstMode = 0 ∨ dstMode = 3 then refDmaAddr true dstMode dst width j + width
          else if dstMode = 1 then refDmaAddr true dstMode dst width j - width
          else refDmaAddr true dstMode dst width j)
          = refDmaAddr true dstMode dst width (j + 1) := by
        unfold refDmaAddr
        by_cases c1 : dstMode = 0 ∨ dstMode = 3
        · have c2 : dstMode = 0 ∨ ((true : Bool) = true ∧ dstMode = 3) := by
            rcases c1 with c | c
            · exact Or.inl c
            · exact Or.inr ⟨rfl, c⟩
          rw [if_pos c1, if_pos c2, if_pos c2]
          push_cast
          ring
        · have c2 : ¬ (dstMode = 0 ∨ ((true : Bool) = true ∧ dstMode = 3)) := by
            intro hc
            rcases hc with c | c
            · exact c1 (Or.inl c)
            · exact c1 (Or.inr c.2)
          rw [if_neg c1, if_neg c2, if_neg c2]
          by_cases c3 : dstMode = 1
          · rw [if_pos c3, if_pos c3, if_pos c3]
            push_cast
            ring
          · rw [if_neg c3, if_neg c3, if_neg c3]
      have e2 : (if srcMode = 0 then refDmaAddr false srcMode src width j + width
          else if srcMode = 1 then refDmaAddr false srcMode src width j - width
          else refDmaAddr false srcMode src width j)
          = refDmaAddr false srcMode src width (j + 1) := by
        unfold refDmaAddr
        by_cases c1 : srcMode = 0
        · have c2 : srcMode = 0 ∨ ((false : Bool) = true ∧ srcMode = 3) := Or.inl c1
          rw [if_pos c1, if_pos c2, if_pos c2]
          push_cast
          ring
        · have c2 : ¬ (srcMode = 0 ∨ ((false : Bool) = true ∧ srcMode = 3)) := by
            intro hc
            rcases hc with c | c
            · exact c1 c
            · exact absurd c.1 (by decide)
          rw [if_neg c1, if_neg c2, if_neg c2]
          by_cases c3 : srcMode = 1
          · rw [if_pos c3, if_pos c3, if_pos c3]
            push_cast
            ring
          · rw [if_neg c3, if_neg c3, if_neg c3]
      rw [e1, e2]
      exact ih (j + 1) t

theorem refDmaAddr_zero (isDst : Bool) (mode : Nat) (base width : Int) :
    refDmaAddr isDst mode base width 0 = base := by
  unfold refDmaAddr
  split
  · simp
  · split
    · simp
    · rfl

theorem clear_enable (m : AGBMemory) (r v : Nat) :
    (m.writeIOReg r (v &&& bnot32 DMACNTH_Enable)).readIOReg r &&& DMACNTH_Enable = 0 := by
  unfold AGBMemory.readIOReg AGBMemory.writeIOReg
  rw [loadLE2_storeLE2_same]
  apply Nat.eq_of_testBit_eq
  intro i
  have e : DMACNTH_Enable = 2 ^ 15 := by decide
  have e2 : bnot32 DMACNTH_Enable = 2 ^ 32 - (2 ^ 15 + 1) := by decide
  rw [e2, e, Nat.testBit_and, show (65536 : Nat) = 2 ^ 16 from rfl, Nat.testBit_mod_two_pow,
    Nat.testBit_and, Nat.testBit_two_pow_sub_succ (by decide), Nat.testBit_two_pow]
  by_cases h : 15 = i
  · subst h; simp
  · simp [h]

/-- C33: `dmaTransfer` for a channel whose count register holds `n` is the run of `n` unit
transfers of 2 or 4 bytes (per the width flag of the control word) in order; the `i`-th
reads from `src + i*width`, `src - i*width` or `src` (source mode 0, 1, otherwise), where
`src` is the masked source address aligned down to the width, and writes to
`dst + i*width`, `dst - i*width` or `dst` (destination mode 0 or 3, 1, 2).  When the run
completes, the enable bit of the control word is cleared unless its repeat flag is set.
On a machine with channel 3 set to copy two words from work RAM at 0x03000000 to
0x02000000, the transfer completes, the words arrive and the control word 0x8400 becomes
0x0400, while the control word 0x8600 (repeat) stays. -/
theorem C33_dma_transfer_is_n_unit_transfers (s : AGBCPU) (channel : Nat) :
    ((s.dmaTransfer channel).map Prod.snd =
        (refDmaRun
          (fun i u => dmaUnit (decide (s.mem.readIOReg (IO_DMA0CNT_H + channel * 12)
                &&& DMACNTH_32Bit ≠ 0))
            (refDmaAddr false
              ((s.mem.readIOReg (IO_DMA0CNT_H + channel * 12) &&& DMACNTH_SrcMode) >>> 7)
              ((((s.mem.readIOReg (IO_DMA0SAD + channel * 12)
                    ||| (s.mem.readIOReg (IO_DMA0SAD + channel * 12 + 2) <<< 16))
                  &&& (if channel ≠ 0 then 0xFFFFFFF else 0x7FFFFFF))
                &&& bnot32 ((if s.mem.readIOReg (IO_DMA0CNT_H + channel * 12)
                    &&& DMACNTH_32Bit ≠ 0 then 4 else 2) - 1) : Nat) : Int)
              ((if s.mem.readIOReg (IO_DMA0CNT_H + channel * 12)
                    &&& DMACNTH_32Bit ≠ 0 then 4 else 2 : Nat) : Int) i)
            (refDmaAddr true
              ((s.mem.readIOReg (IO_DMA0CNT_H + channel * 12) &&& DMACNTH_DestMode) >>> 5)
              (((s.mem.readIOReg (IO_DMA0DAD + channel * 12)
                    ||| (s.mem.readIOReg (IO_DMA0DAD + channel * 12 + 2) <<< 16))
                  &&& (if channel = 3 then 0xFFFFFFF else 0x7FFFFFF) : Nat) : Int)
              ((if s.mem.readIOReg (IO_DMA0CNT_H + channel * 12)
                    &&& DMACNTH_32Bit ≠ 0 then 4 else 2 : Nat) : Int) i) u)
          (s.mem.readIOReg (IO_DMA0CNT_L + channel * 12)) 0 s).map fun u =>
            if u.mem.readIOReg (IO_DMA0CNT_H + channel * 12) &&& DAMCNTH_Repeat = 0 then
              { u with mem := (u.mem.writeIOReg (IO_DMA0CNT_H + channel * 12)
                  (u.mem.readIOReg (IO_DMA0CNT_H + channel * 12) &&& bnot32 DMACNTH_Enable)) }
            else u) ∧
    (∀ x : Nat, x < 4294967296 →
      x &&& bnot32 (4 - 1) = x - x % 4 ∧ x &&& bnot32 (2 - 1) = x - x % 2) ∧
    (∀ (m : AGBMemory) (r v : Nat),
      (m.writeIOReg r (v &&& bnot32 DMACNTH_Enable)).readIOReg r &&& DMACNTH_Enable = 0) ∧
    ((dmaDemo.dmaTransfer 3).map fun r =>
      [loadLE r.2.mem.ewram 0 4, loadLE r.2.mem.ewram 4 4, r.2.mem.readIOReg 0xDE])
      = some [0x11223344, 0x55667788, 0x0400] ∧
    ((({ dmaDemo with mem := dmaDemo.mem.writeIOReg 0xDE 0x8600 } : AGBCPU).dmaTransfer 3).map
        fun r => [loadLE r.2.mem.ewram 0 4, loadLE r.2.mem.ewram 4 4, r.2.mem.readIOReg 0xDE])
      = some [0x11223344, 0x55667788, 0x8600] := by
  refine ⟨?_, fun x hx => ⟨and_bnot3 x hx, and_bnot1 x hx⟩, clear_enable, by decide, by decide⟩
  unfold dmaTransfer
  dsimp only
  have h := dmaLoop_eq_ref (decide (s.mem.readIOReg (IO_DMA0CNT_H + channel * 12)
                &&& DMACNTH_32Bit ≠ 0))
    ((s.mem.readIOReg (IO_DMA0CNT_H + channel * 12) &&& DMACNTH_DestMode) >>> 5)
    ((s.mem.readIOReg (IO_DMA0CNT_H + channel * 12) &&& DMACNTH_SrcMode) >>> 7)
    ((if s.mem.readIOReg (IO_DMA0CNT_H + channel * 12)
                    &&& DMACNTH_32Bit ≠ 0 then 4 else 2 : Nat) : Int)
    ((((s.mem.readIOReg (IO_DMA0SAD + channel * 12)
                    ||| (s.mem.readIOReg (IO_DMA0SAD + channel * 12 + 2) <<< 16))
                  &&& (if channel ≠ 0 then 0xFFFFFFF else 0x7FFFFFF))
                &&& bnot32 ((if s.mem.readIOReg (IO_DMA0CNT_H + channel * 12)
                    &&& DMACNTH_32Bit ≠ 0 then 4 else 2) - 1) : Nat) : Int)
    (((s.mem.readIOReg (IO_DMA0DAD + channel * 12)
                    ||| (s.mem.readIOReg (IO_DMA0DAD + channel * 12 + 2) <<< 16))
                  &&& (if channel = 3 then 0xFFFFFFF else 0x7FFFFFF) : Nat) : Int)
    (s.mem.readIOReg (IO_DMA0CNT_L + channel * 12)) 0 s
  rw [refDmaAddr_zero, refDmaAddr_zero] at h
  rw [← h]
  simp only [decide_eq_true_eq]
  generalize dmaLoop _ _ _ _ _ _ _ s = r
  cases r with
  | none => rfl
  | some u =>
    simp only [Option.map_some']
    split <;> rfl

/-- C33 at the source address 0x03000002 of a 32-bit transfer: aligned down to 0x03000000. -/
theorem C33_dma_transfer_witness :
    0x03000002 < 4294967296 ∧ 0x03000002 &&& bnot32 (4 - 1) = 0x03000002 - 0x03000002 % 4 :=
  ⟨by decide, ((C33_dma_transfer_is_n_unit_transfers dmaDemo 3).2.1 0x03000002 (by decide)).1⟩

end AGBCPU

end AGB
